import Mathlib

/-!
# go-docx: the hand-written XML decoders of `structdrawing.go` and `structlink.go`

A shallow embedding of the `UnmarshalXML` methods of the drawing and hyperlink
records, together with the part of Go's `strconv` and `encoding/xml` they run on.

* Go strings are Lean strings, `int64` and `int` are `Int` (a 64-bit platform is
  assumed, so `int` has the range of `int64`), a nilable pointer is an `Option`.
* A method with a pointer receiver is a function from the record and the decoder
  state to an `Outcome`: the record and the decoder as the call leaves them, and
  the returned `error` (`none` for `nil`).  The record is returned on failure too,
  since the Go caller keeps the pointer.
* `xml.Decoder` is the list of tokens its tokenizer will still produce plus the
  stack of open elements and end-of-element marks that `Decoder.Token`,
  `pushEOF` and `popEOF` maintain.
-/

set_option autoImplicit false

namespace Docx

/-! ## Errors -/

/-- The `error` values that can reach the decoders. -/
inductive Error where
  /-- The value `io.EOF`. -/
  | EOF
  /-- A `*strconv.NumError` whose `Err` is `strconv.ErrSyntax`. -/
  | ErrSyntax (fn : String) (num : String)
  /-- A `*strconv.NumError` whose `Err` is `strconv.ErrRange`. -/
  | ErrRange (fn : String) (num : String)
  /-- A `*xml.SyntaxError` raised by `Decoder.Token`. -/
  | SyntaxError (msg : String)
  /-- An `xml.UnmarshalError` raised by the reflective decoder. -/
  | UnmarshalError (msg : String)
  /-- The error `xml: T.UnmarshalXML did not consume entire <e> element`. -/
  | NotConsumed (typ : String) (elem : String)
  /-- An error of the underlying reader or tokenizer. -/
  | ReadError (msg : String)
  /-- Not a Go error: the iteration bound of a modelled loop was used up.
  The bound is the number of pending tokens plus one, and is never reached. -/
  | LoopBound
deriving DecidableEq, Repr, Inhabited

/-- Errors produced by `strconv`. -/
def Error.isNum : Error → Bool
  | .ErrSyntax _ _ => true
  | .ErrRange _ _ => true
  | _ => false

/-- Errors produced by reading a token: a syntax error of the XML text or an
error of the underlying reader. -/
def Error.isToken : Error → Bool
  | .SyntaxError _ => true
  | .ReadError _ => true
  | _ => false

/-! ## strconv -/

namespace strconv

/-- The constant `maxUint64`. -/
def maxUint64 : Nat := 2 ^ 64 - 1

/-- The function `lower(c)`: `c | ('x' - 'X')`. -/
def lower (c : Nat) : Nat := c ||| 32

/-- The digit loop of `strconv.ParseUint` for a base between 2 and 36 (no
underscores: they are accepted for base 0 only).  `n` is the accumulator, a
`uint64`; the result is the value and the kind of failure, `s0` the whole
argument for the error value. -/
def parseUintLoop (fn s0 : String) (base cutoff maxVal : Nat) :
    List Char → Nat → Nat × Option Error
  | [], n => (n, none)
  | c :: cs, n =>
    let c := c.toNat
    let digit : Option Nat :=
      if 48 ≤ c ∧ c ≤ 57 then some (c - 48)
      else if 97 ≤ lower c ∧ lower c ≤ 122 then some (lower c - 97 + 10)
      else none
    match digit with
    | none => (0, some (.ErrSyntax fn s0))
    | some dg =>
      if dg ≥ base then (0, some (.ErrSyntax fn s0))
      else if n ≥ cutoff then (maxVal, some (.ErrRange fn s0))
      else
        let n := (n * base) % 2 ^ 64
        let n1 := (n + dg) % 2 ^ 64
        if n1 < n ∨ n1 > maxVal then (maxVal, some (.ErrRange fn s0))
        else parseUintLoop fn s0 base cutoff maxVal cs n1

/-- The function `strconv.ParseUint(s, base, bitSize)` for `2 ≤ base ≤ 36`
(base 0, which detects a prefix, is not used by the program) and
`1 ≤ bitSize ≤ 64`, with `bitSize = 0` standing for `IntSize = 64`. -/
def ParseUint (s : String) (base bitSize : Nat) : Nat × Option Error :=
  if s = "" then (0, some (.ErrSyntax "ParseUint" s))
  else if base < 2 ∨ 36 < base then (0, some (.ErrSyntax "ParseUint" s))
  else
    let bitSize := if bitSize = 0 then 64 else bitSize
    let cutoff := maxUint64 / base + 1
    let maxVal := 2 ^ bitSize - 1
    parseUintLoop "ParseUint" s base cutoff maxVal s.data 0

/-- The function `strconv.ParseInt(s, base, bitSize)`.  On failure Go returns
a value along with the error (0 for a syntax error, the nearest bound for a
range error); both are kept. -/
def ParseInt (s : String) (base bitSize : Nat) : Int × Option Error :=
  if s = "" then (0, some (.ErrSyntax "ParseInt" s))
  else
    let neg := s.data.head? = some '-'
    let body : List Char :=
      if s.data.head? = some '+' ∨ s.data.head? = some '-' then s.data.tail else s.data
    let u := ParseUint (String.mk body) base bitSize
    match u.2 with
    | some (.ErrRange _ _) =>
      -- `un` is `maxVal`, which is at least `cutoff`
      let bitSize := if bitSize = 0 then 64 else bitSize
      let cutoff : Nat := 2 ^ (bitSize - 1)
      if neg then (-(cutoff : Int), some (.ErrRange "ParseInt" s))
      else ((cutoff : Int) - 1, some (.ErrRange "ParseInt" s))
    | some _ => (0, some (.ErrSyntax "ParseInt" s))
    | none =>
      let bitSize := if bitSize = 0 then 64 else bitSize
      let cutoff : Nat := 2 ^ (bitSize - 1)
      let un := u.1
      if ¬ neg ∧ un ≥ cutoff then ((cutoff : Int) - 1, some (.ErrRange "ParseInt" s))
      else if neg ∧ un > cutoff then (-(cutoff : Int), some (.ErrRange "ParseInt" s))
      else if neg then (-(un : Int), none) else ((un : Int), none)

/-- The function `strconv.Atoi(s)`: `ParseInt(s, 10, 0)` converted to `int`,
with the function name of the error replaced.  (Go's fast path for short
arguments computes the same value and fails on the same arguments.) -/
def Atoi (s : String) : Int × Option Error :=
  let r := ParseInt s 10 0
  match r.2 with
  | some (.ErrSyntax _ num) => (r.1, some (.ErrSyntax "Atoi" num))
  | some (.ErrRange _ num) => (r.1, some (.ErrRange "Atoi" num))
  | e => (r.1, e)

end strconv

/-! ## Decimal literals, as the specification words them -/

/-- One more decimal digit `c` after the digits of value `acc`; `none` when `c`
is not a decimal digit. -/
def decimalStep (acc : Option Nat) (c : Char) : Option Nat :=
  acc.bind fun n => if 48 ≤ c.toNat ∧ c.toNat ≤ 57 then some (n * 10 + (c.toNat - 48)) else none

/-- The value of a non-empty sequence of decimal digits, `none` when the
sequence is empty or holds another character. -/
def decimalNat : List Char → Option Nat
  | [] => none
  | cs => cs.foldl decimalStep (some 0)

/-- The integer a base-10 literal denotes: an optional sign followed by one
or more decimal digits. -/
def decimalInt (s : String) : Option Int :=
  match s.data with
  | '+' :: cs => (decimalNat cs).map fun n => (n : Int)
  | '-' :: cs => (decimalNat cs).map fun n => -(n : Int)
  | cs => (decimalNat cs).map fun n => (n : Int)

/-- The string `s` is the base-10 literal of the signed 64-bit integer `n`. -/
def IsInt64Literal (s : String) (n : Int) : Prop :=
  decimalInt s = some n ∧ -(2 : Int) ^ 63 ≤ n ∧ n < (2 : Int) ^ 63

/-! ## encoding/xml: tokens -/

/-- The type `xml.Name`: the name space (already translated from the prefix) and
the local name. -/
structure Name where
  Space : String := ""
  Local : String := ""
deriving DecidableEq, Repr, Inhabited

/-- The type `xml.Attr`. -/
structure Attr where
  Name : Name := {}
  Value : String := ""
deriving DecidableEq, Repr, Inhabited

/-- The type `xml.StartElement`. -/
structure StartElement where
  Name : Name := {}
  Attr : List Attr := []
deriving DecidableEq, Repr, Inhabited

/-- The type `xml.Token`. -/
inductive Token where
  | StartElement (se : Docx.StartElement)
  | EndElement (name : Name)
  | CharData (data : String)
  | Comment (data : String)
  | ProcInst (target : String) (inst : String)
  | Directive (data : String)
deriving DecidableEq, Repr, Inhabited

/-! ## encoding/xml: the decoder -/

/-- An entry of the decoder's stack `d.stk`: an open element (`stkStart`) or a
mark below an element telling `Token` to report `io.EOF` once that element is
closed (`stkEOF`).  Name-space entries (`stkNs`) sit below their element and
play no part in what follows; they are left out. -/
inductive Stack where
  | stkStart (name : Name)
  | stkEOF
deriving DecidableEq, Repr, Inhabited

/-- The state of an `xml.Decoder`.
* `toks`: the tokens the tokenizer will still produce, in order;
* `err`: the error the tokenizer reports once `toks` is used up (`d.err`),
  `none` for a clean end of input;
* `stk`: the stack of open elements and end-of-element marks, top first. -/
structure Decoder where
  toks : List Token := []
  err : Option Error := none
  stk : List Stack := []
deriving DecidableEq, Repr, Inhabited

/-- What a call leaves behind: the record, the decoder, the returned error. -/
structure Outcome (α : Type) where
  val : α
  dec : Decoder
  err : Option Error
deriving Repr

/-- The method `(*Decoder).Token` in strict mode.
* With an end-of-element mark on top of the stack it reports `io.EOF` and
  reads nothing.
* At the end of the input it reports the tokenizer's error, or `unexpected EOF`
  when elements are still open, or `io.EOF`.
* A start-element is pushed.  An end-element pops the top of the stack, which
  has to be the start-element of the same name; otherwise the error is
  recorded in `d.err` and every later read reports it. -/
def Decoder.Token (d : Decoder) : Decoder × Except Error Token :=
  if d.stk.head? = some .stkEOF then (d, .error .EOF)
  else
    match d.toks with
    | [] =>
      match d.err with
      | some e => (d, .error e)
      | none =>
        if d.stk = [] then (d, .error .EOF)
        else (d, .error (.SyntaxError "unexpected EOF"))
    | .StartElement se :: rest =>
      ({ d with toks := rest, stk := .stkStart se.Name :: d.stk }, .ok (.StartElement se))
    | .EndElement name :: rest =>
      match d.stk with
      | [] =>
        ({ toks := [], err := some (.SyntaxError "unexpected end element"), stk := [] },
          .error (.SyntaxError "unexpected end element"))
      | s :: below =>
        if s = .stkStart name then ({ d with toks := rest, stk := below }, .ok (.EndElement name))
        else
          ({ toks := [], err := some (.SyntaxError "element closed by another end element"),
             stk := below },
            .error (.SyntaxError "element closed by another end element"))
    | t :: rest => ({ d with toks := rest }, .ok t)

/-- The stack after `pushEOF`: a mark is put right below the topmost open
element.  (Go dereferences nil when no element is open; the decoders call it
only after `Token` returned a start-element.) -/
def pushEOFStack : List Stack → List Stack
  | [] => []
  | .stkStart n :: below => .stkStart n :: .stkEOF :: below
  | .stkEOF :: below => .stkEOF :: pushEOFStack below

/-- The method `(*Decoder).pushEOF`. -/
def Decoder.pushEOF (d : Decoder) : Decoder :=
  { d with stk := pushEOFStack d.stk }

/-- The method `(*Decoder).popEOF`: removes the mark when it is on top of the
stack and tells whether it did. -/
def Decoder.popEOF (d : Decoder) : Decoder × Bool :=
  match d.stk with
  | .stkEOF :: below => ({ d with stk := below }, true)
  | _ => (d, false)

/-- The method `(*Decoder).unmarshalInterface`, which `DecodeElement` runs for
a value whose type has an `UnmarshalXML` method `f`: the method runs between
`pushEOF` and `popEOF`, and has to leave the element fully read. -/
def Decoder.unmarshalInterface {α : Type} (typ : String)
    (f : α → Decoder → StartElement → Outcome α)
    (val : α) (d : Decoder) (start : StartElement) : Outcome α :=
  let o := f val d.pushEOF start
  match o.err with
  | some e => ⟨o.val, o.dec.popEOF.1, some e⟩
  | none =>
    if o.dec.popEOF.2 then ⟨o.val, o.dec.popEOF.1, none⟩
    else ⟨o.val, o.dec, some (.NotConsumed typ start.Name.Local)⟩

/-- The method `(*Decoder).DecodeElement(v, &start)` for a pointer `v` to a
value (or to a non-nil pointer to a value) of a type with an `UnmarshalXML`
method `f` on the pointer receiver. -/
def Decoder.DecodeElement {α : Type} (typ : String)
    (f : α → Decoder → StartElement → Outcome α)
    (val : α) (d : Decoder) (start : StartElement) : Outcome α :=
  d.unmarshalInterface typ f val start

/-- The loop of `(*Decoder).Skip`, `depth` counting the elements opened since. -/
def Decoder.skipLoop : Nat → Nat → Decoder → Decoder × Option Error
  | 0, _, d => (d, some .LoopBound)
  | fuel + 1, depth, d =>
    match d.Token with
    | (d1, .error e) => (d1, some e)
    | (d1, .ok (.StartElement _)) => skipLoop fuel (depth + 1) d1
    | (d1, .ok (.EndElement _)) =>
      if depth = 0 then (d1, none) else skipLoop fuel (depth - 1) d1
    | (d1, .ok _) => skipLoop fuel depth d1

/-- The method `(*Decoder).Skip`: reads up to the end-element matching the
start-element already consumed. -/
def Decoder.Skip (d : Decoder) : Decoder × Option Error :=
  d.skipLoop (d.toks.length + 1) 0

/-- The code points `unicode.IsSpace` accepts. -/
def isSpace (c : Char) : Bool :=
  let n := c.toNat
  (9 ≤ n ∧ n ≤ 13) ∨ n = 32 ∨ n = 0x85 ∨ n = 0xA0 ∨ n = 0x1680 ∨
    (0x2000 ≤ n ∧ n ≤ 0x200a) ∨ n = 0x2028 ∨ n = 0x2029 ∨ n = 0x202f ∨
    n = 0x205f ∨ n = 0x3000

/-- The function `strings.TrimSpace`. -/
def TrimSpace (s : String) : String :=
  String.mk ((s.data.dropWhile isSpace).reverse.dropWhile isSpace).reverse

/-- The function `copyValue(dst, src)` of encoding/xml for an integer `dst`:
empty data gives 0, other data is trimmed and parsed in base 10.  `none` in
the first component means that `dst` is left as it was. -/
def copyValueInt (src : String) (bitSize : Nat) : Option Int × Option Error :=
  if src = "" then (some 0, none)
  else
    match strconv.ParseInt (TrimSpace src) 10 bitSize with
    | (n, none) => (some n, none)
    | (_, some e) => (none, some e)

/-- The token loop of the reflective `(*Decoder).unmarshal` for a value without
element fields: nested elements are skipped, character data is collected when
`keep` is set, the loop ends at the end-element. -/
def Decoder.unmarshalLoop (keep : Bool) : Nat → String → Decoder → Decoder × Except Error String
  | 0, _, d => (d, .error .LoopBound)
  | fuel + 1, data, d =>
    match d.Token with
    | (d1, .error e) => (d1, .error e)
    | (d1, .ok (.StartElement _)) =>
      match d1.Skip with
      | (d2, some e) => (d2, .error e)
      | (d2, none) => unmarshalLoop keep fuel data d2
    | (d1, .ok (.EndElement _)) => (d1, .ok data)
    | (d1, .ok (.CharData s)) => unmarshalLoop keep fuel (if keep then data ++ s else data) d1
    | (d1, .ok _) => unmarshalLoop keep fuel data d1

/-- The method `DecodeElement(v, &start)` for `v` of type `*int64`: the
reflective decoder collects the character data of the element and hands it to
`copyValue`. -/
def Decoder.DecodeElementInt64 (val : Int) (d : Decoder) (_start : StartElement) : Outcome Int :=
  match d.unmarshalLoop true (d.toks.length + 1) "" with
  | (d1, .error e) => ⟨val, d1, some e⟩
  | (d1, .ok data) =>
    match copyValueInt data 64 with
    | (some n, none) => ⟨n, d1, none⟩
    | (_, some e) => ⟨val, d1, some e⟩
    | (none, none) => ⟨val, d1, none⟩

/-- Modelled from the spec: the helper `getAtt` of the repository, which is not
in the two source files: "the value of the attribute with the given local
name, or the empty string when there is none". -/
def getAtt (atts : List Attr) (name : String) : String :=
  match atts.find? (fun at_ => at_.Name.Local = name) with
  | some at_ => at_.Value
  | none => ""

/-! ## The shared decoding loop

Every `UnmarshalXML` method of the two files but `AAvLst` has the loop
```
for {
    t, err := d.Token()
    if err == io.EOF { break }
    if err != nil { return err }
    switch tt := t.(type) {
    case xml.StartElement:
        ... // the body, a switch on tt.Name.Local
    }
}
return nil
```
`tokenLoop` is that loop, parametrised by the body. -/

/-- How the body of the loop ends: by going on to the next iteration (falling
out of the switch or `continue`), or by `return err`. -/
inductive Step (α : Type) where
  | next (r : α) (d : Decoder)
  | ret (r : α) (d : Decoder) (e : Error)

/-- The decoding loop; the first argument bounds the number of iterations. -/
def tokenLoop {α : Type} (body : StartElement → α → Decoder → Step α) :
    Nat → α → Decoder → Outcome α
  | 0, r, d => ⟨r, d, some .LoopBound⟩
  | fuel + 1, r, d =>
    match d.Token with
    | (d1, .error .EOF) => ⟨r, d1, none⟩
    | (d1, .error e) => ⟨r, d1, some e⟩
    | (d1, .ok (.StartElement tt)) =>
      match body tt r d1 with
      | .next r2 d2 => tokenLoop body fuel r2 d2
      | .ret r2 d2 e => ⟨r2, d2, some e⟩
    | (d1, .ok _) => tokenLoop body fuel r d1

/-- The loop `for _, attr := range start.Attr { ... }` of the decoders whose
body can `return err`: the body gives the record and the error, and the loop
stops at the first error. -/
def attrLoop {α : Type} (body : Attr → α → α × Option Error) : List Attr → α → α × Option Error
  | [], r => (r, none)
  | attr :: rest, r =>
    match body attr r with
    | (r1, some e) => (r1, some e)
    | (r1, none) => attrLoop body rest r1

/-! ## The records -/

/-- The record `WPExtent` (wp:extent). -/
structure WPExtent where
  XMLName : Name := {}
  CX : Int := 0
  CY : Int := 0
deriving DecidableEq, Repr, Inhabited

/-- The record `WPEffectExtent` (wp:effectExtent). -/
structure WPEffectExtent where
  XMLName : Name := {}
  L : Int := 0
  T : Int := 0
  R : Int := 0
  B : Int := 0
deriving DecidableEq, Repr, Inhabited

/-- The record `WPDocPr` (wp:docPr). -/
structure WPDocPr where
  XMLName : Name := {}
  ID : Int := 0
  Name : String := ""
deriving DecidableEq, Repr, Inhabited

/-- The record `AGraphicFrameLocks`. -/
structure AGraphicFrameLocks where
  XMLName : Name := {}
  NoChangeAspect : Int := 0
deriving DecidableEq, Repr, Inhabited

/-- The record `WPCNvGraphicFramePr` (wp:cNvGraphicFramePr). -/
structure WPCNvGraphicFramePr where
  XMLName : Name := {}
  Locks : Option AGraphicFrameLocks := none
deriving DecidableEq, Repr, Inhabited

/-- The record `PICNonVisualDrawingProperties` (pic:cNvPr). -/
structure PICNonVisualDrawingProperties where
  XMLName : Name := {}
  ID : String := ""
  Name : String := ""
deriving DecidableEq, Repr, Inhabited

/-- The record `PICNonVisualPicProperties` (pic:nvPicPr); the field `CNvPicPr`
is an empty struct. -/
structure PICNonVisualPicProperties where
  XMLName : Name := {}
  NonVisualDrawingProperties : PICNonVisualDrawingProperties := {}
  CNvPicPr : Unit := ()
deriving DecidableEq, Repr, Inhabited

/-- The record `AAlphaModFix` (a:alphaModFix). -/
structure AAlphaModFix where
  XMLName : Name := {}
  Amount : Int := 0
deriving DecidableEq, Repr, Inhabited

/-- The record `ABlip` (a:blip). -/
structure ABlip where
  XMLName : Name := {}
  Embed : String := ""
  Cstate : String := ""
  AlphaModFix : Option AAlphaModFix := none
deriving DecidableEq, Repr, Inhabited

/-- The record `AFillRect` (a:fillRect). -/
structure AFillRect where
  XMLName : Name := {}
deriving DecidableEq, Repr, Inhabited

/-- The record `AStretch` (a:stretch). -/
structure AStretch where
  XMLName : Name := {}
  FillRect : AFillRect := {}
deriving DecidableEq, Repr, Inhabited

/-- The record `PICBlipFill` (pic:blipFill). -/
structure PICBlipFill where
  XMLName : Name := {}
  Blip : ABlip := {}
  Stretch : AStretch := {}
deriving DecidableEq, Repr, Inhabited

/-- The record `AOff` (a:off). -/
structure AOff where
  XMLName : Name := {}
  X : Int := 0
  Y : Int := 0
deriving DecidableEq, Repr, Inhabited

/-- The record `AExt` (a:ext). -/
structure AExt where
  XMLName : Name := {}
  CX : Int := 0
  CY : Int := 0
deriving DecidableEq, Repr, Inhabited

/-- The record `AXfrm` (a:xfrm). -/
structure AXfrm where
  XMLName : Name := {}
  Rot : Int := 0
  FlipH : Int := 0
  FlipV : Int := 0
  Off : AOff := {}
  Ext : AExt := {}
deriving DecidableEq, Repr, Inhabited

/-- The record `AAvLst` (a:avLst). -/
structure AAvLst where
  XMLName : Name := {}
  RawXML : String := ""
deriving DecidableEq, Repr, Inhabited

/-- The record `APrstGeom` (a:prstGeom). -/
structure APrstGeom where
  XMLName : Name := {}
  Prst : String := ""
  AvLst : AAvLst := {}
deriving DecidableEq, Repr, Inhabited

/-- The record `PICSpPr` (pic:spPr). -/
structure PICSpPr where
  XMLName : Name := {}
  Xfrm : AXfrm := {}
  PrstGeom : APrstGeom := {}
deriving DecidableEq, Repr, Inhabited

/-- The record `PICPic` (pic:pic). -/
structure PICPic where
  XMLName : Name := {}
  XMLPIC : String := ""
  NonVisualPicProperties : Option PICNonVisualPicProperties := none
  BlipFill : Option PICBlipFill := none
  SpPr : Option PICSpPr := none
deriving DecidableEq, Repr, Inhabited

/-- The record `AGraphicData` (a:graphicData). -/
structure AGraphicData where
  XMLName : Name := {}
  URI : String := ""
  Pic : Option PICPic := none
deriving DecidableEq, Repr, Inhabited

/-- The record `AGraphic` (a:graphic). -/
structure AGraphic where
  XMLName : Name := {}
  XMLA : String := ""
  GraphicData : Option AGraphicData := none
deriving DecidableEq, Repr, Inhabited

/-- The record `WPInline` (wp:inline). -/
structure WPInline where
  XMLName : Name := {}
  DistT : Int := 0
  DistB : Int := 0
  DistL : Int := 0
  DistR : Int := 0
  Extent : Option WPExtent := none
  EffectExtent : Option WPEffectExtent := none
  DocPr : Option WPDocPr := none
  CNvGraphicFramePr : Option WPCNvGraphicFramePr := none
  Graphic : Option AGraphic := none
deriving DecidableEq, Repr, Inhabited

/-- The record `WPSimplePos` (wp:simplePos). -/
structure WPSimplePos where
  XMLName : Name := {}
  X : Int := 0
  Y : Int := 0
deriving DecidableEq, Repr, Inhabited

/-- The record `WPPositionH` (wp:positionH). -/
structure WPPositionH where
  XMLName : Name := {}
  RelativeFrom : String := ""
  PosOffset : Int := 0
deriving DecidableEq, Repr, Inhabited

/-- The record `WPPositionV` (wp:positionV). -/
structure WPPositionV where
  XMLName : Name := {}
  RelativeFrom : String := ""
  PosOffset : Int := 0
deriving DecidableEq, Repr, Inhabited

/-- The record `WPWrapSquare` (wp:wrapSquare). -/
structure WPWrapSquare where
  XMLName : Name := {}
  WrapText : String := ""
deriving DecidableEq, Repr, Inhabited

/-- The record `WPAnchor` (wp:anchor); `WrapNone` points to an empty struct. -/
structure WPAnchor where
  XMLName : Name := {}
  DistT : Int := 0
  DistB : Int := 0
  DistL : Int := 0
  DistR : Int := 0
  SimplePos : Int := 0
  RelativeHeight : Int := 0
  BehindDoc : Int := 0
  Locked : Int := 0
  LayoutInCell : Int := 0
  AllowOverlap : Int := 0
  SimplePosXY : Option WPSimplePos := none
  PositionH : Option WPPositionH := none
  PositionV : Option WPPositionV := none
  Extent : Option WPExtent := none
  EffectExtent : Option WPEffectExtent := none
  WrapNone : Option Unit := none
  WrapSquare : Option WPWrapSquare := none
  DocPr : Option WPDocPr := none
  CNvGraphicFramePr : Option WPCNvGraphicFramePr := none
  Graphic : Option AGraphic := none
deriving DecidableEq, Repr, Inhabited

/-- The record `Drawing` (w:drawing). -/
structure Drawing where
  XMLName : Name := {}
  Inline : Option WPInline := none
  Anchor : Option WPAnchor := none
deriving DecidableEq, Repr, Inhabited

/-- The record `Hyperlink` (w:hyperlink); the type `Run` of the embedded run is
declared outside the two files and is a parameter. -/
structure Hyperlink (Run : Type) where
  XMLName : Name := {}
  ID : String := ""
  Run : Run

/-! ## The reflective decoder on the three records without `UnmarshalXML` -/

/-- The name space `XMLNS_DRAWINGML_MAIN`. -/
def XMLNS_DRAWINGML_MAIN : String := "http://schemas.openxmlformats.org/drawingml/2006/main"

/-- The attribute walk of the reflective decoder for `AGraphicFrameLocks`: the
field `NoChangeAspect` takes every attribute of local name `noChangeAspect`. -/
def AGraphicFrameLocks.attrs : List Attr → AGraphicFrameLocks → AGraphicFrameLocks × Option Error
  | [], r => (r, none)
  | a :: rest, r =>
    if a.Name.Local = "noChangeAspect" then
      match copyValueInt a.Value 64 with
      | (_, some e) => (r, some e)
      | (some n, none) => attrs rest { r with NoChangeAspect := n }
      | (none, none) => attrs rest r
    else attrs rest r

/-- The method `DecodeElement(v, &start)` for `v` of type `*AGraphicFrameLocks`,
a struct without `UnmarshalXML`: the reflective decoder checks the element
name and name space against the tag of `XMLName`, copies the attributes and
skips the content. -/
def Decoder.DecodeElementAGraphicFrameLocks (val : AGraphicFrameLocks) (d : Decoder)
    (start : StartElement) : Outcome AGraphicFrameLocks :=
  if start.Name.Local ≠ "graphicFrameLocks" then
    ⟨val, d, some (.UnmarshalError "expected element type <graphicFrameLocks>")⟩
  else if start.Name.Space ≠ XMLNS_DRAWINGML_MAIN then
    ⟨val, d, some (.UnmarshalError "expected element <graphicFrameLocks> in name space")⟩
  else
    match AGraphicFrameLocks.attrs start.Attr { val with XMLName := start.Name } with
    | (r1, some e) => ⟨r1, d, some e⟩
    | (r1, none) =>
      match d.unmarshalLoop false (d.toks.length + 1) "" with
      | (d1, .error e) => ⟨r1, d1, some e⟩
      | (d1, .ok _) => ⟨r1, d1, none⟩

/-- The method `DecodeElement(v, &start)` for `v` of type `*AStretch`, a struct
without `UnmarshalXML`.  The tag of `XMLName` names the element `a:stretch`
and the reflective decoder compares that with the local name, so that at the
call site, where the local name is `stretch`, the call fails before it reads
anything.  The content of a matching element would be skipped: the field
`FillRect` answers to the local name `a:fillRect`. -/
def Decoder.DecodeElementAStretch (val : AStretch) (d : Decoder)
    (start : StartElement) : Outcome AStretch :=
  if start.Name.Local ≠ "a:stretch" then
    ⟨val, d, some (.UnmarshalError "expected element type <a:stretch>")⟩
  else
    match d.unmarshalLoop false (d.toks.length + 1) "" with
    | (d1, .error e) => ⟨{ val with XMLName := start.Name }, d1, some e⟩
    | (d1, .ok _) => ⟨{ val with XMLName := start.Name }, d1, none⟩

/-- The attribute walk of the reflective decoder for `APrstGeom`. -/
def APrstGeom.attrs : List Attr → APrstGeom → APrstGeom
  | [], r => r
  | a :: rest, r =>
    if a.Name.Local = "prst" then attrs rest { r with Prst := a.Value } else attrs rest r

/-- The method `DecodeElement(v, &start)` for `v` of type `*APrstGeom`, a struct
without `UnmarshalXML`; as for `AStretch`, the tag of `XMLName` is
`a:prstGeom` and the call fails at once for an element of local name
`prstGeom`.  The content of a matching element would be skipped: the field
`AvLst` answers to the local name `a:avLst`. -/
def Decoder.DecodeElementAPrstGeom (val : APrstGeom) (d : Decoder)
    (start : StartElement) : Outcome APrstGeom :=
  if start.Name.Local ≠ "a:prstGeom" then
    ⟨val, d, some (.UnmarshalError "expected element type <a:prstGeom>")⟩
  else
    match d.unmarshalLoop false (d.toks.length + 1) "" with
    | (d1, .error e) => ⟨APrstGeom.attrs start.Attr { val with XMLName := start.Name }, d1, some e⟩
    | (d1, .ok _) => ⟨APrstGeom.attrs start.Attr { val with XMLName := start.Name }, d1, none⟩

/-! ## structdrawing.go: the leaf decoders -/

/-- The body of the attribute loop of `WPExtent.UnmarshalXML`: a field takes the
value `strconv` returns, also when the error is returned. -/
def WPExtent.attr (attr : Attr) (r : WPExtent) : WPExtent × Option Error :=
  if attr.Name.Local = "cx" then
    let p := strconv.ParseInt attr.Value 10 64
    ({ r with CX := p.1 }, p.2)
  else if attr.Name.Local = "cy" then
    let p := strconv.ParseInt attr.Value 10 64
    ({ r with CY := p.1 }, p.2)
  else (r, none)

/-- The method `(*WPExtent).UnmarshalXML`. -/
def WPExtent.UnmarshalXML (r : WPExtent) (d : Decoder) (start : StartElement) :
    Outcome WPExtent :=
  match attrLoop WPExtent.attr start.Attr r with
  | (r1, some e) => ⟨r1, d, some e⟩
  | (r1, none) =>
    -- Consume the end element
    match d.Token with
    | (d1, .error e) => ⟨r1, d1, some e⟩
    | (d1, .ok _) => ⟨r1, d1, none⟩

/-- The body of the attribute loop of `WPEffectExtent.UnmarshalXML`: a field takes the
value `strconv` returns, also when the error is returned. -/
def WPEffectExtent.attr (attr : Attr) (r : WPEffectExtent) : WPEffectExtent × Option Error :=
  if attr.Name.Local = "l" then
    let p := strconv.ParseInt attr.Value 10 64
    ({ r with L := p.1 }, p.2)
  else if attr.Name.Local = "t" then
    let p := strconv.ParseInt attr.Value 10 64
    ({ r with T := p.1 }, p.2)
  else if attr.Name.Local = "r" then
    let p := strconv.ParseInt attr.Value 10 64
    ({ r with R := p.1 }, p.2)
  else if attr.Name.Local = "b" then
    let p := strconv.ParseInt attr.Value 10 64
    ({ r with B := p.1 }, p.2)
  else (r, none)

/-- The method `(*WPEffectExtent).UnmarshalXML`. -/
def WPEffectExtent.UnmarshalXML (r : WPEffectExtent) (d : Decoder) (start : StartElement) :
    Outcome WPEffectExtent :=
  match attrLoop WPEffectExtent.attr start.Attr r with
  | (r1, some e) => ⟨r1, d, some e⟩
  | (r1, none) =>
    -- Consume the end element
    match d.Token with
    | (d1, .error e) => ⟨r1, d1, some e⟩
    | (d1, .ok _) => ⟨r1, d1, none⟩

/-- The body of the attribute loop of `WPDocPr.UnmarshalXML`: a field takes the
value `strconv` returns, also when the error is returned.  A failed
`Atoi` of `id` leaves `ID` as it was. -/
def WPDocPr.attr (attr : Attr) (r : WPDocPr) : WPDocPr × Option Error :=
  if attr.Name.Local = "id" then
    let p := strconv.Atoi attr.Value
    match p.2 with
    | some e => (r, some e)
    | none => ({ r with ID := p.1 }, none)
  else if attr.Name.Local = "name" then
    ({ r with Name := attr.Value }, none)
  else (r, none)

/-- The method `(*WPDocPr).UnmarshalXML`. -/
def WPDocPr.UnmarshalXML (r : WPDocPr) (d : Decoder) (start : StartElement) :
    Outcome WPDocPr :=
  match attrLoop WPDocPr.attr start.Attr r with
  | (r1, some e) => ⟨r1, d, some e⟩
  | (r1, none) =>
    -- Consume the end element
    match d.Token with
    | (d1, .error e) => ⟨r1, d1, some e⟩
    | (d1, .ok _) => ⟨r1, d1, none⟩

/-- The body of the loop of `WPCNvGraphicFramePr.UnmarshalXML`: the error of
the nested `DecodeElement` is dropped, the one of `Atoi` is returned. -/
def WPCNvGraphicFramePr.body (tt : StartElement) (w : WPCNvGraphicFramePr) (d : Decoder) :
    Step WPCNvGraphicFramePr :=
  if tt.Name.Local = "graphicFrameLocks" then
    let o := d.DecodeElementAGraphicFrameLocks {} tt
    match strconv.Atoi (getAtt tt.Attr "noChangeAspect") with
    | (_, some e) => .ret w o.dec e
    | (n, none) => .next { w with Locks := some { o.val with NoChangeAspect := n } } o.dec
  else .next w d

/-- The method `(*WPCNvGraphicFramePr).UnmarshalXML`. -/
def WPCNvGraphicFramePr.UnmarshalXML (w : WPCNvGraphicFramePr) (d : Decoder)
    (_start : StartElement) : Outcome WPCNvGraphicFramePr :=
  tokenLoop WPCNvGraphicFramePr.body (d.toks.length + 1) w d

/-! ## structdrawing.go: the graphic payload chain -/

/-- The body of the loop of `PICNonVisualPicProperties.UnmarshalXML`. -/
def PICNonVisualPicProperties.body (tt : StartElement) (p : PICNonVisualPicProperties)
    (d : Decoder) : Step PICNonVisualPicProperties :=
  if tt.Name.Local = "cNvPr" then
    .next { p with NonVisualDrawingProperties :=
              { p.NonVisualDrawingProperties with
                ID := getAtt tt.Attr "id", Name := getAtt tt.Attr "name" } } d
  else .next p d

/-- The method `(*PICNonVisualPicProperties).UnmarshalXML`. -/
def PICNonVisualPicProperties.UnmarshalXML (p : PICNonVisualPicProperties) (d : Decoder)
    (_start : StartElement) : Outcome PICNonVisualPicProperties :=
  tokenLoop PICNonVisualPicProperties.body (d.toks.length + 1) p d

/-- The attribute loop of `ABlip.UnmarshalXML`. -/
def ABlip.attrs : List Attr → ABlip → ABlip
  | [], a => a
  | attr :: rest, a =>
    if attr.Name.Local = "embed" then attrs rest { a with Embed := attr.Value }
    else if attr.Name.Local = "cstate" then attrs rest { a with Cstate := attr.Value }
    else attrs rest a

/-- The body of the loop of `ABlip.UnmarshalXML`. -/
def ABlip.body (tt : StartElement) (a : ABlip) (d : Decoder) : Step ABlip :=
  if tt.Name.Local = "alphaModFix" then
    match strconv.Atoi (getAtt tt.Attr "amt") with
    | (_, some e) => .ret a d e
    | (n, none) => .next { a with AlphaModFix := some { Amount := n } } d
  else .next a d

/-- The method `(*ABlip).UnmarshalXML`. -/
def ABlip.UnmarshalXML (a : ABlip) (d : Decoder) (start : StartElement) : Outcome ABlip :=
  tokenLoop ABlip.body (d.toks.length + 1) (ABlip.attrs start.Attr a) d

/-- The body of the loop of `PICBlipFill.UnmarshalXML`; both nested results
are dropped. -/
def PICBlipFill.body (tt : StartElement) (p : PICBlipFill) (d : Decoder) : Step PICBlipFill :=
  if tt.Name.Local = "blip" then
    let o := d.DecodeElement "*docxlib.ABlip" ABlip.UnmarshalXML p.Blip tt
    .next { p with Blip := o.val } o.dec
  else if tt.Name.Local = "stretch" then
    let o := d.DecodeElementAStretch p.Stretch tt
    .next { p with Stretch := o.val } o.dec
  else .next p d

/-- The method `(*PICBlipFill).UnmarshalXML`. -/
def PICBlipFill.UnmarshalXML (p : PICBlipFill) (d : Decoder) (_start : StartElement) :
    Outcome PICBlipFill :=
  tokenLoop PICBlipFill.body (d.toks.length + 1) p d

/-- The body of the attribute loop of `AXfrm.UnmarshalXML`: a field takes the
value `strconv` returns, also when the error is returned. -/
def AXfrm.attr (attr : Attr) (a : AXfrm) : AXfrm × Option Error :=
  if attr.Name.Local = "rot" then
    let p := strconv.ParseInt attr.Value 10 64
    ({ a with Rot := p.1 }, p.2)
  else if attr.Name.Local = "flipH" then
    let p := strconv.Atoi attr.Value
    ({ a with FlipH := p.1 }, p.2)
  else if attr.Name.Local = "flipV" then
    let p := strconv.Atoi attr.Value
    ({ a with FlipV := p.1 }, p.2)
  else (a, none)

/-- The body of the loop of `AXfrm.UnmarshalXML`. -/
def AXfrm.body (tt : StartElement) (a : AXfrm) (d : Decoder) : Step AXfrm :=
  if tt.Name.Local = "off" then
    match strconv.ParseInt (getAtt tt.Attr "x") 10 64 with
    | (x, some e) => .ret { a with Off := { a.Off with X := x } } d e
    | (x, none) =>
      match strconv.ParseInt (getAtt tt.Attr "y") 10 64 with
      | (y, some e) => .ret { a with Off := { a.Off with X := x, Y := y } } d e
      | (y, none) => .next { a with Off := { a.Off with X := x, Y := y } } d
  else if tt.Name.Local = "ext" then
    match strconv.ParseInt (getAtt tt.Attr "cx") 10 64 with
    | (cx, some e) => .ret { a with Ext := { a.Ext with CX := cx } } d e
    | (cx, none) =>
      match strconv.ParseInt (getAtt tt.Attr "cy") 10 64 with
      | (cy, some e) => .ret { a with Ext := { a.Ext with CX := cx, CY := cy } } d e
      | (cy, none) => .next { a with Ext := { a.Ext with CX := cx, CY := cy } } d
  else .next a d

/-- The method `(*AXfrm).UnmarshalXML`. -/
def AXfrm.UnmarshalXML (a : AXfrm) (d : Decoder) (start : StartElement) : Outcome AXfrm :=
  match attrLoop AXfrm.attr start.Attr a with
  | (a1, some e) => ⟨a1, d, some e⟩
  | (a1, none) => tokenLoop AXfrm.body (d.toks.length + 1) a1 d

/-- The body of the loop of `PICSpPr.UnmarshalXML`; both nested results are
dropped, and `prst` is copied after the nested call. -/
def PICSpPr.body (tt : StartElement) (p : PICSpPr) (d : Decoder) : Step PICSpPr :=
  if tt.Name.Local = "xfrm" then
    let o := d.DecodeElement "*docxlib.AXfrm" AXfrm.UnmarshalXML p.Xfrm tt
    .next { p with Xfrm := o.val } o.dec
  else if tt.Name.Local = "prstGeom" then
    let o := d.DecodeElementAPrstGeom p.PrstGeom tt
    .next { p with PrstGeom := { o.val with Prst := getAtt tt.Attr "prst" } } o.dec
  else .next p d

/-- The method `(*PICSpPr).UnmarshalXML`. -/
def PICSpPr.UnmarshalXML (p : PICSpPr) (d : Decoder) (_start : StartElement) :
    Outcome PICSpPr :=
  tokenLoop PICSpPr.body (d.toks.length + 1) p d

/-- The body of the loop of `PICPic.UnmarshalXML`. -/
def PICPic.body (tt : StartElement) (p : PICPic) (d : Decoder) : Step PICPic :=
  if tt.Name.Local = "nvPicPr" then
    let o := d.DecodeElement "*docxlib.PICNonVisualPicProperties"
      PICNonVisualPicProperties.UnmarshalXML {} tt
    .next { p with NonVisualPicProperties := some o.val } o.dec
  else if tt.Name.Local = "blipFill" then
    let o := d.DecodeElement "*docxlib.PICBlipFill" PICBlipFill.UnmarshalXML {} tt
    .next { p with BlipFill := some o.val } o.dec
  else if tt.Name.Local = "spPr" then
    let o := d.DecodeElement "*docxlib.PICSpPr" PICSpPr.UnmarshalXML {} tt
    .next { p with SpPr := some o.val } o.dec
  else .next p d

/-- The method `(*PICPic).UnmarshalXML`. -/
def PICPic.UnmarshalXML (p : PICPic) (d : Decoder) (_start : StartElement) : Outcome PICPic :=
  tokenLoop PICPic.body (d.toks.length + 1) p d

/-- The body of the loop of `AGraphicData.UnmarshalXML`. -/
def AGraphicData.body (tt : StartElement) (a : AGraphicData) (d : Decoder) :
    Step AGraphicData :=
  if tt.Name.Local = "pic" then
    let o := d.DecodeElement "*docxlib.PICPic" PICPic.UnmarshalXML {} tt
    .next { a with Pic := some { o.val with XMLPIC := getAtt tt.Attr "pic" } } o.dec
  else .next a d

/-- The method `(*AGraphicData).UnmarshalXML`. -/
def AGraphicData.UnmarshalXML (a : AGraphicData) (d : Decoder) (_start : StartElement) :
    Outcome AGraphicData :=
  tokenLoop AGraphicData.body (d.toks.length + 1) a d

/-- The attribute loop of `AGraphic.UnmarshalXML`. -/
def AGraphic.attrs : List Attr → AGraphic → AGraphic
  | [], a => a
  | attr :: rest, a =>
    if attr.Name.Local = "a" then attrs rest { a with XMLA := attr.Value } else attrs rest a

/-- The body of the loop of `AGraphic.UnmarshalXML`: `uri` is copied from the
start-element after the nested call, whose error is dropped. -/
def AGraphic.body (tt : StartElement) (a : AGraphic) (d : Decoder) : Step AGraphic :=
  if tt.Name.Local = "graphicData" then
    let o := d.DecodeElement "*docxlib.AGraphicData" AGraphicData.UnmarshalXML {} tt
    .next { a with GraphicData := some { o.val with URI := getAtt tt.Attr "uri" } } o.dec
  else .next a d

/-- The method `(*AGraphic).UnmarshalXML`. -/
def AGraphic.UnmarshalXML (a : AGraphic) (d : Decoder) (start : StartElement) :
    Outcome AGraphic :=
  tokenLoop AGraphic.body (d.toks.length + 1) (AGraphic.attrs start.Attr a) d

/-! ## structdrawing.go: positions -/

/-- The attribute loop of `WPPositionH.UnmarshalXML`. -/
def WPPositionH.attrs : List Attr → WPPositionH → WPPositionH
  | [], r => r
  | attr :: rest, r =>
    if attr.Name.Local = "relativeFrom" then attrs rest { r with RelativeFrom := attr.Value }
    else attrs rest r

/-- The body of the loop of `WPPositionH.UnmarshalXML`; here the error of the
nested `DecodeElement` is returned. -/
def WPPositionH.body (tt : StartElement) (r : WPPositionH) (d : Decoder) : Step WPPositionH :=
  if tt.Name.Local = "posOffset" then
    let o := d.DecodeElementInt64 r.PosOffset tt
    match o.err with
    | some e => .ret { r with PosOffset := o.val } o.dec e
    | none => .next { r with PosOffset := o.val } o.dec
  else .next r d

/-- The method `(*WPPositionH).UnmarshalXML`. -/
def WPPositionH.UnmarshalXML (r : WPPositionH) (d : Decoder) (start : StartElement) :
    Outcome WPPositionH :=
  tokenLoop WPPositionH.body (d.toks.length + 1) (WPPositionH.attrs start.Attr r) d

/-- The attribute loop of `WPPositionV.UnmarshalXML`. -/
def WPPositionV.attrs : List Attr → WPPositionV → WPPositionV
  | [], r => r
  | attr :: rest, r =>
    if attr.Name.Local = "relativeFrom" then attrs rest { r with RelativeFrom := attr.Value }
    else attrs rest r

/-- The body of the loop of `WPPositionV.UnmarshalXML`. -/
def WPPositionV.body (tt : StartElement) (r : WPPositionV) (d : Decoder) : Step WPPositionV :=
  if tt.Name.Local = "posOffset" then
    let o := d.DecodeElementInt64 r.PosOffset tt
    match o.err with
    | some e => .ret { r with PosOffset := o.val } o.dec e
    | none => .next { r with PosOffset := o.val } o.dec
  else .next r d

/-- The method `(*WPPositionV).UnmarshalXML`. -/
def WPPositionV.UnmarshalXML (r : WPPositionV) (d : Decoder) (start : StartElement) :
    Outcome WPPositionV :=
  tokenLoop WPPositionV.body (d.toks.length + 1) (WPPositionV.attrs start.Attr r) d

/-! ## structdrawing.go: the inline and anchor frames, the drawing -/

/-- The body of the attribute loop of `WPInline.UnmarshalXML`: a field takes the
value `strconv` returns, also when the error is returned. -/
def WPInline.attr (attr : Attr) (r : WPInline) : WPInline × Option Error :=
  if attr.Name.Local = "distT" then
    let p := strconv.ParseInt attr.Value 10 64
    ({ r with DistT := p.1 }, p.2)
  else if attr.Name.Local = "distB" then
    let p := strconv.ParseInt attr.Value 10 64
    ({ r with DistB := p.1 }, p.2)
  else if attr.Name.Local = "distL" then
    let p := strconv.ParseInt attr.Value 10 64
    ({ r with DistL := p.1 }, p.2)
  else if attr.Name.Local = "distR" then
    let p := strconv.ParseInt attr.Value 10 64
    ({ r with DistR := p.1 }, p.2)
  else (r, none)

/-- The body of the loop of `WPInline.UnmarshalXML`: `extent` and
`effectExtent` are read in place and their errors returned; the results of
the three nested `DecodeElement` calls are dropped. -/
def WPInline.body (tt : StartElement) (r : WPInline) (d : Decoder) : Step WPInline :=
  if tt.Name.Local = "extent" then
    match strconv.ParseInt (getAtt tt.Attr "cx") 10 64 with
    | (cx, some e) => .ret { r with Extent := some { CX := cx } } d e
    | (cx, none) =>
      match strconv.ParseInt (getAtt tt.Attr "cy") 10 64 with
      | (cy, some e) => .ret { r with Extent := some { CX := cx, CY := cy } } d e
      | (cy, none) => .next { r with Extent := some { CX := cx, CY := cy } } d
  else if tt.Name.Local = "effectExtent" then
    match strconv.ParseInt (getAtt tt.Attr "l") 10 64 with
    | (l, some e) => .ret { r with EffectExtent := some { L := l } } d e
    | (l, none) =>
      match strconv.ParseInt (getAtt tt.Attr "t") 10 64 with
      | (t, some e) => .ret { r with EffectExtent := some { L := l, T := t } } d e
      | (t, none) =>
        match strconv.ParseInt (getAtt tt.Attr "r") 10 64 with
        | (rr, some e) => .ret { r with EffectExtent := some { L := l, T := t, R := rr } } d e
        | (rr, none) =>
          match strconv.ParseInt (getAtt tt.Attr "b") 10 64 with
          | (b, some e) =>
            .ret { r with EffectExtent := some { L := l, T := t, R := rr, B := b } } d e
          | (b, none) =>
            .next { r with EffectExtent := some { L := l, T := t, R := rr, B := b } } d
  else if tt.Name.Local = "docPr" then
    let o := d.DecodeElement "*docxlib.WPDocPr" WPDocPr.UnmarshalXML {} tt
    .next { r with DocPr := some o.val } o.dec
  else if tt.Name.Local = "cNvGraphicFramePr" then
    let o := d.DecodeElement "*docxlib.WPCNvGraphicFramePr" WPCNvGraphicFramePr.UnmarshalXML {} tt
    .next { r with CNvGraphicFramePr := some o.val } o.dec
  else if tt.Name.Local = "graphic" then
    let o := d.DecodeElement "*docxlib.AGraphic" AGraphic.UnmarshalXML {} tt
    .next { r with Graphic := some o.val } o.dec
  else .next r d

/-- The method `(*WPInline).UnmarshalXML`. -/
def WPInline.UnmarshalXML (r : WPInline) (d : Decoder) (start : StartElement) :
    Outcome WPInline :=
  match attrLoop WPInline.attr start.Attr r with
  | (r1, some e) => ⟨r1, d, some e⟩
  | (r1, none) => tokenLoop WPInline.body (d.toks.length + 1) r1 d

/-- The body of the attribute loop of `WPAnchor.UnmarshalXML`: a field takes the
value `strconv` returns, also when the error is returned. -/
def WPAnchor.attr (tt : Attr) (r : WPAnchor) : WPAnchor × Option Error :=
  if tt.Name.Local = "distT" then
    let p := strconv.ParseInt tt.Value 10 64
    ({ r with DistT := p.1 }, p.2)
  else if tt.Name.Local = "distB" then
    let p := strconv.ParseInt tt.Value 10 64
    ({ r with DistB := p.1 }, p.2)
  else if tt.Name.Local = "distL" then
    let p := strconv.ParseInt tt.Value 10 64
    ({ r with DistL := p.1 }, p.2)
  else if tt.Name.Local = "distR" then
    let p := strconv.ParseInt tt.Value 10 64
    ({ r with DistR := p.1 }, p.2)
  else if tt.Name.Local = "simplePos" then
    let p := strconv.Atoi tt.Value
    ({ r with SimplePos := p.1 }, p.2)
  else if tt.Name.Local = "relativeHeight" then
    let p := strconv.Atoi tt.Value
    ({ r with RelativeHeight := p.1 }, p.2)
  else if tt.Name.Local = "behindDoc" then
    let p := strconv.Atoi tt.Value
    ({ r with BehindDoc := p.1 }, p.2)
  else if tt.Name.Local = "locked" then
    let p := strconv.Atoi tt.Value
    ({ r with Locked := p.1 }, p.2)
  else if tt.Name.Local = "layoutInCell" then
    let p := strconv.Atoi tt.Value
    ({ r with LayoutInCell := p.1 }, p.2)
  else if tt.Name.Local = "allowOverlap" then
    let p := strconv.Atoi tt.Value
    ({ r with AllowOverlap := p.1 }, p.2)
  else (r, none)

/-- The body of the loop of `WPAnchor.UnmarshalXML`: `simplePos` is read in
place and its errors returned; the results of the seven nested
`DecodeElement` calls are dropped; `wrapNone` and `wrapSquare` read no
token. -/
def WPAnchor.body (tt : StartElement) (r : WPAnchor) (d : Decoder) : Step WPAnchor :=
  if tt.Name.Local = "simplePos" then
    match strconv.ParseInt (getAtt tt.Attr "x") 10 64 with
    | (x, some e) => .ret { r with SimplePosXY := some { X := x } } d e
    | (x, none) =>
      match strconv.ParseInt (getAtt tt.Attr "y") 10 64 with
      | (y, some e) => .ret { r with SimplePosXY := some { X := x, Y := y } } d e
      | (y, none) => .next { r with SimplePosXY := some { X := x, Y := y } } d
  else if tt.Name.Local = "positionH" then
    let o := d.DecodeElement "*docxlib.WPPositionH" WPPositionH.UnmarshalXML {} tt
    .next { r with PositionH := some o.val } o.dec
  else if tt.Name.Local = "positionV" then
    let o := d.DecodeElement "*docxlib.WPPositionV" WPPositionV.UnmarshalXML {} tt
    .next { r with PositionV := some o.val } o.dec
  else if tt.Name.Local = "extent" then
    let o := d.DecodeElement "*docxlib.WPExtent" WPExtent.UnmarshalXML {} tt
    .next { r with Extent := some o.val } o.dec
  else if tt.Name.Local = "effectExtent" then
    let o := d.DecodeElement "*docxlib.WPEffectExtent" WPEffectExtent.UnmarshalXML {} tt
    .next { r with EffectExtent := some o.val } o.dec
  else if tt.Name.Local = "wrapNone" then
    .next { r with WrapNone := some () } d
  else if tt.Name.Local = "wrapSquare" then
    .next { r with WrapSquare := some { WrapText := getAtt tt.Attr "wrapText" } } d
  else if tt.Name.Local = "docPr" then
    let o := d.DecodeElement "*docxlib.WPDocPr" WPDocPr.UnmarshalXML {} tt
    .next { r with DocPr := some o.val } o.dec
  else if tt.Name.Local = "cNvGraphicFramePr" then
    let o := d.DecodeElement "*docxlib.WPCNvGraphicFramePr" WPCNvGraphicFramePr.UnmarshalXML {} tt
    .next { r with CNvGraphicFramePr := some o.val } o.dec
  else if tt.Name.Local = "graphic" then
    let o := d.DecodeElement "*docxlib.AGraphic" AGraphic.UnmarshalXML {} tt
    .next { r with Graphic := some o.val } o.dec
  else .next r d

/-- The method `(*WPAnchor).UnmarshalXML`. -/
def WPAnchor.UnmarshalXML (r : WPAnchor) (d : Decoder) (start : StartElement) :
    Outcome WPAnchor :=
  match attrLoop WPAnchor.attr start.Attr r with
  | (r1, some e) => ⟨r1, d, some e⟩
  | (r1, none) => tokenLoop WPAnchor.body (d.toks.length + 1) r1 d

/-- The body of the loop of `Drawing.UnmarshalXML`; both nested results are
dropped. -/
def Drawing.body (tt : StartElement) (r : Drawing) (d : Decoder) : Step Drawing :=
  if tt.Name.Local = "inline" then
    let o := d.DecodeElement "*docxlib.WPInline" WPInline.UnmarshalXML {} tt
    .next { r with Inline := some o.val } o.dec
  else if tt.Name.Local = "anchor" then
    let o := d.DecodeElement "*docxlib.WPAnchor" WPAnchor.UnmarshalXML {} tt
    .next { r with Anchor := some o.val } o.dec
  else .next r d

/-- The method `(*Drawing).UnmarshalXML`. -/
def Drawing.UnmarshalXML (r : Drawing) (d : Decoder) (_start : StartElement) :
    Outcome Drawing :=
  tokenLoop Drawing.body (d.toks.length + 1) r d

/-! ## structlink.go -/

/-- The body of the loop of `Hyperlink.UnmarshalXML`.  The method
`(*Run).UnmarshalXML` is declared outside the two files and is the parameter
`runUnmarshalXML`; its error is dropped. -/
def Hyperlink.body {Run : Type} (runUnmarshalXML : Run → Decoder → StartElement → Outcome Run)
    (tt : StartElement) (r : Hyperlink Run) (d : Decoder) : Step (Hyperlink Run) :=
  if tt.Name.Local = "r" then
    let o := d.DecodeElement "*docxlib.Run" runUnmarshalXML r.Run tt
    .next { r with Run := o.val } o.dec
  else .next r d

/-- The method `(*Hyperlink).UnmarshalXML`; the attributes of `start` are not
read. -/
def Hyperlink.UnmarshalXML {Run : Type}
    (runUnmarshalXML : Run → Decoder → StartElement → Outcome Run)
    (r : Hyperlink Run) (d : Decoder) (_start : StartElement) : Outcome (Hyperlink Run) :=
  tokenLoop (Hyperlink.body runUnmarshalXML) (d.toks.length + 1) r d

/-! ## Notions used to state the properties -/

/-- The record a step of the loop leaves. -/
def Step.val {α : Type} : Step α → α
  | .next r _ => r
  | .ret r _ _ => r

/-- The decoder a step of the loop leaves. -/
def Step.dec {α : Type} : Step α → Decoder
  | .next _ d => d
  | .ret _ d _ => d

/-- The tokenizer reports token errors only: the error stored in the decoder
is a syntax error or an error of the underlying reader. -/
def Decoder.TokErr (d : Decoder) : Prop :=
  ∀ e, d.err = some e → e.isToken = true

/-- The decoder `d2` comes after `d1`: its pending tokens are a final segment
of those of `d1`, and its stored error is a token error if that of `d1` is. -/
def Decoder.Reach (d1 d2 : Decoder) : Prop :=
  d2.toks <:+ d1.toks ∧ (d1.TokErr → d2.TokErr)

/-- The token is a start-element of local name `name`. -/
def Token.isStart (name : String) : Token → Bool
  | .StartElement se => se.Name.Local = name
  | _ => false

/-- The tokens `ts`, read with the elements `opened` open (innermost first),
close them all, are well nested, end with no element open, and hold no
start-element whose local name satisfies `known`. -/
def inert (known : String → Bool) : List Name → List Token → Bool
  | [], [] => true
  | _ :: _, [] => false
  | opened, .StartElement se :: ts => !known se.Name.Local && inert known (se.Name :: opened) ts
  | [], .EndElement _ :: _ => false
  | n :: opened, .EndElement m :: ts => n = m && inert known opened ts
  | opened, _ :: ts => inert known opened ts

/-- The local names of the attributes `WPExtent.UnmarshalXML` parses as integers. -/
def WPExtent.numericAttrs : List String := ["cx", "cy"]

/-- The local names of the attributes `WPEffectExtent.UnmarshalXML` parses as integers. -/
def WPEffectExtent.numericAttrs : List String := ["l", "t", "r", "b"]

/-- The local names of the attributes `WPDocPr.UnmarshalXML` parses as integers. -/
def WPDocPr.numericAttrs : List String := ["id"]

/-- The local names of the attributes `AXfrm.UnmarshalXML` parses as integers. -/
def AXfrm.numericAttrs : List String := ["rot", "flipH", "flipV"]

/-- The local names of the attributes `WPInline.UnmarshalXML` parses as integers. -/
def WPInline.numericAttrs : List String := ["distT", "distB", "distL", "distR"]

/-- The local names of the attributes `WPAnchor.UnmarshalXML` parses as integers. -/
def WPAnchor.numericAttrs : List String := ["distT", "distB", "distL", "distR", "simplePos", "relativeHeight", "behindDoc", "locked", "layoutInCell", "allowOverlap"]

/-- The local names the loop of `WPCNvGraphicFramePr.UnmarshalXML` dispatches on. -/
def WPCNvGraphicFramePr.childNames : List String := ["graphicFrameLocks"]

/-- The loop of `WPCNvGraphicFramePr.UnmarshalXML` dispatches on the local name `s`. -/
def WPCNvGraphicFramePr.known (s : String) : Bool := WPCNvGraphicFramePr.childNames.contains s

/-- The local names the loop of `PICNonVisualPicProperties.UnmarshalXML` dispatches on. -/
def PICNonVisualPicProperties.childNames : List String := ["cNvPr"]

/-- The loop of `PICNonVisualPicProperties.UnmarshalXML` dispatches on the local name `s`. -/
def PICNonVisualPicProperties.known (s : String) : Bool := PICNonVisualPicProperties.childNames.contains s

/-- The local names the loop of `ABlip.UnmarshalXML` dispatches on. -/
def ABlip.childNames : List String := ["alphaModFix"]

/-- The loop of `ABlip.UnmarshalXML` dispatches on the local name `s`. -/
def ABlip.known (s : String) : Bool := ABlip.childNames.contains s

/-- The local names the loop of `PICBlipFill.UnmarshalXML` dispatches on. -/
def PICBlipFill.childNames : List String := ["blip", "stretch"]

/-- The loop of `PICBlipFill.UnmarshalXML` dispatches on the local name `s`. -/
def PICBlipFill.known (s : String) : Bool := PICBlipFill.childNames.contains s

/-- The local names the loop of `AXfrm.UnmarshalXML` dispatches on. -/
def AXfrm.childNames : List String := ["off", "ext"]

/-- The loop of `AXfrm.UnmarshalXML` dispatches on the local name `s`. -/
def AXfrm.known (s : String) : Bool := AXfrm.childNames.contains s

/-- The local names the loop of `PICSpPr.UnmarshalXML` dispatches on. -/
def PICSpPr.childNames : List String := ["xfrm", "prstGeom"]

/-- The loop of `PICSpPr.UnmarshalXML` dispatches on the local name `s`. -/
def PICSpPr.known (s : String) : Bool := PICSpPr.childNames.contains s

/-- The local names the loop of `PICPic.UnmarshalXML` dispatches on. -/
def PICPic.childNames : List String := ["nvPicPr", "blipFill", "spPr"]

/-- The loop of `PICPic.UnmarshalXML` dispatches on the local name `s`. -/
def PICPic.known (s : String) : Bool := PICPic.childNames.contains s

/-- The local names the loop of `AGraphicData.UnmarshalXML` dispatches on. -/
def AGraphicData.childNames : List String := ["pic"]

/-- The loop of `AGraphicData.UnmarshalXML` dispatches on the local name `s`. -/
def AGraphicData.known (s : String) : Bool := AGraphicData.childNames.contains s

/-- The local names the loop of `AGraphic.UnmarshalXML` dispatches on. -/
def AGraphic.childNames : List String := ["graphicData"]

/-- The loop of `AGraphic.UnmarshalXML` dispatches on the local name `s`. -/
def AGraphic.known (s : String) : Bool := AGraphic.childNames.contains s

/-- The local names the loop of `WPPositionH.UnmarshalXML` dispatches on. -/
def WPPositionH.childNames : List String := ["posOffset"]

/-- The loop of `WPPositionH.UnmarshalXML` dispatches on the local name `s`. -/
def WPPositionH.known (s : String) : Bool := WPPositionH.childNames.contains s

/-- The local names the loop of `WPPositionV.UnmarshalXML` dispatches on. -/
def WPPositionV.childNames : List String := ["posOffset"]

/-- The loop of `WPPositionV.UnmarshalXML` dispatches on the local name `s`. -/
def WPPositionV.known (s : String) : Bool := WPPositionV.childNames.contains s

/-- The local names the loop of `WPInline.UnmarshalXML` dispatches on. -/
def WPInline.childNames : List String := ["extent", "effectExtent", "docPr", "cNvGraphicFramePr", "graphic"]

/-- The loop of `WPInline.UnmarshalXML` dispatches on the local name `s`. -/
def WPInline.known (s : String) : Bool := WPInline.childNames.contains s

/-- The local names the loop of `WPAnchor.UnmarshalXML` dispatches on. -/
def WPAnchor.childNames : List String := ["simplePos", "positionH", "positionV", "extent", "effectExtent", "wrapNone", "wrapSquare", "docPr", "cNvGraphicFramePr", "graphic"]

/-- The loop of `WPAnchor.UnmarshalXML` dispatches on the local name `s`. -/
def WPAnchor.known (s : String) : Bool := WPAnchor.childNames.contains s

/-- The local names the loop of `Drawing.UnmarshalXML` dispatches on. -/
def Drawing.childNames : List String := ["inline", "anchor"]

/-- The loop of `Drawing.UnmarshalXML` dispatches on the local name `s`. -/
def Drawing.known (s : String) : Bool := Drawing.childNames.contains s

/-- The local names the loop of `Hyperlink.UnmarshalXML` dispatches on. -/
def Hyperlink.childNames : List String := ["r"]

/-- The loop of `Hyperlink.UnmarshalXML` dispatches on the local name `s`. -/
def Hyperlink.known (s : String) : Bool := Hyperlink.childNames.contains s

/-- The local names of the child elements of an element whose content is `ts`,
in order: the start-elements read with no other element open (`depth` counts
the open ones), up to the end-element of the element itself. -/
def childElements : Nat → List Token → List String
  | _, [] => []
  | 0, .StartElement se :: ts => se.Name.Local :: childElements 1 ts
  | depth + 1, .StartElement _ :: ts => childElements (depth + 2) ts
  | 0, .EndElement _ :: _ => []
  | depth + 1, .EndElement _ :: ts => childElements depth ts
  | depth, _ :: ts => childElements depth ts

/-- The optional field of `WPInline` that answers to the local name `name` is
populated (non-nil). -/
def WPInline.populated (r : WPInline) (name : String) : Bool :=
  if name = "extent" then r.Extent.isSome
  else if name = "effectExtent" then r.EffectExtent.isSome
  else if name = "docPr" then r.DocPr.isSome
  else if name = "cNvGraphicFramePr" then r.CNvGraphicFramePr.isSome
  else if name = "graphic" then r.Graphic.isSome
  else false

instance IsInt64Literal.decidable (s : String) (n : Int) : Decidable (IsInt64Literal s n) := by
  unfold IsInt64Literal
  infer_instance

/-- Among the attributes `attrs` there is one of local name `name`, and the
value of every attribute of this local name is the base-10 literal of the
signed 64-bit integer `n`. -/
def hasIntAttr (attrs : List Attr) (name : String) (n : Int) : Prop :=
  (∃ a ∈ attrs, a.Name.Local = name) ∧ ∀ a ∈ attrs, a.Name.Local = name → IsInt64Literal a.Value n

instance hasIntAttr.decidable (attrs : List Attr) (name : String) (n : Int) :
    Decidable (hasIntAttr attrs name n) := by
  unfold hasIntAttr
  infer_instance

/-- The digit loop of `strconv.formatBits` for base 10: the decimal digits of
`u` are put in front of `acc`, least significant first.  (Go writes two digits
per round into a buffer of 65 bytes; the first argument bounds the number of
digits, and 20 are enough for a `uint64`.) -/
def strconv.formatBits : Nat → Nat → List Char → List Char
  | 0, _, acc => acc
  | fuel + 1, u, acc =>
    if u < 10 then Char.ofNat (48 + u) :: acc
    else formatBits fuel (u / 10) (Char.ofNat (48 + u % 10) :: acc)

/-- The function `strconv.FormatInt(i, 10)` for an `int64`, which `encoding/xml`
uses to write an integer field. -/
def strconv.FormatInt (i : Int) : String :=
  if i < 0 then String.mk ('-' :: strconv.formatBits 20 i.natAbs [])
  else String.mk (strconv.formatBits 20 i.natAbs [])

/-- The attributes `xml.Marshal` writes for a `WPExtent`, from the tags
`xml:"cx,attr"` and `xml:"cy,attr"` of its fields. -/
def WPExtent.MarshalAttrs (r : WPExtent) : List Attr :=
  [⟨⟨"", "cx"⟩, strconv.FormatInt r.CX⟩, ⟨⟨"", "cy"⟩, strconv.FormatInt r.CY⟩]

/-- The function `xml.EscapeText` on one character: the replacement
`encoding/xml` writes for it. -/
def xml.escapeChar (c : Char) : String :=
  let n := c.toNat
  if n = 34 then "&#34;"
  else if n = 39 then "&#39;"
  else if n = 38 then "&amp;"
  else if n = 60 then "&lt;"
  else if n = 62 then "&gt;"
  else if n = 9 then "&#x9;"
  else if n = 10 then "&#xA;"
  else if n = 13 then "&#xD;"
  else if (0x20 ≤ n ∧ n ≤ 0xD7FF) ∨ (0xE000 ≤ n ∧ n ≤ 0xFFFD) ∨ (0x10000 ≤ n ∧ n ≤ 0x10FFFF) then
    String.singleton c
  else String.singleton (Char.ofNat 0xFFFD)

/-- The function `xml.EscapeText`. -/
def xml.EscapeText (s : String) : String :=
  s.data.foldl (fun acc c => acc ++ xml.escapeChar c) ""

/-- What `xml.Marshal` writes for a value of type `xml.Attr`, a struct with the
fields `Name` and `Value`, met as an element of the field `Attr`: the type
`xml.Name` is marshalled as a struct without fields. -/
def xml.marshalAttr (a : Attr) : String :=
  "<Attr><Name></Name><Value>" ++ xml.EscapeText a.Value ++ "</Value></Attr>"

/-- The function `xml.Marshal` on a token.  A token is not written as the
markup it was read from: `Marshal` takes it for a plain value and writes, by
reflection, an element named after its Go type with the fields as child
elements (a byte slice as escaped text).  It does not fail on these types. -/
def xml.Marshal : Token → Except Error String
  | .StartElement se =>
    .ok ("<StartElement><Name></Name>" ++
      se.Attr.foldl (fun acc a => acc ++ xml.marshalAttr a) "" ++ "</StartElement>")
  | .EndElement _ => .ok "<EndElement><Name></Name></EndElement>"
  | .CharData s => .ok ("<CharData>" ++ xml.EscapeText s ++ "</CharData>")
  | .Comment s => .ok ("<Comment>" ++ xml.EscapeText s ++ "</Comment>")
  | .ProcInst target inst =>
    .ok ("<ProcInst><Target>" ++ xml.EscapeText target ++ "</Target><Inst>" ++
      xml.EscapeText inst ++ "</Inst></ProcInst>")
  | .Directive s => .ok ("<Directive>" ++ xml.EscapeText s ++ "</Directive>")

/-- The method `StartElement.End`: the end-element of the same name. -/
def StartElement.End (s : StartElement) : Token :=
  .EndElement s.Name

/-- Modelled from the spec: the helper `BytesToString` of the repository, which
is not in the two source files; the raw-XML field is to hold the bytes "byte
for byte", so the conversion keeps them.  Byte slices are strings here. -/
def BytesToString (b : String) : String := b

/-- The loop of `(*AAvLst).UnmarshalXML`, with the function `marshal` for
`xml.Marshal`; the first argument bounds the number of iterations.  The loop
ends at the end of the stream and at the first end-element equal to
`start.End()`, which is read and not marshalled; `content` is what has been
appended so far. -/
def AAvLst.loop (marshal : Token → Except Error String) (start : StartElement) :
    Nat → String → Decoder → Decoder × Except Error String
  | 0, _, d => (d, .error .LoopBound)
  | fuel + 1, content, d =>
    match d.Token with
    | (d1, .error .EOF) => (d1, .ok content)
    | (d1, .error e) => (d1, .error e)
    | (d1, .ok t) =>
      if t = start.End then (d1, .ok content)
      else
        match marshal t with
        | .error e => (d1, .error e)
        | .ok b => AAvLst.loop marshal start fuel (content ++ b) d1

/-- The method `(*AAvLst).UnmarshalXML`, with the function `marshal` for
`xml.Marshal`. -/
def AAvLst.UnmarshalXML (marshal : Token → Except Error String) (a : AAvLst) (d : Decoder)
    (start : StartElement) : Outcome AAvLst :=
  match marshal (.StartElement start) with
  | .error e => ⟨a, d, some e⟩
  | .ok content =>
    match AAvLst.loop marshal start (d.toks.length + 1) content d with
    | (d1, .error e) => ⟨a, d1, some e⟩
    | (d1, .ok content) => ⟨{ a with RawXML := BytesToString content }, d1, none⟩

/-- The token source raises no read error: the calls of `Token` that read the
pending tokens `toks` one after the other, from the stack `stk`, all return a
token, up to the call that reports `io.EOF` (at an end-of-element mark, or at
the clean end of the input with no element open).  `err` is the error the
tokenizer has in store for the end of the input. -/
def readable (err : Option Error) : List Stack → List Token → Bool
  | stk, [] => stk.head? = some .stkEOF || (err.isNone && stk.isEmpty)
  | stk, t :: ts =>
    if stk.head? = some .stkEOF then true
    else
      match t with
      | .StartElement se => readable err (.stkStart se.Name :: stk) ts
      | .EndElement m =>
        match stk with
        | .stkStart n :: below => n = m && readable err below ts
        | _ => false
      | _ => readable err stk ts

/-- The local names of the attributes `WPInline.UnmarshalXML` recognises. -/
def WPInline.attrNames : List String := ["distT", "distB", "distL", "distR"]

/-- The local names of the attributes `WPAnchor.UnmarshalXML` recognises. -/
def WPAnchor.attrNames : List String := ["distT", "distB", "distL", "distR", "simplePos", "relativeHeight", "behindDoc", "locked", "layoutInCell", "allowOverlap"]

/-- The local names of the attributes `WPExtent.UnmarshalXML` recognises. -/
def WPExtent.attrNames : List String := ["cx", "cy"]

/-- The local names of the attributes `WPEffectExtent.UnmarshalXML` recognises. -/
def WPEffectExtent.attrNames : List String := ["l", "t", "r", "b"]

/-- The local names of the attributes `WPDocPr.UnmarshalXML` recognises. -/
def WPDocPr.attrNames : List String := ["id", "name"]

/-- The local names of the attributes `AGraphic.UnmarshalXML` recognises. -/
def AGraphic.attrNames : List String := ["a"]

/-- The local names of the attributes `ABlip.UnmarshalXML` recognises. -/
def ABlip.attrNames : List String := ["embed", "cstate"]

/-- The local names of the attributes `AXfrm.UnmarshalXML` recognises. -/
def AXfrm.attrNames : List String := ["rot", "flipH", "flipV"]

/-- The local names of the attributes `WPPositionH.UnmarshalXML` recognises. -/
def WPPositionH.attrNames : List String := ["relativeFrom"]

/-- The local names of the attributes `WPPositionV.UnmarshalXML` recognises. -/
def WPPositionV.attrNames : List String := ["relativeFrom"]

/-- The tokens of a sequence of empty elements, one for each start-element of
`cs`, in order: each start-element is followed by its end-element. -/
def emptyElements : List StartElement → List Token
  | [] => []
  | c :: cs => .StartElement c :: .EndElement c.Name :: emptyElements cs

/-- The attributes of the child start-element `c` of an anchor frame are well
formed: the attributes `WPAnchor.UnmarshalXML` reads in place with `getAtt` have
a base-10 integer literal as value, and so has every numeric attribute of an
`extent`, `effectExtent` or `docPr` child that its own decoder parses. -/
def WPAnchor.wellFormedChild (c : StartElement) : Prop :=
  (c.Name.Local = "simplePos" → (∃ n, IsInt64Literal (getAtt c.Attr "x") n) ∧ (∃ n, IsInt64Literal (getAtt c.Attr "y") n)) ∧
  (c.Name.Local = "extent" → ∀ a ∈ c.Attr, a.Name.Local ∈ WPExtent.numericAttrs → ∃ n, IsInt64Literal a.Value n) ∧
  (c.Name.Local = "effectExtent" → ∀ a ∈ c.Attr, a.Name.Local ∈ WPEffectExtent.numericAttrs → ∃ n, IsInt64Literal a.Value n) ∧
  (c.Name.Local = "docPr" → ∀ a ∈ c.Attr, a.Name.Local ∈ WPDocPr.numericAttrs → ∃ n, IsInt64Literal a.Value n)

/-- The record after the body of the loop of `WPAnchor.UnmarshalXML` has run on
the start-element `c` of an empty element (the stream holds the end-element of
`c` and nothing else). -/
def WPAnchor.afterEmptyChild (c : StartElement) (r : WPAnchor) : WPAnchor :=
  (WPAnchor.body c r ⟨[.EndElement c.Name], none, [.stkStart c.Name]⟩).val

/-- The attributes of the child start-element `c` of an inline frame are well
formed: the attributes `WPInline.UnmarshalXML` reads in place with `getAtt` have
a base-10 integer literal as value, and so has every numeric attribute of an
`extent`, `effectExtent` or `docPr` child that its own decoder parses. -/
def WPInline.wellFormedChild (c : StartElement) : Prop :=
  (c.Name.Local = "extent" → (∃ n, IsInt64Literal (getAtt c.Attr "cx") n) ∧ (∃ n, IsInt64Literal (getAtt c.Attr "cy") n)) ∧
  (c.Name.Local = "effectExtent" → (∃ n, IsInt64Literal (getAtt c.Attr "l") n) ∧ (∃ n, IsInt64Literal (getAtt c.Attr "t") n) ∧ (∃ n, IsInt64Literal (getAtt c.Attr "r") n) ∧ (∃ n, IsInt64Literal (getAtt c.Attr "b") n)) ∧
  (c.Name.Local = "docPr" → ∀ a ∈ c.Attr, a.Name.Local ∈ WPDocPr.numericAttrs → ∃ n, IsInt64Literal a.Value n)

/-- The record after the body of the loop of `WPInline.UnmarshalXML` has run on
the start-element `c` of an empty element (the stream holds the end-element of
`c` and nothing else). -/
def WPInline.afterEmptyChild (c : StartElement) (r : WPInline) : WPInline :=
  (WPInline.body c r ⟨[.EndElement c.Name], none, [.stkStart c.Name]⟩).val

/-- The record and the decoder at the head of the decoding loop after `k`
rounds, when the loop gets that far.  A round reads a token and, for a
start-element, runs the body; `none` when a round among the first `k` ends the
loop (its read reports `io.EOF` or an error, or the body returns an error). -/
def tokenLoop.after {α : Type} (body : StartElement → α → Decoder → Step α) :
    Nat → α → Decoder → Option (α × Decoder)
  | 0, r, d => some (r, d)
  | k + 1, r, d =>
    match d.Token with
    | (_, .error _) => none
    | (d1, .ok (.StartElement tt)) =>
      match body tt r d1 with
      | .next r2 d2 => tokenLoop.after body k r2 d2
      | .ret _ _ _ => none
    | (d1, .ok _) => tokenLoop.after body k r d1

/-- The loop, started on the record `r` and the decoder `d`, reads the
start-element `tt` in one of its rounds: at the head of the loop after some
rounds the record is `r1`, and `Token` returns `tt` and leaves the decoder
`d1`, on which the body runs. -/
def tokenLoop.reads {α : Type} (body : StartElement → α → Decoder → Step α)
    (r : α) (d : Decoder) (tt : StartElement) (r1 : α) (d1 : Decoder) : Prop :=
  ∃ k d0, tokenLoop.after body k r d = some (r1, d0) ∧ d0.Token = (d1, .ok (.StartElement tt))

/-- What the loop of `(*AAvLst).UnmarshalXML` has appended, and the decoder,
at the head of the loop after `k` rounds, when the loop gets that far. -/
def AAvLst.after (marshal : Token → Except Error String) (start : StartElement) :
    Nat → String → Decoder → Option (String × Decoder)
  | 0, content, d => some (content, d)
  | k + 1, content, d =>
    match d.Token with
    | (_, .error _) => none
    | (d1, .ok t) =>
      if t = start.End then none
      else
        match marshal t with
        | .error _ => none
        | .ok b => AAvLst.after marshal start k (content ++ b) d1

/-- The names of the elements open on the stack, innermost first; the
end-of-element marks are left out. -/
def openNames : List Stack → List Name
  | [] => []
  | .stkStart n :: s => n :: openNames s
  | .stkEOF :: s => openNames s

/-- The decoder reads inside the scope of an element: its stack is `base`
under an end-of-element mark under the entries `top` pushed since, and its
pending tokens are a final segment `p` of the tokens `p0` of the scope,
followed by `rest`; `p` closes, well nested, the elements open in `top`. -/
def Decoder.Scoped (base : List Stack) (rest p0 : List Docx.Token) (d : Decoder) : Prop :=
  ∃ top p, d.stk = top ++ .stkEOF :: base ∧ d.toks = p ++ rest ∧ p <:+ p0 ∧
    inert (fun _ => false) (openNames top) p = true

/-! ## strconv against the decimal literals -/

theorem foldl_decimalStep_none (cs : List Char) : cs.foldl decimalStep none = none := by
  induction cs with
  | nil => rfl
  | cons c cs ih => simpa [decimalStep] using ih

theorem foldl_decimalStep_ge : ∀ (cs : List Char) (m v : Nat),
    cs.foldl decimalStep (some m) = some v → m ≤ v := by
  intro cs
  induction cs with
  | nil => intro m v h; simp at h; omega
  | cons c cs ih =>
    intro m v h
    simp only [List.foldl_cons, decimalStep, Option.some_bind] at h
    split at h
    · have := ih _ _ h; omega
    · rw [foldl_decimalStep_none] at h; simp at h

/-- The digit loop of `ParseUint` in base 10 succeeds exactly on digit
sequences whose value fits 64 bits, and returns that value. -/
theorem parseUintLoop_ok_iff (fn s0 : String) : ∀ (cs : List Char) (n v : Nat), n < 2 ^ 64 →
    (strconv.parseUintLoop fn s0 10 (strconv.maxUint64 / 10 + 1) (2 ^ 64 - 1) cs n = (v, none) ↔
      cs.foldl decimalStep (some n) = some v ∧ v < 2 ^ 64) := by
  intro cs
  induction cs with
  | nil =>
    intro n v hn
    simp only [strconv.parseUintLoop, List.foldl_nil, Prod.mk.injEq, Option.some.injEq, and_true]
    constructor
    · rintro rfl; exact ⟨rfl, hn⟩
    · rintro ⟨rfl, -⟩; rfl
  | cons c cs ih =>
    intro n v hn
    simp only [strconv.parseUintLoop, List.foldl_cons, decimalStep, Option.some_bind]
    by_cases hc : 48 ≤ c.toNat ∧ c.toNat ≤ 57
    · simp only [hc, and_self, if_true]
      have hdg : ¬ (c.toNat - 48 ≥ 10) := by omega
      simp only [hdg, if_false]
      by_cases hcut : n ≥ strconv.maxUint64 / 10 + 1
      · simp only [hcut, if_true]
        constructor
        · intro h; simp at h
        · rintro ⟨h1, h2⟩
          have := foldl_decimalStep_ge _ _ _ h1
          simp only [strconv.maxUint64] at hcut
          omega
      · simp only [hcut, if_false]
        simp only [strconv.maxUint64] at hcut
        have hmul : n * 10 % 2 ^ 64 = n * 10 := Nat.mod_eq_of_lt (by omega)
        rw [hmul]
        by_cases hov : n * 10 + (c.toNat - 48) < 2 ^ 64
        · have hadd : (n * 10 + (c.toNat - 48)) % 2 ^ 64 = n * 10 + (c.toNat - 48) :=
            Nat.mod_eq_of_lt hov
          rw [hadd]
          have h3 : ¬ (n * 10 + (c.toNat - 48) < n * 10 ∨ n * 10 + (c.toNat - 48) > 2 ^ 64 - 1) := by
            omega
          simp only [h3, if_false]
          exact ih _ v hov
        · have hadd : (n * 10 + (c.toNat - 48)) % 2 ^ 64 = n * 10 + (c.toNat - 48) - 2 ^ 64 := by
            rw [Nat.mod_eq_sub_mod (by omega)]
            exact Nat.mod_eq_of_lt (by omega)
          rw [hadd]
          have h3 : (n * 10 + (c.toNat - 48) - 2 ^ 64 < n * 10 ∨
              n * 10 + (c.toNat - 48) - 2 ^ 64 > 2 ^ 64 - 1) := by omega
          simp only [h3, if_true]
          constructor
          · intro h; simp at h
          · rintro ⟨h1, h2⟩
            have := foldl_decimalStep_ge _ _ _ h1
            omega
    · simp only [hc, if_false]
      rw [foldl_decimalStep_none]
      constructor
      · intro h
        exfalso
        split at h
        · simp at h
        · next dg hdg =>
          split at hdg
          · have h10 : dg ≥ 10 := by simp only [Option.some.injEq] at hdg; omega
            simp [h10] at h
          · simp at hdg
      · rintro ⟨h, -⟩; simp at h

theorem String.mk_ne_empty (c : Char) (cs : List Char) : String.mk (c :: cs) ≠ "" := by
  intro h; have := congrArg String.data h; simp at this

theorem ParseUint_ok_iff (cs : List Char) (b v : Nat) (hb : b = 0 ∨ b = 64) :
    strconv.ParseUint (String.mk cs) 10 b = (v, none) ↔ decimalNat cs = some v ∧ v < 2 ^ 64 := by
  have hbs : (if b = 0 then 64 else b) = 64 := by rcases hb with rfl | rfl <;> rfl
  cases cs with
  | nil => simp [strconv.ParseUint, decimalNat]
  | cons c cs =>
    simp only [strconv.ParseUint, String.mk_ne_empty, if_false, hbs, decimalNat]
    have h10 : ¬ ((10 : Nat) < 2 ∨ 36 < 10) := by omega
    simp only [h10, if_false]
    exact parseUintLoop_ok_iff _ _ (c :: cs) 0 v (by norm_num)

/-- The part of `ParseInt` that follows the split of the sign: `body` are the
characters after the sign, `neg` tells whether the sign is a minus. -/
theorem ParseInt_tail (s : String) (body : List Char) (neg : Prop) [Decidable neg] (b : Nat)
    (n : Int) (hb : b = 0 ∨ b = 64) :
    (match (strconv.ParseUint (String.mk body) 10 b).2 with
      | some (.ErrRange _ _) =>
        let bitSize := if b = 0 then 64 else b
        let cutoff : Nat := 2 ^ (bitSize - 1)
        if neg then (-(cutoff : Int), some (Error.ErrRange "ParseInt" s))
        else ((cutoff : Int) - 1, some (Error.ErrRange "ParseInt" s))
      | some _ => (0, some (Error.ErrSyntax "ParseInt" s))
      | none =>
        let bitSize := if b = 0 then 64 else b
        let cutoff : Nat := 2 ^ (bitSize - 1)
        let un := (strconv.ParseUint (String.mk body) 10 b).1
        if ¬ neg ∧ un ≥ cutoff then ((cutoff : Int) - 1, some (Error.ErrRange "ParseInt" s))
        else if neg ∧ un > cutoff then (-(cutoff : Int), some (Error.ErrRange "ParseInt" s))
        else if neg then (-(un : Int), none) else ((un : Int), none)) = (n, none) ↔
    ∃ v, decimalNat body = some v ∧ n = (if neg then -(v : Int) else (v : Int)) ∧
      -(2 : Int) ^ 63 ≤ n ∧ n < (2 : Int) ^ 63 := by
  have hbs : (if b = 0 then 64 else b) = 64 := by rcases hb with rfl | rfl <;> rfl
  simp only [hbs]
  rcases hu : strconv.ParseUint (String.mk body) 10 b with ⟨un, _ | e⟩
  · have h1 := (ParseUint_ok_iff body b un hb).1 hu
    simp only []
    by_cases hneg : neg
    · simp only [hneg, if_true, not_true_eq_false, false_and, if_false, true_and]
      by_cases h2 : un > 2 ^ (64 - 1)
      · simp only [h2, if_true]
        constructor
        · intro h; simp at h
        · rintro ⟨v, hv, hn, hlo, hhi⟩
          rw [h1.1] at hv
          simp only [Option.some.injEq] at hv
          subst hv; subst hn
          exfalso
          have : (un : Int) > 2 ^ 63 := by exact_mod_cast h2
          omega
      · simp only [h2, if_false, Prod.mk.injEq, and_true]
        have h3 : (un : Int) ≤ 2 ^ 63 := by
          have : un ≤ 2 ^ 63 := by norm_num at h2 ⊢; omega
          exact_mod_cast this
        constructor
        · intro h
          exact ⟨un, h1.1, h.symm, by omega, by omega⟩
        · rintro ⟨v, hv, hn, -, -⟩
          rw [h1.1] at hv
          simp only [Option.some.injEq] at hv
          subst hv; exact hn.symm
    · simp only [hneg, not_false_eq_true, true_and, false_and, if_false]
      by_cases h2 : un ≥ 2 ^ (64 - 1)
      · simp only [h2, if_true]
        constructor
        · intro h; simp at h
        · rintro ⟨v, hv, hn, hlo, hhi⟩
          rw [h1.1] at hv
          simp only [Option.some.injEq] at hv
          subst hv; subst hn
          exfalso
          have : (un : Int) ≥ 2 ^ 63 := by exact_mod_cast h2
          omega
      · simp only [h2, if_false, Prod.mk.injEq, and_true]
        have h3 : (un : Int) < 2 ^ 63 := by
          have : un < 2 ^ 63 := by norm_num at h2 ⊢; omega
          exact_mod_cast this
        constructor
        · intro h
          exact ⟨un, h1.1, h.symm, by omega, by omega⟩
        · rintro ⟨v, hv, hn, -, -⟩
          rw [h1.1] at hv
          simp only [Option.some.injEq] at hv
          subst hv; exact hn.symm
  · have hno : ∀ v, ¬ (decimalNat body = some v ∧ v < 2 ^ 64) := by
      intro v hv
      have := (ParseUint_ok_iff body b v hb).2 hv
      rw [hu] at this; simp at this
    constructor
    · intro h
      exfalso
      simp only [] at h
      split at h
      · split at h <;> simp at h
      · simp at h
      · next hx => simp at hx
    · rintro ⟨v, hv, hn, hlo, hhi⟩
      exfalso
      apply hno v ⟨hv, ?_⟩
      have : (v : Int) < 2 ^ 64 := by
        subst hn
        by_cases hneg : neg
        · simp only [hneg, if_true] at hlo hhi; omega
        · simp only [hneg, if_false] at hlo hhi; omega
      exact_mod_cast this

/-- In base 10, `ParseInt` succeeds exactly on the literals of the signed 64-bit
integers and returns the integer the literal denotes. -/
theorem ParseInt_ok_iff (s : String) (b : Nat) (n : Int) (hb : b = 0 ∨ b = 64) :
    strconv.ParseInt s 10 b = (n, none) ↔ IsInt64Literal s n := by
  obtain ⟨cs⟩ := s
  cases cs with
  | nil => simp [IsInt64Literal, decimalInt, strconv.ParseInt, decimalNat]
  | cons c cs =>
    unfold strconv.ParseInt
    rw [if_neg (String.mk_ne_empty c cs)]
    refine (ParseInt_tail (String.mk (c :: cs))
      (if (String.mk (c :: cs)).data.head? = some '+' ∨ (String.mk (c :: cs)).data.head? = some '-'
        then (String.mk (c :: cs)).data.tail else (String.mk (c :: cs)).data)
      ((String.mk (c :: cs)).data.head? = some '-') b n hb).trans ?_
    unfold IsInt64Literal decimalInt
    simp only [List.head?_cons, Option.some.injEq, List.tail_cons]
    by_cases hp : c = '+'
    · subst hp
      have hpm : ¬ ('+' = '-') := by decide
      simp only [true_or, if_true, hpm, if_false]
      constructor
      · rintro ⟨v, hv, hn, h2⟩; exact ⟨by simp [hv, hn], h2⟩
      · rintro ⟨h1, h2⟩
        rcases hd : decimalNat cs with _ | v
        · simp [hd] at h1
        · exact ⟨v, rfl, by simpa [hd] using h1.symm, h2⟩
    · by_cases hm : c = '-'
      · subst hm
        simp only [or_true, if_true]
        constructor
        · rintro ⟨v, hv, hn, h2⟩; exact ⟨by simp [hv, hn], h2⟩
        · rintro ⟨h1, h2⟩
          rcases hd : decimalNat cs with _ | v
          · simp [hd] at h1
          · exact ⟨v, rfl, by simpa [hd] using h1.symm, h2⟩
      · simp only [hp, hm, or_self, if_false]
        have hmatch : (match c :: cs with
            | '+' :: cs => Option.map (fun n => (n : Int)) (decimalNat cs)
            | '-' :: cs => Option.map (fun n => -(n : Int)) (decimalNat cs)
            | cs => Option.map (fun n => (n : Int)) (decimalNat cs)) =
            Option.map (fun n => (n : Int)) (decimalNat (c :: cs)) := by
          split
          · next h => simp only [List.cons.injEq] at h; exact absurd h.1 hp
          · next h => simp only [List.cons.injEq] at h; exact absurd h.1 hm
          · next h => rfl
        rw [hmatch]
        constructor
        · rintro ⟨v, hv, hn, h2⟩; exact ⟨by simp [hv, hn], h2⟩
        · rintro ⟨h1, h2⟩
          rcases hd : decimalNat (c :: cs) with _ | v
          · simp [hd] at h1
          · exact ⟨v, rfl, by simpa [hd] using h1.symm, h2⟩

theorem ParseInt_err_isNum (s : String) (base b : Nat) (e : Error)
    (h : (strconv.ParseInt s base b).2 = some e) : e.isNum = true := by
  unfold strconv.ParseInt at h
  simp only [] at h
  repeat' split at h
  all_goals simp only [Option.some.injEq] at h
  all_goals first
    | (subst h; rfl)
    | simp at h

theorem ParseInt_none_iff (s : String) (b : Nat) (hb : b = 0 ∨ b = 64) :
    (strconv.ParseInt s 10 b).2 = none ↔ ∃ n, IsInt64Literal s n := by
  constructor
  · intro h
    exact ⟨(strconv.ParseInt s 10 b).1, (ParseInt_ok_iff s b _ hb).1 (Prod.ext rfl h)⟩
  · rintro ⟨n, hn⟩
    rw [(ParseInt_ok_iff s b n hb).2 hn]

theorem Atoi_ok_iff (s : String) (n : Int) :
    strconv.Atoi s = (n, none) ↔ IsInt64Literal s n := by
  rw [← ParseInt_ok_iff s 0 n (Or.inl rfl)]
  unfold strconv.Atoi
  rcases h : strconv.ParseInt s 10 0 with ⟨v, _ | e⟩
  · simp
  · have := ParseInt_err_isNum s 10 0 e (by rw [h])
    cases e <;> simp [Error.isNum] at this ⊢

theorem Atoi_err_isNum (s : String) (e : Error) (h : (strconv.Atoi s).2 = some e) :
    e.isNum = true := by
  unfold strconv.Atoi at h
  rcases hp : strconv.ParseInt s 10 0 with ⟨v, _ | e1⟩
  · rw [hp] at h; simp at h
  · have h1 := ParseInt_err_isNum s 10 0 e1 (by rw [hp])
    rw [hp] at h
    cases e1 <;> simp [Error.isNum] at h1 h <;> subst h <;> rfl

theorem Atoi_none_iff (s : String) :
    (strconv.Atoi s).2 = none ↔ ∃ n, IsInt64Literal s n := by
  constructor
  · intro h
    exact ⟨(strconv.Atoi s).1, (Atoi_ok_iff s _).1 (Prod.ext rfl h)⟩
  · rintro ⟨n, hn⟩
    rw [(Atoi_ok_iff s n).2 hn]

/-! ## Reading a token -/

theorem Decoder.Reach.refl (d : Decoder) : d.Reach d :=
  ⟨List.suffix_refl _, id⟩

theorem Decoder.Reach.trans {d1 d2 d3 : Decoder} (h12 : d1.Reach d2) (h23 : d2.Reach d3) :
    d1.Reach d3 :=
  ⟨h23.1.trans h12.1, fun h => h23.2 (h12.2 h)⟩

theorem Decoder.Reach.length_le {d1 d2 : Decoder} (h : d1.Reach d2) :
    d2.toks.length ≤ d1.toks.length :=
  h.1.length_le

theorem Token_eof_top (d : Decoder) (h : d.stk.head? = some .stkEOF) :
    d.Token = (d, .error .EOF) := by
  simp [Decoder.Token, h]

theorem Token_nil (err : Option Error) (stk : List Stack) (h : stk.head? ≠ some .stkEOF) :
    (Decoder.mk [] err stk).Token =
      (Decoder.mk [] err stk,
        .error (match err with
          | some e => e
          | none => if stk = [] then .EOF else .SyntaxError "unexpected EOF")) := by
  cases err <;> simp [Decoder.Token, h]
  split <;> rfl

theorem Token_start (se : StartElement) (rest : List Token) (err : Option Error)
    (stk : List Stack) (h : stk.head? ≠ some .stkEOF) :
    (Decoder.mk (.StartElement se :: rest) err stk).Token =
      (Decoder.mk rest err (.stkStart se.Name :: stk), .ok (.StartElement se)) := by
  simp [Decoder.Token, h]

theorem Token_end (n : Name) (rest : List Token) (err : Option Error) (stk : List Stack) :
    (Decoder.mk (.EndElement n :: rest) err (.stkStart n :: stk)).Token =
      (Decoder.mk rest err stk, .ok (.EndElement n)) := by
  simp [Decoder.Token]

theorem Token_end_bad (n : Name) (rest : List Token) (err : Option Error) (stk : List Stack)
    (h : stk.head? ≠ some .stkEOF) (hn : stk.head? ≠ some (.stkStart n)) :
    ∃ msg, (Decoder.mk (.EndElement n :: rest) err stk).Token =
      (Decoder.mk [] (some (.SyntaxError msg)) stk.tail, .error (.SyntaxError msg)) := by
  cases stk with
  | nil => exact ⟨"unexpected end element", by simp [Decoder.Token]⟩
  | cons s below =>
    have h1 : s ≠ .stkStart n := by simpa using hn
    have h2 : s ≠ .stkEOF := by simpa using h
    exact ⟨"element closed by another end element", by simp [Decoder.Token, h1, h2]⟩

theorem Token_other (t : Token) (rest : List Token) (err : Option Error) (stk : List Stack)
    (h : stk.head? ≠ some .stkEOF) (h1 : ∀ se, t ≠ .StartElement se) (h2 : ∀ n, t ≠ .EndElement n) :
    (Decoder.mk (t :: rest) err stk).Token = (Decoder.mk rest err stk, .ok t) := by
  cases t with
  | StartElement se => exact absurd rfl (h1 se)
  | EndElement n => exact absurd rfl (h2 n)
  | _ => simp [Decoder.Token, h]

/-- A token that was read was the first pending one; the tokenizer's error is
untouched and the stack follows the kind of token. -/
theorem Token_ok {d d1 : Decoder} {t : Token} (h : d.Token = (d1, .ok t)) :
    d.toks = t :: d1.toks ∧ d1.err = d.err ∧ d.stk.head? ≠ some .stkEOF ∧
      (match t with
        | .StartElement se => d1.stk = .stkStart se.Name :: d.stk
        | .EndElement n => d.stk = .stkStart n :: d1.stk
        | _ => d1.stk = d.stk) := by
  obtain ⟨toks, err, stk⟩ := d
  by_cases h0 : stk.head? = some .stkEOF
  · rw [Token_eof_top _ h0] at h; simp at h
  · cases toks with
    | nil => rw [Token_nil _ _ h0] at h; simp at h
    | cons t0 rest =>
      cases t0 with
      | StartElement se =>
        rw [Token_start _ _ _ _ h0] at h
        simp only [Prod.mk.injEq, Except.ok.injEq] at h
        obtain ⟨h1, h2⟩ := h
        subst h1; subst h2
        simp [h0]
      | EndElement n =>
        by_cases hn : stk.head? = some (.stkStart n)
        · cases stk with
          | nil => simp at hn
          | cons s below =>
            simp only [List.head?_cons, Option.some.injEq] at hn
            subst hn
            rw [Token_end] at h
            simp only [Prod.mk.injEq, Except.ok.injEq] at h
            obtain ⟨h1, h2⟩ := h
            subst h1; subst h2
            simp
        · obtain ⟨msg, hm⟩ := Token_end_bad n rest err stk h0 hn
          rw [hm] at h; simp at h
      | CharData s =>
        rw [Token_other _ _ _ _ h0 (by simp) (by simp)] at h
        simp only [Prod.mk.injEq, Except.ok.injEq] at h
        obtain ⟨h1, h2⟩ := h
        subst h1; subst h2
        simp [h0]
      | Comment s =>
        rw [Token_other _ _ _ _ h0 (by simp) (by simp)] at h
        simp only [Prod.mk.injEq, Except.ok.injEq] at h
        obtain ⟨h1, h2⟩ := h
        subst h1; subst h2
        simp [h0]
      | ProcInst a b =>
        rw [Token_other _ _ _ _ h0 (by simp) (by simp)] at h
        simp only [Prod.mk.injEq, Except.ok.injEq] at h
        obtain ⟨h1, h2⟩ := h
        subst h1; subst h2
        simp [h0]
      | Directive s =>
        rw [Token_other _ _ _ _ h0 (by simp) (by simp)] at h
        simp only [Prod.mk.injEq, Except.ok.injEq] at h
        obtain ⟨h1, h2⟩ := h
        subst h1; subst h2
        simp [h0]

theorem Token_error {d d1 : Decoder} {e : Error} (h : d.Token = (d1, .error e)) :
    (d1 = d ∨ (d1.toks = [] ∧ d1.err = some e ∧ e.isToken = true)) ∧
      (d.TokErr → e = .EOF ∨ e.isToken = true) := by
  unfold Decoder.Token at h
  repeat' split at h
  all_goals simp_all [Decoder.TokErr, Error.isToken]
  all_goals (try (obtain ⟨h1, h2⟩ := h; subst h1; subst h2; simp_all [Error.isToken]))

theorem Token_reach (d : Decoder) : d.Reach d.Token.1 := by
  rcases hT : d.Token with ⟨d1, _ | t⟩
  · rcases (Token_error hT).1 with h | ⟨h1, h2, h3⟩
    · subst h; exact Decoder.Reach.refl _
    · refine ⟨by simp [h1], fun _ e he => ?_⟩
      simp only [h2, Option.some.injEq] at he
      subst he; exact h3
  · obtain ⟨h1, h2, -, -⟩ := Token_ok hT
    refine ⟨by simp [h1], fun h e he => h e (by rw [← h2]; exact he)⟩

/-! ## The decoding loop -/

theorem tokenLoop_eof {α : Type} (body : StartElement → α → Decoder → Step α) (fuel : Nat)
    (r : α) {d d1 : Decoder} (h : d.Token = (d1, .error .EOF)) :
    tokenLoop body (fuel + 1) r d = ⟨r, d1, none⟩ := by
  simp only [tokenLoop, h]

theorem tokenLoop_error {α : Type} (body : StartElement → α → Decoder → Step α) (fuel : Nat)
    (r : α) {d d1 : Decoder} {e : Error} (h : d.Token = (d1, .error e)) (he : e ≠ .EOF) :
    tokenLoop body (fuel + 1) r d = ⟨r, d1, some e⟩ := by
  cases e with
  | EOF => exact absurd rfl he
  | _ => simp only [tokenLoop, h]

theorem tokenLoop_start {α : Type} (body : StartElement → α → Decoder → Step α) (fuel : Nat)
    (r : α) {d d1 : Decoder} {tt : StartElement} (h : d.Token = (d1, .ok (.StartElement tt))) :
    tokenLoop body (fuel + 1) r d =
      match body tt r d1 with
      | .next r2 d2 => tokenLoop body fuel r2 d2
      | .ret r2 d2 e => ⟨r2, d2, some e⟩ := by
  simp only [tokenLoop, h]

theorem tokenLoop_other {α : Type} (body : StartElement → α → Decoder → Step α) (fuel : Nat)
    (r : α) {d d1 : Decoder} {t : Token} (h : d.Token = (d1, .ok t))
    (ht : ∀ tt, t ≠ .StartElement tt) :
    tokenLoop body (fuel + 1) r d = tokenLoop body fuel r d1 := by
  cases t with
  | StartElement se => exact absurd rfl (ht se)
  | _ => simp only [tokenLoop, h]

/-- Induction over the iterations of the decoding loop for a body that adds
no pending token: a property `P` of the record and the decoder kept by every
iteration yields the property `Q` of the outcome; the iteration bound is not
reached. -/
theorem tokenLoop_induct {α : Type} (body : StartElement → α → Decoder → Step α)
    (P : α → Decoder → Prop) (Q : Outcome α → Prop)
    (hshrink : ∀ tt r d, (body tt r d).dec.toks.length ≤ d.toks.length)
    (hEOF : ∀ r d d1, P r d → d.Token = (d1, .error .EOF) → Q ⟨r, d1, none⟩)
    (hErr : ∀ r d d1 e, P r d → d.Token = (d1, .error e) → e ≠ .EOF → Q ⟨r, d1, some e⟩)
    (hOther : ∀ r d d1 t, P r d → d.Token = (d1, .ok t) → (∀ tt, t ≠ .StartElement tt) → P r d1)
    (hNext : ∀ r d d1 tt r2 d2, P r d → d.Token = (d1, .ok (.StartElement tt)) →
      body tt r d1 = .next r2 d2 → P r2 d2)
    (hRet : ∀ r d d1 tt r2 d2 e, P r d → d.Token = (d1, .ok (.StartElement tt)) →
      body tt r d1 = .ret r2 d2 e → Q ⟨r2, d2, some e⟩) :
    ∀ (fuel : Nat) (r : α) (d : Decoder), d.toks.length < fuel → P r d →
      Q (tokenLoop body fuel r d) := by
  intro fuel
  induction fuel with
  | zero => intro r d h; exact absurd h (Nat.not_lt_zero _)
  | succ fuel ih =>
    intro r d hlen hP
    rcases hT : d.Token with ⟨d1, e | t⟩
    · by_cases he : e = .EOF
      · subst he; rw [tokenLoop_eof body fuel r hT]; exact hEOF r d d1 hP hT
      · rw [tokenLoop_error body fuel r hT he]; exact hErr r d d1 e hP hT he
    · have hlen1 : d1.toks.length < fuel := by
        have := (Token_ok hT).1
        rw [this] at hlen; simp at hlen; omega
      by_cases hs : ∃ tt, t = .StartElement tt
      · obtain ⟨tt, rfl⟩ := hs
        rw [tokenLoop_start body fuel r hT]
        rcases hb : body tt r d1 with ⟨r2, d2⟩ | ⟨r2, d2, e⟩
        · have h2 := hshrink tt r d1
          rw [hb] at h2
          exact ih r2 d2 (by simp only [Step.dec] at h2; omega) (hNext r d d1 tt r2 d2 hP hT hb)
        · exact hRet r d d1 tt r2 d2 e hP hT hb
      · have ht : ∀ tt, t ≠ .StartElement tt := fun tt h => hs ⟨tt, h⟩
        rw [tokenLoop_other body fuel r hT ht]
        exact ih r d1 hlen1 (hOther r d d1 t hP hT ht)

/-- The iteration bound does not matter once it exceeds the number of pending
tokens. -/
theorem tokenLoop_fuel {α : Type} (body : StartElement → α → Decoder → Step α)
    (hshrink : ∀ tt r d, (body tt r d).dec.toks.length ≤ d.toks.length) :
    ∀ (f1 f2 : Nat) (r : α) (d : Decoder), d.toks.length < f1 → d.toks.length < f2 →
      tokenLoop body f1 r d = tokenLoop body f2 r d := by
  intro f1
  induction f1 with
  | zero => intro f2 r d h; exact absurd h (Nat.not_lt_zero _)
  | succ f1 ih =>
    intro f2 r d h1 h2
    obtain ⟨f2, rfl⟩ : ∃ k, f2 = k + 1 := ⟨f2 - 1, by omega⟩
    rcases hT : d.Token with ⟨d1, e | t⟩
    · by_cases he : e = .EOF
      · subst he; rw [tokenLoop_eof body f1 r hT, tokenLoop_eof body f2 r hT]
      · rw [tokenLoop_error body f1 r hT he, tokenLoop_error body f2 r hT he]
    · have hlen : d.toks.length = d1.toks.length + 1 := by
        rw [(Token_ok hT).1]; simp
      by_cases hs : ∃ tt, t = .StartElement tt
      · obtain ⟨tt, rfl⟩ := hs
        rw [tokenLoop_start body f1 r hT, tokenLoop_start body f2 r hT]
        rcases hb : body tt r d1 with ⟨r2, d2⟩ | ⟨r2, d2, e⟩
        · have h3 := hshrink tt r d1
          rw [hb] at h3
          simp only [Step.dec] at h3
          exact ih f2 r2 d2 (by omega) (by omega)
        · rfl
      · have ht : ∀ tt, t ≠ .StartElement tt := fun tt h => hs ⟨tt, h⟩
        rw [tokenLoop_other body f1 r hT ht, tokenLoop_other body f2 r hT ht]
        exact ih f2 r d1 (by omega) (by omega)

/-! ## Every call leaves a decoder that comes after the one it was given -/

theorem pushEOF_reach (d : Decoder) : d.Reach d.pushEOF :=
  ⟨by simp [Decoder.pushEOF], fun h => by simpa [Decoder.TokErr, Decoder.pushEOF] using h⟩

theorem popEOF_reach (d : Decoder) : d.Reach d.popEOF.1 := by
  unfold Decoder.popEOF
  split
  · exact ⟨by simp, fun h => by simpa [Decoder.TokErr] using h⟩
  · exact Decoder.Reach.refl _

theorem unmarshalInterface_reach {α : Type} (typ : String)
    (f : α → Decoder → StartElement → Outcome α)
    (hf : ∀ (v : α) (d : Decoder) (s : StartElement), d.Reach (f v d s).dec) (v : α) (d : Decoder) (s : StartElement) :
    d.Reach (d.unmarshalInterface typ f v s).dec := by
  have h1 := (pushEOF_reach d).trans (hf v d.pushEOF s)
  unfold Decoder.unmarshalInterface
  simp only
  split
  · exact h1.trans (popEOF_reach _)
  · split
    · exact h1.trans (popEOF_reach _)
    · exact h1

theorem DecodeElement_reach {α : Type} (typ : String)
    (f : α → Decoder → StartElement → Outcome α)
    (hf : ∀ (v : α) (d : Decoder) (s : StartElement), d.Reach (f v d s).dec) (v : α) (d : Decoder) (s : StartElement) :
    d.Reach (d.DecodeElement typ f v s).dec :=
  unmarshalInterface_reach typ f hf v d s

theorem skipLoop_reach : ∀ (fuel depth : Nat) (d : Decoder), d.Reach (d.skipLoop fuel depth).1 := by
  intro fuel
  induction fuel with
  | zero => intro depth d; exact Decoder.Reach.refl _
  | succ fuel ih =>
    intro depth d
    have hT := Token_reach d
    unfold Decoder.skipLoop
    split
    · next h => rw [h] at hT; exact hT
    · next h => rw [h] at hT; exact hT.trans (ih _ _)
    · next h =>
      rw [h] at hT
      split
      · exact hT
      · exact hT.trans (ih _ _)
    · next h => rw [h] at hT; exact hT.trans (ih _ _)

theorem Skip_reach (d : Decoder) : d.Reach d.Skip.1 :=
  skipLoop_reach _ _ d

theorem unmarshalLoop_reach (keep : Bool) :
    ∀ (fuel : Nat) (data : String) (d : Decoder), d.Reach (d.unmarshalLoop keep fuel data).1 := by
  intro fuel
  induction fuel with
  | zero => intro data d; exact Decoder.Reach.refl _
  | succ fuel ih =>
    intro data d
    have hT := Token_reach d
    unfold Decoder.unmarshalLoop
    split
    · next h => rw [h] at hT; exact hT
    · next d1 _ h =>
      rw [h] at hT
      have hS := Skip_reach d1
      split
      · next h2 => rw [h2] at hS; exact hT.trans hS
      · next h2 => rw [h2] at hS; exact (hT.trans hS).trans (ih _ _)
    · next h => rw [h] at hT; exact hT
    · next h => rw [h] at hT; exact hT.trans (ih _ _)
    · next h => rw [h] at hT; exact hT.trans (ih _ _)

theorem DecodeElementInt64_reach (v : Int) (d : Decoder) (s : StartElement) :
    d.Reach (d.DecodeElementInt64 v s).dec := by
  have h := unmarshalLoop_reach true (d.toks.length + 1) "" d
  unfold Decoder.DecodeElementInt64
  split
  · next h1 => rw [h1] at h; exact h
  · next h1 =>
    rw [h1] at h
    split <;> exact h

theorem DecodeElementAGraphicFrameLocks_reach (v : AGraphicFrameLocks) (d : Decoder)
    (s : StartElement) : d.Reach (d.DecodeElementAGraphicFrameLocks v s).dec := by
  have h := unmarshalLoop_reach false (d.toks.length + 1) "" d
  unfold Decoder.DecodeElementAGraphicFrameLocks
  split
  · exact Decoder.Reach.refl _
  · split
    · exact Decoder.Reach.refl _
    · split
      · exact Decoder.Reach.refl _
      · split
        · next h1 => rw [h1] at h; exact h
        · next h1 => rw [h1] at h; exact h

theorem DecodeElementAStretch_reach (v : AStretch) (d : Decoder)
    (s : StartElement) : d.Reach (d.DecodeElementAStretch v s).dec := by
  have h := unmarshalLoop_reach false (d.toks.length + 1) "" d
  unfold Decoder.DecodeElementAStretch
  split
  · exact Decoder.Reach.refl _
  · split
    · next h1 => rw [h1] at h; exact h
    · next h1 => rw [h1] at h; exact h

theorem DecodeElementAPrstGeom_reach (v : APrstGeom) (d : Decoder)
    (s : StartElement) : d.Reach (d.DecodeElementAPrstGeom v s).dec := by
  have h := unmarshalLoop_reach false (d.toks.length + 1) "" d
  unfold Decoder.DecodeElementAPrstGeom
  split
  · exact Decoder.Reach.refl _
  · split
    · next h1 => rw [h1] at h; exact h
    · next h1 => rw [h1] at h; exact h

theorem tokenLoop_reach {α : Type} (body : StartElement → α → Decoder → Step α)
    (hb : ∀ (tt : StartElement) (r : α) (d : Decoder), d.Reach (body tt r d).dec) :
    ∀ (fuel : Nat) (r : α) (d : Decoder), d.Reach (tokenLoop body fuel r d).dec := by
  intro fuel
  induction fuel with
  | zero => intro r d; exact Decoder.Reach.refl _
  | succ fuel ih =>
    intro r d
    have hT := Token_reach d
    rcases hTk : d.Token with ⟨d1, e | t⟩
    · rw [hTk] at hT
      by_cases he : e = .EOF
      · subst he; rw [tokenLoop_eof body fuel r hTk]; exact hT
      · rw [tokenLoop_error body fuel r hTk he]; exact hT
    · rw [hTk] at hT
      by_cases hs : ∃ tt, t = .StartElement tt
      · obtain ⟨tt, rfl⟩ := hs
        rw [tokenLoop_start body fuel r hTk]
        have h2 := hb tt r d1
        rcases hbd : body tt r d1 with ⟨r2, d2⟩ | ⟨r2, d2, e⟩
        · rw [hbd] at h2; exact (hT.trans h2).trans (ih r2 d2)
        · rw [hbd] at h2; exact hT.trans h2
      · have ht : ∀ tt, t ≠ .StartElement tt := fun tt h => hs ⟨tt, h⟩
        rw [tokenLoop_other body fuel r hTk ht]
        exact hT.trans (ih r d1)

theorem body_shrink {α : Type} {body : StartElement → α → Decoder → Step α}
    (hb : ∀ (tt : StartElement) (r : α) (d : Decoder), d.Reach (body tt r d).dec) (tt : StartElement) (r : α) (d : Decoder) :
    (body tt r d).dec.toks.length ≤ d.toks.length :=
  (hb tt r d).length_le

theorem WPExtent_UnmarshalXML_reach (r : WPExtent) (d : Decoder) (s : StartElement) :
    d.Reach (WPExtent.UnmarshalXML r d s).dec := by
  have hT := Token_reach d
  unfold WPExtent.UnmarshalXML
  split
  · exact Decoder.Reach.refl _
  · split
    · next h => rw [h] at hT; exact hT
    · next h => rw [h] at hT; exact hT

theorem WPEffectExtent_UnmarshalXML_reach (r : WPEffectExtent) (d : Decoder) (s : StartElement) :
    d.Reach (WPEffectExtent.UnmarshalXML r d s).dec := by
  have hT := Token_reach d
  unfold WPEffectExtent.UnmarshalXML
  split
  · exact Decoder.Reach.refl _
  · split
    · next h => rw [h] at hT; exact hT
    · next h => rw [h] at hT; exact hT

theorem WPDocPr_UnmarshalXML_reach (r : WPDocPr) (d : Decoder) (s : StartElement) :
    d.Reach (WPDocPr.UnmarshalXML r d s).dec := by
  have hT := Token_reach d
  unfold WPDocPr.UnmarshalXML
  split
  · exact Decoder.Reach.refl _
  · split
    · next h => rw [h] at hT; exact hT
    · next h => rw [h] at hT; exact hT

theorem WPCNvGraphicFramePr_body_reach (tt : StartElement) (r : WPCNvGraphicFramePr) (d : Decoder) :
    d.Reach (WPCNvGraphicFramePr.body tt r d).dec := by
  unfold WPCNvGraphicFramePr.body
  by_cases h0 : tt.Name.Local = "graphicFrameLocks"
  · rw [if_pos h0]
    (try dsimp only)
    repeat' split
    all_goals first | exact Decoder.Reach.refl _ | exact DecodeElementAGraphicFrameLocks_reach _ _ _
  rw [if_neg h0]
  exact Decoder.Reach.refl _

theorem WPCNvGraphicFramePr_UnmarshalXML_reach (r : WPCNvGraphicFramePr) (d : Decoder) (s : StartElement) :
    d.Reach (WPCNvGraphicFramePr.UnmarshalXML r d s).dec :=
  tokenLoop_reach _ WPCNvGraphicFramePr_body_reach _ _ _

theorem PICNonVisualPicProperties_body_reach (tt : StartElement) (r : PICNonVisualPicProperties) (d : Decoder) :
    d.Reach (PICNonVisualPicProperties.body tt r d).dec := by
  unfold PICNonVisualPicProperties.body
  by_cases h0 : tt.Name.Local = "cNvPr"
  · rw [if_pos h0]
    (try dsimp only)
    repeat' split
    all_goals first | exact Decoder.Reach.refl _
  rw [if_neg h0]
  exact Decoder.Reach.refl _

theorem PICNonVisualPicProperties_UnmarshalXML_reach (r : PICNonVisualPicProperties) (d : Decoder) (s : StartElement) :
    d.Reach (PICNonVisualPicProperties.UnmarshalXML r d s).dec :=
  tokenLoop_reach _ PICNonVisualPicProperties_body_reach _ _ _

theorem ABlip_body_reach (tt : StartElement) (r : ABlip) (d : Decoder) :
    d.Reach (ABlip.body tt r d).dec := by
  unfold ABlip.body
  by_cases h0 : tt.Name.Local = "alphaModFix"
  · rw [if_pos h0]
    (try dsimp only)
    repeat' split
    all_goals first | exact Decoder.Reach.refl _
  rw [if_neg h0]
  exact Decoder.Reach.refl _

theorem ABlip_UnmarshalXML_reach (r : ABlip) (d : Decoder) (s : StartElement) :
    d.Reach (ABlip.UnmarshalXML r d s).dec :=
  tokenLoop_reach _ ABlip_body_reach _ _ _

theorem PICBlipFill_body_reach (tt : StartElement) (r : PICBlipFill) (d : Decoder) :
    d.Reach (PICBlipFill.body tt r d).dec := by
  unfold PICBlipFill.body
  by_cases h0 : tt.Name.Local = "blip"
  · rw [if_pos h0]
    (try dsimp only)
    repeat' split
    all_goals first | exact Decoder.Reach.refl _ | exact DecodeElement_reach _ _ ABlip_UnmarshalXML_reach _ _ _ | exact DecodeElementAStretch_reach _ _ _
  rw [if_neg h0]
  by_cases h1 : tt.Name.Local = "stretch"
  · rw [if_pos h1]
    (try dsimp only)
    repeat' split
    all_goals first | exact Decoder.Reach.refl _ | exact DecodeElement_reach _ _ ABlip_UnmarshalXML_reach _ _ _ | exact DecodeElementAStretch_reach _ _ _
  rw [if_neg h1]
  exact Decoder.Reach.refl _

theorem PICBlipFill_UnmarshalXML_reach (r : PICBlipFill) (d : Decoder) (s : StartElement) :
    d.Reach (PICBlipFill.UnmarshalXML r d s).dec :=
  tokenLoop_reach _ PICBlipFill_body_reach _ _ _

theorem AXfrm_body_reach (tt : StartElement) (r : AXfrm) (d : Decoder) :
    d.Reach (AXfrm.body tt r d).dec := by
  unfold AXfrm.body
  by_cases h0 : tt.Name.Local = "off"
  · rw [if_pos h0]
    (try dsimp only)
    repeat' split
    all_goals first | exact Decoder.Reach.refl _
  rw [if_neg h0]
  by_cases h1 : tt.Name.Local = "ext"
  · rw [if_pos h1]
    (try dsimp only)
    repeat' split
    all_goals first | exact Decoder.Reach.refl _
  rw [if_neg h1]
  exact Decoder.Reach.refl _

theorem AXfrm_UnmarshalXML_reach (r : AXfrm) (d : Decoder) (s : StartElement) :
    d.Reach (AXfrm.UnmarshalXML r d s).dec := by
  unfold AXfrm.UnmarshalXML
  split
  · exact Decoder.Reach.refl _
  · exact tokenLoop_reach _ AXfrm_body_reach _ _ _

theorem PICSpPr_body_reach (tt : StartElement) (r : PICSpPr) (d : Decoder) :
    d.Reach (PICSpPr.body tt r d).dec := by
  unfold PICSpPr.body
  by_cases h0 : tt.Name.Local = "xfrm"
  · rw [if_pos h0]
    (try dsimp only)
    repeat' split
    all_goals first | exact Decoder.Reach.refl _ | exact DecodeElement_reach _ _ AXfrm_UnmarshalXML_reach _ _ _ | exact DecodeElementAPrstGeom_reach _ _ _
  rw [if_neg h0]
  by_cases h1 : tt.Name.Local = "prstGeom"
  · rw [if_pos h1]
    (try dsimp only)
    repeat' split
    all_goals first | exact Decoder.Reach.refl _ | exact DecodeElement_reach _ _ AXfrm_UnmarshalXML_reach _ _ _ | exact DecodeElementAPrstGeom_reach _ _ _
  rw [if_neg h1]
  exact Decoder.Reach.refl _

theorem PICSpPr_UnmarshalXML_reach (r : PICSpPr) (d : Decoder) (s : StartElement) :
    d.Reach (PICSpPr.UnmarshalXML r d s).dec :=
  tokenLoop_reach _ PICSpPr_body_reach _ _ _

theorem PICPic_body_reach (tt : StartElement) (r : PICPic) (d : Decoder) :
    d.Reach (PICPic.body tt r d).dec := by
  unfold PICPic.body
  by_cases h0 : tt.Name.Local = "nvPicPr"
  · rw [if_pos h0]
    (try dsimp only)
    repeat' split
    all_goals first | exact Decoder.Reach.refl _ | exact DecodeElement_reach _ _ PICNonVisualPicProperties_UnmarshalXML_reach _ _ _ | exact DecodeElement_reach _ _ PICBlipFill_UnmarshalXML_reach _ _ _ | exact DecodeElement_reach _ _ PICSpPr_UnmarshalXML_reach _ _ _
  rw [if_neg h0]
  by_cases h1 : tt.Name.Local = "blipFill"
  · rw [if_pos h1]
    (try dsimp only)
    repeat' split
    all_goals first | exact Decoder.Reach.refl _ | exact DecodeElement_reach _ _ PICNonVisualPicProperties_UnmarshalXML_reach _ _ _ | exact DecodeElement_reach _ _ PICBlipFill_UnmarshalXML_reach _ _ _ | exact DecodeElement_reach _ _ PICSpPr_UnmarshalXML_reach _ _ _
  rw [if_neg h1]
  by_cases h2 : tt.Name.Local = "spPr"
  · rw [if_pos h2]
    (try dsimp only)
    repeat' split
    all_goals first | exact Decoder.Reach.refl _ | exact DecodeElement_reach _ _ PICNonVisualPicProperties_UnmarshalXML_reach _ _ _ | exact DecodeElement_reach _ _ PICBlipFill_UnmarshalXML_reach _ _ _ | exact DecodeElement_reach _ _ PICSpPr_UnmarshalXML_reach _ _ _
  rw [if_neg h2]
  exact Decoder.Reach.refl _

theorem PICPic_UnmarshalXML_reach (r : PICPic) (d : Decoder) (s : StartElement) :
    d.Reach (PICPic.UnmarshalXML r d s).dec :=
  tokenLoop_reach _ PICPic_body_reach _ _ _

theorem AGraphicData_body_reach (tt : StartElement) (r : AGraphicData) (d : Decoder) :
    d.Reach (AGraphicData.body tt r d).dec := by
  unfold AGraphicData.body
  by_cases h0 : tt.Name.Local = "pic"
  · rw [if_pos h0]
    (try dsimp only)
    repeat' split
    all_goals first | exact Decoder.Reach.refl _ | exact DecodeElement_reach _ _ PICPic_UnmarshalXML_reach _ _ _
  rw [if_neg h0]
  exact Decoder.Reach.refl _

theorem AGraphicData_UnmarshalXML_reach (r : AGraphicData) (d : Decoder) (s : StartElement) :
    d.Reach (AGraphicData.UnmarshalXML r d s).dec :=
  tokenLoop_reach _ AGraphicData_body_reach _ _ _

theorem AGraphic_body_reach (tt : StartElement) (r : AGraphic) (d : Decoder) :
    d.Reach (AGraphic.body tt r d).dec := by
  unfold AGraphic.body
  by_cases h0 : tt.Name.Local = "graphicData"
  · rw [if_pos h0]
    (try dsimp only)
    repeat' split
    all_goals first | exact Decoder.Reach.refl _ | exact DecodeElement_reach _ _ AGraphicData_UnmarshalXML_reach _ _ _
  rw [if_neg h0]
  exact Decoder.Reach.refl _

theorem AGraphic_UnmarshalXML_reach (r : AGraphic) (d : Decoder) (s : StartElement) :
    d.Reach (AGraphic.UnmarshalXML r d s).dec :=
  tokenLoop_reach _ AGraphic_body_reach _ _ _

theorem WPPositionH_body_reach (tt : StartElement) (r : WPPositionH) (d : Decoder) :
    d.Reach (WPPositionH.body tt r d).dec := by
  unfold WPPositionH.body
  by_cases h0 : tt.Name.Local = "posOffset"
  · rw [if_pos h0]
    (try dsimp only)
    repeat' split
    all_goals first | exact Decoder.Reach.refl _ | exact DecodeElementInt64_reach _ _ _
  rw [if_neg h0]
  exact Decoder.Reach.refl _

theorem WPPositionH_UnmarshalXML_reach (r : WPPositionH) (d : Decoder) (s : StartElement) :
    d.Reach (WPPositionH.UnmarshalXML r d s).dec :=
  tokenLoop_reach _ WPPositionH_body_reach _ _ _

theorem WPPositionV_body_reach (tt : StartElement) (r : WPPositionV) (d : Decoder) :
    d.Reach (WPPositionV.body tt r d).dec := by
  unfold WPPositionV.body
  by_cases h0 : tt.Name.Local = "posOffset"
  · rw [if_pos h0]
    (try dsimp only)
    repeat' split
    all_goals first | exact Decoder.Reach.refl _ | exact DecodeElementInt64_reach _ _ _
  rw [if_neg h0]
  exact Decoder.Reach.refl _

theorem WPPositionV_UnmarshalXML_reach (r : WPPositionV) (d : Decoder) (s : StartElement) :
    d.Reach (WPPositionV.UnmarshalXML r d s).dec :=
  tokenLoop_reach _ WPPositionV_body_reach _ _ _

theorem WPInline_body_reach (tt : StartElement) (r : WPInline) (d : Decoder) :
    d.Reach (WPInline.body tt r d).dec := by
  unfold WPInline.body
  by_cases h0 : tt.Name.Local = "extent"
  · rw [if_pos h0]
    (try dsimp only)
    repeat' split
    all_goals first | exact Decoder.Reach.refl _ | exact DecodeElement_reach _ _ WPDocPr_UnmarshalXML_reach _ _ _ | exact DecodeElement_reach _ _ WPCNvGraphicFramePr_UnmarshalXML_reach _ _ _ | exact DecodeElement_reach _ _ AGraphic_UnmarshalXML_reach _ _ _
  rw [if_neg h0]
  by_cases h1 : tt.Name.Local = "effectExtent"
  · rw [if_pos h1]
    (try dsimp only)
    repeat' split
    all_goals first | exact Decoder.Reach.refl _ | exact DecodeElement_reach _ _ WPDocPr_UnmarshalXML_reach _ _ _ | exact DecodeElement_reach _ _ WPCNvGraphicFramePr_UnmarshalXML_reach _ _ _ | exact DecodeElement_reach _ _ AGraphic_UnmarshalXML_reach _ _ _
  rw [if_neg h1]
  by_cases h2 : tt.Name.Local = "docPr"
  · rw [if_pos h2]
    (try dsimp only)
    repeat' split
    all_goals first | exact Decoder.Reach.refl _ | exact DecodeElement_reach _ _ WPDocPr_UnmarshalXML_reach _ _ _ | exact DecodeElement_reach _ _ WPCNvGraphicFramePr_UnmarshalXML_reach _ _ _ | exact DecodeElement_reach _ _ AGraphic_UnmarshalXML_reach _ _ _
  rw [if_neg h2]
  by_cases h3 : tt.Name.Local = "cNvGraphicFramePr"
  · rw [if_pos h3]
    (try dsimp only)
    repeat' split
    all_goals first | exact Decoder.Reach.refl _ | exact DecodeElement_reach _ _ WPDocPr_UnmarshalXML_reach _ _ _ | exact DecodeElement_reach _ _ WPCNvGraphicFramePr_UnmarshalXML_reach _ _ _ | exact DecodeElement_reach _ _ AGraphic_UnmarshalXML_reach _ _ _
  rw [if_neg h3]
  by_cases h4 : tt.Name.Local = "graphic"
  · rw [if_pos h4]
    (try dsimp only)
    repeat' split
    all_goals first | exact Decoder.Reach.refl _ | exact DecodeElement_reach _ _ WPDocPr_UnmarshalXML_reach _ _ _ | exact DecodeElement_reach _ _ WPCNvGraphicFramePr_UnmarshalXML_reach _ _ _ | exact DecodeElement_reach _ _ AGraphic_UnmarshalXML_reach _ _ _
  rw [if_neg h4]
  exact Decoder.Reach.refl _

theorem WPInline_UnmarshalXML_reach (r : WPInline) (d : Decoder) (s : StartElement) :
    d.Reach (WPInline.UnmarshalXML r d s).dec := by
  unfold WPInline.UnmarshalXML
  split
  · exact Decoder.Reach.refl _
  · exact tokenLoop_reach _ WPInline_body_reach _ _ _

theorem WPAnchor_body_reach (tt : StartElement) (r : WPAnchor) (d : Decoder) :
    d.Reach (WPAnchor.body tt r d).dec := by
  unfold WPAnchor.body
  by_cases h0 : tt.Name.Local = "simplePos"
  · rw [if_pos h0]
    (try dsimp only)
    repeat' split
    all_goals first | exact Decoder.Reach.refl _ | exact DecodeElement_reach _ _ WPPositionH_UnmarshalXML_reach _ _ _ | exact DecodeElement_reach _ _ WPPositionV_UnmarshalXML_reach _ _ _ | exact DecodeElement_reach _ _ WPExtent_UnmarshalXML_reach _ _ _ | exact DecodeElement_reach _ _ WPEffectExtent_UnmarshalXML_reach _ _ _ | exact DecodeElement_reach _ _ WPDocPr_UnmarshalXML_reach _ _ _ | exact DecodeElement_reach _ _ WPCNvGraphicFramePr_UnmarshalXML_reach _ _ _ | exact DecodeElement_reach _ _ AGraphic_UnmarshalXML_reach _ _ _
  rw [if_neg h0]
  by_cases h1 : tt.Name.Local = "positionH"
  · rw [if_pos h1]
    (try dsimp only)
    repeat' split
    all_goals first | exact Decoder.Reach.refl _ | exact DecodeElement_reach _ _ WPPositionH_UnmarshalXML_reach _ _ _ | exact DecodeElement_reach _ _ WPPositionV_UnmarshalXML_reach _ _ _ | exact DecodeElement_reach _ _ WPExtent_UnmarshalXML_reach _ _ _ | exact DecodeElement_reach _ _ WPEffectExtent_UnmarshalXML_reach _ _ _ | exact DecodeElement_reach _ _ WPDocPr_UnmarshalXML_reach _ _ _ | exact DecodeElement_reach _ _ WPCNvGraphicFramePr_UnmarshalXML_reach _ _ _ | exact DecodeElement_reach _ _ AGraphic_UnmarshalXML_reach _ _ _
  rw [if_neg h1]
  by_cases h2 : tt.Name.Local = "positionV"
  · rw [if_pos h2]
    (try dsimp only)
    repeat' split
    all_goals first | exact Decoder.Reach.refl _ | exact DecodeElement_reach _ _ WPPositionH_UnmarshalXML_reach _ _ _ | exact DecodeElement_reach _ _ WPPositionV_UnmarshalXML_reach _ _ _ | exact DecodeElement_reach _ _ WPExtent_UnmarshalXML_reach _ _ _ | exact DecodeElement_reach _ _ WPEffectExtent_UnmarshalXML_reach _ _ _ | exact DecodeElement_reach _ _ WPDocPr_UnmarshalXML_reach _ _ _ | exact DecodeElement_reach _ _ WPCNvGraphicFramePr_UnmarshalXML_reach _ _ _ | exact DecodeElement_reach _ _ AGraphic_UnmarshalXML_reach _ _ _
  rw [if_neg h2]
  by_cases h3 : tt.Name.Local = "extent"
  · rw [if_pos h3]
    (try dsimp only)
    repeat' split
    all_goals first | exact Decoder.Reach.refl _ | exact DecodeElement_reach _ _ WPPositionH_UnmarshalXML_reach _ _ _ | exact DecodeElement_reach _ _ WPPositionV_UnmarshalXML_reach _ _ _ | exact DecodeElement_reach _ _ WPExtent_UnmarshalXML_reach _ _ _ | exact DecodeElement_reach _ _ WPEffectExtent_UnmarshalXML_reach _ _ _ | exact DecodeElement_reach _ _ WPDocPr_UnmarshalXML_reach _ _ _ | exact DecodeElement_reach _ _ WPCNvGraphicFramePr_UnmarshalXML_reach _ _ _ | exact DecodeElement_reach _ _ AGraphic_UnmarshalXML_reach _ _ _
  rw [if_neg h3]
  by_cases h4 : tt.Name.Local = "effectExtent"
  · rw [if_pos h4]
    (try dsimp only)
    repeat' split
    all_goals first | exact Decoder.Reach.refl _ | exact DecodeElement_reach _ _ WPPositionH_UnmarshalXML_reach _ _ _ | exact DecodeElement_reach _ _ WPPositionV_UnmarshalXML_reach _ _ _ | exact DecodeElement_reach _ _ WPExtent_UnmarshalXML_reach _ _ _ | exact DecodeElement_reach _ _ WPEffectExtent_UnmarshalXML_reach _ _ _ | exact DecodeElement_reach _ _ WPDocPr_UnmarshalXML_reach _ _ _ | exact DecodeElement_reach _ _ WPCNvGraphicFramePr_UnmarshalXML_reach _ _ _ | exact DecodeElement_reach _ _ AGraphic_UnmarshalXML_reach _ _ _
  rw [if_neg h4]
  by_cases h5 : tt.Name.Local = "wrapNone"
  · rw [if_pos h5]
    (try dsimp only)
    repeat' split
    all_goals first | exact Decoder.Reach.refl _ | exact DecodeElement_reach _ _ WPPositionH_UnmarshalXML_reach _ _ _ | exact DecodeElement_reach _ _ WPPositionV_UnmarshalXML_reach _ _ _ | exact DecodeElement_reach _ _ WPExtent_UnmarshalXML_reach _ _ _ | exact DecodeElement_reach _ _ WPEffectExtent_UnmarshalXML_reach _ _ _ | exact DecodeElement_reach _ _ WPDocPr_UnmarshalXML_reach _ _ _ | exact DecodeElement_reach _ _ WPCNvGraphicFramePr_UnmarshalXML_reach _ _ _ | exact DecodeElement_reach _ _ AGraphic_UnmarshalXML_reach _ _ _
  rw [if_neg h5]
  by_cases h6 : tt.Name.Local = "wrapSquare"
  · rw [if_pos h6]
    (try dsimp only)
    repeat' split
    all_goals first | exact Decoder.Reach.refl _ | exact DecodeElement_reach _ _ WPPositionH_UnmarshalXML_reach _ _ _ | exact DecodeElement_reach _ _ WPPositionV_UnmarshalXML_reach _ _ _ | exact DecodeElement_reach _ _ WPExtent_UnmarshalXML_reach _ _ _ | exact DecodeElement_reach _ _ WPEffectExtent_UnmarshalXML_reach _ _ _ | exact DecodeElement_reach _ _ WPDocPr_UnmarshalXML_reach _ _ _ | exact DecodeElement_reach _ _ WPCNvGraphicFramePr_UnmarshalXML_reach _ _ _ | exact DecodeElement_reach _ _ AGraphic_UnmarshalXML_reach _ _ _
  rw [if_neg h6]
  by_cases h7 : tt.Name.Local = "docPr"
  · rw [if_pos h7]
    (try dsimp only)
    repeat' split
    all_goals first | exact Decoder.Reach.refl _ | exact DecodeElement_reach _ _ WPPositionH_UnmarshalXML_reach _ _ _ | exact DecodeElement_reach _ _ WPPositionV_UnmarshalXML_reach _ _ _ | exact DecodeElement_reach _ _ WPExtent_UnmarshalXML_reach _ _ _ | exact DecodeElement_reach _ _ WPEffectExtent_UnmarshalXML_reach _ _ _ | exact DecodeElement_reach _ _ WPDocPr_UnmarshalXML_reach _ _ _ | exact DecodeElement_reach _ _ WPCNvGraphicFramePr_UnmarshalXML_reach _ _ _ | exact DecodeElement_reach _ _ AGraphic_UnmarshalXML_reach _ _ _
  rw [if_neg h7]
  by_cases h8 : tt.Name.Local = "cNvGraphicFramePr"
  · rw [if_pos h8]
    (try dsimp only)
    repeat' split
    all_goals first | exact Decoder.Reach.refl _ | exact DecodeElement_reach _ _ WPPositionH_UnmarshalXML_reach _ _ _ | exact DecodeElement_reach _ _ WPPositionV_UnmarshalXML_reach _ _ _ | exact DecodeElement_reach _ _ WPExtent_UnmarshalXML_reach _ _ _ | exact DecodeElement_reach _ _ WPEffectExtent_UnmarshalXML_reach _ _ _ | exact DecodeElement_reach _ _ WPDocPr_UnmarshalXML_reach _ _ _ | exact DecodeElement_reach _ _ WPCNvGraphicFramePr_UnmarshalXML_reach _ _ _ | exact DecodeElement_reach _ _ AGraphic_UnmarshalXML_reach _ _ _
  rw [if_neg h8]
  by_cases h9 : tt.Name.Local = "graphic"
  · rw [if_pos h9]
    (try dsimp only)
    repeat' split
    all_goals first | exact Decoder.Reach.refl _ | exact DecodeElement_reach _ _ WPPositionH_UnmarshalXML_reach _ _ _ | exact DecodeElement_reach _ _ WPPositionV_UnmarshalXML_reach _ _ _ | exact DecodeElement_reach _ _ WPExtent_UnmarshalXML_reach _ _ _ | exact DecodeElement_reach _ _ WPEffectExtent_UnmarshalXML_reach _ _ _ | exact DecodeElement_reach _ _ WPDocPr_UnmarshalXML_reach _ _ _ | exact DecodeElement_reach _ _ WPCNvGraphicFramePr_UnmarshalXML_reach _ _ _ | exact DecodeElement_reach _ _ AGraphic_UnmarshalXML_reach _ _ _
  rw [if_neg h9]
  exact Decoder.Reach.refl _

theorem WPAnchor_UnmarshalXML_reach (r : WPAnchor) (d : Decoder) (s : StartElement) :
    d.Reach (WPAnchor.UnmarshalXML r d s).dec := by
  unfold WPAnchor.UnmarshalXML
  split
  · exact Decoder.Reach.refl _
  · exact tokenLoop_reach _ WPAnchor_body_reach _ _ _

theorem Drawing_body_reach (tt : StartElement) (r : Drawing) (d : Decoder) :
    d.Reach (Drawing.body tt r d).dec := by
  unfold Drawing.body
  by_cases h0 : tt.Name.Local = "inline"
  · rw [if_pos h0]
    (try dsimp only)
    repeat' split
    all_goals first | exact Decoder.Reach.refl _ | exact DecodeElement_reach _ _ WPInline_UnmarshalXML_reach _ _ _ | exact DecodeElement_reach _ _ WPAnchor_UnmarshalXML_reach _ _ _
  rw [if_neg h0]
  by_cases h1 : tt.Name.Local = "anchor"
  · rw [if_pos h1]
    (try dsimp only)
    repeat' split
    all_goals first | exact Decoder.Reach.refl _ | exact DecodeElement_reach _ _ WPInline_UnmarshalXML_reach _ _ _ | exact DecodeElement_reach _ _ WPAnchor_UnmarshalXML_reach _ _ _
  rw [if_neg h1]
  exact Decoder.Reach.refl _

theorem Drawing_UnmarshalXML_reach (r : Drawing) (d : Decoder) (s : StartElement) :
    d.Reach (Drawing.UnmarshalXML r d s).dec :=
  tokenLoop_reach _ Drawing_body_reach _ _ _

theorem Hyperlink_body_reach {Run : Type}
    (run : Run → Decoder → StartElement → Outcome Run)
    (hrun : ∀ (v : Run) (d : Decoder) (s : StartElement), d.Reach (run v d s).dec)
    (tt : StartElement) (r : Hyperlink Run) (d : Decoder) :
    d.Reach (Hyperlink.body run tt r d).dec := by
  unfold Hyperlink.body
  split
  · exact DecodeElement_reach _ _ hrun _ _ _
  · exact Decoder.Reach.refl _

theorem Hyperlink_UnmarshalXML_reach {Run : Type}
    (run : Run → Decoder → StartElement → Outcome Run)
    (hrun : ∀ (v : Run) (d : Decoder) (s : StartElement), d.Reach (run v d s).dec)
    (r : Hyperlink Run) (d : Decoder) (s : StartElement) :
    d.Reach (Hyperlink.UnmarshalXML run r d s).dec :=
  tokenLoop_reach _ (Hyperlink_body_reach run hrun) _ _ _

/-! ## The attribute loops -/

theorem attrLoop_err_of_mem {α : Type} (body : Attr → α → α × Option Error) (P : Error → Prop)
    (hP : ∀ (a : Attr) (r : α) (e : Error), (body a r).2 = some e → P e)
    (a : Attr) (hbad : ∀ r : α, (body a r).2 ≠ none) :
    ∀ (attrs : List Attr) (r : α), a ∈ attrs → ∃ e, (attrLoop body attrs r).2 = some e ∧ P e := by
  intro attrs
  induction attrs with
  | nil => intro r h; simp at h
  | cons x xs ih =>
    intro r hmem
    unfold attrLoop
    rcases hb : body x r with ⟨r1, _ | e⟩
    · have hne : a ≠ x := by
        rintro rfl
        exact hbad r (by rw [hb])
      have hxs : a ∈ xs := by
        rcases List.mem_cons.1 hmem with h | h
        · exact absurd h hne
        · exact h
      exact ih r1 hxs
    · exact ⟨e, rfl, hP x r e (by rw [hb])⟩

theorem attrLoop_ok {α : Type} (body : Attr → α → α × Option Error) :
    ∀ (attrs : List Attr) (r : α), (∀ a ∈ attrs, ∀ r : α, (body a r).2 = none) →
      attrLoop body attrs r = (attrs.foldl (fun r a => (body a r).1) r, none) := by
  intro attrs
  induction attrs with
  | nil => intro r _; rfl
  | cons x xs ih =>
    intro r h
    unfold attrLoop
    have hx := h x (List.mem_cons_self _ _) r
    rcases hb : body x r with ⟨r1, _ | e⟩
    · simp only [List.foldl_cons, hb]
      exact ih r1 (fun a ha => h a (List.mem_cons_of_mem _ ha))
    · rw [hb] at hx; simp at hx

theorem WPExtent_attr_err_isNum (a : Attr) (r : WPExtent) (e : Error)
    (h : (WPExtent.attr a r).2 = some e) : e.isNum = true := by
  unfold WPExtent.attr at h
  by_cases h0 : a.Name.Local = "cx"
  · rw [if_pos h0] at h; exact ParseInt_err_isNum _ _ _ _ h
  rw [if_neg h0] at h
  by_cases h1 : a.Name.Local = "cy"
  · rw [if_pos h1] at h; exact ParseInt_err_isNum _ _ _ _ h
  rw [if_neg h1] at h
  simp at h

theorem WPExtent_attr_bad (a : Attr) (hmem : a.Name.Local ∈ WPExtent.numericAttrs)
    (hbad : ¬ ∃ n, IsInt64Literal a.Value n) (r : WPExtent) : (WPExtent.attr a r).2 ≠ none := by
  unfold WPExtent.attr
  by_cases h0 : a.Name.Local = "cx"
  · rw [if_pos h0]; exact fun h => hbad ((ParseInt_none_iff _ 64 (Or.inr rfl)).1 h)
  rw [if_neg h0]
  by_cases h1 : a.Name.Local = "cy"
  · rw [if_pos h1]; exact fun h => hbad ((ParseInt_none_iff _ 64 (Or.inr rfl)).1 h)
  rw [if_neg h1]
  simp [WPExtent.numericAttrs, h0, h1] at hmem

theorem WPExtent_UnmarshalXML_err_of_bad (r : WPExtent) (d : Decoder) (start : StartElement)
    (h : ∃ a ∈ start.Attr, a.Name.Local ∈ WPExtent.numericAttrs ∧ ¬ ∃ n, IsInt64Literal a.Value n) :
    ∃ e, (WPExtent.UnmarshalXML r d start).err = some e ∧ e.isNum = true := by
  obtain ⟨a, ha, hn, hbad⟩ := h
  obtain ⟨e, he, hnum⟩ := attrLoop_err_of_mem WPExtent.attr (fun e => e.isNum = true)
    WPExtent_attr_err_isNum a (WPExtent_attr_bad a hn hbad) start.Attr r ha
  refine ⟨e, ?_, hnum⟩
  unfold WPExtent.UnmarshalXML
  split
  · next r1 e1 h1 => rw [h1] at he; simpa using he
  · next r1 h1 => rw [h1] at he; simp at he

theorem WPEffectExtent_attr_err_isNum (a : Attr) (r : WPEffectExtent) (e : Error)
    (h : (WPEffectExtent.attr a r).2 = some e) : e.isNum = true := by
  unfold WPEffectExtent.attr at h
  by_cases h0 : a.Name.Local = "l"
  · rw [if_pos h0] at h; exact ParseInt_err_isNum _ _ _ _ h
  rw [if_neg h0] at h
  by_cases h1 : a.Name.Local = "t"
  · rw [if_pos h1] at h; exact ParseInt_err_isNum _ _ _ _ h
  rw [if_neg h1] at h
  by_cases h2 : a.Name.Local = "r"
  · rw [if_pos h2] at h; exact ParseInt_err_isNum _ _ _ _ h
  rw [if_neg h2] at h
  by_cases h3 : a.Name.Local = "b"
  · rw [if_pos h3] at h; exact ParseInt_err_isNum _ _ _ _ h
  rw [if_neg h3] at h
  simp at h

theorem WPEffectExtent_attr_bad (a : Attr) (hmem : a.Name.Local ∈ WPEffectExtent.numericAttrs)
    (hbad : ¬ ∃ n, IsInt64Literal a.Value n) (r : WPEffectExtent) : (WPEffectExtent.attr a r).2 ≠ none := by
  unfold WPEffectExtent.attr
  by_cases h0 : a.Name.Local = "l"
  · rw [if_pos h0]; exact fun h => hbad ((ParseInt_none_iff _ 64 (Or.inr rfl)).1 h)
  rw [if_neg h0]
  by_cases h1 : a.Name.Local = "t"
  · rw [if_pos h1]; exact fun h => hbad ((ParseInt_none_iff _ 64 (Or.inr rfl)).1 h)
  rw [if_neg h1]
  by_cases h2 : a.Name.Local = "r"
  · rw [if_pos h2]; exact fun h => hbad ((ParseInt_none_iff _ 64 (Or.inr rfl)).1 h)
  rw [if_neg h2]
  by_cases h3 : a.Name.Local = "b"
  · rw [if_pos h3]; exact fun h => hbad ((ParseInt_none_iff _ 64 (Or.inr rfl)).1 h)
  rw [if_neg h3]
  simp [WPEffectExtent.numericAttrs, h0, h1, h2, h3] at hmem

theorem WPEffectExtent_UnmarshalXML_err_of_bad (r : WPEffectExtent) (d : Decoder) (start : StartElement)
    (h : ∃ a ∈ start.Attr, a.Name.Local ∈ WPEffectExtent.numericAttrs ∧ ¬ ∃ n, IsInt64Literal a.Value n) :
    ∃ e, (WPEffectExtent.UnmarshalXML r d start).err = some e ∧ e.isNum = true := by
  obtain ⟨a, ha, hn, hbad⟩ := h
  obtain ⟨e, he, hnum⟩ := attrLoop_err_of_mem WPEffectExtent.attr (fun e => e.isNum = true)
    WPEffectExtent_attr_err_isNum a (WPEffectExtent_attr_bad a hn hbad) start.Attr r ha
  refine ⟨e, ?_, hnum⟩
  unfold WPEffectExtent.UnmarshalXML
  split
  · next r1 e1 h1 => rw [h1] at he; simpa using he
  · next r1 h1 => rw [h1] at he; simp at he

theorem WPDocPr_attr_err_isNum (a : Attr) (r : WPDocPr) (e : Error)
    (h : (WPDocPr.attr a r).2 = some e) : e.isNum = true := by
  unfold WPDocPr.attr at h
  by_cases h0 : a.Name.Local = "id"
  · rw [if_pos h0] at h
    simp only [] at h
    split at h
    · next h2 => simp only [Option.some.injEq] at h; subst h; exact Atoi_err_isNum _ _ h2
    · simp at h
  rw [if_neg h0] at h
  by_cases h1 : a.Name.Local = "name"
  · rw [if_pos h1] at h; simp at h
  rw [if_neg h1] at h
  simp at h

theorem WPDocPr_attr_bad (a : Attr) (hmem : a.Name.Local ∈ WPDocPr.numericAttrs)
    (hbad : ¬ ∃ n, IsInt64Literal a.Value n) (r : WPDocPr) : (WPDocPr.attr a r).2 ≠ none := by
  unfold WPDocPr.attr
  by_cases h0 : a.Name.Local = "id"
  · rw [if_pos h0]
    simp only []
    split
    · simp
    · next h2 => exact absurd ((Atoi_none_iff _).1 h2) hbad
  rw [if_neg h0]
  by_cases h1 : a.Name.Local = "name"
  · rw [if_pos h1]; rw [h1] at hmem; simp [WPDocPr.numericAttrs] at hmem
  rw [if_neg h1]
  simp [WPDocPr.numericAttrs, h0, h1] at hmem

theorem WPDocPr_UnmarshalXML_err_of_bad (r : WPDocPr) (d : Decoder) (start : StartElement)
    (h : ∃ a ∈ start.Attr, a.Name.Local ∈ WPDocPr.numericAttrs ∧ ¬ ∃ n, IsInt64Literal a.Value n) :
    ∃ e, (WPDocPr.UnmarshalXML r d start).err = some e ∧ e.isNum = true := by
  obtain ⟨a, ha, hn, hbad⟩ := h
  obtain ⟨e, he, hnum⟩ := attrLoop_err_of_mem WPDocPr.attr (fun e => e.isNum = true)
    WPDocPr_attr_err_isNum a (WPDocPr_attr_bad a hn hbad) start.Attr r ha
  refine ⟨e, ?_, hnum⟩
  unfold WPDocPr.UnmarshalXML
  split
  · next r1 e1 h1 => rw [h1] at he; simpa using he
  · next r1 h1 => rw [h1] at he; simp at he

theorem AXfrm_attr_err_isNum (a : Attr) (r : AXfrm) (e : Error)
    (h : (AXfrm.attr a r).2 = some e) : e.isNum = true := by
  unfold AXfrm.attr at h
  by_cases h0 : a.Name.Local = "rot"
  · rw [if_pos h0] at h; exact ParseInt_err_isNum _ _ _ _ h
  rw [if_neg h0] at h
  by_cases h1 : a.Name.Local = "flipH"
  · rw [if_pos h1] at h; exact Atoi_err_isNum _ _ h
  rw [if_neg h1] at h
  by_cases h2 : a.Name.Local = "flipV"
  · rw [if_pos h2] at h; exact Atoi_err_isNum _ _ h
  rw [if_neg h2] at h
  simp at h

theorem AXfrm_attr_bad (a : Attr) (hmem : a.Name.Local ∈ AXfrm.numericAttrs)
    (hbad : ¬ ∃ n, IsInt64Literal a.Value n) (r : AXfrm) : (AXfrm.attr a r).2 ≠ none := by
  unfold AXfrm.attr
  by_cases h0 : a.Name.Local = "rot"
  · rw [if_pos h0]; exact fun h => hbad ((ParseInt_none_iff _ 64 (Or.inr rfl)).1 h)
  rw [if_neg h0]
  by_cases h1 : a.Name.Local = "flipH"
  · rw [if_pos h1]; exact fun h => hbad ((Atoi_none_iff _).1 h)
  rw [if_neg h1]
  by_cases h2 : a.Name.Local = "flipV"
  · rw [if_pos h2]; exact fun h => hbad ((Atoi_none_iff _).1 h)
  rw [if_neg h2]
  simp [AXfrm.numericAttrs, h0, h1, h2] at hmem

theorem AXfrm_UnmarshalXML_err_of_bad (r : AXfrm) (d : Decoder) (start : StartElement)
    (h : ∃ a ∈ start.Attr, a.Name.Local ∈ AXfrm.numericAttrs ∧ ¬ ∃ n, IsInt64Literal a.Value n) :
    ∃ e, (AXfrm.UnmarshalXML r d start).err = some e ∧ e.isNum = true := by
  obtain ⟨a, ha, hn, hbad⟩ := h
  obtain ⟨e, he, hnum⟩ := attrLoop_err_of_mem AXfrm.attr (fun e => e.isNum = true)
    AXfrm_attr_err_isNum a (AXfrm_attr_bad a hn hbad) start.Attr r ha
  refine ⟨e, ?_, hnum⟩
  unfold AXfrm.UnmarshalXML
  split
  · next r1 e1 h1 => rw [h1] at he; simpa using he
  · next r1 h1 => rw [h1] at he; simp at he

theorem WPInline_attr_err_isNum (a : Attr) (r : WPInline) (e : Error)
    (h : (WPInline.attr a r).2 = some e) : e.isNum = true := by
  unfold WPInline.attr at h
  by_cases h0 : a.Name.Local = "distT"
  · rw [if_pos h0] at h; exact ParseInt_err_isNum _ _ _ _ h
  rw [if_neg h0] at h
  by_cases h1 : a.Name.Local = "distB"
  · rw [if_pos h1] at h; exact ParseInt_err_isNum _ _ _ _ h
  rw [if_neg h1] at h
  by_cases h2 : a.Name.Local = "distL"
  · rw [if_pos h2] at h; exact ParseInt_err_isNum _ _ _ _ h
  rw [if_neg h2] at h
  by_cases h3 : a.Name.Local = "distR"
  · rw [if_pos h3] at h; exact ParseInt_err_isNum _ _ _ _ h
  rw [if_neg h3] at h
  simp at h

theorem WPInline_attr_bad (a : Attr) (hmem : a.Name.Local ∈ WPInline.numericAttrs)
    (hbad : ¬ ∃ n, IsInt64Literal a.Value n) (r : WPInline) : (WPInline.attr a r).2 ≠ none := by
  unfold WPInline.attr
  by_cases h0 : a.Name.Local = "distT"
  · rw [if_pos h0]; exact fun h => hbad ((ParseInt_none_iff _ 64 (Or.inr rfl)).1 h)
  rw [if_neg h0]
  by_cases h1 : a.Name.Local = "distB"
  · rw [if_pos h1]; exact fun h => hbad ((ParseInt_none_iff _ 64 (Or.inr rfl)).1 h)
  rw [if_neg h1]
  by_cases h2 : a.Name.Local = "distL"
  · rw [if_pos h2]; exact fun h => hbad ((ParseInt_none_iff _ 64 (Or.inr rfl)).1 h)
  rw [if_neg h2]
  by_cases h3 : a.Name.Local = "distR"
  · rw [if_pos h3]; exact fun h => hbad ((ParseInt_none_iff _ 64 (Or.inr rfl)).1 h)
  rw [if_neg h3]
  simp [WPInline.numericAttrs, h0, h1, h2, h3] at hmem

theorem WPInline_UnmarshalXML_err_of_bad (r : WPInline) (d : Decoder) (start : StartElement)
    (h : ∃ a ∈ start.Attr, a.Name.Local ∈ WPInline.numericAttrs ∧ ¬ ∃ n, IsInt64Literal a.Value n) :
    ∃ e, (WPInline.UnmarshalXML r d start).err = some e ∧ e.isNum = true := by
  obtain ⟨a, ha, hn, hbad⟩ := h
  obtain ⟨e, he, hnum⟩ := attrLoop_err_of_mem WPInline.attr (fun e => e.isNum = true)
    WPInline_attr_err_isNum a (WPInline_attr_bad a hn hbad) start.Attr r ha
  refine ⟨e, ?_, hnum⟩
  unfold WPInline.UnmarshalXML
  split
  · next r1 e1 h1 => rw [h1] at he; simpa using he
  · next r1 h1 => rw [h1] at he; simp at he

theorem WPAnchor_attr_err_isNum (a : Attr) (r : WPAnchor) (e : Error)
    (h : (WPAnchor.attr a r).2 = some e) : e.isNum = true := by
  unfold WPAnchor.attr at h
  by_cases h0 : a.Name.Local = "distT"
  · rw [if_pos h0] at h; exact ParseInt_err_isNum _ _ _ _ h
  rw [if_neg h0] at h
  by_cases h1 : a.Name.Local = "distB"
  · rw [if_pos h1] at h; exact ParseInt_err_isNum _ _ _ _ h
  rw [if_neg h1] at h
  by_cases h2 : a.Name.Local = "distL"
  · rw [if_pos h2] at h; exact ParseInt_err_isNum _ _ _ _ h
  rw [if_neg h2] at h
  by_cases h3 : a.Name.Local = "distR"
  · rw [if_pos h3] at h; exact ParseInt_err_isNum _ _ _ _ h
  rw [if_neg h3] at h
  by_cases h4 : a.Name.Local = "simplePos"
  · rw [if_pos h4] at h; exact Atoi_err_isNum _ _ h
  rw [if_neg h4] at h
  by_cases h5 : a.Name.Local = "relativeHeight"
  · rw [if_pos h5] at h; exact Atoi_err_isNum _ _ h
  rw [if_neg h5] at h
  by_cases h6 : a.Name.Local = "behindDoc"
  · rw [if_pos h6] at h; exact Atoi_err_isNum _ _ h
  rw [if_neg h6] at h
  by_cases h7 : a.Name.Local = "locked"
  · rw [if_pos h7] at h; exact Atoi_err_isNum _ _ h
  rw [if_neg h7] at h
  by_cases h8 : a.Name.Local = "layoutInCell"
  · rw [if_pos h8] at h; exact Atoi_err_isNum _ _ h
  rw [if_neg h8] at h
  by_cases h9 : a.Name.Local = "allowOverlap"
  · rw [if_pos h9] at h; exact Atoi_err_isNum _ _ h
  rw [if_neg h9] at h
  simp at h

theorem WPAnchor_attr_bad (a : Attr) (hmem : a.Name.Local ∈ WPAnchor.numericAttrs)
    (hbad : ¬ ∃ n, IsInt64Literal a.Value n) (r : WPAnchor) : (WPAnchor.attr a r).2 ≠ none := by
  unfold WPAnchor.attr
  by_cases h0 : a.Name.Local = "distT"
  · rw [if_pos h0]; exact fun h => hbad ((ParseInt_none_iff _ 64 (Or.inr rfl)).1 h)
  rw [if_neg h0]
  by_cases h1 : a.Name.Local = "distB"
  · rw [if_pos h1]; exact fun h => hbad ((ParseInt_none_iff _ 64 (Or.inr rfl)).1 h)
  rw [if_neg h1]
  by_cases h2 : a.Name.Local = "distL"
  · rw [if_pos h2]; exact fun h => hbad ((ParseInt_none_iff _ 64 (Or.inr rfl)).1 h)
  rw [if_neg h2]
  by_cases h3 : a.Name.Local = "distR"
  · rw [if_pos h3]; exact fun h => hbad ((ParseInt_none_iff _ 64 (Or.inr rfl)).1 h)
  rw [if_neg h3]
  by_cases h4 : a.Name.Local = "simplePos"
  · rw [if_pos h4]; exact fun h => hbad ((Atoi_none_iff _).1 h)
  rw [if_neg h4]
  by_cases h5 : a.Name.Local = "relativeHeight"
  · rw [if_pos h5]; exact fun h => hbad ((Atoi_none_iff _).1 h)
  rw [if_neg h5]
  by_cases h6 : a.Name.Local = "behindDoc"
  · rw [if_pos h6]; exact fun h => hbad ((Atoi_none_iff _).1 h)
  rw [if_neg h6]
  by_cases h7 : a.Name.Local = "locked"
  · rw [if_pos h7]; exact fun h => hbad ((Atoi_none_iff _).1 h)
  rw [if_neg h7]
  by_cases h8 : a.Name.Local = "layoutInCell"
  · rw [if_pos h8]; exact fun h => hbad ((Atoi_none_iff _).1 h)
  rw [if_neg h8]
  by_cases h9 : a.Name.Local = "allowOverlap"
  · rw [if_pos h9]; exact fun h => hbad ((Atoi_none_iff _).1 h)
  rw [if_neg h9]
  simp [WPAnchor.numericAttrs, h0, h1, h2, h3, h4, h5, h6, h7, h8, h9] at hmem

theorem WPAnchor_UnmarshalXML_err_of_bad (r : WPAnchor) (d : Decoder) (start : StartElement)
    (h : ∃ a ∈ start.Attr, a.Name.Local ∈ WPAnchor.numericAttrs ∧ ¬ ∃ n, IsInt64Literal a.Value n) :
    ∃ e, (WPAnchor.UnmarshalXML r d start).err = some e ∧ e.isNum = true := by
  obtain ⟨a, ha, hn, hbad⟩ := h
  obtain ⟨e, he, hnum⟩ := attrLoop_err_of_mem WPAnchor.attr (fun e => e.isNum = true)
    WPAnchor_attr_err_isNum a (WPAnchor_attr_bad a hn hbad) start.Attr r ha
  refine ⟨e, ?_, hnum⟩
  unfold WPAnchor.UnmarshalXML
  split
  · next r1 e1 h1 => rw [h1] at he; simpa using he
  · next r1 h1 => rw [h1] at he; simp at he

/-! ## Properties of the loop that hold for every body -/

/-- A start-element that is pending is read sooner or not at all: what a
decoder that comes after `d` still holds was already pending in `d`. -/
theorem Decoder.Reach.mem {d1 d2 : Decoder} (h : d1.Reach d2) {t : Docx.Token} (ht : t ∈ d2.toks) :
    t ∈ d1.toks :=
  h.1.subset ht

/-- A part `π` of the record that the body only writes for the start-elements
whose local name satisfies `touch` is left as it was when no such
start-element is pending. -/
theorem tokenLoop_frame {α β : Type} (body : StartElement → α → Decoder → Step α)
    (π : α → β) (touch : String → Bool)
    (hreach : ∀ (tt : StartElement) (r : α) (d : Decoder), d.Reach (body tt r d).dec)
    (hframe : ∀ (tt : StartElement) (r : α) (d : Decoder), touch tt.Name.Local = false →
      π (body tt r d).val = π r) :
    ∀ (fuel : Nat) (r : α) (d : Decoder),
      (∀ tt, Token.StartElement tt ∈ d.toks → touch tt.Name.Local = false) →
      π (tokenLoop body fuel r d).val = π r := by
  intro fuel
  induction fuel with
  | zero => intro r d _; rfl
  | succ fuel ih =>
    intro r d hno
    rcases hTk : d.Token with ⟨d1, e | t⟩
    · by_cases he : e = .EOF
      · subst he; rw [tokenLoop_eof body fuel r hTk]
      · rw [tokenLoop_error body fuel r hTk he]
    · have htoks := (Token_ok hTk).1
      have hno1 : ∀ tt, Token.StartElement tt ∈ d1.toks → touch tt.Name.Local = false :=
        fun tt h => hno tt (by rw [htoks]; exact List.mem_cons_of_mem _ h)
      by_cases hs : ∃ tt, t = .StartElement tt
      · obtain ⟨tt, rfl⟩ := hs
        rw [tokenLoop_start body fuel r hTk]
        have htt : touch tt.Name.Local = false := hno tt (by rw [htoks]; exact List.mem_cons_self _ _)
        have h1 := hframe tt r d1 htt
        have h2 := hreach tt r d1
        rcases hbd : body tt r d1 with ⟨r2, d2⟩ | ⟨r2, d2, e⟩
        · rw [hbd] at h1 h2
          simp only [Step.val] at h1
          simp only [Step.dec] at h2
          rw [← h1]
          exact ih r2 d2 (fun tt h => hno1 tt (h2.mem h))
        · rw [hbd] at h1; exact h1
      · have ht : ∀ tt, t ≠ .StartElement tt := fun tt h => hs ⟨tt, h⟩
        rw [tokenLoop_other body fuel r hTk ht]
        exact ih r d1 hno1

/-- A property of the record that every round of the body keeps holds in the
end. -/
theorem tokenLoop_inv {α : Type} (body : StartElement → α → Decoder → Step α)
    (I : α → Prop)
    (hI : ∀ (tt : StartElement) (r : α) (d : Decoder), I r → I (body tt r d).val) :
    ∀ (fuel : Nat) (r : α) (d : Decoder), I r → I (tokenLoop body fuel r d).val := by
  intro fuel
  induction fuel with
  | zero => intro r d h; exact h
  | succ fuel ih =>
    intro r d hr
    rcases hTk : d.Token with ⟨d1, e | t⟩
    · by_cases he : e = .EOF
      · subst he; rw [tokenLoop_eof body fuel r hTk]; exact hr
      · rw [tokenLoop_error body fuel r hTk he]; exact hr
    · by_cases hs : ∃ tt, t = .StartElement tt
      · obtain ⟨tt, rfl⟩ := hs
        rw [tokenLoop_start body fuel r hTk]
        have h1 := hI tt r d1 hr
        rcases hbd : body tt r d1 with ⟨r2, d2⟩ | ⟨r2, d2, e⟩
        · rw [hbd] at h1; exact ih r2 d2 h1
        · rw [hbd] at h1; exact h1
      · have ht : ∀ tt, t ≠ .StartElement tt := fun tt h => hs ⟨tt, h⟩
        rw [tokenLoop_other body fuel r hTk ht]
        exact ih r d1 hr

/-- The loop steps over well-nested tokens that hold no start-element the body
knows: it goes on from the tokens that follow, with the same record and the
same stack. -/
theorem tokenLoop_skip_inert {α : Type} (body : StartElement → α → Decoder → Step α)
    (known : String → Bool)
    (hunk : ∀ (tt : StartElement) (r : α) (d : Decoder), known tt.Name.Local = false →
      body tt r d = .next r d)
    (r : α) (toks : List Token) (err : Option Error) (stk : List Stack)
    (hstk : stk.head? ≠ some .stkEOF) :
    ∀ (ins : List Token) (opened : List Name) (fuel : Nat), inert known opened ins = true →
      tokenLoop body (fuel + ins.length) r ⟨ins ++ toks, err, opened.map .stkStart ++ stk⟩ =
        tokenLoop body fuel r ⟨toks, err, stk⟩ := by
  intro ins
  induction ins with
  | nil =>
    intro opened fuel h
    cases opened with
    | nil => rfl
    | cons n ns => simp [inert] at h
  | cons t ts ih =>
    intro opened fuel h
    have htop : (opened.map Stack.stkStart ++ stk).head? ≠ some .stkEOF := by
      cases opened with
      | nil => simpa using hstk
      | cons n ns => simp
    have hfuel : fuel + (t :: ts).length = (fuel + ts.length) + 1 := by simp; omega
    rw [hfuel]
    cases t with
    | StartElement se =>
      simp only [inert, Bool.and_eq_true, Bool.not_eq_true'] at h
      have hT := Token_start se (ts ++ toks) err (opened.map Stack.stkStart ++ stk) htop
      rw [List.cons_append, tokenLoop_start body _ r hT, hunk se r _ h.1]
      exact ih (se.Name :: opened) fuel h.2
    | EndElement m =>
      cases opened with
      | nil => simp [inert] at h
      | cons n ns =>
        simp only [inert, Bool.and_eq_true, decide_eq_true_eq] at h
        obtain ⟨rfl, h2⟩ := h
        have hT := Token_end n (ts ++ toks) err (ns.map Stack.stkStart ++ stk)
        rw [List.cons_append, List.map_cons, List.cons_append,
          tokenLoop_other body _ r hT (by simp)]
        exact ih ns fuel h2
    | CharData s =>
      have h2 : inert known opened ts = true := by cases opened <;> simpa [inert] using h
      have hT := Token_other (.CharData s) (ts ++ toks) err _ htop (by simp) (by simp)
      rw [List.cons_append, tokenLoop_other body _ r hT (by simp)]
      exact ih opened fuel h2
    | Comment s =>
      have h2 : inert known opened ts = true := by cases opened <;> simpa [inert] using h
      have hT := Token_other (.Comment s) (ts ++ toks) err _ htop (by simp) (by simp)
      rw [List.cons_append, tokenLoop_other body _ r hT (by simp)]
      exact ih opened fuel h2
    | ProcInst a b =>
      have h2 : inert known opened ts = true := by cases opened <;> simpa [inert] using h
      have hT := Token_other (.ProcInst a b) (ts ++ toks) err _ htop (by simp) (by simp)
      rw [List.cons_append, tokenLoop_other body _ r hT (by simp)]
      exact ih opened fuel h2
    | Directive s =>
      have h2 : inert known opened ts = true := by cases opened <;> simpa [inert] using h
      have hT := Token_other (.Directive s) (ts ++ toks) err _ htop (by simp) (by simp)
      rw [List.cons_append, tokenLoop_other body _ r hT (by simp)]
      exact ih opened fuel h2

/-- The errors of the loop: those of reading a token, and those the body
returns.  The iteration bound is not among them. -/
theorem tokenLoop_err_kind {α : Type} (body : StartElement → α → Decoder → Step α)
    (A : Error → Prop)
    (hreach : ∀ (tt : StartElement) (r : α) (d : Decoder), d.Reach (body tt r d).dec)
    (hret : ∀ (tt : StartElement) (r : α) (d : Decoder) (r2 : α) (d2 : Decoder) (e : Error),
      d.TokErr → body tt r d = .ret r2 d2 e → A e)
    (fuel : Nat) (r : α) (d : Decoder) (hfuel : d.toks.length < fuel) (hd : d.TokErr) :
    ∀ e, (tokenLoop body fuel r d).err = some e → e.isToken = true ∨ A e := by
  refine tokenLoop_induct body (fun _ d => d.TokErr)
    (fun o => ∀ e, o.err = some e → e.isToken = true ∨ A e)
    (body_shrink hreach) ?_ ?_ ?_ ?_ ?_ fuel r d hfuel hd
  · intro r d d1 _ _ e he; simp at he
  · intro r d d1 e hP hT hne e' he'
    simp only [Option.some.injEq] at he'
    subst he'
    rcases (Token_error hT).2 hP with h | h
    · exact absurd h hne
    · exact Or.inl h
  · intro r d d1 t hP hT _
    have := Token_reach d
    rw [hT] at this
    exact this.2 hP
  · intro r d d1 tt r2 d2 hP hT hb
    have h1 := Token_reach d
    rw [hT] at h1
    have h2 := hreach tt r d1
    rw [hb] at h2
    exact h2.2 (h1.2 hP)
  · intro r d d1 tt r2 d2 e hP hT hb e' he'
    simp only [Option.some.injEq] at he'
    subst he'
    have h1 := Token_reach d
    rw [hT] at h1
    exact Or.inr (hret tt r d1 r2 d2 e (h1.2 hP) hb)

/-! ## The bodies of the loops, case by case -/

/-- A start-element whose local name the loop of `WPCNvGraphicFramePr.UnmarshalXML` does not
know is passed over: no field is written, no token is read. -/
theorem WPCNvGraphicFramePr_body_unknown (tt : StartElement) (r : WPCNvGraphicFramePr) (d : Decoder)
    (h : WPCNvGraphicFramePr.known tt.Name.Local = false) : WPCNvGraphicFramePr.body tt r d = .next r d := by
  simp only [WPCNvGraphicFramePr.known, WPCNvGraphicFramePr.childNames, List.contains_eq_any_beq, List.any_cons, List.any_nil,
    Bool.or_false, Bool.or_eq_false_iff, beq_eq_false_iff_ne, ne_eq] at h
  unfold WPCNvGraphicFramePr.body
  rw [if_neg h]

/-- A start-element whose local name the loop of `PICNonVisualPicProperties.UnmarshalXML` does not
know is passed over: no field is written, no token is read. -/
theorem PICNonVisualPicProperties_body_unknown (tt : StartElement) (r : PICNonVisualPicProperties) (d : Decoder)
    (h : PICNonVisualPicProperties.known tt.Name.Local = false) : PICNonVisualPicProperties.body tt r d = .next r d := by
  simp only [PICNonVisualPicProperties.known, PICNonVisualPicProperties.childNames, List.contains_eq_any_beq, List.any_cons, List.any_nil,
    Bool.or_false, Bool.or_eq_false_iff, beq_eq_false_iff_ne, ne_eq] at h
  unfold PICNonVisualPicProperties.body
  rw [if_neg h]

/-- A start-element whose local name the loop of `ABlip.UnmarshalXML` does not
know is passed over: no field is written, no token is read. -/
theorem ABlip_body_unknown (tt : StartElement) (r : ABlip) (d : Decoder)
    (h : ABlip.known tt.Name.Local = false) : ABlip.body tt r d = .next r d := by
  simp only [ABlip.known, ABlip.childNames, List.contains_eq_any_beq, List.any_cons, List.any_nil,
    Bool.or_false, Bool.or_eq_false_iff, beq_eq_false_iff_ne, ne_eq] at h
  unfold ABlip.body
  rw [if_neg h]

/-- A start-element whose local name the loop of `PICBlipFill.UnmarshalXML` does not
know is passed over: no field is written, no token is read. -/
theorem PICBlipFill_body_unknown (tt : StartElement) (r : PICBlipFill) (d : Decoder)
    (h : PICBlipFill.known tt.Name.Local = false) : PICBlipFill.body tt r d = .next r d := by
  simp only [PICBlipFill.known, PICBlipFill.childNames, List.contains_eq_any_beq, List.any_cons, List.any_nil,
    Bool.or_false, Bool.or_eq_false_iff, beq_eq_false_iff_ne, ne_eq] at h
  unfold PICBlipFill.body
  rw [if_neg h.1]
  rw [if_neg h.2]

/-- A start-element whose local name the loop of `AXfrm.UnmarshalXML` does not
know is passed over: no field is written, no token is read. -/
theorem AXfrm_body_unknown (tt : StartElement) (r : AXfrm) (d : Decoder)
    (h : AXfrm.known tt.Name.Local = false) : AXfrm.body tt r d = .next r d := by
  simp only [AXfrm.known, AXfrm.childNames, List.contains_eq_any_beq, List.any_cons, List.any_nil,
    Bool.or_false, Bool.or_eq_false_iff, beq_eq_false_iff_ne, ne_eq] at h
  unfold AXfrm.body
  rw [if_neg h.1]
  rw [if_neg h.2]

/-- A start-element whose local name the loop of `PICSpPr.UnmarshalXML` does not
know is passed over: no field is written, no token is read. -/
theorem PICSpPr_body_unknown (tt : StartElement) (r : PICSpPr) (d : Decoder)
    (h : PICSpPr.known tt.Name.Local = false) : PICSpPr.body tt r d = .next r d := by
  simp only [PICSpPr.known, PICSpPr.childNames, List.contains_eq_any_beq, List.any_cons, List.any_nil,
    Bool.or_false, Bool.or_eq_false_iff, beq_eq_false_iff_ne, ne_eq] at h
  unfold PICSpPr.body
  rw [if_neg h.1]
  rw [if_neg h.2]

/-- A start-element whose local name the loop of `PICPic.UnmarshalXML` does not
know is passed over: no field is written, no token is read. -/
theorem PICPic_body_unknown (tt : StartElement) (r : PICPic) (d : Decoder)
    (h : PICPic.known tt.Name.Local = false) : PICPic.body tt r d = .next r d := by
  simp only [PICPic.known, PICPic.childNames, List.contains_eq_any_beq, List.any_cons, List.any_nil,
    Bool.or_false, Bool.or_eq_false_iff, beq_eq_false_iff_ne, ne_eq] at h
  unfold PICPic.body
  rw [if_neg h.1]
  rw [if_neg h.2.1]
  rw [if_neg h.2.2]

/-- A start-element whose local name the loop of `AGraphicData.UnmarshalXML` does not
know is passed over: no field is written, no token is read. -/
theorem AGraphicData_body_unknown (tt : StartElement) (r : AGraphicData) (d : Decoder)
    (h : AGraphicData.known tt.Name.Local = false) : AGraphicData.body tt r d = .next r d := by
  simp only [AGraphicData.known, AGraphicData.childNames, List.contains_eq_any_beq, List.any_cons, List.any_nil,
    Bool.or_false, Bool.or_eq_false_iff, beq_eq_false_iff_ne, ne_eq] at h
  unfold AGraphicData.body
  rw [if_neg h]

/-- A start-element whose local name the loop of `AGraphic.UnmarshalXML` does not
know is passed over: no field is written, no token is read. -/
theorem AGraphic_body_unknown (tt : StartElement) (r : AGraphic) (d : Decoder)
    (h : AGraphic.known tt.Name.Local = false) : AGraphic.body tt r d = .next r d := by
  simp only [AGraphic.known, AGraphic.childNames, List.contains_eq_any_beq, List.any_cons, List.any_nil,
    Bool.or_false, Bool.or_eq_false_iff, beq_eq_false_iff_ne, ne_eq] at h
  unfold AGraphic.body
  rw [if_neg h]

theorem AGraphic_body_GraphicData (tt : StartElement) (r : AGraphic) (d : Decoder)
    (h : tt.Name.Local ≠ "graphicData") : (AGraphic.body tt r d).val.GraphicData = r.GraphicData := by
  unfold AGraphic.body
  by_cases h0 : tt.Name.Local = "graphicData"
  · exact absurd h0 h
  rw [if_neg h0]
  rfl

theorem AGraphic_body_XMLA (tt : StartElement) (r : AGraphic) (d : Decoder) :
    (AGraphic.body tt r d).val.XMLA = r.XMLA := by
  unfold AGraphic.body
  by_cases h0 : tt.Name.Local = "graphicData"
  · rw [if_pos h0]
    first | rfl | ((try dsimp only) <;> (repeat' split) <;> rfl)
  rw [if_neg h0]
  rfl

/-- A start-element whose local name the loop of `WPPositionH.UnmarshalXML` does not
know is passed over: no field is written, no token is read. -/
theorem WPPositionH_body_unknown (tt : StartElement) (r : WPPositionH) (d : Decoder)
    (h : WPPositionH.known tt.Name.Local = false) : WPPositionH.body tt r d = .next r d := by
  simp only [WPPositionH.known, WPPositionH.childNames, List.contains_eq_any_beq, List.any_cons, List.any_nil,
    Bool.or_false, Bool.or_eq_false_iff, beq_eq_false_iff_ne, ne_eq] at h
  unfold WPPositionH.body
  rw [if_neg h]

theorem WPPositionH_body_PosOffset (tt : StartElement) (r : WPPositionH) (d : Decoder)
    (h : tt.Name.Local ≠ "posOffset") : (WPPositionH.body tt r d).val.PosOffset = r.PosOffset := by
  unfold WPPositionH.body
  by_cases h0 : tt.Name.Local = "posOffset"
  · exact absurd h0 h
  rw [if_neg h0]
  rfl

theorem WPPositionH_body_RelativeFrom (tt : StartElement) (r : WPPositionH) (d : Decoder) :
    (WPPositionH.body tt r d).val.RelativeFrom = r.RelativeFrom := by
  unfold WPPositionH.body
  by_cases h0 : tt.Name.Local = "posOffset"
  · rw [if_pos h0]
    first | rfl | ((try dsimp only) <;> (repeat' split) <;> rfl)
  rw [if_neg h0]
  rfl

/-- A start-element whose local name the loop of `WPPositionV.UnmarshalXML` does not
know is passed over: no field is written, no token is read. -/
theorem WPPositionV_body_unknown (tt : StartElement) (r : WPPositionV) (d : Decoder)
    (h : WPPositionV.known tt.Name.Local = false) : WPPositionV.body tt r d = .next r d := by
  simp only [WPPositionV.known, WPPositionV.childNames, List.contains_eq_any_beq, List.any_cons, List.any_nil,
    Bool.or_false, Bool.or_eq_false_iff, beq_eq_false_iff_ne, ne_eq] at h
  unfold WPPositionV.body
  rw [if_neg h]

theorem WPPositionV_body_PosOffset (tt : StartElement) (r : WPPositionV) (d : Decoder)
    (h : tt.Name.Local ≠ "posOffset") : (WPPositionV.body tt r d).val.PosOffset = r.PosOffset := by
  unfold WPPositionV.body
  by_cases h0 : tt.Name.Local = "posOffset"
  · exact absurd h0 h
  rw [if_neg h0]
  rfl

theorem WPPositionV_body_RelativeFrom (tt : StartElement) (r : WPPositionV) (d : Decoder) :
    (WPPositionV.body tt r d).val.RelativeFrom = r.RelativeFrom := by
  unfold WPPositionV.body
  by_cases h0 : tt.Name.Local = "posOffset"
  · rw [if_pos h0]
    first | rfl | ((try dsimp only) <;> (repeat' split) <;> rfl)
  rw [if_neg h0]
  rfl

/-- A start-element whose local name the loop of `WPInline.UnmarshalXML` does not
know is passed over: no field is written, no token is read. -/
theorem WPInline_body_unknown (tt : StartElement) (r : WPInline) (d : Decoder)
    (h : WPInline.known tt.Name.Local = false) : WPInline.body tt r d = .next r d := by
  simp only [WPInline.known, WPInline.childNames, List.contains_eq_any_beq, List.any_cons, List.any_nil,
    Bool.or_false, Bool.or_eq_false_iff, beq_eq_false_iff_ne, ne_eq] at h
  unfold WPInline.body
  rw [if_neg h.1]
  rw [if_neg h.2.1]
  rw [if_neg h.2.2.1]
  rw [if_neg h.2.2.2.1]
  rw [if_neg h.2.2.2.2]

theorem WPInline_body_Extent (tt : StartElement) (r : WPInline) (d : Decoder)
    (h : tt.Name.Local ≠ "extent") : (WPInline.body tt r d).val.Extent = r.Extent := by
  unfold WPInline.body
  by_cases h0 : tt.Name.Local = "extent"
  · exact absurd h0 h
  rw [if_neg h0]
  by_cases h1 : tt.Name.Local = "effectExtent"
  · rw [if_pos h1]
    first | rfl | (repeat' split) <;> rfl
  rw [if_neg h1]
  by_cases h2 : tt.Name.Local = "docPr"
  · rw [if_pos h2]
    first | rfl | (repeat' split) <;> rfl
  rw [if_neg h2]
  by_cases h3 : tt.Name.Local = "cNvGraphicFramePr"
  · rw [if_pos h3]
    first | rfl | (repeat' split) <;> rfl
  rw [if_neg h3]
  by_cases h4 : tt.Name.Local = "graphic"
  · rw [if_pos h4]
    first | rfl | (repeat' split) <;> rfl
  rw [if_neg h4]
  rfl

theorem WPInline_body_EffectExtent (tt : StartElement) (r : WPInline) (d : Decoder)
    (h : tt.Name.Local ≠ "effectExtent") : (WPInline.body tt r d).val.EffectExtent = r.EffectExtent := by
  unfold WPInline.body
  by_cases h0 : tt.Name.Local = "extent"
  · rw [if_pos h0]
    first | rfl | (repeat' split) <;> rfl
  rw [if_neg h0]
  by_cases h1 : tt.Name.Local = "effectExtent"
  · exact absurd h1 h
  rw [if_neg h1]
  by_cases h2 : tt.Name.Local = "docPr"
  · rw [if_pos h2]
    first | rfl | (repeat' split) <;> rfl
  rw [if_neg h2]
  by_cases h3 : tt.Name.Local = "cNvGraphicFramePr"
  · rw [if_pos h3]
    first | rfl | (repeat' split) <;> rfl
  rw [if_neg h3]
  by_cases h4 : tt.Name.Local = "graphic"
  · rw [if_pos h4]
    first | rfl | (repeat' split) <;> rfl
  rw [if_neg h4]
  rfl

theorem WPInline_body_DocPr (tt : StartElement) (r : WPInline) (d : Decoder)
    (h : tt.Name.Local ≠ "docPr") : (WPInline.body tt r d).val.DocPr = r.DocPr := by
  unfold WPInline.body
  by_cases h0 : tt.Name.Local = "extent"
  · rw [if_pos h0]
    first | rfl | (repeat' split) <;> rfl
  rw [if_neg h0]
  by_cases h1 : tt.Name.Local = "effectExtent"
  · rw [if_pos h1]
    first | rfl | (repeat' split) <;> rfl
  rw [if_neg h1]
  by_cases h2 : tt.Name.Local = "docPr"
  · exact absurd h2 h
  rw [if_neg h2]
  by_cases h3 : tt.Name.Local = "cNvGraphicFramePr"
  · rw [if_pos h3]
    first | rfl | (repeat' split) <;> rfl
  rw [if_neg h3]
  by_cases h4 : tt.Name.Local = "graphic"
  · rw [if_pos h4]
    first | rfl | (repeat' split) <;> rfl
  rw [if_neg h4]
  rfl

theorem WPInline_body_CNvGraphicFramePr (tt : StartElement) (r : WPInline) (d : Decoder)
    (h : tt.Name.Local ≠ "cNvGraphicFramePr") : (WPInline.body tt r d).val.CNvGraphicFramePr = r.CNvGraphicFramePr := by
  unfold WPInline.body
  by_cases h0 : tt.Name.Local = "extent"
  · rw [if_pos h0]
    first | rfl | (repeat' split) <;> rfl
  rw [if_neg h0]
  by_cases h1 : tt.Name.Local = "effectExtent"
  · rw [if_pos h1]
    first | rfl | (repeat' split) <;> rfl
  rw [if_neg h1]
  by_cases h2 : tt.Name.Local = "docPr"
  · rw [if_pos h2]
    first | rfl | (repeat' split) <;> rfl
  rw [if_neg h2]
  by_cases h3 : tt.Name.Local = "cNvGraphicFramePr"
  · exact absurd h3 h
  rw [if_neg h3]
  by_cases h4 : tt.Name.Local = "graphic"
  · rw [if_pos h4]
    first | rfl | (repeat' split) <;> rfl
  rw [if_neg h4]
  rfl

theorem WPInline_body_Graphic (tt : StartElement) (r : WPInline) (d : Decoder)
    (h : tt.Name.Local ≠ "graphic") : (WPInline.body tt r d).val.Graphic = r.Graphic := by
  unfold WPInline.body
  by_cases h0 : tt.Name.Local = "extent"
  · rw [if_pos h0]
    first | rfl | (repeat' split) <;> rfl
  rw [if_neg h0]
  by_cases h1 : tt.Name.Local = "effectExtent"
  · rw [if_pos h1]
    first | rfl | (repeat' split) <;> rfl
  rw [if_neg h1]
  by_cases h2 : tt.Name.Local = "docPr"
  · rw [if_pos h2]
    first | rfl | (repeat' split) <;> rfl
  rw [if_neg h2]
  by_cases h3 : tt.Name.Local = "cNvGraphicFramePr"
  · rw [if_pos h3]
    first | rfl | (repeat' split) <;> rfl
  rw [if_neg h3]
  by_cases h4 : tt.Name.Local = "graphic"
  · exact absurd h4 h
  rw [if_neg h4]
  rfl

theorem WPInline_body_DistT (tt : StartElement) (r : WPInline) (d : Decoder) :
    (WPInline.body tt r d).val.DistT = r.DistT := by
  unfold WPInline.body
  by_cases h0 : tt.Name.Local = "extent"
  · rw [if_pos h0]
    first | rfl | ((try dsimp only) <;> (repeat' split) <;> rfl)
  rw [if_neg h0]
  by_cases h1 : tt.Name.Local = "effectExtent"
  · rw [if_pos h1]
    first | rfl | ((try dsimp only) <;> (repeat' split) <;> rfl)
  rw [if_neg h1]
  by_cases h2 : tt.Name.Local = "docPr"
  · rw [if_pos h2]
    first | rfl | ((try dsimp only) <;> (repeat' split) <;> rfl)
  rw [if_neg h2]
  by_cases h3 : tt.Name.Local = "cNvGraphicFramePr"
  · rw [if_pos h3]
    first | rfl | ((try dsimp only) <;> (repeat' split) <;> rfl)
  rw [if_neg h3]
  by_cases h4 : tt.Name.Local = "graphic"
  · rw [if_pos h4]
    first | rfl | ((try dsimp only) <;> (repeat' split) <;> rfl)
  rw [if_neg h4]
  rfl

theorem WPInline_body_DistB (tt : StartElement) (r : WPInline) (d : Decoder) :
    (WPInline.body tt r d).val.DistB = r.DistB := by
  unfold WPInline.body
  by_cases h0 : tt.Name.Local = "extent"
  · rw [if_pos h0]
    first | rfl | ((try dsimp only) <;> (repeat' split) <;> rfl)
  rw [if_neg h0]
  by_cases h1 : tt.Name.Local = "effectExtent"
  · rw [if_pos h1]
    first | rfl | ((try dsimp only) <;> (repeat' split) <;> rfl)
  rw [if_neg h1]
  by_cases h2 : tt.Name.Local = "docPr"
  · rw [if_pos h2]
    first | rfl | ((try dsimp only) <;> (repeat' split) <;> rfl)
  rw [if_neg h2]
  by_cases h3 : tt.Name.Local = "cNvGraphicFramePr"
  · rw [if_pos h3]
    first | rfl | ((try dsimp only) <;> (repeat' split) <;> rfl)
  rw [if_neg h3]
  by_cases h4 : tt.Name.Local = "graphic"
  · rw [if_pos h4]
    first | rfl | ((try dsimp only) <;> (repeat' split) <;> rfl)
  rw [if_neg h4]
  rfl

theorem WPInline_body_DistL (tt : StartElement) (r : WPInline) (d : Decoder) :
    (WPInline.body tt r d).val.DistL = r.DistL := by
  unfold WPInline.body
  by_cases h0 : tt.Name.Local = "extent"
  · rw [if_pos h0]
    first | rfl | ((try dsimp only) <;> (repeat' split) <;> rfl)
  rw [if_neg h0]
  by_cases h1 : tt.Name.Local = "effectExtent"
  · rw [if_pos h1]
    first | rfl | ((try dsimp only) <;> (repeat' split) <;> rfl)
  rw [if_neg h1]
  by_cases h2 : tt.Name.Local = "docPr"
  · rw [if_pos h2]
    first | rfl | ((try dsimp only) <;> (repeat' split) <;> rfl)
  rw [if_neg h2]
  by_cases h3 : tt.Name.Local = "cNvGraphicFramePr"
  · rw [if_pos h3]
    first | rfl | ((try dsimp only) <;> (repeat' split) <;> rfl)
  rw [if_neg h3]
  by_cases h4 : tt.Name.Local = "graphic"
  · rw [if_pos h4]
    first | rfl | ((try dsimp only) <;> (repeat' split) <;> rfl)
  rw [if_neg h4]
  rfl

theorem WPInline_body_DistR (tt : StartElement) (r : WPInline) (d : Decoder) :
    (WPInline.body tt r d).val.DistR = r.DistR := by
  unfold WPInline.body
  by_cases h0 : tt.Name.Local = "extent"
  · rw [if_pos h0]
    first | rfl | ((try dsimp only) <;> (repeat' split) <;> rfl)
  rw [if_neg h0]
  by_cases h1 : tt.Name.Local = "effectExtent"
  · rw [if_pos h1]
    first | rfl | ((try dsimp only) <;> (repeat' split) <;> rfl)
  rw [if_neg h1]
  by_cases h2 : tt.Name.Local = "docPr"
  · rw [if_pos h2]
    first | rfl | ((try dsimp only) <;> (repeat' split) <;> rfl)
  rw [if_neg h2]
  by_cases h3 : tt.Name.Local = "cNvGraphicFramePr"
  · rw [if_pos h3]
    first | rfl | ((try dsimp only) <;> (repeat' split) <;> rfl)
  rw [if_neg h3]
  by_cases h4 : tt.Name.Local = "graphic"
  · rw [if_pos h4]
    first | rfl | ((try dsimp only) <;> (repeat' split) <;> rfl)
  rw [if_neg h4]
  rfl

/-- A start-element whose local name the loop of `WPAnchor.UnmarshalXML` does not
know is passed over: no field is written, no token is read. -/
theorem WPAnchor_body_unknown (tt : StartElement) (r : WPAnchor) (d : Decoder)
    (h : WPAnchor.known tt.Name.Local = false) : WPAnchor.body tt r d = .next r d := by
  simp only [WPAnchor.known, WPAnchor.childNames, List.contains_eq_any_beq, List.any_cons, List.any_nil,
    Bool.or_false, Bool.or_eq_false_iff, beq_eq_false_iff_ne, ne_eq] at h
  unfold WPAnchor.body
  rw [if_neg h.1]
  rw [if_neg h.2.1]
  rw [if_neg h.2.2.1]
  rw [if_neg h.2.2.2.1]
  rw [if_neg h.2.2.2.2.1]
  rw [if_neg h.2.2.2.2.2.1]
  rw [if_neg h.2.2.2.2.2.2.1]
  rw [if_neg h.2.2.2.2.2.2.2.1]
  rw [if_neg h.2.2.2.2.2.2.2.2.1]
  rw [if_neg h.2.2.2.2.2.2.2.2.2]

theorem WPAnchor_body_SimplePosXY (tt : StartElement) (r : WPAnchor) (d : Decoder)
    (h : tt.Name.Local ≠ "simplePos") : (WPAnchor.body tt r d).val.SimplePosXY = r.SimplePosXY := by
  unfold WPAnchor.body
  by_cases h0 : tt.Name.Local = "simplePos"
  · exact absurd h0 h
  rw [if_neg h0]
  by_cases h1 : tt.Name.Local = "positionH"
  · rw [if_pos h1]
    first | rfl | (repeat' split) <;> rfl
  rw [if_neg h1]
  by_cases h2 : tt.Name.Local = "positionV"
  · rw [if_pos h2]
    first | rfl | (repeat' split) <;> rfl
  rw [if_neg h2]
  by_cases h3 : tt.Name.Local = "extent"
  · rw [if_pos h3]
    first | rfl | (repeat' split) <;> rfl
  rw [if_neg h3]
  by_cases h4 : tt.Name.Local = "effectExtent"
  · rw [if_pos h4]
    first | rfl | (repeat' split) <;> rfl
  rw [if_neg h4]
  by_cases h5 : tt.Name.Local = "wrapNone"
  · rw [if_pos h5]
    first | rfl | (repeat' split) <;> rfl
  rw [if_neg h5]
  by_cases h6 : tt.Name.Local = "wrapSquare"
  · rw [if_pos h6]
    first | rfl | (repeat' split) <;> rfl
  rw [if_neg h6]
  by_cases h7 : tt.Name.Local = "docPr"
  · rw [if_pos h7]
    first | rfl | (repeat' split) <;> rfl
  rw [if_neg h7]
  by_cases h8 : tt.Name.Local = "cNvGraphicFramePr"
  · rw [if_pos h8]
    first | rfl | (repeat' split) <;> rfl
  rw [if_neg h8]
  by_cases h9 : tt.Name.Local = "graphic"
  · rw [if_pos h9]
    first | rfl | (repeat' split) <;> rfl
  rw [if_neg h9]
  rfl

theorem WPAnchor_body_PositionH (tt : StartElement) (r : WPAnchor) (d : Decoder)
    (h : tt.Name.Local ≠ "positionH") : (WPAnchor.body tt r d).val.PositionH = r.PositionH := by
  unfold WPAnchor.body
  by_cases h0 : tt.Name.Local = "simplePos"
  · rw [if_pos h0]
    first | rfl | (repeat' split) <;> rfl
  rw [if_neg h0]
  by_cases h1 : tt.Name.Local = "positionH"
  · exact absurd h1 h
  rw [if_neg h1]
  by_cases h2 : tt.Name.Local = "positionV"
  · rw [if_pos h2]
    first | rfl | (repeat' split) <;> rfl
  rw [if_neg h2]
  by_cases h3 : tt.Name.Local = "extent"
  · rw [if_pos h3]
    first | rfl | (repeat' split) <;> rfl
  rw [if_neg h3]
  by_cases h4 : tt.Name.Local = "effectExtent"
  · rw [if_pos h4]
    first | rfl | (repeat' split) <;> rfl
  rw [if_neg h4]
  by_cases h5 : tt.Name.Local = "wrapNone"
  · rw [if_pos h5]
    first | rfl | (repeat' split) <;> rfl
  rw [if_neg h5]
  by_cases h6 : tt.Name.Local = "wrapSquare"
  · rw [if_pos h6]
    first | rfl | (repeat' split) <;> rfl
  rw [if_neg h6]
  by_cases h7 : tt.Name.Local = "docPr"
  · rw [if_pos h7]
    first | rfl | (repeat' split) <;> rfl
  rw [if_neg h7]
  by_cases h8 : tt.Name.Local = "cNvGraphicFramePr"
  · rw [if_pos h8]
    first | rfl | (repeat' split) <;> rfl
  rw [if_neg h8]
  by_cases h9 : tt.Name.Local = "graphic"
  · rw [if_pos h9]
    first | rfl | (repeat' split) <;> rfl
  rw [if_neg h9]
  rfl

theorem WPAnchor_body_PositionV (tt : StartElement) (r : WPAnchor) (d : Decoder)
    (h : tt.Name.Local ≠ "positionV") : (WPAnchor.body tt r d).val.PositionV = r.PositionV := by
  unfold WPAnchor.body
  by_cases h0 : tt.Name.Local = "simplePos"
  · rw [if_pos h0]
    first | rfl | (repeat' split) <;> rfl
  rw [if_neg h0]
  by_cases h1 : tt.Name.Local = "positionH"
  · rw [if_pos h1]
    first | rfl | (repeat' split) <;> rfl
  rw [if_neg h1]
  by_cases h2 : tt.Name.Local = "positionV"
  · exact absurd h2 h
  rw [if_neg h2]
  by_cases h3 : tt.Name.Local = "extent"
  · rw [if_pos h3]
    first | rfl | (repeat' split) <;> rfl
  rw [if_neg h3]
  by_cases h4 : tt.Name.Local = "effectExtent"
  · rw [if_pos h4]
    first | rfl | (repeat' split) <;> rfl
  rw [if_neg h4]
  by_cases h5 : tt.Name.Local = "wrapNone"
  · rw [if_pos h5]
    first | rfl | (repeat' split) <;> rfl
  rw [if_neg h5]
  by_cases h6 : tt.Name.Local = "wrapSquare"
  · rw [if_pos h6]
    first | rfl | (repeat' split) <;> rfl
  rw [if_neg h6]
  by_cases h7 : tt.Name.Local = "docPr"
  · rw [if_pos h7]
    first | rfl | (repeat' split) <;> rfl
  rw [if_neg h7]
  by_cases h8 : tt.Name.Local = "cNvGraphicFramePr"
  · rw [if_pos h8]
    first | rfl | (repeat' split) <;> rfl
  rw [if_neg h8]
  by_cases h9 : tt.Name.Local = "graphic"
  · rw [if_pos h9]
    first | rfl | (repeat' split) <;> rfl
  rw [if_neg h9]
  rfl

theorem WPAnchor_body_Extent (tt : StartElement) (r : WPAnchor) (d : Decoder)
    (h : tt.Name.Local ≠ "extent") : (WPAnchor.body tt r d).val.Extent = r.Extent := by
  unfold WPAnchor.body
  by_cases h0 : tt.Name.Local = "simplePos"
  · rw [if_pos h0]
    first | rfl | (repeat' split) <;> rfl
  rw [if_neg h0]
  by_cases h1 : tt.Name.Local = "positionH"
  · rw [if_pos h1]
    first | rfl | (repeat' split) <;> rfl
  rw [if_neg h1]
  by_cases h2 : tt.Name.Local = "positionV"
  · rw [if_pos h2]
    first | rfl | (repeat' split) <;> rfl
  rw [if_neg h2]
  by_cases h3 : tt.Name.Local = "extent"
  · exact absurd h3 h
  rw [if_neg h3]
  by_cases h4 : tt.Name.Local = "effectExtent"
  · rw [if_pos h4]
    first | rfl | (repeat' split) <;> rfl
  rw [if_neg h4]
  by_cases h5 : tt.Name.Local = "wrapNone"
  · rw [if_pos h5]
    first | rfl | (repeat' split) <;> rfl
  rw [if_neg h5]
  by_cases h6 : tt.Name.Local = "wrapSquare"
  · rw [if_pos h6]
    first | rfl | (repeat' split) <;> rfl
  rw [if_neg h6]
  by_cases h7 : tt.Name.Local = "docPr"
  · rw [if_pos h7]
    first | rfl | (repeat' split) <;> rfl
  rw [if_neg h7]
  by_cases h8 : tt.Name.Local = "cNvGraphicFramePr"
  · rw [if_pos h8]
    first | rfl | (repeat' split) <;> rfl
  rw [if_neg h8]
  by_cases h9 : tt.Name.Local = "graphic"
  · rw [if_pos h9]
    first | rfl | (repeat' split) <;> rfl
  rw [if_neg h9]
  rfl

theorem WPAnchor_body_EffectExtent (tt : StartElement) (r : WPAnchor) (d : Decoder)
    (h : tt.Name.Local ≠ "effectExtent") : (WPAnchor.body tt r d).val.EffectExtent = r.EffectExtent := by
  unfold WPAnchor.body
  by_cases h0 : tt.Name.Local = "simplePos"
  · rw [if_pos h0]
    first | rfl | (repeat' split) <;> rfl
  rw [if_neg h0]
  by_cases h1 : tt.Name.Local = "positionH"
  · rw [if_pos h1]
    first | rfl | (repeat' split) <;> rfl
  rw [if_neg h1]
  by_cases h2 : tt.Name.Local = "positionV"
  · rw [if_pos h2]
    first | rfl | (repeat' split) <;> rfl
  rw [if_neg h2]
  by_cases h3 : tt.Name.Local = "extent"
  · rw [if_pos h3]
    first | rfl | (repeat' split) <;> rfl
  rw [if_neg h3]
  by_cases h4 : tt.Name.Local = "effectExtent"
  · exact absurd h4 h
  rw [if_neg h4]
  by_cases h5 : tt.Name.Local = "wrapNone"
  · rw [if_pos h5]
    first | rfl | (repeat' split) <;> rfl
  rw [if_neg h5]
  by_cases h6 : tt.Name.Local = "wrapSquare"
  · rw [if_pos h6]
    first | rfl | (repeat' split) <;> rfl
  rw [if_neg h6]
  by_cases h7 : tt.Name.Local = "docPr"
  · rw [if_pos h7]
    first | rfl | (repeat' split) <;> rfl
  rw [if_neg h7]
  by_cases h8 : tt.Name.Local = "cNvGraphicFramePr"
  · rw [if_pos h8]
    first | rfl | (repeat' split) <;> rfl
  rw [if_neg h8]
  by_cases h9 : tt.Name.Local = "graphic"
  · rw [if_pos h9]
    first | rfl | (repeat' split) <;> rfl
  rw [if_neg h9]
  rfl

theorem WPAnchor_body_WrapNone (tt : StartElement) (r : WPAnchor) (d : Decoder)
    (h : tt.Name.Local ≠ "wrapNone") : (WPAnchor.body tt r d).val.WrapNone = r.WrapNone := by
  unfold WPAnchor.body
  by_cases h0 : tt.Name.Local = "simplePos"
  · rw [if_pos h0]
    first | rfl | (repeat' split) <;> rfl
  rw [if_neg h0]
  by_cases h1 : tt.Name.Local = "positionH"
  · rw [if_pos h1]
    first | rfl | (repeat' split) <;> rfl
  rw [if_neg h1]
  by_cases h2 : tt.Name.Local = "positionV"
  · rw [if_pos h2]
    first | rfl | (repeat' split) <;> rfl
  rw [if_neg h2]
  by_cases h3 : tt.Name.Local = "extent"
  · rw [if_pos h3]
    first | rfl | (repeat' split) <;> rfl
  rw [if_neg h3]
  by_cases h4 : tt.Name.Local = "effectExtent"
  · rw [if_pos h4]
    first | rfl | (repeat' split) <;> rfl
  rw [if_neg h4]
  by_cases h5 : tt.Name.Local = "wrapNone"
  · exact absurd h5 h
  rw [if_neg h5]
  by_cases h6 : tt.Name.Local = "wrapSquare"
  · rw [if_pos h6]
    first | rfl | (repeat' split) <;> rfl
  rw [if_neg h6]
  by_cases h7 : tt.Name.Local = "docPr"
  · rw [if_pos h7]
    first | rfl | (repeat' split) <;> rfl
  rw [if_neg h7]
  by_cases h8 : tt.Name.Local = "cNvGraphicFramePr"
  · rw [if_pos h8]
    first | rfl | (repeat' split) <;> rfl
  rw [if_neg h8]
  by_cases h9 : tt.Name.Local = "graphic"
  · rw [if_pos h9]
    first | rfl | (repeat' split) <;> rfl
  rw [if_neg h9]
  rfl

theorem WPAnchor_body_WrapSquare (tt : StartElement) (r : WPAnchor) (d : Decoder)
    (h : tt.Name.Local ≠ "wrapSquare") : (WPAnchor.body tt r d).val.WrapSquare = r.WrapSquare := by
  unfold WPAnchor.body
  by_cases h0 : tt.Name.Local = "simplePos"
  · rw [if_pos h0]
    first | rfl | (repeat' split) <;> rfl
  rw [if_neg h0]
  by_cases h1 : tt.Name.Local = "positionH"
  · rw [if_pos h1]
    first | rfl | (repeat' split) <;> rfl
  rw [if_neg h1]
  by_cases h2 : tt.Name.Local = "positionV"
  · rw [if_pos h2]
    first | rfl | (repeat' split) <;> rfl
  rw [if_neg h2]
  by_cases h3 : tt.Name.Local = "extent"
  · rw [if_pos h3]
    first | rfl | (repeat' split) <;> rfl
  rw [if_neg h3]
  by_cases h4 : tt.Name.Local = "effectExtent"
  · rw [if_pos h4]
    first | rfl | (repeat' split) <;> rfl
  rw [if_neg h4]
  by_cases h5 : tt.Name.Local = "wrapNone"
  · rw [if_pos h5]
    first | rfl | (repeat' split) <;> rfl
  rw [if_neg h5]
  by_cases h6 : tt.Name.Local = "wrapSquare"
  · exact absurd h6 h
  rw [if_neg h6]
  by_cases h7 : tt.Name.Local = "docPr"
  · rw [if_pos h7]
    first | rfl | (repeat' split) <;> rfl
  rw [if_neg h7]
  by_cases h8 : tt.Name.Local = "cNvGraphicFramePr"
  · rw [if_pos h8]
    first | rfl | (repeat' split) <;> rfl
  rw [if_neg h8]
  by_cases h9 : tt.Name.Local = "graphic"
  · rw [if_pos h9]
    first | rfl | (repeat' split) <;> rfl
  rw [if_neg h9]
  rfl

theorem WPAnchor_body_DocPr (tt : StartElement) (r : WPAnchor) (d : Decoder)
    (h : tt.Name.Local ≠ "docPr") : (WPAnchor.body tt r d).val.DocPr = r.DocPr := by
  unfold WPAnchor.body
  by_cases h0 : tt.Name.Local = "simplePos"
  · rw [if_pos h0]
    first | rfl | (repeat' split) <;> rfl
  rw [if_neg h0]
  by_cases h1 : tt.Name.Local = "positionH"
  · rw [if_pos h1]
    first | rfl | (repeat' split) <;> rfl
  rw [if_neg h1]
  by_cases h2 : tt.Name.Local = "positionV"
  · rw [if_pos h2]
    first | rfl | (repeat' split) <;> rfl
  rw [if_neg h2]
  by_cases h3 : tt.Name.Local = "extent"
  · rw [if_pos h3]
    first | rfl | (repeat' split) <;> rfl
  rw [if_neg h3]
  by_cases h4 : tt.Name.Local = "effectExtent"
  · rw [if_pos h4]
    first | rfl | (repeat' split) <;> rfl
  rw [if_neg h4]
  by_cases h5 : tt.Name.Local = "wrapNone"
  · rw [if_pos h5]
    first | rfl | (repeat' split) <;> rfl
  rw [if_neg h5]
  by_cases h6 : tt.Name.Local = "wrapSquare"
  · rw [if_pos h6]
    first | rfl | (repeat' split) <;> rfl
  rw [if_neg h6]
  by_cases h7 : tt.Name.Local = "docPr"
  · exact absurd h7 h
  rw [if_neg h7]
  by_cases h8 : tt.Name.Local = "cNvGraphicFramePr"
  · rw [if_pos h8]
    first | rfl | (repeat' split) <;> rfl
  rw [if_neg h8]
  by_cases h9 : tt.Name.Local = "graphic"
  · rw [if_pos h9]
    first | rfl | (repeat' split) <;> rfl
  rw [if_neg h9]
  rfl

theorem WPAnchor_body_CNvGraphicFramePr (tt : StartElement) (r : WPAnchor) (d : Decoder)
    (h : tt.Name.Local ≠ "cNvGraphicFramePr") : (WPAnchor.body tt r d).val.CNvGraphicFramePr = r.CNvGraphicFramePr := by
  unfold WPAnchor.body
  by_cases h0 : tt.Name.Local = "simplePos"
  · rw [if_pos h0]
    first | rfl | (repeat' split) <;> rfl
  rw [if_neg h0]
  by_cases h1 : tt.Name.Local = "positionH"
  · rw [if_pos h1]
    first | rfl | (repeat' split) <;> rfl
  rw [if_neg h1]
  by_cases h2 : tt.Name.Local = "positionV"
  · rw [if_pos h2]
    first | rfl | (repeat' split) <;> rfl
  rw [if_neg h2]
  by_cases h3 : tt.Name.Local = "extent"
  · rw [if_pos h3]
    first | rfl | (repeat' split) <;> rfl
  rw [if_neg h3]
  by_cases h4 : tt.Name.Local = "effectExtent"
  · rw [if_pos h4]
    first | rfl | (repeat' split) <;> rfl
  rw [if_neg h4]
  by_cases h5 : tt.Name.Local = "wrapNone"
  · rw [if_pos h5]
    first | rfl | (repeat' split) <;> rfl
  rw [if_neg h5]
  by_cases h6 : tt.Name.Local = "wrapSquare"
  · rw [if_pos h6]
    first | rfl | (repeat' split) <;> rfl
  rw [if_neg h6]
  by_cases h7 : tt.Name.Local = "docPr"
  · rw [if_pos h7]
    first | rfl | (repeat' split) <;> rfl
  rw [if_neg h7]
  by_cases h8 : tt.Name.Local = "cNvGraphicFramePr"
  · exact absurd h8 h
  rw [if_neg h8]
  by_cases h9 : tt.Name.Local = "graphic"
  · rw [if_pos h9]
    first | rfl | (repeat' split) <;> rfl
  rw [if_neg h9]
  rfl

theorem WPAnchor_body_Graphic (tt : StartElement) (r : WPAnchor) (d : Decoder)
    (h : tt.Name.Local ≠ "graphic") : (WPAnchor.body tt r d).val.Graphic = r.Graphic := by
  unfold WPAnchor.body
  by_cases h0 : tt.Name.Local = "simplePos"
  · rw [if_pos h0]
    first | rfl | (repeat' split) <;> rfl
  rw [if_neg h0]
  by_cases h1 : tt.Name.Local = "positionH"
  · rw [if_pos h1]
    first | rfl | (repeat' split) <;> rfl
  rw [if_neg h1]
  by_cases h2 : tt.Name.Local = "positionV"
  · rw [if_pos h2]
    first | rfl | (repeat' split) <;> rfl
  rw [if_neg h2]
  by_cases h3 : tt.Name.Local = "extent"
  · rw [if_pos h3]
    first | rfl | (repeat' split) <;> rfl
  rw [if_neg h3]
  by_cases h4 : tt.Name.Local = "effectExtent"
  · rw [if_pos h4]
    first | rfl | (repeat' split) <;> rfl
  rw [if_neg h4]
  by_cases h5 : tt.Name.Local = "wrapNone"
  · rw [if_pos h5]
    first | rfl | (repeat' split) <;> rfl
  rw [if_neg h5]
  by_cases h6 : tt.Name.Local = "wrapSquare"
  · rw [if_pos h6]
    first | rfl | (repeat' split) <;> rfl
  rw [if_neg h6]
  by_cases h7 : tt.Name.Local = "docPr"
  · rw [if_pos h7]
    first | rfl | (repeat' split) <;> rfl
  rw [if_neg h7]
  by_cases h8 : tt.Name.Local = "cNvGraphicFramePr"
  · rw [if_pos h8]
    first | rfl | (repeat' split) <;> rfl
  rw [if_neg h8]
  by_cases h9 : tt.Name.Local = "graphic"
  · exact absurd h9 h
  rw [if_neg h9]
  rfl

theorem WPAnchor_body_DistT (tt : StartElement) (r : WPAnchor) (d : Decoder) :
    (WPAnchor.body tt r d).val.DistT = r.DistT := by
  unfold WPAnchor.body
  by_cases h0 : tt.Name.Local = "simplePos"
  · rw [if_pos h0]
    first | rfl | ((try dsimp only) <;> (repeat' split) <;> rfl)
  rw [if_neg h0]
  by_cases h1 : tt.Name.Local = "positionH"
  · rw [if_pos h1]
    first | rfl | ((try dsimp only) <;> (repeat' split) <;> rfl)
  rw [if_neg h1]
  by_cases h2 : tt.Name.Local = "positionV"
  · rw [if_pos h2]
    first | rfl | ((try dsimp only) <;> (repeat' split) <;> rfl)
  rw [if_neg h2]
  by_cases h3 : tt.Name.Local = "extent"
  · rw [if_pos h3]
    first | rfl | ((try dsimp only) <;> (repeat' split) <;> rfl)
  rw [if_neg h3]
  by_cases h4 : tt.Name.Local = "effectExtent"
  · rw [if_pos h4]
    first | rfl | ((try dsimp only) <;> (repeat' split) <;> rfl)
  rw [if_neg h4]
  by_cases h5 : tt.Name.Local = "wrapNone"
  · rw [if_pos h5]
    first | rfl | ((try dsimp only) <;> (repeat' split) <;> rfl)
  rw [if_neg h5]
  by_cases h6 : tt.Name.Local = "wrapSquare"
  · rw [if_pos h6]
    first | rfl | ((try dsimp only) <;> (repeat' split) <;> rfl)
  rw [if_neg h6]
  by_cases h7 : tt.Name.Local = "docPr"
  · rw [if_pos h7]
    first | rfl | ((try dsimp only) <;> (repeat' split) <;> rfl)
  rw [if_neg h7]
  by_cases h8 : tt.Name.Local = "cNvGraphicFramePr"
  · rw [if_pos h8]
    first | rfl | ((try dsimp only) <;> (repeat' split) <;> rfl)
  rw [if_neg h8]
  by_cases h9 : tt.Name.Local = "graphic"
  · rw [if_pos h9]
    first | rfl | ((try dsimp only) <;> (repeat' split) <;> rfl)
  rw [if_neg h9]
  rfl

theorem WPAnchor_body_DistB (tt : StartElement) (r : WPAnchor) (d : Decoder) :
    (WPAnchor.body tt r d).val.DistB = r.DistB := by
  unfold WPAnchor.body
  by_cases h0 : tt.Name.Local = "simplePos"
  · rw [if_pos h0]
    first | rfl | ((try dsimp only) <;> (repeat' split) <;> rfl)
  rw [if_neg h0]
  by_cases h1 : tt.Name.Local = "positionH"
  · rw [if_pos h1]
    first | rfl | ((try dsimp only) <;> (repeat' split) <;> rfl)
  rw [if_neg h1]
  by_cases h2 : tt.Name.Local = "positionV"
  · rw [if_pos h2]
    first | rfl | ((try dsimp only) <;> (repeat' split) <;> rfl)
  rw [if_neg h2]
  by_cases h3 : tt.Name.Local = "extent"
  · rw [if_pos h3]
    first | rfl | ((try dsimp only) <;> (repeat' split) <;> rfl)
  rw [if_neg h3]
  by_cases h4 : tt.Name.Local = "effectExtent"
  · rw [if_pos h4]
    first | rfl | ((try dsimp only) <;> (repeat' split) <;> rfl)
  rw [if_neg h4]
  by_cases h5 : tt.Name.Local = "wrapNone"
  · rw [if_pos h5]
    first | rfl | ((try dsimp only) <;> (repeat' split) <;> rfl)
  rw [if_neg h5]
  by_cases h6 : tt.Name.Local = "wrapSquare"
  · rw [if_pos h6]
    first | rfl | ((try dsimp only) <;> (repeat' split) <;> rfl)
  rw [if_neg h6]
  by_cases h7 : tt.Name.Local = "docPr"
  · rw [if_pos h7]
    first | rfl | ((try dsimp only) <;> (repeat' split) <;> rfl)
  rw [if_neg h7]
  by_cases h8 : tt.Name.Local = "cNvGraphicFramePr"
  · rw [if_pos h8]
    first | rfl | ((try dsimp only) <;> (repeat' split) <;> rfl)
  rw [if_neg h8]
  by_cases h9 : tt.Name.Local = "graphic"
  · rw [if_pos h9]
    first | rfl | ((try dsimp only) <;> (repeat' split) <;> rfl)
  rw [if_neg h9]
  rfl

theorem WPAnchor_body_DistL (tt : StartElement) (r : WPAnchor) (d : Decoder) :
    (WPAnchor.body tt r d).val.DistL = r.DistL := by
  unfold WPAnchor.body
  by_cases h0 : tt.Name.Local = "simplePos"
  · rw [if_pos h0]
    first | rfl | ((try dsimp only) <;> (repeat' split) <;> rfl)
  rw [if_neg h0]
  by_cases h1 : tt.Name.Local = "positionH"
  · rw [if_pos h1]
    first | rfl | ((try dsimp only) <;> (repeat' split) <;> rfl)
  rw [if_neg h1]
  by_cases h2 : tt.Name.Local = "positionV"
  · rw [if_pos h2]
    first | rfl | ((try dsimp only) <;> (repeat' split) <;> rfl)
  rw [if_neg h2]
  by_cases h3 : tt.Name.Local = "extent"
  · rw [if_pos h3]
    first | rfl | ((try dsimp only) <;> (repeat' split) <;> rfl)
  rw [if_neg h3]
  by_cases h4 : tt.Name.Local = "effectExtent"
  · rw [if_pos h4]
    first | rfl | ((try dsimp only) <;> (repeat' split) <;> rfl)
  rw [if_neg h4]
  by_cases h5 : tt.Name.Local = "wrapNone"
  · rw [if_pos h5]
    first | rfl | ((try dsimp only) <;> (repeat' split) <;> rfl)
  rw [if_neg h5]
  by_cases h6 : tt.Name.Local = "wrapSquare"
  · rw [if_pos h6]
    first | rfl | ((try dsimp only) <;> (repeat' split) <;> rfl)
  rw [if_neg h6]
  by_cases h7 : tt.Name.Local = "docPr"
  · rw [if_pos h7]
    first | rfl | ((try dsimp only) <;> (repeat' split) <;> rfl)
  rw [if_neg h7]
  by_cases h8 : tt.Name.Local = "cNvGraphicFramePr"
  · rw [if_pos h8]
    first | rfl | ((try dsimp only) <;> (repeat' split) <;> rfl)
  rw [if_neg h8]
  by_cases h9 : tt.Name.Local = "graphic"
  · rw [if_pos h9]
    first | rfl | ((try dsimp only) <;> (repeat' split) <;> rfl)
  rw [if_neg h9]
  rfl

theorem WPAnchor_body_DistR (tt : StartElement) (r : WPAnchor) (d : Decoder) :
    (WPAnchor.body tt r d).val.DistR = r.DistR := by
  unfold WPAnchor.body
  by_cases h0 : tt.Name.Local = "simplePos"
  · rw [if_pos h0]
    first | rfl | ((try dsimp only) <;> (repeat' split) <;> rfl)
  rw [if_neg h0]
  by_cases h1 : tt.Name.Local = "positionH"
  · rw [if_pos h1]
    first | rfl | ((try dsimp only) <;> (repeat' split) <;> rfl)
  rw [if_neg h1]
  by_cases h2 : tt.Name.Local = "positionV"
  · rw [if_pos h2]
    first | rfl | ((try dsimp only) <;> (repeat' split) <;> rfl)
  rw [if_neg h2]
  by_cases h3 : tt.Name.Local = "extent"
  · rw [if_pos h3]
    first | rfl | ((try dsimp only) <;> (repeat' split) <;> rfl)
  rw [if_neg h3]
  by_cases h4 : tt.Name.Local = "effectExtent"
  · rw [if_pos h4]
    first | rfl | ((try dsimp only) <;> (repeat' split) <;> rfl)
  rw [if_neg h4]
  by_cases h5 : tt.Name.Local = "wrapNone"
  · rw [if_pos h5]
    first | rfl | ((try dsimp only) <;> (repeat' split) <;> rfl)
  rw [if_neg h5]
  by_cases h6 : tt.Name.Local = "wrapSquare"
  · rw [if_pos h6]
    first | rfl | ((try dsimp only) <;> (repeat' split) <;> rfl)
  rw [if_neg h6]
  by_cases h7 : tt.Name.Local = "docPr"
  · rw [if_pos h7]
    first | rfl | ((try dsimp only) <;> (repeat' split) <;> rfl)
  rw [if_neg h7]
  by_cases h8 : tt.Name.Local = "cNvGraphicFramePr"
  · rw [if_pos h8]
    first | rfl | ((try dsimp only) <;> (repeat' split) <;> rfl)
  rw [if_neg h8]
  by_cases h9 : tt.Name.Local = "graphic"
  · rw [if_pos h9]
    first | rfl | ((try dsimp only) <;> (repeat' split) <;> rfl)
  rw [if_neg h9]
  rfl

theorem WPAnchor_body_SimplePos (tt : StartElement) (r : WPAnchor) (d : Decoder) :
    (WPAnchor.body tt r d).val.SimplePos = r.SimplePos := by
  unfold WPAnchor.body
  by_cases h0 : tt.Name.Local = "simplePos"
  · rw [if_pos h0]
    first | rfl | ((try dsimp only) <;> (repeat' split) <;> rfl)
  rw [if_neg h0]
  by_cases h1 : tt.Name.Local = "positionH"
  · rw [if_pos h1]
    first | rfl | ((try dsimp only) <;> (repeat' split) <;> rfl)
  rw [if_neg h1]
  by_cases h2 : tt.Name.Local = "positionV"
  · rw [if_pos h2]
    first | rfl | ((try dsimp only) <;> (repeat' split) <;> rfl)
  rw [if_neg h2]
  by_cases h3 : tt.Name.Local = "extent"
  · rw [if_pos h3]
    first | rfl | ((try dsimp only) <;> (repeat' split) <;> rfl)
  rw [if_neg h3]
  by_cases h4 : tt.Name.Local = "effectExtent"
  · rw [if_pos h4]
    first | rfl | ((try dsimp only) <;> (repeat' split) <;> rfl)
  rw [if_neg h4]
  by_cases h5 : tt.Name.Local = "wrapNone"
  · rw [if_pos h5]
    first | rfl | ((try dsimp only) <;> (repeat' split) <;> rfl)
  rw [if_neg h5]
  by_cases h6 : tt.Name.Local = "wrapSquare"
  · rw [if_pos h6]
    first | rfl | ((try dsimp only) <;> (repeat' split) <;> rfl)
  rw [if_neg h6]
  by_cases h7 : tt.Name.Local = "docPr"
  · rw [if_pos h7]
    first | rfl | ((try dsimp only) <;> (repeat' split) <;> rfl)
  rw [if_neg h7]
  by_cases h8 : tt.Name.Local = "cNvGraphicFramePr"
  · rw [if_pos h8]
    first | rfl | ((try dsimp only) <;> (repeat' split) <;> rfl)
  rw [if_neg h8]
  by_cases h9 : tt.Name.Local = "graphic"
  · rw [if_pos h9]
    first | rfl | ((try dsimp only) <;> (repeat' split) <;> rfl)
  rw [if_neg h9]
  rfl

theorem WPAnchor_body_RelativeHeight (tt : StartElement) (r : WPAnchor) (d : Decoder) :
    (WPAnchor.body tt r d).val.RelativeHeight = r.RelativeHeight := by
  unfold WPAnchor.body
  by_cases h0 : tt.Name.Local = "simplePos"
  · rw [if_pos h0]
    first | rfl | ((try dsimp only) <;> (repeat' split) <;> rfl)
  rw [if_neg h0]
  by_cases h1 : tt.Name.Local = "positionH"
  · rw [if_pos h1]
    first | rfl | ((try dsimp only) <;> (repeat' split) <;> rfl)
  rw [if_neg h1]
  by_cases h2 : tt.Name.Local = "positionV"
  · rw [if_pos h2]
    first | rfl | ((try dsimp only) <;> (repeat' split) <;> rfl)
  rw [if_neg h2]
  by_cases h3 : tt.Name.Local = "extent"
  · rw [if_pos h3]
    first | rfl | ((try dsimp only) <;> (repeat' split) <;> rfl)
  rw [if_neg h3]
  by_cases h4 : tt.Name.Local = "effectExtent"
  · rw [if_pos h4]
    first | rfl | ((try dsimp only) <;> (repeat' split) <;> rfl)
  rw [if_neg h4]
  by_cases h5 : tt.Name.Local = "wrapNone"
  · rw [if_pos h5]
    first | rfl | ((try dsimp only) <;> (repeat' split) <;> rfl)
  rw [if_neg h5]
  by_cases h6 : tt.Name.Local = "wrapSquare"
  · rw [if_pos h6]
    first | rfl | ((try dsimp only) <;> (repeat' split) <;> rfl)
  rw [if_neg h6]
  by_cases h7 : tt.Name.Local = "docPr"
  · rw [if_pos h7]
    first | rfl | ((try dsimp only) <;> (repeat' split) <;> rfl)
  rw [if_neg h7]
  by_cases h8 : tt.Name.Local = "cNvGraphicFramePr"
  · rw [if_pos h8]
    first | rfl | ((try dsimp only) <;> (repeat' split) <;> rfl)
  rw [if_neg h8]
  by_cases h9 : tt.Name.Local = "graphic"
  · rw [if_pos h9]
    first | rfl | ((try dsimp only) <;> (repeat' split) <;> rfl)
  rw [if_neg h9]
  rfl

theorem WPAnchor_body_BehindDoc (tt : StartElement) (r : WPAnchor) (d : Decoder) :
    (WPAnchor.body tt r d).val.BehindDoc = r.BehindDoc := by
  unfold WPAnchor.body
  by_cases h0 : tt.Name.Local = "simplePos"
  · rw [if_pos h0]
    first | rfl | ((try dsimp only) <;> (repeat' split) <;> rfl)
  rw [if_neg h0]
  by_cases h1 : tt.Name.Local = "positionH"
  · rw [if_pos h1]
    first | rfl | ((try dsimp only) <;> (repeat' split) <;> rfl)
  rw [if_neg h1]
  by_cases h2 : tt.Name.Local = "positionV"
  · rw [if_pos h2]
    first | rfl | ((try dsimp only) <;> (repeat' split) <;> rfl)
  rw [if_neg h2]
  by_cases h3 : tt.Name.Local = "extent"
  · rw [if_pos h3]
    first | rfl | ((try dsimp only) <;> (repeat' split) <;> rfl)
  rw [if_neg h3]
  by_cases h4 : tt.Name.Local = "effectExtent"
  · rw [if_pos h4]
    first | rfl | ((try dsimp only) <;> (repeat' split) <;> rfl)
  rw [if_neg h4]
  by_cases h5 : tt.Name.Local = "wrapNone"
  · rw [if_pos h5]
    first | rfl | ((try dsimp only) <;> (repeat' split) <;> rfl)
  rw [if_neg h5]
  by_cases h6 : tt.Name.Local = "wrapSquare"
  · rw [if_pos h6]
    first | rfl | ((try dsimp only) <;> (repeat' split) <;> rfl)
  rw [if_neg h6]
  by_cases h7 : tt.Name.Local = "docPr"
  · rw [if_pos h7]
    first | rfl | ((try dsimp only) <;> (repeat' split) <;> rfl)
  rw [if_neg h7]
  by_cases h8 : tt.Name.Local = "cNvGraphicFramePr"
  · rw [if_pos h8]
    first | rfl | ((try dsimp only) <;> (repeat' split) <;> rfl)
  rw [if_neg h8]
  by_cases h9 : tt.Name.Local = "graphic"
  · rw [if_pos h9]
    first | rfl | ((try dsimp only) <;> (repeat' split) <;> rfl)
  rw [if_neg h9]
  rfl

theorem WPAnchor_body_Locked (tt : StartElement) (r : WPAnchor) (d : Decoder) :
    (WPAnchor.body tt r d).val.Locked = r.Locked := by
  unfold WPAnchor.body
  by_cases h0 : tt.Name.Local = "simplePos"
  · rw [if_pos h0]
    first | rfl | ((try dsimp only) <;> (repeat' split) <;> rfl)
  rw [if_neg h0]
  by_cases h1 : tt.Name.Local = "positionH"
  · rw [if_pos h1]
    first | rfl | ((try dsimp only) <;> (repeat' split) <;> rfl)
  rw [if_neg h1]
  by_cases h2 : tt.Name.Local = "positionV"
  · rw [if_pos h2]
    first | rfl | ((try dsimp only) <;> (repeat' split) <;> rfl)
  rw [if_neg h2]
  by_cases h3 : tt.Name.Local = "extent"
  · rw [if_pos h3]
    first | rfl | ((try dsimp only) <;> (repeat' split) <;> rfl)
  rw [if_neg h3]
  by_cases h4 : tt.Name.Local = "effectExtent"
  · rw [if_pos h4]
    first | rfl | ((try dsimp only) <;> (repeat' split) <;> rfl)
  rw [if_neg h4]
  by_cases h5 : tt.Name.Local = "wrapNone"
  · rw [if_pos h5]
    first | rfl | ((try dsimp only) <;> (repeat' split) <;> rfl)
  rw [if_neg h5]
  by_cases h6 : tt.Name.Local = "wrapSquare"
  · rw [if_pos h6]
    first | rfl | ((try dsimp only) <;> (repeat' split) <;> rfl)
  rw [if_neg h6]
  by_cases h7 : tt.Name.Local = "docPr"
  · rw [if_pos h7]
    first | rfl | ((try dsimp only) <;> (repeat' split) <;> rfl)
  rw [if_neg h7]
  by_cases h8 : tt.Name.Local = "cNvGraphicFramePr"
  · rw [if_pos h8]
    first | rfl | ((try dsimp only) <;> (repeat' split) <;> rfl)
  rw [if_neg h8]
  by_cases h9 : tt.Name.Local = "graphic"
  · rw [if_pos h9]
    first | rfl | ((try dsimp only) <;> (repeat' split) <;> rfl)
  rw [if_neg h9]
  rfl

theorem WPAnchor_body_LayoutInCell (tt : StartElement) (r : WPAnchor) (d : Decoder) :
    (WPAnchor.body tt r d).val.LayoutInCell = r.LayoutInCell := by
  unfold WPAnchor.body
  by_cases h0 : tt.Name.Local = "simplePos"
  · rw [if_pos h0]
    first | rfl | ((try dsimp only) <;> (repeat' split) <;> rfl)
  rw [if_neg h0]
  by_cases h1 : tt.Name.Local = "positionH"
  · rw [if_pos h1]
    first | rfl | ((try dsimp only) <;> (repeat' split) <;> rfl)
  rw [if_neg h1]
  by_cases h2 : tt.Name.Local = "positionV"
  · rw [if_pos h2]
    first | rfl | ((try dsimp only) <;> (repeat' split) <;> rfl)
  rw [if_neg h2]
  by_cases h3 : tt.Name.Local = "extent"
  · rw [if_pos h3]
    first | rfl | ((try dsimp only) <;> (repeat' split) <;> rfl)
  rw [if_neg h3]
  by_cases h4 : tt.Name.Local = "effectExtent"
  · rw [if_pos h4]
    first | rfl | ((try dsimp only) <;> (repeat' split) <;> rfl)
  rw [if_neg h4]
  by_cases h5 : tt.Name.Local = "wrapNone"
  · rw [if_pos h5]
    first | rfl | ((try dsimp only) <;> (repeat' split) <;> rfl)
  rw [if_neg h5]
  by_cases h6 : tt.Name.Local = "wrapSquare"
  · rw [if_pos h6]
    first | rfl | ((try dsimp only) <;> (repeat' split) <;> rfl)
  rw [if_neg h6]
  by_cases h7 : tt.Name.Local = "docPr"
  · rw [if_pos h7]
    first | rfl | ((try dsimp only) <;> (repeat' split) <;> rfl)
  rw [if_neg h7]
  by_cases h8 : tt.Name.Local = "cNvGraphicFramePr"
  · rw [if_pos h8]
    first | rfl | ((try dsimp only) <;> (repeat' split) <;> rfl)
  rw [if_neg h8]
  by_cases h9 : tt.Name.Local = "graphic"
  · rw [if_pos h9]
    first | rfl | ((try dsimp only) <;> (repeat' split) <;> rfl)
  rw [if_neg h9]
  rfl

theorem WPAnchor_body_AllowOverlap (tt : StartElement) (r : WPAnchor) (d : Decoder) :
    (WPAnchor.body tt r d).val.AllowOverlap = r.AllowOverlap := by
  unfold WPAnchor.body
  by_cases h0 : tt.Name.Local = "simplePos"
  · rw [if_pos h0]
    first | rfl | ((try dsimp only) <;> (repeat' split) <;> rfl)
  rw [if_neg h0]
  by_cases h1 : tt.Name.Local = "positionH"
  · rw [if_pos h1]
    first | rfl | ((try dsimp only) <;> (repeat' split) <;> rfl)
  rw [if_neg h1]
  by_cases h2 : tt.Name.Local = "positionV"
  · rw [if_pos h2]
    first | rfl | ((try dsimp only) <;> (repeat' split) <;> rfl)
  rw [if_neg h2]
  by_cases h3 : tt.Name.Local = "extent"
  · rw [if_pos h3]
    first | rfl | ((try dsimp only) <;> (repeat' split) <;> rfl)
  rw [if_neg h3]
  by_cases h4 : tt.Name.Local = "effectExtent"
  · rw [if_pos h4]
    first | rfl | ((try dsimp only) <;> (repeat' split) <;> rfl)
  rw [if_neg h4]
  by_cases h5 : tt.Name.Local = "wrapNone"
  · rw [if_pos h5]
    first | rfl | ((try dsimp only) <;> (repeat' split) <;> rfl)
  rw [if_neg h5]
  by_cases h6 : tt.Name.Local = "wrapSquare"
  · rw [if_pos h6]
    first | rfl | ((try dsimp only) <;> (repeat' split) <;> rfl)
  rw [if_neg h6]
  by_cases h7 : tt.Name.Local = "docPr"
  · rw [if_pos h7]
    first | rfl | ((try dsimp only) <;> (repeat' split) <;> rfl)
  rw [if_neg h7]
  by_cases h8 : tt.Name.Local = "cNvGraphicFramePr"
  · rw [if_pos h8]
    first | rfl | ((try dsimp only) <;> (repeat' split) <;> rfl)
  rw [if_neg h8]
  by_cases h9 : tt.Name.Local = "graphic"
  · rw [if_pos h9]
    first | rfl | ((try dsimp only) <;> (repeat' split) <;> rfl)
  rw [if_neg h9]
  rfl

/-- A start-element whose local name the loop of `Drawing.UnmarshalXML` does not
know is passed over: no field is written, no token is read. -/
theorem Drawing_body_unknown (tt : StartElement) (r : Drawing) (d : Decoder)
    (h : Drawing.known tt.Name.Local = false) : Drawing.body tt r d = .next r d := by
  simp only [Drawing.known, Drawing.childNames, List.contains_eq_any_beq, List.any_cons, List.any_nil,
    Bool.or_false, Bool.or_eq_false_iff, beq_eq_false_iff_ne, ne_eq] at h
  unfold Drawing.body
  rw [if_neg h.1]
  rw [if_neg h.2]

theorem Drawing_body_Inline (tt : StartElement) (r : Drawing) (d : Decoder)
    (h : tt.Name.Local ≠ "inline") : (Drawing.body tt r d).val.Inline = r.Inline := by
  unfold Drawing.body
  by_cases h0 : tt.Name.Local = "inline"
  · exact absurd h0 h
  rw [if_neg h0]
  by_cases h1 : tt.Name.Local = "anchor"
  · rw [if_pos h1]
    first | rfl | (repeat' split) <;> rfl
  rw [if_neg h1]
  rfl

theorem Drawing_body_Anchor (tt : StartElement) (r : Drawing) (d : Decoder)
    (h : tt.Name.Local ≠ "anchor") : (Drawing.body tt r d).val.Anchor = r.Anchor := by
  unfold Drawing.body
  by_cases h0 : tt.Name.Local = "inline"
  · rw [if_pos h0]
    first | rfl | (repeat' split) <;> rfl
  rw [if_neg h0]
  by_cases h1 : tt.Name.Local = "anchor"
  · exact absurd h1 h
  rw [if_neg h1]
  rfl

theorem Hyperlink_body_unknown {Run : Type}
    (run : Run → Decoder → StartElement → Outcome Run)
    (tt : StartElement) (r : Hyperlink Run) (d : Decoder)
    (h : Hyperlink.known tt.Name.Local = false) : Hyperlink.body run tt r d = .next r d := by
  simp only [Hyperlink.known, Hyperlink.childNames, List.contains_eq_any_beq, List.any_cons,
    List.any_nil, Bool.or_false, beq_eq_false_iff_ne, ne_eq] at h
  unfold Hyperlink.body
  rw [if_neg h]

theorem Hyperlink_body_ID {Run : Type}
    (run : Run → Decoder → StartElement → Outcome Run)
    (tt : StartElement) (r : Hyperlink Run) (d : Decoder) :
    (Hyperlink.body run tt r d).val.ID = r.ID := by
  unfold Hyperlink.body
  split <;> rfl

theorem Hyperlink_body_Run {Run : Type}
    (run : Run → Decoder → StartElement → Outcome Run)
    (tt : StartElement) (r : Hyperlink Run) (d : Decoder) (h : tt.Name.Local ≠ "r") :
    (Hyperlink.body run tt r d).val.Run = r.Run := by
  unfold Hyperlink.body
  rw [if_neg h]
  rfl

/-- No pending token is a start-element of local name `name`. -/
theorem any_isStart_false {name : String} {toks : List Token}
    (h : toks.any (Token.isStart name) = false) (tt : StartElement)
    (ht : Token.StartElement tt ∈ toks) : decide (tt.Name.Local = name) = false := by
  rw [List.any_eq_false] at h
  have := h _ ht
  simpa [Token.isStart] using this

/-- C6, as stated, fails: handed the content of a drawing element that holds an
inline child followed by an anchor child, `Drawing.UnmarshalXML` returns nil
with both `Inline` and `Anchor` populated. -/
theorem C6_counterexample_both_variants_populated :
    (Drawing.UnmarshalXML {}
        ⟨[.StartElement ⟨⟨"", "inline"⟩, []⟩, .EndElement ⟨"", "inline"⟩,
          .StartElement ⟨⟨"", "anchor"⟩, []⟩, .EndElement ⟨"", "anchor"⟩,
          .EndElement ⟨"", "drawing"⟩], none, [.stkStart ⟨"", "drawing"⟩, .stkEOF]⟩
        ⟨⟨"", "drawing"⟩, []⟩).err = none ∧
    (Drawing.UnmarshalXML {}
        ⟨[.StartElement ⟨⟨"", "inline"⟩, []⟩, .EndElement ⟨"", "inline"⟩,
          .StartElement ⟨⟨"", "anchor"⟩, []⟩, .EndElement ⟨"", "anchor"⟩,
          .EndElement ⟨"", "drawing"⟩], none, [.stkStart ⟨"", "drawing"⟩, .stkEOF]⟩
        ⟨⟨"", "drawing"⟩, []⟩).val.Inline.isSome = true ∧
    (Drawing.UnmarshalXML {}
        ⟨[.StartElement ⟨⟨"", "inline"⟩, []⟩, .EndElement ⟨"", "inline"⟩,
          .StartElement ⟨⟨"", "anchor"⟩, []⟩, .EndElement ⟨"", "anchor"⟩,
          .EndElement ⟨"", "drawing"⟩], none, [.stkStart ⟨"", "drawing"⟩, .stkEOF]⟩
        ⟨⟨"", "drawing"⟩, []⟩).val.Anchor.isSome = true := by
  decide

/-- C6, amended: for every token stream handed to `Drawing.UnmarshalXML` (on a
fresh record) that holds no start-element of local name `inline`, or none of
local name `anchor`, at most one of the fields `Inline` and `Anchor` is
populated after the decode, whatever the decode returns.  (`Inline` stays nil
in the first case, `Anchor` in the second.) -/
theorem C6_drawing_at_most_one_variant (d : Decoder) (start : StartElement)
    (h : d.toks.any (Token.isStart "inline") = false ∨
      d.toks.any (Token.isStart "anchor") = false) :
    ¬ ((Drawing.UnmarshalXML {} d start).val.Inline.isSome = true ∧
        (Drawing.UnmarshalXML {} d start).val.Anchor.isSome = true) := by
  rintro ⟨h1, h2⟩
  rcases h with h | h
  · have : (Drawing.UnmarshalXML {} d start).val.Inline = none :=
      tokenLoop_frame Drawing.body (fun r => r.Inline) (fun s => decide (s = "inline"))
        Drawing_body_reach (fun tt r d ht => Drawing_body_Inline tt r d (by simpa using ht))
        _ _ _ (any_isStart_false h)
    rw [this] at h1; simp at h1
  · have : (Drawing.UnmarshalXML {} d start).val.Anchor = none :=
      tokenLoop_frame Drawing.body (fun r => r.Anchor) (fun s => decide (s = "anchor"))
        Drawing_body_reach (fun tt r d ht => Drawing_body_Anchor tt r d (by simpa using ht))
        _ _ _ (any_isStart_false h)
    rw [this] at h2; simp at h2

/-- C6, amended, at a drawing that holds an inline child only. -/
theorem C6_drawing_at_most_one_variant_witness :
    (([.StartElement ⟨⟨"", "inline"⟩, []⟩, .EndElement ⟨"", "inline"⟩,
        .EndElement ⟨"", "drawing"⟩] : List Token).any (Token.isStart "inline") = false ∨
      ([.StartElement ⟨⟨"", "inline"⟩, []⟩, .EndElement ⟨"", "inline"⟩,
        .EndElement ⟨"", "drawing"⟩] : List Token).any (Token.isStart "anchor") = false) ∧
    ¬ ((Drawing.UnmarshalXML {}
          ⟨[.StartElement ⟨⟨"", "inline"⟩, []⟩, .EndElement ⟨"", "inline"⟩,
            .EndElement ⟨"", "drawing"⟩], none, [.stkStart ⟨"", "drawing"⟩, .stkEOF]⟩
          ⟨⟨"", "drawing"⟩, []⟩).val.Inline.isSome = true ∧
        (Drawing.UnmarshalXML {}
          ⟨[.StartElement ⟨⟨"", "inline"⟩, []⟩, .EndElement ⟨"", "inline"⟩,
            .EndElement ⟨"", "drawing"⟩], none, [.stkStart ⟨"", "drawing"⟩, .stkEOF]⟩
          ⟨⟨"", "drawing"⟩, []⟩).val.Anchor.isSome = true) :=
  ⟨Or.inr (by decide),
    C6_drawing_at_most_one_variant
      ⟨[.StartElement ⟨⟨"", "inline"⟩, []⟩, .EndElement ⟨"", "inline"⟩,
        .EndElement ⟨"", "drawing"⟩], none, [.stkStart ⟨"", "drawing"⟩, .stkEOF]⟩
      ⟨⟨"", "drawing"⟩, []⟩ (Or.inr (by decide))⟩

/-! ## The attribute loops on well-formed attributes -/

theorem foldl_frame {α β : Type} (step : α → Attr → α) (π : α → β)
    (h : ∀ (r : α) (a : Attr), π (step r a) = π r) :
    ∀ (attrs : List Attr) (r : α), π (attrs.foldl step r) = π r := by
  intro attrs
  induction attrs with
  | nil => intro r; rfl
  | cons x xs ih => intro r; rw [List.foldl_cons, ih, h]

theorem WPExtent_attr_good (a : Attr)
    (h : a.Name.Local ∈ WPExtent.numericAttrs → ∃ n, IsInt64Literal a.Value n) (r : WPExtent) :
    (WPExtent.attr a r).2 = none := by
  unfold WPExtent.attr
  by_cases h0 : a.Name.Local = "cx"
  · rw [if_pos h0]; exact (ParseInt_none_iff _ 64 (Or.inr rfl)).2 (h (by rw [h0]; simp [WPExtent.numericAttrs]))
  rw [if_neg h0]
  by_cases h1 : a.Name.Local = "cy"
  · rw [if_pos h1]; exact (ParseInt_none_iff _ 64 (Or.inr rfl)).2 (h (by rw [h1]; simp [WPExtent.numericAttrs]))
  rw [if_neg h1]

/-- With well-formed numeric attributes `WPExtent.UnmarshalXML` gets to what follows
its attribute loop, with the record the rounds of the loop yield. -/
theorem WPExtent_attrs_ok (start : StartElement) (r : WPExtent)
    (h : ∀ a ∈ start.Attr, a.Name.Local ∈ WPExtent.numericAttrs → ∃ n, IsInt64Literal a.Value n) :
    attrLoop WPExtent.attr start.Attr r =
      (start.Attr.foldl (fun r a => (WPExtent.attr a r).1) r, none) :=
  attrLoop_ok WPExtent.attr start.Attr r (fun a ha r => WPExtent_attr_good a (h a ha) r)

theorem WPEffectExtent_attr_good (a : Attr)
    (h : a.Name.Local ∈ WPEffectExtent.numericAttrs → ∃ n, IsInt64Literal a.Value n) (r : WPEffectExtent) :
    (WPEffectExtent.attr a r).2 = none := by
  unfold WPEffectExtent.attr
  by_cases h0 : a.Name.Local = "l"
  · rw [if_pos h0]; exact (ParseInt_none_iff _ 64 (Or.inr rfl)).2 (h (by rw [h0]; simp [WPEffectExtent.numericAttrs]))
  rw [if_neg h0]
  by_cases h1 : a.Name.Local = "t"
  · rw [if_pos h1]; exact (ParseInt_none_iff _ 64 (Or.inr rfl)).2 (h (by rw [h1]; simp [WPEffectExtent.numericAttrs]))
  rw [if_neg h1]
  by_cases h2 : a.Name.Local = "r"
  · rw [if_pos h2]; exact (ParseInt_none_iff _ 64 (Or.inr rfl)).2 (h (by rw [h2]; simp [WPEffectExtent.numericAttrs]))
  rw [if_neg h2]
  by_cases h3 : a.Name.Local = "b"
  · rw [if_pos h3]; exact (ParseInt_none_iff _ 64 (Or.inr rfl)).2 (h (by rw [h3]; simp [WPEffectExtent.numericAttrs]))
  rw [if_neg h3]

/-- With well-formed numeric attributes `WPEffectExtent.UnmarshalXML` gets to what follows
its attribute loop, with the record the rounds of the loop yield. -/
theorem WPEffectExtent_attrs_ok (start : StartElement) (r : WPEffectExtent)
    (h : ∀ a ∈ start.Attr, a.Name.Local ∈ WPEffectExtent.numericAttrs → ∃ n, IsInt64Literal a.Value n) :
    attrLoop WPEffectExtent.attr start.Attr r =
      (start.Attr.foldl (fun r a => (WPEffectExtent.attr a r).1) r, none) :=
  attrLoop_ok WPEffectExtent.attr start.Attr r (fun a ha r => WPEffectExtent_attr_good a (h a ha) r)

theorem WPDocPr_attr_good (a : Attr)
    (h : a.Name.Local ∈ WPDocPr.numericAttrs → ∃ n, IsInt64Literal a.Value n) (r : WPDocPr) :
    (WPDocPr.attr a r).2 = none := by
  unfold WPDocPr.attr
  by_cases h0 : a.Name.Local = "id"
  · rw [if_pos h0]
    have h2 := (Atoi_none_iff a.Value).2 (h (by rw [h0]; simp [WPDocPr.numericAttrs]))
    simp only [h2]
  rw [if_neg h0]
  by_cases h1 : a.Name.Local = "name"
  · rw [if_pos h1]
  rw [if_neg h1]

/-- With well-formed numeric attributes `WPDocPr.UnmarshalXML` gets to what follows
its attribute loop, with the record the rounds of the loop yield. -/
theorem WPDocPr_attrs_ok (start : StartElement) (r : WPDocPr)
    (h : ∀ a ∈ start.Attr, a.Name.Local ∈ WPDocPr.numericAttrs → ∃ n, IsInt64Literal a.Value n) :
    attrLoop WPDocPr.attr start.Attr r =
      (start.Attr.foldl (fun r a => (WPDocPr.attr a r).1) r, none) :=
  attrLoop_ok WPDocPr.attr start.Attr r (fun a ha r => WPDocPr_attr_good a (h a ha) r)

theorem AXfrm_attr_good (a : Attr)
    (h : a.Name.Local ∈ AXfrm.numericAttrs → ∃ n, IsInt64Literal a.Value n) (r : AXfrm) :
    (AXfrm.attr a r).2 = none := by
  unfold AXfrm.attr
  by_cases h0 : a.Name.Local = "rot"
  · rw [if_pos h0]; exact (ParseInt_none_iff _ 64 (Or.inr rfl)).2 (h (by rw [h0]; simp [AXfrm.numericAttrs]))
  rw [if_neg h0]
  by_cases h1 : a.Name.Local = "flipH"
  · rw [if_pos h1]; exact (Atoi_none_iff _).2 (h (by rw [h1]; simp [AXfrm.numericAttrs]))
  rw [if_neg h1]
  by_cases h2 : a.Name.Local = "flipV"
  · rw [if_pos h2]; exact (Atoi_none_iff _).2 (h (by rw [h2]; simp [AXfrm.numericAttrs]))
  rw [if_neg h2]

/-- With well-formed numeric attributes `AXfrm.UnmarshalXML` gets to what follows
its attribute loop, with the record the rounds of the loop yield. -/
theorem AXfrm_attrs_ok (start : StartElement) (r : AXfrm)
    (h : ∀ a ∈ start.Attr, a.Name.Local ∈ AXfrm.numericAttrs → ∃ n, IsInt64Literal a.Value n) :
    attrLoop AXfrm.attr start.Attr r =
      (start.Attr.foldl (fun r a => (AXfrm.attr a r).1) r, none) :=
  attrLoop_ok AXfrm.attr start.Attr r (fun a ha r => AXfrm_attr_good a (h a ha) r)

theorem WPInline_attr_good (a : Attr)
    (h : a.Name.Local ∈ WPInline.numericAttrs → ∃ n, IsInt64Literal a.Value n) (r : WPInline) :
    (WPInline.attr a r).2 = none := by
  unfold WPInline.attr
  by_cases h0 : a.Name.Local = "distT"
  · rw [if_pos h0]; exact (ParseInt_none_iff _ 64 (Or.inr rfl)).2 (h (by rw [h0]; simp [WPInline.numericAttrs]))
  rw [if_neg h0]
  by_cases h1 : a.Name.Local = "distB"
  · rw [if_pos h1]; exact (ParseInt_none_iff _ 64 (Or.inr rfl)).2 (h (by rw [h1]; simp [WPInline.numericAttrs]))
  rw [if_neg h1]
  by_cases h2 : a.Name.Local = "distL"
  · rw [if_pos h2]; exact (ParseInt_none_iff _ 64 (Or.inr rfl)).2 (h (by rw [h2]; simp [WPInline.numericAttrs]))
  rw [if_neg h2]
  by_cases h3 : a.Name.Local = "distR"
  · rw [if_pos h3]; exact (ParseInt_none_iff _ 64 (Or.inr rfl)).2 (h (by rw [h3]; simp [WPInline.numericAttrs]))
  rw [if_neg h3]

/-- With well-formed numeric attributes `WPInline.UnmarshalXML` gets to what follows
its attribute loop, with the record the rounds of the loop yield. -/
theorem WPInline_attrs_ok (start : StartElement) (r : WPInline)
    (h : ∀ a ∈ start.Attr, a.Name.Local ∈ WPInline.numericAttrs → ∃ n, IsInt64Literal a.Value n) :
    attrLoop WPInline.attr start.Attr r =
      (start.Attr.foldl (fun r a => (WPInline.attr a r).1) r, none) :=
  attrLoop_ok WPInline.attr start.Attr r (fun a ha r => WPInline_attr_good a (h a ha) r)

theorem WPInline_attr_Extent (r : WPInline) (a : Attr) : (WPInline.attr a r).1.Extent = r.Extent := by
  unfold WPInline.attr
  by_cases h0 : a.Name.Local = "distT"
  · rw [if_pos h0]
  rw [if_neg h0]
  by_cases h1 : a.Name.Local = "distB"
  · rw [if_pos h1]
  rw [if_neg h1]
  by_cases h2 : a.Name.Local = "distL"
  · rw [if_pos h2]
  rw [if_neg h2]
  by_cases h3 : a.Name.Local = "distR"
  · rw [if_pos h3]
  rw [if_neg h3]

theorem WPInline_attr_EffectExtent (r : WPInline) (a : Attr) : (WPInline.attr a r).1.EffectExtent = r.EffectExtent := by
  unfold WPInline.attr
  by_cases h0 : a.Name.Local = "distT"
  · rw [if_pos h0]
  rw [if_neg h0]
  by_cases h1 : a.Name.Local = "distB"
  · rw [if_pos h1]
  rw [if_neg h1]
  by_cases h2 : a.Name.Local = "distL"
  · rw [if_pos h2]
  rw [if_neg h2]
  by_cases h3 : a.Name.Local = "distR"
  · rw [if_pos h3]
  rw [if_neg h3]

theorem WPInline_attr_DocPr (r : WPInline) (a : Attr) : (WPInline.attr a r).1.DocPr = r.DocPr := by
  unfold WPInline.attr
  by_cases h0 : a.Name.Local = "distT"
  · rw [if_pos h0]
  rw [if_neg h0]
  by_cases h1 : a.Name.Local = "distB"
  · rw [if_pos h1]
  rw [if_neg h1]
  by_cases h2 : a.Name.Local = "distL"
  · rw [if_pos h2]
  rw [if_neg h2]
  by_cases h3 : a.Name.Local = "distR"
  · rw [if_pos h3]
  rw [if_neg h3]

theorem WPInline_attr_CNvGraphicFramePr (r : WPInline) (a : Attr) : (WPInline.attr a r).1.CNvGraphicFramePr = r.CNvGraphicFramePr := by
  unfold WPInline.attr
  by_cases h0 : a.Name.Local = "distT"
  · rw [if_pos h0]
  rw [if_neg h0]
  by_cases h1 : a.Name.Local = "distB"
  · rw [if_pos h1]
  rw [if_neg h1]
  by_cases h2 : a.Name.Local = "distL"
  · rw [if_pos h2]
  rw [if_neg h2]
  by_cases h3 : a.Name.Local = "distR"
  · rw [if_pos h3]
  rw [if_neg h3]

theorem WPInline_attr_Graphic (r : WPInline) (a : Attr) : (WPInline.attr a r).1.Graphic = r.Graphic := by
  unfold WPInline.attr
  by_cases h0 : a.Name.Local = "distT"
  · rw [if_pos h0]
  rw [if_neg h0]
  by_cases h1 : a.Name.Local = "distB"
  · rw [if_pos h1]
  rw [if_neg h1]
  by_cases h2 : a.Name.Local = "distL"
  · rw [if_pos h2]
  rw [if_neg h2]
  by_cases h3 : a.Name.Local = "distR"
  · rw [if_pos h3]
  rw [if_neg h3]

theorem WPAnchor_attr_good (a : Attr)
    (h : a.Name.Local ∈ WPAnchor.numericAttrs → ∃ n, IsInt64Literal a.Value n) (r : WPAnchor) :
    (WPAnchor.attr a r).2 = none := by
  unfold WPAnchor.attr
  by_cases h0 : a.Name.Local = "distT"
  · rw [if_pos h0]; exact (ParseInt_none_iff _ 64 (Or.inr rfl)).2 (h (by rw [h0]; simp [WPAnchor.numericAttrs]))
  rw [if_neg h0]
  by_cases h1 : a.Name.Local = "distB"
  · rw [if_pos h1]; exact (ParseInt_none_iff _ 64 (Or.inr rfl)).2 (h (by rw [h1]; simp [WPAnchor.numericAttrs]))
  rw [if_neg h1]
  by_cases h2 : a.Name.Local = "distL"
  · rw [if_pos h2]; exact (ParseInt_none_iff _ 64 (Or.inr rfl)).2 (h (by rw [h2]; simp [WPAnchor.numericAttrs]))
  rw [if_neg h2]
  by_cases h3 : a.Name.Local = "distR"
  · rw [if_pos h3]; exact (ParseInt_none_iff _ 64 (Or.inr rfl)).2 (h (by rw [h3]; simp [WPAnchor.numericAttrs]))
  rw [if_neg h3]
  by_cases h4 : a.Name.Local = "simplePos"
  · rw [if_pos h4]; exact (Atoi_none_iff _).2 (h (by rw [h4]; simp [WPAnchor.numericAttrs]))
  rw [if_neg h4]
  by_cases h5 : a.Name.Local = "relativeHeight"
  · rw [if_pos h5]; exact (Atoi_none_iff _).2 (h (by rw [h5]; simp [WPAnchor.numericAttrs]))
  rw [if_neg h5]
  by_cases h6 : a.Name.Local = "behindDoc"
  · rw [if_pos h6]; exact (Atoi_none_iff _).2 (h (by rw [h6]; simp [WPAnchor.numericAttrs]))
  rw [if_neg h6]
  by_cases h7 : a.Name.Local = "locked"
  · rw [if_pos h7]; exact (Atoi_none_iff _).2 (h (by rw [h7]; simp [WPAnchor.numericAttrs]))
  rw [if_neg h7]
  by_cases h8 : a.Name.Local = "layoutInCell"
  · rw [if_pos h8]; exact (Atoi_none_iff _).2 (h (by rw [h8]; simp [WPAnchor.numericAttrs]))
  rw [if_neg h8]
  by_cases h9 : a.Name.Local = "allowOverlap"
  · rw [if_pos h9]; exact (Atoi_none_iff _).2 (h (by rw [h9]; simp [WPAnchor.numericAttrs]))
  rw [if_neg h9]

/-- With well-formed numeric attributes `WPAnchor.UnmarshalXML` gets to what follows
its attribute loop, with the record the rounds of the loop yield. -/
theorem WPAnchor_attrs_ok (start : StartElement) (r : WPAnchor)
    (h : ∀ a ∈ start.Attr, a.Name.Local ∈ WPAnchor.numericAttrs → ∃ n, IsInt64Literal a.Value n) :
    attrLoop WPAnchor.attr start.Attr r =
      (start.Attr.foldl (fun r a => (WPAnchor.attr a r).1) r, none) :=
  attrLoop_ok WPAnchor.attr start.Attr r (fun a ha r => WPAnchor_attr_good a (h a ha) r)

theorem WPAnchor_attr_SimplePosXY (r : WPAnchor) (a : Attr) : (WPAnchor.attr a r).1.SimplePosXY = r.SimplePosXY := by
  unfold WPAnchor.attr
  by_cases h0 : a.Name.Local = "distT"
  · rw [if_pos h0]
  rw [if_neg h0]
  by_cases h1 : a.Name.Local = "distB"
  · rw [if_pos h1]
  rw [if_neg h1]
  by_cases h2 : a.Name.Local = "distL"
  · rw [if_pos h2]
  rw [if_neg h2]
  by_cases h3 : a.Name.Local = "distR"
  · rw [if_pos h3]
  rw [if_neg h3]
  by_cases h4 : a.Name.Local = "simplePos"
  · rw [if_pos h4]
  rw [if_neg h4]
  by_cases h5 : a.Name.Local = "relativeHeight"
  · rw [if_pos h5]
  rw [if_neg h5]
  by_cases h6 : a.Name.Local = "behindDoc"
  · rw [if_pos h6]
  rw [if_neg h6]
  by_cases h7 : a.Name.Local = "locked"
  · rw [if_pos h7]
  rw [if_neg h7]
  by_cases h8 : a.Name.Local = "layoutInCell"
  · rw [if_pos h8]
  rw [if_neg h8]
  by_cases h9 : a.Name.Local = "allowOverlap"
  · rw [if_pos h9]
  rw [if_neg h9]

theorem WPAnchor_attr_PositionH (r : WPAnchor) (a : Attr) : (WPAnchor.attr a r).1.PositionH = r.PositionH := by
  unfold WPAnchor.attr
  by_cases h0 : a.Name.Local = "distT"
  · rw [if_pos h0]
  rw [if_neg h0]
  by_cases h1 : a.Name.Local = "distB"
  · rw [if_pos h1]
  rw [if_neg h1]
  by_cases h2 : a.Name.Local = "distL"
  · rw [if_pos h2]
  rw [if_neg h2]
  by_cases h3 : a.Name.Local = "distR"
  · rw [if_pos h3]
  rw [if_neg h3]
  by_cases h4 : a.Name.Local = "simplePos"
  · rw [if_pos h4]
  rw [if_neg h4]
  by_cases h5 : a.Name.Local = "relativeHeight"
  · rw [if_pos h5]
  rw [if_neg h5]
  by_cases h6 : a.Name.Local = "behindDoc"
  · rw [if_pos h6]
  rw [if_neg h6]
  by_cases h7 : a.Name.Local = "locked"
  · rw [if_pos h7]
  rw [if_neg h7]
  by_cases h8 : a.Name.Local = "layoutInCell"
  · rw [if_pos h8]
  rw [if_neg h8]
  by_cases h9 : a.Name.Local = "allowOverlap"
  · rw [if_pos h9]
  rw [if_neg h9]

theorem WPAnchor_attr_PositionV (r : WPAnchor) (a : Attr) : (WPAnchor.attr a r).1.PositionV = r.PositionV := by
  unfold WPAnchor.attr
  by_cases h0 : a.Name.Local = "distT"
  · rw [if_pos h0]
  rw [if_neg h0]
  by_cases h1 : a.Name.Local = "distB"
  · rw [if_pos h1]
  rw [if_neg h1]
  by_cases h2 : a.Name.Local = "distL"
  · rw [if_pos h2]
  rw [if_neg h2]
  by_cases h3 : a.Name.Local = "distR"
  · rw [if_pos h3]
  rw [if_neg h3]
  by_cases h4 : a.Name.Local = "simplePos"
  · rw [if_pos h4]
  rw [if_neg h4]
  by_cases h5 : a.Name.Local = "relativeHeight"
  · rw [if_pos h5]
  rw [if_neg h5]
  by_cases h6 : a.Name.Local = "behindDoc"
  · rw [if_pos h6]
  rw [if_neg h6]
  by_cases h7 : a.Name.Local = "locked"
  · rw [if_pos h7]
  rw [if_neg h7]
  by_cases h8 : a.Name.Local = "layoutInCell"
  · rw [if_pos h8]
  rw [if_neg h8]
  by_cases h9 : a.Name.Local = "allowOverlap"
  · rw [if_pos h9]
  rw [if_neg h9]

theorem WPAnchor_attr_Extent (r : WPAnchor) (a : Attr) : (WPAnchor.attr a r).1.Extent = r.Extent := by
  unfold WPAnchor.attr
  by_cases h0 : a.Name.Local = "distT"
  · rw [if_pos h0]
  rw [if_neg h0]
  by_cases h1 : a.Name.Local = "distB"
  · rw [if_pos h1]
  rw [if_neg h1]
  by_cases h2 : a.Name.Local = "distL"
  · rw [if_pos h2]
  rw [if_neg h2]
  by_cases h3 : a.Name.Local = "distR"
  · rw [if_pos h3]
  rw [if_neg h3]
  by_cases h4 : a.Name.Local = "simplePos"
  · rw [if_pos h4]
  rw [if_neg h4]
  by_cases h5 : a.Name.Local = "relativeHeight"
  · rw [if_pos h5]
  rw [if_neg h5]
  by_cases h6 : a.Name.Local = "behindDoc"
  · rw [if_pos h6]
  rw [if_neg h6]
  by_cases h7 : a.Name.Local = "locked"
  · rw [if_pos h7]
  rw [if_neg h7]
  by_cases h8 : a.Name.Local = "layoutInCell"
  · rw [if_pos h8]
  rw [if_neg h8]
  by_cases h9 : a.Name.Local = "allowOverlap"
  · rw [if_pos h9]
  rw [if_neg h9]

theorem WPAnchor_attr_EffectExtent (r : WPAnchor) (a : Attr) : (WPAnchor.attr a r).1.EffectExtent = r.EffectExtent := by
  unfold WPAnchor.attr
  by_cases h0 : a.Name.Local = "distT"
  · rw [if_pos h0]
  rw [if_neg h0]
  by_cases h1 : a.Name.Local = "distB"
  · rw [if_pos h1]
  rw [if_neg h1]
  by_cases h2 : a.Name.Local = "distL"
  · rw [if_pos h2]
  rw [if_neg h2]
  by_cases h3 : a.Name.Local = "distR"
  · rw [if_pos h3]
  rw [if_neg h3]
  by_cases h4 : a.Name.Local = "simplePos"
  · rw [if_pos h4]
  rw [if_neg h4]
  by_cases h5 : a.Name.Local = "relativeHeight"
  · rw [if_pos h5]
  rw [if_neg h5]
  by_cases h6 : a.Name.Local = "behindDoc"
  · rw [if_pos h6]
  rw [if_neg h6]
  by_cases h7 : a.Name.Local = "locked"
  · rw [if_pos h7]
  rw [if_neg h7]
  by_cases h8 : a.Name.Local = "layoutInCell"
  · rw [if_pos h8]
  rw [if_neg h8]
  by_cases h9 : a.Name.Local = "allowOverlap"
  · rw [if_pos h9]
  rw [if_neg h9]

theorem WPAnchor_attr_WrapNone (r : WPAnchor) (a : Attr) : (WPAnchor.attr a r).1.WrapNone = r.WrapNone := by
  unfold WPAnchor.attr
  by_cases h0 : a.Name.Local = "distT"
  · rw [if_pos h0]
  rw [if_neg h0]
  by_cases h1 : a.Name.Local = "distB"
  · rw [if_pos h1]
  rw [if_neg h1]
  by_cases h2 : a.Name.Local = "distL"
  · rw [if_pos h2]
  rw [if_neg h2]
  by_cases h3 : a.Name.Local = "distR"
  · rw [if_pos h3]
  rw [if_neg h3]
  by_cases h4 : a.Name.Local = "simplePos"
  · rw [if_pos h4]
  rw [if_neg h4]
  by_cases h5 : a.Name.Local = "relativeHeight"
  · rw [if_pos h5]
  rw [if_neg h5]
  by_cases h6 : a.Name.Local = "behindDoc"
  · rw [if_pos h6]
  rw [if_neg h6]
  by_cases h7 : a.Name.Local = "locked"
  · rw [if_pos h7]
  rw [if_neg h7]
  by_cases h8 : a.Name.Local = "layoutInCell"
  · rw [if_pos h8]
  rw [if_neg h8]
  by_cases h9 : a.Name.Local = "allowOverlap"
  · rw [if_pos h9]
  rw [if_neg h9]

theorem WPAnchor_attr_WrapSquare (r : WPAnchor) (a : Attr) : (WPAnchor.attr a r).1.WrapSquare = r.WrapSquare := by
  unfold WPAnchor.attr
  by_cases h0 : a.Name.Local = "distT"
  · rw [if_pos h0]
  rw [if_neg h0]
  by_cases h1 : a.Name.Local = "distB"
  · rw [if_pos h1]
  rw [if_neg h1]
  by_cases h2 : a.Name.Local = "distL"
  · rw [if_pos h2]
  rw [if_neg h2]
  by_cases h3 : a.Name.Local = "distR"
  · rw [if_pos h3]
  rw [if_neg h3]
  by_cases h4 : a.Name.Local = "simplePos"
  · rw [if_pos h4]
  rw [if_neg h4]
  by_cases h5 : a.Name.Local = "relativeHeight"
  · rw [if_pos h5]
  rw [if_neg h5]
  by_cases h6 : a.Name.Local = "behindDoc"
  · rw [if_pos h6]
  rw [if_neg h6]
  by_cases h7 : a.Name.Local = "locked"
  · rw [if_pos h7]
  rw [if_neg h7]
  by_cases h8 : a.Name.Local = "layoutInCell"
  · rw [if_pos h8]
  rw [if_neg h8]
  by_cases h9 : a.Name.Local = "allowOverlap"
  · rw [if_pos h9]
  rw [if_neg h9]

theorem WPAnchor_attr_DocPr (r : WPAnchor) (a : Attr) : (WPAnchor.attr a r).1.DocPr = r.DocPr := by
  unfold WPAnchor.attr
  by_cases h0 : a.Name.Local = "distT"
  · rw [if_pos h0]
  rw [if_neg h0]
  by_cases h1 : a.Name.Local = "distB"
  · rw [if_pos h1]
  rw [if_neg h1]
  by_cases h2 : a.Name.Local = "distL"
  · rw [if_pos h2]
  rw [if_neg h2]
  by_cases h3 : a.Name.Local = "distR"
  · rw [if_pos h3]
  rw [if_neg h3]
  by_cases h4 : a.Name.Local = "simplePos"
  · rw [if_pos h4]
  rw [if_neg h4]
  by_cases h5 : a.Name.Local = "relativeHeight"
  · rw [if_pos h5]
  rw [if_neg h5]
  by_cases h6 : a.Name.Local = "behindDoc"
  · rw [if_pos h6]
  rw [if_neg h6]
  by_cases h7 : a.Name.Local = "locked"
  · rw [if_pos h7]
  rw [if_neg h7]
  by_cases h8 : a.Name.Local = "layoutInCell"
  · rw [if_pos h8]
  rw [if_neg h8]
  by_cases h9 : a.Name.Local = "allowOverlap"
  · rw [if_pos h9]
  rw [if_neg h9]

theorem WPAnchor_attr_CNvGraphicFramePr (r : WPAnchor) (a : Attr) : (WPAnchor.attr a r).1.CNvGraphicFramePr = r.CNvGraphicFramePr := by
  unfold WPAnchor.attr
  by_cases h0 : a.Name.Local = "distT"
  · rw [if_pos h0]
  rw [if_neg h0]
  by_cases h1 : a.Name.Local = "distB"
  · rw [if_pos h1]
  rw [if_neg h1]
  by_cases h2 : a.Name.Local = "distL"
  · rw [if_pos h2]
  rw [if_neg h2]
  by_cases h3 : a.Name.Local = "distR"
  · rw [if_pos h3]
  rw [if_neg h3]
  by_cases h4 : a.Name.Local = "simplePos"
  · rw [if_pos h4]
  rw [if_neg h4]
  by_cases h5 : a.Name.Local = "relativeHeight"
  · rw [if_pos h5]
  rw [if_neg h5]
  by_cases h6 : a.Name.Local = "behindDoc"
  · rw [if_pos h6]
  rw [if_neg h6]
  by_cases h7 : a.Name.Local = "locked"
  · rw [if_pos h7]
  rw [if_neg h7]
  by_cases h8 : a.Name.Local = "layoutInCell"
  · rw [if_pos h8]
  rw [if_neg h8]
  by_cases h9 : a.Name.Local = "allowOverlap"
  · rw [if_pos h9]
  rw [if_neg h9]

theorem WPAnchor_attr_Graphic (r : WPAnchor) (a : Attr) : (WPAnchor.attr a r).1.Graphic = r.Graphic := by
  unfold WPAnchor.attr
  by_cases h0 : a.Name.Local = "distT"
  · rw [if_pos h0]
  rw [if_neg h0]
  by_cases h1 : a.Name.Local = "distB"
  · rw [if_pos h1]
  rw [if_neg h1]
  by_cases h2 : a.Name.Local = "distL"
  · rw [if_pos h2]
  rw [if_neg h2]
  by_cases h3 : a.Name.Local = "distR"
  · rw [if_pos h3]
  rw [if_neg h3]
  by_cases h4 : a.Name.Local = "simplePos"
  · rw [if_pos h4]
  rw [if_neg h4]
  by_cases h5 : a.Name.Local = "relativeHeight"
  · rw [if_pos h5]
  rw [if_neg h5]
  by_cases h6 : a.Name.Local = "behindDoc"
  · rw [if_pos h6]
  rw [if_neg h6]
  by_cases h7 : a.Name.Local = "locked"
  · rw [if_pos h7]
  rw [if_neg h7]
  by_cases h8 : a.Name.Local = "layoutInCell"
  · rw [if_pos h8]
  rw [if_neg h8]
  by_cases h9 : a.Name.Local = "allowOverlap"
  · rw [if_pos h9]
  rw [if_neg h9]

/-- Past well-nested unknown tokens the loop dispatches on the start-element
that follows them. -/
theorem tokenLoop_child {α : Type} (body : StartElement → α → Decoder → Step α)
    (known : String → Bool)
    (hunk : ∀ (tt : StartElement) (r : α) (d : Decoder), known tt.Name.Local = false →
      body tt r d = .next r d)
    (hreach : ∀ (tt : StartElement) (r : α) (d : Decoder), d.Reach (body tt r d).dec)
    (r : α) (pre : List Token) (tt : StartElement) (rest : List Token) (err : Option Error)
    (stk : List Stack) (hstk : stk.head? ≠ some .stkEOF) (hpre : inert known [] pre = true)
    (fuel : Nat) (hfuel : (pre ++ Token.StartElement tt :: rest).length < fuel) :
    tokenLoop body fuel r ⟨pre ++ Token.StartElement tt :: rest, err, stk⟩ =
      match body tt r ⟨rest, err, .stkStart tt.Name :: stk⟩ with
      | .next r2 d2 => tokenLoop body (d2.toks.length + 1) r2 d2
      | .ret r2 d2 e => ⟨r2, d2, some e⟩ := by
  simp only [List.length_append, List.length_cons] at hfuel
  obtain ⟨k, rfl⟩ : ∃ k, fuel = (k + 1) + pre.length := ⟨fuel - pre.length - 1, by omega⟩
  have h1 := tokenLoop_skip_inert body known hunk r (Token.StartElement tt :: rest) err stk hstk
    pre [] (k + 1) hpre
  simp only [List.map_nil, List.nil_append] at h1
  rw [h1, tokenLoop_start body k r (Token_start tt rest err stk hstk)]
  have h2 := hreach tt r ⟨rest, err, .stkStart tt.Name :: stk⟩
  rcases hb : body tt r ⟨rest, err, .stkStart tt.Name :: stk⟩ with ⟨r2, d2⟩ | ⟨r2, d2, e⟩
  · rw [hb] at h2
    have h3 := h2.length_le
    simp only [Step.dec] at h3
    exact tokenLoop_fuel body (body_shrink hreach) _ _ _ _ (by omega) (by omega)
  · rfl

/-! ## The rounds of the bodies that the properties single out -/

theorem WPAnchor_body_at_wrapNone (tt : StartElement) (r : WPAnchor) (d : Decoder)
    (h : tt.Name.Local = "wrapNone") :
    WPAnchor.body tt r d = .next { r with WrapNone := some () } d := by
  unfold WPAnchor.body
  rw [if_neg (by rw [h]; decide), if_neg (by rw [h]; decide), if_neg (by rw [h]; decide), if_neg (by rw [h]; decide), if_neg (by rw [h]; decide), if_pos h]

theorem WPAnchor_body_at_wrapSquare (tt : StartElement) (r : WPAnchor) (d : Decoder)
    (h : tt.Name.Local = "wrapSquare") :
    WPAnchor.body tt r d = .next { r with WrapSquare := some { WrapText := getAtt tt.Attr "wrapText" } } d := by
  unfold WPAnchor.body
  rw [if_neg (by rw [h]; decide), if_neg (by rw [h]; decide), if_neg (by rw [h]; decide), if_neg (by rw [h]; decide), if_neg (by rw [h]; decide), if_neg (by rw [h]; decide), if_pos h]

theorem WPAnchor_body_at_extent (tt : StartElement) (r : WPAnchor) (d : Decoder)
    (h : tt.Name.Local = "extent") :
    WPAnchor.body tt r d = .next
      { r with Extent := some (Decoder.DecodeElement "*docxlib.WPExtent" WPExtent.UnmarshalXML {} d tt).val }
      (Decoder.DecodeElement "*docxlib.WPExtent" WPExtent.UnmarshalXML {} d tt).dec := by
  unfold WPAnchor.body
  rw [if_neg (by rw [h]; decide), if_neg (by rw [h]; decide), if_neg (by rw [h]; decide), if_pos h]

theorem AGraphic_body_at_graphicData (tt : StartElement) (r : AGraphic) (d : Decoder)
    (h : tt.Name.Local = "graphicData") (o : Outcome AGraphicData)
    (ho : o = d.DecodeElement "*docxlib.AGraphicData" AGraphicData.UnmarshalXML {} tt) :
    AGraphic.body tt r d =
      .next { r with GraphicData := some { o.val with URI := getAtt tt.Attr "uri" } } o.dec := by
  unfold AGraphic.body
  rw [if_pos h, ho]

theorem Drawing_body_at_inline (tt : StartElement) (r : Drawing) (d : Decoder)
    (h : tt.Name.Local = "inline") :
    Drawing.body tt r d = .next
      { r with Inline := some (Decoder.DecodeElement "*docxlib.WPInline" WPInline.UnmarshalXML {} d tt).val }
      (Decoder.DecodeElement "*docxlib.WPInline" WPInline.UnmarshalXML {} d tt).dec := by
  unfold Drawing.body
  rw [if_pos h]

theorem Drawing_body_at_anchor (tt : StartElement) (r : Drawing) (d : Decoder)
    (h : tt.Name.Local = "anchor") :
    Drawing.body tt r d = .next
      { r with Anchor := some (Decoder.DecodeElement "*docxlib.WPAnchor" WPAnchor.UnmarshalXML {} d tt).val }
      (Decoder.DecodeElement "*docxlib.WPAnchor" WPAnchor.UnmarshalXML {} d tt).dec := by
  unfold Drawing.body
  rw [if_neg (by rw [h]; decide), if_pos h]

theorem WPPositionH_body_at_posOffset (tt : StartElement) (r : WPPositionH) (d : Decoder)
    (h : tt.Name.Local = "posOffset") :
    WPPositionH.body tt r d = (match (d.DecodeElementInt64 r.PosOffset tt).err with
      | some e => .ret { r with PosOffset := (d.DecodeElementInt64 r.PosOffset tt).val }
          (d.DecodeElementInt64 r.PosOffset tt).dec e
      | none => .next { r with PosOffset := (d.DecodeElementInt64 r.PosOffset tt).val }
          (d.DecodeElementInt64 r.PosOffset tt).dec) := by
  unfold WPPositionH.body
  rw [if_pos h]

theorem WPPositionV_body_at_posOffset (tt : StartElement) (r : WPPositionV) (d : Decoder)
    (h : tt.Name.Local = "posOffset") :
    WPPositionV.body tt r d = (match (d.DecodeElementInt64 r.PosOffset tt).err with
      | some e => .ret { r with PosOffset := (d.DecodeElementInt64 r.PosOffset tt).val }
          (d.DecodeElementInt64 r.PosOffset tt).dec e
      | none => .next { r with PosOffset := (d.DecodeElementInt64 r.PosOffset tt).val }
          (d.DecodeElementInt64 r.PosOffset tt).dec) := by
  unfold WPPositionV.body
  rw [if_pos h]

theorem WPInline_body_sets_Extent (tt : StartElement) (r : WPInline) (d : Decoder)
    (h : tt.Name.Local = "extent") : (WPInline.body tt r d).val.Extent.isSome = true := by
  unfold WPInline.body
  rw [if_pos h]
  first | rfl | (repeat' split) <;> rfl

theorem WPInline_body_sets_EffectExtent (tt : StartElement) (r : WPInline) (d : Decoder)
    (h : tt.Name.Local = "effectExtent") : (WPInline.body tt r d).val.EffectExtent.isSome = true := by
  unfold WPInline.body
  rw [if_neg (by rw [h]; decide), if_pos h]
  first | rfl | (repeat' split) <;> rfl

theorem WPInline_body_sets_DocPr (tt : StartElement) (r : WPInline) (d : Decoder)
    (h : tt.Name.Local = "docPr") : (WPInline.body tt r d).val.DocPr.isSome = true := by
  unfold WPInline.body
  rw [if_neg (by rw [h]; decide), if_neg (by rw [h]; decide), if_pos h]
  first | rfl | (repeat' split) <;> rfl

theorem WPInline_body_sets_CNvGraphicFramePr (tt : StartElement) (r : WPInline) (d : Decoder)
    (h : tt.Name.Local = "cNvGraphicFramePr") : (WPInline.body tt r d).val.CNvGraphicFramePr.isSome = true := by
  unfold WPInline.body
  rw [if_neg (by rw [h]; decide), if_neg (by rw [h]; decide), if_neg (by rw [h]; decide), if_pos h]
  first | rfl | (repeat' split) <;> rfl

theorem WPInline_body_sets_Graphic (tt : StartElement) (r : WPInline) (d : Decoder)
    (h : tt.Name.Local = "graphic") : (WPInline.body tt r d).val.Graphic.isSome = true := by
  unfold WPInline.body
  rw [if_neg (by rw [h]; decide), if_neg (by rw [h]; decide), if_neg (by rw [h]; decide), if_neg (by rw [h]; decide), if_pos h]
  first | rfl | (repeat' split) <;> rfl

theorem WPInline_body_keeps_Extent (tt : StartElement) (r : WPInline) (d : Decoder)
    (h : r.Extent.isSome = true) : (WPInline.body tt r d).val.Extent.isSome = true := by
  by_cases hn : tt.Name.Local = "extent"
  · exact WPInline_body_sets_Extent tt r d hn
  · rw [WPInline_body_Extent tt r d hn]; exact h

theorem WPInline_body_keeps_EffectExtent (tt : StartElement) (r : WPInline) (d : Decoder)
    (h : r.EffectExtent.isSome = true) : (WPInline.body tt r d).val.EffectExtent.isSome = true := by
  by_cases hn : tt.Name.Local = "effectExtent"
  · exact WPInline_body_sets_EffectExtent tt r d hn
  · rw [WPInline_body_EffectExtent tt r d hn]; exact h

theorem WPInline_body_keeps_DocPr (tt : StartElement) (r : WPInline) (d : Decoder)
    (h : r.DocPr.isSome = true) : (WPInline.body tt r d).val.DocPr.isSome = true := by
  by_cases hn : tt.Name.Local = "docPr"
  · exact WPInline_body_sets_DocPr tt r d hn
  · rw [WPInline_body_DocPr tt r d hn]; exact h

theorem WPInline_body_keeps_CNvGraphicFramePr (tt : StartElement) (r : WPInline) (d : Decoder)
    (h : r.CNvGraphicFramePr.isSome = true) : (WPInline.body tt r d).val.CNvGraphicFramePr.isSome = true := by
  by_cases hn : tt.Name.Local = "cNvGraphicFramePr"
  · exact WPInline_body_sets_CNvGraphicFramePr tt r d hn
  · rw [WPInline_body_CNvGraphicFramePr tt r d hn]; exact h

theorem WPInline_body_keeps_Graphic (tt : StartElement) (r : WPInline) (d : Decoder)
    (h : r.Graphic.isSome = true) : (WPInline.body tt r d).val.Graphic.isSome = true := by
  by_cases hn : tt.Name.Local = "graphic"
  · exact WPInline_body_sets_Graphic tt r d hn
  · rw [WPInline_body_Graphic tt r d hn]; exact h

theorem WPAnchor_body_sets_SimplePosXY (tt : StartElement) (r : WPAnchor) (d : Decoder)
    (h : tt.Name.Local = "simplePos") : (WPAnchor.body tt r d).val.SimplePosXY.isSome = true := by
  unfold WPAnchor.body
  rw [if_pos h]
  first | rfl | (repeat' split) <;> rfl

theorem WPAnchor_body_sets_PositionH (tt : StartElement) (r : WPAnchor) (d : Decoder)
    (h : tt.Name.Local = "positionH") : (WPAnchor.body tt r d).val.PositionH.isSome = true := by
  unfold WPAnchor.body
  rw [if_neg (by rw [h]; decide), if_pos h]
  first | rfl | (repeat' split) <;> rfl

theorem WPAnchor_body_sets_PositionV (tt : StartElement) (r : WPAnchor) (d : Decoder)
    (h : tt.Name.Local = "positionV") : (WPAnchor.body tt r d).val.PositionV.isSome = true := by
  unfold WPAnchor.body
  rw [if_neg (by rw [h]; decide), if_neg (by rw [h]; decide), if_pos h]
  first | rfl | (repeat' split) <;> rfl

theorem WPAnchor_body_sets_Extent (tt : StartElement) (r : WPAnchor) (d : Decoder)
    (h : tt.Name.Local = "extent") : (WPAnchor.body tt r d).val.Extent.isSome = true := by
  unfold WPAnchor.body
  rw [if_neg (by rw [h]; decide), if_neg (by rw [h]; decide), if_neg (by rw [h]; decide), if_pos h]
  first | rfl | (repeat' split) <;> rfl

theorem WPAnchor_body_sets_EffectExtent (tt : StartElement) (r : WPAnchor) (d : Decoder)
    (h : tt.Name.Local = "effectExtent") : (WPAnchor.body tt r d).val.EffectExtent.isSome = true := by
  unfold WPAnchor.body
  rw [if_neg (by rw [h]; decide), if_neg (by rw [h]; decide), if_neg (by rw [h]; decide), if_neg (by rw [h]; decide), if_pos h]
  first | rfl | (repeat' split) <;> rfl

theorem WPAnchor_body_sets_WrapNone (tt : StartElement) (r : WPAnchor) (d : Decoder)
    (h : tt.Name.Local = "wrapNone") : (WPAnchor.body tt r d).val.WrapNone.isSome = true := by
  unfold WPAnchor.body
  rw [if_neg (by rw [h]; decide), if_neg (by rw [h]; decide), if_neg (by rw [h]; decide), if_neg (by rw [h]; decide), if_neg (by rw [h]; decide), if_pos h]
  first | rfl | (repeat' split) <;> rfl

theorem WPAnchor_body_sets_WrapSquare (tt : StartElement) (r : WPAnchor) (d : Decoder)
    (h : tt.Name.Local = "wrapSquare") : (WPAnchor.body tt r d).val.WrapSquare.isSome = true := by
  unfold WPAnchor.body
  rw [if_neg (by rw [h]; decide), if_neg (by rw [h]; decide), if_neg (by rw [h]; decide), if_neg (by rw [h]; decide), if_neg (by rw [h]; decide), if_neg (by rw [h]; decide), if_pos h]
  first | rfl | (repeat' split) <;> rfl

theorem WPAnchor_body_sets_DocPr (tt : StartElement) (r : WPAnchor) (d : Decoder)
    (h : tt.Name.Local = "docPr") : (WPAnchor.body tt r d).val.DocPr.isSome = true := by
  unfold WPAnchor.body
  rw [if_neg (by rw [h]; decide), if_neg (by rw [h]; decide), if_neg (by rw [h]; decide), if_neg (by rw [h]; decide), if_neg (by rw [h]; decide), if_neg (by rw [h]; decide), if_neg (by rw [h]; decide), if_pos h]
  first | rfl | (repeat' split) <;> rfl

theorem WPAnchor_body_sets_CNvGraphicFramePr (tt : StartElement) (r : WPAnchor) (d : Decoder)
    (h : tt.Name.Local = "cNvGraphicFramePr") : (WPAnchor.body tt r d).val.CNvGraphicFramePr.isSome = true := by
  unfold WPAnchor.body
  rw [if_neg (by rw [h]; decide), if_neg (by rw [h]; decide), if_neg (by rw [h]; decide), if_neg (by rw [h]; decide), if_neg (by rw [h]; decide), if_neg (by rw [h]; decide), if_neg (by rw [h]; decide), if_neg (by rw [h]; decide), if_pos h]
  first | rfl | (repeat' split) <;> rfl

theorem WPAnchor_body_sets_Graphic (tt : StartElement) (r : WPAnchor) (d : Decoder)
    (h : tt.Name.Local = "graphic") : (WPAnchor.body tt r d).val.Graphic.isSome = true := by
  unfold WPAnchor.body
  rw [if_neg (by rw [h]; decide), if_neg (by rw [h]; decide), if_neg (by rw [h]; decide), if_neg (by rw [h]; decide), if_neg (by rw [h]; decide), if_neg (by rw [h]; decide), if_neg (by rw [h]; decide), if_neg (by rw [h]; decide), if_neg (by rw [h]; decide), if_pos h]
  first | rfl | (repeat' split) <;> rfl

theorem WPAnchor_body_keeps_SimplePosXY (tt : StartElement) (r : WPAnchor) (d : Decoder)
    (h : r.SimplePosXY.isSome = true) : (WPAnchor.body tt r d).val.SimplePosXY.isSome = true := by
  by_cases hn : tt.Name.Local = "simplePos"
  · exact WPAnchor_body_sets_SimplePosXY tt r d hn
  · rw [WPAnchor_body_SimplePosXY tt r d hn]; exact h

theorem WPAnchor_body_keeps_PositionH (tt : StartElement) (r : WPAnchor) (d : Decoder)
    (h : r.PositionH.isSome = true) : (WPAnchor.body tt r d).val.PositionH.isSome = true := by
  by_cases hn : tt.Name.Local = "positionH"
  · exact WPAnchor_body_sets_PositionH tt r d hn
  · rw [WPAnchor_body_PositionH tt r d hn]; exact h

theorem WPAnchor_body_keeps_PositionV (tt : StartElement) (r : WPAnchor) (d : Decoder)
    (h : r.PositionV.isSome = true) : (WPAnchor.body tt r d).val.PositionV.isSome = true := by
  by_cases hn : tt.Name.Local = "positionV"
  · exact WPAnchor_body_sets_PositionV tt r d hn
  · rw [WPAnchor_body_PositionV tt r d hn]; exact h

theorem WPAnchor_body_keeps_Extent (tt : StartElement) (r : WPAnchor) (d : Decoder)
    (h : r.Extent.isSome = true) : (WPAnchor.body tt r d).val.Extent.isSome = true := by
  by_cases hn : tt.Name.Local = "extent"
  · exact WPAnchor_body_sets_Extent tt r d hn
  · rw [WPAnchor_body_Extent tt r d hn]; exact h

theorem WPAnchor_body_keeps_EffectExtent (tt : StartElement) (r : WPAnchor) (d : Decoder)
    (h : r.EffectExtent.isSome = true) : (WPAnchor.body tt r d).val.EffectExtent.isSome = true := by
  by_cases hn : tt.Name.Local = "effectExtent"
  · exact WPAnchor_body_sets_EffectExtent tt r d hn
  · rw [WPAnchor_body_EffectExtent tt r d hn]; exact h

theorem WPAnchor_body_keeps_WrapNone (tt : StartElement) (r : WPAnchor) (d : Decoder)
    (h : r.WrapNone.isSome = true) : (WPAnchor.body tt r d).val.WrapNone.isSome = true := by
  by_cases hn : tt.Name.Local = "wrapNone"
  · exact WPAnchor_body_sets_WrapNone tt r d hn
  · rw [WPAnchor_body_WrapNone tt r d hn]; exact h

theorem WPAnchor_body_keeps_WrapSquare (tt : StartElement) (r : WPAnchor) (d : Decoder)
    (h : r.WrapSquare.isSome = true) : (WPAnchor.body tt r d).val.WrapSquare.isSome = true := by
  by_cases hn : tt.Name.Local = "wrapSquare"
  · exact WPAnchor_body_sets_WrapSquare tt r d hn
  · rw [WPAnchor_body_WrapSquare tt r d hn]; exact h

theorem WPAnchor_body_keeps_DocPr (tt : StartElement) (r : WPAnchor) (d : Decoder)
    (h : r.DocPr.isSome = true) : (WPAnchor.body tt r d).val.DocPr.isSome = true := by
  by_cases hn : tt.Name.Local = "docPr"
  · exact WPAnchor_body_sets_DocPr tt r d hn
  · rw [WPAnchor_body_DocPr tt r d hn]; exact h

theorem WPAnchor_body_keeps_CNvGraphicFramePr (tt : StartElement) (r : WPAnchor) (d : Decoder)
    (h : r.CNvGraphicFramePr.isSome = true) : (WPAnchor.body tt r d).val.CNvGraphicFramePr.isSome = true := by
  by_cases hn : tt.Name.Local = "cNvGraphicFramePr"
  · exact WPAnchor_body_sets_CNvGraphicFramePr tt r d hn
  · rw [WPAnchor_body_CNvGraphicFramePr tt r d hn]; exact h

theorem WPAnchor_body_keeps_Graphic (tt : StartElement) (r : WPAnchor) (d : Decoder)
    (h : r.Graphic.isSome = true) : (WPAnchor.body tt r d).val.Graphic.isSome = true := by
  by_cases hn : tt.Name.Local = "graphic"
  · exact WPAnchor_body_sets_Graphic tt r d hn
  · rw [WPAnchor_body_Graphic tt r d hn]; exact h

theorem option_unit_eq_some (o : Option Unit) (h : o.isSome = true) : o = some () := by
  cases o with
  | none => simp at h
  | some u => rfl

/-- With well-formed numeric attributes `WPAnchor.UnmarshalXML` is its loop, run
on the record its attribute loop yields. -/
theorem WPAnchor_UnmarshalXML_loop (start : StartElement) (r : WPAnchor) (d : Decoder)
    (hattrs : ∀ a ∈ start.Attr, a.Name.Local ∈ WPAnchor.numericAttrs →
      ∃ n, IsInt64Literal a.Value n) :
    WPAnchor.UnmarshalXML r d start =
      tokenLoop WPAnchor.body (d.toks.length + 1)
        (start.Attr.foldl (fun r a => (WPAnchor.attr a r).1) r) d := by
  unfold WPAnchor.UnmarshalXML
  rw [WPAnchor_attrs_ok start r hattrs]

/-- C8, as stated, fails: the graphic element
`<graphic><graphicData uri="U"><pic><spPr><xfrm rot="x"/></spPr></pic><graphicData uri="V"/></graphicData></graphic>`
has one graphicData child, of uri `U`, whose payload holds an element whose
nested decode fails (`rot="x"`) and, after it, an element that carries a uri
attribute.  `AGraphic.UnmarshalXML` returns nil and leaves `URI = "V"`: the
failed nested decode makes the decoders of `spPr`, `pic` and the graphicData
child stop at the end of the element that failed, so that the loop of
`AGraphic` itself reads the inner graphicData start-element. -/
theorem C8_counterexample_uri_of_payload_element :
    (AGraphic.UnmarshalXML {}
        ⟨[.StartElement ⟨⟨"", "graphicData"⟩, [⟨⟨"", "uri"⟩, "U"⟩]⟩,
          .StartElement ⟨⟨"", "pic"⟩, []⟩, .StartElement ⟨⟨"", "spPr"⟩, []⟩,
          .StartElement ⟨⟨"", "xfrm"⟩, [⟨⟨"", "rot"⟩, "x"⟩]⟩, .EndElement ⟨"", "xfrm"⟩,
          .EndElement ⟨"", "spPr"⟩, .EndElement ⟨"", "pic"⟩,
          .StartElement ⟨⟨"", "graphicData"⟩, [⟨⟨"", "uri"⟩, "V"⟩]⟩,
          .EndElement ⟨"", "graphicData"⟩, .EndElement ⟨"", "graphicData"⟩,
          .EndElement ⟨"", "graphic"⟩], none, [.stkStart ⟨"", "graphic"⟩, .stkEOF]⟩
        ⟨⟨"", "graphic"⟩, []⟩).err = none ∧
    (AGraphic.UnmarshalXML {}
        ⟨[.StartElement ⟨⟨"", "graphicData"⟩, [⟨⟨"", "uri"⟩, "U"⟩]⟩,
          .StartElement ⟨⟨"", "pic"⟩, []⟩, .StartElement ⟨⟨"", "spPr"⟩, []⟩,
          .StartElement ⟨⟨"", "xfrm"⟩, [⟨⟨"", "rot"⟩, "x"⟩]⟩, .EndElement ⟨"", "xfrm"⟩,
          .EndElement ⟨"", "spPr"⟩, .EndElement ⟨"", "pic"⟩,
          .StartElement ⟨⟨"", "graphicData"⟩, [⟨⟨"", "uri"⟩, "V"⟩]⟩,
          .EndElement ⟨"", "graphicData"⟩, .EndElement ⟨"", "graphicData"⟩,
          .EndElement ⟨"", "graphic"⟩], none, [.stkStart ⟨"", "graphic"⟩, .stkEOF]⟩
        ⟨⟨"", "graphic"⟩, []⟩).val.GraphicData = some { URI := "V" } := by
  decide

/-- C8, amended: for every graphic element in which a graphicData start-element
`tt` is preceded by well-nested unrecognised elements only and is followed, in
the content of the graphicData element and after it, by no start-element of
local name `graphicData`, `AGraphic.UnmarshalXML` (on a fresh record) leaves
`GraphicData` present with `URI` equal to the value `getAtt` finds for `uri`
on `tt`, for every content of the graphicData element otherwise (any nesting
depth, elements that carry a uri attribute, elements whose nested decode
fails) and whatever the decode returns. -/
theorem C8_graphicData_uri (start tt : StartElement) (pre rest : List Token)
    (err : Option Error) (stk : List Stack)
    (hstk : stk.head? ≠ some .stkEOF) (hpre : inert AGraphic.known [] pre = true)
    (htt : tt.Name.Local = "graphicData")
    (hno : rest.any (Token.isStart "graphicData") = false) :
    ∃ v, (AGraphic.UnmarshalXML {} ⟨pre ++ .StartElement tt :: rest, err, stk⟩ start).val.GraphicData
        = some v ∧ v.URI = getAtt tt.Attr "uri" := by
  unfold AGraphic.UnmarshalXML
  rw [tokenLoop_child AGraphic.body AGraphic.known AGraphic_body_unknown AGraphic_body_reach
      _ pre tt rest err stk hstk hpre _ (Nat.lt_add_one _),
    AGraphic_body_at_graphicData tt _ _ htt _ rfl]
  simp only []
  have hreach := DecodeElement_reach "*docxlib.AGraphicData" AGraphicData.UnmarshalXML
    AGraphicData_UnmarshalXML_reach {} ⟨rest, err, .stkStart tt.Name :: stk⟩ tt
  rw [tokenLoop_frame AGraphic.body (fun r => r.GraphicData) (fun s => decide (s = "graphicData"))
    AGraphic_body_reach (fun tt r d ht => AGraphic_body_GraphicData tt r d (by simpa using ht))
    _ _ _ (fun t ht => any_isStart_false hno t (hreach.mem ht))]
  exact ⟨_, rfl, rfl⟩

/-- C8, amended, at a graphicData child of uri `U` whose payload holds an element
that carries a uri attribute of its own and an element whose nested decode
fails. -/
theorem C8_graphicData_uri_witness :
    ([Stack.stkStart ⟨"", "graphic"⟩, Stack.stkEOF].head? ≠ some Stack.stkEOF ∧
      inert AGraphic.known [] [] = true ∧
      ([.StartElement ⟨⟨"", "other"⟩, [⟨⟨"", "uri"⟩, "W"⟩]⟩, .EndElement ⟨"", "other"⟩,
        .StartElement ⟨⟨"", "pic"⟩, []⟩, .StartElement ⟨⟨"", "spPr"⟩, []⟩,
        .StartElement ⟨⟨"", "xfrm"⟩, [⟨⟨"", "rot"⟩, "x"⟩]⟩, .EndElement ⟨"", "xfrm"⟩,
        .EndElement ⟨"", "spPr"⟩, .EndElement ⟨"", "pic"⟩,
        .EndElement ⟨"", "graphicData"⟩, .EndElement ⟨"", "graphic"⟩] : List Token).any
          (Token.isStart "graphicData") = false) ∧
    ∃ v, (AGraphic.UnmarshalXML {}
        ⟨[] ++ .StartElement ⟨⟨"", "graphicData"⟩, [⟨⟨"", "uri"⟩, "U"⟩]⟩ ::
          [.StartElement ⟨⟨"", "other"⟩, [⟨⟨"", "uri"⟩, "W"⟩]⟩, .EndElement ⟨"", "other"⟩,
            .StartElement ⟨⟨"", "pic"⟩, []⟩, .StartElement ⟨⟨"", "spPr"⟩, []⟩,
            .StartElement ⟨⟨"", "xfrm"⟩, [⟨⟨"", "rot"⟩, "x"⟩]⟩, .EndElement ⟨"", "xfrm"⟩,
            .EndElement ⟨"", "spPr"⟩, .EndElement ⟨"", "pic"⟩,
            .EndElement ⟨"", "graphicData"⟩, .EndElement ⟨"", "graphic"⟩],
          none, [.stkStart ⟨"", "graphic"⟩, .stkEOF]⟩
        ⟨⟨"", "graphic"⟩, []⟩).val.GraphicData = some v ∧
      v.URI = getAtt [⟨⟨"", "uri"⟩, "U"⟩] "uri" :=
  ⟨⟨by decide, by decide, by decide⟩,
    C8_graphicData_uri ⟨⟨"", "graphic"⟩, []⟩ ⟨⟨"", "graphicData"⟩, [⟨⟨"", "uri"⟩, "U"⟩]⟩ []
      [.StartElement ⟨⟨"", "other"⟩, [⟨⟨"", "uri"⟩, "W"⟩]⟩, .EndElement ⟨"", "other"⟩,
        .StartElement ⟨⟨"", "pic"⟩, []⟩, .StartElement ⟨⟨"", "spPr"⟩, []⟩,
        .StartElement ⟨⟨"", "xfrm"⟩, [⟨⟨"", "rot"⟩, "x"⟩]⟩, .EndElement ⟨"", "xfrm"⟩,
        .EndElement ⟨"", "spPr"⟩, .EndElement ⟨"", "pic"⟩,
        .EndElement ⟨"", "graphicData"⟩, .EndElement ⟨"", "graphic"⟩] none
      [.stkStart ⟨"", "graphic"⟩, .stkEOF] (by decide) (by decide) rfl (by decide)⟩

/-- What `unmarshalInterface` leaves in the value is what the method left. -/
theorem unmarshalInterface_val {α : Type} (typ : String)
    (f : α → Decoder → StartElement → Outcome α) (v : α) (d : Decoder) (s : StartElement) :
    (d.unmarshalInterface typ f v s).val = (f v d.pushEOF s).val := by
  unfold Decoder.unmarshalInterface
  simp only
  split
  · rfl
  · split <;> rfl

theorem DecodeElement_val {α : Type} (typ : String)
    (f : α → Decoder → StartElement → Outcome α) (v : α) (d : Decoder) (s : StartElement) :
    (d.DecodeElement typ f v s).val = (f v d.pushEOF s).val :=
  unmarshalInterface_val typ f v d s

theorem Hyperlink_body_at_r {Run : Type} (run : Run → Decoder → StartElement → Outcome Run)
    (tt : StartElement) (r : Hyperlink Run) (d : Decoder) (h : tt.Name.Local = "r") :
    Hyperlink.body run tt r d = .next
      { r with Run := (Decoder.DecodeElement "*docxlib.Run" run r.Run d tt).val }
      (Decoder.DecodeElement "*docxlib.Run" run r.Run d tt).dec := by
  unfold Hyperlink.body
  rw [if_pos h]

/-- C9, as stated, fails: `Hyperlink.UnmarshalXML` handed the start-element
`<w:hyperlink r:id="rId5">` and the content `<w:r></w:r></w:hyperlink>`, on a
fresh record, returns nil and leaves `ID` empty: the method does not read the
attributes of its start-element.  (The run decoder is here one that reads its
element to the end and records the local names of the start-elements.) -/
theorem C9_counterexample_id_not_read :
    (Hyperlink.UnmarshalXML
        (fun (v : List String) (d : Decoder) (_ : StartElement) =>
          tokenLoop (fun tt r d => Step.next (tt.Name.Local :: r) d) (d.toks.length + 1) v d)
        ⟨{}, "", []⟩
        ⟨[.StartElement ⟨⟨"w", "r"⟩, []⟩, .EndElement ⟨"w", "r"⟩, .EndElement ⟨"w", "hyperlink"⟩],
          none, [.stkStart ⟨"w", "hyperlink"⟩, .stkEOF]⟩
        ⟨⟨"w", "hyperlink"⟩,
          [⟨⟨"http://schemas.openxmlformats.org/officeDocument/2006/relationships", "id"⟩,
            "rId5"⟩]⟩).err = none ∧
    (Hyperlink.UnmarshalXML
        (fun (v : List String) (d : Decoder) (_ : StartElement) =>
          tokenLoop (fun tt r d => Step.next (tt.Name.Local :: r) d) (d.toks.length + 1) v d)
        ⟨{}, "", []⟩
        ⟨[.StartElement ⟨⟨"w", "r"⟩, []⟩, .EndElement ⟨"w", "r"⟩, .EndElement ⟨"w", "hyperlink"⟩],
          none, [.stkStart ⟨"w", "hyperlink"⟩, .stkEOF]⟩
        ⟨⟨"w", "hyperlink"⟩,
          [⟨⟨"http://schemas.openxmlformats.org/officeDocument/2006/relationships", "id"⟩,
            "rId5"⟩]⟩).val.ID = "" := by
  decide

/-- C9, amended: `Hyperlink.UnmarshalXML` leaves `ID` as it was in the record
it was handed, whatever the attributes of the start-element (it is for the
caller to copy `r:id`); and for every content in which a start-element `tt`
of local name `r` is preceded by well-nested unrecognised elements only and
followed by no other start-element of local name `r`, `Run` is the value the
run decoder leaves when it is called on `tt` with the run of the record handed
in, right after `tt` was read and the end-of-element mark was pushed.  The run
decoder is any function that only moves the decoder forward. -/
theorem C9_hyperlink_id_and_run {Run : Type}
    (run : Run → Decoder → StartElement → Outcome Run)
    (hrun : ∀ (v : Run) (d : Decoder) (s : StartElement), d.Reach (run v d s).dec)
    (r0 : Hyperlink Run) (start tt : StartElement) (pre rest : List Token)
    (err : Option Error) (stk : List Stack)
    (hstk : stk.head? ≠ some .stkEOF) (hpre : inert Hyperlink.known [] pre = true)
    (htt : tt.Name.Local = "r") (hno : rest.any (Token.isStart "r") = false) :
    (Hyperlink.UnmarshalXML run r0 ⟨pre ++ .StartElement tt :: rest, err, stk⟩ start).val.ID
        = r0.ID ∧
      (Hyperlink.UnmarshalXML run r0 ⟨pre ++ .StartElement tt :: rest, err, stk⟩ start).val.Run
        = (run r0.Run ⟨rest, err, .stkStart tt.Name :: .stkEOF :: stk⟩ tt).val := by
  constructor
  · exact tokenLoop_inv (Hyperlink.body run) (fun r => r.ID = r0.ID)
      (fun tt r d hr => by
        show (Hyperlink.body run tt r d).val.ID = r0.ID
        rw [Hyperlink_body_ID]; exact hr) _ _ _ rfl
  · unfold Hyperlink.UnmarshalXML
    rw [tokenLoop_child (Hyperlink.body run) Hyperlink.known (Hyperlink_body_unknown run)
        (Hyperlink_body_reach run hrun) _ pre tt rest err stk hstk hpre _ (Nat.lt_add_one _),
      Hyperlink_body_at_r run tt _ _ htt]
    simp only []
    have hreach := DecodeElement_reach "*docxlib.Run" run hrun r0.Run
      ⟨rest, err, .stkStart tt.Name :: stk⟩ tt
    rw [tokenLoop_frame (Hyperlink.body run) (fun r => r.Run) (fun s => decide (s = "r"))
      (Hyperlink_body_reach run hrun)
      (fun tt r d ht => Hyperlink_body_Run run tt r d (by simpa using ht))
      _ _ _ (fun t ht => any_isStart_false hno t (hreach.mem ht))]
    exact DecodeElement_val _ _ _ _ _

/-- C9, amended, at the hyperlink `<w:hyperlink r:id="rId5"><w:r></w:r></w:hyperlink>`
and a run decoder that reads its element to the end and records the local
names of the start-elements it meets. -/
theorem C9_hyperlink_id_and_run_witness :
    ([Stack.stkStart ⟨"w", "hyperlink"⟩, Stack.stkEOF].head? ≠ some Stack.stkEOF ∧
      inert Hyperlink.known [] [] = true ∧
      ([.StartElement ⟨⟨"w", "t"⟩, []⟩, .EndElement ⟨"w", "t"⟩,
        .EndElement ⟨"w", "r"⟩, .EndElement ⟨"w", "hyperlink"⟩] : List Token).any
        (Token.isStart "r") = false) ∧
    ((Hyperlink.UnmarshalXML
        (fun (v : List String) (d : Decoder) (_ : StartElement) =>
          tokenLoop (fun tt r d => Step.next (tt.Name.Local :: r) d) (d.toks.length + 1) v d)
        ⟨{}, "rId5", []⟩
        ⟨[] ++ .StartElement ⟨⟨"w", "r"⟩, []⟩ ::
            [.StartElement ⟨⟨"w", "t"⟩, []⟩, .EndElement ⟨"w", "t"⟩,
              .EndElement ⟨"w", "r"⟩, .EndElement ⟨"w", "hyperlink"⟩],
          none, [.stkStart ⟨"w", "hyperlink"⟩, .stkEOF]⟩
        ⟨⟨"w", "hyperlink"⟩, []⟩).val.ID = "rId5" ∧
      (Hyperlink.UnmarshalXML
        (fun (v : List String) (d : Decoder) (_ : StartElement) =>
          tokenLoop (fun tt r d => Step.next (tt.Name.Local :: r) d) (d.toks.length + 1) v d)
        ⟨{}, "rId5", []⟩
        ⟨[] ++ .StartElement ⟨⟨"w", "r"⟩, []⟩ ::
            [.StartElement ⟨⟨"w", "t"⟩, []⟩, .EndElement ⟨"w", "t"⟩,
              .EndElement ⟨"w", "r"⟩, .EndElement ⟨"w", "hyperlink"⟩],
          none, [.stkStart ⟨"w", "hyperlink"⟩, .stkEOF]⟩
        ⟨⟨"w", "hyperlink"⟩, []⟩).val.Run = ["t"]) :=
  ⟨⟨by decide, by decide, by decide⟩,
    C9_hyperlink_id_and_run
      (fun (v : List String) (d : Decoder) (_ : StartElement) =>
        tokenLoop (fun tt r d => Step.next (tt.Name.Local :: r) d) (d.toks.length + 1) v d)
      (fun v d _ => tokenLoop_reach (fun tt r d => Step.next (tt.Name.Local :: r) d)
        (fun _ _ d => Decoder.Reach.refl d) _ v d)
      ⟨{}, "rId5", []⟩ ⟨⟨"w", "hyperlink"⟩, []⟩ ⟨⟨"w", "r"⟩, []⟩ []
      [.StartElement ⟨⟨"w", "t"⟩, []⟩, .EndElement ⟨"w", "t"⟩,
        .EndElement ⟨"w", "r"⟩, .EndElement ⟨"w", "hyperlink"⟩] none
      [.stkStart ⟨"w", "hyperlink"⟩, .stkEOF] (by decide) (by decide) rfl (by decide)⟩

/-- Well-nested tokens that hold no start-element the body knows, put in front
of the pending tokens, change neither the record nor the error of the loop. -/
theorem tokenLoop_insert {α : Type} (body : StartElement → α → Decoder → Step α)
    (known : String → Bool)
    (hunk : ∀ (tt : StartElement) (r : α) (d : Decoder), known tt.Name.Local = false →
      body tt r d = .next r d)
    (r : α) (ins toks : List Token) (err : Option Error) (stk : List Stack)
    (hin : inert known [] ins = true) :
    (tokenLoop body ((ins ++ toks).length + 1) r ⟨ins ++ toks, err, stk⟩).val =
        (tokenLoop body (toks.length + 1) r ⟨toks, err, stk⟩).val ∧
      (tokenLoop body ((ins ++ toks).length + 1) r ⟨ins ++ toks, err, stk⟩).err =
        (tokenLoop body (toks.length + 1) r ⟨toks, err, stk⟩).err := by
  by_cases hstk : stk.head? = some .stkEOF
  · rw [tokenLoop_eof body _ r (Token_eof_top ⟨ins ++ toks, err, stk⟩ hstk),
      tokenLoop_eof body _ r (Token_eof_top ⟨toks, err, stk⟩ hstk)]
    exact ⟨rfl, rfl⟩
  · have h := tokenLoop_skip_inert body known hunk r toks err stk hstk ins [] (toks.length + 1) hin
    simp only [List.map_nil, List.nil_append] at h
    have hl : (ins ++ toks).length + 1 = toks.length + 1 + ins.length := by
      simp only [List.length_append]; omega
    rw [hl, h]
    exact ⟨rfl, rfl⟩

/-- C5, as stated, fails: an inline frame without children decodes without error;
with the element `<foo><extent cx="abc"/></foo>`, whose local name
`WPInline.UnmarshalXML` does not recognise, inserted among its children the
decode returns an error.  The loop does not skip the content of an element it
does not recognise: it dispatches on the start-elements nested in it as on
its own children. -/
theorem C5_counterexample_unknown_element_with_known_descendant :
    (WPInline.UnmarshalXML {}
        ⟨[.EndElement ⟨"", "inline"⟩], none, [.stkStart ⟨"", "inline"⟩, .stkEOF]⟩
        ⟨⟨"", "inline"⟩, []⟩).err = none ∧
    (WPInline.UnmarshalXML {}
        ⟨[.StartElement ⟨⟨"", "foo"⟩, []⟩,
          .StartElement ⟨⟨"", "extent"⟩, [⟨⟨"", "cx"⟩, "abc"⟩]⟩, .EndElement ⟨"", "extent"⟩,
          .EndElement ⟨"", "foo"⟩, .EndElement ⟨"", "inline"⟩], none,
          [.stkStart ⟨"", "inline"⟩, .stkEOF]⟩
        ⟨⟨"", "inline"⟩, []⟩).err ≠ none := by
  decide

/-- C5, amended: for every decoder with a dispatch loop, every record and
start-element handed to it and every state of the decoder, putting in front of
the pending tokens well-nested elements (and other tokens) that hold, at any
depth, no start-element whose local name the decoder recognises changes
neither the error returned nor the decoded record.  The attributes of the
inserted elements are arbitrary.  (A loop is in this state before its first
child and, started again on the record built so far, between any two
children.) -/
theorem C5_unknown_elements_ignored :
    (∀ (r : WPInline) (start : StartElement) (ins toks : List Token) (err : Option Error)
        (stk : List Stack), inert WPInline.known [] ins = true →
      (WPInline.UnmarshalXML r ⟨ins ++ toks, err, stk⟩ start).val =
          (WPInline.UnmarshalXML r ⟨toks, err, stk⟩ start).val ∧
        (WPInline.UnmarshalXML r ⟨ins ++ toks, err, stk⟩ start).err =
          (WPInline.UnmarshalXML r ⟨toks, err, stk⟩ start).err) ∧
    (∀ (r : WPAnchor) (start : StartElement) (ins toks : List Token) (err : Option Error)
        (stk : List Stack), inert WPAnchor.known [] ins = true →
      (WPAnchor.UnmarshalXML r ⟨ins ++ toks, err, stk⟩ start).val =
          (WPAnchor.UnmarshalXML r ⟨toks, err, stk⟩ start).val ∧
        (WPAnchor.UnmarshalXML r ⟨ins ++ toks, err, stk⟩ start).err =
          (WPAnchor.UnmarshalXML r ⟨toks, err, stk⟩ start).err) ∧
    (∀ (r : Drawing) (start : StartElement) (ins toks : List Token) (err : Option Error)
        (stk : List Stack), inert Drawing.known [] ins = true →
      (Drawing.UnmarshalXML r ⟨ins ++ toks, err, stk⟩ start).val =
          (Drawing.UnmarshalXML r ⟨toks, err, stk⟩ start).val ∧
        (Drawing.UnmarshalXML r ⟨ins ++ toks, err, stk⟩ start).err =
          (Drawing.UnmarshalXML r ⟨toks, err, stk⟩ start).err) ∧
    (∀ (r : WPCNvGraphicFramePr) (start : StartElement) (ins toks : List Token) (err : Option Error)
        (stk : List Stack), inert WPCNvGraphicFramePr.known [] ins = true →
      (WPCNvGraphicFramePr.UnmarshalXML r ⟨ins ++ toks, err, stk⟩ start).val =
          (WPCNvGraphicFramePr.UnmarshalXML r ⟨toks, err, stk⟩ start).val ∧
        (WPCNvGraphicFramePr.UnmarshalXML r ⟨ins ++ toks, err, stk⟩ start).err =
          (WPCNvGraphicFramePr.UnmarshalXML r ⟨toks, err, stk⟩ start).err) ∧
    (∀ (r : AGraphic) (start : StartElement) (ins toks : List Token) (err : Option Error)
        (stk : List Stack), inert AGraphic.known [] ins = true →
      (AGraphic.UnmarshalXML r ⟨ins ++ toks, err, stk⟩ start).val =
          (AGraphic.UnmarshalXML r ⟨toks, err, stk⟩ start).val ∧
        (AGraphic.UnmarshalXML r ⟨ins ++ toks, err, stk⟩ start).err =
          (AGraphic.UnmarshalXML r ⟨toks, err, stk⟩ start).err) ∧
    (∀ (r : AGraphicData) (start : StartElement) (ins toks : List Token) (err : Option Error)
        (stk : List Stack), inert AGraphicData.known [] ins = true →
      (AGraphicData.UnmarshalXML r ⟨ins ++ toks, err, stk⟩ start).val =
          (AGraphicData.UnmarshalXML r ⟨toks, err, stk⟩ start).val ∧
        (AGraphicData.UnmarshalXML r ⟨ins ++ toks, err, stk⟩ start).err =
          (AGraphicData.UnmarshalXML r ⟨toks, err, stk⟩ start).err) ∧
    (∀ (r : PICPic) (start : StartElement) (ins toks : List Token) (err : Option Error)
        (stk : List Stack), inert PICPic.known [] ins = true →
      (PICPic.UnmarshalXML r ⟨ins ++ toks, err, stk⟩ start).val =
          (PICPic.UnmarshalXML r ⟨toks, err, stk⟩ start).val ∧
        (PICPic.UnmarshalXML r ⟨ins ++ toks, err, stk⟩ start).err =
          (PICPic.UnmarshalXML r ⟨toks, err, stk⟩ start).err) ∧
    (∀ (r : PICNonVisualPicProperties) (start : StartElement) (ins toks : List Token) (err : Option Error)
        (stk : List Stack), inert PICNonVisualPicProperties.known [] ins = true →
      (PICNonVisualPicProperties.UnmarshalXML r ⟨ins ++ toks, err, stk⟩ start).val =
          (PICNonVisualPicProperties.UnmarshalXML r ⟨toks, err, stk⟩ start).val ∧
        (PICNonVisualPicProperties.UnmarshalXML r ⟨ins ++ toks, err, stk⟩ start).err =
          (PICNonVisualPicProperties.UnmarshalXML r ⟨toks, err, stk⟩ start).err) ∧
    (∀ (r : PICBlipFill) (start : StartElement) (ins toks : List Token) (err : Option Error)
        (stk : List Stack), inert PICBlipFill.known [] ins = true →
      (PICBlipFill.UnmarshalXML r ⟨ins ++ toks, err, stk⟩ start).val =
          (PICBlipFill.UnmarshalXML r ⟨toks, err, stk⟩ start).val ∧
        (PICBlipFill.UnmarshalXML r ⟨ins ++ toks, err, stk⟩ start).err =
          (PICBlipFill.UnmarshalXML r ⟨toks, err, stk⟩ start).err) ∧
    (∀ (r : ABlip) (start : StartElement) (ins toks : List Token) (err : Option Error)
        (stk : List Stack), inert ABlip.known [] ins = true →
      (ABlip.UnmarshalXML r ⟨ins ++ toks, err, stk⟩ start).val =
          (ABlip.UnmarshalXML r ⟨toks, err, stk⟩ start).val ∧
        (ABlip.UnmarshalXML r ⟨ins ++ toks, err, stk⟩ start).err =
          (ABlip.UnmarshalXML r ⟨toks, err, stk⟩ start).err) ∧
    (∀ (r : PICSpPr) (start : StartElement) (ins toks : List Token) (err : Option Error)
        (stk : List Stack), inert PICSpPr.known [] ins = true →
      (PICSpPr.UnmarshalXML r ⟨ins ++ toks, err, stk⟩ start).val =
          (PICSpPr.UnmarshalXML r ⟨toks, err, stk⟩ start).val ∧
        (PICSpPr.UnmarshalXML r ⟨ins ++ toks, err, stk⟩ start).err =
          (PICSpPr.UnmarshalXML r ⟨toks, err, stk⟩ start).err) ∧
    (∀ (r : AXfrm) (start : StartElement) (ins toks : List Token) (err : Option Error)
        (stk : List Stack), inert AXfrm.known [] ins = true →
      (AXfrm.UnmarshalXML r ⟨ins ++ toks, err, stk⟩ start).val =
          (AXfrm.UnmarshalXML r ⟨toks, err, stk⟩ start).val ∧
        (AXfrm.UnmarshalXML r ⟨ins ++ toks, err, stk⟩ start).err =
          (AXfrm.UnmarshalXML r ⟨toks, err, stk⟩ start).err) ∧
    (∀ (r : WPPositionH) (start : StartElement) (ins toks : List Token) (err : Option Error)
        (stk : List Stack), inert WPPositionH.known [] ins = true →
      (WPPositionH.UnmarshalXML r ⟨ins ++ toks, err, stk⟩ start).val =
          (WPPositionH.UnmarshalXML r ⟨toks, err, stk⟩ start).val ∧
        (WPPositionH.UnmarshalXML r ⟨ins ++ toks, err, stk⟩ start).err =
          (WPPositionH.UnmarshalXML r ⟨toks, err, stk⟩ start).err) ∧
    (∀ (r : WPPositionV) (start : StartElement) (ins toks : List Token) (err : Option Error)
        (stk : List Stack), inert WPPositionV.known [] ins = true →
      (WPPositionV.UnmarshalXML r ⟨ins ++ toks, err, stk⟩ start).val =
          (WPPositionV.UnmarshalXML r ⟨toks, err, stk⟩ start).val ∧
        (WPPositionV.UnmarshalXML r ⟨ins ++ toks, err, stk⟩ start).err =
          (WPPositionV.UnmarshalXML r ⟨toks, err, stk⟩ start).err) ∧
    (∀ (Run : Type) (run : Run → Decoder → StartElement → Outcome Run) (r : Hyperlink Run)
        (start : StartElement) (ins toks : List Token) (err : Option Error) (stk : List Stack),
      inert Hyperlink.known [] ins = true →
      (Hyperlink.UnmarshalXML run r ⟨ins ++ toks, err, stk⟩ start).val.ID =
          (Hyperlink.UnmarshalXML run r ⟨toks, err, stk⟩ start).val.ID ∧
        (Hyperlink.UnmarshalXML run r ⟨ins ++ toks, err, stk⟩ start).val.Run =
          (Hyperlink.UnmarshalXML run r ⟨toks, err, stk⟩ start).val.Run ∧
        (Hyperlink.UnmarshalXML run r ⟨ins ++ toks, err, stk⟩ start).err =
          (Hyperlink.UnmarshalXML run r ⟨toks, err, stk⟩ start).err) := by
  refine ⟨?_, ?_, ?_, ?_, ?_, ?_, ?_, ?_, ?_, ?_, ?_, ?_, ?_, ?_, ?_⟩
  · intro r start ins toks err stk h
    unfold WPInline.UnmarshalXML
    rcases attrLoop WPInline.attr start.Attr r with ⟨r1, _ | e⟩
    · exact tokenLoop_insert WPInline.body WPInline.known WPInline_body_unknown r1 ins toks err stk h
    · exact ⟨rfl, rfl⟩
  · intro r start ins toks err stk h
    unfold WPAnchor.UnmarshalXML
    rcases attrLoop WPAnchor.attr start.Attr r with ⟨r1, _ | e⟩
    · exact tokenLoop_insert WPAnchor.body WPAnchor.known WPAnchor_body_unknown r1 ins toks err stk h
    · exact ⟨rfl, rfl⟩
  · intro r start ins toks err stk h
    unfold Drawing.UnmarshalXML
    exact tokenLoop_insert Drawing.body Drawing.known Drawing_body_unknown _ ins toks err stk h
  · intro r start ins toks err stk h
    unfold WPCNvGraphicFramePr.UnmarshalXML
    exact tokenLoop_insert WPCNvGraphicFramePr.body WPCNvGraphicFramePr.known WPCNvGraphicFramePr_body_unknown _ ins toks err stk h
  · intro r start ins toks err stk h
    unfold AGraphic.UnmarshalXML
    exact tokenLoop_insert AGraphic.body AGraphic.known AGraphic_body_unknown _ ins toks err stk h
  · intro r start ins toks err stk h
    unfold AGraphicData.UnmarshalXML
    exact tokenLoop_insert AGraphicData.body AGraphicData.known AGraphicData_body_unknown _ ins toks err stk h
  · intro r start ins toks err stk h
    unfold PICPic.UnmarshalXML
    exact tokenLoop_insert PICPic.body PICPic.known PICPic_body_unknown _ ins toks err stk h
  · intro r start ins toks err stk h
    unfold PICNonVisualPicProperties.UnmarshalXML
    exact tokenLoop_insert PICNonVisualPicProperties.body PICNonVisualPicProperties.known PICNonVisualPicProperties_body_unknown _ ins toks err stk h
  · intro r start ins toks err stk h
    unfold PICBlipFill.UnmarshalXML
    exact tokenLoop_insert PICBlipFill.body PICBlipFill.known PICBlipFill_body_unknown _ ins toks err stk h
  · intro r start ins toks err stk h
    unfold ABlip.UnmarshalXML
    exact tokenLoop_insert ABlip.body ABlip.known ABlip_body_unknown _ ins toks err stk h
  · intro r start ins toks err stk h
    unfold PICSpPr.UnmarshalXML
    exact tokenLoop_insert PICSpPr.body PICSpPr.known PICSpPr_body_unknown _ ins toks err stk h
  · intro r start ins toks err stk h
    unfold AXfrm.UnmarshalXML
    rcases attrLoop AXfrm.attr start.Attr r with ⟨r1, _ | e⟩
    · exact tokenLoop_insert AXfrm.body AXfrm.known AXfrm_body_unknown r1 ins toks err stk h
    · exact ⟨rfl, rfl⟩
  · intro r start ins toks err stk h
    unfold WPPositionH.UnmarshalXML
    exact tokenLoop_insert WPPositionH.body WPPositionH.known WPPositionH_body_unknown _ ins toks err stk h
  · intro r start ins toks err stk h
    unfold WPPositionV.UnmarshalXML
    exact tokenLoop_insert WPPositionV.body WPPositionV.known WPPositionV_body_unknown _ ins toks err stk h
  · intro Run run r start ins toks err stk h
    unfold Hyperlink.UnmarshalXML
    have h1 := tokenLoop_insert (Hyperlink.body run) Hyperlink.known (Hyperlink_body_unknown run)
      r ins toks err stk h
    rw [h1.1]
    exact ⟨rfl, rfl, h1.2⟩

/-- C5, amended, at an inline frame with an extent child, in front of which the
element `<foo cx="abc"><bar/></foo>` is put. -/
theorem C5_unknown_elements_ignored_witness :
    inert WPInline.known []
        [.StartElement ⟨⟨"", "foo"⟩, [⟨⟨"", "cx"⟩, "abc"⟩]⟩, .StartElement ⟨⟨"", "bar"⟩, []⟩,
          .EndElement ⟨"", "bar"⟩, .EndElement ⟨"", "foo"⟩] = true ∧
    (WPInline.UnmarshalXML {}
        ⟨[.StartElement ⟨⟨"", "foo"⟩, [⟨⟨"", "cx"⟩, "abc"⟩]⟩, .StartElement ⟨⟨"", "bar"⟩, []⟩,
            .EndElement ⟨"", "bar"⟩, .EndElement ⟨"", "foo"⟩] ++
          [.StartElement ⟨⟨"", "extent"⟩, [⟨⟨"", "cx"⟩, "1"⟩, ⟨⟨"", "cy"⟩, "2"⟩]⟩,
            .EndElement ⟨"", "extent"⟩, .EndElement ⟨"", "inline"⟩], none,
          [.stkStart ⟨"", "inline"⟩, .stkEOF]⟩ ⟨⟨"", "inline"⟩, []⟩).val =
      (WPInline.UnmarshalXML {}
        ⟨[.StartElement ⟨⟨"", "extent"⟩, [⟨⟨"", "cx"⟩, "1"⟩, ⟨⟨"", "cy"⟩, "2"⟩]⟩,
            .EndElement ⟨"", "extent"⟩, .EndElement ⟨"", "inline"⟩], none,
          [.stkStart ⟨"", "inline"⟩, .stkEOF]⟩ ⟨⟨"", "inline"⟩, []⟩).val ∧
    (WPInline.UnmarshalXML {}
        ⟨[.StartElement ⟨⟨"", "foo"⟩, [⟨⟨"", "cx"⟩, "abc"⟩]⟩, .StartElement ⟨⟨"", "bar"⟩, []⟩,
            .EndElement ⟨"", "bar"⟩, .EndElement ⟨"", "foo"⟩] ++
          [.StartElement ⟨⟨"", "extent"⟩, [⟨⟨"", "cx"⟩, "1"⟩, ⟨⟨"", "cy"⟩, "2"⟩]⟩,
            .EndElement ⟨"", "extent"⟩, .EndElement ⟨"", "inline"⟩], none,
          [.stkStart ⟨"", "inline"⟩, .stkEOF]⟩ ⟨⟨"", "inline"⟩, []⟩).err =
      (WPInline.UnmarshalXML {}
        ⟨[.StartElement ⟨⟨"", "extent"⟩, [⟨⟨"", "cx"⟩, "1"⟩, ⟨⟨"", "cy"⟩, "2"⟩]⟩,
            .EndElement ⟨"", "extent"⟩, .EndElement ⟨"", "inline"⟩], none,
          [.stkStart ⟨"", "inline"⟩, .stkEOF]⟩ ⟨⟨"", "inline"⟩, []⟩).err :=
  ⟨by decide,
    C5_unknown_elements_ignored.1 {} ⟨⟨"", "inline"⟩, []⟩
      [.StartElement ⟨⟨"", "foo"⟩, [⟨⟨"", "cx"⟩, "abc"⟩]⟩, .StartElement ⟨⟨"", "bar"⟩, []⟩,
        .EndElement ⟨"", "bar"⟩, .EndElement ⟨"", "foo"⟩]
      [.StartElement ⟨⟨"", "extent"⟩, [⟨⟨"", "cx"⟩, "1"⟩, ⟨⟨"", "cy"⟩, "2"⟩]⟩,
        .EndElement ⟨"", "extent"⟩, .EndElement ⟨"", "inline"⟩] none
      [.stkStart ⟨"", "inline"⟩, .stkEOF] (by decide)⟩

theorem attrLoop_frame {α β : Type} (body : Attr → α → α × Option Error) (π : α → β)
    (h : ∀ (r : α) (a : Attr), π (body a r).1 = π r) :
    ∀ (attrs : List Attr) (r : α), π (attrLoop body attrs r).1 = π r := by
  intro attrs
  induction attrs with
  | nil => intro r; rfl
  | cons x xs ih =>
    intro r
    unfold attrLoop
    have hx := h r x
    rcases hb : body x r with ⟨r1, _ | e⟩
    · rw [hb] at hx
      simp only
      rw [ih r1]; exact hx
    · rw [hb] at hx; exact hx

/-- When `WPInline.UnmarshalXML` returns nil it has run its loop, on the record
its attribute loop left. -/
theorem WPInline_UnmarshalXML_of_ok (r : WPInline) (d : Decoder) (start : StartElement)
    (h : (WPInline.UnmarshalXML r d start).err = none) :
    WPInline.UnmarshalXML r d start =
      tokenLoop WPInline.body (d.toks.length + 1) (attrLoop WPInline.attr start.Attr r).1 d := by
  unfold WPInline.UnmarshalXML at h ⊢
  rcases hb : attrLoop WPInline.attr start.Attr r with ⟨r1, _ | e⟩
  · rfl
  · rw [hb] at h; simp at h

/-- An optional field `π` of `WPInline`, set by the loop for the start-elements
of local name `name` and for no other: it ends up populated only if such a
start-element is pending, and it does when one is read by the loop. -/
theorem WPInline_field {β : Type} (π : WPInline → Option β) (name : String)
    (hattr : ∀ (r : WPInline) (a : Attr), π (WPInline.attr a r).1 = π r)
    (hframe : ∀ (tt : StartElement) (r : WPInline) (d : Decoder), tt.Name.Local ≠ name →
      π (WPInline.body tt r d).val = π r)
    (hsets : ∀ (tt : StartElement) (r : WPInline) (d : Decoder), tt.Name.Local = name →
      (π (WPInline.body tt r d).val).isSome = true)
    (r : WPInline) (hr : π r = none) (d : Decoder) (start : StartElement) :
    ((π (WPInline.UnmarshalXML r d start).val).isSome = true →
        d.toks.any (Token.isStart name) = true) ∧
      ((WPInline.UnmarshalXML r d start).err = none →
        ∀ (pre : List Token) (tt : StartElement) (rest : List Token),
          d.toks = pre ++ .StartElement tt :: rest → d.stk.head? ≠ some .stkEOF →
          inert WPInline.known [] pre = true → tt.Name.Local = name →
          (π (WPInline.UnmarshalXML r d start).val).isSome = true) := by
  have h1 : π (attrLoop WPInline.attr start.Attr r).1 = none := by
    rw [attrLoop_frame WPInline.attr π hattr]; exact hr
  constructor
  · intro hp
    by_contra hany
    simp only [Bool.not_eq_true] at hany
    have : π (WPInline.UnmarshalXML r d start).val = none := by
      unfold WPInline.UnmarshalXML
      rcases hb : attrLoop WPInline.attr start.Attr r with ⟨r1, _ | e⟩
      · rw [hb] at h1
        simp only
        rw [tokenLoop_frame WPInline.body π (fun s => decide (s = name)) WPInline_body_reach
          (fun tt r d ht => hframe tt r d (by simpa using ht)) _ _ _ (any_isStart_false hany)]
        exact h1
      · rw [hb] at h1; exact h1
    rw [this] at hp; simp at hp
  · intro hok pre tt rest htoks hstk hpre htt
    rw [WPInline_UnmarshalXML_of_ok r d start hok]
    obtain ⟨toks, err, stk⟩ := d
    simp only at htoks hstk
    subst htoks
    rw [tokenLoop_child WPInline.body WPInline.known WPInline_body_unknown WPInline_body_reach
      _ pre tt rest err stk hstk hpre _ (Nat.lt_add_one _)]
    have hs := hsets tt (attrLoop WPInline.attr start.Attr r).1 ⟨rest, err, .stkStart tt.Name :: stk⟩ htt
    have hkeep : ∀ (tt : StartElement) (r : WPInline) (d : Decoder), (π r).isSome = true →
        (π (WPInline.body tt r d).val).isSome = true := by
      intro tt r d h
      by_cases hn : tt.Name.Local = name
      · exact hsets tt r d hn
      · rw [hframe tt r d hn]; exact h
    rcases hb : WPInline.body tt (attrLoop WPInline.attr start.Attr r).1
        ⟨rest, err, .stkStart tt.Name :: stk⟩ with ⟨r2, d2⟩ | ⟨r2, d2, e⟩
    · rw [hb] at hs
      exact tokenLoop_inv WPInline.body (fun r => (π r).isSome = true) hkeep _ _ _ hs
    · rw [hb] at hs; exact hs

/-- C4, as stated, fails in both directions.  The inline frame
`<inline><foo><extent cx="1" cy="2"/></foo></inline>` has the one child `foo`;
the decode returns nil with `Extent` populated.  The inline frame
`<inline><docPr id="x"/><graphic/></inline>` has a child `graphic`; the decode
returns nil with `Graphic` nil (the failed decode of `docPr` ends the loop at
the end of that element). -/
theorem C4_counterexample_presence_of_optional_fields :
    ((WPInline.UnmarshalXML {}
        ⟨[.StartElement ⟨⟨"", "foo"⟩, []⟩,
          .StartElement ⟨⟨"", "extent"⟩, [⟨⟨"", "cx"⟩, "1"⟩, ⟨⟨"", "cy"⟩, "2"⟩]⟩,
          .EndElement ⟨"", "extent"⟩, .EndElement ⟨"", "foo"⟩, .EndElement ⟨"", "inline"⟩],
          none, [.stkStart ⟨"", "inline"⟩, .stkEOF]⟩ ⟨⟨"", "inline"⟩, []⟩).err = none ∧
      (WPInline.UnmarshalXML {}
        ⟨[.StartElement ⟨⟨"", "foo"⟩, []⟩,
          .StartElement ⟨⟨"", "extent"⟩, [⟨⟨"", "cx"⟩, "1"⟩, ⟨⟨"", "cy"⟩, "2"⟩]⟩,
          .EndElement ⟨"", "extent"⟩, .EndElement ⟨"", "foo"⟩, .EndElement ⟨"", "inline"⟩],
          none, [.stkStart ⟨"", "inline"⟩, .stkEOF]⟩ ⟨⟨"", "inline"⟩, []⟩).val.populated
            "extent" = true ∧
      childElements 0
        [.StartElement ⟨⟨"", "foo"⟩, []⟩,
          .StartElement ⟨⟨"", "extent"⟩, [⟨⟨"", "cx"⟩, "1"⟩, ⟨⟨"", "cy"⟩, "2"⟩]⟩,
          .EndElement ⟨"", "extent"⟩, .EndElement ⟨"", "foo"⟩, .EndElement ⟨"", "inline"⟩]
        = ["foo"]) ∧
    ((WPInline.UnmarshalXML {}
        ⟨[.StartElement ⟨⟨"", "docPr"⟩, [⟨⟨"", "id"⟩, "x"⟩]⟩, .EndElement ⟨"", "docPr"⟩,
          .StartElement ⟨⟨"", "graphic"⟩, []⟩, .EndElement ⟨"", "graphic"⟩,
          .EndElement ⟨"", "inline"⟩],
          none, [.stkStart ⟨"", "inline"⟩, .stkEOF]⟩ ⟨⟨"", "inline"⟩, []⟩).err = none ∧
      (WPInline.UnmarshalXML {}
        ⟨[.StartElement ⟨⟨"", "docPr"⟩, [⟨⟨"", "id"⟩, "x"⟩]⟩, .EndElement ⟨"", "docPr"⟩,
          .StartElement ⟨⟨"", "graphic"⟩, []⟩, .EndElement ⟨"", "graphic"⟩,
          .EndElement ⟨"", "inline"⟩],
          none, [.stkStart ⟨"", "inline"⟩, .stkEOF]⟩ ⟨⟨"", "inline"⟩, []⟩).val.populated
            "graphic" = false ∧
      childElements 0
        [.StartElement ⟨⟨"", "docPr"⟩, [⟨⟨"", "id"⟩, "x"⟩]⟩, .EndElement ⟨"", "docPr"⟩,
          .StartElement ⟨⟨"", "graphic"⟩, []⟩, .EndElement ⟨"", "graphic"⟩,
          .EndElement ⟨"", "inline"⟩]
        = ["docPr", "graphic"]) := by
  decide

theorem ParseInt_err_of_eq {s : String} {base b : Nat} {v : Int} {e : Error}
    (h : strconv.ParseInt s base b = (v, some e)) : e.isNum = true :=
  ParseInt_err_isNum s base b e (by rw [h])

theorem Atoi_err_of_eq {s : String} {v : Int} {e : Error}
    (h : strconv.Atoi s = (v, some e)) : e.isNum = true :=
  Atoi_err_isNum s e (by rw [h])

theorem attrLoop_err_kind {α : Type} (body : Attr → α → α × Option Error) (P : Error → Prop)
    (hP : ∀ (a : Attr) (r : α) (e : Error), (body a r).2 = some e → P e) :
    ∀ (attrs : List Attr) (r : α) (e : Error), (attrLoop body attrs r).2 = some e → P e := by
  intro attrs
  induction attrs with
  | nil => intro r e h; simp [attrLoop] at h
  | cons x xs ih =>
    intro r e h
    unfold attrLoop at h
    rcases hb : body x r with ⟨r1, _ | e1⟩
    · rw [hb] at h; exact ih r1 e h
    · rw [hb] at h
      simp only [Option.some.injEq] at h
      subst h
      exact hP x r e1 (by rw [hb])

/-- No round of the loop of `Drawing.UnmarshalXML` returns an error. -/
theorem Drawing_body_ret (tt : StartElement) (r : Drawing) (d : Decoder) (r2 : Drawing) (d2 : Decoder)
    (e : Error) (h : Drawing.body tt r d = .ret r2 d2 e) : False := by
  unfold Drawing.body at h
  by_cases h0 : tt.Name.Local = "inline"
  · rw [if_pos h0] at h
    cases h
  rw [if_neg h0] at h
  by_cases h1 : tt.Name.Local = "anchor"
  · rw [if_pos h1] at h
    cases h
  rw [if_neg h1] at h
  cases h

/-- No round of the loop of `AGraphic.UnmarshalXML` returns an error. -/
theorem AGraphic_body_ret (tt : StartElement) (r : AGraphic) (d : Decoder) (r2 : AGraphic) (d2 : Decoder)
    (e : Error) (h : AGraphic.body tt r d = .ret r2 d2 e) : False := by
  unfold AGraphic.body at h
  by_cases h0 : tt.Name.Local = "graphicData"
  · rw [if_pos h0] at h
    cases h
  rw [if_neg h0] at h
  cases h

/-- No round of the loop of `AGraphicData.UnmarshalXML` returns an error. -/
theorem AGraphicData_body_ret (tt : StartElement) (r : AGraphicData) (d : Decoder) (r2 : AGraphicData) (d2 : Decoder)
    (e : Error) (h : AGraphicData.body tt r d = .ret r2 d2 e) : False := by
  unfold AGraphicData.body at h
  by_cases h0 : tt.Name.Local = "pic"
  · rw [if_pos h0] at h
    cases h
  rw [if_neg h0] at h
  cases h

/-- No round of the loop of `PICPic.UnmarshalXML` returns an error. -/
theorem PICPic_body_ret (tt : StartElement) (r : PICPic) (d : Decoder) (r2 : PICPic) (d2 : Decoder)
    (e : Error) (h : PICPic.body tt r d = .ret r2 d2 e) : False := by
  unfold PICPic.body at h
  by_cases h0 : tt.Name.Local = "nvPicPr"
  · rw [if_pos h0] at h
    cases h
  rw [if_neg h0] at h
  by_cases h1 : tt.Name.Local = "blipFill"
  · rw [if_pos h1] at h
    cases h
  rw [if_neg h1] at h
  by_cases h2 : tt.Name.Local = "spPr"
  · rw [if_pos h2] at h
    cases h
  rw [if_neg h2] at h
  cases h

/-- No round of the loop of `PICBlipFill.UnmarshalXML` returns an error. -/
theorem PICBlipFill_body_ret (tt : StartElement) (r : PICBlipFill) (d : Decoder) (r2 : PICBlipFill) (d2 : Decoder)
    (e : Error) (h : PICBlipFill.body tt r d = .ret r2 d2 e) : False := by
  unfold PICBlipFill.body at h
  by_cases h0 : tt.Name.Local = "blip"
  · rw [if_pos h0] at h
    cases h
  rw [if_neg h0] at h
  by_cases h1 : tt.Name.Local = "stretch"
  · rw [if_pos h1] at h
    cases h
  rw [if_neg h1] at h
  cases h

/-- No round of the loop of `PICSpPr.UnmarshalXML` returns an error. -/
theorem PICSpPr_body_ret (tt : StartElement) (r : PICSpPr) (d : Decoder) (r2 : PICSpPr) (d2 : Decoder)
    (e : Error) (h : PICSpPr.body tt r d = .ret r2 d2 e) : False := by
  unfold PICSpPr.body at h
  by_cases h0 : tt.Name.Local = "xfrm"
  · rw [if_pos h0] at h
    cases h
  rw [if_neg h0] at h
  by_cases h1 : tt.Name.Local = "prstGeom"
  · rw [if_pos h1] at h
    cases h
  rw [if_neg h1] at h
  cases h

/-- No round of the loop of `Hyperlink.UnmarshalXML` returns an error. -/
theorem Hyperlink_body_ret {Run : Type} (run : Run → Decoder → StartElement → Outcome Run)
    (tt : StartElement) (r : Hyperlink Run) (d : Decoder) (r2 : Hyperlink Run) (d2 : Decoder)
    (e : Error) (h : Hyperlink.body run tt r d = .ret r2 d2 e) : False := by
  unfold Hyperlink.body at h
  by_cases h0 : tt.Name.Local = "r"
  · rw [if_pos h0] at h
    cases h
  rw [if_neg h0] at h
  cases h

/-- The errors a round of the loop of `WPInline.UnmarshalXML` returns are those
of `strconv`. -/
theorem WPInline_body_ret (tt : StartElement) (r : WPInline) (d : Decoder) (r2 : WPInline) (d2 : Decoder)
    (e : Error) (h : WPInline.body tt r d = .ret r2 d2 e) : e.isNum = true := by
  unfold WPInline.body at h
  by_cases h0 : tt.Name.Local = "extent"
  · rw [if_pos h0] at h
    (try dsimp only at h)
    repeat' split at h
    all_goals (cases h)
    all_goals first | exact ParseInt_err_of_eq (by assumption) | exact Atoi_err_of_eq (by assumption)
  rw [if_neg h0] at h
  by_cases h1 : tt.Name.Local = "effectExtent"
  · rw [if_pos h1] at h
    (try dsimp only at h)
    repeat' split at h
    all_goals (cases h)
    all_goals first | exact ParseInt_err_of_eq (by assumption) | exact Atoi_err_of_eq (by assumption)
  rw [if_neg h1] at h
  by_cases h2 : tt.Name.Local = "docPr"
  · rw [if_pos h2] at h
    (try dsimp only at h)
    repeat' split at h
    all_goals (cases h)
    all_goals first | exact ParseInt_err_of_eq (by assumption) | exact Atoi_err_of_eq (by assumption)
  rw [if_neg h2] at h
  by_cases h3 : tt.Name.Local = "cNvGraphicFramePr"
  · rw [if_pos h3] at h
    (try dsimp only at h)
    repeat' split at h
    all_goals (cases h)
    all_goals first | exact ParseInt_err_of_eq (by assumption) | exact Atoi_err_of_eq (by assumption)
  rw [if_neg h3] at h
  by_cases h4 : tt.Name.Local = "graphic"
  · rw [if_pos h4] at h
    (try dsimp only at h)
    repeat' split at h
    all_goals (cases h)
    all_goals first | exact ParseInt_err_of_eq (by assumption) | exact Atoi_err_of_eq (by assumption)
  rw [if_neg h4] at h
  cases h

/-- The errors a round of the loop of `WPAnchor.UnmarshalXML` returns are those
of `strconv`. -/
theorem WPAnchor_body_ret (tt : StartElement) (r : WPAnchor) (d : Decoder) (r2 : WPAnchor) (d2 : Decoder)
    (e : Error) (h : WPAnchor.body tt r d = .ret r2 d2 e) : e.isNum = true := by
  unfold WPAnchor.body at h
  by_cases h0 : tt.Name.Local = "simplePos"
  · rw [if_pos h0] at h
    (try dsimp only at h)
    repeat' split at h
    all_goals (cases h)
    all_goals first | exact ParseInt_err_of_eq (by assumption) | exact Atoi_err_of_eq (by assumption)
  rw [if_neg h0] at h
  by_cases h1 : tt.Name.Local = "positionH"
  · rw [if_pos h1] at h
    (try dsimp only at h)
    repeat' split at h
    all_goals (cases h)
    all_goals first | exact ParseInt_err_of_eq (by assumption) | exact Atoi_err_of_eq (by assumption)
  rw [if_neg h1] at h
  by_cases h2 : tt.Name.Local = "positionV"
  · rw [if_pos h2] at h
    (try dsimp only at h)
    repeat' split at h
    all_goals (cases h)
    all_goals first | exact ParseInt_err_of_eq (by assumption) | exact Atoi_err_of_eq (by assumption)
  rw [if_neg h2] at h
  by_cases h3 : tt.Name.Local = "extent"
  · rw [if_pos h3] at h
    (try dsimp only at h)
    repeat' split at h
    all_goals (cases h)
    all_goals first | exact ParseInt_err_of_eq (by assumption) | exact Atoi_err_of_eq (by assumption)
  rw [if_neg h3] at h
  by_cases h4 : tt.Name.Local = "effectExtent"
  · rw [if_pos h4] at h
    (try dsimp only at h)
    repeat' split at h
    all_goals (cases h)
    all_goals first | exact ParseInt_err_of_eq (by assumption) | exact Atoi_err_of_eq (by assumption)
  rw [if_neg h4] at h
  by_cases h5 : tt.Name.Local = "wrapNone"
  · rw [if_pos h5] at h
    (try dsimp only at h)
    repeat' split at h
    all_goals (cases h)
    all_goals first | exact ParseInt_err_of_eq (by assumption) | exact Atoi_err_of_eq (by assumption)
  rw [if_neg h5] at h
  by_cases h6 : tt.Name.Local = "wrapSquare"
  · rw [if_pos h6] at h
    (try dsimp only at h)
    repeat' split at h
    all_goals (cases h)
    all_goals first | exact ParseInt_err_of_eq (by assumption) | exact Atoi_err_of_eq (by assumption)
  rw [if_neg h6] at h
  by_cases h7 : tt.Name.Local = "docPr"
  · rw [if_pos h7] at h
    (try dsimp only at h)
    repeat' split at h
    all_goals (cases h)
    all_goals first | exact ParseInt_err_of_eq (by assumption) | exact Atoi_err_of_eq (by assumption)
  rw [if_neg h7] at h
  by_cases h8 : tt.Name.Local = "cNvGraphicFramePr"
  · rw [if_pos h8] at h
    (try dsimp only at h)
    repeat' split at h
    all_goals (cases h)
    all_goals first | exact ParseInt_err_of_eq (by assumption) | exact Atoi_err_of_eq (by assumption)
  rw [if_neg h8] at h
  by_cases h9 : tt.Name.Local = "graphic"
  · rw [if_pos h9] at h
    (try dsimp only at h)
    repeat' split at h
    all_goals (cases h)
    all_goals first | exact ParseInt_err_of_eq (by assumption) | exact Atoi_err_of_eq (by assumption)
  rw [if_neg h9] at h
  cases h

/-- The errors a round of the loop of `WPCNvGraphicFramePr.UnmarshalXML` returns are those
of `strconv`. -/
theorem WPCNvGraphicFramePr_body_ret (tt : StartElement) (r : WPCNvGraphicFramePr) (d : Decoder) (r2 : WPCNvGraphicFramePr) (d2 : Decoder)
    (e : Error) (h : WPCNvGraphicFramePr.body tt r d = .ret r2 d2 e) : e.isNum = true := by
  unfold WPCNvGraphicFramePr.body at h
  by_cases h0 : tt.Name.Local = "graphicFrameLocks"
  · rw [if_pos h0] at h
    (try dsimp only at h)
    repeat' split at h
    all_goals (cases h)
    all_goals first | exact ParseInt_err_of_eq (by assumption) | exact Atoi_err_of_eq (by assumption)
  rw [if_neg h0] at h
  cases h

theorem not_literal_of_decimalInt_none {s : String} (h : decimalInt s = none) :
    ¬ ∃ n, IsInt64Literal s n := by
  rintro ⟨n, h1, _⟩
  rw [h] at h1
  cases h1

/-- C2: for each of the decoders `WPInline`, `WPAnchor`, `WPExtent`,
`WPEffectExtent`, `WPDocPr` and `AXfrm`, every record, decoder state and
start-element: if some attribute whose local name is one of the decoder's
numeric attributes has a value that is not the base-10 literal of a signed
64-bit integer, `UnmarshalXML` returns an error, and the error is one of
`strconv`. -/
theorem C2_malformed_numeric_attribute :
    (∀ (r : WPInline) (d : Decoder) (start : StartElement),
      (∃ a ∈ start.Attr, a.Name.Local ∈ WPInline.numericAttrs ∧ ¬ ∃ n, IsInt64Literal a.Value n) →
      ∃ e, (WPInline.UnmarshalXML r d start).err = some e ∧ e.isNum = true) ∧
    (∀ (r : WPAnchor) (d : Decoder) (start : StartElement),
      (∃ a ∈ start.Attr, a.Name.Local ∈ WPAnchor.numericAttrs ∧ ¬ ∃ n, IsInt64Literal a.Value n) →
      ∃ e, (WPAnchor.UnmarshalXML r d start).err = some e ∧ e.isNum = true) ∧
    (∀ (r : WPExtent) (d : Decoder) (start : StartElement),
      (∃ a ∈ start.Attr, a.Name.Local ∈ WPExtent.numericAttrs ∧ ¬ ∃ n, IsInt64Literal a.Value n) →
      ∃ e, (WPExtent.UnmarshalXML r d start).err = some e ∧ e.isNum = true) ∧
    (∀ (r : WPEffectExtent) (d : Decoder) (start : StartElement),
      (∃ a ∈ start.Attr, a.Name.Local ∈ WPEffectExtent.numericAttrs ∧ ¬ ∃ n, IsInt64Literal a.Value n) →
      ∃ e, (WPEffectExtent.UnmarshalXML r d start).err = some e ∧ e.isNum = true) ∧
    (∀ (r : WPDocPr) (d : Decoder) (start : StartElement),
      (∃ a ∈ start.Attr, a.Name.Local ∈ WPDocPr.numericAttrs ∧ ¬ ∃ n, IsInt64Literal a.Value n) →
      ∃ e, (WPDocPr.UnmarshalXML r d start).err = some e ∧ e.isNum = true) ∧
    (∀ (r : AXfrm) (d : Decoder) (start : StartElement),
      (∃ a ∈ start.Attr, a.Name.Local ∈ AXfrm.numericAttrs ∧ ¬ ∃ n, IsInt64Literal a.Value n) →
      ∃ e, (AXfrm.UnmarshalXML r d start).err = some e ∧ e.isNum = true) :=
  ⟨WPInline_UnmarshalXML_err_of_bad, WPAnchor_UnmarshalXML_err_of_bad, WPExtent_UnmarshalXML_err_of_bad, WPEffectExtent_UnmarshalXML_err_of_bad, WPDocPr_UnmarshalXML_err_of_bad, AXfrm_UnmarshalXML_err_of_bad⟩

/-- C2 at an extent start-element with `cx="abc"`. -/
theorem C2_malformed_numeric_attribute_witness :
    (∃ a ∈ [(⟨⟨"", "cx"⟩, "abc"⟩ : Attr)], a.Name.Local ∈ WPExtent.numericAttrs ∧
        ¬ ∃ n, IsInt64Literal a.Value n) ∧
      ∃ e, (WPExtent.UnmarshalXML {} ⟨[.EndElement ⟨"", "extent"⟩], none,
          [.stkStart ⟨"", "extent"⟩, .stkEOF]⟩ ⟨⟨"", "extent"⟩, [⟨⟨"", "cx"⟩, "abc"⟩]⟩).err
        = some e ∧ e.isNum = true :=
  ⟨⟨⟨⟨"", "cx"⟩, "abc"⟩, by simp, by decide, not_literal_of_decimalInt_none (by decide)⟩,
    C2_malformed_numeric_attribute.2.2.1 {} ⟨[.EndElement ⟨"", "extent"⟩], none,
        [.stkStart ⟨"", "extent"⟩, .stkEOF]⟩ ⟨⟨"", "extent"⟩, [⟨⟨"", "cx"⟩, "abc"⟩]⟩
      ⟨⟨⟨"", "cx"⟩, "abc"⟩, by simp, by decide, not_literal_of_decimalInt_none (by decide)⟩⟩

theorem ParseInt_lit_of_eq {s : String} {v : Int}
    (h : strconv.ParseInt s 10 64 = (v, none)) : ∃ n, IsInt64Literal s n :=
  (ParseInt_none_iff s 64 (Or.inr rfl)).1 (by rw [h])

theorem Atoi_lit_of_eq {s : String} {v : Int}
    (h : strconv.Atoi s = (v, none)) : ∃ n, IsInt64Literal s n :=
  (Atoi_none_iff s).1 (by rw [h])

/-- The round of the loop of `WPInline.UnmarshalXML` on a `extent` start-element goes
on to the next token only if the attributes it reads are integer literals. -/
theorem WPInline_body_extent_next (tt : StartElement) (r : WPInline) (d : Decoder) (r2 : WPInline)
    (d2 : Decoder) (hc : tt.Name.Local = "extent") (h : WPInline.body tt r d = .next r2 d2) :
    (∃ n, IsInt64Literal (getAtt tt.Attr "cx") n) ∧ (∃ n, IsInt64Literal (getAtt tt.Attr "cy") n) := by
  unfold WPInline.body at h
  rw [if_pos hc] at h
  (try dsimp only at h)
  repeat' split at h
  all_goals (cases h)
  all_goals exact ⟨ParseInt_lit_of_eq (by assumption), ParseInt_lit_of_eq (by assumption)⟩

theorem WPInline_body_extent_bad (tt : StartElement) (r : WPInline) (d : Decoder)
    (hc : tt.Name.Local = "extent")
    (hbad : ∃ a ∈ ["cx", "cy"], ¬ ∃ n, IsInt64Literal (getAtt tt.Attr a) n) :
    ∃ r2 d2 e, WPInline.body tt r d = .ret r2 d2 e ∧ e.isNum = true := by
  rcases hb : WPInline.body tt r d with ⟨r2, d2⟩ | ⟨r2, d2, e⟩
  · exfalso
    have h := WPInline_body_extent_next tt r d r2 d2 hc hb
    obtain ⟨a, ha, hn⟩ := hbad
    simp only [List.mem_cons, List.mem_singleton, List.not_mem_nil, or_false] at ha
    rcases ha with rfl | rfl
    · exact hn h.1
    · exact hn h.2
  · exact ⟨r2, d2, e, rfl, WPInline_body_ret tt r d r2 d2 e hb⟩

/-- The round of the loop of `WPInline.UnmarshalXML` on a `effectExtent` start-element goes
on to the next token only if the attributes it reads are integer literals. -/
theorem WPInline_body_effectExtent_next (tt : StartElement) (r : WPInline) (d : Decoder) (r2 : WPInline)
    (d2 : Decoder) (hc : tt.Name.Local = "effectExtent") (h : WPInline.body tt r d = .next r2 d2) :
    (∃ n, IsInt64Literal (getAtt tt.Attr "l") n) ∧ (∃ n, IsInt64Literal (getAtt tt.Attr "t") n) ∧ (∃ n, IsInt64Literal (getAtt tt.Attr "r") n) ∧ (∃ n, IsInt64Literal (getAtt tt.Attr "b") n) := by
  unfold WPInline.body at h
  rw [if_neg (by rw [hc]; decide)] at h
  rw [if_pos hc] at h
  (try dsimp only at h)
  repeat' split at h
  all_goals (cases h)
  all_goals exact ⟨ParseInt_lit_of_eq (by assumption), ParseInt_lit_of_eq (by assumption), ParseInt_lit_of_eq (by assumption), ParseInt_lit_of_eq (by assumption)⟩

theorem WPInline_body_effectExtent_bad (tt : StartElement) (r : WPInline) (d : Decoder)
    (hc : tt.Name.Local = "effectExtent")
    (hbad : ∃ a ∈ ["l", "t", "r", "b"], ¬ ∃ n, IsInt64Literal (getAtt tt.Attr a) n) :
    ∃ r2 d2 e, WPInline.body tt r d = .ret r2 d2 e ∧ e.isNum = true := by
  rcases hb : WPInline.body tt r d with ⟨r2, d2⟩ | ⟨r2, d2, e⟩
  · exfalso
    have h := WPInline_body_effectExtent_next tt r d r2 d2 hc hb
    obtain ⟨a, ha, hn⟩ := hbad
    simp only [List.mem_cons, List.mem_singleton, List.not_mem_nil, or_false] at ha
    rcases ha with rfl | rfl | rfl | rfl
    · exact hn h.1
    · exact hn h.2.1
    · exact hn h.2.2.1
    · exact hn h.2.2.2
  · exact ⟨r2, d2, e, rfl, WPInline_body_ret tt r d r2 d2 e hb⟩

/-- The round of the loop of `WPAnchor.UnmarshalXML` on a `simplePos` start-element goes
on to the next token only if the attributes it reads are integer literals. -/
theorem WPAnchor_body_simplePos_next (tt : StartElement) (r : WPAnchor) (d : Decoder) (r2 : WPAnchor)
    (d2 : Decoder) (hc : tt.Name.Local = "simplePos") (h : WPAnchor.body tt r d = .next r2 d2) :
    (∃ n, IsInt64Literal (getAtt tt.Attr "x") n) ∧ (∃ n, IsInt64Literal (getAtt tt.Attr "y") n) := by
  unfold WPAnchor.body at h
  rw [if_pos hc] at h
  (try dsimp only at h)
  repeat' split at h
  all_goals (cases h)
  all_goals exact ⟨ParseInt_lit_of_eq (by assumption), ParseInt_lit_of_eq (by assumption)⟩

theorem WPAnchor_body_simplePos_bad (tt : StartElement) (r : WPAnchor) (d : Decoder)
    (hc : tt.Name.Local = "simplePos")
    (hbad : ∃ a ∈ ["x", "y"], ¬ ∃ n, IsInt64Literal (getAtt tt.Attr a) n) :
    ∃ r2 d2 e, WPAnchor.body tt r d = .ret r2 d2 e ∧ e.isNum = true := by
  rcases hb : WPAnchor.body tt r d with ⟨r2, d2⟩ | ⟨r2, d2, e⟩
  · exfalso
    have h := WPAnchor_body_simplePos_next tt r d r2 d2 hc hb
    obtain ⟨a, ha, hn⟩ := hbad
    simp only [List.mem_cons, List.mem_singleton, List.not_mem_nil, or_false] at ha
    rcases ha with rfl | rfl
    · exact hn h.1
    · exact hn h.2
  · exact ⟨r2, d2, e, rfl, WPAnchor_body_ret tt r d r2 d2 e hb⟩

/-- The round of the loop of `WPCNvGraphicFramePr.UnmarshalXML` on a `graphicFrameLocks` start-element goes
on to the next token only if the attributes it reads are integer literals. -/
theorem WPCNvGraphicFramePr_body_graphicFrameLocks_next (tt : StartElement) (r : WPCNvGraphicFramePr) (d : Decoder) (r2 : WPCNvGraphicFramePr)
    (d2 : Decoder) (hc : tt.Name.Local = "graphicFrameLocks") (h : WPCNvGraphicFramePr.body tt r d = .next r2 d2) :
    (∃ n, IsInt64Literal (getAtt tt.Attr "noChangeAspect") n) := by
  unfold WPCNvGraphicFramePr.body at h
  rw [if_pos hc] at h
  (try dsimp only at h)
  repeat' split at h
  all_goals (cases h)
  all_goals exact Atoi_lit_of_eq (by assumption)

theorem WPCNvGraphicFramePr_body_graphicFrameLocks_bad (tt : StartElement) (r : WPCNvGraphicFramePr) (d : Decoder)
    (hc : tt.Name.Local = "graphicFrameLocks")
    (hbad : ∃ a ∈ ["noChangeAspect"], ¬ ∃ n, IsInt64Literal (getAtt tt.Attr a) n) :
    ∃ r2 d2 e, WPCNvGraphicFramePr.body tt r d = .ret r2 d2 e ∧ e.isNum = true := by
  rcases hb : WPCNvGraphicFramePr.body tt r d with ⟨r2, d2⟩ | ⟨r2, d2, e⟩
  · exfalso
    have h := WPCNvGraphicFramePr_body_graphicFrameLocks_next tt r d r2 d2 hc hb
    obtain ⟨a, ha, hn⟩ := hbad
    simp only [List.mem_cons, List.mem_singleton, List.not_mem_nil, or_false] at ha
    rcases ha with rfl
    · exact hn h
  · exact ⟨r2, d2, e, rfl, WPCNvGraphicFramePr_body_ret tt r d r2 d2 e hb⟩

/-- C1: the code at the two witnesses of the claim.  A drawing whose inline child
carries `distT="abc"`: the decode of the inline child fails, and
`Drawing.UnmarshalXML` returns nil where the claim has it return an error.  An
anchor whose extent child carries `cx="abc"`: the decode of the extent child
fails, and `WPAnchor.UnmarshalXML` returns nil.  In both the result of
`d.DecodeElement` is dropped, whereas `WPInline.UnmarshalXML` returns the error
of the same extent child, which it reads in place. -/
theorem C1_nested_error_dropped :
    ((WPInline.UnmarshalXML {}
        ⟨[.EndElement ⟨"", "inline"⟩, .EndElement ⟨"", "drawing"⟩], none,
          [.stkStart ⟨"", "inline"⟩, .stkEOF, .stkStart ⟨"", "drawing"⟩, .stkEOF]⟩
        ⟨⟨"", "inline"⟩, [⟨⟨"", "distT"⟩, "abc"⟩]⟩).err ≠ none ∧
      (Drawing.UnmarshalXML {}
        ⟨[.StartElement ⟨⟨"", "inline"⟩, [⟨⟨"", "distT"⟩, "abc"⟩]⟩, .EndElement ⟨"", "inline"⟩,
          .EndElement ⟨"", "drawing"⟩], none, [.stkStart ⟨"", "drawing"⟩, .stkEOF]⟩
        ⟨⟨"", "drawing"⟩, []⟩).err = none) ∧
    ((WPExtent.UnmarshalXML {}
        ⟨[.EndElement ⟨"", "extent"⟩, .EndElement ⟨"", "anchor"⟩], none,
          [.stkStart ⟨"", "extent"⟩, .stkEOF, .stkStart ⟨"", "anchor"⟩, .stkEOF]⟩
        ⟨⟨"", "extent"⟩, [⟨⟨"", "cx"⟩, "abc"⟩]⟩).err ≠ none ∧
      (WPAnchor.UnmarshalXML {}
        ⟨[.StartElement ⟨⟨"", "extent"⟩, [⟨⟨"", "cx"⟩, "abc"⟩]⟩, .EndElement ⟨"", "extent"⟩,
          .EndElement ⟨"", "anchor"⟩], none, [.stkStart ⟨"", "anchor"⟩, .stkEOF]⟩
        ⟨⟨"", "anchor"⟩, []⟩).err = none ∧
      (WPInline.UnmarshalXML {}
        ⟨[.StartElement ⟨⟨"", "extent"⟩, [⟨⟨"", "cx"⟩, "abc"⟩]⟩, .EndElement ⟨"", "extent"⟩,
          .EndElement ⟨"", "inline"⟩], none, [.stkStart ⟨"", "inline"⟩, .stkEOF]⟩
        ⟨⟨"", "inline"⟩, []⟩).err ≠ none) := by
  decide

/-- The value of a field `π` that the rounds of an attribute loop write for the
attributes of local name `name` only: that of the attributes of this name,
when there is one and all of them carry the same value. -/
theorem foldl_attr_field {α β : Type} (f : Attr → α → α) (π : α → β) (name : String)
    (val : Attr → β)
    (hset : ∀ (a : Attr) (r : α), a.Name.Local = name → π (f a r) = val a)
    (hkeep : ∀ (a : Attr) (r : α), a.Name.Local ≠ name → π (f a r) = π r) (n : β) :
    ∀ (attrs : List Attr) (r : α), (∀ a ∈ attrs, a.Name.Local = name → val a = n) →
      (∃ a ∈ attrs, a.Name.Local = name) → π (attrs.foldl (fun r a => f a r) r) = n := by
  intro attrs
  induction attrs using List.reverseRecOn with
  | nil => intro r _ h; simp at h
  | append_singleton xs x ih =>
    intro r hall hex
    rw [List.foldl_append, List.foldl_cons, List.foldl_nil]
    by_cases hx : x.Name.Local = name
    · rw [hset x _ hx]
      exact hall x (by simp) hx
    · rw [hkeep x _ hx]
      refine ih r (fun a ha => hall a (by simp [ha])) ?_
      obtain ⟨a, ha, hn⟩ := hex
      rcases List.mem_append.1 ha with h | h
      · exact ⟨a, h, hn⟩
      · simp only [List.mem_singleton] at h
        subst h
        exact absurd hn hx

theorem WPExtent_attr_set_CX (a : Attr) (r : WPExtent) (h : a.Name.Local = "cx") :
    (WPExtent.attr a r).1.CX = (strconv.ParseInt a.Value 10 64).1 := by
  unfold WPExtent.attr
  rw [if_pos h]

theorem WPExtent_attr_keep_CX (a : Attr) (r : WPExtent) (h : a.Name.Local ≠ "cx") :
    (WPExtent.attr a r).1.CX = r.CX := by
  unfold WPExtent.attr
  by_cases h0 : a.Name.Local = "cx"
  · exact absurd h0 h
  rw [if_neg h0]
  by_cases h1 : a.Name.Local = "cy"
  · rw [if_pos h1]
  rw [if_neg h1]

/-- The field `CX` after the attribute loop of `WPExtent.UnmarshalXML`, when the
start-element carries the attribute `cx` and its value is the literal of `n`. -/
theorem WPExtent_attrs_CX (attrs : List Attr) (r : WPExtent) (n : Int)
    (h : ∀ a ∈ attrs, a.Name.Local = "cx" → IsInt64Literal a.Value n)
    (hex : ∃ a ∈ attrs, a.Name.Local = "cx") :
    (attrs.foldl (fun r a => (WPExtent.attr a r).1) r).CX = n :=
  foldl_attr_field (fun a r => (WPExtent.attr a r).1) (fun r => r.CX) "cx"
    (fun a => (strconv.ParseInt a.Value 10 64).1) WPExtent_attr_set_CX WPExtent_attr_keep_CX n attrs r
    (fun a ha hn => by show (_ : Int × Option Error).1 = n; rw [(ParseInt_ok_iff a.Value 64 n (Or.inr rfl)).2 (h a ha hn)]) hex

theorem WPExtent_attr_set_CY (a : Attr) (r : WPExtent) (h : a.Name.Local = "cy") :
    (WPExtent.attr a r).1.CY = (strconv.ParseInt a.Value 10 64).1 := by
  unfold WPExtent.attr
  rw [if_neg (by rw [h]; decide)]
  rw [if_pos h]

theorem WPExtent_attr_keep_CY (a : Attr) (r : WPExtent) (h : a.Name.Local ≠ "cy") :
    (WPExtent.attr a r).1.CY = r.CY := by
  unfold WPExtent.attr
  by_cases h0 : a.Name.Local = "cx"
  · rw [if_pos h0]
  rw [if_neg h0]
  by_cases h1 : a.Name.Local = "cy"
  · exact absurd h1 h
  rw [if_neg h1]

/-- The field `CY` after the attribute loop of `WPExtent.UnmarshalXML`, when the
start-element carries the attribute `cy` and its value is the literal of `n`. -/
theorem WPExtent_attrs_CY (attrs : List Attr) (r : WPExtent) (n : Int)
    (h : ∀ a ∈ attrs, a.Name.Local = "cy" → IsInt64Literal a.Value n)
    (hex : ∃ a ∈ attrs, a.Name.Local = "cy") :
    (attrs.foldl (fun r a => (WPExtent.attr a r).1) r).CY = n :=
  foldl_attr_field (fun a r => (WPExtent.attr a r).1) (fun r => r.CY) "cy"
    (fun a => (strconv.ParseInt a.Value 10 64).1) WPExtent_attr_set_CY WPExtent_attr_keep_CY n attrs r
    (fun a ha hn => by show (_ : Int × Option Error).1 = n; rw [(ParseInt_ok_iff a.Value 64 n (Or.inr rfl)).2 (h a ha hn)]) hex

theorem WPEffectExtent_attr_set_L (a : Attr) (r : WPEffectExtent) (h : a.Name.Local = "l") :
    (WPEffectExtent.attr a r).1.L = (strconv.ParseInt a.Value 10 64).1 := by
  unfold WPEffectExtent.attr
  rw [if_pos h]

theorem WPEffectExtent_attr_keep_L (a : Attr) (r : WPEffectExtent) (h : a.Name.Local ≠ "l") :
    (WPEffectExtent.attr a r).1.L = r.L := by
  unfold WPEffectExtent.attr
  by_cases h0 : a.Name.Local = "l"
  · exact absurd h0 h
  rw [if_neg h0]
  by_cases h1 : a.Name.Local = "t"
  · rw [if_pos h1]
  rw [if_neg h1]
  by_cases h2 : a.Name.Local = "r"
  · rw [if_pos h2]
  rw [if_neg h2]
  by_cases h3 : a.Name.Local = "b"
  · rw [if_pos h3]
  rw [if_neg h3]

/-- The field `L` after the attribute loop of `WPEffectExtent.UnmarshalXML`, when the
start-element carries the attribute `l` and its value is the literal of `n`. -/
theorem WPEffectExtent_attrs_L (attrs : List Attr) (r : WPEffectExtent) (n : Int)
    (h : ∀ a ∈ attrs, a.Name.Local = "l" → IsInt64Literal a.Value n)
    (hex : ∃ a ∈ attrs, a.Name.Local = "l") :
    (attrs.foldl (fun r a => (WPEffectExtent.attr a r).1) r).L = n :=
  foldl_attr_field (fun a r => (WPEffectExtent.attr a r).1) (fun r => r.L) "l"
    (fun a => (strconv.ParseInt a.Value 10 64).1) WPEffectExtent_attr_set_L WPEffectExtent_attr_keep_L n attrs r
    (fun a ha hn => by show (_ : Int × Option Error).1 = n; rw [(ParseInt_ok_iff a.Value 64 n (Or.inr rfl)).2 (h a ha hn)]) hex

theorem WPEffectExtent_attr_set_T (a : Attr) (r : WPEffectExtent) (h : a.Name.Local = "t") :
    (WPEffectExtent.attr a r).1.T = (strconv.ParseInt a.Value 10 64).1 := by
  unfold WPEffectExtent.attr
  rw [if_neg (by rw [h]; decide)]
  rw [if_pos h]

theorem WPEffectExtent_attr_keep_T (a : Attr) (r : WPEffectExtent) (h : a.Name.Local ≠ "t") :
    (WPEffectExtent.attr a r).1.T = r.T := by
  unfold WPEffectExtent.attr
  by_cases h0 : a.Name.Local = "l"
  · rw [if_pos h0]
  rw [if_neg h0]
  by_cases h1 : a.Name.Local = "t"
  · exact absurd h1 h
  rw [if_neg h1]
  by_cases h2 : a.Name.Local = "r"
  · rw [if_pos h2]
  rw [if_neg h2]
  by_cases h3 : a.Name.Local = "b"
  · rw [if_pos h3]
  rw [if_neg h3]

/-- The field `T` after the attribute loop of `WPEffectExtent.UnmarshalXML`, when the
start-element carries the attribute `t` and its value is the literal of `n`. -/
theorem WPEffectExtent_attrs_T (attrs : List Attr) (r : WPEffectExtent) (n : Int)
    (h : ∀ a ∈ attrs, a.Name.Local = "t" → IsInt64Literal a.Value n)
    (hex : ∃ a ∈ attrs, a.Name.Local = "t") :
    (attrs.foldl (fun r a => (WPEffectExtent.attr a r).1) r).T = n :=
  foldl_attr_field (fun a r => (WPEffectExtent.attr a r).1) (fun r => r.T) "t"
    (fun a => (strconv.ParseInt a.Value 10 64).1) WPEffectExtent_attr_set_T WPEffectExtent_attr_keep_T n attrs r
    (fun a ha hn => by show (_ : Int × Option Error).1 = n; rw [(ParseInt_ok_iff a.Value 64 n (Or.inr rfl)).2 (h a ha hn)]) hex

theorem WPEffectExtent_attr_set_R (a : Attr) (r : WPEffectExtent) (h : a.Name.Local = "r") :
    (WPEffectExtent.attr a r).1.R = (strconv.ParseInt a.Value 10 64).1 := by
  unfold WPEffectExtent.attr
  rw [if_neg (by rw [h]; decide)]
  rw [if_neg (by rw [h]; decide)]
  rw [if_pos h]

theorem WPEffectExtent_attr_keep_R (a : Attr) (r : WPEffectExtent) (h : a.Name.Local ≠ "r") :
    (WPEffectExtent.attr a r).1.R = r.R := by
  unfold WPEffectExtent.attr
  by_cases h0 : a.Name.Local = "l"
  · rw [if_pos h0]
  rw [if_neg h0]
  by_cases h1 : a.Name.Local = "t"
  · rw [if_pos h1]
  rw [if_neg h1]
  by_cases h2 : a.Name.Local = "r"
  · exact absurd h2 h
  rw [if_neg h2]
  by_cases h3 : a.Name.Local = "b"
  · rw [if_pos h3]
  rw [if_neg h3]

/-- The field `R` after the attribute loop of `WPEffectExtent.UnmarshalXML`, when the
start-element carries the attribute `r` and its value is the literal of `n`. -/
theorem WPEffectExtent_attrs_R (attrs : List Attr) (r : WPEffectExtent) (n : Int)
    (h : ∀ a ∈ attrs, a.Name.Local = "r" → IsInt64Literal a.Value n)
    (hex : ∃ a ∈ attrs, a.Name.Local = "r") :
    (attrs.foldl (fun r a => (WPEffectExtent.attr a r).1) r).R = n :=
  foldl_attr_field (fun a r => (WPEffectExtent.attr a r).1) (fun r => r.R) "r"
    (fun a => (strconv.ParseInt a.Value 10 64).1) WPEffectExtent_attr_set_R WPEffectExtent_attr_keep_R n attrs r
    (fun a ha hn => by show (_ : Int × Option Error).1 = n; rw [(ParseInt_ok_iff a.Value 64 n (Or.inr rfl)).2 (h a ha hn)]) hex

theorem WPEffectExtent_attr_set_B (a : Attr) (r : WPEffectExtent) (h : a.Name.Local = "b") :
    (WPEffectExtent.attr a r).1.B = (strconv.ParseInt a.Value 10 64).1 := by
  unfold WPEffectExtent.attr
  rw [if_neg (by rw [h]; decide)]
  rw [if_neg (by rw [h]; decide)]
  rw [if_neg (by rw [h]; decide)]
  rw [if_pos h]

theorem WPEffectExtent_attr_keep_B (a : Attr) (r : WPEffectExtent) (h : a.Name.Local ≠ "b") :
    (WPEffectExtent.attr a r).1.B = r.B := by
  unfold WPEffectExtent.attr
  by_cases h0 : a.Name.Local = "l"
  · rw [if_pos h0]
  rw [if_neg h0]
  by_cases h1 : a.Name.Local = "t"
  · rw [if_pos h1]
  rw [if_neg h1]
  by_cases h2 : a.Name.Local = "r"
  · rw [if_pos h2]
  rw [if_neg h2]
  by_cases h3 : a.Name.Local = "b"
  · exact absurd h3 h
  rw [if_neg h3]

/-- The field `B` after the attribute loop of `WPEffectExtent.UnmarshalXML`, when the
start-element carries the attribute `b` and its value is the literal of `n`. -/
theorem WPEffectExtent_attrs_B (attrs : List Attr) (r : WPEffectExtent) (n : Int)
    (h : ∀ a ∈ attrs, a.Name.Local = "b" → IsInt64Literal a.Value n)
    (hex : ∃ a ∈ attrs, a.Name.Local = "b") :
    (attrs.foldl (fun r a => (WPEffectExtent.attr a r).1) r).B = n :=
  foldl_attr_field (fun a r => (WPEffectExtent.attr a r).1) (fun r => r.B) "b"
    (fun a => (strconv.ParseInt a.Value 10 64).1) WPEffectExtent_attr_set_B WPEffectExtent_attr_keep_B n attrs r
    (fun a ha hn => by show (_ : Int × Option Error).1 = n; rw [(ParseInt_ok_iff a.Value 64 n (Or.inr rfl)).2 (h a ha hn)]) hex

theorem WPInline_attr_set_DistT (a : Attr) (r : WPInline) (h : a.Name.Local = "distT") :
    (WPInline.attr a r).1.DistT = (strconv.ParseInt a.Value 10 64).1 := by
  unfold WPInline.attr
  rw [if_pos h]

theorem WPInline_attr_keep_DistT (a : Attr) (r : WPInline) (h : a.Name.Local ≠ "distT") :
    (WPInline.attr a r).1.DistT = r.DistT := by
  unfold WPInline.attr
  by_cases h0 : a.Name.Local = "distT"
  · exact absurd h0 h
  rw [if_neg h0]
  by_cases h1 : a.Name.Local = "distB"
  · rw [if_pos h1]
  rw [if_neg h1]
  by_cases h2 : a.Name.Local = "distL"
  · rw [if_pos h2]
  rw [if_neg h2]
  by_cases h3 : a.Name.Local = "distR"
  · rw [if_pos h3]
  rw [if_neg h3]

/-- The field `DistT` after the attribute loop of `WPInline.UnmarshalXML`, when the
start-element carries the attribute `distT` and its value is the literal of `n`. -/
theorem WPInline_attrs_DistT (attrs : List Attr) (r : WPInline) (n : Int)
    (h : ∀ a ∈ attrs, a.Name.Local = "distT" → IsInt64Literal a.Value n)
    (hex : ∃ a ∈ attrs, a.Name.Local = "distT") :
    (attrs.foldl (fun r a => (WPInline.attr a r).1) r).DistT = n :=
  foldl_attr_field (fun a r => (WPInline.attr a r).1) (fun r => r.DistT) "distT"
    (fun a => (strconv.ParseInt a.Value 10 64).1) WPInline_attr_set_DistT WPInline_attr_keep_DistT n attrs r
    (fun a ha hn => by show (_ : Int × Option Error).1 = n; rw [(ParseInt_ok_iff a.Value 64 n (Or.inr rfl)).2 (h a ha hn)]) hex

theorem WPInline_attr_set_DistB (a : Attr) (r : WPInline) (h : a.Name.Local = "distB") :
    (WPInline.attr a r).1.DistB = (strconv.ParseInt a.Value 10 64).1 := by
  unfold WPInline.attr
  rw [if_neg (by rw [h]; decide)]
  rw [if_pos h]

theorem WPInline_attr_keep_DistB (a : Attr) (r : WPInline) (h : a.Name.Local ≠ "distB") :
    (WPInline.attr a r).1.DistB = r.DistB := by
  unfold WPInline.attr
  by_cases h0 : a.Name.Local = "distT"
  · rw [if_pos h0]
  rw [if_neg h0]
  by_cases h1 : a.Name.Local = "distB"
  · exact absurd h1 h
  rw [if_neg h1]
  by_cases h2 : a.Name.Local = "distL"
  · rw [if_pos h2]
  rw [if_neg h2]
  by_cases h3 : a.Name.Local = "distR"
  · rw [if_pos h3]
  rw [if_neg h3]

/-- The field `DistB` after the attribute loop of `WPInline.UnmarshalXML`, when the
start-element carries the attribute `distB` and its value is the literal of `n`. -/
theorem WPInline_attrs_DistB (attrs : List Attr) (r : WPInline) (n : Int)
    (h : ∀ a ∈ attrs, a.Name.Local = "distB" → IsInt64Literal a.Value n)
    (hex : ∃ a ∈ attrs, a.Name.Local = "distB") :
    (attrs.foldl (fun r a => (WPInline.attr a r).1) r).DistB = n :=
  foldl_attr_field (fun a r => (WPInline.attr a r).1) (fun r => r.DistB) "distB"
    (fun a => (strconv.ParseInt a.Value 10 64).1) WPInline_attr_set_DistB WPInline_attr_keep_DistB n attrs r
    (fun a ha hn => by show (_ : Int × Option Error).1 = n; rw [(ParseInt_ok_iff a.Value 64 n (Or.inr rfl)).2 (h a ha hn)]) hex

theorem WPInline_attr_set_DistL (a : Attr) (r : WPInline) (h : a.Name.Local = "distL") :
    (WPInline.attr a r).1.DistL = (strconv.ParseInt a.Value 10 64).1 := by
  unfold WPInline.attr
  rw [if_neg (by rw [h]; decide)]
  rw [if_neg (by rw [h]; decide)]
  rw [if_pos h]

theorem WPInline_attr_keep_DistL (a : Attr) (r : WPInline) (h : a.Name.Local ≠ "distL") :
    (WPInline.attr a r).1.DistL = r.DistL := by
  unfold WPInline.attr
  by_cases h0 : a.Name.Local = "distT"
  · rw [if_pos h0]
  rw [if_neg h0]
  by_cases h1 : a.Name.Local = "distB"
  · rw [if_pos h1]
  rw [if_neg h1]
  by_cases h2 : a.Name.Local = "distL"
  · exact absurd h2 h
  rw [if_neg h2]
  by_cases h3 : a.Name.Local = "distR"
  · rw [if_pos h3]
  rw [if_neg h3]

/-- The field `DistL` after the attribute loop of `WPInline.UnmarshalXML`, when the
start-element carries the attribute `distL` and its value is the literal of `n`. -/
theorem WPInline_attrs_DistL (attrs : List Attr) (r : WPInline) (n : Int)
    (h : ∀ a ∈ attrs, a.Name.Local = "distL" → IsInt64Literal a.Value n)
    (hex : ∃ a ∈ attrs, a.Name.Local = "distL") :
    (attrs.foldl (fun r a => (WPInline.attr a r).1) r).DistL = n :=
  foldl_attr_field (fun a r => (WPInline.attr a r).1) (fun r => r.DistL) "distL"
    (fun a => (strconv.ParseInt a.Value 10 64).1) WPInline_attr_set_DistL WPInline_attr_keep_DistL n attrs r
    (fun a ha hn => by show (_ : Int × Option Error).1 = n; rw [(ParseInt_ok_iff a.Value 64 n (Or.inr rfl)).2 (h a ha hn)]) hex

theorem WPInline_attr_set_DistR (a : Attr) (r : WPInline) (h : a.Name.Local = "distR") :
    (WPInline.attr a r).1.DistR = (strconv.ParseInt a.Value 10 64).1 := by
  unfold WPInline.attr
  rw [if_neg (by rw [h]; decide)]
  rw [if_neg (by rw [h]; decide)]
  rw [if_neg (by rw [h]; decide)]
  rw [if_pos h]

theorem WPInline_attr_keep_DistR (a : Attr) (r : WPInline) (h : a.Name.Local ≠ "distR") :
    (WPInline.attr a r).1.DistR = r.DistR := by
  unfold WPInline.attr
  by_cases h0 : a.Name.Local = "distT"
  · rw [if_pos h0]
  rw [if_neg h0]
  by_cases h1 : a.Name.Local = "distB"
  · rw [if_pos h1]
  rw [if_neg h1]
  by_cases h2 : a.Name.Local = "distL"
  · rw [if_pos h2]
  rw [if_neg h2]
  by_cases h3 : a.Name.Local = "distR"
  · exact absurd h3 h
  rw [if_neg h3]

/-- The field `DistR` after the attribute loop of `WPInline.UnmarshalXML`, when the
start-element carries the attribute `distR` and its value is the literal of `n`. -/
theorem WPInline_attrs_DistR (attrs : List Attr) (r : WPInline) (n : Int)
    (h : ∀ a ∈ attrs, a.Name.Local = "distR" → IsInt64Literal a.Value n)
    (hex : ∃ a ∈ attrs, a.Name.Local = "distR") :
    (attrs.foldl (fun r a => (WPInline.attr a r).1) r).DistR = n :=
  foldl_attr_field (fun a r => (WPInline.attr a r).1) (fun r => r.DistR) "distR"
    (fun a => (strconv.ParseInt a.Value 10 64).1) WPInline_attr_set_DistR WPInline_attr_keep_DistR n attrs r
    (fun a ha hn => by show (_ : Int × Option Error).1 = n; rw [(ParseInt_ok_iff a.Value 64 n (Or.inr rfl)).2 (h a ha hn)]) hex

theorem WPAnchor_attr_set_DistT (a : Attr) (r : WPAnchor) (h : a.Name.Local = "distT") :
    (WPAnchor.attr a r).1.DistT = (strconv.ParseInt a.Value 10 64).1 := by
  unfold WPAnchor.attr
  rw [if_pos h]

theorem WPAnchor_attr_keep_DistT (a : Attr) (r : WPAnchor) (h : a.Name.Local ≠ "distT") :
    (WPAnchor.attr a r).1.DistT = r.DistT := by
  unfold WPAnchor.attr
  by_cases h0 : a.Name.Local = "distT"
  · exact absurd h0 h
  rw [if_neg h0]
  by_cases h1 : a.Name.Local = "distB"
  · rw [if_pos h1]
  rw [if_neg h1]
  by_cases h2 : a.Name.Local = "distL"
  · rw [if_pos h2]
  rw [if_neg h2]
  by_cases h3 : a.Name.Local = "distR"
  · rw [if_pos h3]
  rw [if_neg h3]
  by_cases h4 : a.Name.Local = "simplePos"
  · rw [if_pos h4]
  rw [if_neg h4]
  by_cases h5 : a.Name.Local = "relativeHeight"
  · rw [if_pos h5]
  rw [if_neg h5]
  by_cases h6 : a.Name.Local = "behindDoc"
  · rw [if_pos h6]
  rw [if_neg h6]
  by_cases h7 : a.Name.Local = "locked"
  · rw [if_pos h7]
  rw [if_neg h7]
  by_cases h8 : a.Name.Local = "layoutInCell"
  · rw [if_pos h8]
  rw [if_neg h8]
  by_cases h9 : a.Name.Local = "allowOverlap"
  · rw [if_pos h9]
  rw [if_neg h9]

/-- The field `DistT` after the attribute loop of `WPAnchor.UnmarshalXML`, when the
start-element carries the attribute `distT` and its value is the literal of `n`. -/
theorem WPAnchor_attrs_DistT (attrs : List Attr) (r : WPAnchor) (n : Int)
    (h : ∀ a ∈ attrs, a.Name.Local = "distT" → IsInt64Literal a.Value n)
    (hex : ∃ a ∈ attrs, a.Name.Local = "distT") :
    (attrs.foldl (fun r a => (WPAnchor.attr a r).1) r).DistT = n :=
  foldl_attr_field (fun a r => (WPAnchor.attr a r).1) (fun r => r.DistT) "distT"
    (fun a => (strconv.ParseInt a.Value 10 64).1) WPAnchor_attr_set_DistT WPAnchor_attr_keep_DistT n attrs r
    (fun a ha hn => by show (_ : Int × Option Error).1 = n; rw [(ParseInt_ok_iff a.Value 64 n (Or.inr rfl)).2 (h a ha hn)]) hex

theorem WPAnchor_attr_set_DistB (a : Attr) (r : WPAnchor) (h : a.Name.Local = "distB") :
    (WPAnchor.attr a r).1.DistB = (strconv.ParseInt a.Value 10 64).1 := by
  unfold WPAnchor.attr
  rw [if_neg (by rw [h]; decide)]
  rw [if_pos h]

theorem WPAnchor_attr_keep_DistB (a : Attr) (r : WPAnchor) (h : a.Name.Local ≠ "distB") :
    (WPAnchor.attr a r).1.DistB = r.DistB := by
  unfold WPAnchor.attr
  by_cases h0 : a.Name.Local = "distT"
  · rw [if_pos h0]
  rw [if_neg h0]
  by_cases h1 : a.Name.Local = "distB"
  · exact absurd h1 h
  rw [if_neg h1]
  by_cases h2 : a.Name.Local = "distL"
  · rw [if_pos h2]
  rw [if_neg h2]
  by_cases h3 : a.Name.Local = "distR"
  · rw [if_pos h3]
  rw [if_neg h3]
  by_cases h4 : a.Name.Local = "simplePos"
  · rw [if_pos h4]
  rw [if_neg h4]
  by_cases h5 : a.Name.Local = "relativeHeight"
  · rw [if_pos h5]
  rw [if_neg h5]
  by_cases h6 : a.Name.Local = "behindDoc"
  · rw [if_pos h6]
  rw [if_neg h6]
  by_cases h7 : a.Name.Local = "locked"
  · rw [if_pos h7]
  rw [if_neg h7]
  by_cases h8 : a.Name.Local = "layoutInCell"
  · rw [if_pos h8]
  rw [if_neg h8]
  by_cases h9 : a.Name.Local = "allowOverlap"
  · rw [if_pos h9]
  rw [if_neg h9]

/-- The field `DistB` after the attribute loop of `WPAnchor.UnmarshalXML`, when the
start-element carries the attribute `distB` and its value is the literal of `n`. -/
theorem WPAnchor_attrs_DistB (attrs : List Attr) (r : WPAnchor) (n : Int)
    (h : ∀ a ∈ attrs, a.Name.Local = "distB" → IsInt64Literal a.Value n)
    (hex : ∃ a ∈ attrs, a.Name.Local = "distB") :
    (attrs.foldl (fun r a => (WPAnchor.attr a r).1) r).DistB = n :=
  foldl_attr_field (fun a r => (WPAnchor.attr a r).1) (fun r => r.DistB) "distB"
    (fun a => (strconv.ParseInt a.Value 10 64).1) WPAnchor_attr_set_DistB WPAnchor_attr_keep_DistB n attrs r
    (fun a ha hn => by show (_ : Int × Option Error).1 = n; rw [(ParseInt_ok_iff a.Value 64 n (Or.inr rfl)).2 (h a ha hn)]) hex

theorem WPAnchor_attr_set_DistL (a : Attr) (r : WPAnchor) (h : a.Name.Local = "distL") :
    (WPAnchor.attr a r).1.DistL = (strconv.ParseInt a.Value 10 64).1 := by
  unfold WPAnchor.attr
  rw [if_neg (by rw [h]; decide)]
  rw [if_neg (by rw [h]; decide)]
  rw [if_pos h]

theorem WPAnchor_attr_keep_DistL (a : Attr) (r : WPAnchor) (h : a.Name.Local ≠ "distL") :
    (WPAnchor.attr a r).1.DistL = r.DistL := by
  unfold WPAnchor.attr
  by_cases h0 : a.Name.Local = "distT"
  · rw [if_pos h0]
  rw [if_neg h0]
  by_cases h1 : a.Name.Local = "distB"
  · rw [if_pos h1]
  rw [if_neg h1]
  by_cases h2 : a.Name.Local = "distL"
  · exact absurd h2 h
  rw [if_neg h2]
  by_cases h3 : a.Name.Local = "distR"
  · rw [if_pos h3]
  rw [if_neg h3]
  by_cases h4 : a.Name.Local = "simplePos"
  · rw [if_pos h4]
  rw [if_neg h4]
  by_cases h5 : a.Name.Local = "relativeHeight"
  · rw [if_pos h5]
  rw [if_neg h5]
  by_cases h6 : a.Name.Local = "behindDoc"
  · rw [if_pos h6]
  rw [if_neg h6]
  by_cases h7 : a.Name.Local = "locked"
  · rw [if_pos h7]
  rw [if_neg h7]
  by_cases h8 : a.Name.Local = "layoutInCell"
  · rw [if_pos h8]
  rw [if_neg h8]
  by_cases h9 : a.Name.Local = "allowOverlap"
  · rw [if_pos h9]
  rw [if_neg h9]

/-- The field `DistL` after the attribute loop of `WPAnchor.UnmarshalXML`, when the
start-element carries the attribute `distL` and its value is the literal of `n`. -/
theorem WPAnchor_attrs_DistL (attrs : List Attr) (r : WPAnchor) (n : Int)
    (h : ∀ a ∈ attrs, a.Name.Local = "distL" → IsInt64Literal a.Value n)
    (hex : ∃ a ∈ attrs, a.Name.Local = "distL") :
    (attrs.foldl (fun r a => (WPAnchor.attr a r).1) r).DistL = n :=
  foldl_attr_field (fun a r => (WPAnchor.attr a r).1) (fun r => r.DistL) "distL"
    (fun a => (strconv.ParseInt a.Value 10 64).1) WPAnchor_attr_set_DistL WPAnchor_attr_keep_DistL n attrs r
    (fun a ha hn => by show (_ : Int × Option Error).1 = n; rw [(ParseInt_ok_iff a.Value 64 n (Or.inr rfl)).2 (h a ha hn)]) hex

theorem WPAnchor_attr_set_DistR (a : Attr) (r : WPAnchor) (h : a.Name.Local = "distR") :
    (WPAnchor.attr a r).1.DistR = (strconv.ParseInt a.Value 10 64).1 := by
  unfold WPAnchor.attr
  rw [if_neg (by rw [h]; decide)]
  rw [if_neg (by rw [h]; decide)]
  rw [if_neg (by rw [h]; decide)]
  rw [if_pos h]

theorem WPAnchor_attr_keep_DistR (a : Attr) (r : WPAnchor) (h : a.Name.Local ≠ "distR") :
    (WPAnchor.attr a r).1.DistR = r.DistR := by
  unfold WPAnchor.attr
  by_cases h0 : a.Name.Local = "distT"
  · rw [if_pos h0]
  rw [if_neg h0]
  by_cases h1 : a.Name.Local = "distB"
  · rw [if_pos h1]
  rw [if_neg h1]
  by_cases h2 : a.Name.Local = "distL"
  · rw [if_pos h2]
  rw [if_neg h2]
  by_cases h3 : a.Name.Local = "distR"
  · exact absurd h3 h
  rw [if_neg h3]
  by_cases h4 : a.Name.Local = "simplePos"
  · rw [if_pos h4]
  rw [if_neg h4]
  by_cases h5 : a.Name.Local = "relativeHeight"
  · rw [if_pos h5]
  rw [if_neg h5]
  by_cases h6 : a.Name.Local = "behindDoc"
  · rw [if_pos h6]
  rw [if_neg h6]
  by_cases h7 : a.Name.Local = "locked"
  · rw [if_pos h7]
  rw [if_neg h7]
  by_cases h8 : a.Name.Local = "layoutInCell"
  · rw [if_pos h8]
  rw [if_neg h8]
  by_cases h9 : a.Name.Local = "allowOverlap"
  · rw [if_pos h9]
  rw [if_neg h9]

/-- The field `DistR` after the attribute loop of `WPAnchor.UnmarshalXML`, when the
start-element carries the attribute `distR` and its value is the literal of `n`. -/
theorem WPAnchor_attrs_DistR (attrs : List Attr) (r : WPAnchor) (n : Int)
    (h : ∀ a ∈ attrs, a.Name.Local = "distR" → IsInt64Literal a.Value n)
    (hex : ∃ a ∈ attrs, a.Name.Local = "distR") :
    (attrs.foldl (fun r a => (WPAnchor.attr a r).1) r).DistR = n :=
  foldl_attr_field (fun a r => (WPAnchor.attr a r).1) (fun r => r.DistR) "distR"
    (fun a => (strconv.ParseInt a.Value 10 64).1) WPAnchor_attr_set_DistR WPAnchor_attr_keep_DistR n attrs r
    (fun a ha hn => by show (_ : Int × Option Error).1 = n; rw [(ParseInt_ok_iff a.Value 64 n (Or.inr rfl)).2 (h a ha hn)]) hex

theorem WPAnchor_attr_set_SimplePos (a : Attr) (r : WPAnchor) (h : a.Name.Local = "simplePos") :
    (WPAnchor.attr a r).1.SimplePos = (strconv.Atoi a.Value).1 := by
  unfold WPAnchor.attr
  rw [if_neg (by rw [h]; decide)]
  rw [if_neg (by rw [h]; decide)]
  rw [if_neg (by rw [h]; decide)]
  rw [if_neg (by rw [h]; decide)]
  rw [if_pos h]

theorem WPAnchor_attr_keep_SimplePos (a : Attr) (r : WPAnchor) (h : a.Name.Local ≠ "simplePos") :
    (WPAnchor.attr a r).1.SimplePos = r.SimplePos := by
  unfold WPAnchor.attr
  by_cases h0 : a.Name.Local = "distT"
  · rw [if_pos h0]
  rw [if_neg h0]
  by_cases h1 : a.Name.Local = "distB"
  · rw [if_pos h1]
  rw [if_neg h1]
  by_cases h2 : a.Name.Local = "distL"
  · rw [if_pos h2]
  rw [if_neg h2]
  by_cases h3 : a.Name.Local = "distR"
  · rw [if_pos h3]
  rw [if_neg h3]
  by_cases h4 : a.Name.Local = "simplePos"
  · exact absurd h4 h
  rw [if_neg h4]
  by_cases h5 : a.Name.Local = "relativeHeight"
  · rw [if_pos h5]
  rw [if_neg h5]
  by_cases h6 : a.Name.Local = "behindDoc"
  · rw [if_pos h6]
  rw [if_neg h6]
  by_cases h7 : a.Name.Local = "locked"
  · rw [if_pos h7]
  rw [if_neg h7]
  by_cases h8 : a.Name.Local = "layoutInCell"
  · rw [if_pos h8]
  rw [if_neg h8]
  by_cases h9 : a.Name.Local = "allowOverlap"
  · rw [if_pos h9]
  rw [if_neg h9]

/-- The field `SimplePos` after the attribute loop of `WPAnchor.UnmarshalXML`, when the
start-element carries the attribute `simplePos` and its value is the literal of `n`. -/
theorem WPAnchor_attrs_SimplePos (attrs : List Attr) (r : WPAnchor) (n : Int)
    (h : ∀ a ∈ attrs, a.Name.Local = "simplePos" → IsInt64Literal a.Value n)
    (hex : ∃ a ∈ attrs, a.Name.Local = "simplePos") :
    (attrs.foldl (fun r a => (WPAnchor.attr a r).1) r).SimplePos = n :=
  foldl_attr_field (fun a r => (WPAnchor.attr a r).1) (fun r => r.SimplePos) "simplePos"
    (fun a => (strconv.Atoi a.Value).1) WPAnchor_attr_set_SimplePos WPAnchor_attr_keep_SimplePos n attrs r
    (fun a ha hn => by show (_ : Int × Option Error).1 = n; rw [(Atoi_ok_iff a.Value n).2 (h a ha hn)]) hex

theorem WPAnchor_attr_set_RelativeHeight (a : Attr) (r : WPAnchor) (h : a.Name.Local = "relativeHeight") :
    (WPAnchor.attr a r).1.RelativeHeight = (strconv.Atoi a.Value).1 := by
  unfold WPAnchor.attr
  rw [if_neg (by rw [h]; decide)]
  rw [if_neg (by rw [h]; decide)]
  rw [if_neg (by rw [h]; decide)]
  rw [if_neg (by rw [h]; decide)]
  rw [if_neg (by rw [h]; decide)]
  rw [if_pos h]

theorem WPAnchor_attr_keep_RelativeHeight (a : Attr) (r : WPAnchor) (h : a.Name.Local ≠ "relativeHeight") :
    (WPAnchor.attr a r).1.RelativeHeight = r.RelativeHeight := by
  unfold WPAnchor.attr
  by_cases h0 : a.Name.Local = "distT"
  · rw [if_pos h0]
  rw [if_neg h0]
  by_cases h1 : a.Name.Local = "distB"
  · rw [if_pos h1]
  rw [if_neg h1]
  by_cases h2 : a.Name.Local = "distL"
  · rw [if_pos h2]
  rw [if_neg h2]
  by_cases h3 : a.Name.Local = "distR"
  · rw [if_pos h3]
  rw [if_neg h3]
  by_cases h4 : a.Name.Local = "simplePos"
  · rw [if_pos h4]
  rw [if_neg h4]
  by_cases h5 : a.Name.Local = "relativeHeight"
  · exact absurd h5 h
  rw [if_neg h5]
  by_cases h6 : a.Name.Local = "behindDoc"
  · rw [if_pos h6]
  rw [if_neg h6]
  by_cases h7 : a.Name.Local = "locked"
  · rw [if_pos h7]
  rw [if_neg h7]
  by_cases h8 : a.Name.Local = "layoutInCell"
  · rw [if_pos h8]
  rw [if_neg h8]
  by_cases h9 : a.Name.Local = "allowOverlap"
  · rw [if_pos h9]
  rw [if_neg h9]

/-- The field `RelativeHeight` after the attribute loop of `WPAnchor.UnmarshalXML`, when the
start-element carries the attribute `relativeHeight` and its value is the literal of `n`. -/
theorem WPAnchor_attrs_RelativeHeight (attrs : List Attr) (r : WPAnchor) (n : Int)
    (h : ∀ a ∈ attrs, a.Name.Local = "relativeHeight" → IsInt64Literal a.Value n)
    (hex : ∃ a ∈ attrs, a.Name.Local = "relativeHeight") :
    (attrs.foldl (fun r a => (WPAnchor.attr a r).1) r).RelativeHeight = n :=
  foldl_attr_field (fun a r => (WPAnchor.attr a r).1) (fun r => r.RelativeHeight) "relativeHeight"
    (fun a => (strconv.Atoi a.Value).1) WPAnchor_attr_set_RelativeHeight WPAnchor_attr_keep_RelativeHeight n attrs r
    (fun a ha hn => by show (_ : Int × Option Error).1 = n; rw [(Atoi_ok_iff a.Value n).2 (h a ha hn)]) hex

theorem WPAnchor_attr_set_BehindDoc (a : Attr) (r : WPAnchor) (h : a.Name.Local = "behindDoc") :
    (WPAnchor.attr a r).1.BehindDoc = (strconv.Atoi a.Value).1 := by
  unfold WPAnchor.attr
  rw [if_neg (by rw [h]; decide)]
  rw [if_neg (by rw [h]; decide)]
  rw [if_neg (by rw [h]; decide)]
  rw [if_neg (by rw [h]; decide)]
  rw [if_neg (by rw [h]; decide)]
  rw [if_neg (by rw [h]; decide)]
  rw [if_pos h]

theorem WPAnchor_attr_keep_BehindDoc (a : Attr) (r : WPAnchor) (h : a.Name.Local ≠ "behindDoc") :
    (WPAnchor.attr a r).1.BehindDoc = r.BehindDoc := by
  unfold WPAnchor.attr
  by_cases h0 : a.Name.Local = "distT"
  · rw [if_pos h0]
  rw [if_neg h0]
  by_cases h1 : a.Name.Local = "distB"
  · rw [if_pos h1]
  rw [if_neg h1]
  by_cases h2 : a.Name.Local = "distL"
  · rw [if_pos h2]
  rw [if_neg h2]
  by_cases h3 : a.Name.Local = "distR"
  · rw [if_pos h3]
  rw [if_neg h3]
  by_cases h4 : a.Name.Local = "simplePos"
  · rw [if_pos h4]
  rw [if_neg h4]
  by_cases h5 : a.Name.Local = "relativeHeight"
  · rw [if_pos h5]
  rw [if_neg h5]
  by_cases h6 : a.Name.Local = "behindDoc"
  · exact absurd h6 h
  rw [if_neg h6]
  by_cases h7 : a.Name.Local = "locked"
  · rw [if_pos h7]
  rw [if_neg h7]
  by_cases h8 : a.Name.Local = "layoutInCell"
  · rw [if_pos h8]
  rw [if_neg h8]
  by_cases h9 : a.Name.Local = "allowOverlap"
  · rw [if_pos h9]
  rw [if_neg h9]

/-- The field `BehindDoc` after the attribute loop of `WPAnchor.UnmarshalXML`, when the
start-element carries the attribute `behindDoc` and its value is the literal of `n`. -/
theorem WPAnchor_attrs_BehindDoc (attrs : List Attr) (r : WPAnchor) (n : Int)
    (h : ∀ a ∈ attrs, a.Name.Local = "behindDoc" → IsInt64Literal a.Value n)
    (hex : ∃ a ∈ attrs, a.Name.Local = "behindDoc") :
    (attrs.foldl (fun r a => (WPAnchor.attr a r).1) r).BehindDoc = n :=
  foldl_attr_field (fun a r => (WPAnchor.attr a r).1) (fun r => r.BehindDoc) "behindDoc"
    (fun a => (strconv.Atoi a.Value).1) WPAnchor_attr_set_BehindDoc WPAnchor_attr_keep_BehindDoc n attrs r
    (fun a ha hn => by show (_ : Int × Option Error).1 = n; rw [(Atoi_ok_iff a.Value n).2 (h a ha hn)]) hex

theorem WPAnchor_attr_set_Locked (a : Attr) (r : WPAnchor) (h : a.Name.Local = "locked") :
    (WPAnchor.attr a r).1.Locked = (strconv.Atoi a.Value).1 := by
  unfold WPAnchor.attr
  rw [if_neg (by rw [h]; decide)]
  rw [if_neg (by rw [h]; decide)]
  rw [if_neg (by rw [h]; decide)]
  rw [if_neg (by rw [h]; decide)]
  rw [if_neg (by rw [h]; decide)]
  rw [if_neg (by rw [h]; decide)]
  rw [if_neg (by rw [h]; decide)]
  rw [if_pos h]

theorem WPAnchor_attr_keep_Locked (a : Attr) (r : WPAnchor) (h : a.Name.Local ≠ "locked") :
    (WPAnchor.attr a r).1.Locked = r.Locked := by
  unfold WPAnchor.attr
  by_cases h0 : a.Name.Local = "distT"
  · rw [if_pos h0]
  rw [if_neg h0]
  by_cases h1 : a.Name.Local = "distB"
  · rw [if_pos h1]
  rw [if_neg h1]
  by_cases h2 : a.Name.Local = "distL"
  · rw [if_pos h2]
  rw [if_neg h2]
  by_cases h3 : a.Name.Local = "distR"
  · rw [if_pos h3]
  rw [if_neg h3]
  by_cases h4 : a.Name.Local = "simplePos"
  · rw [if_pos h4]
  rw [if_neg h4]
  by_cases h5 : a.Name.Local = "relativeHeight"
  · rw [if_pos h5]
  rw [if_neg h5]
  by_cases h6 : a.Name.Local = "behindDoc"
  · rw [if_pos h6]
  rw [if_neg h6]
  by_cases h7 : a.Name.Local = "locked"
  · exact absurd h7 h
  rw [if_neg h7]
  by_cases h8 : a.Name.Local = "layoutInCell"
  · rw [if_pos h8]
  rw [if_neg h8]
  by_cases h9 : a.Name.Local = "allowOverlap"
  · rw [if_pos h9]
  rw [if_neg h9]

/-- The field `Locked` after the attribute loop of `WPAnchor.UnmarshalXML`, when the
start-element carries the attribute `locked` and its value is the literal of `n`. -/
theorem WPAnchor_attrs_Locked (attrs : List Attr) (r : WPAnchor) (n : Int)
    (h : ∀ a ∈ attrs, a.Name.Local = "locked" → IsInt64Literal a.Value n)
    (hex : ∃ a ∈ attrs, a.Name.Local = "locked") :
    (attrs.foldl (fun r a => (WPAnchor.attr a r).1) r).Locked = n :=
  foldl_attr_field (fun a r => (WPAnchor.attr a r).1) (fun r => r.Locked) "locked"
    (fun a => (strconv.Atoi a.Value).1) WPAnchor_attr_set_Locked WPAnchor_attr_keep_Locked n attrs r
    (fun a ha hn => by show (_ : Int × Option Error).1 = n; rw [(Atoi_ok_iff a.Value n).2 (h a ha hn)]) hex

theorem WPAnchor_attr_set_LayoutInCell (a : Attr) (r : WPAnchor) (h : a.Name.Local = "layoutInCell") :
    (WPAnchor.attr a r).1.LayoutInCell = (strconv.Atoi a.Value).1 := by
  unfold WPAnchor.attr
  rw [if_neg (by rw [h]; decide)]
  rw [if_neg (by rw [h]; decide)]
  rw [if_neg (by rw [h]; decide)]
  rw [if_neg (by rw [h]; decide)]
  rw [if_neg (by rw [h]; decide)]
  rw [if_neg (by rw [h]; decide)]
  rw [if_neg (by rw [h]; decide)]
  rw [if_neg (by rw [h]; decide)]
  rw [if_pos h]

theorem WPAnchor_attr_keep_LayoutInCell (a : Attr) (r : WPAnchor) (h : a.Name.Local ≠ "layoutInCell") :
    (WPAnchor.attr a r).1.LayoutInCell = r.LayoutInCell := by
  unfold WPAnchor.attr
  by_cases h0 : a.Name.Local = "distT"
  · rw [if_pos h0]
  rw [if_neg h0]
  by_cases h1 : a.Name.Local = "distB"
  · rw [if_pos h1]
  rw [if_neg h1]
  by_cases h2 : a.Name.Local = "distL"
  · rw [if_pos h2]
  rw [if_neg h2]
  by_cases h3 : a.Name.Local = "distR"
  · rw [if_pos h3]
  rw [if_neg h3]
  by_cases h4 : a.Name.Local = "simplePos"
  · rw [if_pos h4]
  rw [if_neg h4]
  by_cases h5 : a.Name.Local = "relativeHeight"
  · rw [if_pos h5]
  rw [if_neg h5]
  by_cases h6 : a.Name.Local = "behindDoc"
  · rw [if_pos h6]
  rw [if_neg h6]
  by_cases h7 : a.Name.Local = "locked"
  · rw [if_pos h7]
  rw [if_neg h7]
  by_cases h8 : a.Name.Local = "layoutInCell"
  · exact absurd h8 h
  rw [if_neg h8]
  by_cases h9 : a.Name.Local = "allowOverlap"
  · rw [if_pos h9]
  rw [if_neg h9]

/-- The field `LayoutInCell` after the attribute loop of `WPAnchor.UnmarshalXML`, when the
start-element carries the attribute `layoutInCell` and its value is the literal of `n`. -/
theorem WPAnchor_attrs_LayoutInCell (attrs : List Attr) (r : WPAnchor) (n : Int)
    (h : ∀ a ∈ attrs, a.Name.Local = "layoutInCell" → IsInt64Literal a.Value n)
    (hex : ∃ a ∈ attrs, a.Name.Local = "layoutInCell") :
    (attrs.foldl (fun r a => (WPAnchor.attr a r).1) r).LayoutInCell = n :=
  foldl_attr_field (fun a r => (WPAnchor.attr a r).1) (fun r => r.LayoutInCell) "layoutInCell"
    (fun a => (strconv.Atoi a.Value).1) WPAnchor_attr_set_LayoutInCell WPAnchor_attr_keep_LayoutInCell n attrs r
    (fun a ha hn => by show (_ : Int × Option Error).1 = n; rw [(Atoi_ok_iff a.Value n).2 (h a ha hn)]) hex

theorem WPAnchor_attr_set_AllowOverlap (a : Attr) (r : WPAnchor) (h : a.Name.Local = "allowOverlap") :
    (WPAnchor.attr a r).1.AllowOverlap = (strconv.Atoi a.Value).1 := by
  unfold WPAnchor.attr
  rw [if_neg (by rw [h]; decide)]
  rw [if_neg (by rw [h]; decide)]
  rw [if_neg (by rw [h]; decide)]
  rw [if_neg (by rw [h]; decide)]
  rw [if_neg (by rw [h]; decide)]
  rw [if_neg (by rw [h]; decide)]
  rw [if_neg (by rw [h]; decide)]
  rw [if_neg (by rw [h]; decide)]
  rw [if_neg (by rw [h]; decide)]
  rw [if_pos h]

theorem WPAnchor_attr_keep_AllowOverlap (a : Attr) (r : WPAnchor) (h : a.Name.Local ≠ "allowOverlap") :
    (WPAnchor.attr a r).1.AllowOverlap = r.AllowOverlap := by
  unfold WPAnchor.attr
  by_cases h0 : a.Name.Local = "distT"
  · rw [if_pos h0]
  rw [if_neg h0]
  by_cases h1 : a.Name.Local = "distB"
  · rw [if_pos h1]
  rw [if_neg h1]
  by_cases h2 : a.Name.Local = "distL"
  · rw [if_pos h2]
  rw [if_neg h2]
  by_cases h3 : a.Name.Local = "distR"
  · rw [if_pos h3]
  rw [if_neg h3]
  by_cases h4 : a.Name.Local = "simplePos"
  · rw [if_pos h4]
  rw [if_neg h4]
  by_cases h5 : a.Name.Local = "relativeHeight"
  · rw [if_pos h5]
  rw [if_neg h5]
  by_cases h6 : a.Name.Local = "behindDoc"
  · rw [if_pos h6]
  rw [if_neg h6]
  by_cases h7 : a.Name.Local = "locked"
  · rw [if_pos h7]
  rw [if_neg h7]
  by_cases h8 : a.Name.Local = "layoutInCell"
  · rw [if_pos h8]
  rw [if_neg h8]
  by_cases h9 : a.Name.Local = "allowOverlap"
  · exact absurd h9 h
  rw [if_neg h9]

/-- The field `AllowOverlap` after the attribute loop of `WPAnchor.UnmarshalXML`, when the
start-element carries the attribute `allowOverlap` and its value is the literal of `n`. -/
theorem WPAnchor_attrs_AllowOverlap (attrs : List Attr) (r : WPAnchor) (n : Int)
    (h : ∀ a ∈ attrs, a.Name.Local = "allowOverlap" → IsInt64Literal a.Value n)
    (hex : ∃ a ∈ attrs, a.Name.Local = "allowOverlap") :
    (attrs.foldl (fun r a => (WPAnchor.attr a r).1) r).AllowOverlap = n :=
  foldl_attr_field (fun a r => (WPAnchor.attr a r).1) (fun r => r.AllowOverlap) "allowOverlap"
    (fun a => (strconv.Atoi a.Value).1) WPAnchor_attr_set_AllowOverlap WPAnchor_attr_keep_AllowOverlap n attrs r
    (fun a ha hn => by show (_ : Int × Option Error).1 = n; rw [(Atoi_ok_iff a.Value n).2 (h a ha hn)]) hex

/-- At the end of the content of its element, behind well-nested unrecognised
elements, the loop reads the end-element, then meets the end-of-element mark
and returns nil. -/
theorem tokenLoop_close {α : Type} (body : StartElement → α → Decoder → Step α)
    (known : String → Bool)
    (hunk : ∀ (tt : StartElement) (r : α) (d : Decoder), known tt.Name.Local = false →
      body tt r d = .next r d)
    (r : α) (post rest : List Token) (nm : Name) (err : Option Error) (stk : List Stack)
    (hpost : inert known [] post = true) (fuel : Nat) (hfuel : post.length + 1 < fuel) :
    tokenLoop body fuel r ⟨post ++ .EndElement nm :: rest, err, .stkStart nm :: .stkEOF :: stk⟩ =
      ⟨r, ⟨rest, err, .stkEOF :: stk⟩, none⟩ := by
  obtain ⟨k, rfl⟩ : ∃ k, fuel = (k + 2) + post.length := ⟨fuel - post.length - 2, by omega⟩
  have h1 := tokenLoop_skip_inert body known hunk r (.EndElement nm :: rest) err
    (.stkStart nm :: .stkEOF :: stk) (by simp) post [] (k + 2) hpost
  simp only [List.map_nil, List.nil_append] at h1
  rw [h1, tokenLoop_other body (k + 1) r (Token_end nm rest err (.stkEOF :: stk)) (by simp),
    tokenLoop_eof body k r (Token_eof_top ⟨rest, err, .stkEOF :: stk⟩ rfl)]

/-- The call `d.DecodeElement(&v, &te)` for an empty extent element with
well-formed attributes: the record the attribute loop yields, the end-element
read, nil. -/
theorem WPExtent_DecodeElement_empty (te : StartElement) (r : WPExtent) (toks : List Token)
    (err : Option Error) (stk : List Stack)
    (hattrs : ∀ a ∈ te.Attr, a.Name.Local ∈ WPExtent.numericAttrs →
      ∃ n, IsInt64Literal a.Value n) :
    Decoder.DecodeElement "*docxlib.WPExtent" WPExtent.UnmarshalXML r
        ⟨.EndElement te.Name :: toks, err, .stkStart te.Name :: stk⟩ te =
      ⟨te.Attr.foldl (fun r a => (WPExtent.attr a r).1) r, ⟨toks, err, stk⟩, none⟩ := by
  unfold Decoder.DecodeElement Decoder.unmarshalInterface WPExtent.UnmarshalXML
  simp only [Decoder.pushEOF, pushEOFStack]
  rw [WPExtent_attrs_ok te r hattrs]
  simp only [Token_end, Decoder.popEOF]
  rfl

theorem WPEffectExtent_DecodeElement_empty (te : StartElement) (r : WPEffectExtent)
    (toks : List Token) (err : Option Error) (stk : List Stack)
    (hattrs : ∀ a ∈ te.Attr, a.Name.Local ∈ WPEffectExtent.numericAttrs →
      ∃ n, IsInt64Literal a.Value n) :
    Decoder.DecodeElement "*docxlib.WPEffectExtent" WPEffectExtent.UnmarshalXML r
        ⟨.EndElement te.Name :: toks, err, .stkStart te.Name :: stk⟩ te =
      ⟨te.Attr.foldl (fun r a => (WPEffectExtent.attr a r).1) r, ⟨toks, err, stk⟩, none⟩ := by
  unfold Decoder.DecodeElement Decoder.unmarshalInterface WPEffectExtent.UnmarshalXML
  simp only [Decoder.pushEOF, pushEOFStack]
  rw [WPEffectExtent_attrs_ok te r hattrs]
  simp only [Token_end, Decoder.popEOF]
  rfl

theorem WPDocPr_DecodeElement_empty (te : StartElement) (r : WPDocPr)
    (toks : List Token) (err : Option Error) (stk : List Stack)
    (hattrs : ∀ a ∈ te.Attr, a.Name.Local ∈ WPDocPr.numericAttrs →
      ∃ n, IsInt64Literal a.Value n) :
    Decoder.DecodeElement "*docxlib.WPDocPr" WPDocPr.UnmarshalXML r
        ⟨.EndElement te.Name :: toks, err, .stkStart te.Name :: stk⟩ te =
      ⟨te.Attr.foldl (fun r a => (WPDocPr.attr a r).1) r, ⟨toks, err, stk⟩, none⟩ := by
  unfold Decoder.DecodeElement Decoder.unmarshalInterface WPDocPr.UnmarshalXML
  simp only [Decoder.pushEOF, pushEOFStack]
  rw [WPDocPr_attrs_ok te r hattrs]
  simp only [Token_end, Decoder.popEOF]
  rfl

theorem foldl_decimalStep_digits (cs : List Char) :
    ∀ (acc : Option Nat) (n : Nat), cs.foldl decimalStep acc = some n →
      ∀ c ∈ cs, 48 ≤ c.toNat ∧ c.toNat ≤ 57 := by
  induction cs with
  | nil => intro acc n _ c hc; simp at hc
  | cons x xs ih =>
    intro acc n h c hc
    rw [List.foldl_cons] at h
    by_cases hx : 48 ≤ x.toNat ∧ x.toNat ≤ 57
    · rcases List.mem_cons.1 hc with rfl | hc
      · exact hx
      · exact ih _ n h c hc
    · exfalso
      have : decimalStep acc x = none := by
        unfold decimalStep
        cases acc with
        | none => rfl
        | some k => simp only [Option.bind]; rw [if_neg hx]
      rw [this, foldl_decimalStep_none] at h
      cases h

theorem decimalNat_digits (cs : List Char) (n : Nat) (h : decimalNat cs = some n) :
    ∀ c ∈ cs, 48 ≤ c.toNat ∧ c.toNat ≤ 57 := by
  cases cs with
  | nil => intro c hc; simp at hc
  | cons x xs => exact foldl_decimalStep_digits (x :: xs) (some 0) n h

theorem isSpace_digit (c : Char) (h : 48 ≤ c.toNat ∧ c.toNat ≤ 57) : isSpace c = false := by
  unfold isSpace
  simp only [Bool.decide_or, Bool.decide_and, Bool.or_eq_false_iff, Bool.and_eq_false_iff,
    decide_eq_false_iff_not]
  omega

/-- A base-10 literal holds no white space. -/
theorem decimalInt_no_space (s : String) (n : Int) (h : decimalInt s = some n) :
    ∀ c ∈ s.data, isSpace c = false := by
  unfold decimalInt at h
  split at h
  · next cs hs =>
    rcases hd : decimalNat cs with _ | v
    · rw [hd] at h; simp at h
    · intro c hc
      rw [hs] at hc
      rcases List.mem_cons.1 hc with rfl | hc
      · decide
      · exact isSpace_digit c (decimalNat_digits cs v hd c hc)
  · next cs hs =>
    rcases hd : decimalNat cs with _ | v
    · rw [hd] at h; simp at h
    · intro c hc
      rw [hs] at hc
      rcases List.mem_cons.1 hc with rfl | hc
      · decide
      · exact isSpace_digit c (decimalNat_digits cs v hd c hc)
  · next cs _ _ =>
    rcases hd : decimalNat s.data with _ | v
    · rw [hd] at h; simp at h
    · intro c hc
      exact isSpace_digit c (decimalNat_digits s.data v hd c hc)

theorem dropWhile_isSpace_id (l : List Char) (h : ∀ c ∈ l, isSpace c = false) :
    l.dropWhile isSpace = l := by
  cases l with
  | nil => rfl
  | cons x xs => rw [List.dropWhile_cons, h x (List.mem_cons_self _ _)]; rfl

/-- The function `strings.TrimSpace` leaves a base-10 literal as it is. -/
theorem TrimSpace_literal (s : String) (n : Int) (h : IsInt64Literal s n) : TrimSpace s = s := by
  have hs := decimalInt_no_space s n h.1
  unfold TrimSpace
  rw [dropWhile_isSpace_id _ hs, dropWhile_isSpace_id _ (fun c hc => hs c (List.mem_reverse.1 hc)),
    List.reverse_reverse]

theorem literal_ne_empty (s : String) (n : Int) (h : IsInt64Literal s n) : s ≠ "" := by
  rintro rfl
  have h1 : decimalInt "" = none := by decide
  have h2 := h.1
  rw [h1] at h2
  cases h2

/-- The function `copyValue` on the text of a base-10 literal. -/
theorem copyValueInt_literal (s : String) (n : Int) (h : IsInt64Literal s n) :
    copyValueInt s 64 = (some n, none) := by
  unfold copyValueInt
  rw [if_neg (literal_ne_empty s n h), TrimSpace_literal s n h,
    (ParseInt_ok_iff s 64 n (Or.inr rfl)).2 h]

/-- The function `copyValue` on a text that is not empty and not, once trimmed,
a base-10 literal. -/
theorem copyValueInt_bad (s : String) (hne : s ≠ "")
    (h : ¬ ∃ n, IsInt64Literal (TrimSpace s) n) :
    ∃ e, copyValueInt s 64 = (none, some e) ∧ e.isNum = true := by
  unfold copyValueInt
  rw [if_neg hne]
  rcases hp : strconv.ParseInt (TrimSpace s) 10 64 with ⟨v, _ | e⟩
  · exact absurd (ParseInt_lit_of_eq hp) h
  · exact ⟨e, rfl, ParseInt_err_of_eq hp⟩

/-- The reflective decoder on an element whose content is one piece of
character data: the data is collected and the end-element read. -/
theorem unmarshalLoop_text (keep : Bool) (text : String) (n : Name) (rest : List Token)
    (err : Option Error) (stk : List Stack) (fuel : Nat) (data : String) :
    Decoder.unmarshalLoop keep (fuel + 2) data
        ⟨.CharData text :: .EndElement n :: rest, err, .stkStart n :: stk⟩ =
      (⟨rest, err, stk⟩, .ok (if keep then data ++ text else data)) := by
  rw [Decoder.unmarshalLoop, Token_other (.CharData text) _ err _ (by simp) (by simp) (by simp)]
  simp only
  rw [Decoder.unmarshalLoop, Token_end]

/-- The reflective decoder on an empty element. -/
theorem unmarshalLoop_empty (keep : Bool) (n : Name) (rest : List Token)
    (err : Option Error) (stk : List Stack) (fuel : Nat) (data : String) :
    Decoder.unmarshalLoop keep (fuel + 1) data
        ⟨.EndElement n :: rest, err, .stkStart n :: stk⟩ = (⟨rest, err, stk⟩, .ok data) := by
  rw [Decoder.unmarshalLoop, Token_end]

theorem DecodeElementInt64_text_ok (val : Int) (text : String) (tt : StartElement) (n : Name)
    (rest : List Token) (err : Option Error) (stk : List Stack) (v : Int)
    (h : copyValueInt text 64 = (some v, none)) :
    Decoder.DecodeElementInt64 val ⟨.CharData text :: .EndElement n :: rest, err,
        .stkStart n :: stk⟩ tt = ⟨v, ⟨rest, err, stk⟩, none⟩ := by
  unfold Decoder.DecodeElementInt64
  simp only [List.length_cons]
  rw [unmarshalLoop_text]
  simp only [if_true, String.empty_append]
  rw [h]

theorem DecodeElementInt64_text_err (val : Int) (text : String) (tt : StartElement) (n : Name)
    (rest : List Token) (err : Option Error) (stk : List Stack) (x : Option Int) (e : Error)
    (h : copyValueInt text 64 = (x, some e)) :
    Decoder.DecodeElementInt64 val ⟨.CharData text :: .EndElement n :: rest, err,
        .stkStart n :: stk⟩ tt = ⟨val, ⟨rest, err, stk⟩, some e⟩ := by
  unfold Decoder.DecodeElementInt64
  simp only [List.length_cons]
  rw [unmarshalLoop_text]
  simp only [if_true, String.empty_append]
  rw [h]
  cases x <;> rfl

theorem WPPositionH_attrs_RelativeFrom (s : String) :
    ∀ (attrs : List Attr) (r : WPPositionH),
      (∀ a ∈ attrs, a.Name.Local = "relativeFrom" → a.Value = s) →
      (r.RelativeFrom = s ∨ ∃ a ∈ attrs, a.Name.Local = "relativeFrom") →
      (WPPositionH.attrs attrs r).RelativeFrom = s := by
  intro attrs
  induction attrs with
  | nil =>
    intro r _ h
    rcases h with h | ⟨a, ha, _⟩
    · exact h
    · simp at ha
  | cons x xs ih =>
    intro r hall h
    unfold WPPositionH.attrs
    by_cases hx : x.Name.Local = "relativeFrom"
    · rw [if_pos hx]
      exact ih _ (fun a ha => hall a (List.mem_cons_of_mem _ ha))
        (Or.inl (hall x (List.mem_cons_self _ _) hx))
    · rw [if_neg hx]
      refine ih r (fun a ha => hall a (List.mem_cons_of_mem _ ha)) ?_
      rcases h with h | ⟨a, ha, hn⟩
      · exact Or.inl h
      · rcases List.mem_cons.1 ha with rfl | ha
        · exact absurd hn hx
        · exact Or.inr ⟨a, ha, hn⟩

theorem WPPositionV_attrs_RelativeFrom (s : String) :
    ∀ (attrs : List Attr) (r : WPPositionV),
      (∀ a ∈ attrs, a.Name.Local = "relativeFrom" → a.Value = s) →
      (r.RelativeFrom = s ∨ ∃ a ∈ attrs, a.Name.Local = "relativeFrom") →
      (WPPositionV.attrs attrs r).RelativeFrom = s := by
  intro attrs
  induction attrs with
  | nil =>
    intro r _ h
    rcases h with h | ⟨a, ha, _⟩
    · exact h
    · simp at ha
  | cons x xs ih =>
    intro r hall h
    unfold WPPositionV.attrs
    by_cases hx : x.Name.Local = "relativeFrom"
    · rw [if_pos hx]
      exact ih _ (fun a ha => hall a (List.mem_cons_of_mem _ ha))
        (Or.inl (hall x (List.mem_cons_self _ _) hx))
    · rw [if_neg hx]
      refine ih r (fun a ha => hall a (List.mem_cons_of_mem _ ha)) ?_
      rcases h with h | ⟨a, ha, hn⟩
      · exact Or.inl h
      · rcases List.mem_cons.1 ha with rfl | ha
        · exact absurd hn hx
        · exact Or.inr ⟨a, ha, hn⟩

/-- C10, as stated, fails in its second half: the posOffset child of
`<positionH relativeFrom="column"><posOffset></posOffset></positionH>` has the
empty text, which is not an integer, and `WPPositionH.UnmarshalXML` returns
nil, with `PosOffset = 0`; likewise `WPPositionV.UnmarshalXML`.  (The
reflective decoder behind `d.DecodeElement(&r.PosOffset, &tt)` takes empty
character data for 0.) -/
theorem C10_counterexample_empty_posOffset :
    ((WPPositionH.UnmarshalXML {}
        ⟨[.StartElement ⟨⟨"", "posOffset"⟩, []⟩, .EndElement ⟨"", "posOffset"⟩,
          .EndElement ⟨"", "positionH"⟩], none, [.stkStart ⟨"", "positionH"⟩, .stkEOF]⟩
        ⟨⟨"", "positionH"⟩, [⟨⟨"", "relativeFrom"⟩, "column"⟩]⟩).err = none ∧
      (WPPositionH.UnmarshalXML {}
        ⟨[.StartElement ⟨⟨"", "posOffset"⟩, []⟩, .EndElement ⟨"", "posOffset"⟩,
          .EndElement ⟨"", "positionH"⟩], none, [.stkStart ⟨"", "positionH"⟩, .stkEOF]⟩
        ⟨⟨"", "positionH"⟩, [⟨⟨"", "relativeFrom"⟩, "column"⟩]⟩).val.PosOffset = 0) ∧
    ((WPPositionV.UnmarshalXML {}
        ⟨[.StartElement ⟨⟨"", "posOffset"⟩, []⟩, .EndElement ⟨"", "posOffset"⟩,
          .EndElement ⟨"", "positionV"⟩], none, [.stkStart ⟨"", "positionV"⟩, .stkEOF]⟩
        ⟨⟨"", "positionV"⟩, [⟨⟨"", "relativeFrom"⟩, "column"⟩]⟩).err = none ∧
      (WPPositionV.UnmarshalXML {}
        ⟨[.StartElement ⟨⟨"", "posOffset"⟩, []⟩, .EndElement ⟨"", "posOffset"⟩,
          .EndElement ⟨"", "positionV"⟩], none, [.stkStart ⟨"", "positionV"⟩, .stkEOF]⟩
        ⟨⟨"", "positionV"⟩, [⟨⟨"", "relativeFrom"⟩, "column"⟩]⟩).val.PosOffset = 0) := by
  decide

/-- C10, amended, for `WPPositionH.UnmarshalXML` and `WPPositionV.UnmarshalXML` alike.
* For every start-element that carries the attribute `relativeFrom` with the
  value `s`, and every content made of a posOffset element whose content is
  the character data `text`, the base-10 literal of the signed 64-bit integer
  `n`, with well-nested elements of unrecognised names only before and after
  it: the decode returns nil with `RelativeFrom = s` and `PosOffset = n`, and
  has read the content up to and including the end-element of the position.
* For every content in which the loop reads a posOffset element whose content
  is the character data `text`: if `text` is not empty and, with the white
  space at both ends removed, is not the base-10 literal of a signed 64-bit
  integer, the decode returns an error of `strconv`. -/
theorem C10_position_decode :
    (∀ (r : WPPositionH) (start tt : StartElement) (pre post rest : List Token) (err : Option Error)
        (stk : List Stack) (s text : String) (n : Int),
      (∃ a ∈ start.Attr, a.Name.Local = "relativeFrom") →
      (∀ a ∈ start.Attr, a.Name.Local = "relativeFrom" → a.Value = s) →
      tt.Name.Local = "posOffset" → inert WPPositionH.known [] pre = true →
      inert WPPositionH.known [] post = true → IsInt64Literal text n →
      ∀ o, o = WPPositionH.UnmarshalXML r
          ⟨pre ++ .StartElement tt :: .CharData text :: .EndElement tt.Name ::
              (post ++ .EndElement start.Name :: rest), err,
            .stkStart start.Name :: .stkEOF :: stk⟩ start →
        o.err = none ∧ o.val.RelativeFrom = s ∧ o.val.PosOffset = n ∧
          o.dec = ⟨rest, err, .stkEOF :: stk⟩) ∧
    (∀ (r : WPPositionH) (start tt : StartElement) (pre rest : List Token) (err : Option Error)
        (stk : List Stack) (text : String),
      stk.head? ≠ some .stkEOF → tt.Name.Local = "posOffset" →
      inert WPPositionH.known [] pre = true → text ≠ "" →
      (¬ ∃ n, IsInt64Literal (TrimSpace text) n) →
      ∃ e, (WPPositionH.UnmarshalXML r
          ⟨pre ++ .StartElement tt :: .CharData text :: .EndElement tt.Name :: rest, err, stk⟩
          start).err = some e ∧ e.isNum = true) ∧
    (∀ (r : WPPositionV) (start tt : StartElement) (pre post rest : List Token) (err : Option Error)
        (stk : List Stack) (s text : String) (n : Int),
      (∃ a ∈ start.Attr, a.Name.Local = "relativeFrom") →
      (∀ a ∈ start.Attr, a.Name.Local = "relativeFrom" → a.Value = s) →
      tt.Name.Local = "posOffset" → inert WPPositionV.known [] pre = true →
      inert WPPositionV.known [] post = true → IsInt64Literal text n →
      ∀ o, o = WPPositionV.UnmarshalXML r
          ⟨pre ++ .StartElement tt :: .CharData text :: .EndElement tt.Name ::
              (post ++ .EndElement start.Name :: rest), err,
            .stkStart start.Name :: .stkEOF :: stk⟩ start →
        o.err = none ∧ o.val.RelativeFrom = s ∧ o.val.PosOffset = n ∧
          o.dec = ⟨rest, err, .stkEOF :: stk⟩) ∧
    (∀ (r : WPPositionV) (start tt : StartElement) (pre rest : List Token) (err : Option Error)
        (stk : List Stack) (text : String),
      stk.head? ≠ some .stkEOF → tt.Name.Local = "posOffset" →
      inert WPPositionV.known [] pre = true → text ≠ "" →
      (¬ ∃ n, IsInt64Literal (TrimSpace text) n) →
      ∃ e, (WPPositionV.UnmarshalXML r
          ⟨pre ++ .StartElement tt :: .CharData text :: .EndElement tt.Name :: rest, err, stk⟩
          start).err = some e ∧ e.isNum = true) := by
  refine ⟨?_, ?_, ?_, ?_⟩
  · intro r start tt pre post rest err stk s text n hex hall htt hpre hpost hlit o ho
    subst ho
    unfold WPPositionH.UnmarshalXML
    rw [tokenLoop_child WPPositionH.body WPPositionH.known WPPositionH_body_unknown WPPositionH_body_reach
        _ pre tt _ err _ (by simp) hpre _ (Nat.lt_add_one _),
      WPPositionH_body_at_posOffset tt _ _ htt,
      DecodeElementInt64_text_ok _ text tt tt.Name _ err _ n (copyValueInt_literal text n hlit)]
    simp only []
    rw [tokenLoop_close WPPositionH.body WPPositionH.known WPPositionH_body_unknown _ post rest start.Name
      err stk hpost _ (by simp)]
    exact ⟨rfl, WPPositionH_attrs_RelativeFrom s _ _ hall (Or.inr hex), rfl, rfl⟩
  · intro r start tt pre rest err stk text hstk htt hpre hne hbad
    obtain ⟨e, he, hnum⟩ := copyValueInt_bad text hne hbad
    refine ⟨e, ?_, hnum⟩
    unfold WPPositionH.UnmarshalXML
    rw [tokenLoop_child WPPositionH.body WPPositionH.known WPPositionH_body_unknown WPPositionH_body_reach
        _ pre tt _ err _ hstk hpre _ (Nat.lt_add_one _),
      WPPositionH_body_at_posOffset tt _ _ htt,
      DecodeElementInt64_text_err _ text tt tt.Name _ err _ none e he]
  · intro r start tt pre post rest err stk s text n hex hall htt hpre hpost hlit o ho
    subst ho
    unfold WPPositionV.UnmarshalXML
    rw [tokenLoop_child WPPositionV.body WPPositionV.known WPPositionV_body_unknown WPPositionV_body_reach
        _ pre tt _ err _ (by simp) hpre _ (Nat.lt_add_one _),
      WPPositionV_body_at_posOffset tt _ _ htt,
      DecodeElementInt64_text_ok _ text tt tt.Name _ err _ n (copyValueInt_literal text n hlit)]
    simp only []
    rw [tokenLoop_close WPPositionV.body WPPositionV.known WPPositionV_body_unknown _ post rest start.Name
      err stk hpost _ (by simp)]
    exact ⟨rfl, WPPositionV_attrs_RelativeFrom s _ _ hall (Or.inr hex), rfl, rfl⟩
  · intro r start tt pre rest err stk text hstk htt hpre hne hbad
    obtain ⟨e, he, hnum⟩ := copyValueInt_bad text hne hbad
    refine ⟨e, ?_, hnum⟩
    unfold WPPositionV.UnmarshalXML
    rw [tokenLoop_child WPPositionV.body WPPositionV.known WPPositionV_body_unknown WPPositionV_body_reach
        _ pre tt _ err _ hstk hpre _ (Nat.lt_add_one _),
      WPPositionV_body_at_posOffset tt _ _ htt,
      DecodeElementInt64_text_err _ text tt tt.Name _ err _ none e he]

/-- C10, amended, at the position of the specification: `relativeFrom="column"`
and a posOffset child of text `914400`. -/
theorem C10_position_decode_witness :
    ((∃ a ∈ [(⟨⟨"", "relativeFrom"⟩, "column"⟩ : Attr)], a.Name.Local = "relativeFrom") ∧
      (∀ a ∈ [(⟨⟨"", "relativeFrom"⟩, "column"⟩ : Attr)],
        a.Name.Local = "relativeFrom" → a.Value = "column") ∧
      inert WPPositionH.known [] [] = true ∧ IsInt64Literal "914400" 914400) ∧
    ∀ o, o = WPPositionH.UnmarshalXML {}
        ⟨[] ++ .StartElement ⟨⟨"", "posOffset"⟩, []⟩ :: .CharData "914400" ::
          .EndElement ⟨"", "posOffset"⟩ :: ([] ++ .EndElement ⟨"", "positionH"⟩ :: []), none,
          .stkStart ⟨"", "positionH"⟩ :: .stkEOF :: []⟩
        ⟨⟨"", "positionH"⟩, [⟨⟨"", "relativeFrom"⟩, "column"⟩]⟩ →
      o.err = none ∧ o.val.RelativeFrom = "column" ∧ o.val.PosOffset = 914400 ∧
        o.dec = ⟨[], none, [.stkEOF]⟩ :=
  ⟨⟨by decide, by decide, by decide, by decide⟩,
    C10_position_decode.1 {} ⟨⟨"", "positionH"⟩, [⟨⟨"", "relativeFrom"⟩, "column"⟩]⟩
      ⟨⟨"", "posOffset"⟩, []⟩ [] [] [] none [] "column" "914400" 914400
      (by decide) (by decide) rfl (by decide) (by decide) (by decide)⟩

theorem digit_toNat : ∀ k < 10, (Char.ofNat (48 + k)).toNat = 48 + k := by
  decide

theorem decimalStep_digit (n k : Nat) (hk : k < 10) :
    decimalStep (some n) (Char.ofNat (48 + k)) = some (n * 10 + k) := by
  unfold decimalStep
  simp only [Option.bind, digit_toNat k hk]
  rw [if_pos (by omega)]
  congr 2
  omega

theorem formatBits_fold : ∀ (fuel u : Nat) (acc : List Char), u < 10 ^ fuel →
    (strconv.formatBits fuel u acc).foldl decimalStep (some 0) = acc.foldl decimalStep (some u) := by
  intro fuel
  induction fuel with
  | zero =>
    intro u acc h
    have : u = 0 := by simpa using h
    subst this
    rfl
  | succ fuel ih =>
    intro u acc h
    unfold strconv.formatBits
    by_cases hu : u < 10
    · rw [if_pos hu, List.foldl_cons, decimalStep_digit 0 u hu]
      simp
    · rw [if_neg hu, ih (u / 10) _ (by rw [pow_succ] at h; omega), List.foldl_cons,
        decimalStep_digit (u / 10) (u % 10) (Nat.mod_lt _ (by decide))]
      congr 2
      omega

theorem formatBits_ne_nil (fuel u : Nat) : ∀ (acc : List Char), (acc ≠ [] ∨ 0 < fuel) →
    strconv.formatBits fuel u acc ≠ [] := by
  induction fuel generalizing u with
  | zero =>
    intro acc h
    rcases h with h | h
    · exact h
    · exact absurd h (Nat.lt_irrefl _)
  | succ fuel ih =>
    intro acc _
    unfold strconv.formatBits
    split
    · simp
    · exact ih _ _ (Or.inl (by simp))

theorem decimalNat_formatBits (u : Nat) (h : u < 10 ^ 20) :
    decimalNat (strconv.formatBits 20 u []) = some u := by
  have h1 := formatBits_fold 20 u [] h
  have h2 := formatBits_ne_nil 20 u [] (Or.inr (by decide))
  rcases hc : strconv.formatBits 20 u [] with _ | ⟨c, cs⟩
  · exact absurd hc h2
  · rw [hc] at h1
    exact h1

/-- The rendering `strconv.FormatInt` gives of a signed 64-bit integer is a
base-10 literal of it. -/
theorem FormatInt_literal (n : Int) (h : -(2 : Int) ^ 63 ≤ n ∧ n < (2 : Int) ^ 63) :
    IsInt64Literal (strconv.FormatInt n) n := by
  refine ⟨?_, h⟩
  have hu : n.natAbs < 10 ^ 20 := by
    have : (n.natAbs : Int) ≤ 2 ^ 63 := by
      rcases abs_le.2 ⟨h.1, h.2.le⟩ with h3
      rw [Int.abs_eq_natAbs] at h3
      exact h3
    have : n.natAbs ≤ 2 ^ 63 := by exact_mod_cast this
    exact lt_of_le_of_lt this (by norm_num)
  have hd := decimalNat_formatBits n.natAbs hu
  unfold strconv.FormatInt decimalInt
  by_cases hn : n < 0
  · rw [if_pos hn]
    simp only [hd]
    have h3 : -(n.natAbs : Int) = n := by omega
    show some (-(n.natAbs : Int)) = some n
    rw [h3]
  · rw [if_neg hn]
    have hdig := decimalNat_digits _ _ hd
    rcases hc : strconv.formatBits 20 n.natAbs [] with _ | ⟨c, cs⟩
    · rw [hc] at hd; simp [decimalNat] at hd
    · rw [hc] at hd hdig
      have hcd := hdig c (List.mem_cons_self _ _)
      have hp : c ≠ '+' := by rintro rfl; revert hcd; decide
      have hm : c ≠ '-' := by rintro rfl; revert hcd; decide
      simp only []
      split
      · next h => simp only [List.cons.injEq] at h; exact absurd h.1 hp
      · next h => simp only [List.cons.injEq] at h; exact absurd h.1 hm
      · rw [hd]
        have h3 : (n.natAbs : Int) = n := by omega
        show some (n.natAbs : Int) = some n
        rw [h3]

theorem WPExtent_UnmarshalXML_val (r : WPExtent) (d : Decoder) (start : StartElement)
    (h : ∀ a ∈ start.Attr, a.Name.Local ∈ WPExtent.numericAttrs → ∃ n, IsInt64Literal a.Value n) :
    (WPExtent.UnmarshalXML r d start).val =
        start.Attr.foldl (fun r a => (WPExtent.attr a r).1) r ∧
      ((WPExtent.UnmarshalXML r d start).err = none ↔ ∃ t, d.Token.2 = .ok t) := by
  unfold WPExtent.UnmarshalXML
  rw [WPExtent_attrs_ok start r h]
  simp only []
  rcases hT : d.Token with ⟨d1, e | t⟩
  · exact ⟨rfl, by simp⟩
  · exact ⟨rfl, by simp⟩

/-- C11: for all signed 64-bit integers `cx` and `cy`, every record, decoder
state and start-element that carries the attributes `cx` and `cy` with the
renderings `strconv.FormatInt` gives of these integers as values,
`WPExtent.UnmarshalXML` leaves `CX = cx` and `CY = cy`, and returns nil when the
token that follows can be read.  Hence, for every start-element that carries
`cx` and `cy` with base-10 literals of signed 64-bit integers `n` and `m` as
values (in any form, such as `+5` or `007`): the decode leaves `CX = n` and
`CY = m`, and the decode of the attributes `xml.Marshal` writes for the decoded
record leaves the same two integers. -/
theorem C11_extent_round_trip :
    (∀ (cx cy : Int) (r : WPExtent) (d : Decoder) (start : StartElement),
      (-(2 : Int) ^ 63 ≤ cx ∧ cx < (2 : Int) ^ 63) → (-(2 : Int) ^ 63 ≤ cy ∧ cy < (2 : Int) ^ 63) →
      (∃ a ∈ start.Attr, a.Name.Local = "cx") →
      (∀ a ∈ start.Attr, a.Name.Local = "cx" → a.Value = strconv.FormatInt cx) →
      (∃ a ∈ start.Attr, a.Name.Local = "cy") →
      (∀ a ∈ start.Attr, a.Name.Local = "cy" → a.Value = strconv.FormatInt cy) →
      (WPExtent.UnmarshalXML r d start).val.CX = cx ∧
        (WPExtent.UnmarshalXML r d start).val.CY = cy ∧
        ((WPExtent.UnmarshalXML r d start).err = none ↔ ∃ t, d.Token.2 = .ok t)) ∧
    (∀ (n m : Int) (r r2 : WPExtent) (d d2 : Decoder) (start : StartElement),
      hasIntAttr start.Attr "cx" n → hasIntAttr start.Attr "cy" m →
      (WPExtent.UnmarshalXML r d start).val.CX = n ∧
        (WPExtent.UnmarshalXML r d start).val.CY = m ∧
        (WPExtent.UnmarshalXML r2 d2
            ⟨start.Name, (WPExtent.UnmarshalXML r d start).val.MarshalAttrs⟩).val.CX = n ∧
        (WPExtent.UnmarshalXML r2 d2
            ⟨start.Name, (WPExtent.UnmarshalXML r d start).val.MarshalAttrs⟩).val.CY = m) := by
  have key : ∀ (n m : Int) (r : WPExtent) (d : Decoder) (start : StartElement),
      hasIntAttr start.Attr "cx" n → hasIntAttr start.Attr "cy" m →
      (WPExtent.UnmarshalXML r d start).val.CX = n ∧
        (WPExtent.UnmarshalXML r d start).val.CY = m ∧
        ((WPExtent.UnmarshalXML r d start).err = none ↔ ∃ t, d.Token.2 = .ok t) := by
    intro n m r d start hx hy
    have hattrs : ∀ a ∈ start.Attr, a.Name.Local ∈ WPExtent.numericAttrs →
        ∃ n, IsInt64Literal a.Value n := by
      intro a ha hn
      simp only [WPExtent.numericAttrs, List.mem_cons, List.mem_singleton, List.not_mem_nil,
        or_false] at hn
      rcases hn with hn | hn
      · exact ⟨_, hx.2 a ha hn⟩
      · exact ⟨_, hy.2 a ha hn⟩
    obtain ⟨hv, he⟩ := WPExtent_UnmarshalXML_val r d start hattrs
    rw [hv]
    exact ⟨WPExtent_attrs_CX _ _ _ hx.2 hx.1, WPExtent_attrs_CY _ _ _ hy.2 hy.1, he⟩
  constructor
  · intro cx cy r d start hcx hcy h1 h2 h3 h4
    exact key cx cy r d start
      ⟨h1, fun a ha hn => by rw [h2 a ha hn]; exact FormatInt_literal cx hcx⟩
      ⟨h3, fun a ha hn => by rw [h4 a ha hn]; exact FormatInt_literal cy hcy⟩
  · intro n m r r2 d d2 start hx hy
    obtain ⟨a, ha, hna⟩ := hx.1
    obtain ⟨b, hb, hnb⟩ := hy.1
    have hn := (hx.2 a ha hna).2
    have hm := (hy.2 b hb hnb).2
    obtain ⟨k1, k2, _⟩ := key n m r d start hx hy
    refine ⟨k1, k2, ?_⟩
    have := key n m r2 d2 ⟨start.Name, (WPExtent.UnmarshalXML r d start).val.MarshalAttrs⟩
      ⟨⟨_, List.mem_cons_self _ _, rfl⟩, fun a ha hna => by
        simp only [WPExtent.MarshalAttrs, List.mem_cons, List.mem_singleton, List.not_mem_nil,
          or_false] at ha
        rcases ha with rfl | rfl
        · show IsInt64Literal (strconv.FormatInt _) n
          rw [k1]; exact FormatInt_literal n hn
        · simp at hna⟩
      ⟨⟨_, List.mem_cons_of_mem _ (List.mem_cons_self _ _), rfl⟩, fun a ha hna => by
        simp only [WPExtent.MarshalAttrs, List.mem_cons, List.mem_singleton, List.not_mem_nil,
          or_false] at ha
        rcases ha with rfl | rfl
        · simp at hna
        · show IsInt64Literal (strconv.FormatInt _) m
          rw [k2]; exact FormatInt_literal m hm⟩
    exact ⟨this.1, this.2.1⟩

/-- C11 at `cx = 5949950` and `cy = 3971925`. -/
theorem C11_extent_round_trip_witness :
    (strconv.FormatInt 5949950 = "5949950" ∧ strconv.FormatInt 3971925 = "3971925" ∧
      (-(2 : Int) ^ 63 ≤ 5949950 ∧ (5949950 : Int) < (2 : Int) ^ 63) ∧
      (-(2 : Int) ^ 63 ≤ 3971925 ∧ (3971925 : Int) < (2 : Int) ^ 63)) ∧
    ((WPExtent.UnmarshalXML {} ⟨[.EndElement ⟨"", "extent"⟩], none, [.stkStart ⟨"", "extent"⟩]⟩
        ⟨⟨"", "extent"⟩, [⟨⟨"", "cx"⟩, "5949950"⟩, ⟨⟨"", "cy"⟩, "3971925"⟩]⟩).val.CX = 5949950 ∧
      (WPExtent.UnmarshalXML {} ⟨[.EndElement ⟨"", "extent"⟩], none, [.stkStart ⟨"", "extent"⟩]⟩
        ⟨⟨"", "extent"⟩, [⟨⟨"", "cx"⟩, "5949950"⟩, ⟨⟨"", "cy"⟩, "3971925"⟩]⟩).val.CY = 3971925 ∧
      ((WPExtent.UnmarshalXML {} ⟨[.EndElement ⟨"", "extent"⟩], none, [.stkStart ⟨"", "extent"⟩]⟩
        ⟨⟨"", "extent"⟩, [⟨⟨"", "cx"⟩, "5949950"⟩, ⟨⟨"", "cy"⟩, "3971925"⟩]⟩).err = none ↔
        ∃ t, (Decoder.Token ⟨[.EndElement ⟨"", "extent"⟩], none,
          [.stkStart ⟨"", "extent"⟩]⟩).2 = .ok t)) :=
  ⟨⟨by decide, by decide, by decide, by decide⟩,
    C11_extent_round_trip.1 5949950 3971925 {}
      ⟨[.EndElement ⟨"", "extent"⟩], none, [.stkStart ⟨"", "extent"⟩]⟩
      ⟨⟨"", "extent"⟩, [⟨⟨"", "cx"⟩, "5949950"⟩, ⟨⟨"", "cy"⟩, "3971925"⟩]⟩
      (by decide) (by decide) (by decide) (by decide) (by decide) (by decide)⟩

/-- What the loop of `(*AAvLst).UnmarshalXML` has appended when it ends without
error: the marshalled forms, in order, of the tokens `ts` it read before the
token that ended it, none of which is the end-element of the start name; the
loop ended at the end of the stream, or at that end-element, which it read. -/
theorem AAvLst_loop_spec (marshal : Token → Except Error String) (start : StartElement) :
    ∀ (fuel : Nat) (content : String) (d d1 : Decoder) (out : String),
      AAvLst.loop marshal start fuel content d = (d1, .ok out) →
      ∃ (ts : List Token) (ss : List String),
        List.Forall₂ (fun t s => marshal t = .ok s) ts ss ∧
        out = ss.foldl (fun acc s => acc ++ s) content ∧
        (∀ t ∈ ts, t ≠ start.End) ∧
        (d.toks = ts ++ d1.toks ∨ d.toks = ts ++ start.End :: d1.toks) := by
  intro fuel
  induction fuel with
  | zero => intro content d d1 out h; simp [AAvLst.loop] at h
  | succ fuel ih =>
    intro content d d1 out h
    unfold AAvLst.loop at h
    rcases hT : d.Token with ⟨d2, e | t⟩
    · rw [hT] at h
      by_cases he : e = .EOF
      · subst he
        simp only [Prod.mk.injEq, Except.ok.injEq] at h
        obtain ⟨rfl, rfl⟩ := h
        rcases (Token_error hT).1 with h1 | ⟨_, _, h3⟩
        · subst h1
          exact ⟨[], [], List.Forall₂.nil, rfl, by simp, Or.inl rfl⟩
        · simp [Error.isToken] at h3
      · cases e <;> first | exact absurd rfl he | simp at h
    · rw [hT] at h
      simp only at h
      have htoks := (Token_ok hT).1
      by_cases ht : t = start.End
      · rw [if_pos ht] at h
        simp only [Prod.mk.injEq, Except.ok.injEq] at h
        obtain ⟨rfl, rfl⟩ := h
        exact ⟨[], [], List.Forall₂.nil, rfl, by simp, Or.inr (by rw [htoks, ht]; rfl)⟩
      · rw [if_neg ht] at h
        rcases hm : marshal t with e | b
        · rw [hm] at h; simp at h
        · rw [hm] at h
          obtain ⟨ts, ss, h1, h2, h3, h4⟩ := ih (content ++ b) d2 d1 out h
          refine ⟨t :: ts, b :: ss, List.Forall₂.cons hm h1, by rw [h2]; rfl, ?_, ?_⟩
          · intro x hx
            rcases List.mem_cons.1 hx with rfl | hx
            · exact ht
            · exact h3 x hx
          · rcases h4 with h4 | h4
            · exact Or.inl (by rw [htoks, h4]; rfl)
            · exact Or.inr (by rw [htoks, h4]; rfl)

set_option maxRecDepth 100000 in
/-- C12, as stated, fails: `AAvLst.UnmarshalXML` handed the start-element
`<a:avLst>` and the stream `</a:avLst>` returns nil, has read the end-element,
and leaves in `RawXML` what `xml.Marshal` writes for the start-element alone:
the end-element that ends the loop is read and not marshalled. -/
theorem C12_counterexample_end_element_not_marshalled :
    (AAvLst.UnmarshalXML xml.Marshal {}
        ⟨[.EndElement ⟨"a", "avLst"⟩], none, [.stkStart ⟨"a", "avLst"⟩, .stkEOF]⟩
        ⟨⟨"a", "avLst"⟩, []⟩).err = none ∧
    (AAvLst.UnmarshalXML xml.Marshal {}
        ⟨[.EndElement ⟨"a", "avLst"⟩], none, [.stkStart ⟨"a", "avLst"⟩, .stkEOF]⟩
        ⟨⟨"a", "avLst"⟩, []⟩).dec.toks = [] ∧
    xml.Marshal (.StartElement ⟨⟨"a", "avLst"⟩, []⟩) =
      .ok "<StartElement><Name></Name></StartElement>" ∧
    xml.Marshal (.EndElement ⟨"a", "avLst"⟩) = .ok "<EndElement><Name></Name></EndElement>" ∧
    (AAvLst.UnmarshalXML xml.Marshal {}
        ⟨[.EndElement ⟨"a", "avLst"⟩], none, [.stkStart ⟨"a", "avLst"⟩, .stkEOF]⟩
        ⟨⟨"a", "avLst"⟩, []⟩).val.RawXML = "<StartElement><Name></Name></StartElement>" ∧
    (AAvLst.UnmarshalXML xml.Marshal {}
        ⟨[.EndElement ⟨"a", "avLst"⟩], none, [.stkStart ⟨"a", "avLst"⟩, .stkEOF]⟩
        ⟨⟨"a", "avLst"⟩, []⟩).val.RawXML ≠
      "<StartElement><Name></Name></StartElement>" ++ "<EndElement><Name></Name></EndElement>" :=
  ⟨by decide, by decide, rfl, rfl, by decide, by decide⟩

/-- C12, amended: for every marshalling function, every avLst start-element
`start` and every decoder state, when `AAvLst.UnmarshalXML` returns nil,
`RawXML` is the concatenation, in stream order, of the marshalled form of
`start` and of the marshalled forms of the tokens `ts` the decoder read before
the token that ended its loop.  None of the tokens `ts` is the end-element of
the name of `start`; the loop ended at the end of the stream, or at the first
end-element of the name of `start`, which was read and is not part of
`RawXML`. -/
theorem C12_raw_xml_passthrough (marshal : Token → Except Error String) (a : AAvLst)
    (d : Decoder) (start : StartElement)
    (h : (AAvLst.UnmarshalXML marshal a d start).err = none) :
    ∃ (s0 : String) (ts : List Token) (ss : List String),
      marshal (.StartElement start) = .ok s0 ∧
      List.Forall₂ (fun t s => marshal t = .ok s) ts ss ∧
      (AAvLst.UnmarshalXML marshal a d start).val.RawXML = ss.foldl (fun acc s => acc ++ s) s0 ∧
      (∀ t ∈ ts, t ≠ start.End) ∧
      (d.toks = ts ++ (AAvLst.UnmarshalXML marshal a d start).dec.toks ∨
        d.toks = ts ++ start.End :: (AAvLst.UnmarshalXML marshal a d start).dec.toks) := by
  unfold AAvLst.UnmarshalXML at h ⊢
  rcases hm : marshal (.StartElement start) with e | s0
  · rw [hm] at h; simp at h
  · rw [hm] at h
    simp only at h ⊢
    rcases hl : AAvLst.loop marshal start (d.toks.length + 1) s0 d with ⟨d1, e | out⟩
    · rw [hl] at h; simp at h
    · obtain ⟨ts, ss, h1, h2, h3, h4⟩ := AAvLst_loop_spec marshal start _ s0 d d1 out hl
      exact ⟨s0, ts, ss, rfl, h1, h2, h3, h4⟩

set_option maxRecDepth 100000 in
/-- C12, amended, at the adjustment list `<a:avLst><a:gd name="adj"/></a:avLst>`
and the function `xml.Marshal`. -/
theorem C12_raw_xml_passthrough_witness :
    ((AAvLst.UnmarshalXML xml.Marshal {}
        ⟨[.StartElement ⟨⟨"a", "gd"⟩, [⟨⟨"", "name"⟩, "adj"⟩]⟩, .EndElement ⟨"a", "gd"⟩,
          .EndElement ⟨"a", "avLst"⟩], none, [.stkStart ⟨"a", "avLst"⟩, .stkEOF]⟩
        ⟨⟨"a", "avLst"⟩, []⟩).err = none ∧
      (AAvLst.UnmarshalXML xml.Marshal {}
        ⟨[.StartElement ⟨⟨"a", "gd"⟩, [⟨⟨"", "name"⟩, "adj"⟩]⟩, .EndElement ⟨"a", "gd"⟩,
          .EndElement ⟨"a", "avLst"⟩], none, [.stkStart ⟨"a", "avLst"⟩, .stkEOF]⟩
        ⟨⟨"a", "avLst"⟩, []⟩).val.RawXML =
          "<StartElement><Name></Name></StartElement>" ++
          "<StartElement><Name></Name><Attr><Name></Name><Value>adj</Value></Attr></StartElement>" ++
          "<EndElement><Name></Name></EndElement>") ∧
    ∃ (s0 : String) (ts : List Token) (ss : List String),
      xml.Marshal (.StartElement ⟨⟨"a", "avLst"⟩, []⟩) = .ok s0 ∧
      List.Forall₂ (fun t s => xml.Marshal t = .ok s) ts ss ∧
      (AAvLst.UnmarshalXML xml.Marshal {}
        ⟨[.StartElement ⟨⟨"a", "gd"⟩, [⟨⟨"", "name"⟩, "adj"⟩]⟩, .EndElement ⟨"a", "gd"⟩,
          .EndElement ⟨"a", "avLst"⟩], none, [.stkStart ⟨"a", "avLst"⟩, .stkEOF]⟩
        ⟨⟨"a", "avLst"⟩, []⟩).val.RawXML = ss.foldl (fun acc s => acc ++ s) s0 ∧
      (∀ t ∈ ts, t ≠ StartElement.End ⟨⟨"a", "avLst"⟩, []⟩) ∧
      ([.StartElement ⟨⟨"a", "gd"⟩, [⟨⟨"", "name"⟩, "adj"⟩]⟩, .EndElement ⟨"a", "gd"⟩,
          .EndElement ⟨"a", "avLst"⟩] = ts ++ (AAvLst.UnmarshalXML xml.Marshal {}
            ⟨[.StartElement ⟨⟨"a", "gd"⟩, [⟨⟨"", "name"⟩, "adj"⟩]⟩, .EndElement ⟨"a", "gd"⟩,
              .EndElement ⟨"a", "avLst"⟩], none, [.stkStart ⟨"a", "avLst"⟩, .stkEOF]⟩
            ⟨⟨"a", "avLst"⟩, []⟩).dec.toks ∨
        [.StartElement ⟨⟨"a", "gd"⟩, [⟨⟨"", "name"⟩, "adj"⟩]⟩, .EndElement ⟨"a", "gd"⟩,
          .EndElement ⟨"a", "avLst"⟩] = ts ++ StartElement.End ⟨⟨"a", "avLst"⟩, []⟩ ::
            (AAvLst.UnmarshalXML xml.Marshal {}
              ⟨[.StartElement ⟨⟨"a", "gd"⟩, [⟨⟨"", "name"⟩, "adj"⟩]⟩, .EndElement ⟨"a", "gd"⟩,
                .EndElement ⟨"a", "avLst"⟩], none, [.stkStart ⟨"a", "avLst"⟩, .stkEOF]⟩
              ⟨⟨"a", "avLst"⟩, []⟩).dec.toks) :=
  ⟨⟨by decide, by decide⟩,
    C12_raw_xml_passthrough xml.Marshal {}
      ⟨[.StartElement ⟨⟨"a", "gd"⟩, [⟨⟨"", "name"⟩, "adj"⟩]⟩, .EndElement ⟨"a", "gd"⟩,
        .EndElement ⟨"a", "avLst"⟩], none, [.stkStart ⟨"a", "avLst"⟩, .stkEOF]⟩
      ⟨⟨"a", "avLst"⟩, []⟩ (by decide)⟩

/-- An attribute loop that meets an attribute its body fails on stops at the
first such attribute, with the record the rounds before it built and the round
on it changed. -/
theorem attrLoop_first_bad {α : Type} (body : Attr → α → α × Option Error) (good : Attr → Prop)
    (hgood : ∀ (a : Attr) (r : α), good a → (body a r).2 = none)
    (hbad : ∀ (a : Attr) (r : α), ¬ good a → (body a r).2 ≠ none) :
    ∀ (attrs : List Attr) (r : α), (∃ a ∈ attrs, ¬ good a) →
      ∃ (l1 : List Attr) (a : Attr) (l2 : List Attr), attrs = l1 ++ a :: l2 ∧
        (∀ x ∈ l1, good x) ∧ ¬ good a ∧
        attrLoop body attrs r = body a (l1.foldl (fun r x => (body x r).1) r) := by
  intro attrs
  induction attrs with
  | nil => intro r h; simp at h
  | cons x xs ih =>
    intro r h
    by_cases hx : good x
    · have hxs : ∃ a ∈ xs, ¬ good a := by
        obtain ⟨a, ha, hna⟩ := h
        rcases List.mem_cons.1 ha with rfl | ha
        · exact absurd hx hna
        · exact ⟨a, ha, hna⟩
      obtain ⟨l1, a, l2, h1, h2, h3, h4⟩ := ih (body x r).1 hxs
      refine ⟨x :: l1, a, l2, by rw [h1]; rfl, ?_, h3, ?_⟩
      · intro y hy
        rcases List.mem_cons.1 hy with rfl | hy
        · exact hx
        · exact h2 y hy
      · have hb := hgood x r hx
        unfold attrLoop
        rcases hbx : body x r with ⟨r1, _ | e⟩
        · rw [hbx] at h4
          simp only [List.foldl_cons, hbx]
          exact h4
        · rw [hbx] at hb; simp at hb
    · refine ⟨[], x, xs, rfl, by simp, hx, ?_⟩
      have hb := hbad x r hx
      show attrLoop body (x :: xs) r = body x r
      unfold attrLoop
      rcases hbx : body x r with ⟨r1, _ | e⟩
      · rw [hbx] at hb; simp at hb
      · rfl

theorem AXfrm_attr_Off (r : AXfrm) (a : Attr) : (AXfrm.attr a r).1.Off = r.Off := by
  unfold AXfrm.attr
  by_cases h0 : a.Name.Local = "rot"
  · rw [if_pos h0]
  rw [if_neg h0]
  by_cases h1 : a.Name.Local = "flipH"
  · rw [if_pos h1]
  rw [if_neg h1]
  by_cases h2 : a.Name.Local = "flipV"
  · rw [if_pos h2]
  rw [if_neg h2]

theorem AXfrm_attr_Ext (r : AXfrm) (a : Attr) : (AXfrm.attr a r).1.Ext = r.Ext := by
  unfold AXfrm.attr
  by_cases h0 : a.Name.Local = "rot"
  · rw [if_pos h0]
  rw [if_neg h0]
  by_cases h1 : a.Name.Local = "flipH"
  · rw [if_pos h1]
  rw [if_neg h1]
  by_cases h2 : a.Name.Local = "flipV"
  · rw [if_pos h2]
  rw [if_neg h2]

/-- The outcome of `WPExtent.UnmarshalXML` on a start-element with a malformed
numeric attribute. -/
theorem WPExtent_UnmarshalXML_first_bad (r : WPExtent) (d : Decoder) (start : StartElement)
    (h : ∃ a ∈ start.Attr, a.Name.Local ∈ WPExtent.numericAttrs ∧ ¬ ∃ n, IsInt64Literal a.Value n)
    (o : Outcome WPExtent) (ho : o = WPExtent.UnmarshalXML r d start) :
    (∃ e, o.err = some e ∧ e.isNum = true) ∧ o.dec = d ∧
      (∃ (l1 : List Attr) (a : Attr) (l2 : List Attr), start.Attr = l1 ++ a :: l2 ∧
        (∀ x ∈ l1, x.Name.Local ∈ WPExtent.numericAttrs → ∃ n, IsInt64Literal x.Value n) ∧
        (a.Name.Local ∈ WPExtent.numericAttrs ∧ ¬ ∃ n, IsInt64Literal a.Value n) ∧
        o.val = (WPExtent.attr a (l1.foldl (fun r x => (WPExtent.attr x r).1) r)).1) := by
  have hex : ∃ a ∈ start.Attr,
      ¬ (a.Name.Local ∈ WPExtent.numericAttrs → ∃ n, IsInt64Literal a.Value n) := by
    obtain ⟨a, ha, h1, h2⟩ := h
    exact ⟨a, ha, fun hc => h2 (hc h1)⟩
  obtain ⟨l1, a, l2, h1, h2, h3, h4⟩ := attrLoop_first_bad WPExtent.attr
    (fun a => a.Name.Local ∈ WPExtent.numericAttrs → ∃ n, IsInt64Literal a.Value n)
    (fun a r hg => WPExtent_attr_good a hg r)
    (fun a r hb => WPExtent_attr_bad a (Classical.not_imp.1 hb).1 (Classical.not_imp.1 hb).2 r) start.Attr r hex
  have hv : o.val = (attrLoop WPExtent.attr start.Attr r).1 ∧ o.dec = d ∧
      o.err = (attrLoop WPExtent.attr start.Attr r).2 := by
    subst ho
    unfold WPExtent.UnmarshalXML
    have hb := WPExtent_attr_bad a (Classical.not_imp.1 h3).1 (Classical.not_imp.1 h3).2
      (l1.foldl (fun r x => (WPExtent.attr x r).1) r)
    rw [h4]
    rcases hbx : WPExtent.attr a (l1.foldl (fun r x => (WPExtent.attr x r).1) r) with ⟨r1, _ | e⟩
    · rw [hbx] at hb; simp at hb
    · exact ⟨rfl, rfl, rfl⟩
  obtain ⟨hv, hd, he⟩ := hv
  refine ⟨?_, hd, ⟨l1, a, l2, h1, h2, Classical.not_imp.1 h3, by rw [hv, h4]⟩⟩
  · rcases hbx : (attrLoop WPExtent.attr start.Attr r).2 with _ | e
    · exfalso
      rw [h4] at hbx
      exact WPExtent_attr_bad a (Classical.not_imp.1 h3).1 (Classical.not_imp.1 h3).2 _ hbx
    · exact ⟨e, by rw [he, hbx],
        attrLoop_err_kind WPExtent.attr (fun e => e.isNum = true) WPExtent_attr_err_isNum _ _ e hbx⟩


/-- The outcome of `WPEffectExtent.UnmarshalXML` on a start-element with a malformed
numeric attribute. -/
theorem WPEffectExtent_UnmarshalXML_first_bad (r : WPEffectExtent) (d : Decoder) (start : StartElement)
    (h : ∃ a ∈ start.Attr, a.Name.Local ∈ WPEffectExtent.numericAttrs ∧ ¬ ∃ n, IsInt64Literal a.Value n)
    (o : Outcome WPEffectExtent) (ho : o = WPEffectExtent.UnmarshalXML r d start) :
    (∃ e, o.err = some e ∧ e.isNum = true) ∧ o.dec = d ∧
      (∃ (l1 : List Attr) (a : Attr) (l2 : List Attr), start.Attr = l1 ++ a :: l2 ∧
        (∀ x ∈ l1, x.Name.Local ∈ WPEffectExtent.numericAttrs → ∃ n, IsInt64Literal x.Value n) ∧
        (a.Name.Local ∈ WPEffectExtent.numericAttrs ∧ ¬ ∃ n, IsInt64Literal a.Value n) ∧
        o.val = (WPEffectExtent.attr a (l1.foldl (fun r x => (WPEffectExtent.attr x r).1) r)).1) := by
  have hex : ∃ a ∈ start.Attr,
      ¬ (a.Name.Local ∈ WPEffectExtent.numericAttrs → ∃ n, IsInt64Literal a.Value n) := by
    obtain ⟨a, ha, h1, h2⟩ := h
    exact ⟨a, ha, fun hc => h2 (hc h1)⟩
  obtain ⟨l1, a, l2, h1, h2, h3, h4⟩ := attrLoop_first_bad WPEffectExtent.attr
    (fun a => a.Name.Local ∈ WPEffectExtent.numericAttrs → ∃ n, IsInt64Literal a.Value n)
    (fun a r hg => WPEffectExtent_attr_good a hg r)
    (fun a r hb => WPEffectExtent_attr_bad a (Classical.not_imp.1 hb).1 (Classical.not_imp.1 hb).2 r) start.Attr r hex
  have hv : o.val = (attrLoop WPEffectExtent.attr start.Attr r).1 ∧ o.dec = d ∧
      o.err = (attrLoop WPEffectExtent.attr start.Attr r).2 := by
    subst ho
    unfold WPEffectExtent.UnmarshalXML
    have hb := WPEffectExtent_attr_bad a (Classical.not_imp.1 h3).1 (Classical.not_imp.1 h3).2
      (l1.foldl (fun r x => (WPEffectExtent.attr x r).1) r)
    rw [h4]
    rcases hbx : WPEffectExtent.attr a (l1.foldl (fun r x => (WPEffectExtent.attr x r).1) r) with ⟨r1, _ | e⟩
    · rw [hbx] at hb; simp at hb
    · exact ⟨rfl, rfl, rfl⟩
  obtain ⟨hv, hd, he⟩ := hv
  refine ⟨?_, hd, ⟨l1, a, l2, h1, h2, Classical.not_imp.1 h3, by rw [hv, h4]⟩⟩
  · rcases hbx : (attrLoop WPEffectExtent.attr start.Attr r).2 with _ | e
    · exfalso
      rw [h4] at hbx
      exact WPEffectExtent_attr_bad a (Classical.not_imp.1 h3).1 (Classical.not_imp.1 h3).2 _ hbx
    · exact ⟨e, by rw [he, hbx],
        attrLoop_err_kind WPEffectExtent.attr (fun e => e.isNum = true) WPEffectExtent_attr_err_isNum _ _ e hbx⟩


/-- The outcome of `WPDocPr.UnmarshalXML` on a start-element with a malformed
numeric attribute. -/
theorem WPDocPr_UnmarshalXML_first_bad (r : WPDocPr) (d : Decoder) (start : StartElement)
    (h : ∃ a ∈ start.Attr, a.Name.Local ∈ WPDocPr.numericAttrs ∧ ¬ ∃ n, IsInt64Literal a.Value n)
    (o : Outcome WPDocPr) (ho : o = WPDocPr.UnmarshalXML r d start) :
    (∃ e, o.err = some e ∧ e.isNum = true) ∧ o.dec = d ∧
      (∃ (l1 : List Attr) (a : Attr) (l2 : List Attr), start.Attr = l1 ++ a :: l2 ∧
        (∀ x ∈ l1, x.Name.Local ∈ WPDocPr.numericAttrs → ∃ n, IsInt64Literal x.Value n) ∧
        (a.Name.Local ∈ WPDocPr.numericAttrs ∧ ¬ ∃ n, IsInt64Literal a.Value n) ∧
        o.val = (WPDocPr.attr a (l1.foldl (fun r x => (WPDocPr.attr x r).1) r)).1) := by
  have hex : ∃ a ∈ start.Attr,
      ¬ (a.Name.Local ∈ WPDocPr.numericAttrs → ∃ n, IsInt64Literal a.Value n) := by
    obtain ⟨a, ha, h1, h2⟩ := h
    exact ⟨a, ha, fun hc => h2 (hc h1)⟩
  obtain ⟨l1, a, l2, h1, h2, h3, h4⟩ := attrLoop_first_bad WPDocPr.attr
    (fun a => a.Name.Local ∈ WPDocPr.numericAttrs → ∃ n, IsInt64Literal a.Value n)
    (fun a r hg => WPDocPr_attr_good a hg r)
    (fun a r hb => WPDocPr_attr_bad a (Classical.not_imp.1 hb).1 (Classical.not_imp.1 hb).2 r) start.Attr r hex
  have hv : o.val = (attrLoop WPDocPr.attr start.Attr r).1 ∧ o.dec = d ∧
      o.err = (attrLoop WPDocPr.attr start.Attr r).2 := by
    subst ho
    unfold WPDocPr.UnmarshalXML
    have hb := WPDocPr_attr_bad a (Classical.not_imp.1 h3).1 (Classical.not_imp.1 h3).2
      (l1.foldl (fun r x => (WPDocPr.attr x r).1) r)
    rw [h4]
    rcases hbx : WPDocPr.attr a (l1.foldl (fun r x => (WPDocPr.attr x r).1) r) with ⟨r1, _ | e⟩
    · rw [hbx] at hb; simp at hb
    · exact ⟨rfl, rfl, rfl⟩
  obtain ⟨hv, hd, he⟩ := hv
  refine ⟨?_, hd, ⟨l1, a, l2, h1, h2, Classical.not_imp.1 h3, by rw [hv, h4]⟩⟩
  · rcases hbx : (attrLoop WPDocPr.attr start.Attr r).2 with _ | e
    · exfalso
      rw [h4] at hbx
      exact WPDocPr_attr_bad a (Classical.not_imp.1 h3).1 (Classical.not_imp.1 h3).2 _ hbx
    · exact ⟨e, by rw [he, hbx],
        attrLoop_err_kind WPDocPr.attr (fun e => e.isNum = true) WPDocPr_attr_err_isNum _ _ e hbx⟩


/-- The outcome of `AXfrm.UnmarshalXML` on a start-element with a malformed
numeric attribute. -/
theorem AXfrm_UnmarshalXML_first_bad (r : AXfrm) (d : Decoder) (start : StartElement)
    (h : ∃ a ∈ start.Attr, a.Name.Local ∈ AXfrm.numericAttrs ∧ ¬ ∃ n, IsInt64Literal a.Value n)
    (o : Outcome AXfrm) (ho : o = AXfrm.UnmarshalXML r d start) :
    (∃ e, o.err = some e ∧ e.isNum = true) ∧ o.dec = d ∧
      (∃ (l1 : List Attr) (a : Attr) (l2 : List Attr), start.Attr = l1 ++ a :: l2 ∧
        (∀ x ∈ l1, x.Name.Local ∈ AXfrm.numericAttrs → ∃ n, IsInt64Literal x.Value n) ∧
        (a.Name.Local ∈ AXfrm.numericAttrs ∧ ¬ ∃ n, IsInt64Literal a.Value n) ∧
        o.val = (AXfrm.attr a (l1.foldl (fun r x => (AXfrm.attr x r).1) r)).1) ∧
        o.val.Off = r.Off ∧
        o.val.Ext = r.Ext := by
  have hex : ∃ a ∈ start.Attr,
      ¬ (a.Name.Local ∈ AXfrm.numericAttrs → ∃ n, IsInt64Literal a.Value n) := by
    obtain ⟨a, ha, h1, h2⟩ := h
    exact ⟨a, ha, fun hc => h2 (hc h1)⟩
  obtain ⟨l1, a, l2, h1, h2, h3, h4⟩ := attrLoop_first_bad AXfrm.attr
    (fun a => a.Name.Local ∈ AXfrm.numericAttrs → ∃ n, IsInt64Literal a.Value n)
    (fun a r hg => AXfrm_attr_good a hg r)
    (fun a r hb => AXfrm_attr_bad a (Classical.not_imp.1 hb).1 (Classical.not_imp.1 hb).2 r) start.Attr r hex
  have hv : o.val = (attrLoop AXfrm.attr start.Attr r).1 ∧ o.dec = d ∧
      o.err = (attrLoop AXfrm.attr start.Attr r).2 := by
    subst ho
    unfold AXfrm.UnmarshalXML
    have hb := AXfrm_attr_bad a (Classical.not_imp.1 h3).1 (Classical.not_imp.1 h3).2
      (l1.foldl (fun r x => (AXfrm.attr x r).1) r)
    rw [h4]
    rcases hbx : AXfrm.attr a (l1.foldl (fun r x => (AXfrm.attr x r).1) r) with ⟨r1, _ | e⟩
    · rw [hbx] at hb; simp at hb
    · exact ⟨rfl, rfl, rfl⟩
  obtain ⟨hv, hd, he⟩ := hv
  refine ⟨?_, hd, ⟨l1, a, l2, h1, h2, Classical.not_imp.1 h3, by rw [hv, h4]⟩, ?_, ?_⟩
  · rcases hbx : (attrLoop AXfrm.attr start.Attr r).2 with _ | e
    · exfalso
      rw [h4] at hbx
      exact AXfrm_attr_bad a (Classical.not_imp.1 h3).1 (Classical.not_imp.1 h3).2 _ hbx
    · exact ⟨e, by rw [he, hbx],
        attrLoop_err_kind AXfrm.attr (fun e => e.isNum = true) AXfrm_attr_err_isNum _ _ e hbx⟩
  · rw [hv]; exact attrLoop_frame AXfrm.attr (fun r => r.Off) AXfrm_attr_Off _ _
  · rw [hv]; exact attrLoop_frame AXfrm.attr (fun r => r.Ext) AXfrm_attr_Ext _ _

/-- The outcome of `WPInline.UnmarshalXML` on a start-element with a malformed
numeric attribute. -/
theorem WPInline_UnmarshalXML_first_bad (r : WPInline) (d : Decoder) (start : StartElement)
    (h : ∃ a ∈ start.Attr, a.Name.Local ∈ WPInline.numericAttrs ∧ ¬ ∃ n, IsInt64Literal a.Value n)
    (o : Outcome WPInline) (ho : o = WPInline.UnmarshalXML r d start) :
    (∃ e, o.err = some e ∧ e.isNum = true) ∧ o.dec = d ∧
      (∃ (l1 : List Attr) (a : Attr) (l2 : List Attr), start.Attr = l1 ++ a :: l2 ∧
        (∀ x ∈ l1, x.Name.Local ∈ WPInline.numericAttrs → ∃ n, IsInt64Literal x.Value n) ∧
        (a.Name.Local ∈ WPInline.numericAttrs ∧ ¬ ∃ n, IsInt64Literal a.Value n) ∧
        o.val = (WPInline.attr a (l1.foldl (fun r x => (WPInline.attr x r).1) r)).1) ∧
        o.val.Extent = r.Extent ∧
        o.val.EffectExtent = r.EffectExtent ∧
        o.val.DocPr = r.DocPr ∧
        o.val.CNvGraphicFramePr = r.CNvGraphicFramePr ∧
        o.val.Graphic = r.Graphic := by
  have hex : ∃ a ∈ start.Attr,
      ¬ (a.Name.Local ∈ WPInline.numericAttrs → ∃ n, IsInt64Literal a.Value n) := by
    obtain ⟨a, ha, h1, h2⟩ := h
    exact ⟨a, ha, fun hc => h2 (hc h1)⟩
  obtain ⟨l1, a, l2, h1, h2, h3, h4⟩ := attrLoop_first_bad WPInline.attr
    (fun a => a.Name.Local ∈ WPInline.numericAttrs → ∃ n, IsInt64Literal a.Value n)
    (fun a r hg => WPInline_attr_good a hg r)
    (fun a r hb => WPInline_attr_bad a (Classical.not_imp.1 hb).1 (Classical.not_imp.1 hb).2 r) start.Attr r hex
  have hv : o.val = (attrLoop WPInline.attr start.Attr r).1 ∧ o.dec = d ∧
      o.err = (attrLoop WPInline.attr start.Attr r).2 := by
    subst ho
    unfold WPInline.UnmarshalXML
    have hb := WPInline_attr_bad a (Classical.not_imp.1 h3).1 (Classical.not_imp.1 h3).2
      (l1.foldl (fun r x => (WPInline.attr x r).1) r)
    rw [h4]
    rcases hbx : WPInline.attr a (l1.foldl (fun r x => (WPInline.attr x r).1) r) with ⟨r1, _ | e⟩
    · rw [hbx] at hb; simp at hb
    · exact ⟨rfl, rfl, rfl⟩
  obtain ⟨hv, hd, he⟩ := hv
  refine ⟨?_, hd, ⟨l1, a, l2, h1, h2, Classical.not_imp.1 h3, by rw [hv, h4]⟩, ?_, ?_, ?_, ?_, ?_⟩
  · rcases hbx : (attrLoop WPInline.attr start.Attr r).2 with _ | e
    · exfalso
      rw [h4] at hbx
      exact WPInline_attr_bad a (Classical.not_imp.1 h3).1 (Classical.not_imp.1 h3).2 _ hbx
    · exact ⟨e, by rw [he, hbx],
        attrLoop_err_kind WPInline.attr (fun e => e.isNum = true) WPInline_attr_err_isNum _ _ e hbx⟩
  · rw [hv]; exact attrLoop_frame WPInline.attr (fun r => r.Extent) WPInline_attr_Extent _ _
  · rw [hv]; exact attrLoop_frame WPInline.attr (fun r => r.EffectExtent) WPInline_attr_EffectExtent _ _
  · rw [hv]; exact attrLoop_frame WPInline.attr (fun r => r.DocPr) WPInline_attr_DocPr _ _
  · rw [hv]; exact attrLoop_frame WPInline.attr (fun r => r.CNvGraphicFramePr) WPInline_attr_CNvGraphicFramePr _ _
  · rw [hv]; exact attrLoop_frame WPInline.attr (fun r => r.Graphic) WPInline_attr_Graphic _ _

/-- The outcome of `WPAnchor.UnmarshalXML` on a start-element with a malformed
numeric attribute. -/
theorem WPAnchor_UnmarshalXML_first_bad (r : WPAnchor) (d : Decoder) (start : StartElement)
    (h : ∃ a ∈ start.Attr, a.Name.Local ∈ WPAnchor.numericAttrs ∧ ¬ ∃ n, IsInt64Literal a.Value n)
    (o : Outcome WPAnchor) (ho : o = WPAnchor.UnmarshalXML r d start) :
    (∃ e, o.err = some e ∧ e.isNum = true) ∧ o.dec = d ∧
      (∃ (l1 : List Attr) (a : Attr) (l2 : List Attr), start.Attr = l1 ++ a :: l2 ∧
        (∀ x ∈ l1, x.Name.Local ∈ WPAnchor.numericAttrs → ∃ n, IsInt64Literal x.Value n) ∧
        (a.Name.Local ∈ WPAnchor.numericAttrs ∧ ¬ ∃ n, IsInt64Literal a.Value n) ∧
        o.val = (WPAnchor.attr a (l1.foldl (fun r x => (WPAnchor.attr x r).1) r)).1) ∧
        o.val.SimplePosXY = r.SimplePosXY ∧
        o.val.PositionH = r.PositionH ∧
        o.val.PositionV = r.PositionV ∧
        o.val.Extent = r.Extent ∧
        o.val.EffectExtent = r.EffectExtent ∧
        o.val.WrapNone = r.WrapNone ∧
        o.val.WrapSquare = r.WrapSquare ∧
        o.val.DocPr = r.DocPr ∧
        o.val.CNvGraphicFramePr = r.CNvGraphicFramePr ∧
        o.val.Graphic = r.Graphic := by
  have hex : ∃ a ∈ start.Attr,
      ¬ (a.Name.Local ∈ WPAnchor.numericAttrs → ∃ n, IsInt64Literal a.Value n) := by
    obtain ⟨a, ha, h1, h2⟩ := h
    exact ⟨a, ha, fun hc => h2 (hc h1)⟩
  obtain ⟨l1, a, l2, h1, h2, h3, h4⟩ := attrLoop_first_bad WPAnchor.attr
    (fun a => a.Name.Local ∈ WPAnchor.numericAttrs → ∃ n, IsInt64Literal a.Value n)
    (fun a r hg => WPAnchor_attr_good a hg r)
    (fun a r hb => WPAnchor_attr_bad a (Classical.not_imp.1 hb).1 (Classical.not_imp.1 hb).2 r) start.Attr r hex
  have hv : o.val = (attrLoop WPAnchor.attr start.Attr r).1 ∧ o.dec = d ∧
      o.err = (attrLoop WPAnchor.attr start.Attr r).2 := by
    subst ho
    unfold WPAnchor.UnmarshalXML
    have hb := WPAnchor_attr_bad a (Classical.not_imp.1 h3).1 (Classical.not_imp.1 h3).2
      (l1.foldl (fun r x => (WPAnchor.attr x r).1) r)
    rw [h4]
    rcases hbx : WPAnchor.attr a (l1.foldl (fun r x => (WPAnchor.attr x r).1) r) with ⟨r1, _ | e⟩
    · rw [hbx] at hb; simp at hb
    · exact ⟨rfl, rfl, rfl⟩
  obtain ⟨hv, hd, he⟩ := hv
  refine ⟨?_, hd, ⟨l1, a, l2, h1, h2, Classical.not_imp.1 h3, by rw [hv, h4]⟩, ?_, ?_, ?_, ?_, ?_, ?_, ?_, ?_, ?_, ?_⟩
  · rcases hbx : (attrLoop WPAnchor.attr start.Attr r).2 with _ | e
    · exfalso
      rw [h4] at hbx
      exact WPAnchor_attr_bad a (Classical.not_imp.1 h3).1 (Classical.not_imp.1 h3).2 _ hbx
    · exact ⟨e, by rw [he, hbx],
        attrLoop_err_kind WPAnchor.attr (fun e => e.isNum = true) WPAnchor_attr_err_isNum _ _ e hbx⟩
  · rw [hv]; exact attrLoop_frame WPAnchor.attr (fun r => r.SimplePosXY) WPAnchor_attr_SimplePosXY _ _
  · rw [hv]; exact attrLoop_frame WPAnchor.attr (fun r => r.PositionH) WPAnchor_attr_PositionH _ _
  · rw [hv]; exact attrLoop_frame WPAnchor.attr (fun r => r.PositionV) WPAnchor_attr_PositionV _ _
  · rw [hv]; exact attrLoop_frame WPAnchor.attr (fun r => r.Extent) WPAnchor_attr_Extent _ _
  · rw [hv]; exact attrLoop_frame WPAnchor.attr (fun r => r.EffectExtent) WPAnchor_attr_EffectExtent _ _
  · rw [hv]; exact attrLoop_frame WPAnchor.attr (fun r => r.WrapNone) WPAnchor_attr_WrapNone _ _
  · rw [hv]; exact attrLoop_frame WPAnchor.attr (fun r => r.WrapSquare) WPAnchor_attr_WrapSquare _ _
  · rw [hv]; exact attrLoop_frame WPAnchor.attr (fun r => r.DocPr) WPAnchor_attr_DocPr _ _
  · rw [hv]; exact attrLoop_frame WPAnchor.attr (fun r => r.CNvGraphicFramePr) WPAnchor_attr_CNvGraphicFramePr _ _
  · rw [hv]; exact attrLoop_frame WPAnchor.attr (fun r => r.Graphic) WPAnchor_attr_Graphic _ _

/-- C13, as stated, fails: for the extent start-element `cx="5" cy="abc"` and a
fresh record, `WPExtent.UnmarshalXML` returns an error and leaves `CX = 5`: the
attribute that did parse is in the record.  For `cx="abc"` and a record with
`CX = 7` it returns an error and leaves `CX = 0`, the value `strconv.ParseInt`
returns with its error. -/
theorem C13_counterexample_partial_record :
    ((WPExtent.UnmarshalXML {}
        ⟨[.EndElement ⟨"", "extent"⟩], none, [.stkStart ⟨"", "extent"⟩, .stkEOF]⟩
        ⟨⟨"", "extent"⟩, [⟨⟨"", "cx"⟩, "5"⟩, ⟨⟨"", "cy"⟩, "abc"⟩]⟩).err ≠ none ∧
      (WPExtent.UnmarshalXML {}
        ⟨[.EndElement ⟨"", "extent"⟩], none, [.stkStart ⟨"", "extent"⟩, .stkEOF]⟩
        ⟨⟨"", "extent"⟩, [⟨⟨"", "cx"⟩, "5"⟩, ⟨⟨"", "cy"⟩, "abc"⟩]⟩).val.CX = 5 ∧
      ({} : WPExtent).CX = 0) ∧
    ((WPExtent.UnmarshalXML { CX := 7, CY := 7 }
        ⟨[.EndElement ⟨"", "extent"⟩], none, [.stkStart ⟨"", "extent"⟩, .stkEOF]⟩
        ⟨⟨"", "extent"⟩, [⟨⟨"", "cx"⟩, "abc"⟩]⟩).err ≠ none ∧
      (WPExtent.UnmarshalXML { CX := 7, CY := 7 }
        ⟨[.EndElement ⟨"", "extent"⟩], none, [.stkStart ⟨"", "extent"⟩, .stkEOF]⟩
        ⟨⟨"", "extent"⟩, [⟨⟨"", "cx"⟩, "abc"⟩]⟩).val.CX = 0) := by
  decide

/-- C13, amended: for each of the decoders `WPExtent`, `WPEffectExtent`, `WPDocPr`,
`AXfrm`, `WPInline` and `WPAnchor`, every record `r`, decoder state and
start-element in which some numeric attribute is not the base-10 literal of a
signed 64-bit integer, `UnmarshalXML` returns an error of `strconv`, reads no
token, and leaves the record that the attribute loop had built when it
stopped: the attributes in front of the first malformed numeric attribute
have been stored, the round on the malformed attribute has run (it stores the
value `strconv` returns with its error; for the `id` of `WPDocPr` it stores
nothing), and the attributes behind it have not been looked at.  The fields
that hold child elements are as they were in `r`. -/
theorem C13_record_on_malformed_attribute :
    (∀ (r : WPExtent) (d : Decoder) (start : StartElement),
      (∃ a ∈ start.Attr, a.Name.Local ∈ WPExtent.numericAttrs ∧ ¬ ∃ n, IsInt64Literal a.Value n) →
      ∀ o, o = WPExtent.UnmarshalXML r d start →
        (∃ e, o.err = some e ∧ e.isNum = true) ∧ o.dec = d ∧
          (∃ (l1 : List Attr) (a : Attr) (l2 : List Attr), start.Attr = l1 ++ a :: l2 ∧
            (∀ x ∈ l1, x.Name.Local ∈ WPExtent.numericAttrs → ∃ n, IsInt64Literal x.Value n) ∧
            (a.Name.Local ∈ WPExtent.numericAttrs ∧ ¬ ∃ n, IsInt64Literal a.Value n) ∧
            o.val = (WPExtent.attr a (l1.foldl (fun r x => (WPExtent.attr x r).1) r)).1)) ∧
    (∀ (r : WPEffectExtent) (d : Decoder) (start : StartElement),
      (∃ a ∈ start.Attr, a.Name.Local ∈ WPEffectExtent.numericAttrs ∧ ¬ ∃ n, IsInt64Literal a.Value n) →
      ∀ o, o = WPEffectExtent.UnmarshalXML r d start →
        (∃ e, o.err = some e ∧ e.isNum = true) ∧ o.dec = d ∧
          (∃ (l1 : List Attr) (a : Attr) (l2 : List Attr), start.Attr = l1 ++ a :: l2 ∧
            (∀ x ∈ l1, x.Name.Local ∈ WPEffectExtent.numericAttrs → ∃ n, IsInt64Literal x.Value n) ∧
            (a.Name.Local ∈ WPEffectExtent.numericAttrs ∧ ¬ ∃ n, IsInt64Literal a.Value n) ∧
            o.val = (WPEffectExtent.attr a (l1.foldl (fun r x => (WPEffectExtent.attr x r).1) r)).1)) ∧
    (∀ (r : WPDocPr) (d : Decoder) (start : StartElement),
      (∃ a ∈ start.Attr, a.Name.Local ∈ WPDocPr.numericAttrs ∧ ¬ ∃ n, IsInt64Literal a.Value n) →
      ∀ o, o = WPDocPr.UnmarshalXML r d start →
        (∃ e, o.err = some e ∧ e.isNum = true) ∧ o.dec = d ∧
          (∃ (l1 : List Attr) (a : Attr) (l2 : List Attr), start.Attr = l1 ++ a :: l2 ∧
            (∀ x ∈ l1, x.Name.Local ∈ WPDocPr.numericAttrs → ∃ n, IsInt64Literal x.Value n) ∧
            (a.Name.Local ∈ WPDocPr.numericAttrs ∧ ¬ ∃ n, IsInt64Literal a.Value n) ∧
            o.val = (WPDocPr.attr a (l1.foldl (fun r x => (WPDocPr.attr x r).1) r)).1)) ∧
    (∀ (r : AXfrm) (d : Decoder) (start : StartElement),
      (∃ a ∈ start.Attr, a.Name.Local ∈ AXfrm.numericAttrs ∧ ¬ ∃ n, IsInt64Literal a.Value n) →
      ∀ o, o = AXfrm.UnmarshalXML r d start →
        (∃ e, o.err = some e ∧ e.isNum = true) ∧ o.dec = d ∧
          (∃ (l1 : List Attr) (a : Attr) (l2 : List Attr), start.Attr = l1 ++ a :: l2 ∧
            (∀ x ∈ l1, x.Name.Local ∈ AXfrm.numericAttrs → ∃ n, IsInt64Literal x.Value n) ∧
            (a.Name.Local ∈ AXfrm.numericAttrs ∧ ¬ ∃ n, IsInt64Literal a.Value n) ∧
            o.val = (AXfrm.attr a (l1.foldl (fun r x => (AXfrm.attr x r).1) r)).1) ∧
          o.val.Off = r.Off ∧
          o.val.Ext = r.Ext) ∧
    (∀ (r : WPInline) (d : Decoder) (start : StartElement),
      (∃ a ∈ start.Attr, a.Name.Local ∈ WPInline.numericAttrs ∧ ¬ ∃ n, IsInt64Literal a.Value n) →
      ∀ o, o = WPInline.UnmarshalXML r d start →
        (∃ e, o.err = some e ∧ e.isNum = true) ∧ o.dec = d ∧
          (∃ (l1 : List Attr) (a : Attr) (l2 : List Attr), start.Attr = l1 ++ a :: l2 ∧
            (∀ x ∈ l1, x.Name.Local ∈ WPInline.numericAttrs → ∃ n, IsInt64Literal x.Value n) ∧
            (a.Name.Local ∈ WPInline.numericAttrs ∧ ¬ ∃ n, IsInt64Literal a.Value n) ∧
            o.val = (WPInline.attr a (l1.foldl (fun r x => (WPInline.attr x r).1) r)).1) ∧
          o.val.Extent = r.Extent ∧
          o.val.EffectExtent = r.EffectExtent ∧
          o.val.DocPr = r.DocPr ∧
          o.val.CNvGraphicFramePr = r.CNvGraphicFramePr ∧
          o.val.Graphic = r.Graphic) ∧
    (∀ (r : WPAnchor) (d : Decoder) (start : StartElement),
      (∃ a ∈ start.Attr, a.Name.Local ∈ WPAnchor.numericAttrs ∧ ¬ ∃ n, IsInt64Literal a.Value n) →
      ∀ o, o = WPAnchor.UnmarshalXML r d start →
        (∃ e, o.err = some e ∧ e.isNum = true) ∧ o.dec = d ∧
          (∃ (l1 : List Attr) (a : Attr) (l2 : List Attr), start.Attr = l1 ++ a :: l2 ∧
            (∀ x ∈ l1, x.Name.Local ∈ WPAnchor.numericAttrs → ∃ n, IsInt64Literal x.Value n) ∧
            (a.Name.Local ∈ WPAnchor.numericAttrs ∧ ¬ ∃ n, IsInt64Literal a.Value n) ∧
            o.val = (WPAnchor.attr a (l1.foldl (fun r x => (WPAnchor.attr x r).1) r)).1) ∧
          o.val.SimplePosXY = r.SimplePosXY ∧
          o.val.PositionH = r.PositionH ∧
          o.val.PositionV = r.PositionV ∧
          o.val.Extent = r.Extent ∧
          o.val.EffectExtent = r.EffectExtent ∧
          o.val.WrapNone = r.WrapNone ∧
          o.val.WrapSquare = r.WrapSquare ∧
          o.val.DocPr = r.DocPr ∧
          o.val.CNvGraphicFramePr = r.CNvGraphicFramePr ∧
          o.val.Graphic = r.Graphic) :=
  ⟨fun r d start h o ho => WPExtent_UnmarshalXML_first_bad r d start h o ho, fun r d start h o ho => WPEffectExtent_UnmarshalXML_first_bad r d start h o ho, fun r d start h o ho => WPDocPr_UnmarshalXML_first_bad r d start h o ho, fun r d start h o ho => AXfrm_UnmarshalXML_first_bad r d start h o ho, fun r d start h o ho => WPInline_UnmarshalXML_first_bad r d start h o ho, fun r d start h o ho => WPAnchor_UnmarshalXML_first_bad r d start h o ho⟩

/-- C13, amended, at the extent start-element `cx="5" cy="abc"`. -/
theorem C13_record_on_malformed_attribute_witness :
    (∃ a ∈ [(⟨⟨"", "cx"⟩, "5"⟩ : Attr), ⟨⟨"", "cy"⟩, "abc"⟩],
        a.Name.Local ∈ WPExtent.numericAttrs ∧ ¬ ∃ n, IsInt64Literal a.Value n) ∧
    ∀ o, o = WPExtent.UnmarshalXML {}
        ⟨[.EndElement ⟨"", "extent"⟩], none, [.stkStart ⟨"", "extent"⟩, .stkEOF]⟩
        ⟨⟨"", "extent"⟩, [⟨⟨"", "cx"⟩, "5"⟩, ⟨⟨"", "cy"⟩, "abc"⟩]⟩ →
      (∃ e, o.err = some e ∧ e.isNum = true) ∧
        o.dec = ⟨[.EndElement ⟨"", "extent"⟩], none, [.stkStart ⟨"", "extent"⟩, .stkEOF]⟩ ∧
        (∃ (l1 : List Attr) (a : Attr) (l2 : List Attr),
          [(⟨⟨"", "cx"⟩, "5"⟩ : Attr), ⟨⟨"", "cy"⟩, "abc"⟩] = l1 ++ a :: l2 ∧
          (∀ x ∈ l1, x.Name.Local ∈ WPExtent.numericAttrs → ∃ n, IsInt64Literal x.Value n) ∧
          (a.Name.Local ∈ WPExtent.numericAttrs ∧ ¬ ∃ n, IsInt64Literal a.Value n) ∧
          o.val = (WPExtent.attr a (l1.foldl (fun r x => (WPExtent.attr x r).1) {})).1) :=
  ⟨⟨⟨⟨"", "cy"⟩, "abc"⟩, by simp, by decide, not_literal_of_decimalInt_none (by decide)⟩,
    C13_record_on_malformed_attribute.1 {}
      ⟨[.EndElement ⟨"", "extent"⟩], none, [.stkStart ⟨"", "extent"⟩, .stkEOF]⟩
      ⟨⟨"", "extent"⟩, [⟨⟨"", "cx"⟩, "5"⟩, ⟨⟨"", "cy"⟩, "abc"⟩]⟩
      ⟨⟨⟨"", "cy"⟩, "abc"⟩, by simp, by decide, not_literal_of_decimalInt_none (by decide)⟩⟩

/-- When the token source raises no read error and no pending start-element is
known to the body, the loop returns nil and the record is as it was. -/
theorem tokenLoop_unknown_readable {α : Type} (body : StartElement → α → Decoder → Step α)
    (known : String → Bool)
    (hunk : ∀ (tt : StartElement) (r : α) (d : Decoder), known tt.Name.Local = false →
      body tt r d = .next r d)
    (r : α) (err : Option Error) :
    ∀ (toks : List Token) (stk : List Stack) (fuel : Nat), readable err stk toks = true →
      (∀ tt, Token.StartElement tt ∈ toks → known tt.Name.Local = false) →
      toks.length < fuel →
      (tokenLoop body fuel r ⟨toks, err, stk⟩).val = r ∧
        (tokenLoop body fuel r ⟨toks, err, stk⟩).err = none := by
  intro toks
  induction toks with
  | nil =>
    intro stk fuel h _ hf
    obtain ⟨k, rfl⟩ : ∃ k, fuel = k + 1 := ⟨fuel - 1, by simp at hf; omega⟩
    by_cases hs : stk.head? = some .stkEOF
    · rw [tokenLoop_eof body k r (Token_eof_top ⟨[], err, stk⟩ hs)]
      exact ⟨rfl, rfl⟩
    · simp only [readable, hs, decide_False, Bool.false_or, Bool.and_eq_true,
        Option.isNone_iff_eq_none, List.isEmpty_iff] at h
      obtain ⟨rfl, rfl⟩ := h
      have hT := Token_nil none [] (by simp)
      simp only [if_true] at hT
      rw [tokenLoop_eof body k r hT]
      exact ⟨rfl, rfl⟩
  | cons t ts ih =>
    intro stk fuel h hno hf
    obtain ⟨k, rfl⟩ : ∃ k, fuel = k + 1 := ⟨fuel - 1, by simp at hf; omega⟩
    have hk : ts.length < k := by simp at hf; omega
    have hno1 : ∀ tt, Token.StartElement tt ∈ ts → known tt.Name.Local = false :=
      fun tt ht => hno tt (List.mem_cons_of_mem _ ht)
    by_cases hs : stk.head? = some .stkEOF
    · rw [tokenLoop_eof body k r (Token_eof_top ⟨t :: ts, err, stk⟩ hs)]
      exact ⟨rfl, rfl⟩
    · cases t with
      | StartElement se =>
        simp only [readable, if_neg hs] at h
        rw [tokenLoop_start body k r (Token_start se ts err stk hs),
          hunk se r _ (hno se (List.mem_cons_self _ _))]
        exact ih _ k h hno1 hk
      | EndElement m =>
        cases stk with
        | nil => simp [readable] at h
        | cons s below =>
          cases s with
          | stkEOF => simp at hs
          | stkStart n =>
            simp only [readable, if_neg hs, Bool.and_eq_true, decide_eq_true_eq] at h
            obtain ⟨rfl, h2⟩ := h
            rw [tokenLoop_other body k r (Token_end n ts err below) (by simp)]
            exact ih _ k h2 hno1 hk
      | CharData s =>
        simp only [readable, if_neg hs] at h
        rw [tokenLoop_other body k r (Token_other (.CharData s) ts err stk hs (by simp) (by simp))
          (by simp)]
        exact ih _ k h hno1 hk
      | Comment s =>
        simp only [readable, if_neg hs] at h
        rw [tokenLoop_other body k r (Token_other (.Comment s) ts err stk hs (by simp) (by simp))
          (by simp)]
        exact ih _ k h hno1 hk
      | ProcInst a b =>
        simp only [readable, if_neg hs] at h
        rw [tokenLoop_other body k r (Token_other (.ProcInst a b) ts err stk hs (by simp) (by simp))
          (by simp)]
        exact ih _ k h hno1 hk
      | Directive s =>
        simp only [readable, if_neg hs] at h
        rw [tokenLoop_other body k r (Token_other (.Directive s) ts err stk hs (by simp) (by simp))
          (by simp)]
        exact ih _ k h hno1 hk

/-- C14: for every decoder state whose pending tokens hold no start-element of
local name `inline` or `anchor` and whose token source raises no read error,
`Drawing.UnmarshalXML`, run on a fresh record, returns nil and leaves both
`Inline` and `Anchor` nil. -/
theorem C14_empty_drawing (d : Decoder) (start : StartElement)
    (hinline : d.toks.any (Token.isStart "inline") = false)
    (hanchor : d.toks.any (Token.isStart "anchor") = false)
    (hread : readable d.err d.stk d.toks = true) :
    (Drawing.UnmarshalXML {} d start).err = none ∧
      (Drawing.UnmarshalXML {} d start).val.Inline = none ∧
      (Drawing.UnmarshalXML {} d start).val.Anchor = none := by
  have h := tokenLoop_unknown_readable Drawing.body Drawing.known Drawing_body_unknown {} d.err
    d.toks d.stk (d.toks.length + 1) hread
    (fun tt ht => by
      have h1 := any_isStart_false hinline tt ht
      have h2 := any_isStart_false hanchor tt ht
      simp only [decide_eq_false_iff_not] at h1 h2
      simp [Drawing.known, Drawing.childNames, h1, h2])
    (Nat.lt_add_one _)
  unfold Drawing.UnmarshalXML
  obtain ⟨hv, he⟩ := h
  exact ⟨he, by rw [hv], by rw [hv]⟩

/-- C14 at the drawing `<w:drawing><w:foo>text</w:foo></w:drawing>`. -/
theorem C14_empty_drawing_witness :
    (([.StartElement ⟨⟨"w", "foo"⟩, []⟩, .CharData "text", .EndElement ⟨"w", "foo"⟩,
        .EndElement ⟨"w", "drawing"⟩] : List Token).any (Token.isStart "inline") = false ∧
      ([.StartElement ⟨⟨"w", "foo"⟩, []⟩, .CharData "text", .EndElement ⟨"w", "foo"⟩,
        .EndElement ⟨"w", "drawing"⟩] : List Token).any (Token.isStart "anchor") = false ∧
      readable none [.stkStart ⟨"w", "drawing"⟩, .stkEOF]
        [.StartElement ⟨⟨"w", "foo"⟩, []⟩, .CharData "text", .EndElement ⟨"w", "foo"⟩,
          .EndElement ⟨"w", "drawing"⟩] = true) ∧
    ((Drawing.UnmarshalXML {}
        ⟨[.StartElement ⟨⟨"w", "foo"⟩, []⟩, .CharData "text", .EndElement ⟨"w", "foo"⟩,
          .EndElement ⟨"w", "drawing"⟩], none, [.stkStart ⟨"w", "drawing"⟩, .stkEOF]⟩
        ⟨⟨"w", "drawing"⟩, []⟩).err = none ∧
      (Drawing.UnmarshalXML {}
        ⟨[.StartElement ⟨⟨"w", "foo"⟩, []⟩, .CharData "text", .EndElement ⟨"w", "foo"⟩,
          .EndElement ⟨"w", "drawing"⟩], none, [.stkStart ⟨"w", "drawing"⟩, .stkEOF]⟩
        ⟨⟨"w", "drawing"⟩, []⟩).val.Inline = none ∧
      (Drawing.UnmarshalXML {}
        ⟨[.StartElement ⟨⟨"w", "foo"⟩, []⟩, .CharData "text", .EndElement ⟨"w", "foo"⟩,
          .EndElement ⟨"w", "drawing"⟩], none, [.stkStart ⟨"w", "drawing"⟩, .stkEOF]⟩
        ⟨⟨"w", "drawing"⟩, []⟩).val.Anchor = none) :=
  ⟨⟨by decide, by decide, by decide⟩,
    C14_empty_drawing
      ⟨[.StartElement ⟨⟨"w", "foo"⟩, []⟩, .CharData "text", .EndElement ⟨"w", "foo"⟩,
        .EndElement ⟨"w", "drawing"⟩], none, [.stkStart ⟨"w", "drawing"⟩, .stkEOF]⟩
      ⟨⟨"w", "drawing"⟩, []⟩ (by decide) (by decide) (by decide)⟩

/-- An attribute loop gives the same result on the attributes its body does
something with. -/
theorem attrLoop_filter {α : Type} (body : Attr → α → α × Option Error) (p : Attr → Bool)
    (h : ∀ (a : Attr) (r : α), p a = false → body a r = (r, none)) :
    ∀ (attrs : List Attr) (r : α), attrLoop body attrs r = attrLoop body (attrs.filter p) r := by
  intro attrs
  induction attrs with
  | nil => intro r; rfl
  | cons x xs ih =>
    intro r
    by_cases hx : p x = true
    · rw [List.filter_cons_of_pos hx]
      unfold attrLoop
      rcases body x r with ⟨r1, _ | e⟩
      · exact ih r1
      · rfl
    · simp only [Bool.not_eq_true] at hx
      rw [List.filter_cons_of_neg (by simp [hx])]
      conv_lhs => unfold attrLoop
      rw [h x r hx]
      exact ih r

theorem WPInline_attr_unknown (a : Attr) (r : WPInline)
    (h : WPInline.attrNames.contains a.Name.Local = false) : WPInline.attr a r = (r, none) := by
  simp only [WPInline.attrNames, List.contains_eq_any_beq, List.any_cons, List.any_nil,
    Bool.or_false, Bool.or_eq_false_iff, beq_eq_false_iff_ne, ne_eq] at h
  have h' : ¬ a.Name.Local = "distT" ∧ ¬ a.Name.Local = "distB" ∧ ¬ a.Name.Local = "distL" ∧ ¬ a.Name.Local = "distR" := by
    refine ⟨?_, ?_, ?_, ?_⟩ <;> intro hc <;> simp [hc] at h
  unfold WPInline.attr
  rw [if_neg h'.1]
  rw [if_neg h'.2.1]
  rw [if_neg h'.2.2.1]
  rw [if_neg h'.2.2.2]

theorem WPAnchor_attr_unknown (a : Attr) (r : WPAnchor)
    (h : WPAnchor.attrNames.contains a.Name.Local = false) : WPAnchor.attr a r = (r, none) := by
  simp only [WPAnchor.attrNames, List.contains_eq_any_beq, List.any_cons, List.any_nil,
    Bool.or_false, Bool.or_eq_false_iff, beq_eq_false_iff_ne, ne_eq] at h
  have h' : ¬ a.Name.Local = "distT" ∧ ¬ a.Name.Local = "distB" ∧ ¬ a.Name.Local = "distL" ∧ ¬ a.Name.Local = "distR" ∧ ¬ a.Name.Local = "simplePos" ∧ ¬ a.Name.Local = "relativeHeight" ∧ ¬ a.Name.Local = "behindDoc" ∧ ¬ a.Name.Local = "locked" ∧ ¬ a.Name.Local = "layoutInCell" ∧ ¬ a.Name.Local = "allowOverlap" := by
    refine ⟨?_, ?_, ?_, ?_, ?_, ?_, ?_, ?_, ?_, ?_⟩ <;> intro hc <;> simp [hc] at h
  unfold WPAnchor.attr
  rw [if_neg h'.1]
  rw [if_neg h'.2.1]
  rw [if_neg h'.2.2.1]
  rw [if_neg h'.2.2.2.1]
  rw [if_neg h'.2.2.2.2.1]
  rw [if_neg h'.2.2.2.2.2.1]
  rw [if_neg h'.2.2.2.2.2.2.1]
  rw [if_neg h'.2.2.2.2.2.2.2.1]
  rw [if_neg h'.2.2.2.2.2.2.2.2.1]
  rw [if_neg h'.2.2.2.2.2.2.2.2.2]

theorem WPExtent_attr_unknown (a : Attr) (r : WPExtent)
    (h : WPExtent.attrNames.contains a.Name.Local = false) : WPExtent.attr a r = (r, none) := by
  simp only [WPExtent.attrNames, List.contains_eq_any_beq, List.any_cons, List.any_nil,
    Bool.or_false, Bool.or_eq_false_iff, beq_eq_false_iff_ne, ne_eq] at h
  have h' : ¬ a.Name.Local = "cx" ∧ ¬ a.Name.Local = "cy" := by
    refine ⟨?_, ?_⟩ <;> intro hc <;> simp [hc] at h
  unfold WPExtent.attr
  rw [if_neg h'.1]
  rw [if_neg h'.2]

theorem WPEffectExtent_attr_unknown (a : Attr) (r : WPEffectExtent)
    (h : WPEffectExtent.attrNames.contains a.Name.Local = false) : WPEffectExtent.attr a r = (r, none) := by
  simp only [WPEffectExtent.attrNames, List.contains_eq_any_beq, List.any_cons, List.any_nil,
    Bool.or_false, Bool.or_eq_false_iff, beq_eq_false_iff_ne, ne_eq] at h
  have h' : ¬ a.Name.Local = "l" ∧ ¬ a.Name.Local = "t" ∧ ¬ a.Name.Local = "r" ∧ ¬ a.Name.Local = "b" := by
    refine ⟨?_, ?_, ?_, ?_⟩ <;> intro hc <;> simp [hc] at h
  unfold WPEffectExtent.attr
  rw [if_neg h'.1]
  rw [if_neg h'.2.1]
  rw [if_neg h'.2.2.1]
  rw [if_neg h'.2.2.2]

theorem WPDocPr_attr_unknown (a : Attr) (r : WPDocPr)
    (h : WPDocPr.attrNames.contains a.Name.Local = false) : WPDocPr.attr a r = (r, none) := by
  simp only [WPDocPr.attrNames, List.contains_eq_any_beq, List.any_cons, List.any_nil,
    Bool.or_false, Bool.or_eq_false_iff, beq_eq_false_iff_ne, ne_eq] at h
  have h' : ¬ a.Name.Local = "id" ∧ ¬ a.Name.Local = "name" := by
    refine ⟨?_, ?_⟩ <;> intro hc <;> simp [hc] at h
  unfold WPDocPr.attr
  rw [if_neg h'.1]
  rw [if_neg h'.2]

theorem AXfrm_attr_unknown (a : Attr) (r : AXfrm)
    (h : AXfrm.attrNames.contains a.Name.Local = false) : AXfrm.attr a r = (r, none) := by
  simp only [AXfrm.attrNames, List.contains_eq_any_beq, List.any_cons, List.any_nil,
    Bool.or_false, Bool.or_eq_false_iff, beq_eq_false_iff_ne, ne_eq] at h
  have h' : ¬ a.Name.Local = "rot" ∧ ¬ a.Name.Local = "flipH" ∧ ¬ a.Name.Local = "flipV" := by
    refine ⟨?_, ?_, ?_⟩ <;> intro hc <;> simp [hc] at h
  unfold AXfrm.attr
  rw [if_neg h'.1]
  rw [if_neg h'.2.1]
  rw [if_neg h'.2.2]

theorem AGraphic_attrs_filter :
    ∀ (attrs : List Attr) (r : AGraphic),
      AGraphic.attrs attrs r =
        AGraphic.attrs (attrs.filter (fun a => AGraphic.attrNames.contains a.Name.Local)) r := by
  intro attrs
  induction attrs with
  | nil => intro r; rfl
  | cons x xs ih =>
    intro r
    by_cases hx : AGraphic.attrNames.contains x.Name.Local = true
    · have hf : (x :: xs).filter (fun a => AGraphic.attrNames.contains a.Name.Local) =
          x :: xs.filter (fun a => AGraphic.attrNames.contains a.Name.Local) := by
        rw [List.filter_cons, if_pos hx]
      rw [hf]
      unfold AGraphic.attrs
      split_ifs <;> exact ih _
    · have hf : (x :: xs).filter (fun a => AGraphic.attrNames.contains a.Name.Local) =
          xs.filter (fun a => AGraphic.attrNames.contains a.Name.Local) := by
        rw [List.filter_cons, if_neg hx]
      rw [hf]
      simp only [Bool.not_eq_true] at hx
      simp only [AGraphic.attrNames, List.contains_eq_any_beq, List.any_cons, List.any_nil,
        Bool.or_false, Bool.or_eq_false_iff, beq_eq_false_iff_ne, ne_eq] at hx
      have h' : ¬ x.Name.Local = "a" := by
        intro hc; simp [hc] at hx
      conv_lhs => unfold AGraphic.attrs
      rw [if_neg h']
      exact ih r

theorem ABlip_attrs_filter :
    ∀ (attrs : List Attr) (r : ABlip),
      ABlip.attrs attrs r =
        ABlip.attrs (attrs.filter (fun a => ABlip.attrNames.contains a.Name.Local)) r := by
  intro attrs
  induction attrs with
  | nil => intro r; rfl
  | cons x xs ih =>
    intro r
    by_cases hx : ABlip.attrNames.contains x.Name.Local = true
    · have hf : (x :: xs).filter (fun a => ABlip.attrNames.contains a.Name.Local) =
          x :: xs.filter (fun a => ABlip.attrNames.contains a.Name.Local) := by
        rw [List.filter_cons, if_pos hx]
      rw [hf]
      unfold ABlip.attrs
      split_ifs <;> exact ih _
    · have hf : (x :: xs).filter (fun a => ABlip.attrNames.contains a.Name.Local) =
          xs.filter (fun a => ABlip.attrNames.contains a.Name.Local) := by
        rw [List.filter_cons, if_neg hx]
      rw [hf]
      simp only [Bool.not_eq_true] at hx
      simp only [ABlip.attrNames, List.contains_eq_any_beq, List.any_cons, List.any_nil,
        Bool.or_false, Bool.or_eq_false_iff, beq_eq_false_iff_ne, ne_eq] at hx
      have h' : ¬ x.Name.Local = "embed" ∧ ¬ x.Name.Local = "cstate" := by
        refine ⟨?_, ?_⟩ <;> intro hc <;> simp [hc] at hx
      conv_lhs => unfold ABlip.attrs
      rw [if_neg h'.1]
      rw [if_neg h'.2]
      exact ih r

theorem WPPositionH_attrs_filter :
    ∀ (attrs : List Attr) (r : WPPositionH),
      WPPositionH.attrs attrs r =
        WPPositionH.attrs (attrs.filter (fun a => WPPositionH.attrNames.contains a.Name.Local)) r := by
  intro attrs
  induction attrs with
  | nil => intro r; rfl
  | cons x xs ih =>
    intro r
    by_cases hx : WPPositionH.attrNames.contains x.Name.Local = true
    · have hf : (x :: xs).filter (fun a => WPPositionH.attrNames.contains a.Name.Local) =
          x :: xs.filter (fun a => WPPositionH.attrNames.contains a.Name.Local) := by
        rw [List.filter_cons, if_pos hx]
      rw [hf]
      unfold WPPositionH.attrs
      split_ifs <;> exact ih _
    · have hf : (x :: xs).filter (fun a => WPPositionH.attrNames.contains a.Name.Local) =
          xs.filter (fun a => WPPositionH.attrNames.contains a.Name.Local) := by
        rw [List.filter_cons, if_neg hx]
      rw [hf]
      simp only [Bool.not_eq_true] at hx
      simp only [WPPositionH.attrNames, List.contains_eq_any_beq, List.any_cons, List.any_nil,
        Bool.or_false, Bool.or_eq_false_iff, beq_eq_false_iff_ne, ne_eq] at hx
      have h' : ¬ x.Name.Local = "relativeFrom" := by
        intro hc; simp [hc] at hx
      conv_lhs => unfold WPPositionH.attrs
      rw [if_neg h']
      exact ih r

theorem WPPositionV_attrs_filter :
    ∀ (attrs : List Attr) (r : WPPositionV),
      WPPositionV.attrs attrs r =
        WPPositionV.attrs (attrs.filter (fun a => WPPositionV.attrNames.contains a.Name.Local)) r := by
  intro attrs
  induction attrs with
  | nil => intro r; rfl
  | cons x xs ih =>
    intro r
    by_cases hx : WPPositionV.attrNames.contains x.Name.Local = true
    · have hf : (x :: xs).filter (fun a => WPPositionV.attrNames.contains a.Name.Local) =
          x :: xs.filter (fun a => WPPositionV.attrNames.contains a.Name.Local) := by
        rw [List.filter_cons, if_pos hx]
      rw [hf]
      unfold WPPositionV.attrs
      split_ifs <;> exact ih _
    · have hf : (x :: xs).filter (fun a => WPPositionV.attrNames.contains a.Name.Local) =
          xs.filter (fun a => WPPositionV.attrNames.contains a.Name.Local) := by
        rw [List.filter_cons, if_neg hx]
      rw [hf]
      simp only [Bool.not_eq_true] at hx
      simp only [WPPositionV.attrNames, List.contains_eq_any_beq, List.any_cons, List.any_nil,
        Bool.or_false, Bool.or_eq_false_iff, beq_eq_false_iff_ne, ne_eq] at hx
      have h' : ¬ x.Name.Local = "relativeFrom" := by
        intro hc; simp [hc] at hx
      conv_lhs => unfold WPPositionV.attrs
      rw [if_neg h']
      exact ih r

/-- C15: for each of the decoders `WPInline`, `WPAnchor`, `WPExtent`,
`WPEffectExtent`, `WPDocPr`, `AGraphic`, `ABlip`, `AXfrm`, `WPPositionH` and
`WPPositionV`, every record and decoder state: two start-elements that carry
the same attributes of recognised local names, in the same order, and differ
in their other attributes only (any number of them, at any position, with any
values) are decoded to the same outcome: the same record, the same error or
nil, the same tokens read. -/
theorem C15_unrecognised_attributes_ignored :
    (∀ (r : WPInline) (d : Decoder) (start1 start2 : StartElement),
      start2.Attr.filter (fun a => WPInline.attrNames.contains a.Name.Local) =
        start1.Attr.filter (fun a => WPInline.attrNames.contains a.Name.Local) →
      WPInline.UnmarshalXML r d start2 = WPInline.UnmarshalXML r d start1) ∧
    (∀ (r : WPAnchor) (d : Decoder) (start1 start2 : StartElement),
      start2.Attr.filter (fun a => WPAnchor.attrNames.contains a.Name.Local) =
        start1.Attr.filter (fun a => WPAnchor.attrNames.contains a.Name.Local) →
      WPAnchor.UnmarshalXML r d start2 = WPAnchor.UnmarshalXML r d start1) ∧
    (∀ (r : WPExtent) (d : Decoder) (start1 start2 : StartElement),
      start2.Attr.filter (fun a => WPExtent.attrNames.contains a.Name.Local) =
        start1.Attr.filter (fun a => WPExtent.attrNames.contains a.Name.Local) →
      WPExtent.UnmarshalXML r d start2 = WPExtent.UnmarshalXML r d start1) ∧
    (∀ (r : WPEffectExtent) (d : Decoder) (start1 start2 : StartElement),
      start2.Attr.filter (fun a => WPEffectExtent.attrNames.contains a.Name.Local) =
        start1.Attr.filter (fun a => WPEffectExtent.attrNames.contains a.Name.Local) →
      WPEffectExtent.UnmarshalXML r d start2 = WPEffectExtent.UnmarshalXML r d start1) ∧
    (∀ (r : WPDocPr) (d : Decoder) (start1 start2 : StartElement),
      start2.Attr.filter (fun a => WPDocPr.attrNames.contains a.Name.Local) =
        start1.Attr.filter (fun a => WPDocPr.attrNames.contains a.Name.Local) →
      WPDocPr.UnmarshalXML r d start2 = WPDocPr.UnmarshalXML r d start1) ∧
    (∀ (r : AGraphic) (d : Decoder) (start1 start2 : StartElement),
      start2.Attr.filter (fun a => AGraphic.attrNames.contains a.Name.Local) =
        start1.Attr.filter (fun a => AGraphic.attrNames.contains a.Name.Local) →
      AGraphic.UnmarshalXML r d start2 = AGraphic.UnmarshalXML r d start1) ∧
    (∀ (r : ABlip) (d : Decoder) (start1 start2 : StartElement),
      start2.Attr.filter (fun a => ABlip.attrNames.contains a.Name.Local) =
        start1.Attr.filter (fun a => ABlip.attrNames.contains a.Name.Local) →
      ABlip.UnmarshalXML r d start2 = ABlip.UnmarshalXML r d start1) ∧
    (∀ (r : AXfrm) (d : Decoder) (start1 start2 : StartElement),
      start2.Attr.filter (fun a => AXfrm.attrNames.contains a.Name.Local) =
        start1.Attr.filter (fun a => AXfrm.attrNames.contains a.Name.Local) →
      AXfrm.UnmarshalXML r d start2 = AXfrm.UnmarshalXML r d start1) ∧
    (∀ (r : WPPositionH) (d : Decoder) (start1 start2 : StartElement),
      start2.Attr.filter (fun a => WPPositionH.attrNames.contains a.Name.Local) =
        start1.Attr.filter (fun a => WPPositionH.attrNames.contains a.Name.Local) →
      WPPositionH.UnmarshalXML r d start2 = WPPositionH.UnmarshalXML r d start1) ∧
    (∀ (r : WPPositionV) (d : Decoder) (start1 start2 : StartElement),
      start2.Attr.filter (fun a => WPPositionV.attrNames.contains a.Name.Local) =
        start1.Attr.filter (fun a => WPPositionV.attrNames.contains a.Name.Local) →
      WPPositionV.UnmarshalXML r d start2 = WPPositionV.UnmarshalXML r d start1) := by
  refine ⟨?_, ?_, ?_, ?_, ?_, ?_, ?_, ?_, ?_, ?_⟩
  · intro r d start1 start2 h
    unfold WPInline.UnmarshalXML
    rw [attrLoop_filter WPInline.attr (fun a => WPInline.attrNames.contains a.Name.Local)
        (fun a r ha => WPInline_attr_unknown a r ha) start2.Attr,
      attrLoop_filter WPInline.attr (fun a => WPInline.attrNames.contains a.Name.Local)
        (fun a r ha => WPInline_attr_unknown a r ha) start1.Attr, h]
  · intro r d start1 start2 h
    unfold WPAnchor.UnmarshalXML
    rw [attrLoop_filter WPAnchor.attr (fun a => WPAnchor.attrNames.contains a.Name.Local)
        (fun a r ha => WPAnchor_attr_unknown a r ha) start2.Attr,
      attrLoop_filter WPAnchor.attr (fun a => WPAnchor.attrNames.contains a.Name.Local)
        (fun a r ha => WPAnchor_attr_unknown a r ha) start1.Attr, h]
  · intro r d start1 start2 h
    unfold WPExtent.UnmarshalXML
    rw [attrLoop_filter WPExtent.attr (fun a => WPExtent.attrNames.contains a.Name.Local)
        (fun a r ha => WPExtent_attr_unknown a r ha) start2.Attr,
      attrLoop_filter WPExtent.attr (fun a => WPExtent.attrNames.contains a.Name.Local)
        (fun a r ha => WPExtent_attr_unknown a r ha) start1.Attr, h]
  · intro r d start1 start2 h
    unfold WPEffectExtent.UnmarshalXML
    rw [attrLoop_filter WPEffectExtent.attr (fun a => WPEffectExtent.attrNames.contains a.Name.Local)
        (fun a r ha => WPEffectExtent_attr_unknown a r ha) start2.Attr,
      attrLoop_filter WPEffectExtent.attr (fun a => WPEffectExtent.attrNames.contains a.Name.Local)
        (fun a r ha => WPEffectExtent_attr_unknown a r ha) start1.Attr, h]
  · intro r d start1 start2 h
    unfold WPDocPr.UnmarshalXML
    rw [attrLoop_filter WPDocPr.attr (fun a => WPDocPr.attrNames.contains a.Name.Local)
        (fun a r ha => WPDocPr_attr_unknown a r ha) start2.Attr,
      attrLoop_filter WPDocPr.attr (fun a => WPDocPr.attrNames.contains a.Name.Local)
        (fun a r ha => WPDocPr_attr_unknown a r ha) start1.Attr, h]
  · intro r d start1 start2 h
    unfold AGraphic.UnmarshalXML
    rw [AGraphic_attrs_filter start2.Attr, AGraphic_attrs_filter start1.Attr, h]
  · intro r d start1 start2 h
    unfold ABlip.UnmarshalXML
    rw [ABlip_attrs_filter start2.Attr, ABlip_attrs_filter start1.Attr, h]
  · intro r d start1 start2 h
    unfold AXfrm.UnmarshalXML
    rw [attrLoop_filter AXfrm.attr (fun a => AXfrm.attrNames.contains a.Name.Local)
        (fun a r ha => AXfrm_attr_unknown a r ha) start2.Attr,
      attrLoop_filter AXfrm.attr (fun a => AXfrm.attrNames.contains a.Name.Local)
        (fun a r ha => AXfrm_attr_unknown a r ha) start1.Attr, h]
  · intro r d start1 start2 h
    unfold WPPositionH.UnmarshalXML
    rw [WPPositionH_attrs_filter start2.Attr, WPPositionH_attrs_filter start1.Attr, h]
  · intro r d start1 start2 h
    unfold WPPositionV.UnmarshalXML
    rw [WPPositionV_attrs_filter start2.Attr, WPPositionV_attrs_filter start1.Attr, h]

/-- C15 at the extent start-elements `cx="1" cy="2"` and
`foo="abc" cx="1" id="x" cy="2" bar=""`. -/
theorem C15_unrecognised_attributes_ignored_witness :
    ([(⟨⟨"", "foo"⟩, "abc"⟩ : Attr), ⟨⟨"", "cx"⟩, "1"⟩, ⟨⟨"", "id"⟩, "x"⟩, ⟨⟨"", "cy"⟩, "2"⟩,
        ⟨⟨"", "bar"⟩, ""⟩].filter (fun a => WPExtent.attrNames.contains a.Name.Local) =
      [(⟨⟨"", "cx"⟩, "1"⟩ : Attr), ⟨⟨"", "cy"⟩, "2"⟩].filter
        (fun a => WPExtent.attrNames.contains a.Name.Local)) ∧
    WPExtent.UnmarshalXML {}
        ⟨[.EndElement ⟨"", "extent"⟩], none, [.stkStart ⟨"", "extent"⟩, .stkEOF]⟩
        ⟨⟨"", "extent"⟩, [⟨⟨"", "foo"⟩, "abc"⟩, ⟨⟨"", "cx"⟩, "1"⟩, ⟨⟨"", "id"⟩, "x"⟩,
          ⟨⟨"", "cy"⟩, "2"⟩, ⟨⟨"", "bar"⟩, ""⟩]⟩ =
      WPExtent.UnmarshalXML {}
        ⟨[.EndElement ⟨"", "extent"⟩], none, [.stkStart ⟨"", "extent"⟩, .stkEOF]⟩
        ⟨⟨"", "extent"⟩, [⟨⟨"", "cx"⟩, "1"⟩, ⟨⟨"", "cy"⟩, "2"⟩]⟩ :=
  ⟨by decide,
    C15_unrecognised_attributes_ignored.2.2.1 {}
      ⟨[.EndElement ⟨"", "extent"⟩], none, [.stkStart ⟨"", "extent"⟩, .stkEOF]⟩
      ⟨⟨"", "extent"⟩, [⟨⟨"", "cx"⟩, "1"⟩, ⟨⟨"", "cy"⟩, "2"⟩]⟩
      ⟨⟨"", "extent"⟩, [⟨⟨"", "foo"⟩, "abc"⟩, ⟨⟨"", "cx"⟩, "1"⟩, ⟨⟨"", "id"⟩, "x"⟩,
        ⟨⟨"", "cy"⟩, "2"⟩, ⟨⟨"", "bar"⟩, ""⟩]⟩ (by decide)⟩

theorem Token_eq_of_snd (d : Decoder) (x : Except Error Token) (h : d.Token.2 = x) :
    d.Token = (d.Token.1, x) := by
  rw [← h]

/-- Behind well-nested tokens that hold no start-element the body knows, a read
that reports `io.EOF` ends the loop: it returns nil, with the record as it
was. -/
theorem tokenLoop_eof_after_inert {α : Type} (body : StartElement → α → Decoder → Step α)
    (known : String → Bool)
    (hunk : ∀ (tt : StartElement) (r : α) (d : Decoder), known tt.Name.Local = false →
      body tt r d = .next r d)
    (r : α) (pre rest : List Token) (err : Option Error) (stk : List Stack)
    (hpre : inert known [] pre = true)
    (heof : (Decoder.Token ⟨rest, err, stk⟩).2 = .error .EOF) :
    (tokenLoop body ((pre ++ rest).length + 1) r ⟨pre ++ rest, err, stk⟩).err = none ∧
      (tokenLoop body ((pre ++ rest).length + 1) r ⟨pre ++ rest, err, stk⟩).val = r := by
  have h1 := tokenLoop_insert body known hunk r pre rest err stk hpre
  rw [h1.1, h1.2, tokenLoop_eof body _ r (Token_eq_of_snd _ _ heof)]
  exact ⟨rfl, rfl⟩

theorem AAvLst_UnmarshalXML_eof (marshal : Token → Except Error String) (a : AAvLst)
    (d : Decoder) (start : StartElement) (s0 : String)
    (hm : marshal (.StartElement start) = .ok s0) (heof : d.Token.2 = .error .EOF) :
    (AAvLst.UnmarshalXML marshal a d start).err = none ∧
      (AAvLst.UnmarshalXML marshal a d start).val.RawXML = s0 := by
  unfold AAvLst.UnmarshalXML
  rw [hm]
  simp only
  have hT := Token_eq_of_snd d _ heof
  rw [AAvLst.loop, hT]
  exact ⟨rfl, rfl⟩

/-- C16, as stated, fails for the decoders without a loop: on an empty scoped
stream, where the very first read reports `io.EOF`, `WPExtent.UnmarshalXML`,
`WPEffectExtent.UnmarshalXML` and `WPDocPr.UnmarshalXML`, with valid attributes,
return `io.EOF` as their error. -/
theorem C16_counterexample_leaf_decoders_return_eof :
    (Decoder.Token ⟨[], none, [.stkEOF]⟩).2 = .error .EOF ∧
    (WPExtent.UnmarshalXML {} ⟨[], none, [.stkEOF]⟩
        ⟨⟨"", "extent"⟩, [⟨⟨"", "cx"⟩, "1"⟩, ⟨⟨"", "cy"⟩, "2"⟩]⟩).err = some .EOF ∧
    (WPEffectExtent.UnmarshalXML {} ⟨[], none, [.stkEOF]⟩
        ⟨⟨"", "effectExtent"⟩, [⟨⟨"", "l"⟩, "1"⟩]⟩).err = some .EOF ∧
    (WPDocPr.UnmarshalXML {} ⟨[], none, [.stkEOF]⟩
        ⟨⟨"", "docPr"⟩, [⟨⟨"", "id"⟩, "1"⟩]⟩).err = some .EOF := by
  refine ⟨rfl, ?_, ?_, ?_⟩ <;> decide

theorem getAtt_of_hasIntAttr (attrs : List Attr) (name : String) (n : Int)
    (h : hasIntAttr attrs name n) : IsInt64Literal (getAtt attrs name) n := by
  rcases hf : attrs.find? (fun at_ => at_.Name.Local = name) with _ | a
  · exfalso
    obtain ⟨a, ha, hn⟩ := h.1
    have := List.find?_eq_none.1 hf a ha
    simp [hn] at this
  · have hmem := List.mem_of_find?_eq_some hf
    have hp := List.find?_some hf
    simp only [decide_eq_true_eq] at hp
    have hg : getAtt attrs name = a.Value := by
      unfold getAtt
      rw [hf]
    rw [hg]
    exact h.2 a hmem hp

/-- The attribute walk of the reflective decoder for `AGraphicFrameLocks` does
not fail when the attributes of local name `noChangeAspect` are integer
literals. -/
theorem AGraphicFrameLocks_attrs_ok (n : Int) :
    ∀ (attrs : List Attr) (r : AGraphicFrameLocks),
      (∀ a ∈ attrs, a.Name.Local = "noChangeAspect" → IsInt64Literal a.Value n) →
      (AGraphicFrameLocks.attrs attrs r).2 = none := by
  intro attrs
  induction attrs with
  | nil => intro r _; rfl
  | cons x xs ih =>
    intro r h
    unfold AGraphicFrameLocks.attrs
    by_cases hx : x.Name.Local = "noChangeAspect"
    · rw [if_pos hx, copyValueInt_literal x.Value n (h x (List.mem_cons_self _ _) hx)]
      exact ih _ (fun a ha => h a (List.mem_cons_of_mem _ ha))
    · rw [if_neg hx]
      exact ih _ (fun a ha => h a (List.mem_cons_of_mem _ ha))

/-- The reflective decoder on an empty graphicFrameLocks element whose
`noChangeAspect` is an integer literal: it returns an error and reads nothing
(the name space is not the one of the tag), or it returns nil and has read the
end-element. -/
theorem DecodeElementAGraphicFrameLocks_empty (val : AGraphicFrameLocks) (tt : StartElement)
    (toks : List Token) (err : Option Error) (stk : List Stack) (n : Int)
    (hn : ∀ a ∈ tt.Attr, a.Name.Local = "noChangeAspect" → IsInt64Literal a.Value n) :
    (Decoder.DecodeElementAGraphicFrameLocks val
        ⟨.EndElement tt.Name :: toks, err, .stkStart tt.Name :: stk⟩ tt).dec =
        ⟨.EndElement tt.Name :: toks, err, .stkStart tt.Name :: stk⟩ ∨
      (Decoder.DecodeElementAGraphicFrameLocks val
        ⟨.EndElement tt.Name :: toks, err, .stkStart tt.Name :: stk⟩ tt).dec =
        ⟨toks, err, stk⟩ := by
  unfold Decoder.DecodeElementAGraphicFrameLocks
  by_cases h1 : tt.Name.Local ≠ "graphicFrameLocks"
  · rw [if_pos h1]; exact Or.inl rfl
  · rw [if_neg h1]
    by_cases h2 : tt.Name.Space ≠ XMLNS_DRAWINGML_MAIN
    · rw [if_pos h2]; exact Or.inl rfl
    · rw [if_neg h2]
      have h3 := AGraphicFrameLocks_attrs_ok n tt.Attr { val with XMLName := tt.Name } hn
      rcases hb : AGraphicFrameLocks.attrs tt.Attr { val with XMLName := tt.Name } with ⟨r1, _ | e⟩
      · simp only [List.length_cons]
        rw [unmarshalLoop_empty]
        exact Or.inr rfl
      · rw [hb] at h3; simp at h3

/-- C17, as stated, fails: the element
`<wp:cNvGraphicFramePr><a:graphicFrameLocks noChangeAspect="1"/><a:graphicFrameLocks noChangeAspect="x"/></wp:cNvGraphicFramePr>`
contains a graphicFrameLocks child whose `noChangeAspect` is the literal of 1,
and `WPCNvGraphicFramePr.UnmarshalXML` returns an error: the loop handles every
graphicFrameLocks start-element it reads. -/
theorem C17_counterexample_second_lock_element :
    (WPCNvGraphicFramePr.UnmarshalXML {}
        ⟨[.StartElement ⟨⟨XMLNS_DRAWINGML_MAIN, "graphicFrameLocks"⟩,
            [⟨⟨"", "noChangeAspect"⟩, "1"⟩]⟩,
          .EndElement ⟨XMLNS_DRAWINGML_MAIN, "graphicFrameLocks"⟩,
          .StartElement ⟨⟨XMLNS_DRAWINGML_MAIN, "graphicFrameLocks"⟩,
            [⟨⟨"", "noChangeAspect"⟩, "x"⟩]⟩,
          .EndElement ⟨XMLNS_DRAWINGML_MAIN, "graphicFrameLocks"⟩,
          .EndElement ⟨"wp", "cNvGraphicFramePr"⟩], none,
          [.stkStart ⟨"wp", "cNvGraphicFramePr"⟩, .stkEOF]⟩
        ⟨⟨"wp", "cNvGraphicFramePr"⟩, []⟩).err ≠ none := by
  decide

/-- C17, amended: for every cNvGraphicFramePr element whose content is made of
an empty graphicFrameLocks element that carries `noChangeAspect` with the
base-10 literal of the integer `n` as value, with well-nested elements of
unrecognised names only before and after it (so that no other
graphicFrameLocks start-element is read), `WPCNvGraphicFramePr.UnmarshalXML`
returns nil, has read the content up to and including the end-element of the
frame properties, and leaves `Locks` present with `NoChangeAspect = n`:
whatever the name space and the other attributes of the lock element, that
is, whether the reflective decode of the lock element fails or not. -/
theorem C17_frame_lock_flag (w : WPCNvGraphicFramePr) (start tt : StartElement)
    (pre post rest : List Token) (err : Option Error) (stk : List Stack) (n : Int)
    (htt : tt.Name.Local = "graphicFrameLocks")
    (hn : hasIntAttr tt.Attr "noChangeAspect" n)
    (hpre : inert WPCNvGraphicFramePr.known [] pre = true)
    (hpost : inert WPCNvGraphicFramePr.known [] post = true)
    (o : Outcome WPCNvGraphicFramePr)
    (ho : o = WPCNvGraphicFramePr.UnmarshalXML w
      ⟨pre ++ .StartElement tt :: .EndElement tt.Name :: (post ++ .EndElement start.Name :: rest),
        err, .stkStart start.Name :: .stkEOF :: stk⟩ start) :
    o.err = none ∧ o.dec = ⟨rest, err, .stkEOF :: stk⟩ ∧
      ∃ v, o.val.Locks = some v ∧ v.NoChangeAspect = n := by
  subst ho
  have hatoi := (Atoi_ok_iff _ n).2 (getAtt_of_hasIntAttr tt.Attr "noChangeAspect" n hn)
  have hbody : ∀ (d : Decoder), ∃ v : AGraphicFrameLocks, v.NoChangeAspect = n ∧
      WPCNvGraphicFramePr.body tt w d =
        .next { w with Locks := some v } (d.DecodeElementAGraphicFrameLocks {} tt).dec := by
    intro d
    refine ⟨⟨(d.DecodeElementAGraphicFrameLocks {} tt).val.XMLName, n⟩, rfl, ?_⟩
    unfold WPCNvGraphicFramePr.body
    rw [if_pos htt]
    simp only [hatoi]
  unfold WPCNvGraphicFramePr.UnmarshalXML
  rw [tokenLoop_child WPCNvGraphicFramePr.body WPCNvGraphicFramePr.known
      WPCNvGraphicFramePr_body_unknown WPCNvGraphicFramePr_body_reach
      _ pre tt _ err _ (by simp) hpre _ (Nat.lt_add_one _)]
  obtain ⟨v, hv, hb⟩ := hbody ⟨.EndElement tt.Name :: (post ++ .EndElement start.Name :: rest),
    err, .stkStart tt.Name :: .stkStart start.Name :: .stkEOF :: stk⟩
  rw [hb]
  simp only []
  rcases DecodeElementAGraphicFrameLocks_empty {} tt (post ++ .EndElement start.Name :: rest) err
      (.stkStart start.Name :: .stkEOF :: stk) n hn.2 with hd | hd
  · rw [hd]
    simp only [List.length_cons]
    rw [tokenLoop_other WPCNvGraphicFramePr.body _ _ (Token_end tt.Name _ err _) (by simp),
      tokenLoop_close WPCNvGraphicFramePr.body WPCNvGraphicFramePr.known
        WPCNvGraphicFramePr_body_unknown _ post rest start.Name err stk hpost _ (by simp)]
    exact ⟨rfl, rfl, v, rfl, hv⟩
  · rw [hd]
    rw [tokenLoop_close WPCNvGraphicFramePr.body WPCNvGraphicFramePr.known
        WPCNvGraphicFramePr_body_unknown _ post rest start.Name err stk hpost _ (by simp)]
    exact ⟨rfl, rfl, v, rfl, hv⟩

/-- C17, amended, at
`<wp:cNvGraphicFramePr><a:graphicFrameLocks noChangeAspect="1"/></wp:cNvGraphicFramePr>`
with the prefix `a` bound to a name space other than the one of the tag, so
that the reflective decode of the lock element fails. -/
theorem C17_frame_lock_flag_witness :
    (hasIntAttr [⟨⟨"", "noChangeAspect"⟩, "1"⟩] "noChangeAspect" 1 ∧
      inert WPCNvGraphicFramePr.known [] [] = true) ∧
    ∀ o, o = WPCNvGraphicFramePr.UnmarshalXML {}
        ⟨[] ++ .StartElement ⟨⟨"urn:other", "graphicFrameLocks"⟩,
            [⟨⟨"", "noChangeAspect"⟩, "1"⟩]⟩ ::
          .EndElement ⟨"urn:other", "graphicFrameLocks"⟩ ::
            ([] ++ .EndElement ⟨"wp", "cNvGraphicFramePr"⟩ :: []), none,
          .stkStart ⟨"wp", "cNvGraphicFramePr"⟩ :: .stkEOF :: []⟩
        ⟨⟨"wp", "cNvGraphicFramePr"⟩, []⟩ →
      o.err = none ∧ o.dec = ⟨[], none, [.stkEOF]⟩ ∧
        ∃ v, o.val.Locks = some v ∧ v.NoChangeAspect = 1 :=
  ⟨⟨by decide, by decide⟩,
    fun o ho => C17_frame_lock_flag {} ⟨⟨"wp", "cNvGraphicFramePr"⟩, []⟩
      ⟨⟨"urn:other", "graphicFrameLocks"⟩, [⟨⟨"", "noChangeAspect"⟩, "1"⟩]⟩ [] [] [] none [] 1
      rfl (by decide) (by decide) (by decide) o ho⟩

theorem inert_mono (k1 k2 : String → Bool) (h : ∀ s, k1 s = true → k2 s = true) :
    ∀ (ts : List Token) (opened : List Name), inert k2 opened ts = true →
      inert k1 opened ts = true := by
  intro ts
  induction ts with
  | nil => intro opened h2; cases opened <;> simpa [inert] using h2
  | cons t ts ih =>
    intro opened h2
    cases t with
    | StartElement se =>
      simp only [inert, Bool.and_eq_true, Bool.not_eq_true'] at h2 ⊢
      refine ⟨?_, ih _ h2.2⟩
      by_contra hc
      simp only [Bool.not_eq_false] at hc
      rw [h _ hc] at h2
      simp at h2
    | EndElement m =>
      cases opened with
      | nil => simp [inert] at h2
      | cons n ns =>
        simp only [inert, Bool.and_eq_true, decide_eq_true_eq] at h2 ⊢
        exact ⟨h2.1, ih _ h2.2⟩
    | CharData s => cases opened <;> (simp only [inert] at h2 ⊢; exact ih _ h2)
    | Comment s => cases opened <;> (simp only [inert] at h2 ⊢; exact ih _ h2)
    | ProcInst a b => cases opened <;> (simp only [inert] at h2 ⊢; exact ih _ h2)
    | Directive s => cases opened <;> (simp only [inert] at h2 ⊢; exact ih _ h2)

theorem inert_inline_of_anchor (ts : List Token) (h : inert WPAnchor.known [] ts = true) :
    inert WPInline.known [] ts = true :=
  inert_mono WPInline.known WPAnchor.known (fun s hs => by
    simp only [WPInline.known, WPInline.childNames, WPAnchor.known, WPAnchor.childNames,
      List.contains_eq_any_beq, List.any_cons, List.any_nil, Bool.or_false, Bool.or_eq_true,
      beq_iff_eq] at hs ⊢
    tauto) ts [] h

/-- A call `d.DecodeElement(v, &te)` whose method fails before it reads a token:
the error is returned, the start of `te` stays open and the end-of-element
mark stays below it. -/
theorem DecodeElement_fail_unread {α : Type} (typ : String)
    (f : α → Decoder → StartElement → Outcome α) (v : α) (te : StartElement)
    (toks : List Token) (err : Option Error) (stk : List Stack) (r1 : α) (e : Error)
    (hf : f v ⟨toks, err, .stkStart te.Name :: .stkEOF :: stk⟩ te =
      ⟨r1, ⟨toks, err, .stkStart te.Name :: .stkEOF :: stk⟩, some e⟩) :
    Decoder.DecodeElement typ f v ⟨toks, err, .stkStart te.Name :: stk⟩ te =
      ⟨r1, ⟨toks, err, .stkStart te.Name :: .stkEOF :: stk⟩, some e⟩ := by
  unfold Decoder.DecodeElement Decoder.unmarshalInterface
  simp only [Decoder.pushEOF, pushEOFStack]
  rw [hf]
  rfl

theorem Outcome_eq {α : Type} (o : Outcome α) (d : Decoder) (e : Error) (h1 : o.dec = d)
    (h2 : o.err = some e) : o = ⟨o.val, d, some e⟩ := by
  cases o
  simp only at h1 h2
  rw [h1, h2]

theorem WPAnchor_body_at_effectExtent (tt : StartElement) (r : WPAnchor) (d : Decoder)
    (h : tt.Name.Local = "effectExtent") :
    WPAnchor.body tt r d = .next
      { r with EffectExtent := some (Decoder.DecodeElement "*docxlib.WPEffectExtent"
          WPEffectExtent.UnmarshalXML {} d tt).val }
      (Decoder.DecodeElement "*docxlib.WPEffectExtent" WPEffectExtent.UnmarshalXML {} d tt).dec := by
  unfold WPAnchor.body
  rw [if_neg (by rw [h]; decide), if_neg (by rw [h]; decide), if_neg (by rw [h]; decide),
    if_neg (by rw [h]; decide), if_pos h]

theorem WPInline_body_at_extent_ok (tt : StartElement) (r : WPInline) (d : Decoder)
    (v_cx v_cy : Int) (h : tt.Name.Local = "extent")
    (h_cx : hasIntAttr tt.Attr "cx" v_cx)
    (h_cy : hasIntAttr tt.Attr "cy" v_cy) :
    WPInline.body tt r d = .next { r with Extent := some { CX := v_cx, CY := v_cy } } d := by
  unfold WPInline.body
  rw [if_pos h]
  simp only [(ParseInt_ok_iff _ 64 v_cx (Or.inr rfl)).2 (getAtt_of_hasIntAttr tt.Attr "cx" v_cx h_cx), (ParseInt_ok_iff _ 64 v_cy (Or.inr rfl)).2 (getAtt_of_hasIntAttr tt.Attr "cy" v_cy h_cy)]

theorem WPExtent_numeric_of_hasIntAttr (tt : StartElement) (v_cx v_cy : Int)
    (h_cx : hasIntAttr tt.Attr "cx" v_cx)
    (h_cy : hasIntAttr tt.Attr "cy" v_cy) :
    ∀ a ∈ tt.Attr, a.Name.Local ∈ WPExtent.numericAttrs → ∃ n, IsInt64Literal a.Value n := by
  intro a ha hn
  simp only [WPExtent.numericAttrs, List.mem_cons, List.mem_singleton, List.not_mem_nil,
    or_false] at hn
  rcases hn with hn | hn
  · exact ⟨_, h_cx.2 a ha hn⟩
  · exact ⟨_, h_cy.2 a ha hn⟩

/-- The decode of an inline frame whose content is a well-formed empty extent
element between unrecognised elements. -/
theorem WPInline_decode_extent_child (r : WPInline) (start tt : StartElement)
    (pre post rest : List Token) (err : Option Error) (stk : List Stack) (v_cx v_cy : Int)
    (hI : ∀ a ∈ start.Attr, a.Name.Local ∈ WPInline.numericAttrs → ∃ n, IsInt64Literal a.Value n)
    (h : tt.Name.Local = "extent")
    (h_cx : hasIntAttr tt.Attr "cx" v_cx)
    (h_cy : hasIntAttr tt.Attr "cy" v_cy)
    (hpre : inert WPInline.known [] pre = true) (hpost : inert WPInline.known [] post = true)
    (o : Outcome WPInline)
    (ho : o = WPInline.UnmarshalXML r
        ⟨pre ++ .StartElement tt :: .EndElement tt.Name :: (post ++ .EndElement start.Name :: rest),
          err, .stkStart start.Name :: .stkEOF :: stk⟩ start) :
    o.err = none ∧ o.dec = ⟨rest, err, .stkEOF :: stk⟩ ∧
      ∃ x, o.val.Extent = some x ∧ x.CX = v_cx ∧ x.CY = v_cy := by
  subst ho
  unfold WPInline.UnmarshalXML
  rw [WPInline_attrs_ok start r hI]
  simp only []
  rw [tokenLoop_child WPInline.body WPInline.known WPInline_body_unknown WPInline_body_reach
      _ pre tt _ err _ (by simp) hpre _ (Nat.lt_add_one _),
    WPInline_body_at_extent_ok tt _ _ v_cx v_cy h h_cx h_cy]
  simp only [List.length_cons]
  rw [tokenLoop_other WPInline.body _ _ (Token_end tt.Name _ err _) (by simp),
    tokenLoop_close WPInline.body WPInline.known WPInline_body_unknown _ post rest start.Name
      err stk hpost _ (by simp)]
  exact ⟨rfl, rfl, { CX := v_cx, CY := v_cy }, rfl, rfl, rfl⟩

/-- The decode of an anchor frame whose content is a well-formed empty extent
element between unrecognised elements. -/
theorem WPAnchor_decode_extent_child (r : WPAnchor) (start tt : StartElement)
    (pre post rest : List Token) (err : Option Error) (stk : List Stack) (v_cx v_cy : Int)
    (hA : ∀ a ∈ start.Attr, a.Name.Local ∈ WPAnchor.numericAttrs → ∃ n, IsInt64Literal a.Value n)
    (h : tt.Name.Local = "extent")
    (h_cx : hasIntAttr tt.Attr "cx" v_cx)
    (h_cy : hasIntAttr tt.Attr "cy" v_cy)
    (hpre : inert WPAnchor.known [] pre = true) (hpost : inert WPAnchor.known [] post = true)
    (o : Outcome WPAnchor)
    (ho : o = WPAnchor.UnmarshalXML r
        ⟨pre ++ .StartElement tt :: .EndElement tt.Name :: (post ++ .EndElement start.Name :: rest),
          err, .stkStart start.Name :: .stkEOF :: stk⟩ start) :
    o.err = none ∧ o.dec = ⟨rest, err, .stkEOF :: stk⟩ ∧
      ∃ x, o.val.Extent = some x ∧ x.CX = v_cx ∧ x.CY = v_cy := by
  have hext := WPExtent_numeric_of_hasIntAttr tt v_cx v_cy h_cx h_cy
  subst ho
  rw [WPAnchor_UnmarshalXML_loop start _ _ hA,
    tokenLoop_child WPAnchor.body WPAnchor.known WPAnchor_body_unknown WPAnchor_body_reach
      _ pre tt _ err _ (by simp) hpre _ (Nat.lt_add_one _),
    WPAnchor_body_at_extent tt _ _ h, WPExtent_DecodeElement_empty tt {} _ err _ hext]
  simp only []
  rw [tokenLoop_close WPAnchor.body WPAnchor.known WPAnchor_body_unknown _ post rest start.Name
    err stk hpost _ (by simp)]
  exact ⟨rfl, rfl, _, rfl,
    WPExtent_attrs_CX _ _ _ h_cx.2 h_cx.1, WPExtent_attrs_CY _ _ _ h_cy.2 h_cy.1⟩

/-- The decode of an anchor frame whose content starts, behind unrecognised
elements, with an empty extent element returns nil whatever the attributes of
that element: when one of them is malformed the error of the nested decode is
dropped and the loop ends at the end of the extent element. -/
theorem WPAnchor_decode_extent_child_nil (r : WPAnchor) (start tt : StartElement)
    (pre post rest : List Token) (err : Option Error) (stk : List Stack)
    (hA : ∀ a ∈ start.Attr, a.Name.Local ∈ WPAnchor.numericAttrs → ∃ n, IsInt64Literal a.Value n)
    (h : tt.Name.Local = "extent")
    (hpre : inert WPAnchor.known [] pre = true) (hpost : inert WPAnchor.known [] post = true) :
    (WPAnchor.UnmarshalXML r
        ⟨pre ++ .StartElement tt :: .EndElement tt.Name :: (post ++ .EndElement start.Name :: rest),
          err, .stkStart start.Name :: .stkEOF :: stk⟩ start).err = none := by
  rw [WPAnchor_UnmarshalXML_loop start _ _ hA,
    tokenLoop_child WPAnchor.body WPAnchor.known WPAnchor_body_unknown WPAnchor_body_reach
      _ pre tt _ err _ (by simp) hpre _ (Nat.lt_add_one _),
    WPAnchor_body_at_extent tt _ _ h]
  by_cases hext : ∀ a ∈ tt.Attr, a.Name.Local ∈ WPExtent.numericAttrs →
      ∃ n, IsInt64Literal a.Value n
  · rw [WPExtent_DecodeElement_empty tt {} _ err _ hext]
    simp only []
    rw [tokenLoop_close WPAnchor.body WPAnchor.known WPAnchor_body_unknown _ post rest start.Name
      err stk hpost _ (by simp)]
  · have hbad : ∃ a ∈ tt.Attr, a.Name.Local ∈ WPExtent.numericAttrs ∧
        ¬ ∃ n, IsInt64Literal a.Value n := by
      by_contra hc
      exact hext (fun a ha hn => by
        by_contra hl
        exact hc ⟨a, ha, hn, hl⟩)
    obtain ⟨⟨e, he, _⟩, hd, _⟩ := WPExtent_UnmarshalXML_first_bad {}
      ⟨.EndElement tt.Name :: (post ++ .EndElement start.Name :: rest), err,
        .stkStart tt.Name :: .stkEOF :: .stkStart start.Name :: .stkEOF :: stk⟩ tt hbad _ rfl
    rw [DecodeElement_fail_unread "*docxlib.WPExtent" WPExtent.UnmarshalXML {} tt _ err _ _ e
      (Outcome_eq _ _ e hd he)]
    simp only [List.length_cons]
    rw [tokenLoop_other WPAnchor.body _ _ (Token_end tt.Name _ err _) (by simp),
      tokenLoop_eof WPAnchor.body _ _ (Token_eof_top
        ⟨post ++ .EndElement start.Name :: rest, err,
          .stkEOF :: .stkStart start.Name :: .stkEOF :: stk⟩ rfl)]

/-- The decode of an inline frame that reads a extent element one of whose
attributes is missing or malformed returns the error of `strconv`. -/
theorem WPInline_decode_extent_child_err (r : WPInline) (start tt : StartElement)
    (pre rest : List Token) (err : Option Error) (stk : List Stack)
    (hI : ∀ a ∈ start.Attr, a.Name.Local ∈ WPInline.numericAttrs → ∃ n, IsInt64Literal a.Value n)
    (hstk : stk.head? ≠ some .stkEOF) (h : tt.Name.Local = "extent")
    (hbad : ∃ a ∈ ["cx", "cy"], ¬ ∃ n, IsInt64Literal (getAtt tt.Attr a) n)
    (hpre : inert WPInline.known [] pre = true) :
    ∃ e, (WPInline.UnmarshalXML r ⟨pre ++ .StartElement tt :: rest, err, stk⟩ start).err = some e ∧
      e.isNum = true := by
  unfold WPInline.UnmarshalXML
  rw [WPInline_attrs_ok start r hI]
  simp only []
  rw [tokenLoop_child WPInline.body WPInline.known WPInline_body_unknown WPInline_body_reach
    _ pre tt rest err stk hstk hpre _ (Nat.lt_add_one _)]
  obtain ⟨r2, d2, e, hb, he⟩ := WPInline_body_extent_bad tt _ ⟨rest, err, .stkStart tt.Name :: stk⟩
    h hbad
  rw [hb]
  exact ⟨e, rfl, he⟩

theorem WPInline_body_at_effectExtent_ok (tt : StartElement) (r : WPInline) (d : Decoder)
    (v_l v_t v_r v_b : Int) (h : tt.Name.Local = "effectExtent")
    (h_l : hasIntAttr tt.Attr "l" v_l)
    (h_t : hasIntAttr tt.Attr "t" v_t)
    (h_r : hasIntAttr tt.Attr "r" v_r)
    (h_b : hasIntAttr tt.Attr "b" v_b) :
    WPInline.body tt r d = .next { r with EffectExtent := some { L := v_l, T := v_t, R := v_r, B := v_b } } d := by
  unfold WPInline.body
  rw [if_neg (by rw [h]; decide), if_pos h]
  simp only [(ParseInt_ok_iff _ 64 v_l (Or.inr rfl)).2 (getAtt_of_hasIntAttr tt.Attr "l" v_l h_l), (ParseInt_ok_iff _ 64 v_t (Or.inr rfl)).2 (getAtt_of_hasIntAttr tt.Attr "t" v_t h_t), (ParseInt_ok_iff _ 64 v_r (Or.inr rfl)).2 (getAtt_of_hasIntAttr tt.Attr "r" v_r h_r), (ParseInt_ok_iff _ 64 v_b (Or.inr rfl)).2 (getAtt_of_hasIntAttr tt.Attr "b" v_b h_b)]

theorem WPEffectExtent_numeric_of_hasIntAttr (tt : StartElement) (v_l v_t v_r v_b : Int)
    (h_l : hasIntAttr tt.Attr "l" v_l)
    (h_t : hasIntAttr tt.Attr "t" v_t)
    (h_r : hasIntAttr tt.Attr "r" v_r)
    (h_b : hasIntAttr tt.Attr "b" v_b) :
    ∀ a ∈ tt.Attr, a.Name.Local ∈ WPEffectExtent.numericAttrs → ∃ n, IsInt64Literal a.Value n := by
  intro a ha hn
  simp only [WPEffectExtent.numericAttrs, List.mem_cons, List.mem_singleton, List.not_mem_nil,
    or_false] at hn
  rcases hn with hn | hn | hn | hn
  · exact ⟨_, h_l.2 a ha hn⟩
  · exact ⟨_, h_t.2 a ha hn⟩
  · exact ⟨_, h_r.2 a ha hn⟩
  · exact ⟨_, h_b.2 a ha hn⟩

/-- The decode of an inline frame whose content is a well-formed empty effectExtent
element between unrecognised elements. -/
theorem WPInline_decode_effectExtent_child (r : WPInline) (start tt : StartElement)
    (pre post rest : List Token) (err : Option Error) (stk : List Stack) (v_l v_t v_r v_b : Int)
    (hI : ∀ a ∈ start.Attr, a.Name.Local ∈ WPInline.numericAttrs → ∃ n, IsInt64Literal a.Value n)
    (h : tt.Name.Local = "effectExtent")
    (h_l : hasIntAttr tt.Attr "l" v_l)
    (h_t : hasIntAttr tt.Attr "t" v_t)
    (h_r : hasIntAttr tt.Attr "r" v_r)
    (h_b : hasIntAttr tt.Attr "b" v_b)
    (hpre : inert WPInline.known [] pre = true) (hpost : inert WPInline.known [] post = true)
    (o : Outcome WPInline)
    (ho : o = WPInline.UnmarshalXML r
        ⟨pre ++ .StartElement tt :: .EndElement tt.Name :: (post ++ .EndElement start.Name :: rest),
          err, .stkStart start.Name :: .stkEOF :: stk⟩ start) :
    o.err = none ∧ o.dec = ⟨rest, err, .stkEOF :: stk⟩ ∧
      ∃ x, o.val.EffectExtent = some x ∧ x.L = v_l ∧ x.T = v_t ∧ x.R = v_r ∧ x.B = v_b := by
  subst ho
  unfold WPInline.UnmarshalXML
  rw [WPInline_attrs_ok start r hI]
  simp only []
  rw [tokenLoop_child WPInline.body WPInline.known WPInline_body_unknown WPInline_body_reach
      _ pre tt _ err _ (by simp) hpre _ (Nat.lt_add_one _),
    WPInline_body_at_effectExtent_ok tt _ _ v_l v_t v_r v_b h h_l h_t h_r h_b]
  simp only [List.length_cons]
  rw [tokenLoop_other WPInline.body _ _ (Token_end tt.Name _ err _) (by simp),
    tokenLoop_close WPInline.body WPInline.known WPInline_body_unknown _ post rest start.Name
      err stk hpost _ (by simp)]
  exact ⟨rfl, rfl, { L := v_l, T := v_t, R := v_r, B := v_b }, rfl, rfl, rfl, rfl, rfl⟩

/-- The decode of an anchor frame whose content is a well-formed empty effectExtent
element between unrecognised elements. -/
theorem WPAnchor_decode_effectExtent_child (r : WPAnchor) (start tt : StartElement)
    (pre post rest : List Token) (err : Option Error) (stk : List Stack) (v_l v_t v_r v_b : Int)
    (hA : ∀ a ∈ start.Attr, a.Name.Local ∈ WPAnchor.numericAttrs → ∃ n, IsInt64Literal a.Value n)
    (h : tt.Name.Local = "effectExtent")
    (h_l : hasIntAttr tt.Attr "l" v_l)
    (h_t : hasIntAttr tt.Attr "t" v_t)
    (h_r : hasIntAttr tt.Attr "r" v_r)
    (h_b : hasIntAttr tt.Attr "b" v_b)
    (hpre : inert WPAnchor.known [] pre = true) (hpost : inert WPAnchor.known [] post = true)
    (o : Outcome WPAnchor)
    (ho : o = WPAnchor.UnmarshalXML r
        ⟨pre ++ .StartElement tt :: .EndElement tt.Name :: (post ++ .EndElement start.Name :: rest),
          err, .stkStart start.Name :: .stkEOF :: stk⟩ start) :
    o.err = none ∧ o.dec = ⟨rest, err, .stkEOF :: stk⟩ ∧
      ∃ x, o.val.EffectExtent = some x ∧ x.L = v_l ∧ x.T = v_t ∧ x.R = v_r ∧ x.B = v_b := by
  have hext := WPEffectExtent_numeric_of_hasIntAttr tt v_l v_t v_r v_b h_l h_t h_r h_b
  subst ho
  rw [WPAnchor_UnmarshalXML_loop start _ _ hA,
    tokenLoop_child WPAnchor.body WPAnchor.known WPAnchor_body_unknown WPAnchor_body_reach
      _ pre tt _ err _ (by simp) hpre _ (Nat.lt_add_one _),
    WPAnchor_body_at_effectExtent tt _ _ h, WPEffectExtent_DecodeElement_empty tt {} _ err _ hext]
  simp only []
  rw [tokenLoop_close WPAnchor.body WPAnchor.known WPAnchor_body_unknown _ post rest start.Name
    err stk hpost _ (by simp)]
  exact ⟨rfl, rfl, _, rfl,
    WPEffectExtent_attrs_L _ _ _ h_l.2 h_l.1, WPEffectExtent_attrs_T _ _ _ h_t.2 h_t.1, WPEffectExtent_attrs_R _ _ _ h_r.2 h_r.1, WPEffectExtent_attrs_B _ _ _ h_b.2 h_b.1⟩

/-- The decode of an anchor frame whose content starts, behind unrecognised
elements, with an empty effectExtent element returns nil whatever the attributes of
that element: when one of them is malformed the error of the nested decode is
dropped and the loop ends at the end of the effectExtent element. -/
theorem WPAnchor_decode_effectExtent_child_nil (r : WPAnchor) (start tt : StartElement)
    (pre post rest : List Token) (err : Option Error) (stk : List Stack)
    (hA : ∀ a ∈ start.Attr, a.Name.Local ∈ WPAnchor.numericAttrs → ∃ n, IsInt64Literal a.Value n)
    (h : tt.Name.Local = "effectExtent")
    (hpre : inert WPAnchor.known [] pre = true) (hpost : inert WPAnchor.known [] post = true) :
    (WPAnchor.UnmarshalXML r
        ⟨pre ++ .StartElement tt :: .EndElement tt.Name :: (post ++ .EndElement start.Name :: rest),
          err, .stkStart start.Name :: .stkEOF :: stk⟩ start).err = none := by
  rw [WPAnchor_UnmarshalXML_loop start _ _ hA,
    tokenLoop_child WPAnchor.body WPAnchor.known WPAnchor_body_unknown WPAnchor_body_reach
      _ pre tt _ err _ (by simp) hpre _ (Nat.lt_add_one _),
    WPAnchor_body_at_effectExtent tt _ _ h]
  by_cases hext : ∀ a ∈ tt.Attr, a.Name.Local ∈ WPEffectExtent.numericAttrs →
      ∃ n, IsInt64Literal a.Value n
  · rw [WPEffectExtent_DecodeElement_empty tt {} _ err _ hext]
    simp only []
    rw [tokenLoop_close WPAnchor.body WPAnchor.known WPAnchor_body_unknown _ post rest start.Name
      err stk hpost _ (by simp)]
  · have hbad : ∃ a ∈ tt.Attr, a.Name.Local ∈ WPEffectExtent.numericAttrs ∧
        ¬ ∃ n, IsInt64Literal a.Value n := by
      by_contra hc
      exact hext (fun a ha hn => by
        by_contra hl
        exact hc ⟨a, ha, hn, hl⟩)
    obtain ⟨⟨e, he, _⟩, hd, _⟩ := WPEffectExtent_UnmarshalXML_first_bad {}
      ⟨.EndElement tt.Name :: (post ++ .EndElement start.Name :: rest), err,
        .stkStart tt.Name :: .stkEOF :: .stkStart start.Name :: .stkEOF :: stk⟩ tt hbad _ rfl
    rw [DecodeElement_fail_unread "*docxlib.WPEffectExtent" WPEffectExtent.UnmarshalXML {} tt _ err _ _ e
      (Outcome_eq _ _ e hd he)]
    simp only [List.length_cons]
    rw [tokenLoop_other WPAnchor.body _ _ (Token_end tt.Name _ err _) (by simp),
      tokenLoop_eof WPAnchor.body _ _ (Token_eof_top
        ⟨post ++ .EndElement start.Name :: rest, err,
          .stkEOF :: .stkStart start.Name :: .stkEOF :: stk⟩ rfl)]

/-- The decode of an inline frame that reads a effectExtent element one of whose
attributes is missing or malformed returns the error of `strconv`. -/
theorem WPInline_decode_effectExtent_child_err (r : WPInline) (start tt : StartElement)
    (pre rest : List Token) (err : Option Error) (stk : List Stack)
    (hI : ∀ a ∈ start.Attr, a.Name.Local ∈ WPInline.numericAttrs → ∃ n, IsInt64Literal a.Value n)
    (hstk : stk.head? ≠ some .stkEOF) (h : tt.Name.Local = "effectExtent")
    (hbad : ∃ a ∈ ["l", "t", "r", "b"], ¬ ∃ n, IsInt64Literal (getAtt tt.Attr a) n)
    (hpre : inert WPInline.known [] pre = true) :
    ∃ e, (WPInline.UnmarshalXML r ⟨pre ++ .StartElement tt :: rest, err, stk⟩ start).err = some e ∧
      e.isNum = true := by
  unfold WPInline.UnmarshalXML
  rw [WPInline_attrs_ok start r hI]
  simp only []
  rw [tokenLoop_child WPInline.body WPInline.known WPInline_body_unknown WPInline_body_reach
    _ pre tt rest err stk hstk hpre _ (Nat.lt_add_one _)]
  obtain ⟨r2, d2, e, hb, he⟩ := WPInline_body_effectExtent_bad tt _ ⟨rest, err, .stkStart tt.Name :: stk⟩
    h hbad
  rw [hb]
  exact ⟨e, rfl, he⟩

/-- C18: the code on frames that hold the same extent child.  For the extent
child `cx="abc" cy="2"` and for the extent child without attributes,
`WPInline.UnmarshalXML` returns an error and `WPAnchor.UnmarshalXML`, which
drops the result of `d.DecodeElement`, returns nil, where the claim has the two
agree.  For the extent child `cx="1" x:cx="2" cy="3"` both return nil, the
inline frame with `CX = 1` (`getAtt` takes the first attribute of the local
name) and the anchor frame with `CX = 2` (the attribute loop of `WPExtent`
keeps the last). -/
theorem C18_inline_and_anchor_disagree :
    ((WPInline.UnmarshalXML {}
        ⟨[.StartElement ⟨⟨"", "extent"⟩, [⟨⟨"", "cx"⟩, "abc"⟩, ⟨⟨"", "cy"⟩, "2"⟩]⟩,
          .EndElement ⟨"", "extent"⟩, .EndElement ⟨"", "inline"⟩], none,
          [.stkStart ⟨"", "inline"⟩, .stkEOF]⟩ ⟨⟨"", "inline"⟩, []⟩).err ≠ none ∧
      (WPAnchor.UnmarshalXML {}
        ⟨[.StartElement ⟨⟨"", "extent"⟩, [⟨⟨"", "cx"⟩, "abc"⟩, ⟨⟨"", "cy"⟩, "2"⟩]⟩,
          .EndElement ⟨"", "extent"⟩, .EndElement ⟨"", "anchor"⟩], none,
          [.stkStart ⟨"", "anchor"⟩, .stkEOF]⟩ ⟨⟨"", "anchor"⟩, []⟩).err = none) ∧
    ((WPInline.UnmarshalXML {}
        ⟨[.StartElement ⟨⟨"", "extent"⟩, []⟩,
          .EndElement ⟨"", "extent"⟩, .EndElement ⟨"", "inline"⟩], none,
          [.stkStart ⟨"", "inline"⟩, .stkEOF]⟩ ⟨⟨"", "inline"⟩, []⟩).err ≠ none ∧
      (WPAnchor.UnmarshalXML {}
        ⟨[.StartElement ⟨⟨"", "extent"⟩, []⟩,
          .EndElement ⟨"", "extent"⟩, .EndElement ⟨"", "anchor"⟩], none,
          [.stkStart ⟨"", "anchor"⟩, .stkEOF]⟩ ⟨⟨"", "anchor"⟩, []⟩).err = none) ∧
    ((WPInline.UnmarshalXML {}
        ⟨[.StartElement ⟨⟨"", "extent"⟩, [⟨⟨"", "cx"⟩, "1"⟩, ⟨⟨"x", "cx"⟩, "2"⟩, ⟨⟨"", "cy"⟩, "3"⟩]⟩,
          .EndElement ⟨"", "extent"⟩, .EndElement ⟨"", "inline"⟩], none,
          [.stkStart ⟨"", "inline"⟩, .stkEOF]⟩ ⟨⟨"", "inline"⟩, []⟩).err = none ∧
      (WPInline.UnmarshalXML {}
        ⟨[.StartElement ⟨⟨"", "extent"⟩, [⟨⟨"", "cx"⟩, "1"⟩, ⟨⟨"x", "cx"⟩, "2"⟩, ⟨⟨"", "cy"⟩, "3"⟩]⟩,
          .EndElement ⟨"", "extent"⟩, .EndElement ⟨"", "inline"⟩], none,
          [.stkStart ⟨"", "inline"⟩, .stkEOF]⟩ ⟨⟨"", "inline"⟩, []⟩).val.Extent = some { CX := 1, CY := 3 } ∧
      (WPAnchor.UnmarshalXML {}
        ⟨[.StartElement ⟨⟨"", "extent"⟩, [⟨⟨"", "cx"⟩, "1"⟩, ⟨⟨"x", "cx"⟩, "2"⟩, ⟨⟨"", "cy"⟩, "3"⟩]⟩,
          .EndElement ⟨"", "extent"⟩, .EndElement ⟨"", "anchor"⟩], none,
          [.stkStart ⟨"", "anchor"⟩, .stkEOF]⟩ ⟨⟨"", "anchor"⟩, []⟩).err = none ∧
      (WPAnchor.UnmarshalXML {}
        ⟨[.StartElement ⟨⟨"", "extent"⟩, [⟨⟨"", "cx"⟩, "1"⟩, ⟨⟨"x", "cx"⟩, "2"⟩, ⟨⟨"", "cy"⟩, "3"⟩]⟩,
          .EndElement ⟨"", "extent"⟩, .EndElement ⟨"", "anchor"⟩], none,
          [.stkStart ⟨"", "anchor"⟩, .stkEOF]⟩ ⟨⟨"", "anchor"⟩, []⟩).val.Extent = some { CX := 2, CY := 3 }) := by
  decide

/-- A loop that returns nil has stopped where the token source reports
`io.EOF`: the next read reports it again and reads nothing. -/
theorem tokenLoop_ok_at_eof {α : Type} (body : StartElement → α → Decoder → Step α)
    (hreach : ∀ (tt : StartElement) (r : α) (d : Decoder), d.Reach (body tt r d).dec)
    (fuel : Nat) (r : α) (d : Decoder) (hfuel : d.toks.length < fuel)
    (hok : (tokenLoop body fuel r d).err = none) :
    (tokenLoop body fuel r d).dec.Token = ((tokenLoop body fuel r d).dec, .error .EOF) := by
  refine tokenLoop_induct body (fun _ _ => True)
    (fun o => o.err = none → o.dec.Token = (o.dec, .error .EOF))
    (body_shrink hreach) ?_ ?_ ?_ ?_ ?_ fuel r d hfuel trivial hok
  · intro r d d1 _ hT _
    rcases (Token_error hT).1 with h | ⟨_, _, h3⟩
    · subst h; exact hT
    · simp [Error.isToken] at h3
  · intro r d d1 e _ _ _ h; simp at h
  · intro r d d1 t _ _ _; trivial
  · intro r d d1 tt r2 d2 _ _ _; trivial
  · intro r d d1 tt r2 d2 e _ _ _ h; simp at h

/-- The loop of `(*AAvLst).UnmarshalXML`, when it ends without error, has
stopped where the token source reports `io.EOF`, or right behind the first
end-element of the start name. -/
theorem AAvLst_loop_end (marshal : Token → Except Error String) (start : StartElement) :
    ∀ (fuel : Nat) (content : String) (d d1 : Decoder) (out : String),
      AAvLst.loop marshal start fuel content d = (d1, .ok out) →
      d1.Token = (d1, .error .EOF) ∨
        ∃ ts, d.toks = ts ++ start.End :: d1.toks ∧ ∀ t ∈ ts, t ≠ start.End := by
  intro fuel
  induction fuel with
  | zero => intro content d d1 out h; simp [AAvLst.loop] at h
  | succ fuel ih =>
    intro content d d1 out h
    unfold AAvLst.loop at h
    rcases hT : d.Token with ⟨d2, e | t⟩
    · rw [hT] at h
      by_cases he : e = .EOF
      · subst he
        simp only [Prod.mk.injEq, Except.ok.injEq] at h
        obtain ⟨rfl, rfl⟩ := h
        rcases (Token_error hT).1 with h1 | ⟨_, _, h3⟩
        · subst h1; exact Or.inl hT
        · simp [Error.isToken] at h3
      · cases e <;> first | exact absurd rfl he | simp at h
    · rw [hT] at h
      simp only at h
      have htoks := (Token_ok hT).1
      by_cases ht : t = start.End
      · rw [if_pos ht] at h
        simp only [Prod.mk.injEq, Except.ok.injEq] at h
        obtain ⟨rfl, rfl⟩ := h
        exact Or.inr ⟨[], by rw [htoks, ht]; rfl, by simp⟩
      · rw [if_neg ht] at h
        rcases hm : marshal t with e | b
        · rw [hm] at h; simp at h
        · rw [hm] at h
          rcases ih (content ++ b) d2 d1 out h with h1 | ⟨ts, h1, h2⟩
          · exact Or.inl h1
          · refine Or.inr ⟨t :: ts, by rw [htoks, h1]; rfl, ?_⟩
            intro x hx
            rcases List.mem_cons.1 hx with rfl | hx
            · exact ht
            · exact h2 x hx

/-- When `WPExtent.UnmarshalXML` returns nil it has read one token. -/
theorem WPExtent_UnmarshalXML_one_token (r : WPExtent) (d : Decoder) (start : StartElement)
    (h : (WPExtent.UnmarshalXML r d start).err = none) :
    ∃ t, d.toks = t :: (WPExtent.UnmarshalXML r d start).dec.toks := by
  revert h
  unfold WPExtent.UnmarshalXML
  rcases attrLoop WPExtent.attr start.Attr r with ⟨r1, _ | e⟩
  · simp only []
    rcases hT : d.Token with ⟨d1, e | t⟩
    · intro h; simp at h
    · intro _; exact ⟨t, (Token_ok hT).1⟩
  · intro h; simp at h

/-- When `WPEffectExtent.UnmarshalXML` returns nil it has read one token. -/
theorem WPEffectExtent_UnmarshalXML_one_token (r : WPEffectExtent) (d : Decoder) (start : StartElement)
    (h : (WPEffectExtent.UnmarshalXML r d start).err = none) :
    ∃ t, d.toks = t :: (WPEffectExtent.UnmarshalXML r d start).dec.toks := by
  revert h
  unfold WPEffectExtent.UnmarshalXML
  rcases attrLoop WPEffectExtent.attr start.Attr r with ⟨r1, _ | e⟩
  · simp only []
    rcases hT : d.Token with ⟨d1, e | t⟩
    · intro h; simp at h
    · intro _; exact ⟨t, (Token_ok hT).1⟩
  · intro h; simp at h

/-- When `WPDocPr.UnmarshalXML` returns nil it has read one token. -/
theorem WPDocPr_UnmarshalXML_one_token (r : WPDocPr) (d : Decoder) (start : StartElement)
    (h : (WPDocPr.UnmarshalXML r d start).err = none) :
    ∃ t, d.toks = t :: (WPDocPr.UnmarshalXML r d start).dec.toks := by
  revert h
  unfold WPDocPr.UnmarshalXML
  rcases attrLoop WPDocPr.attr start.Attr r with ⟨r1, _ | e⟩
  · simp only []
    rcases hT : d.Token with ⟨d1, e | t⟩
    · intro h; simp at h
    · intro _; exact ⟨t, (Token_ok hT).1⟩
  · intro h; simp at h

/-- C19: the code on two elements it leaves partly unread.
`WPExtent.UnmarshalXML` handed the content of `<extent cx="1" cy="2">x</extent>`
returns nil after it has read the character data: the end-element of the
extent, which the one read after the attributes is meant to consume, is
unread.  `Drawing.UnmarshalXML` handed the content of
`<drawing><inline distT="abc"></inline><anchor></anchor></drawing>` returns nil
at the end of the inline child, whose decode failed: the anchor child and the
end-element of the drawing are unread. -/
theorem C19_tokens_left_unread :
    ((WPExtent.UnmarshalXML {}
        ⟨[.CharData "x", .EndElement ⟨"", "extent"⟩], none, [.stkStart ⟨"", "extent"⟩, .stkEOF]⟩
        ⟨⟨"", "extent"⟩, [⟨⟨"", "cx"⟩, "1"⟩, ⟨⟨"", "cy"⟩, "2"⟩]⟩).err = none ∧
      (WPExtent.UnmarshalXML {}
        ⟨[.CharData "x", .EndElement ⟨"", "extent"⟩], none, [.stkStart ⟨"", "extent"⟩, .stkEOF]⟩
        ⟨⟨"", "extent"⟩, [⟨⟨"", "cx"⟩, "1"⟩, ⟨⟨"", "cy"⟩, "2"⟩]⟩).dec.toks =
          [.EndElement ⟨"", "extent"⟩]) ∧
    ((Drawing.UnmarshalXML {}
        ⟨[.StartElement ⟨⟨"", "inline"⟩, [⟨⟨"", "distT"⟩, "abc"⟩]⟩, .EndElement ⟨"", "inline"⟩,
          .StartElement ⟨⟨"", "anchor"⟩, []⟩, .EndElement ⟨"", "anchor"⟩,
          .EndElement ⟨"", "drawing"⟩], none, [.stkStart ⟨"", "drawing"⟩, .stkEOF]⟩
        ⟨⟨"", "drawing"⟩, []⟩).err = none ∧
      (Drawing.UnmarshalXML {}
        ⟨[.StartElement ⟨⟨"", "inline"⟩, [⟨⟨"", "distT"⟩, "abc"⟩]⟩, .EndElement ⟨"", "inline"⟩,
          .StartElement ⟨⟨"", "anchor"⟩, []⟩, .EndElement ⟨"", "anchor"⟩,
          .EndElement ⟨"", "drawing"⟩], none, [.stkStart ⟨"", "drawing"⟩, .stkEOF]⟩
        ⟨⟨"", "drawing"⟩, []⟩).dec.toks =
          [.StartElement ⟨⟨"", "anchor"⟩, []⟩, .EndElement ⟨"", "anchor"⟩,
            .EndElement ⟨"", "drawing"⟩]) := by
  decide

/-- The loop over a sequence of empty elements, each of which the body takes
in one round (reading the end-element itself or leaving it to the loop): the
records of the rounds are folded, and the loop goes on behind the sequence. -/
theorem tokenLoop_emptyElements {α : Type} (body : StartElement → α → Decoder → Step α)
    (hreach : ∀ (tt : StartElement) (r : α) (d : Decoder), d.Reach (body tt r d).dec)
    (upd : StartElement → α → α) (good : StartElement → Prop)
    (hbody : ∀ c, good c → ∀ (r : α) (rest : List Token) (err : Option Error) (stk : List Stack),
      body c r ⟨.EndElement c.Name :: rest, err, .stkStart c.Name :: stk⟩ =
          .next (upd c r) ⟨.EndElement c.Name :: rest, err, .stkStart c.Name :: stk⟩ ∨
        body c r ⟨.EndElement c.Name :: rest, err, .stkStart c.Name :: stk⟩ =
          .next (upd c r) ⟨rest, err, stk⟩)
    (rest : List Token) (err : Option Error) (stk : List Stack)
    (hstk : stk.head? ≠ some .stkEOF) :
    ∀ (cs : List StartElement), (∀ c ∈ cs, good c) → ∀ (r : α) (fuel : Nat),
      (emptyElements cs ++ rest).length < fuel →
      tokenLoop body fuel r ⟨emptyElements cs ++ rest, err, stk⟩ =
        tokenLoop body (rest.length + 1) (cs.foldl (fun r c => upd c r) r) ⟨rest, err, stk⟩ := by
  intro cs
  induction cs with
  | nil =>
    intro _ r fuel hfuel
    exact tokenLoop_fuel body (body_shrink hreach) _ _ _ _ hfuel (Nat.lt_add_one _)
  | cons c cs ih =>
    intro hgood r fuel hfuel
    have hc := hgood c (List.mem_cons_self _ _)
    have hcs : ∀ x ∈ cs, good x := fun x hx => hgood x (List.mem_cons_of_mem _ hx)
    simp only [emptyElements, List.cons_append, List.length_cons] at hfuel ⊢
    obtain ⟨k, rfl⟩ : ∃ k, fuel = k + 2 := ⟨fuel - 2, by omega⟩
    rw [tokenLoop_start body (k + 1) r (Token_start c _ err stk hstk)]
    rcases hbody c hc r (emptyElements cs ++ rest) err stk with h | h
    · rw [h]
      simp only []
      rw [tokenLoop_other body k _ (Token_end c.Name _ err stk) (by simp)]
      exact ih hcs _ k (by omega)
    · rw [h]
      simp only [List.foldl_cons]
      exact ih hcs _ (k + 1) (by omega)

/-- The loop is the same on two orderings of a sequence of empty elements
whose records commute. -/
theorem tokenLoop_emptyElements_perm {α : Type} (body : StartElement → α → Decoder → Step α)
    (hreach : ∀ (tt : StartElement) (r : α) (d : Decoder), d.Reach (body tt r d).dec)
    (upd : StartElement → α → α) (good : StartElement → Prop)
    (hbody : ∀ c, good c → ∀ (r : α) (rest : List Token) (err : Option Error) (stk : List Stack),
      body c r ⟨.EndElement c.Name :: rest, err, .stkStart c.Name :: stk⟩ =
          .next (upd c r) ⟨.EndElement c.Name :: rest, err, .stkStart c.Name :: stk⟩ ∨
        body c r ⟨.EndElement c.Name :: rest, err, .stkStart c.Name :: stk⟩ =
          .next (upd c r) ⟨rest, err, stk⟩)
    (hcomm : ∀ (x y : StartElement) (r : α), x.Name.Local ≠ y.Name.Local →
      upd y (upd x r) = upd x (upd y r))
    (cs1 cs2 : List StartElement) (hperm : cs1.Perm cs2)
    (hnodup : (cs1.map fun c => c.Name.Local).Nodup) (hgood : ∀ c ∈ cs1, good c)
    (r : α) (rest : List Token) (err : Option Error) (stk : List Stack) :
    (tokenLoop body ((emptyElements cs1 ++ rest).length + 1) r
        ⟨emptyElements cs1 ++ rest, err, stk⟩).err =
      (tokenLoop body ((emptyElements cs2 ++ rest).length + 1) r
        ⟨emptyElements cs2 ++ rest, err, stk⟩).err ∧
    (tokenLoop body ((emptyElements cs1 ++ rest).length + 1) r
        ⟨emptyElements cs1 ++ rest, err, stk⟩).val =
      (tokenLoop body ((emptyElements cs2 ++ rest).length + 1) r
        ⟨emptyElements cs2 ++ rest, err, stk⟩).val := by
  by_cases hstk : stk.head? = some .stkEOF
  · rw [tokenLoop_eof body _ r (Token_eof_top ⟨emptyElements cs1 ++ rest, err, stk⟩ hstk),
      tokenLoop_eof body _ r (Token_eof_top ⟨emptyElements cs2 ++ rest, err, stk⟩ hstk)]
    exact ⟨rfl, rfl⟩
  · have hgood2 : ∀ c ∈ cs2, good c := fun c hc => hgood c (hperm.mem_iff.2 hc)
    rw [tokenLoop_emptyElements body hreach upd good hbody rest err stk hstk cs1 hgood r _
        (Nat.lt_add_one _),
      tokenLoop_emptyElements body hreach upd good hbody rest err stk hstk cs2 hgood2 r _
        (Nat.lt_add_one _)]
    have hfold : cs1.foldl (fun r c => upd c r) r = cs2.foldl (fun r c => upd c r) r := by
      refine hperm.foldl_eq' ?_ r
      intro x hx y hy z
      by_cases hxy : x = y
      · rw [hxy]
      · exact hcomm x y z (fun h => hxy (List.inj_on_of_nodup_map hnodup hx hy h))
    rw [hfold]
    exact ⟨rfl, rfl⟩

/-- The call `d.DecodeElement(&v, &te)` for an empty element the decoder of
`WPPositionH` reads: the end-element is read, nil. -/
theorem WPPositionH_DecodeElement_empty (te : StartElement) (r : WPPositionH) (toks : List Token)
    (err : Option Error) (stk : List Stack) :
    Decoder.DecodeElement "*docxlib.WPPositionH" WPPositionH.UnmarshalXML r
        ⟨.EndElement te.Name :: toks, err, .stkStart te.Name :: stk⟩ te =
      ⟨WPPositionH.attrs te.Attr r, ⟨toks, err, stk⟩, none⟩ := by
  have h := tokenLoop_close WPPositionH.body WPPositionH.known WPPositionH_body_unknown (WPPositionH.attrs te.Attr r) [] toks te.Name
    err stk rfl (toks.length + 1 + 1) (by simp)
  simp only [List.nil_append] at h
  unfold Decoder.DecodeElement Decoder.unmarshalInterface WPPositionH.UnmarshalXML
  simp only [Decoder.pushEOF, pushEOFStack, List.length_cons]
  rw [h]
  simp only [Decoder.popEOF]
  rfl

/-- The call `d.DecodeElement(&v, &te)` for an empty element the decoder of
`WPPositionV` reads: the end-element is read, nil. -/
theorem WPPositionV_DecodeElement_empty (te : StartElement) (r : WPPositionV) (toks : List Token)
    (err : Option Error) (stk : List Stack) :
    Decoder.DecodeElement "*docxlib.WPPositionV" WPPositionV.UnmarshalXML r
        ⟨.EndElement te.Name :: toks, err, .stkStart te.Name :: stk⟩ te =
      ⟨WPPositionV.attrs te.Attr r, ⟨toks, err, stk⟩, none⟩ := by
  have h := tokenLoop_close WPPositionV.body WPPositionV.known WPPositionV_body_unknown (WPPositionV.attrs te.Attr r) [] toks te.Name
    err stk rfl (toks.length + 1 + 1) (by simp)
  simp only [List.nil_append] at h
  unfold Decoder.DecodeElement Decoder.unmarshalInterface WPPositionV.UnmarshalXML
  simp only [Decoder.pushEOF, pushEOFStack, List.length_cons]
  rw [h]
  simp only [Decoder.popEOF]
  rfl

/-- The call `d.DecodeElement(&v, &te)` for an empty element the decoder of
`WPCNvGraphicFramePr` reads: the end-element is read, nil. -/
theorem WPCNvGraphicFramePr_DecodeElement_empty (te : StartElement) (r : WPCNvGraphicFramePr) (toks : List Token)
    (err : Option Error) (stk : List Stack) :
    Decoder.DecodeElement "*docxlib.WPCNvGraphicFramePr" WPCNvGraphicFramePr.UnmarshalXML r
        ⟨.EndElement te.Name :: toks, err, .stkStart te.Name :: stk⟩ te =
      ⟨r, ⟨toks, err, stk⟩, none⟩ := by
  have h := tokenLoop_close WPCNvGraphicFramePr.body WPCNvGraphicFramePr.known WPCNvGraphicFramePr_body_unknown (r) [] toks te.Name
    err stk rfl (toks.length + 1 + 1) (by simp)
  simp only [List.nil_append] at h
  unfold Decoder.DecodeElement Decoder.unmarshalInterface WPCNvGraphicFramePr.UnmarshalXML
  simp only [Decoder.pushEOF, pushEOFStack, List.length_cons]
  rw [h]
  simp only [Decoder.popEOF]
  rfl

/-- The call `d.DecodeElement(&v, &te)` for an empty element the decoder of
`AGraphic` reads: the end-element is read, nil. -/
theorem AGraphic_DecodeElement_empty (te : StartElement) (r : AGraphic) (toks : List Token)
    (err : Option Error) (stk : List Stack) :
    Decoder.DecodeElement "*docxlib.AGraphic" AGraphic.UnmarshalXML r
        ⟨.EndElement te.Name :: toks, err, .stkStart te.Name :: stk⟩ te =
      ⟨AGraphic.attrs te.Attr r, ⟨toks, err, stk⟩, none⟩ := by
  have h := tokenLoop_close AGraphic.body AGraphic.known AGraphic_body_unknown (AGraphic.attrs te.Attr r) [] toks te.Name
    err stk rfl (toks.length + 1 + 1) (by simp)
  simp only [List.nil_append] at h
  unfold Decoder.DecodeElement Decoder.unmarshalInterface AGraphic.UnmarshalXML
  simp only [Decoder.pushEOF, pushEOFStack, List.length_cons]
  rw [h]
  simp only [Decoder.popEOF]
  rfl

/-- The record after an empty child: one optional field is set, to a value
that does not depend on the record, or the record is left as it is. -/
theorem WPAnchor_afterEmptyChild_shape (c : StartElement) :
    (∃ v, c.Name.Local = "simplePos" ∧ ∀ r : WPAnchor, WPAnchor.afterEmptyChild c r = { r with SimplePosXY := some v }) ∨
    (∃ v, c.Name.Local = "positionH" ∧ ∀ r : WPAnchor, WPAnchor.afterEmptyChild c r = { r with PositionH := some v }) ∨
    (∃ v, c.Name.Local = "positionV" ∧ ∀ r : WPAnchor, WPAnchor.afterEmptyChild c r = { r with PositionV := some v }) ∨
    (∃ v, c.Name.Local = "extent" ∧ ∀ r : WPAnchor, WPAnchor.afterEmptyChild c r = { r with Extent := some v }) ∨
    (∃ v, c.Name.Local = "effectExtent" ∧ ∀ r : WPAnchor, WPAnchor.afterEmptyChild c r = { r with EffectExtent := some v }) ∨
    (∃ v, c.Name.Local = "wrapNone" ∧ ∀ r : WPAnchor, WPAnchor.afterEmptyChild c r = { r with WrapNone := some v }) ∨
    (∃ v, c.Name.Local = "wrapSquare" ∧ ∀ r : WPAnchor, WPAnchor.afterEmptyChild c r = { r with WrapSquare := some v }) ∨
    (∃ v, c.Name.Local = "docPr" ∧ ∀ r : WPAnchor, WPAnchor.afterEmptyChild c r = { r with DocPr := some v }) ∨
    (∃ v, c.Name.Local = "cNvGraphicFramePr" ∧ ∀ r : WPAnchor, WPAnchor.afterEmptyChild c r = { r with CNvGraphicFramePr := some v }) ∨
    (∃ v, c.Name.Local = "graphic" ∧ ∀ r : WPAnchor, WPAnchor.afterEmptyChild c r = { r with Graphic := some v }) ∨
    (∀ r : WPAnchor, WPAnchor.afterEmptyChild c r = r) := by
  unfold WPAnchor.afterEmptyChild WPAnchor.body
  by_cases h0 : c.Name.Local = "simplePos"
  · simp only [if_pos h0]
    rcases strconv.ParseInt (getAtt c.Attr "x") 10 64 with ⟨v0, _ | e0⟩
    · simp only []
      rcases strconv.ParseInt (getAtt c.Attr "y") 10 64 with ⟨v1, _ | e1⟩
      · simp only []
        exact Or.inl (⟨_, h0, fun _ => rfl⟩)
      · exact Or.inl (⟨_, h0, fun _ => rfl⟩)
    · exact Or.inl (⟨_, h0, fun _ => rfl⟩)
  by_cases h1 : c.Name.Local = "positionH"
  · simp only [if_neg h0, if_pos h1]
    exact Or.inr (Or.inl (⟨_, h1, fun _ => rfl⟩))
  by_cases h2 : c.Name.Local = "positionV"
  · simp only [if_neg h0, if_neg h1, if_pos h2]
    exact Or.inr (Or.inr (Or.inl (⟨_, h2, fun _ => rfl⟩)))
  by_cases h3 : c.Name.Local = "extent"
  · simp only [if_neg h0, if_neg h1, if_neg h2, if_pos h3]
    exact Or.inr (Or.inr (Or.inr (Or.inl (⟨_, h3, fun _ => rfl⟩))))
  by_cases h4 : c.Name.Local = "effectExtent"
  · simp only [if_neg h0, if_neg h1, if_neg h2, if_neg h3, if_pos h4]
    exact Or.inr (Or.inr (Or.inr (Or.inr (Or.inl (⟨_, h4, fun _ => rfl⟩)))))
  by_cases h5 : c.Name.Local = "wrapNone"
  · simp only [if_neg h0, if_neg h1, if_neg h2, if_neg h3, if_neg h4, if_pos h5]
    exact Or.inr (Or.inr (Or.inr (Or.inr (Or.inr (Or.inl (⟨_, h5, fun _ => rfl⟩))))))
  by_cases h6 : c.Name.Local = "wrapSquare"
  · simp only [if_neg h0, if_neg h1, if_neg h2, if_neg h3, if_neg h4, if_neg h5, if_pos h6]
    exact Or.inr (Or.inr (Or.inr (Or.inr (Or.inr (Or.inr (Or.inl (⟨_, h6, fun _ => rfl⟩)))))))
  by_cases h7 : c.Name.Local = "docPr"
  · simp only [if_neg h0, if_neg h1, if_neg h2, if_neg h3, if_neg h4, if_neg h5, if_neg h6, if_pos h7]
    exact Or.inr (Or.inr (Or.inr (Or.inr (Or.inr (Or.inr (Or.inr (Or.inl (⟨_, h7, fun _ => rfl⟩))))))))
  by_cases h8 : c.Name.Local = "cNvGraphicFramePr"
  · simp only [if_neg h0, if_neg h1, if_neg h2, if_neg h3, if_neg h4, if_neg h5, if_neg h6, if_neg h7, if_pos h8]
    exact Or.inr (Or.inr (Or.inr (Or.inr (Or.inr (Or.inr (Or.inr (Or.inr (Or.inl (⟨_, h8, fun _ => rfl⟩)))))))))
  by_cases h9 : c.Name.Local = "graphic"
  · simp only [if_neg h0, if_neg h1, if_neg h2, if_neg h3, if_neg h4, if_neg h5, if_neg h6, if_neg h7, if_neg h8, if_pos h9]
    exact Or.inr (Or.inr (Or.inr (Or.inr (Or.inr (Or.inr (Or.inr (Or.inr (Or.inr (Or.inl (⟨_, h9, fun _ => rfl⟩))))))))))
  simp only [if_neg h0, if_neg h1, if_neg h2, if_neg h3, if_neg h4, if_neg h5, if_neg h6, if_neg h7, if_neg h8, if_neg h9]
  exact Or.inr (Or.inr (Or.inr (Or.inr (Or.inr (Or.inr (Or.inr (Or.inr (Or.inr (Or.inr (fun _ => rfl))))))))))

/-- The records after two empty children of different names commute. -/
theorem WPAnchor_afterEmptyChild_comm (x y : StartElement) (r : WPAnchor)
    (hne : x.Name.Local ≠ y.Name.Local) :
    WPAnchor.afterEmptyChild y (WPAnchor.afterEmptyChild x r) =
      WPAnchor.afterEmptyChild x (WPAnchor.afterEmptyChild y r) := by
  rcases WPAnchor_afterEmptyChild_shape x with ⟨vx, nx, hx⟩ | ⟨vx, nx, hx⟩ | ⟨vx, nx, hx⟩ | ⟨vx, nx, hx⟩ | ⟨vx, nx, hx⟩ | ⟨vx, nx, hx⟩ | ⟨vx, nx, hx⟩ | ⟨vx, nx, hx⟩ | ⟨vx, nx, hx⟩ | ⟨vx, nx, hx⟩ | hx <;>
  rcases WPAnchor_afterEmptyChild_shape y with ⟨vy, ny, hy⟩ | ⟨vy, ny, hy⟩ | ⟨vy, ny, hy⟩ | ⟨vy, ny, hy⟩ | ⟨vy, ny, hy⟩ | ⟨vy, ny, hy⟩ | ⟨vy, ny, hy⟩ | ⟨vy, ny, hy⟩ | ⟨vy, ny, hy⟩ | ⟨vy, ny, hy⟩ | hy <;>
  first
    | exact absurd (nx.trans ny.symm) hne
    | (simp only [hx, hy])

/-- The round of the loop of `WPAnchor.UnmarshalXML` on the start-element of an
empty child with well-formed attributes: the record is the one after the
empty child, and the decoder stands before or behind the end-element. -/
theorem WPAnchor_body_emptyChild (c : StartElement) (hgood : WPAnchor.wellFormedChild c) (r : WPAnchor)
    (rest : List Token) (err : Option Error) (stk : List Stack) :
    WPAnchor.body c r ⟨.EndElement c.Name :: rest, err, .stkStart c.Name :: stk⟩ =
        .next (WPAnchor.afterEmptyChild c r)
          ⟨.EndElement c.Name :: rest, err, .stkStart c.Name :: stk⟩ ∨
      WPAnchor.body c r ⟨.EndElement c.Name :: rest, err, .stkStart c.Name :: stk⟩ =
        .next (WPAnchor.afterEmptyChild c r) ⟨rest, err, stk⟩ := by
  unfold WPAnchor.afterEmptyChild WPAnchor.body
  by_cases h0 : c.Name.Local = "simplePos"
  · simp only [if_pos h0]
    obtain ⟨n0, hl0⟩ := (hgood.1 h0).1
    obtain ⟨n1, hl1⟩ := (hgood.1 h0).2
    simp only [(ParseInt_ok_iff _ 64 n0 (Or.inr rfl)).2 hl0, (ParseInt_ok_iff _ 64 n1 (Or.inr rfl)).2 hl1]
    exact Or.inl rfl
  by_cases h1 : c.Name.Local = "positionH"
  · simp only [if_neg h0, if_pos h1]
    rw [WPPositionH_DecodeElement_empty c {} rest err stk,
      WPPositionH_DecodeElement_empty c {} [] none []]
    exact Or.inr rfl
  by_cases h2 : c.Name.Local = "positionV"
  · simp only [if_neg h0, if_neg h1, if_pos h2]
    rw [WPPositionV_DecodeElement_empty c {} rest err stk,
      WPPositionV_DecodeElement_empty c {} [] none []]
    exact Or.inr rfl
  by_cases h3 : c.Name.Local = "extent"
  · simp only [if_neg h0, if_neg h1, if_neg h2, if_pos h3]
    rw [WPExtent_DecodeElement_empty c {} rest err stk (hgood.2.1 h3),
      WPExtent_DecodeElement_empty c {} [] none [] (hgood.2.1 h3)]
    exact Or.inr rfl
  by_cases h4 : c.Name.Local = "effectExtent"
  · simp only [if_neg h0, if_neg h1, if_neg h2, if_neg h3, if_pos h4]
    rw [WPEffectExtent_DecodeElement_empty c {} rest err stk (hgood.2.2.1 h4),
      WPEffectExtent_DecodeElement_empty c {} [] none [] (hgood.2.2.1 h4)]
    exact Or.inr rfl
  by_cases h5 : c.Name.Local = "wrapNone"
  · simp only [if_neg h0, if_neg h1, if_neg h2, if_neg h3, if_neg h4, if_pos h5]
    exact Or.inl rfl
  by_cases h6 : c.Name.Local = "wrapSquare"
  · simp only [if_neg h0, if_neg h1, if_neg h2, if_neg h3, if_neg h4, if_neg h5, if_pos h6]
    exact Or.inl rfl
  by_cases h7 : c.Name.Local = "docPr"
  · simp only [if_neg h0, if_neg h1, if_neg h2, if_neg h3, if_neg h4, if_neg h5, if_neg h6, if_pos h7]
    rw [WPDocPr_DecodeElement_empty c {} rest err stk (hgood.2.2.2 h7),
      WPDocPr_DecodeElement_empty c {} [] none [] (hgood.2.2.2 h7)]
    exact Or.inr rfl
  by_cases h8 : c.Name.Local = "cNvGraphicFramePr"
  · simp only [if_neg h0, if_neg h1, if_neg h2, if_neg h3, if_neg h4, if_neg h5, if_neg h6, if_neg h7, if_pos h8]
    rw [WPCNvGraphicFramePr_DecodeElement_empty c {} rest err stk,
      WPCNvGraphicFramePr_DecodeElement_empty c {} [] none []]
    exact Or.inr rfl
  by_cases h9 : c.Name.Local = "graphic"
  · simp only [if_neg h0, if_neg h1, if_neg h2, if_neg h3, if_neg h4, if_neg h5, if_neg h6, if_neg h7, if_neg h8, if_pos h9]
    rw [AGraphic_DecodeElement_empty c {} rest err stk,
      AGraphic_DecodeElement_empty c {} [] none []]
    exact Or.inr rfl
  simp only [if_neg h0, if_neg h1, if_neg h2, if_neg h3, if_neg h4, if_neg h5, if_neg h6, if_neg h7, if_neg h8, if_neg h9]
  exact Or.inl rfl

/-- The outcome of `WPAnchor.UnmarshalXML` is the same on two orderings of a
sequence of empty children with pairwise distinct names and well-formed
attributes. -/
theorem WPAnchor_UnmarshalXML_perm (r : WPAnchor) (start : StartElement) (cs1 cs2 : List StartElement)
    (rest : List Token) (err : Option Error) (stk : List Stack) (hperm : cs1.Perm cs2)
    (hnodup : (cs1.map fun c => c.Name.Local).Nodup)
    (hgood : ∀ c ∈ cs1, WPAnchor.wellFormedChild c) :
    (WPAnchor.UnmarshalXML r ⟨emptyElements cs1 ++ rest, err, stk⟩ start).err =
        (WPAnchor.UnmarshalXML r ⟨emptyElements cs2 ++ rest, err, stk⟩ start).err ∧
      (WPAnchor.UnmarshalXML r ⟨emptyElements cs1 ++ rest, err, stk⟩ start).val =
        (WPAnchor.UnmarshalXML r ⟨emptyElements cs2 ++ rest, err, stk⟩ start).val := by
  unfold WPAnchor.UnmarshalXML
  rcases attrLoop WPAnchor.attr start.Attr r with ⟨r1, _ | e⟩
  · exact tokenLoop_emptyElements_perm WPAnchor.body WPAnchor_body_reach WPAnchor.afterEmptyChild
      WPAnchor.wellFormedChild WPAnchor_body_emptyChild
      (fun x y r h => WPAnchor_afterEmptyChild_comm x y r h) cs1 cs2 hperm hnodup hgood r1 rest err stk
  · exact ⟨rfl, rfl⟩

/-- The record after an empty child: one optional field is set, to a value
that does not depend on the record, or the record is left as it is. -/
theorem WPInline_afterEmptyChild_shape (c : StartElement) :
    (∃ v, c.Name.Local = "extent" ∧ ∀ r : WPInline, WPInline.afterEmptyChild c r = { r with Extent := some v }) ∨
    (∃ v, c.Name.Local = "effectExtent" ∧ ∀ r : WPInline, WPInline.afterEmptyChild c r = { r with EffectExtent := some v }) ∨
    (∃ v, c.Name.Local = "docPr" ∧ ∀ r : WPInline, WPInline.afterEmptyChild c r = { r with DocPr := some v }) ∨
    (∃ v, c.Name.Local = "cNvGraphicFramePr" ∧ ∀ r : WPInline, WPInline.afterEmptyChild c r = { r with CNvGraphicFramePr := some v }) ∨
    (∃ v, c.Name.Local = "graphic" ∧ ∀ r : WPInline, WPInline.afterEmptyChild c r = { r with Graphic := some v }) ∨
    (∀ r : WPInline, WPInline.afterEmptyChild c r = r) := by
  unfold WPInline.afterEmptyChild WPInline.body
  by_cases h0 : c.Name.Local = "extent"
  · simp only [if_pos h0]
    rcases strconv.ParseInt (getAtt c.Attr "cx") 10 64 with ⟨v0, _ | e0⟩
    · simp only []
      rcases strconv.ParseInt (getAtt c.Attr "cy") 10 64 with ⟨v1, _ | e1⟩
      · simp only []
        exact Or.inl (⟨_, h0, fun _ => rfl⟩)
      · exact Or.inl (⟨_, h0, fun _ => rfl⟩)
    · exact Or.inl (⟨_, h0, fun _ => rfl⟩)
  by_cases h1 : c.Name.Local = "effectExtent"
  · simp only [if_neg h0, if_pos h1]
    rcases strconv.ParseInt (getAtt c.Attr "l") 10 64 with ⟨v0, _ | e0⟩
    · simp only []
      rcases strconv.ParseInt (getAtt c.Attr "t") 10 64 with ⟨v1, _ | e1⟩
      · simp only []
        rcases strconv.ParseInt (getAtt c.Attr "r") 10 64 with ⟨v2, _ | e2⟩
        · simp only []
          rcases strconv.ParseInt (getAtt c.Attr "b") 10 64 with ⟨v3, _ | e3⟩
          · simp only []
            exact Or.inr (Or.inl (⟨_, h1, fun _ => rfl⟩))
          · exact Or.inr (Or.inl (⟨_, h1, fun _ => rfl⟩))
        · exact Or.inr (Or.inl (⟨_, h1, fun _ => rfl⟩))
      · exact Or.inr (Or.inl (⟨_, h1, fun _ => rfl⟩))
    · exact Or.inr (Or.inl (⟨_, h1, fun _ => rfl⟩))
  by_cases h2 : c.Name.Local = "docPr"
  · simp only [if_neg h0, if_neg h1, if_pos h2]
    exact Or.inr (Or.inr (Or.inl (⟨_, h2, fun _ => rfl⟩)))
  by_cases h3 : c.Name.Local = "cNvGraphicFramePr"
  · simp only [if_neg h0, if_neg h1, if_neg h2, if_pos h3]
    exact Or.inr (Or.inr (Or.inr (Or.inl (⟨_, h3, fun _ => rfl⟩))))
  by_cases h4 : c.Name.Local = "graphic"
  · simp only [if_neg h0, if_neg h1, if_neg h2, if_neg h3, if_pos h4]
    exact Or.inr (Or.inr (Or.inr (Or.inr (Or.inl (⟨_, h4, fun _ => rfl⟩)))))
  simp only [if_neg h0, if_neg h1, if_neg h2, if_neg h3, if_neg h4]
  exact Or.inr (Or.inr (Or.inr (Or.inr (Or.inr (fun _ => rfl)))))

/-- The records after two empty children of different names commute. -/
theorem WPInline_afterEmptyChild_comm (x y : StartElement) (r : WPInline)
    (hne : x.Name.Local ≠ y.Name.Local) :
    WPInline.afterEmptyChild y (WPInline.afterEmptyChild x r) =
      WPInline.afterEmptyChild x (WPInline.afterEmptyChild y r) := by
  rcases WPInline_afterEmptyChild_shape x with ⟨vx, nx, hx⟩ | ⟨vx, nx, hx⟩ | ⟨vx, nx, hx⟩ | ⟨vx, nx, hx⟩ | ⟨vx, nx, hx⟩ | hx <;>
  rcases WPInline_afterEmptyChild_shape y with ⟨vy, ny, hy⟩ | ⟨vy, ny, hy⟩ | ⟨vy, ny, hy⟩ | ⟨vy, ny, hy⟩ | ⟨vy, ny, hy⟩ | hy <;>
  first
    | exact absurd (nx.trans ny.symm) hne
    | (simp only [hx, hy])

/-- The round of the loop of `WPInline.UnmarshalXML` on the start-element of an
empty child with well-formed attributes: the record is the one after the
empty child, and the decoder stands before or behind the end-element. -/
theorem WPInline_body_emptyChild (c : StartElement) (hgood : WPInline.wellFormedChild c) (r : WPInline)
    (rest : List Token) (err : Option Error) (stk : List Stack) :
    WPInline.body c r ⟨.EndElement c.Name :: rest, err, .stkStart c.Name :: stk⟩ =
        .next (WPInline.afterEmptyChild c r)
          ⟨.EndElement c.Name :: rest, err, .stkStart c.Name :: stk⟩ ∨
      WPInline.body c r ⟨.EndElement c.Name :: rest, err, .stkStart c.Name :: stk⟩ =
        .next (WPInline.afterEmptyChild c r) ⟨rest, err, stk⟩ := by
  unfold WPInline.afterEmptyChild WPInline.body
  by_cases h0 : c.Name.Local = "extent"
  · simp only [if_pos h0]
    obtain ⟨n0, hl0⟩ := (hgood.1 h0).1
    obtain ⟨n1, hl1⟩ := (hgood.1 h0).2
    simp only [(ParseInt_ok_iff _ 64 n0 (Or.inr rfl)).2 hl0, (ParseInt_ok_iff _ 64 n1 (Or.inr rfl)).2 hl1]
    exact Or.inl rfl
  by_cases h1 : c.Name.Local = "effectExtent"
  · simp only [if_neg h0, if_pos h1]
    obtain ⟨n0, hl0⟩ := (hgood.2.1 h1).1
    obtain ⟨n1, hl1⟩ := (hgood.2.1 h1).2.1
    obtain ⟨n2, hl2⟩ := (hgood.2.1 h1).2.2.1
    obtain ⟨n3, hl3⟩ := (hgood.2.1 h1).2.2.2
    simp only [(ParseInt_ok_iff _ 64 n0 (Or.inr rfl)).2 hl0, (ParseInt_ok_iff _ 64 n1 (Or.inr rfl)).2 hl1, (ParseInt_ok_iff _ 64 n2 (Or.inr rfl)).2 hl2, (ParseInt_ok_iff _ 64 n3 (Or.inr rfl)).2 hl3]
    exact Or.inl rfl
  by_cases h2 : c.Name.Local = "docPr"
  · simp only [if_neg h0, if_neg h1, if_pos h2]
    rw [WPDocPr_DecodeElement_empty c {} rest err stk (hgood.2.2 h2),
      WPDocPr_DecodeElement_empty c {} [] none [] (hgood.2.2 h2)]
    exact Or.inr rfl
  by_cases h3 : c.Name.Local = "cNvGraphicFramePr"
  · simp only [if_neg h0, if_neg h1, if_neg h2, if_pos h3]
    rw [WPCNvGraphicFramePr_DecodeElement_empty c {} rest err stk,
      WPCNvGraphicFramePr_DecodeElement_empty c {} [] none []]
    exact Or.inr rfl
  by_cases h4 : c.Name.Local = "graphic"
  · simp only [if_neg h0, if_neg h1, if_neg h2, if_neg h3, if_pos h4]
    rw [AGraphic_DecodeElement_empty c {} rest err stk,
      AGraphic_DecodeElement_empty c {} [] none []]
    exact Or.inr rfl
  simp only [if_neg h0, if_neg h1, if_neg h2, if_neg h3, if_neg h4]
  exact Or.inl rfl

/-- The outcome of `WPInline.UnmarshalXML` is the same on two orderings of a
sequence of empty children with pairwise distinct names and well-formed
attributes. -/
theorem WPInline_UnmarshalXML_perm (r : WPInline) (start : StartElement) (cs1 cs2 : List StartElement)
    (rest : List Token) (err : Option Error) (stk : List Stack) (hperm : cs1.Perm cs2)
    (hnodup : (cs1.map fun c => c.Name.Local).Nodup)
    (hgood : ∀ c ∈ cs1, WPInline.wellFormedChild c) :
    (WPInline.UnmarshalXML r ⟨emptyElements cs1 ++ rest, err, stk⟩ start).err =
        (WPInline.UnmarshalXML r ⟨emptyElements cs2 ++ rest, err, stk⟩ start).err ∧
      (WPInline.UnmarshalXML r ⟨emptyElements cs1 ++ rest, err, stk⟩ start).val =
        (WPInline.UnmarshalXML r ⟨emptyElements cs2 ++ rest, err, stk⟩ start).val := by
  unfold WPInline.UnmarshalXML
  rcases attrLoop WPInline.attr start.Attr r with ⟨r1, _ | e⟩
  · exact tokenLoop_emptyElements_perm WPInline.body WPInline_body_reach WPInline.afterEmptyChild
      WPInline.wellFormedChild WPInline_body_emptyChild
      (fun x y r h => WPInline_afterEmptyChild_comm x y r h) cs1 cs2 hperm hnodup hgood r1 rest err stk
  · exact ⟨rfl, rfl⟩

/-- C20, as stated, fails.
* Anchor, an `extent` child with `cx="abc"` and a `docPr` child: both orderings
  return nil, and the records differ (with the extent child first the `docPr`
  child is never read).
* Inline, an `extent` child with `cx="abc"` and a `docPr` child with `id="x"`:
  with the extent child first the decode returns an error, with the `docPr`
  child first it returns nil.
* Anchor, an `extent` child with well-formed attributes and character data as
  content, and a `docPr` child: both orderings return nil, and the records
  differ. -/
theorem C20_counterexample_order_of_children :
    ((WPAnchor.UnmarshalXML {}
        ⟨emptyElements [⟨⟨"", "extent"⟩, [⟨⟨"", "cx"⟩, "abc"⟩]⟩, ⟨⟨"", "docPr"⟩, [⟨⟨"", "id"⟩, "1"⟩]⟩] ++
          [.EndElement ⟨"", "anchor"⟩], none, [.stkStart ⟨"", "anchor"⟩, .stkEOF]⟩
        ⟨⟨"", "anchor"⟩, []⟩).err = none ∧
      (WPAnchor.UnmarshalXML {}
        ⟨emptyElements [⟨⟨"", "docPr"⟩, [⟨⟨"", "id"⟩, "1"⟩]⟩, ⟨⟨"", "extent"⟩, [⟨⟨"", "cx"⟩, "abc"⟩]⟩] ++
          [.EndElement ⟨"", "anchor"⟩], none, [.stkStart ⟨"", "anchor"⟩, .stkEOF]⟩
        ⟨⟨"", "anchor"⟩, []⟩).err = none ∧
      (WPAnchor.UnmarshalXML {}
        ⟨emptyElements [⟨⟨"", "extent"⟩, [⟨⟨"", "cx"⟩, "abc"⟩]⟩, ⟨⟨"", "docPr"⟩, [⟨⟨"", "id"⟩, "1"⟩]⟩] ++
          [.EndElement ⟨"", "anchor"⟩], none, [.stkStart ⟨"", "anchor"⟩, .stkEOF]⟩
        ⟨⟨"", "anchor"⟩, []⟩).val ≠
      (WPAnchor.UnmarshalXML {}
        ⟨emptyElements [⟨⟨"", "docPr"⟩, [⟨⟨"", "id"⟩, "1"⟩]⟩, ⟨⟨"", "extent"⟩, [⟨⟨"", "cx"⟩, "abc"⟩]⟩] ++
          [.EndElement ⟨"", "anchor"⟩], none, [.stkStart ⟨"", "anchor"⟩, .stkEOF]⟩
        ⟨⟨"", "anchor"⟩, []⟩).val) ∧
    ((WPInline.UnmarshalXML {}
        ⟨emptyElements [⟨⟨"", "extent"⟩, [⟨⟨"", "cx"⟩, "abc"⟩, ⟨⟨"", "cy"⟩, "1"⟩]⟩,
            ⟨⟨"", "docPr"⟩, [⟨⟨"", "id"⟩, "x"⟩]⟩] ++
          [.EndElement ⟨"", "inline"⟩], none, [.stkStart ⟨"", "inline"⟩, .stkEOF]⟩
        ⟨⟨"", "inline"⟩, []⟩).err ≠ none ∧
      (WPInline.UnmarshalXML {}
        ⟨emptyElements [⟨⟨"", "docPr"⟩, [⟨⟨"", "id"⟩, "x"⟩]⟩,
            ⟨⟨"", "extent"⟩, [⟨⟨"", "cx"⟩, "abc"⟩, ⟨⟨"", "cy"⟩, "1"⟩]⟩] ++
          [.EndElement ⟨"", "inline"⟩], none, [.stkStart ⟨"", "inline"⟩, .stkEOF]⟩
        ⟨⟨"", "inline"⟩, []⟩).err = none) ∧
    ((WPAnchor.UnmarshalXML {}
        ⟨[.StartElement ⟨⟨"", "extent"⟩, [⟨⟨"", "cx"⟩, "1"⟩, ⟨⟨"", "cy"⟩, "2"⟩]⟩, .CharData "x",
          .EndElement ⟨"", "extent"⟩,
          .StartElement ⟨⟨"", "docPr"⟩, [⟨⟨"", "id"⟩, "1"⟩]⟩, .EndElement ⟨"", "docPr"⟩,
          .EndElement ⟨"", "anchor"⟩], none, [.stkStart ⟨"", "anchor"⟩, .stkEOF]⟩
        ⟨⟨"", "anchor"⟩, []⟩).err = none ∧
      (WPAnchor.UnmarshalXML {}
        ⟨[.StartElement ⟨⟨"", "docPr"⟩, [⟨⟨"", "id"⟩, "1"⟩]⟩, .EndElement ⟨"", "docPr"⟩,
          .StartElement ⟨⟨"", "extent"⟩, [⟨⟨"", "cx"⟩, "1"⟩, ⟨⟨"", "cy"⟩, "2"⟩]⟩, .CharData "x",
          .EndElement ⟨"", "extent"⟩,
          .EndElement ⟨"", "anchor"⟩], none, [.stkStart ⟨"", "anchor"⟩, .stkEOF]⟩
        ⟨⟨"", "anchor"⟩, []⟩).err = none ∧
      (WPAnchor.UnmarshalXML {}
        ⟨[.StartElement ⟨⟨"", "extent"⟩, [⟨⟨"", "cx"⟩, "1"⟩, ⟨⟨"", "cy"⟩, "2"⟩]⟩, .CharData "x",
          .EndElement ⟨"", "extent"⟩,
          .StartElement ⟨⟨"", "docPr"⟩, [⟨⟨"", "id"⟩, "1"⟩]⟩, .EndElement ⟨"", "docPr"⟩,
          .EndElement ⟨"", "anchor"⟩], none, [.stkStart ⟨"", "anchor"⟩, .stkEOF]⟩
        ⟨⟨"", "anchor"⟩, []⟩).val ≠
      (WPAnchor.UnmarshalXML {}
        ⟨[.StartElement ⟨⟨"", "docPr"⟩, [⟨⟨"", "id"⟩, "1"⟩]⟩, .EndElement ⟨"", "docPr"⟩,
          .StartElement ⟨⟨"", "extent"⟩, [⟨⟨"", "cx"⟩, "1"⟩, ⟨⟨"", "cy"⟩, "2"⟩]⟩, .CharData "x",
          .EndElement ⟨"", "extent"⟩,
          .EndElement ⟨"", "anchor"⟩], none, [.stkStart ⟨"", "anchor"⟩, .stkEOF]⟩
        ⟨⟨"", "anchor"⟩, []⟩).val) := by
  decide

/-- C20, amended.  For `WPAnchor.UnmarshalXML`, and likewise for
`WPInline.UnmarshalXML`: for every start-element, every record, every stream
behind the children and every two orderings of the same collection of empty
child elements with pairwise distinct local names and well-formed attributes,
the two decodes return the same error (both nil or both the same error) and
leave the same record. -/
theorem C20_order_of_empty_children :
    (∀ (r : WPAnchor) (start : StartElement) (cs1 cs2 : List StartElement) (rest : List Token)
        (err : Option Error) (stk : List Stack),
      cs1.Perm cs2 → (cs1.map fun c => c.Name.Local).Nodup →
      (∀ c ∈ cs1, WPAnchor.wellFormedChild c) →
      (WPAnchor.UnmarshalXML r ⟨emptyElements cs1 ++ rest, err, stk⟩ start).err =
          (WPAnchor.UnmarshalXML r ⟨emptyElements cs2 ++ rest, err, stk⟩ start).err ∧
        (WPAnchor.UnmarshalXML r ⟨emptyElements cs1 ++ rest, err, stk⟩ start).val =
          (WPAnchor.UnmarshalXML r ⟨emptyElements cs2 ++ rest, err, stk⟩ start).val) ∧
    (∀ (r : WPInline) (start : StartElement) (cs1 cs2 : List StartElement) (rest : List Token)
        (err : Option Error) (stk : List Stack),
      cs1.Perm cs2 → (cs1.map fun c => c.Name.Local).Nodup →
      (∀ c ∈ cs1, WPInline.wellFormedChild c) →
      (WPInline.UnmarshalXML r ⟨emptyElements cs1 ++ rest, err, stk⟩ start).err =
          (WPInline.UnmarshalXML r ⟨emptyElements cs2 ++ rest, err, stk⟩ start).err ∧
        (WPInline.UnmarshalXML r ⟨emptyElements cs1 ++ rest, err, stk⟩ start).val =
          (WPInline.UnmarshalXML r ⟨emptyElements cs2 ++ rest, err, stk⟩ start).val) :=
  ⟨fun r start cs1 cs2 rest err stk hperm hnodup hgood =>
      WPAnchor_UnmarshalXML_perm r start cs1 cs2 rest err stk hperm hnodup hgood,
    fun r start cs1 cs2 rest err stk hperm hnodup hgood =>
      WPInline_UnmarshalXML_perm r start cs1 cs2 rest err stk hperm hnodup hgood⟩

/-- C20, amended, at an anchor with the children `docPr`, `extent`, `wrapNone`
and the same children with the first two swapped; the decode of the first
ordering returns nil and populates the three fields. -/
theorem C20_order_of_empty_children_witness :
    (List.Perm
        [(⟨⟨"", "docPr"⟩, [⟨⟨"", "id"⟩, "3"⟩]⟩ : StartElement),
          ⟨⟨"", "extent"⟩, [⟨⟨"", "cx"⟩, "1"⟩, ⟨⟨"", "cy"⟩, "2"⟩]⟩, ⟨⟨"", "wrapNone"⟩, []⟩]
        [⟨⟨"", "extent"⟩, [⟨⟨"", "cx"⟩, "1"⟩, ⟨⟨"", "cy"⟩, "2"⟩]⟩,
          ⟨⟨"", "docPr"⟩, [⟨⟨"", "id"⟩, "3"⟩]⟩, ⟨⟨"", "wrapNone"⟩, []⟩] ∧
      (List.map (fun c => c.Name.Local)
        [(⟨⟨"", "docPr"⟩, [⟨⟨"", "id"⟩, "3"⟩]⟩ : StartElement),
          ⟨⟨"", "extent"⟩, [⟨⟨"", "cx"⟩, "1"⟩, ⟨⟨"", "cy"⟩, "2"⟩]⟩, ⟨⟨"", "wrapNone"⟩, []⟩]).Nodup ∧
      (∀ c ∈ [(⟨⟨"", "docPr"⟩, [⟨⟨"", "id"⟩, "3"⟩]⟩ : StartElement),
          ⟨⟨"", "extent"⟩, [⟨⟨"", "cx"⟩, "1"⟩, ⟨⟨"", "cy"⟩, "2"⟩]⟩, ⟨⟨"", "wrapNone"⟩, []⟩],
        WPAnchor.wellFormedChild c) ∧
      (WPAnchor.UnmarshalXML {}
        ⟨emptyElements [⟨⟨"", "docPr"⟩, [⟨⟨"", "id"⟩, "3"⟩]⟩,
            ⟨⟨"", "extent"⟩, [⟨⟨"", "cx"⟩, "1"⟩, ⟨⟨"", "cy"⟩, "2"⟩]⟩, ⟨⟨"", "wrapNone"⟩, []⟩] ++
          [.EndElement ⟨"", "anchor"⟩], none, [.stkStart ⟨"", "anchor"⟩, .stkEOF]⟩
        ⟨⟨"", "anchor"⟩, []⟩).err = none ∧
      (WPAnchor.UnmarshalXML {}
        ⟨emptyElements [⟨⟨"", "docPr"⟩, [⟨⟨"", "id"⟩, "3"⟩]⟩,
            ⟨⟨"", "extent"⟩, [⟨⟨"", "cx"⟩, "1"⟩, ⟨⟨"", "cy"⟩, "2"⟩]⟩, ⟨⟨"", "wrapNone"⟩, []⟩] ++
          [.EndElement ⟨"", "anchor"⟩], none, [.stkStart ⟨"", "anchor"⟩, .stkEOF]⟩
        ⟨⟨"", "anchor"⟩, []⟩).val =
        { DocPr := some { ID := 3 }, Extent := some { CX := 1, CY := 2 },
          WrapNone := some () }) ∧
    ((WPAnchor.UnmarshalXML {}
        ⟨emptyElements [⟨⟨"", "docPr"⟩, [⟨⟨"", "id"⟩, "3"⟩]⟩,
            ⟨⟨"", "extent"⟩, [⟨⟨"", "cx"⟩, "1"⟩, ⟨⟨"", "cy"⟩, "2"⟩]⟩, ⟨⟨"", "wrapNone"⟩, []⟩] ++
          [.EndElement ⟨"", "anchor"⟩], none, [.stkStart ⟨"", "anchor"⟩, .stkEOF]⟩
        ⟨⟨"", "anchor"⟩, []⟩).err =
      (WPAnchor.UnmarshalXML {}
        ⟨emptyElements [⟨⟨"", "extent"⟩, [⟨⟨"", "cx"⟩, "1"⟩, ⟨⟨"", "cy"⟩, "2"⟩]⟩,
            ⟨⟨"", "docPr"⟩, [⟨⟨"", "id"⟩, "3"⟩]⟩, ⟨⟨"", "wrapNone"⟩, []⟩] ++
          [.EndElement ⟨"", "anchor"⟩], none, [.stkStart ⟨"", "anchor"⟩, .stkEOF]⟩
        ⟨⟨"", "anchor"⟩, []⟩).err ∧
      (WPAnchor.UnmarshalXML {}
        ⟨emptyElements [⟨⟨"", "docPr"⟩, [⟨⟨"", "id"⟩, "3"⟩]⟩,
            ⟨⟨"", "extent"⟩, [⟨⟨"", "cx"⟩, "1"⟩, ⟨⟨"", "cy"⟩, "2"⟩]⟩, ⟨⟨"", "wrapNone"⟩, []⟩] ++
          [.EndElement ⟨"", "anchor"⟩], none, [.stkStart ⟨"", "anchor"⟩, .stkEOF]⟩
        ⟨⟨"", "anchor"⟩, []⟩).val =
      (WPAnchor.UnmarshalXML {}
        ⟨emptyElements [⟨⟨"", "extent"⟩, [⟨⟨"", "cx"⟩, "1"⟩, ⟨⟨"", "cy"⟩, "2"⟩]⟩,
            ⟨⟨"", "docPr"⟩, [⟨⟨"", "id"⟩, "3"⟩]⟩, ⟨⟨"", "wrapNone"⟩, []⟩] ++
          [.EndElement ⟨"", "anchor"⟩], none, [.stkStart ⟨"", "anchor"⟩, .stkEOF]⟩
        ⟨⟨"", "anchor"⟩, []⟩).val) :=
  have hgood : ∀ c ∈ [(⟨⟨"", "docPr"⟩, [⟨⟨"", "id"⟩, "3"⟩]⟩ : StartElement),
      ⟨⟨"", "extent"⟩, [⟨⟨"", "cx"⟩, "1"⟩, ⟨⟨"", "cy"⟩, "2"⟩]⟩, ⟨⟨"", "wrapNone"⟩, []⟩],
      WPAnchor.wellFormedChild c := by
    intro c hc
    simp only [List.mem_cons, List.mem_singleton, List.not_mem_nil, or_false] at hc
    rcases hc with rfl | rfl | rfl
    · refine ⟨fun h => absurd h (by decide), fun h => absurd h (by decide),
        fun h => absurd h (by decide), fun _ a ha _ => ?_⟩
      simp only [List.mem_singleton] at ha
      subst ha
      exact ⟨3, by decide⟩
    · refine ⟨fun h => absurd h (by decide), fun _ a ha _ => ?_,
        fun h => absurd h (by decide), fun h => absurd h (by decide)⟩
      simp only [List.mem_cons, List.mem_singleton, List.not_mem_nil, or_false] at ha
      rcases ha with rfl | rfl
      · exact ⟨1, by decide⟩
      · exact ⟨2, by decide⟩
    · exact ⟨fun h => absurd h (by decide), fun h => absurd h (by decide),
        fun h => absurd h (by decide), fun h => absurd h (by decide)⟩
  ⟨⟨List.Perm.swap _ _ _, by decide, hgood, by decide, by decide⟩,
    C20_order_of_empty_children.1 {} ⟨⟨"", "anchor"⟩, []⟩ _ _ [.EndElement ⟨"", "anchor"⟩] none
      [.stkStart ⟨"", "anchor"⟩, .stkEOF] (List.Perm.swap _ _ _) (by decide) hgood⟩

/-- Well-nested tokens that close the open element `c` split at the
end-element that closes it. -/
theorem inert_split (known : String → Bool) (c : Name) (opened : List Name) :
    ∀ (ins : List Token) (above : List Name), inert known (above ++ c :: opened) ins = true →
      ∃ b1 b2, ins = b1 ++ .EndElement c :: b2 ∧ inert known above b1 = true ∧
        inert known opened b2 = true := by
  intro ins
  induction ins with
  | nil => intro above h; cases above <;> simp [inert] at h
  | cons t ts ih =>
    intro above h
    have hother : (∀ se, t ≠ .StartElement se) → (∀ m, t ≠ .EndElement m) →
        ∃ b1 b2, t :: ts = b1 ++ .EndElement c :: b2 ∧ inert known above b1 = true ∧
          inert known opened b2 = true := by
      intro h1 h2
      have h3 : inert known (above ++ c :: opened) ts = true := by
        revert h
        generalize above ++ c :: opened = l
        intro h
        cases t with
        | StartElement se => exact absurd rfl (h1 se)
        | EndElement m => exact absurd rfl (h2 m)
        | _ => cases l <;> simpa [inert] using h
      obtain ⟨b1, b2, e1, e2, e3⟩ := ih above h3
      refine ⟨t :: b1, b2, by rw [e1]; rfl, ?_, e3⟩
      cases t with
      | StartElement se => exact absurd rfl (h1 se)
      | EndElement m => exact absurd rfl (h2 m)
      | _ => cases above <;> simpa [inert] using e2
    cases t with
    | StartElement se =>
      simp only [inert, Bool.and_eq_true, Bool.not_eq_true'] at h
      obtain ⟨b1, b2, h1, h2, h3⟩ := ih (se.Name :: above) h.2
      refine ⟨.StartElement se :: b1, b2, by rw [h1]; rfl, ?_, h3⟩
      simp only [inert, Bool.and_eq_true, Bool.not_eq_true']
      exact ⟨h.1, h2⟩
    | EndElement m =>
      cases above with
      | nil =>
        simp only [List.nil_append, inert, Bool.and_eq_true, decide_eq_true_eq] at h
        obtain ⟨rfl, h2⟩ := h
        exact ⟨[], ts, rfl, rfl, h2⟩
      | cons a above2 =>
        simp only [List.cons_append, inert, Bool.and_eq_true, decide_eq_true_eq] at h
        obtain ⟨rfl, h2⟩ := h
        obtain ⟨b1, b2, h1, h3, h4⟩ := ih above2 h2
        refine ⟨.EndElement a :: b1, b2, by rw [h1]; rfl, ?_, h4⟩
        simp only [inert, Bool.and_eq_true, decide_eq_true_eq]
        exact ⟨trivial, h3⟩
    | CharData s => exact hother (by simp) (by simp)
    | Comment s => exact hother (by simp) (by simp)
    | ProcInst a b => exact hother (by simp) (by simp)
    | Directive s => exact hother (by simp) (by simp)

theorem skipLoop_start (fuel depth : Nat) {d d1 : Decoder} {se : StartElement}
    (h : d.Token = (d1, .ok (.StartElement se))) :
    d.skipLoop (fuel + 1) depth = d1.skipLoop fuel (depth + 1) := by
  simp only [Decoder.skipLoop, h]

theorem skipLoop_end (fuel depth : Nat) {d d1 : Decoder} {n : Name}
    (h : d.Token = (d1, .ok (.EndElement n))) :
    d.skipLoop (fuel + 1) depth =
      if depth = 0 then (d1, none) else d1.skipLoop fuel (depth - 1) := by
  simp only [Decoder.skipLoop, h]

theorem skipLoop_other (fuel depth : Nat) {d d1 : Decoder} {t : Token}
    (h : d.Token = (d1, .ok t)) (h1 : ∀ se, t ≠ .StartElement se) (h2 : ∀ n, t ≠ .EndElement n) :
    d.skipLoop (fuel + 1) depth = d1.skipLoop fuel depth := by
  cases t with
  | StartElement se => exact absurd rfl (h1 se)
  | EndElement n => exact absurd rfl (h2 n)
  | _ => simp only [Decoder.skipLoop, h]

/-- The loop of `Skip` reads through well-nested tokens that close no more
elements than it has seen opened. -/
theorem skipLoop_inert (known : String → Bool) (toks : List Token) (err : Option Error)
    (stk : List Stack) (hstk : stk.head? ≠ some .stkEOF) :
    ∀ (ins : List Token) (opened : List Name) (fuel depth : Nat),
      inert known opened ins = true → opened.length ≤ depth →
      Decoder.skipLoop (fuel + ins.length) depth
          ⟨ins ++ toks, err, opened.map .stkStart ++ stk⟩ =
        Decoder.skipLoop fuel (depth - opened.length) ⟨toks, err, stk⟩ := by
  intro ins
  induction ins with
  | nil =>
    intro opened fuel depth h _
    cases opened with
    | nil => rfl
    | cons n ns => simp [inert] at h
  | cons t ts ih =>
    intro opened fuel depth h hd
    have htop : (opened.map Stack.stkStart ++ stk).head? ≠ some .stkEOF := by
      cases opened with
      | nil => simpa using hstk
      | cons n ns => simp
    have hfuel : fuel + (t :: ts).length = (fuel + ts.length) + 1 := by simp; omega
    rw [hfuel]
    have hother : (∀ se, t ≠ .StartElement se) → (∀ m, t ≠ .EndElement m) →
        Decoder.skipLoop (fuel + ts.length + 1) depth
            ⟨(t :: ts) ++ toks, err, opened.map .stkStart ++ stk⟩ =
          Decoder.skipLoop fuel (depth - opened.length) ⟨toks, err, stk⟩ := by
      intro h1 h2
      have h3 : inert known opened ts = true := by
        cases t with
        | StartElement se => exact absurd rfl (h1 se)
        | EndElement m => exact absurd rfl (h2 m)
        | _ => cases opened <;> simpa [inert] using h
      have hT := Token_other t (ts ++ toks) err _ htop h1 h2
      rw [List.cons_append, skipLoop_other _ _ hT h1 h2]
      exact ih opened fuel depth h3 hd
    cases t with
    | StartElement se =>
      simp only [inert, Bool.and_eq_true, Bool.not_eq_true'] at h
      have hT := Token_start se (ts ++ toks) err (opened.map Stack.stkStart ++ stk) htop
      rw [List.cons_append, skipLoop_start _ _ hT]
      have := ih (se.Name :: opened) fuel (depth + 1) h.2 (by simp; omega)
      simp only [List.length_cons, Nat.add_sub_add_right] at this
      exact this
    | EndElement m =>
      cases opened with
      | nil => simp [inert] at h
      | cons n ns =>
        simp only [inert, Bool.and_eq_true, decide_eq_true_eq] at h
        obtain ⟨rfl, h2⟩ := h
        simp only [List.length_cons] at hd
        have hT := Token_end n (ts ++ toks) err (ns.map Stack.stkStart ++ stk)
        rw [List.cons_append, List.map_cons, List.cons_append, skipLoop_end _ _ hT,
          if_neg (by omega)]
        have := ih ns fuel (depth - 1) h2 (by omega)
        have e : depth - 1 - ns.length = depth - (n :: ns).length := by
          simp only [List.length_cons]; omega
        rw [e] at this
        exact this
    | CharData s => exact hother (by simp) (by simp)
    | Comment s => exact hother (by simp) (by simp)
    | ProcInst a b => exact hother (by simp) (by simp)
    | Directive s => exact hother (by simp) (by simp)

/-- The method `Skip` on a well-nested content reads up to the end-element of
the open element and returns nil. -/
theorem Skip_inert (known : String → Bool) (c : Name) (body toks : List Token)
    (err : Option Error) (stk : List Stack) (h : inert known [] body = true) :
    Decoder.Skip ⟨body ++ .EndElement c :: toks, err, .stkStart c :: stk⟩ =
      (⟨toks, err, stk⟩, none) := by
  unfold Decoder.Skip
  have h1 := skipLoop_inert known (.EndElement c :: toks) err (.stkStart c :: stk) (by simp)
    body [] (toks.length + 2) 0 h (by simp)
  simp only [List.map_nil, List.nil_append, List.length_nil, Nat.sub_zero] at h1
  have hl : (body ++ Token.EndElement c :: toks).length + 1 = toks.length + 2 + body.length := by
    simp only [List.length_append, List.length_cons]; omega
  simp only [hl]
  rw [h1, skipLoop_end _ _ (Token_end c toks err stk)]
  rfl

/-- The reflective decoder on a well-nested content reads up to the
end-element of the open element. -/
theorem unmarshalLoop_inert (known : String → Bool) (keep : Bool) (c : Name) (toks : List Token)
    (err : Option Error) (stk : List Stack) :
    ∀ (n : Nat) (body : List Token), body.length ≤ n → inert known [] body = true →
      ∀ (fuel : Nat) (data : String), body.length < fuel →
      ∃ data2, Decoder.unmarshalLoop keep fuel data
          ⟨body ++ .EndElement c :: toks, err, .stkStart c :: stk⟩ =
        (⟨toks, err, stk⟩, .ok data2) := by
  intro n
  induction n with
  | zero =>
    intro body hl _ fuel data hf
    have hb : body = [] := List.length_eq_zero.1 (by omega)
    subst hb
    obtain ⟨k, rfl⟩ : ∃ k, fuel = k + 1 := ⟨fuel - 1, by simp at hf; omega⟩
    exact ⟨data, unmarshalLoop_empty keep c toks err stk k data⟩
  | succ n ih =>
    intro body hl h fuel data hf
    cases body with
    | nil =>
      obtain ⟨k, rfl⟩ : ∃ k, fuel = k + 1 := ⟨fuel - 1, by simp at hf; omega⟩
      exact ⟨data, unmarshalLoop_empty keep c toks err stk k data⟩
    | cons t ts =>
      simp only [List.length_cons] at hl hf
      obtain ⟨k, rfl⟩ : ∃ k, fuel = k + 1 := ⟨fuel - 1, by omega⟩
      have hother : ∀ data1, (∀ se, t ≠ .StartElement se) → (∀ m, t ≠ .EndElement m) →
          Decoder.unmarshalLoop keep (k + 1) data
              ⟨(t :: ts) ++ .EndElement c :: toks, err, .stkStart c :: stk⟩ =
            Decoder.unmarshalLoop keep k data1
              ⟨ts ++ .EndElement c :: toks, err, .stkStart c :: stk⟩ →
          ∃ data2, Decoder.unmarshalLoop keep (k + 1) data
              ⟨(t :: ts) ++ .EndElement c :: toks, err, .stkStart c :: stk⟩ =
            (⟨toks, err, stk⟩, .ok data2) := by
        intro data1 h1 h2 he
        have h3 : inert known [] ts = true := by
          cases t with
          | StartElement se => exact absurd rfl (h1 se)
          | EndElement m => exact absurd rfl (h2 m)
          | _ => simpa [inert] using h
        rw [he]
        exact ih ts (by omega) h3 k data1 (by omega)
      cases t with
      | StartElement se =>
        simp only [inert, Bool.and_eq_true, Bool.not_eq_true'] at h
        obtain ⟨b1, b2, h1, h2, h3⟩ := inert_split known se.Name [] ts [] h.2
        subst h1
        have hlist : (Token.StartElement se :: (b1 ++ .EndElement se.Name :: b2)) ++
            .EndElement c :: toks =
            .StartElement se :: (b1 ++ .EndElement se.Name :: (b2 ++ .EndElement c :: toks)) := by
          simp
        have hT := Token_start se (b1 ++ .EndElement se.Name :: (b2 ++ .EndElement c :: toks)) err
          (.stkStart c :: stk) (by simp)
        have hS := Skip_inert known se.Name b1 (b2 ++ .EndElement c :: toks) err
          (.stkStart c :: stk) h2
        rw [hlist, Decoder.unmarshalLoop, hT]
        simp only [hS]
        simp only [List.length_append, List.length_cons] at hl hf
        exact ih b2 (by omega) h3 k data (by omega)
      | EndElement m => simp [inert] at h
      | CharData s =>
        refine hother (if keep then data ++ s else data) (by simp) (by simp) ?_
        rw [List.cons_append, Decoder.unmarshalLoop,
          Token_other (.CharData s) _ err _ (by simp) (by simp) (by simp)]
      | Comment s =>
        refine hother data (by simp) (by simp) ?_
        rw [List.cons_append, Decoder.unmarshalLoop,
          Token_other (.Comment s) _ err _ (by simp) (by simp) (by simp)]
      | ProcInst a b =>
        refine hother data (by simp) (by simp) ?_
        rw [List.cons_append, Decoder.unmarshalLoop,
          Token_other (.ProcInst a b) _ err _ (by simp) (by simp) (by simp)]
      | Directive s =>
        refine hother data (by simp) (by simp) ?_
        rw [List.cons_append, Decoder.unmarshalLoop,
          Token_other (.Directive s) _ err _ (by simp) (by simp) (by simp)]

/-- The reflective decoder on a graphicFrameLocks element with a well-nested
content: it fails before it reads a token, or it reads the content and the
end-element of the element. -/
theorem DecodeElementAGraphicFrameLocks_inert (known : String → Bool) (val : AGraphicFrameLocks)
    (tt : StartElement) (body toks : List Token) (err : Option Error) (stk : List Stack)
    (h : inert known [] body = true) :
    (Decoder.DecodeElementAGraphicFrameLocks val
        ⟨body ++ .EndElement tt.Name :: toks, err, .stkStart tt.Name :: stk⟩ tt).dec =
        ⟨body ++ .EndElement tt.Name :: toks, err, .stkStart tt.Name :: stk⟩ ∨
      (Decoder.DecodeElementAGraphicFrameLocks val
        ⟨body ++ .EndElement tt.Name :: toks, err, .stkStart tt.Name :: stk⟩ tt).dec =
        ⟨toks, err, stk⟩ := by
  unfold Decoder.DecodeElementAGraphicFrameLocks
  by_cases h1 : tt.Name.Local ≠ "graphicFrameLocks"
  · rw [if_pos h1]; exact Or.inl rfl
  · rw [if_neg h1]
    by_cases h2 : tt.Name.Space ≠ XMLNS_DRAWINGML_MAIN
    · rw [if_pos h2]; exact Or.inl rfl
    · rw [if_neg h2]
      rcases AGraphicFrameLocks.attrs tt.Attr { val with XMLName := tt.Name } with ⟨r1, _ | e⟩
      · obtain ⟨data2, hu⟩ := unmarshalLoop_inert known false tt.Name toks err stk body.length
          body (Nat.le_refl _) h
          ((body ++ Token.EndElement tt.Name :: toks).length + 1) ""
          (by simp only [List.length_append, List.length_cons]; omega)
        simp only []
        rw [hu]
        exact Or.inr rfl
      · exact Or.inl rfl

/-- The round of the loop of `WPCNvGraphicFramePr.UnmarshalXML` on a
graphicFrameLocks start-element whose `noChangeAspect` is no integer literal
returns the error of `strconv.Atoi`; the record is the one before the round,
the decoder the one the reflective decode left. -/
theorem WPCNvGraphicFramePr_body_lock_bad (tt : StartElement) (w : WPCNvGraphicFramePr)
    (d : Decoder) (hc : tt.Name.Local = "graphicFrameLocks")
    (hbad : ¬ ∃ n, IsInt64Literal (getAtt tt.Attr "noChangeAspect") n) :
    ∃ e, e.isNum = true ∧
      WPCNvGraphicFramePr.body tt w d = .ret w (d.DecodeElementAGraphicFrameLocks {} tt).dec e := by
  unfold WPCNvGraphicFramePr.body
  rw [if_pos hc]
  rcases ha : strconv.Atoi (getAtt tt.Attr "noChangeAspect") with ⟨n, _ | e⟩
  · exact absurd (Atoi_lit_of_eq ha) hbad
  · exact ⟨e, Atoi_err_isNum _ e (by rw [ha]), rfl⟩

/-- The round of the loop of `WPCNvGraphicFramePr.UnmarshalXML` on a
graphicFrameLocks start-element: it returns the error of `strconv.Atoi`, or
it goes on; the decoder is the one the reflective decode left. -/
theorem WPCNvGraphicFramePr_body_lock (tt : StartElement) (w : WPCNvGraphicFramePr)
    (d : Decoder) (hc : tt.Name.Local = "graphicFrameLocks") :
    (∃ e, e.isNum = true ∧
      WPCNvGraphicFramePr.body tt w d =
        .ret w (d.DecodeElementAGraphicFrameLocks {} tt).dec e) ∨
    (∃ w2, WPCNvGraphicFramePr.body tt w d =
        .next w2 (d.DecodeElementAGraphicFrameLocks {} tt).dec) := by
  unfold WPCNvGraphicFramePr.body
  rw [if_pos hc]
  rcases ha : strconv.Atoi (getAtt tt.Attr "noChangeAspect") with ⟨n, _ | e⟩
  · exact Or.inr ⟨_, rfl⟩
  · exact Or.inl ⟨e, Atoi_err_isNum _ e (by rw [ha]), rfl⟩

/-- The loop of `WPCNvGraphicFramePr.UnmarshalXML` over well-nested tokens
`ins` followed by the tokens `X`: it returns an error of `strconv.Atoi` at a
graphicFrameLocks start-element of `ins`, or it reaches `X` with the elements
of `ins` closed. -/
theorem WPCNvGraphicFramePr_loop_balanced (X later : List Token) (err : Option Error)
    (stk : List Stack) (hstk : stk.head? ≠ some .stkEOF) (hlater : later <:+ X)
    (hbase : ∀ (w : WPCNvGraphicFramePr) (fuel : Nat), X.length < fuel →
      (∃ e, (tokenLoop WPCNvGraphicFramePr.body fuel w ⟨X, err, stk⟩).err = some e ∧
        e.isNum = true) ∧
      later <:+ (tokenLoop WPCNvGraphicFramePr.body fuel w ⟨X, err, stk⟩).dec.toks) :
    ∀ (n : Nat) (ins : List Token) (opened : List Name) (w : WPCNvGraphicFramePr) (fuel : Nat),
      ins.length ≤ n → inert (fun _ => false) opened ins = true → (ins ++ X).length < fuel →
      (∃ e, (tokenLoop WPCNvGraphicFramePr.body fuel w
          ⟨ins ++ X, err, opened.map .stkStart ++ stk⟩).err = some e ∧ e.isNum = true) ∧
      later <:+ (tokenLoop WPCNvGraphicFramePr.body fuel w
          ⟨ins ++ X, err, opened.map .stkStart ++ stk⟩).dec.toks := by
  intro n
  induction n with
  | zero =>
    intro ins opened w fuel hl h hf
    have hb : ins = [] := List.length_eq_zero.1 (by omega)
    subst hb
    cases opened with
    | nil => exact hbase w fuel (by simpa using hf)
    | cons a as => simp [inert] at h
  | succ n ih =>
    intro ins opened w fuel hl h hf
    cases ins with
    | nil =>
      cases opened with
      | nil => exact hbase w fuel (by simpa using hf)
      | cons a as => simp [inert] at h
    | cons t ts =>
      simp only [List.length_cons] at hl
      simp only [List.cons_append, List.length_cons] at hf
      obtain ⟨k, rfl⟩ : ∃ k, fuel = k + 1 := ⟨fuel - 1, by omega⟩
      have htop : (opened.map Stack.stkStart ++ stk).head? ≠ some .stkEOF := by
        cases opened with
        | nil => simpa using hstk
        | cons a as => simp
      have hother : (∀ se, t ≠ .StartElement se) → (∀ m, t ≠ .EndElement m) →
          (∃ e, (tokenLoop WPCNvGraphicFramePr.body (k + 1) w
              ⟨(t :: ts) ++ X, err, opened.map .stkStart ++ stk⟩).err = some e ∧
            e.isNum = true) ∧
          later <:+ (tokenLoop WPCNvGraphicFramePr.body (k + 1) w
              ⟨(t :: ts) ++ X, err, opened.map .stkStart ++ stk⟩).dec.toks := by
        intro h1 h2
        have h3 : inert (fun _ => false) opened ts = true := by
          cases t with
          | StartElement se => exact absurd rfl (h1 se)
          | EndElement m => exact absurd rfl (h2 m)
          | _ => cases opened <;> simpa [inert] using h
        have hT := Token_other t (ts ++ X) err _ htop h1 h2
        rw [List.cons_append, tokenLoop_other WPCNvGraphicFramePr.body k w hT h1]
        exact ih ts opened w k (by omega) h3 (by omega)
      cases t with
      | StartElement se =>
        simp only [inert, Bool.and_eq_true, Bool.not_eq_true'] at h
        have hT := Token_start se (ts ++ X) err (opened.map Stack.stkStart ++ stk) htop
        rw [List.cons_append, tokenLoop_start WPCNvGraphicFramePr.body k w hT]
        by_cases hlock : se.Name.Local = "graphicFrameLocks"
        · obtain ⟨b1, b2, h1, h2, h3⟩ := inert_split (fun _ => false) se.Name opened ts [] h.2
          have hlist : ts ++ X = b1 ++ .EndElement se.Name :: (b2 ++ X) := by rw [h1]; simp
          have hdec := DecodeElementAGraphicFrameLocks_inert (fun _ => false) {} se b1 (b2 ++ X)
            err (opened.map Stack.stkStart ++ stk) h2
          rw [← hlist] at hdec
          have hlen : b2.length < ts.length := by
            rw [h1]; simp only [List.length_append, List.length_cons]; omega
          rcases WPCNvGraphicFramePr_body_lock se w
              ⟨ts ++ X, err, .stkStart se.Name :: (opened.map Stack.stkStart ++ stk)⟩ hlock
            with ⟨e, he, hb⟩ | ⟨w2, hb⟩
          · rw [hb]
            refine ⟨⟨e, rfl, he⟩, ?_⟩
            rcases hdec with hd | hd
            · rw [hd]; exact hlater.trans (List.suffix_append _ _)
            · rw [hd]; exact hlater.trans (List.suffix_append _ _)
          · rw [hb]
            simp only []
            rcases hdec with hd | hd
            · rw [hd]
              exact ih ts (se.Name :: opened) w2 k (by omega) h.2 (by omega)
            · rw [hd]
              exact ih b2 opened w2 k (by omega) h3
                (by simp only [List.length_append] at hf ⊢; omega)
        · rw [WPCNvGraphicFramePr_body_unknown se w _
            (by simp [WPCNvGraphicFramePr.known, WPCNvGraphicFramePr.childNames, hlock])]
          exact ih ts (se.Name :: opened) w k (by omega) h.2 (by omega)
      | EndElement m =>
        cases opened with
        | nil => simp [inert] at h
        | cons a as =>
          simp only [inert, Bool.and_eq_true, decide_eq_true_eq] at h
          obtain ⟨rfl, h2⟩ := h
          have hT := Token_end a (ts ++ X) err (as.map Stack.stkStart ++ stk)
          rw [List.cons_append, List.map_cons, List.cons_append,
            tokenLoop_other WPCNvGraphicFramePr.body k w hT (by simp)]
          exact ih ts as w k (by omega) h2 (by omega)
      | CharData s => exact hother (by simp) (by simp)
      | Comment s => exact hother (by simp) (by simp)
      | ProcInst a b => exact hother (by simp) (by simp)
      | Directive s => exact hother (by simp) (by simp)

theorem getAtt_missing (attrs : List Attr) (name : String)
    (h : ∀ a ∈ attrs, a.Name.Local ≠ name) : getAtt attrs name = "" := by
  unfold getAtt
  rw [List.find?_eq_none.2 (fun a ha => by simpa using h a ha)]

/-- C21, as stated, fails.  Each of the two elements contains a
graphicFrameLocks child without `noChangeAspect`, `WPCNvGraphicFramePr.UnmarshalXML`
returns an error, and `Locks` is present:
* `<wp:cNvGraphicFramePr><a:graphicFrameLocks noChangeAspect="1"/><a:graphicFrameLocks/></wp:cNvGraphicFramePr>`,
  where an earlier lock child set the field;
* `<wp:cNvGraphicFramePr><foo><a:graphicFrameLocks noChangeAspect="1"/></foo><a:graphicFrameLocks/></wp:cNvGraphicFramePr>`,
  where the element has one lock child only, and the lock element inside the
  unrecognised child set the field. -/
theorem C21_counterexample_locks_set_by_earlier_round :
    ((WPCNvGraphicFramePr.UnmarshalXML {}
        ⟨[.StartElement ⟨⟨XMLNS_DRAWINGML_MAIN, "graphicFrameLocks"⟩,
            [⟨⟨"", "noChangeAspect"⟩, "1"⟩]⟩,
          .EndElement ⟨XMLNS_DRAWINGML_MAIN, "graphicFrameLocks"⟩,
          .StartElement ⟨⟨XMLNS_DRAWINGML_MAIN, "graphicFrameLocks"⟩, []⟩,
          .EndElement ⟨XMLNS_DRAWINGML_MAIN, "graphicFrameLocks"⟩,
          .EndElement ⟨"wp", "cNvGraphicFramePr"⟩], none,
          [.stkStart ⟨"wp", "cNvGraphicFramePr"⟩, .stkEOF]⟩
        ⟨⟨"wp", "cNvGraphicFramePr"⟩, []⟩).err ≠ none ∧
      (WPCNvGraphicFramePr.UnmarshalXML {}
        ⟨[.StartElement ⟨⟨XMLNS_DRAWINGML_MAIN, "graphicFrameLocks"⟩,
            [⟨⟨"", "noChangeAspect"⟩, "1"⟩]⟩,
          .EndElement ⟨XMLNS_DRAWINGML_MAIN, "graphicFrameLocks"⟩,
          .StartElement ⟨⟨XMLNS_DRAWINGML_MAIN, "graphicFrameLocks"⟩, []⟩,
          .EndElement ⟨XMLNS_DRAWINGML_MAIN, "graphicFrameLocks"⟩,
          .EndElement ⟨"wp", "cNvGraphicFramePr"⟩], none,
          [.stkStart ⟨"wp", "cNvGraphicFramePr"⟩, .stkEOF]⟩
        ⟨⟨"wp", "cNvGraphicFramePr"⟩, []⟩).val.Locks ≠ none) ∧
    ((WPCNvGraphicFramePr.UnmarshalXML {}
        ⟨[.StartElement ⟨⟨"", "foo"⟩, []⟩,
          .StartElement ⟨⟨XMLNS_DRAWINGML_MAIN, "graphicFrameLocks"⟩,
            [⟨⟨"", "noChangeAspect"⟩, "1"⟩]⟩,
          .EndElement ⟨XMLNS_DRAWINGML_MAIN, "graphicFrameLocks"⟩,
          .EndElement ⟨"", "foo"⟩,
          .StartElement ⟨⟨XMLNS_DRAWINGML_MAIN, "graphicFrameLocks"⟩, []⟩,
          .EndElement ⟨XMLNS_DRAWINGML_MAIN, "graphicFrameLocks"⟩,
          .EndElement ⟨"wp", "cNvGraphicFramePr"⟩], none,
          [.stkStart ⟨"wp", "cNvGraphicFramePr"⟩, .stkEOF]⟩
        ⟨⟨"wp", "cNvGraphicFramePr"⟩, []⟩).err ≠ none ∧
      (WPCNvGraphicFramePr.UnmarshalXML {}
        ⟨[.StartElement ⟨⟨"", "foo"⟩, []⟩,
          .StartElement ⟨⟨XMLNS_DRAWINGML_MAIN, "graphicFrameLocks"⟩,
            [⟨⟨"", "noChangeAspect"⟩, "1"⟩]⟩,
          .EndElement ⟨XMLNS_DRAWINGML_MAIN, "graphicFrameLocks"⟩,
          .EndElement ⟨"", "foo"⟩,
          .StartElement ⟨⟨XMLNS_DRAWINGML_MAIN, "graphicFrameLocks"⟩, []⟩,
          .EndElement ⟨XMLNS_DRAWINGML_MAIN, "graphicFrameLocks"⟩,
          .EndElement ⟨"wp", "cNvGraphicFramePr"⟩], none,
          [.stkStart ⟨"wp", "cNvGraphicFramePr"⟩, .stkEOF]⟩
        ⟨⟨"wp", "cNvGraphicFramePr"⟩, []⟩).val.Locks ≠ none) := by
  decide

/-- C21, amended: for every cNvGraphicFramePr element with a well-nested
content `pre` before a graphicFrameLocks child that has no `noChangeAspect`
attribute, or whose `noChangeAspect` value (as `getAtt` yields it) is not the
base-10 literal of a 64-bit integer, the child having a well-nested content
and the tokens `later` behind it, `WPCNvGraphicFramePr.UnmarshalXML`
* returns an error of `strconv`,
* reads no token behind the child (`later` is a final segment of what is left
  to read), so that no later child is processed,
* and, when no graphicFrameLocks start-element comes before the child, leaves
  the record as it was (`Locks` absent if it was absent) and the decoder where
  the reflective decode of the child left it: before the content of the
  child, or behind its end-element. -/
theorem C21_lock_without_usable_flag (w : WPCNvGraphicFramePr) (start tt : StartElement)
    (pre content later : List Token) (err : Option Error) (stk : List Stack)
    (htt : tt.Name.Local = "graphicFrameLocks")
    (hbad : (∀ a ∈ tt.Attr, a.Name.Local ≠ "noChangeAspect") ∨
      ¬ ∃ n, IsInt64Literal (getAtt tt.Attr "noChangeAspect") n)
    (hpre : inert (fun _ => false) [] pre = true)
    (hcontent : inert (fun _ => false) [] content = true)
    (o : Outcome WPCNvGraphicFramePr)
    (ho : o = WPCNvGraphicFramePr.UnmarshalXML w
      ⟨pre ++ .StartElement tt :: (content ++ .EndElement tt.Name :: later), err,
        .stkStart start.Name :: stk⟩ start) :
    (∃ e, o.err = some e ∧ e.isNum = true) ∧ later <:+ o.dec.toks ∧
      (inert WPCNvGraphicFramePr.known [] pre = true →
        o.val = w ∧
        (o.dec = ⟨content ++ .EndElement tt.Name :: later, err,
            .stkStart tt.Name :: .stkStart start.Name :: stk⟩ ∨
          o.dec = ⟨later, err, .stkStart start.Name :: stk⟩)) := by
  subst ho
  have hbad2 : ¬ ∃ n, IsInt64Literal (getAtt tt.Attr "noChangeAspect") n := by
    rcases hbad with h | h
    · rw [getAtt_missing tt.Attr "noChangeAspect" h]
      exact not_literal_of_decimalInt_none (by decide)
    · exact h
  have hdec := DecodeElementAGraphicFrameLocks_inert (fun _ => false) {} tt content later err
    (.stkStart start.Name :: stk) hcontent
  have hsuf : later <:+
      (Decoder.DecodeElementAGraphicFrameLocks {}
        ⟨content ++ .EndElement tt.Name :: later, err,
          .stkStart tt.Name :: .stkStart start.Name :: stk⟩ tt).dec.toks := by
    rcases hdec with hd | hd
    · rw [hd]
      exact (List.suffix_cons _ _).trans (List.suffix_append _ _)
    · rw [hd]
  have hbase : ∀ (w : WPCNvGraphicFramePr) (fuel : Nat),
      (Token.StartElement tt :: (content ++ .EndElement tt.Name :: later)).length < fuel →
      (∃ e, (tokenLoop WPCNvGraphicFramePr.body fuel w
          ⟨.StartElement tt :: (content ++ .EndElement tt.Name :: later), err,
            .stkStart start.Name :: stk⟩).err = some e ∧ e.isNum = true) ∧
      later <:+ (tokenLoop WPCNvGraphicFramePr.body fuel w
          ⟨.StartElement tt :: (content ++ .EndElement tt.Name :: later), err,
            .stkStart start.Name :: stk⟩).dec.toks := by
    intro w fuel hf
    obtain ⟨k, rfl⟩ : ∃ k, fuel = k + 1 := ⟨fuel - 1, by simp at hf; omega⟩
    rw [tokenLoop_start WPCNvGraphicFramePr.body k w
      (Token_start tt _ err (.stkStart start.Name :: stk) (by simp))]
    obtain ⟨e, he, hb⟩ := WPCNvGraphicFramePr_body_lock_bad tt w
      ⟨content ++ .EndElement tt.Name :: later, err,
        .stkStart tt.Name :: .stkStart start.Name :: stk⟩ htt hbad2
    rw [hb]
    exact ⟨⟨e, rfl, he⟩, hsuf⟩
  have hall := WPCNvGraphicFramePr_loop_balanced
    (.StartElement tt :: (content ++ .EndElement tt.Name :: later)) later err
    (.stkStart start.Name :: stk) (by simp)
    (((List.suffix_cons _ _).trans (List.suffix_append _ _)).trans (List.suffix_cons _ _))
    hbase pre.length pre [] w
    ((pre ++ .StartElement tt :: (content ++ .EndElement tt.Name :: later)).length + 1)
    (Nat.le_refl _) hpre (Nat.lt_add_one _)
  simp only [List.map_nil, List.nil_append] at hall
  refine ⟨hall.1, hall.2, ?_⟩
  intro hk
  unfold WPCNvGraphicFramePr.UnmarshalXML
  rw [tokenLoop_child WPCNvGraphicFramePr.body WPCNvGraphicFramePr.known
      WPCNvGraphicFramePr_body_unknown WPCNvGraphicFramePr_body_reach
      _ pre tt _ err _ (by simp) hk _ (Nat.lt_add_one _)]
  obtain ⟨e, he, hb⟩ := WPCNvGraphicFramePr_body_lock_bad tt w
    ⟨content ++ .EndElement tt.Name :: later, err,
      .stkStart tt.Name :: .stkStart start.Name :: stk⟩ htt hbad2
  rw [hb]
  exact ⟨rfl, hdec⟩

/-- C21, amended, at
`<wp:cNvGraphicFramePr><foo/><a:graphicFrameLocks><bar/></a:graphicFrameLocks><baz/></wp:cNvGraphicFramePr>`:
the lock child has no `noChangeAspect`. -/
theorem C21_lock_without_usable_flag_witness :
    ((∀ a ∈ ([] : List Attr), a.Name.Local ≠ "noChangeAspect") ∧
      inert (fun _ => false) [] [.StartElement ⟨⟨"", "foo"⟩, []⟩, .EndElement ⟨"", "foo"⟩] = true ∧
      inert (fun _ => false) [] [.StartElement ⟨⟨"", "bar"⟩, []⟩, .EndElement ⟨"", "bar"⟩] = true ∧
      inert WPCNvGraphicFramePr.known []
        [.StartElement ⟨⟨"", "foo"⟩, []⟩, .EndElement ⟨"", "foo"⟩] = true) ∧
    ∀ o, o = WPCNvGraphicFramePr.UnmarshalXML {}
        ⟨[.StartElement ⟨⟨"", "foo"⟩, []⟩, .EndElement ⟨"", "foo"⟩] ++
          .StartElement ⟨⟨XMLNS_DRAWINGML_MAIN, "graphicFrameLocks"⟩, []⟩ ::
            ([.StartElement ⟨⟨"", "bar"⟩, []⟩, .EndElement ⟨"", "bar"⟩] ++
              .EndElement ⟨XMLNS_DRAWINGML_MAIN, "graphicFrameLocks"⟩ ::
                [.StartElement ⟨⟨"", "baz"⟩, []⟩, .EndElement ⟨"", "baz"⟩,
                  .EndElement ⟨"wp", "cNvGraphicFramePr"⟩]), none,
          .stkStart ⟨"wp", "cNvGraphicFramePr"⟩ :: [.stkEOF]⟩
        ⟨⟨"wp", "cNvGraphicFramePr"⟩, []⟩ →
      (∃ e, o.err = some e ∧ e.isNum = true) ∧
        [.StartElement ⟨⟨"", "baz"⟩, []⟩, .EndElement ⟨"", "baz"⟩,
          .EndElement ⟨"wp", "cNvGraphicFramePr"⟩] <:+ o.dec.toks ∧
        (inert WPCNvGraphicFramePr.known []
            [.StartElement ⟨⟨"", "foo"⟩, []⟩, .EndElement ⟨"", "foo"⟩] = true →
          o.val = {} ∧
          (o.dec = ⟨[.StartElement ⟨⟨"", "bar"⟩, []⟩, .EndElement ⟨"", "bar"⟩] ++
                .EndElement ⟨XMLNS_DRAWINGML_MAIN, "graphicFrameLocks"⟩ ::
                  [.StartElement ⟨⟨"", "baz"⟩, []⟩, .EndElement ⟨"", "baz"⟩,
                    .EndElement ⟨"wp", "cNvGraphicFramePr"⟩], none,
              .stkStart ⟨XMLNS_DRAWINGML_MAIN, "graphicFrameLocks"⟩ ::
                .stkStart ⟨"wp", "cNvGraphicFramePr"⟩ :: [.stkEOF]⟩ ∨
            o.dec = ⟨[.StartElement ⟨⟨"", "baz"⟩, []⟩, .EndElement ⟨"", "baz"⟩,
                .EndElement ⟨"wp", "cNvGraphicFramePr"⟩], none,
              .stkStart ⟨"wp", "cNvGraphicFramePr"⟩ :: [.stkEOF]⟩)) :=
  ⟨⟨fun a ha => by simp at ha, by decide, by decide, by decide⟩,
    fun o ho => C21_lock_without_usable_flag {} ⟨⟨"wp", "cNvGraphicFramePr"⟩, []⟩
      ⟨⟨XMLNS_DRAWINGML_MAIN, "graphicFrameLocks"⟩, []⟩
      [.StartElement ⟨⟨"", "foo"⟩, []⟩, .EndElement ⟨"", "foo"⟩]
      [.StartElement ⟨⟨"", "bar"⟩, []⟩, .EndElement ⟨"", "bar"⟩]
      [.StartElement ⟨⟨"", "baz"⟩, []⟩, .EndElement ⟨"", "baz"⟩,
        .EndElement ⟨"wp", "cNvGraphicFramePr"⟩] none [.stkEOF]
      rfl (Or.inl (fun a ha => by simp at ha)) (by decide) (by decide) o ho⟩

theorem isNum_ne_LoopBound {e : Error} (h : e.isNum = true) : e ≠ .LoopBound := by
  intro he; subst he; simp [Error.isNum] at h

theorem some_ne_LoopBound {e : Error} (h : e ≠ .LoopBound) : some e ≠ some .LoopBound :=
  fun h2 => h (Option.some.inj h2)

theorem isToken_ne_LoopBound {e : Error} (h : e.isToken = true) : e ≠ .LoopBound := by
  intro he; subst he; simp [Error.isToken] at h

/-- The error `Token` reports for a decoder whose tokenizer reports token
errors only is not the iteration bound. -/
theorem Token_error_ne_LoopBound {d d1 : Decoder} {e : Error} (h : d.Token = (d1, .error e))
    (hd : d.TokErr) : e ≠ .LoopBound := by
  rcases (Token_error h).2 hd with h1 | h1
  · rw [h1]; simp
  · exact isToken_ne_LoopBound h1

theorem Token_ok_TokErr {d d1 : Decoder} {t : Token} (h : d.Token = (d1, .ok t))
    (hd : d.TokErr) : d1.TokErr ∧ d1.toks.length < d.toks.length := by
  have h1 := Token_reach d
  rw [h] at h1
  refine ⟨h1.2 hd, ?_⟩
  rw [(Token_ok h).1]
  simp

/-- The loop of `Skip` ends within as many rounds as there are pending
tokens, plus one. -/
theorem skipLoop_no_bound : ∀ (fuel depth : Nat) (d : Decoder), d.toks.length < fuel →
    d.TokErr → (d.skipLoop fuel depth).2 ≠ some .LoopBound := by
  intro fuel
  induction fuel with
  | zero => intro depth d h; exact absurd h (Nat.not_lt_zero _)
  | succ fuel ih =>
    intro depth d hf hd
    rcases hT : d.Token with ⟨d1, e | t⟩
    · have := Token_error_ne_LoopBound hT hd
      simp only [Decoder.skipLoop, hT]
      intro h
      simp only [Option.some.injEq] at h
      exact this h
    · obtain ⟨h1, h2⟩ := Token_ok_TokErr hT hd
      cases t with
      | StartElement se => rw [skipLoop_start _ _ hT]; exact ih _ d1 (by omega) h1
      | EndElement n =>
        rw [skipLoop_end _ _ hT]
        split
        · simp
        · exact ih _ d1 (by omega) h1
      | CharData s => rw [skipLoop_other _ _ hT (by simp) (by simp)]; exact ih _ d1 (by omega) h1
      | Comment s => rw [skipLoop_other _ _ hT (by simp) (by simp)]; exact ih _ d1 (by omega) h1
      | ProcInst a b => rw [skipLoop_other _ _ hT (by simp) (by simp)]; exact ih _ d1 (by omega) h1
      | Directive s => rw [skipLoop_other _ _ hT (by simp) (by simp)]; exact ih _ d1 (by omega) h1

theorem Skip_no_bound (d : Decoder) (hd : d.TokErr) : d.Skip.2 ≠ some .LoopBound :=
  skipLoop_no_bound _ _ d (Nat.lt_add_one _) hd

/-- The token loop of the reflective decoder ends within as many rounds as
there are pending tokens, plus one. -/
theorem unmarshalLoop_no_bound (keep : Bool) : ∀ (fuel : Nat) (data : String) (d : Decoder),
    d.toks.length < fuel → d.TokErr →
    ∀ d1, d.unmarshalLoop keep fuel data ≠ (d1, .error .LoopBound) := by
  intro fuel
  induction fuel with
  | zero => intro data d h; exact absurd h (Nat.not_lt_zero _)
  | succ fuel ih =>
    intro data d hf hd d9
    rcases hT : d.Token with ⟨d1, e | t⟩
    · have := Token_error_ne_LoopBound hT hd
      simp only [Decoder.unmarshalLoop, hT]
      intro h
      simp only [Prod.mk.injEq, Except.error.injEq] at h
      exact this h.2
    · obtain ⟨h1, h2⟩ := Token_ok_TokErr hT hd
      cases t with
      | StartElement se =>
        simp only [Decoder.unmarshalLoop, hT]
        have hS := Skip_reach d1
        have hS2 := Skip_no_bound d1 h1
        rcases hs : d1.Skip with ⟨d2, _ | e⟩
        · rw [hs] at hS
          simp only []
          exact ih _ d2 (by have := hS.length_le; simp only at this; omega) (hS.2 h1) d9
        · rw [hs] at hS2
          simp only []
          intro h
          simp only [Prod.mk.injEq, Except.error.injEq] at h
          exact hS2 (by rw [h.2])
      | EndElement n => simp only [Decoder.unmarshalLoop, hT]; simp
      | CharData s => simp only [Decoder.unmarshalLoop, hT]; exact ih _ d1 (by omega) h1 d9
      | Comment s => simp only [Decoder.unmarshalLoop, hT]; exact ih _ d1 (by omega) h1 d9
      | ProcInst a b => simp only [Decoder.unmarshalLoop, hT]; exact ih _ d1 (by omega) h1 d9
      | Directive s => simp only [Decoder.unmarshalLoop, hT]; exact ih _ d1 (by omega) h1 d9

theorem copyValueInt_no_bound (src : String) (bitSize : Nat) :
    (copyValueInt src bitSize).2 ≠ some .LoopBound := by
  unfold copyValueInt
  split
  · simp
  · rcases hp : strconv.ParseInt (TrimSpace src) 10 bitSize with ⟨n, _ | e⟩
    · simp
    · have := ParseInt_err_isNum _ 10 bitSize e (by rw [hp])
      exact some_ne_LoopBound (isNum_ne_LoopBound this)

theorem DecodeElementInt64_no_bound (v : Int) (d : Decoder) (s : StartElement) (hd : d.TokErr) :
    (d.DecodeElementInt64 v s).err ≠ some .LoopBound := by
  have h := unmarshalLoop_no_bound true (d.toks.length + 1) "" d (Nat.lt_add_one _) hd
  unfold Decoder.DecodeElementInt64
  rcases hu : d.unmarshalLoop true (d.toks.length + 1) "" with ⟨d1, e | data⟩
  · refine some_ne_LoopBound ?_
    intro he
    exact h d1 (by rw [hu, he])
  · have hc := copyValueInt_no_bound data 64
    simp only []
    rcases hcv : copyValueInt data 64 with ⟨_ | n, _ | e⟩
    · simp
    · rw [hcv] at hc; simpa using hc
    · simp
    · rw [hcv] at hc; simpa using hc

theorem AGraphicFrameLocks_attrs_no_bound : ∀ (attrs : List Attr) (r : AGraphicFrameLocks),
    (AGraphicFrameLocks.attrs attrs r).2 ≠ some .LoopBound := by
  intro attrs
  induction attrs with
  | nil => intro r; simp [AGraphicFrameLocks.attrs]
  | cons a rest ih =>
    intro r
    unfold AGraphicFrameLocks.attrs
    split
    · have hc := copyValueInt_no_bound a.Value 64
      rcases hcv : copyValueInt a.Value 64 with ⟨_ | n, _ | e⟩
      · exact ih _
      · rw [hcv] at hc; simpa using hc
      · exact ih _
      · rw [hcv] at hc; simpa using hc
    · exact ih _

theorem DecodeElementAGraphicFrameLocks_no_bound (v : AGraphicFrameLocks) (d : Decoder)
    (s : StartElement) (hd : d.TokErr) :
    (d.DecodeElementAGraphicFrameLocks v s).err ≠ some .LoopBound := by
  have h := unmarshalLoop_no_bound false (d.toks.length + 1) "" d (Nat.lt_add_one _) hd
  unfold Decoder.DecodeElementAGraphicFrameLocks
  split
  · simp
  · split
    · simp
    · have ha := AGraphicFrameLocks_attrs_no_bound s.Attr { v with XMLName := s.Name }
      rcases hb : AGraphicFrameLocks.attrs s.Attr { v with XMLName := s.Name } with ⟨r1, _ | e⟩
      · simp only []
        rcases hu : d.unmarshalLoop false (d.toks.length + 1) "" with ⟨d1, e | data⟩
        · refine some_ne_LoopBound ?_
          intro he
          exact h d1 (by rw [hu, he])
        · simp
      · rw [hb] at ha
        simpa using ha

theorem DecodeElementAStretch_no_bound (v : AStretch) (d : Decoder)
    (s : StartElement) (hd : d.TokErr) :
    (d.DecodeElementAStretch v s).err ≠ some .LoopBound := by
  have h := unmarshalLoop_no_bound false (d.toks.length + 1) "" d (Nat.lt_add_one _) hd
  unfold Decoder.DecodeElementAStretch
  split
  · simp
  · rcases hu : d.unmarshalLoop false (d.toks.length + 1) "" with ⟨d1, e | data⟩
    · refine some_ne_LoopBound ?_
      intro he
      exact h d1 (by rw [hu, he])
    · simp

theorem DecodeElementAPrstGeom_no_bound (v : APrstGeom) (d : Decoder)
    (s : StartElement) (hd : d.TokErr) :
    (d.DecodeElementAPrstGeom v s).err ≠ some .LoopBound := by
  have h := unmarshalLoop_no_bound false (d.toks.length + 1) "" d (Nat.lt_add_one _) hd
  unfold Decoder.DecodeElementAPrstGeom
  split
  · simp
  · rcases hu : d.unmarshalLoop false (d.toks.length + 1) "" with ⟨d1, e | data⟩
    · refine some_ne_LoopBound ?_
      intro he
      exact h d1 (by rw [hu, he])
    · simp

/-- The decoding loop, run for one round more than there are pending tokens,
does not reach the iteration bound, when no round of the body returns it. -/
theorem tokenLoop_no_bound {α : Type} (body : StartElement → α → Decoder → Step α)
    (hreach : ∀ (tt : StartElement) (r : α) (d : Decoder), d.Reach (body tt r d).dec)
    (hret : ∀ (tt : StartElement) (r : α) (d : Decoder) (r2 : α) (d2 : Decoder) (e : Error),
      d.TokErr → body tt r d = .ret r2 d2 e → e ≠ .LoopBound)
    (r : α) (d : Decoder) (hd : d.TokErr) :
    (tokenLoop body (d.toks.length + 1) r d).err ≠ some .LoopBound := by
  intro h
  rcases tokenLoop_err_kind body (fun e => e ≠ .LoopBound) hreach hret _ r d (Nat.lt_add_one _) hd
    _ h with h1 | h1
  · simp [Error.isToken] at h1
  · exact h1 rfl

theorem PICNonVisualPicProperties_body_no_bound (tt : StartElement)
    (r : PICNonVisualPicProperties) (d : Decoder) (r2 : PICNonVisualPicProperties)
    (d2 : Decoder) (e : Error) (_hd : d.TokErr)
    (h : PICNonVisualPicProperties.body tt r d = .ret r2 d2 e) : e ≠ .LoopBound := by
  unfold PICNonVisualPicProperties.body at h
  split at h <;> cases h

theorem ABlip_body_no_bound (tt : StartElement) (r : ABlip) (d : Decoder) (r2 : ABlip)
    (d2 : Decoder) (e : Error) (_hd : d.TokErr)
    (h : ABlip.body tt r d = .ret r2 d2 e) : e ≠ .LoopBound := by
  unfold ABlip.body at h
  split at h
  · rcases ha : strconv.Atoi (getAtt tt.Attr "amt") with ⟨n, _ | e1⟩
    · rw [ha] at h; cases h
    · rw [ha] at h
      cases h
      exact isNum_ne_LoopBound (Atoi_err_isNum _ _ (by rw [ha]))
  · cases h

theorem AXfrm_body_no_bound (tt : StartElement) (r : AXfrm) (d : Decoder) (r2 : AXfrm)
    (d2 : Decoder) (e : Error) (_hd : d.TokErr)
    (h : AXfrm.body tt r d = .ret r2 d2 e) : e ≠ .LoopBound := by
  unfold AXfrm.body at h
  split at h
  · rcases h1 : strconv.ParseInt (getAtt tt.Attr "x") 10 64 with ⟨x, _ | e1⟩
    · rw [h1] at h
      rcases h2 : strconv.ParseInt (getAtt tt.Attr "y") 10 64 with ⟨y, _ | e2⟩
      · rw [h2] at h; cases h
      · rw [h2] at h; cases h
        exact isNum_ne_LoopBound (ParseInt_err_isNum _ 10 64 _ (by rw [h2]))
    · rw [h1] at h; cases h
      exact isNum_ne_LoopBound (ParseInt_err_isNum _ 10 64 _ (by rw [h1]))
  · split at h
    · rcases h1 : strconv.ParseInt (getAtt tt.Attr "cx") 10 64 with ⟨x, _ | e1⟩
      · rw [h1] at h
        rcases h2 : strconv.ParseInt (getAtt tt.Attr "cy") 10 64 with ⟨y, _ | e2⟩
        · rw [h2] at h; cases h
        · rw [h2] at h; cases h
          exact isNum_ne_LoopBound (ParseInt_err_isNum _ 10 64 _ (by rw [h2]))
      · rw [h1] at h; cases h
        exact isNum_ne_LoopBound (ParseInt_err_isNum _ 10 64 _ (by rw [h1]))
    · cases h

theorem WPPositionH_body_no_bound (tt : StartElement) (r : WPPositionH) (d : Decoder) (r2 : WPPositionH)
    (d2 : Decoder) (e : Error) (hd : d.TokErr)
    (h : WPPositionH.body tt r d = .ret r2 d2 e) : e ≠ .LoopBound := by
  unfold WPPositionH.body at h
  split at h
  · have hn := DecodeElementInt64_no_bound r.PosOffset d tt hd
    rcases he : (d.DecodeElementInt64 r.PosOffset tt).err with _ | e1
    · simp only [he] at h; cases h
    · simp only [he] at h
      cases h
      rw [he] at hn
      simpa using hn
  · cases h

theorem WPPositionV_body_no_bound (tt : StartElement) (r : WPPositionV) (d : Decoder) (r2 : WPPositionV)
    (d2 : Decoder) (e : Error) (hd : d.TokErr)
    (h : WPPositionV.body tt r d = .ret r2 d2 e) : e ≠ .LoopBound := by
  unfold WPPositionV.body at h
  split at h
  · have hn := DecodeElementInt64_no_bound r.PosOffset d tt hd
    rcases he : (d.DecodeElementInt64 r.PosOffset tt).err with _ | e1
    · simp only [he] at h; cases h
    · simp only [he] at h
      cases h
      rw [he] at hn
      simpa using hn
  · cases h

theorem Drawing_body_no_bound (tt : StartElement) (r : Drawing) (d : Decoder) (r2 : Drawing)
    (d2 : Decoder) (e : Error) (_hd : d.TokErr)
    (h : Drawing.body tt r d = .ret r2 d2 e) : e ≠ .LoopBound :=
  (Drawing_body_ret tt r d r2 d2 e h).elim

theorem AGraphic_body_no_bound (tt : StartElement) (r : AGraphic) (d : Decoder) (r2 : AGraphic)
    (d2 : Decoder) (e : Error) (_hd : d.TokErr)
    (h : AGraphic.body tt r d = .ret r2 d2 e) : e ≠ .LoopBound :=
  (AGraphic_body_ret tt r d r2 d2 e h).elim

theorem AGraphicData_body_no_bound (tt : StartElement) (r : AGraphicData) (d : Decoder) (r2 : AGraphicData)
    (d2 : Decoder) (e : Error) (_hd : d.TokErr)
    (h : AGraphicData.body tt r d = .ret r2 d2 e) : e ≠ .LoopBound :=
  (AGraphicData_body_ret tt r d r2 d2 e h).elim

theorem PICPic_body_no_bound (tt : StartElement) (r : PICPic) (d : Decoder) (r2 : PICPic)
    (d2 : Decoder) (e : Error) (_hd : d.TokErr)
    (h : PICPic.body tt r d = .ret r2 d2 e) : e ≠ .LoopBound :=
  (PICPic_body_ret tt r d r2 d2 e h).elim

theorem PICBlipFill_body_no_bound (tt : StartElement) (r : PICBlipFill) (d : Decoder) (r2 : PICBlipFill)
    (d2 : Decoder) (e : Error) (_hd : d.TokErr)
    (h : PICBlipFill.body tt r d = .ret r2 d2 e) : e ≠ .LoopBound :=
  (PICBlipFill_body_ret tt r d r2 d2 e h).elim

theorem PICSpPr_body_no_bound (tt : StartElement) (r : PICSpPr) (d : Decoder) (r2 : PICSpPr)
    (d2 : Decoder) (e : Error) (_hd : d.TokErr)
    (h : PICSpPr.body tt r d = .ret r2 d2 e) : e ≠ .LoopBound :=
  (PICSpPr_body_ret tt r d r2 d2 e h).elim

theorem WPInline_body_no_bound (tt : StartElement) (r : WPInline) (d : Decoder) (r2 : WPInline)
    (d2 : Decoder) (e : Error) (_hd : d.TokErr)
    (h : WPInline.body tt r d = .ret r2 d2 e) : e ≠ .LoopBound :=
  isNum_ne_LoopBound (WPInline_body_ret tt r d r2 d2 e h)

theorem WPAnchor_body_no_bound (tt : StartElement) (r : WPAnchor) (d : Decoder) (r2 : WPAnchor)
    (d2 : Decoder) (e : Error) (_hd : d.TokErr)
    (h : WPAnchor.body tt r d = .ret r2 d2 e) : e ≠ .LoopBound :=
  isNum_ne_LoopBound (WPAnchor_body_ret tt r d r2 d2 e h)

theorem WPCNvGraphicFramePr_body_no_bound (tt : StartElement) (r : WPCNvGraphicFramePr) (d : Decoder) (r2 : WPCNvGraphicFramePr)
    (d2 : Decoder) (e : Error) (_hd : d.TokErr)
    (h : WPCNvGraphicFramePr.body tt r d = .ret r2 d2 e) : e ≠ .LoopBound :=
  isNum_ne_LoopBound (WPCNvGraphicFramePr_body_ret tt r d r2 d2 e h)

/-- The loop of `WPCNvGraphicFramePr.UnmarshalXML` ends within its iteration bound. -/
theorem WPCNvGraphicFramePr_UnmarshalXML_no_bound (r : WPCNvGraphicFramePr) (d : Decoder) (start : StartElement)
    (hd : d.TokErr) : (WPCNvGraphicFramePr.UnmarshalXML r d start).err ≠ some .LoopBound := by
  unfold WPCNvGraphicFramePr.UnmarshalXML
  exact tokenLoop_no_bound WPCNvGraphicFramePr.body WPCNvGraphicFramePr_body_reach WPCNvGraphicFramePr_body_no_bound _ d hd

/-- The loop of `PICNonVisualPicProperties.UnmarshalXML` ends within its iteration bound. -/
theorem PICNonVisualPicProperties_UnmarshalXML_no_bound (r : PICNonVisualPicProperties) (d : Decoder) (start : StartElement)
    (hd : d.TokErr) : (PICNonVisualPicProperties.UnmarshalXML r d start).err ≠ some .LoopBound := by
  unfold PICNonVisualPicProperties.UnmarshalXML
  exact tokenLoop_no_bound PICNonVisualPicProperties.body PICNonVisualPicProperties_body_reach PICNonVisualPicProperties_body_no_bound _ d hd

/-- The loop of `PICBlipFill.UnmarshalXML` ends within its iteration bound. -/
theorem PICBlipFill_UnmarshalXML_no_bound (r : PICBlipFill) (d : Decoder) (start : StartElement)
    (hd : d.TokErr) : (PICBlipFill.UnmarshalXML r d start).err ≠ some .LoopBound := by
  unfold PICBlipFill.UnmarshalXML
  exact tokenLoop_no_bound PICBlipFill.body PICBlipFill_body_reach PICBlipFill_body_no_bound _ d hd

/-- The loop of `PICSpPr.UnmarshalXML` ends within its iteration bound. -/
theorem PICSpPr_UnmarshalXML_no_bound (r : PICSpPr) (d : Decoder) (start : StartElement)
    (hd : d.TokErr) : (PICSpPr.UnmarshalXML r d start).err ≠ some .LoopBound := by
  unfold PICSpPr.UnmarshalXML
  exact tokenLoop_no_bound PICSpPr.body PICSpPr_body_reach PICSpPr_body_no_bound _ d hd

/-- The loop of `PICPic.UnmarshalXML` ends within its iteration bound. -/
theorem PICPic_UnmarshalXML_no_bound (r : PICPic) (d : Decoder) (start : StartElement)
    (hd : d.TokErr) : (PICPic.UnmarshalXML r d start).err ≠ some .LoopBound := by
  unfold PICPic.UnmarshalXML
  exact tokenLoop_no_bound PICPic.body PICPic_body_reach PICPic_body_no_bound _ d hd

/-- The loop of `AGraphicData.UnmarshalXML` ends within its iteration bound. -/
theorem AGraphicData_UnmarshalXML_no_bound (r : AGraphicData) (d : Decoder) (start : StartElement)
    (hd : d.TokErr) : (AGraphicData.UnmarshalXML r d start).err ≠ some .LoopBound := by
  unfold AGraphicData.UnmarshalXML
  exact tokenLoop_no_bound AGraphicData.body AGraphicData_body_reach AGraphicData_body_no_bound _ d hd

/-- The loop of `Drawing.UnmarshalXML` ends within its iteration bound. -/
theorem Drawing_UnmarshalXML_no_bound (r : Drawing) (d : Decoder) (start : StartElement)
    (hd : d.TokErr) : (Drawing.UnmarshalXML r d start).err ≠ some .LoopBound := by
  unfold Drawing.UnmarshalXML
  exact tokenLoop_no_bound Drawing.body Drawing_body_reach Drawing_body_no_bound _ d hd

/-- The loop of `ABlip.UnmarshalXML` ends within its iteration bound. -/
theorem ABlip_UnmarshalXML_no_bound (r : ABlip) (d : Decoder) (start : StartElement)
    (hd : d.TokErr) : (ABlip.UnmarshalXML r d start).err ≠ some .LoopBound := by
  unfold ABlip.UnmarshalXML
  exact tokenLoop_no_bound ABlip.body ABlip_body_reach ABlip_body_no_bound _ d hd

/-- The loop of `AGraphic.UnmarshalXML` ends within its iteration bound. -/
theorem AGraphic_UnmarshalXML_no_bound (r : AGraphic) (d : Decoder) (start : StartElement)
    (hd : d.TokErr) : (AGraphic.UnmarshalXML r d start).err ≠ some .LoopBound := by
  unfold AGraphic.UnmarshalXML
  exact tokenLoop_no_bound AGraphic.body AGraphic_body_reach AGraphic_body_no_bound _ d hd

/-- The loop of `WPPositionH.UnmarshalXML` ends within its iteration bound. -/
theorem WPPositionH_UnmarshalXML_no_bound (r : WPPositionH) (d : Decoder) (start : StartElement)
    (hd : d.TokErr) : (WPPositionH.UnmarshalXML r d start).err ≠ some .LoopBound := by
  unfold WPPositionH.UnmarshalXML
  exact tokenLoop_no_bound WPPositionH.body WPPositionH_body_reach WPPositionH_body_no_bound _ d hd

/-- The loop of `WPPositionV.UnmarshalXML` ends within its iteration bound. -/
theorem WPPositionV_UnmarshalXML_no_bound (r : WPPositionV) (d : Decoder) (start : StartElement)
    (hd : d.TokErr) : (WPPositionV.UnmarshalXML r d start).err ≠ some .LoopBound := by
  unfold WPPositionV.UnmarshalXML
  exact tokenLoop_no_bound WPPositionV.body WPPositionV_body_reach WPPositionV_body_no_bound _ d hd

/-- The loop of `AXfrm.UnmarshalXML` ends within its iteration bound. -/
theorem AXfrm_UnmarshalXML_no_bound (r : AXfrm) (d : Decoder) (start : StartElement)
    (hd : d.TokErr) : (AXfrm.UnmarshalXML r d start).err ≠ some .LoopBound := by
  unfold AXfrm.UnmarshalXML
  rcases hb : attrLoop AXfrm.attr start.Attr r with ⟨r1, _ | e1⟩
  · exact tokenLoop_no_bound AXfrm.body AXfrm_body_reach AXfrm_body_no_bound _ d hd
  · refine some_ne_LoopBound ?_
    exact isNum_ne_LoopBound (attrLoop_err_kind AXfrm.attr (fun e => e.isNum = true)
      AXfrm_attr_err_isNum start.Attr r e1 (by rw [hb]))

/-- The loop of `WPInline.UnmarshalXML` ends within its iteration bound. -/
theorem WPInline_UnmarshalXML_no_bound (r : WPInline) (d : Decoder) (start : StartElement)
    (hd : d.TokErr) : (WPInline.UnmarshalXML r d start).err ≠ some .LoopBound := by
  unfold WPInline.UnmarshalXML
  rcases hb : attrLoop WPInline.attr start.Attr r with ⟨r1, _ | e1⟩
  · exact tokenLoop_no_bound WPInline.body WPInline_body_reach WPInline_body_no_bound _ d hd
  · refine some_ne_LoopBound ?_
    exact isNum_ne_LoopBound (attrLoop_err_kind WPInline.attr (fun e => e.isNum = true)
      WPInline_attr_err_isNum start.Attr r e1 (by rw [hb]))

/-- The loop of `WPAnchor.UnmarshalXML` ends within its iteration bound. -/
theorem WPAnchor_UnmarshalXML_no_bound (r : WPAnchor) (d : Decoder) (start : StartElement)
    (hd : d.TokErr) : (WPAnchor.UnmarshalXML r d start).err ≠ some .LoopBound := by
  unfold WPAnchor.UnmarshalXML
  rcases hb : attrLoop WPAnchor.attr start.Attr r with ⟨r1, _ | e1⟩
  · exact tokenLoop_no_bound WPAnchor.body WPAnchor_body_reach WPAnchor_body_no_bound _ d hd
  · refine some_ne_LoopBound ?_
    exact isNum_ne_LoopBound (attrLoop_err_kind WPAnchor.attr (fun e => e.isNum = true)
      WPAnchor_attr_err_isNum start.Attr r e1 (by rw [hb]))

/-- The error of `WPExtent.UnmarshalXML` is not the iteration bound. -/
theorem WPExtent_UnmarshalXML_no_bound (r : WPExtent) (d : Decoder) (start : StartElement)
    (hd : d.TokErr) : (WPExtent.UnmarshalXML r d start).err ≠ some .LoopBound := by
  unfold WPExtent.UnmarshalXML
  rcases hb : attrLoop WPExtent.attr start.Attr r with ⟨r1, _ | e1⟩
  · simp only []
    rcases hT : d.Token with ⟨d1, e | t⟩
    · refine some_ne_LoopBound ?_
      exact Token_error_ne_LoopBound hT hd
    · simp
  · refine some_ne_LoopBound ?_
    exact isNum_ne_LoopBound (attrLoop_err_kind WPExtent.attr (fun e => e.isNum = true)
      WPExtent_attr_err_isNum start.Attr r e1 (by rw [hb]))

/-- The error of `WPEffectExtent.UnmarshalXML` is not the iteration bound. -/
theorem WPEffectExtent_UnmarshalXML_no_bound (r : WPEffectExtent) (d : Decoder) (start : StartElement)
    (hd : d.TokErr) : (WPEffectExtent.UnmarshalXML r d start).err ≠ some .LoopBound := by
  unfold WPEffectExtent.UnmarshalXML
  rcases hb : attrLoop WPEffectExtent.attr start.Attr r with ⟨r1, _ | e1⟩
  · simp only []
    rcases hT : d.Token with ⟨d1, e | t⟩
    · refine some_ne_LoopBound ?_
      exact Token_error_ne_LoopBound hT hd
    · simp
  · refine some_ne_LoopBound ?_
    exact isNum_ne_LoopBound (attrLoop_err_kind WPEffectExtent.attr (fun e => e.isNum = true)
      WPEffectExtent_attr_err_isNum start.Attr r e1 (by rw [hb]))

/-- The error of `WPDocPr.UnmarshalXML` is not the iteration bound. -/
theorem WPDocPr_UnmarshalXML_no_bound (r : WPDocPr) (d : Decoder) (start : StartElement)
    (hd : d.TokErr) : (WPDocPr.UnmarshalXML r d start).err ≠ some .LoopBound := by
  unfold WPDocPr.UnmarshalXML
  rcases hb : attrLoop WPDocPr.attr start.Attr r with ⟨r1, _ | e1⟩
  · simp only []
    rcases hT : d.Token with ⟨d1, e | t⟩
    · refine some_ne_LoopBound ?_
      exact Token_error_ne_LoopBound hT hd
    · simp
  · refine some_ne_LoopBound ?_
    exact isNum_ne_LoopBound (attrLoop_err_kind WPDocPr.attr (fun e => e.isNum = true)
      WPDocPr_attr_err_isNum start.Attr r e1 (by rw [hb]))

theorem Hyperlink_body_no_bound {Run : Type}
    (run : Run → Decoder → StartElement → Outcome Run) (tt : StartElement)
    (r : Hyperlink Run) (d : Decoder) (r2 : Hyperlink Run) (d2 : Decoder) (e : Error)
    (_hd : d.TokErr) (h : Hyperlink.body run tt r d = .ret r2 d2 e) : e ≠ .LoopBound :=
  (Hyperlink_body_ret run tt r d r2 d2 e h).elim

/-- The loop of `Hyperlink.UnmarshalXML` ends within its iteration bound, for a
decoder of the run that puts no token back. -/
theorem Hyperlink_UnmarshalXML_no_bound {Run : Type}
    (run : Run → Decoder → StartElement → Outcome Run)
    (hrun : ∀ (v : Run) (d : Decoder) (s : StartElement), d.Reach (run v d s).dec)
    (r : Hyperlink Run) (d : Decoder) (start : StartElement) (hd : d.TokErr) :
    (Hyperlink.UnmarshalXML run r d start).err ≠ some .LoopBound := by
  unfold Hyperlink.UnmarshalXML
  exact tokenLoop_no_bound (Hyperlink.body run) (Hyperlink_body_reach run hrun)
    (Hyperlink_body_no_bound run) _ d hd

/-- The loop of `AAvLst.UnmarshalXML` puts no token back. -/
theorem AAvLst_loop_reach (marshal : Token → Except Error String) (start : StartElement) :
    ∀ (fuel : Nat) (content : String) (d : Decoder),
      d.Reach (AAvLst.loop marshal start fuel content d).1 := by
  intro fuel
  induction fuel with
  | zero => intro content d; exact Decoder.Reach.refl _
  | succ fuel ih =>
    intro content d
    have hT := Token_reach d
    unfold AAvLst.loop
    rcases hTk : d.Token with ⟨d1, e | t⟩
    · rw [hTk] at hT
      cases e <;> exact hT
    · rw [hTk] at hT
      simp only []
      split
      · exact hT
      · rcases marshal t with e | b
        · exact hT
        · exact hT.trans (ih _ _)

theorem AAvLst_UnmarshalXML_reach (marshal : Token → Except Error String) (a : AAvLst)
    (d : Decoder) (start : StartElement) :
    d.Reach (AAvLst.UnmarshalXML marshal a d start).dec := by
  have h := AAvLst_loop_reach marshal start (d.toks.length + 1)
  unfold AAvLst.UnmarshalXML
  rcases marshal (.StartElement start) with e | s0
  · exact Decoder.Reach.refl _
  · simp only []
    have h2 := h s0 d
    rcases hl : AAvLst.loop marshal start (d.toks.length + 1) s0 d with ⟨d1, e | out⟩
    · rw [hl] at h2; exact h2
    · rw [hl] at h2; exact h2

/-- The loop of `AAvLst.UnmarshalXML` ends within as many rounds as there are
pending tokens, plus one. -/
theorem AAvLst_loop_no_bound (marshal : Token → Except Error String) (start : StartElement)
    (hm : ∀ t e, marshal t = .error e → e ≠ .LoopBound) :
    ∀ (fuel : Nat) (content : String) (d : Decoder), d.toks.length < fuel → d.TokErr →
      ∀ d1, AAvLst.loop marshal start fuel content d ≠ (d1, .error .LoopBound) := by
  intro fuel
  induction fuel with
  | zero => intro content d h; exact absurd h (Nat.not_lt_zero _)
  | succ fuel ih =>
    intro content d hf hd d9
    unfold AAvLst.loop
    rcases hT : d.Token with ⟨d1, e | t⟩
    · have := Token_error_ne_LoopBound hT hd
      cases e <;> simp_all
    · obtain ⟨h1, h2⟩ := Token_ok_TokErr hT hd
      simp only []
      split
      · simp
      · rcases hmt : marshal t with e | b
        · simp only []
          intro h
          simp only [Prod.mk.injEq, Except.error.injEq] at h
          exact hm t e hmt h.2
        · exact ih _ d1 (by omega) h1 d9

theorem AAvLst_UnmarshalXML_no_bound (marshal : Token → Except Error String)
    (hm : ∀ t e, marshal t = .error e → e ≠ .LoopBound) (a : AAvLst)
    (d : Decoder) (start : StartElement) (hd : d.TokErr) :
    (AAvLst.UnmarshalXML marshal a d start).err ≠ some .LoopBound := by
  have h := AAvLst_loop_no_bound marshal start hm (d.toks.length + 1)
  unfold AAvLst.UnmarshalXML
  rcases hs : marshal (.StartElement start) with e | s0
  · refine some_ne_LoopBound ?_
    exact hm _ e hs
  · simp only []
    rcases hl : AAvLst.loop marshal start (d.toks.length + 1) s0 d with ⟨d1, e | out⟩
    · refine some_ne_LoopBound ?_
      intro he
      exact h s0 d (Nat.lt_add_one _) hd d1 (by rw [hl, he])
    · simp

/-- C22: termination.  The loops of the model run for at most one round more
than there are pending tokens and report `LoopBound` when that does not
suffice.  For a decoder whose tokenizer reports token errors only, no decoder
of the catalog returns `LoopBound`: `Drawing`, `WPInline`, `WPAnchor`,
`WPExtent`, `WPEffectExtent`, `WPDocPr`, `WPCNvGraphicFramePr`, `AGraphic`,
`AGraphicData`, `PICPic`, `PICNonVisualPicProperties`, `PICBlipFill`, `ABlip`,
`PICSpPr`, `AXfrm`, `WPPositionH`, `WPPositionV`, `AAvLst` (for a marshalling
function that does not return it) and `Hyperlink` (for a decoder of the run
that puts no token back), and neither do the reflective decodes they call
nor `Skip`; as the statement holds for every decoder state and every one of
them, it holds for the nested calls, whose errors the callers drop.  Each of
them leaves a decoder that comes after the one it was given: the pending
tokens are a final segment of those before the call (no token is put back,
so none is read twice, nested calls included), and the tokenizer still
reports token errors only. -/
theorem C22_termination :
    (∀ (r : Drawing) (d : Decoder) (start : StartElement),
      (d.TokErr → (Drawing.UnmarshalXML r d start).err ≠ some .LoopBound) ∧
        d.Reach (Drawing.UnmarshalXML r d start).dec) ∧
    (∀ (r : WPInline) (d : Decoder) (start : StartElement),
      (d.TokErr → (WPInline.UnmarshalXML r d start).err ≠ some .LoopBound) ∧
        d.Reach (WPInline.UnmarshalXML r d start).dec) ∧
    (∀ (r : WPAnchor) (d : Decoder) (start : StartElement),
      (d.TokErr → (WPAnchor.UnmarshalXML r d start).err ≠ some .LoopBound) ∧
        d.Reach (WPAnchor.UnmarshalXML r d start).dec) ∧
    (∀ (r : WPExtent) (d : Decoder) (start : StartElement),
      (d.TokErr → (WPExtent.UnmarshalXML r d start).err ≠ some .LoopBound) ∧
        d.Reach (WPExtent.UnmarshalXML r d start).dec) ∧
    (∀ (r : WPEffectExtent) (d : Decoder) (start : StartElement),
      (d.TokErr → (WPEffectExtent.UnmarshalXML r d start).err ≠ some .LoopBound) ∧
        d.Reach (WPEffectExtent.UnmarshalXML r d start).dec) ∧
    (∀ (r : WPDocPr) (d : Decoder) (start : StartElement),
      (d.TokErr → (WPDocPr.UnmarshalXML r d start).err ≠ some .LoopBound) ∧
        d.Reach (WPDocPr.UnmarshalXML r d start).dec) ∧
    (∀ (r : WPCNvGraphicFramePr) (d : Decoder) (start : StartElement),
      (d.TokErr → (WPCNvGraphicFramePr.UnmarshalXML r d start).err ≠ some .LoopBound) ∧
        d.Reach (WPCNvGraphicFramePr.UnmarshalXML r d start).dec) ∧
    (∀ (r : AGraphic) (d : Decoder) (start : StartElement),
      (d.TokErr → (AGraphic.UnmarshalXML r d start).err ≠ some .LoopBound) ∧
        d.Reach (AGraphic.UnmarshalXML r d start).dec) ∧
    (∀ (r : AGraphicData) (d : Decoder) (start : StartElement),
      (d.TokErr → (AGraphicData.UnmarshalXML r d start).err ≠ some .LoopBound) ∧
        d.Reach (AGraphicData.UnmarshalXML r d start).dec) ∧
    (∀ (r : PICPic) (d : Decoder) (start : StartElement),
      (d.TokErr → (PICPic.UnmarshalXML r d start).err ≠ some .LoopBound) ∧
        d.Reach (PICPic.UnmarshalXML r d start).dec) ∧
    (∀ (r : PICNonVisualPicProperties) (d : Decoder) (start : StartElement),
      (d.TokErr → (PICNonVisualPicProperties.UnmarshalXML r d start).err ≠ some .LoopBound) ∧
        d.Reach (PICNonVisualPicProperties.UnmarshalXML r d start).dec) ∧
    (∀ (r : PICBlipFill) (d : Decoder) (start : StartElement),
      (d.TokErr → (PICBlipFill.UnmarshalXML r d start).err ≠ some .LoopBound) ∧
        d.Reach (PICBlipFill.UnmarshalXML r d start).dec) ∧
    (∀ (r : ABlip) (d : Decoder) (start : StartElement),
      (d.TokErr → (ABlip.UnmarshalXML r d start).err ≠ some .LoopBound) ∧
        d.Reach (ABlip.UnmarshalXML r d start).dec) ∧
    (∀ (r : PICSpPr) (d : Decoder) (start : StartElement),
      (d.TokErr → (PICSpPr.UnmarshalXML r d start).err ≠ some .LoopBound) ∧
        d.Reach (PICSpPr.UnmarshalXML r d start).dec) ∧
    (∀ (r : AXfrm) (d : Decoder) (start : StartElement),
      (d.TokErr → (AXfrm.UnmarshalXML r d start).err ≠ some .LoopBound) ∧
        d.Reach (AXfrm.UnmarshalXML r d start).dec) ∧
    (∀ (r : WPPositionH) (d : Decoder) (start : StartElement),
      (d.TokErr → (WPPositionH.UnmarshalXML r d start).err ≠ some .LoopBound) ∧
        d.Reach (WPPositionH.UnmarshalXML r d start).dec) ∧
    (∀ (r : WPPositionV) (d : Decoder) (start : StartElement),
      (d.TokErr → (WPPositionV.UnmarshalXML r d start).err ≠ some .LoopBound) ∧
        d.Reach (WPPositionV.UnmarshalXML r d start).dec) ∧
    (∀ (marshal : Token → Except Error String),
      (∀ t e, marshal t = .error e → e ≠ .LoopBound) →
      ∀ (a : AAvLst) (d : Decoder) (start : StartElement),
      (d.TokErr → (AAvLst.UnmarshalXML marshal a d start).err ≠ some .LoopBound) ∧
        d.Reach (AAvLst.UnmarshalXML marshal a d start).dec) ∧
    (∀ (Run : Type) (run : Run → Decoder → StartElement → Outcome Run),
      (∀ (v : Run) (d : Decoder) (s : StartElement), d.Reach (run v d s).dec) →
      ∀ (r : Hyperlink Run) (d : Decoder) (start : StartElement),
      (d.TokErr → (Hyperlink.UnmarshalXML run r d start).err ≠ some .LoopBound) ∧
        d.Reach (Hyperlink.UnmarshalXML run r d start).dec) ∧
    (∀ (v : Int) (d : Decoder) (start : StartElement),
      (d.TokErr → (d.DecodeElementInt64 v start).err ≠ some .LoopBound) ∧
        d.Reach (d.DecodeElementInt64 v start).dec) ∧
    (∀ (v : AGraphicFrameLocks) (d : Decoder) (start : StartElement),
      (d.TokErr → (d.DecodeElementAGraphicFrameLocks v start).err ≠ some .LoopBound) ∧
        d.Reach (d.DecodeElementAGraphicFrameLocks v start).dec) ∧
    (∀ (v : AStretch) (d : Decoder) (start : StartElement),
      (d.TokErr → (d.DecodeElementAStretch v start).err ≠ some .LoopBound) ∧
        d.Reach (d.DecodeElementAStretch v start).dec) ∧
    (∀ (v : APrstGeom) (d : Decoder) (start : StartElement),
      (d.TokErr → (d.DecodeElementAPrstGeom v start).err ≠ some .LoopBound) ∧
        d.Reach (d.DecodeElementAPrstGeom v start).dec) ∧
    (∀ (d : Decoder), (d.TokErr → d.Skip.2 ≠ some .LoopBound) ∧ d.Reach d.Skip.1) :=
  ⟨fun r d start =>
      ⟨Drawing_UnmarshalXML_no_bound r d start, Drawing_UnmarshalXML_reach r d start⟩,
    fun r d start =>
      ⟨WPInline_UnmarshalXML_no_bound r d start, WPInline_UnmarshalXML_reach r d start⟩,
    fun r d start =>
      ⟨WPAnchor_UnmarshalXML_no_bound r d start, WPAnchor_UnmarshalXML_reach r d start⟩,
    fun r d start =>
      ⟨WPExtent_UnmarshalXML_no_bound r d start, WPExtent_UnmarshalXML_reach r d start⟩,
    fun r d start =>
      ⟨WPEffectExtent_UnmarshalXML_no_bound r d start, WPEffectExtent_UnmarshalXML_reach r d start⟩,
    fun r d start =>
      ⟨WPDocPr_UnmarshalXML_no_bound r d start, WPDocPr_UnmarshalXML_reach r d start⟩,
    fun r d start =>
      ⟨WPCNvGraphicFramePr_UnmarshalXML_no_bound r d start, WPCNvGraphicFramePr_UnmarshalXML_reach r d start⟩,
    fun r d start =>
      ⟨AGraphic_UnmarshalXML_no_bound r d start, AGraphic_UnmarshalXML_reach r d start⟩,
    fun r d start =>
      ⟨AGraphicData_UnmarshalXML_no_bound r d start, AGraphicData_UnmarshalXML_reach r d start⟩,
    fun r d start =>
      ⟨PICPic_UnmarshalXML_no_bound r d start, PICPic_UnmarshalXML_reach r d start⟩,
    fun r d start =>
      ⟨PICNonVisualPicProperties_UnmarshalXML_no_bound r d start, PICNonVisualPicProperties_UnmarshalXML_reach r d start⟩,
    fun r d start =>
      ⟨PICBlipFill_UnmarshalXML_no_bound r d start, PICBlipFill_UnmarshalXML_reach r d start⟩,
    fun r d start =>
      ⟨ABlip_UnmarshalXML_no_bound r d start, ABlip_UnmarshalXML_reach r d start⟩,
    fun r d start =>
      ⟨PICSpPr_UnmarshalXML_no_bound r d start, PICSpPr_UnmarshalXML_reach r d start⟩,
    fun r d start =>
      ⟨AXfrm_UnmarshalXML_no_bound r d start, AXfrm_UnmarshalXML_reach r d start⟩,
    fun r d start =>
      ⟨WPPositionH_UnmarshalXML_no_bound r d start, WPPositionH_UnmarshalXML_reach r d start⟩,
    fun r d start =>
      ⟨WPPositionV_UnmarshalXML_no_bound r d start, WPPositionV_UnmarshalXML_reach r d start⟩,
    fun marshal hm a d start =>
      ⟨AAvLst_UnmarshalXML_no_bound marshal hm a d start,
        AAvLst_UnmarshalXML_reach marshal a d start⟩,
    fun Run run hrun r d start =>
      ⟨Hyperlink_UnmarshalXML_no_bound run hrun r d start,
        Hyperlink_UnmarshalXML_reach run hrun r d start⟩,
    fun v d start =>
      ⟨DecodeElementInt64_no_bound v d start, DecodeElementInt64_reach v d start⟩,
    fun v d start =>
      ⟨DecodeElementAGraphicFrameLocks_no_bound v d start, DecodeElementAGraphicFrameLocks_reach v d start⟩,
    fun v d start =>
      ⟨DecodeElementAStretch_no_bound v d start, DecodeElementAStretch_reach v d start⟩,
    fun v d start =>
      ⟨DecodeElementAPrstGeom_no_bound v d start, DecodeElementAPrstGeom_reach v d start⟩,
    fun d => ⟨Skip_no_bound d, Skip_reach d⟩⟩

/-- C22 at the content of
`<w:drawing><wp:inline distT="1"><wp:extent cx="1" cy="2"/></wp:inline>x</w:drawing>`
followed by one more token: `Drawing.UnmarshalXML` ends within its bound,
returns nil and leaves the token behind the drawing pending. -/
theorem C22_termination_witness :
    (Decoder.TokErr
        ⟨[.StartElement ⟨⟨"wp", "inline"⟩, [⟨⟨"", "distT"⟩, "1"⟩]⟩,
          .StartElement ⟨⟨"wp", "extent"⟩, [⟨⟨"", "cx"⟩, "1"⟩, ⟨⟨"", "cy"⟩, "2"⟩]⟩,
          .EndElement ⟨"wp", "extent"⟩, .EndElement ⟨"wp", "inline"⟩, .CharData "x",
          .EndElement ⟨"w", "drawing"⟩, .CharData "after"], none,
          [.stkStart ⟨"w", "drawing"⟩, .stkEOF]⟩ ∧
      (Drawing.UnmarshalXML {}
        ⟨[.StartElement ⟨⟨"wp", "inline"⟩, [⟨⟨"", "distT"⟩, "1"⟩]⟩,
          .StartElement ⟨⟨"wp", "extent"⟩, [⟨⟨"", "cx"⟩, "1"⟩, ⟨⟨"", "cy"⟩, "2"⟩]⟩,
          .EndElement ⟨"wp", "extent"⟩, .EndElement ⟨"wp", "inline"⟩, .CharData "x",
          .EndElement ⟨"w", "drawing"⟩, .CharData "after"], none,
          [.stkStart ⟨"w", "drawing"⟩, .stkEOF]⟩ ⟨⟨"w", "drawing"⟩, []⟩).err = none ∧
      (Drawing.UnmarshalXML {}
        ⟨[.StartElement ⟨⟨"wp", "inline"⟩, [⟨⟨"", "distT"⟩, "1"⟩]⟩,
          .StartElement ⟨⟨"wp", "extent"⟩, [⟨⟨"", "cx"⟩, "1"⟩, ⟨⟨"", "cy"⟩, "2"⟩]⟩,
          .EndElement ⟨"wp", "extent"⟩, .EndElement ⟨"wp", "inline"⟩, .CharData "x",
          .EndElement ⟨"w", "drawing"⟩, .CharData "after"], none,
          [.stkStart ⟨"w", "drawing"⟩, .stkEOF]⟩ ⟨⟨"w", "drawing"⟩, []⟩).dec.toks =
        [.CharData "after"]) ∧
    ((Drawing.UnmarshalXML {}
        ⟨[.StartElement ⟨⟨"wp", "inline"⟩, [⟨⟨"", "distT"⟩, "1"⟩]⟩,
          .StartElement ⟨⟨"wp", "extent"⟩, [⟨⟨"", "cx"⟩, "1"⟩, ⟨⟨"", "cy"⟩, "2"⟩]⟩,
          .EndElement ⟨"wp", "extent"⟩, .EndElement ⟨"wp", "inline"⟩, .CharData "x",
          .EndElement ⟨"w", "drawing"⟩, .CharData "after"], none,
          [.stkStart ⟨"w", "drawing"⟩, .stkEOF]⟩ ⟨⟨"w", "drawing"⟩, []⟩).err ≠
        some .LoopBound ∧
      Decoder.Reach
        ⟨[.StartElement ⟨⟨"wp", "inline"⟩, [⟨⟨"", "distT"⟩, "1"⟩]⟩,
          .StartElement ⟨⟨"wp", "extent"⟩, [⟨⟨"", "cx"⟩, "1"⟩, ⟨⟨"", "cy"⟩, "2"⟩]⟩,
          .EndElement ⟨"wp", "extent"⟩, .EndElement ⟨"wp", "inline"⟩, .CharData "x",
          .EndElement ⟨"w", "drawing"⟩, .CharData "after"], none,
          [.stkStart ⟨"w", "drawing"⟩, .stkEOF]⟩
        (Drawing.UnmarshalXML {}
          ⟨[.StartElement ⟨⟨"wp", "inline"⟩, [⟨⟨"", "distT"⟩, "1"⟩]⟩,
            .StartElement ⟨⟨"wp", "extent"⟩, [⟨⟨"", "cx"⟩, "1"⟩, ⟨⟨"", "cy"⟩, "2"⟩]⟩,
            .EndElement ⟨"wp", "extent"⟩, .EndElement ⟨"wp", "inline"⟩, .CharData "x",
            .EndElement ⟨"w", "drawing"⟩, .CharData "after"], none,
            [.stkStart ⟨"w", "drawing"⟩, .stkEOF]⟩ ⟨⟨"w", "drawing"⟩, []⟩).dec) :=
  ⟨⟨(fun e h => by cases h), by decide, by decide⟩,
    (C22_termination.1 {} _ ⟨⟨"w", "drawing"⟩, []⟩).1 (fun e h => by cases h),
    (C22_termination.1 {} _ ⟨⟨"w", "drawing"⟩, []⟩).2⟩

/-- One more round after `k` rounds. -/
theorem tokenLoop_after_succ {α : Type} (body : StartElement → α → Decoder → Step α) :
    ∀ (k : Nat) (r : α) (d : Decoder) (r1 : α) (d1 : Decoder),
      tokenLoop.after body k r d = some (r1, d1) →
      tokenLoop.after body (k + 1) r d = tokenLoop.after body 1 r1 d1 := by
  intro k
  induction k with
  | zero =>
    intro r d r1 d1 h
    simp only [tokenLoop.after, Option.some.injEq, Prod.mk.injEq] at h
    obtain ⟨rfl, rfl⟩ := h
    rfl
  | succ k ih =>
    intro r d r1 d1 h
    rw [tokenLoop.after] at h ⊢
    rcases hT : d.Token with ⟨d2, e | t⟩
    · rw [hT] at h; simp at h
    · rw [hT] at h
      cases t with
      | StartElement tt =>
        simp only [] at h ⊢
        rcases hb : body tt r d2 with ⟨r3, d3⟩ | ⟨r3, d3, e⟩
        · rw [hb] at h
          exact ih r3 d3 r1 d1 h
        · rw [hb] at h; simp at h
      | EndElement n => exact ih r d2 r1 d1 h
      | CharData s => exact ih r d2 r1 d1 h
      | Comment s => exact ih r d2 r1 d1 h
      | ProcInst a b => exact ih r d2 r1 d1 h
      | Directive s => exact ih r d2 r1 d1 h

/-- The decoder after `k` rounds comes after the one the loop started on. -/
theorem tokenLoop_after_reach {α : Type} (body : StartElement → α → Decoder → Step α)
    (hreach : ∀ (tt : StartElement) (r : α) (d : Decoder), d.Reach (body tt r d).dec) :
    ∀ (k : Nat) (r : α) (d : Decoder) (r1 : α) (d1 : Decoder),
      tokenLoop.after body k r d = some (r1, d1) → d.Reach d1 := by
  intro k
  induction k with
  | zero =>
    intro r d r1 d1 h
    simp only [tokenLoop.after, Option.some.injEq, Prod.mk.injEq] at h
    rw [h.2]
    exact Decoder.Reach.refl _
  | succ k ih =>
    intro r d r1 d1 h
    rw [tokenLoop.after] at h
    have hR := Token_reach d
    rcases hT : d.Token with ⟨d2, e | t⟩
    · rw [hT] at h; simp at h
    · rw [hT] at h hR
      cases t with
      | StartElement tt =>
        simp only [] at h
        have hb2 := hreach tt r d2
        rcases hb : body tt r d2 with ⟨r3, d3⟩ | ⟨r3, d3, e⟩
        · rw [hb] at h hb2
          exact (hR.trans hb2).trans (ih r3 d3 r1 d1 h)
        · rw [hb] at h; simp at h
      | EndElement n => exact hR.trans (ih r d2 r1 d1 h)
      | CharData s => exact hR.trans (ih r d2 r1 d1 h)
      | Comment s => exact hR.trans (ih r d2 r1 d1 h)
      | ProcInst a b => exact hR.trans (ih r d2 r1 d1 h)
      | Directive s => exact hR.trans (ih r d2 r1 d1 h)

/-- The loop goes on from the head it has reached after `k` rounds. -/
theorem tokenLoop_after_loop {α : Type} (body : StartElement → α → Decoder → Step α)
    (hreach : ∀ (tt : StartElement) (r : α) (d : Decoder), d.Reach (body tt r d).dec) :
    ∀ (k : Nat) (r : α) (d : Decoder) (r1 : α) (d1 : Decoder) (fuel : Nat),
      tokenLoop.after body k r d = some (r1, d1) → d.toks.length < fuel →
      tokenLoop body fuel r d = tokenLoop body (d1.toks.length + 1) r1 d1 := by
  intro k
  induction k with
  | zero =>
    intro r d r1 d1 fuel h hf
    simp only [tokenLoop.after, Option.some.injEq, Prod.mk.injEq] at h
    obtain ⟨rfl, rfl⟩ := h
    exact tokenLoop_fuel body (body_shrink hreach) _ _ _ _ hf (Nat.lt_add_one _)
  | succ k ih =>
    intro r d r1 d1 fuel h hf
    rw [tokenLoop.after] at h
    obtain ⟨f, rfl⟩ : ∃ f, fuel = f + 1 := ⟨fuel - 1, by omega⟩
    rcases hT : d.Token with ⟨d2, e | t⟩
    · rw [hT] at h; simp at h
    · rw [hT] at h
      have hlen : d2.toks.length < f := by
        have := (Token_ok hT).1
        rw [this] at hf; simp at hf; omega
      have hother : (∀ tt, t ≠ .StartElement tt) → tokenLoop.after body k r d2 = some (r1, d1) →
          tokenLoop body (f + 1) r d = tokenLoop body (d1.toks.length + 1) r1 d1 := by
        intro ht h2
        rw [tokenLoop_other body f r hT ht]
        exact ih r d2 r1 d1 f h2 hlen
      cases t with
      | StartElement tt =>
        simp only [] at h
        rw [tokenLoop_start body f r hT]
        have hb2 := body_shrink hreach tt r d2
        rcases hb : body tt r d2 with ⟨r3, d3⟩ | ⟨r3, d3, e⟩
        · rw [hb] at h hb2
          simp only [Step.dec] at hb2
          exact ih r3 d3 r1 d1 f h (by omega)
        · rw [hb] at h; simp at h
      | EndElement n => exact hother (by simp) h
      | CharData s => exact hother (by simp) h
      | Comment s => exact hother (by simp) h
      | ProcInst a b => exact hother (by simp) h
      | Directive s => exact hother (by simp) h

/-- When the read at the head the loop has reached after `k` rounds reports
`io.EOF`, the loop returns nil, with the record of that head. -/
theorem tokenLoop_after_eof {α : Type} (body : StartElement → α → Decoder → Step α)
    (hreach : ∀ (tt : StartElement) (r : α) (d : Decoder), d.Reach (body tt r d).dec)
    (k : Nat) (r : α) (d : Decoder) (r1 : α) (d1 d2 : Decoder)
    (h : tokenLoop.after body k r d = some (r1, d1)) (hT : d1.Token = (d2, .error .EOF)) :
    tokenLoop body (d.toks.length + 1) r d = ⟨r1, d2, none⟩ := by
  rw [tokenLoop_after_loop body hreach k r d r1 d1 _ h (Nat.lt_add_one _),
    tokenLoop_eof body _ r1 hT]

/-- When the loop reads a start-element and the body goes on, the loop goes
on from what the body leaves. -/
theorem tokenLoop_reads_next {α : Type} (body : StartElement → α → Decoder → Step α)
    (hreach : ∀ (tt : StartElement) (r : α) (d : Decoder), d.Reach (body tt r d).dec)
    (r : α) (d : Decoder) (tt : StartElement) (r1 : α) (d1 : Decoder) (r2 : α) (d2 : Decoder)
    (h : tokenLoop.reads body r d tt r1 d1) (hb : body tt r1 d1 = .next r2 d2) :
    tokenLoop body (d.toks.length + 1) r d = tokenLoop body (d2.toks.length + 1) r2 d2 := by
  obtain ⟨k, d0, h1, hT⟩ := h
  rw [tokenLoop_after_loop body hreach k r d r1 d0 _ h1 (Nat.lt_add_one _),
    tokenLoop_start body _ r1 hT, hb]
  have h2 := body_shrink hreach tt r1 d1
  rw [hb] at h2
  simp only [Step.dec] at h2
  have h3 := (Token_ok hT).1
  exact tokenLoop_fuel body (body_shrink hreach) _ _ _ _ (by rw [h3]; simp; omega)
    (Nat.lt_add_one _)

/-- When the loop reads a start-element and the body returns an error, the
loop returns it. -/
theorem tokenLoop_reads_ret {α : Type} (body : StartElement → α → Decoder → Step α)
    (hreach : ∀ (tt : StartElement) (r : α) (d : Decoder), d.Reach (body tt r d).dec)
    (r : α) (d : Decoder) (tt : StartElement) (r1 : α) (d1 : Decoder) (r2 : α) (d2 : Decoder)
    (e : Error)
    (h : tokenLoop.reads body r d tt r1 d1) (hb : body tt r1 d1 = .ret r2 d2 e) :
    tokenLoop body (d.toks.length + 1) r d = ⟨r2, d2, some e⟩ := by
  obtain ⟨k, d0, h1, hT⟩ := h
  rw [tokenLoop_after_loop body hreach k r d r1 d0 _ h1 (Nat.lt_add_one _),
    tokenLoop_start body _ r1 hT, hb]

/-- A part `π` of the record that the body only writes for the start-elements
whose local name satisfies `touch`: when the loop leaves it changed, the loop
has read such a start-element. -/
theorem tokenLoop_changed_reads {α β : Type} (body : StartElement → α → Decoder → Step α)
    (π : α → β) (touch : String → Bool)
    (hreach : ∀ (tt : StartElement) (r : α) (d : Decoder), d.Reach (body tt r d).dec)
    (hframe : ∀ (tt : StartElement) (r : α) (d : Decoder), touch tt.Name.Local = false →
      π (body tt r d).val = π r)
    (r : α) (d : Decoder) (hne : π (tokenLoop body (d.toks.length + 1) r d).val ≠ π r) :
    ∃ tt r1 d1, tokenLoop.reads body r d tt r1 d1 ∧ touch tt.Name.Local = true := by
  by_contra hno
  have hno2 : ∀ tt r1 d1, tokenLoop.reads body r d tt r1 d1 → touch tt.Name.Local = false := by
    intro tt r1 d1 hr
    by_contra hc
    exact hno ⟨tt, r1, d1, hr, by simpa using hc⟩
  refine hne (tokenLoop_induct body
    (fun r1 d1 => (∃ k, tokenLoop.after body k r d = some (r1, d1)) ∧ π r1 = π r)
    (fun o => π o.val = π r) (body_shrink hreach) ?_ ?_ ?_ ?_ ?_ _ r d (Nat.lt_add_one _)
    ⟨⟨0, rfl⟩, rfl⟩)
  · intro r1 d1 d2 hP _; exact hP.2
  · intro r1 d1 d2 e hP _ _; exact hP.2
  · intro r1 d1 d2 t hP hT ht
    obtain ⟨⟨k, hk⟩, hπ⟩ := hP
    refine ⟨⟨k + 1, ?_⟩, hπ⟩
    rw [tokenLoop_after_succ body k r d r1 d1 hk]
    cases t with
    | StartElement tt => exact absurd rfl (ht tt)
    | _ => simp only [tokenLoop.after, hT]
  · intro r1 d1 d2 tt r2 d3 hP hT hb
    obtain ⟨⟨k, hk⟩, hπ⟩ := hP
    have htouch := hno2 tt r1 d2 ⟨k, d1, hk, hT⟩
    have hf := hframe tt r1 d2 htouch
    rw [hb] at hf
    refine ⟨⟨k + 1, ?_⟩, hf.trans hπ⟩
    rw [tokenLoop_after_succ body k r d r1 d1 hk]
    simp only [tokenLoop.after, hT, hb]
  · intro r1 d1 d2 tt r2 d3 e hP hT hb
    obtain ⟨⟨k, hk⟩, hπ⟩ := hP
    have htouch := hno2 tt r1 d2 ⟨k, d1, hk, hT⟩
    have hf := hframe tt r1 d2 htouch
    rw [hb] at hf
    exact hf.trans hπ

/-- A property of the record that the body brings about for the start-elements
whose local name is `name`, and that every round keeps: it holds in the end
when the loop reads such a start-element. -/
theorem tokenLoop_reads_sets {α : Type} (body : StartElement → α → Decoder → Step α)
    (I : α → Prop) (name : String)
    (hreach : ∀ (tt : StartElement) (r : α) (d : Decoder), d.Reach (body tt r d).dec)
    (hsets : ∀ (tt : StartElement) (r : α) (d : Decoder), tt.Name.Local = name →
      I (body tt r d).val)
    (hkeeps : ∀ (tt : StartElement) (r : α) (d : Decoder), I r → I (body tt r d).val)
    (r : α) (d : Decoder) (tt : StartElement) (r1 : α) (d1 : Decoder)
    (h : tokenLoop.reads body r d tt r1 d1) (hn : tt.Name.Local = name) :
    I (tokenLoop body (d.toks.length + 1) r d).val := by
  have hs := hsets tt r1 d1 hn
  rcases hb : body tt r1 d1 with ⟨r2, d2⟩ | ⟨r2, d2, e⟩
  · rw [tokenLoop_reads_next body hreach r d tt r1 d1 r2 d2 h hb]
    rw [hb] at hs
    exact tokenLoop_inv body I hkeeps _ r2 d2 hs
  · rw [tokenLoop_reads_ret body hreach r d tt r1 d1 r2 d2 e h hb]
    rw [hb] at hs
    exact hs

/-- When the read at the head the loop of `(*AAvLst).UnmarshalXML` has reached
after `k` rounds reports `io.EOF`, the loop ends with what it has appended. -/
theorem AAvLst_after_eof (marshal : Token → Except Error String) (start : StartElement) :
    ∀ (k : Nat) (content : String) (d : Decoder) (c : String) (d1 d2 : Decoder) (fuel : Nat),
      AAvLst.after marshal start k content d = some (c, d1) → d1.Token = (d2, .error .EOF) →
      d.toks.length < fuel → AAvLst.loop marshal start fuel content d = (d2, .ok c) := by
  intro k
  induction k with
  | zero =>
    intro content d c d1 d2 fuel h hT hf
    simp only [AAvLst.after, Option.some.injEq, Prod.mk.injEq] at h
    obtain ⟨rfl, rfl⟩ := h
    obtain ⟨f, rfl⟩ : ∃ f, fuel = f + 1 := ⟨fuel - 1, by omega⟩
    rw [AAvLst.loop, hT]
  | succ k ih =>
    intro content d c d1 d2 fuel h hT hf
    rw [AAvLst.after] at h
    obtain ⟨f, rfl⟩ : ∃ f, fuel = f + 1 := ⟨fuel - 1, by omega⟩
    rw [AAvLst.loop]
    rcases hT0 : d.Token with ⟨d3, e | t⟩
    · rw [hT0] at h; simp at h
    · rw [hT0] at h
      simp only [] at h ⊢
      have hlen : d3.toks.length < f := by
        have := (Token_ok hT0).1
        rw [this] at hf; simp at hf; omega
      by_cases hend : t = start.End
      · rw [if_pos hend] at h; simp at h
      · rw [if_neg hend] at h
        rw [if_neg hend]
        rcases hm : marshal t with e | b
        · rw [hm] at h; simp at h
        · rw [hm] at h
          simp only [] at h ⊢
          exact ih _ d3 c d1 d2 f h hT hlen

/-- C16, amended: for every decoder of the catalog that reads its content in a
loop (`Drawing`, `WPInline`, `WPAnchor`, `WPCNvGraphicFramePr`, `AGraphic`,
`AGraphicData`, `PICPic`, `PICNonVisualPicProperties`, `PICBlipFill`, `ABlip`,
`PICSpPr`, `AXfrm`, `WPPositionH`, `WPPositionV`, `Hyperlink`, `AAvLst`) and
every start-element whose numeric attributes are integer literals: whenever a
read at the head of the loop reports `io.EOF`, be it the first read or the read
after any number of rounds, whatever those rounds read and decoded,
`UnmarshalXML` returns nil, with the record as those rounds left it and the
decoder as that read left it.  (For `Hyperlink` the decoder of a run is taken
to consume tokens only; for `AAvLst` marshalling the start-element is taken not
to fail.)  The decoders `WPExtent`, `WPEffectExtent` and `WPDocPr`, which read
one token and have no loop, are left out. -/
theorem C16_end_of_stream_ends_loop :
    (∀ (r : Drawing) (d : Decoder) (start : StartElement) (k : Nat) (r1 : Drawing) (d1 d2 : Decoder),
      tokenLoop.after Drawing.body k r d = some (r1, d1) →
      d1.Token = (d2, .error .EOF) → Drawing.UnmarshalXML r d start = ⟨r1, d2, none⟩) ∧
    (∀ (r : WPInline) (d : Decoder) (start : StartElement) (k : Nat) (r1 : WPInline) (d1 d2 : Decoder),
      (∀ a ∈ start.Attr, a.Name.Local ∈ WPInline.numericAttrs → ∃ n, IsInt64Literal a.Value n) →
      tokenLoop.after WPInline.body k (start.Attr.foldl (fun r a => (WPInline.attr a r).1) r) d
        = some (r1, d1) →
      d1.Token = (d2, .error .EOF) → WPInline.UnmarshalXML r d start = ⟨r1, d2, none⟩) ∧
    (∀ (r : WPAnchor) (d : Decoder) (start : StartElement) (k : Nat) (r1 : WPAnchor) (d1 d2 : Decoder),
      (∀ a ∈ start.Attr, a.Name.Local ∈ WPAnchor.numericAttrs → ∃ n, IsInt64Literal a.Value n) →
      tokenLoop.after WPAnchor.body k (start.Attr.foldl (fun r a => (WPAnchor.attr a r).1) r) d
        = some (r1, d1) →
      d1.Token = (d2, .error .EOF) → WPAnchor.UnmarshalXML r d start = ⟨r1, d2, none⟩) ∧
    (∀ (r : WPCNvGraphicFramePr) (d : Decoder) (start : StartElement) (k : Nat) (r1 : WPCNvGraphicFramePr) (d1 d2 : Decoder),
      tokenLoop.after WPCNvGraphicFramePr.body k r d = some (r1, d1) →
      d1.Token = (d2, .error .EOF) → WPCNvGraphicFramePr.UnmarshalXML r d start = ⟨r1, d2, none⟩) ∧
    (∀ (r : AGraphic) (d : Decoder) (start : StartElement) (k : Nat) (r1 : AGraphic) (d1 d2 : Decoder),
      tokenLoop.after AGraphic.body k (AGraphic.attrs start.Attr r) d = some (r1, d1) →
      d1.Token = (d2, .error .EOF) → AGraphic.UnmarshalXML r d start = ⟨r1, d2, none⟩) ∧
    (∀ (r : AGraphicData) (d : Decoder) (start : StartElement) (k : Nat) (r1 : AGraphicData) (d1 d2 : Decoder),
      tokenLoop.after AGraphicData.body k r d = some (r1, d1) →
      d1.Token = (d2, .error .EOF) → AGraphicData.UnmarshalXML r d start = ⟨r1, d2, none⟩) ∧
    (∀ (r : PICPic) (d : Decoder) (start : StartElement) (k : Nat) (r1 : PICPic) (d1 d2 : Decoder),
      tokenLoop.after PICPic.body k r d = some (r1, d1) →
      d1.Token = (d2, .error .EOF) → PICPic.UnmarshalXML r d start = ⟨r1, d2, none⟩) ∧
    (∀ (r : PICNonVisualPicProperties) (d : Decoder) (start : StartElement) (k : Nat) (r1 : PICNonVisualPicProperties) (d1 d2 : Decoder),
      tokenLoop.after PICNonVisualPicProperties.body k r d = some (r1, d1) →
      d1.Token = (d2, .error .EOF) → PICNonVisualPicProperties.UnmarshalXML r d start = ⟨r1, d2, none⟩) ∧
    (∀ (r : PICBlipFill) (d : Decoder) (start : StartElement) (k : Nat) (r1 : PICBlipFill) (d1 d2 : Decoder),
      tokenLoop.after PICBlipFill.body k r d = some (r1, d1) →
      d1.Token = (d2, .error .EOF) → PICBlipFill.UnmarshalXML r d start = ⟨r1, d2, none⟩) ∧
    (∀ (r : ABlip) (d : Decoder) (start : StartElement) (k : Nat) (r1 : ABlip) (d1 d2 : Decoder),
      tokenLoop.after ABlip.body k (ABlip.attrs start.Attr r) d = some (r1, d1) →
      d1.Token = (d2, .error .EOF) → ABlip.UnmarshalXML r d start = ⟨r1, d2, none⟩) ∧
    (∀ (r : PICSpPr) (d : Decoder) (start : StartElement) (k : Nat) (r1 : PICSpPr) (d1 d2 : Decoder),
      tokenLoop.after PICSpPr.body k r d = some (r1, d1) →
      d1.Token = (d2, .error .EOF) → PICSpPr.UnmarshalXML r d start = ⟨r1, d2, none⟩) ∧
    (∀ (r : AXfrm) (d : Decoder) (start : StartElement) (k : Nat) (r1 : AXfrm) (d1 d2 : Decoder),
      (∀ a ∈ start.Attr, a.Name.Local ∈ AXfrm.numericAttrs → ∃ n, IsInt64Literal a.Value n) →
      tokenLoop.after AXfrm.body k (start.Attr.foldl (fun r a => (AXfrm.attr a r).1) r) d
        = some (r1, d1) →
      d1.Token = (d2, .error .EOF) → AXfrm.UnmarshalXML r d start = ⟨r1, d2, none⟩) ∧
    (∀ (r : WPPositionH) (d : Decoder) (start : StartElement) (k : Nat) (r1 : WPPositionH) (d1 d2 : Decoder),
      tokenLoop.after WPPositionH.body k (WPPositionH.attrs start.Attr r) d = some (r1, d1) →
      d1.Token = (d2, .error .EOF) → WPPositionH.UnmarshalXML r d start = ⟨r1, d2, none⟩) ∧
    (∀ (r : WPPositionV) (d : Decoder) (start : StartElement) (k : Nat) (r1 : WPPositionV) (d1 d2 : Decoder),
      tokenLoop.after WPPositionV.body k (WPPositionV.attrs start.Attr r) d = some (r1, d1) →
      d1.Token = (d2, .error .EOF) → WPPositionV.UnmarshalXML r d start = ⟨r1, d2, none⟩) ∧
    (∀ (Run : Type) (run : Run → Decoder → StartElement → Outcome Run) (r : Hyperlink Run)
        (d : Decoder) (start : StartElement) (k : Nat) (r1 : Hyperlink Run) (d1 d2 : Decoder),
      (∀ (v : Run) (d : Decoder) (s : StartElement), d.Reach (run v d s).dec) →
      tokenLoop.after (Hyperlink.body run) k r d = some (r1, d1) →
      d1.Token = (d2, .error .EOF) → Hyperlink.UnmarshalXML run r d start = ⟨r1, d2, none⟩) ∧
    (∀ (marshal : Token → Except Error String) (a : AAvLst) (d : Decoder)
        (start : StartElement) (s0 : String) (k : Nat) (c : String) (d1 d2 : Decoder),
      marshal (.StartElement start) = .ok s0 →
      AAvLst.after marshal start k s0 d = some (c, d1) → d1.Token = (d2, .error .EOF) →
      AAvLst.UnmarshalXML marshal a d start = ⟨{ a with RawXML := BytesToString c }, d2, none⟩) := by
  refine ⟨?_, ?_, ?_, ?_, ?_, ?_, ?_, ?_, ?_, ?_, ?_, ?_, ?_, ?_, ?_, ?_⟩
  · intro r d start k r1 d1 d2 h hT
    unfold Drawing.UnmarshalXML
    exact tokenLoop_after_eof Drawing.body Drawing_body_reach k _ d r1 d1 d2 h hT
  · intro r d start k r1 d1 d2 hattrs h hT
    unfold WPInline.UnmarshalXML
    rw [WPInline_attrs_ok start r hattrs]
    exact tokenLoop_after_eof WPInline.body WPInline_body_reach k _ d r1 d1 d2 h hT
  · intro r d start k r1 d1 d2 hattrs h hT
    unfold WPAnchor.UnmarshalXML
    rw [WPAnchor_attrs_ok start r hattrs]
    exact tokenLoop_after_eof WPAnchor.body WPAnchor_body_reach k _ d r1 d1 d2 h hT
  · intro r d start k r1 d1 d2 h hT
    unfold WPCNvGraphicFramePr.UnmarshalXML
    exact tokenLoop_after_eof WPCNvGraphicFramePr.body WPCNvGraphicFramePr_body_reach k _ d r1 d1 d2 h hT
  · intro r d start k r1 d1 d2 h hT
    unfold AGraphic.UnmarshalXML
    exact tokenLoop_after_eof AGraphic.body AGraphic_body_reach k _ d r1 d1 d2 h hT
  · intro r d start k r1 d1 d2 h hT
    unfold AGraphicData.UnmarshalXML
    exact tokenLoop_after_eof AGraphicData.body AGraphicData_body_reach k _ d r1 d1 d2 h hT
  · intro r d start k r1 d1 d2 h hT
    unfold PICPic.UnmarshalXML
    exact tokenLoop_after_eof PICPic.body PICPic_body_reach k _ d r1 d1 d2 h hT
  · intro r d start k r1 d1 d2 h hT
    unfold PICNonVisualPicProperties.UnmarshalXML
    exact tokenLoop_after_eof PICNonVisualPicProperties.body PICNonVisualPicProperties_body_reach k _ d r1 d1 d2 h hT
  · intro r d start k r1 d1 d2 h hT
    unfold PICBlipFill.UnmarshalXML
    exact tokenLoop_after_eof PICBlipFill.body PICBlipFill_body_reach k _ d r1 d1 d2 h hT
  · intro r d start k r1 d1 d2 h hT
    unfold ABlip.UnmarshalXML
    exact tokenLoop_after_eof ABlip.body ABlip_body_reach k _ d r1 d1 d2 h hT
  · intro r d start k r1 d1 d2 h hT
    unfold PICSpPr.UnmarshalXML
    exact tokenLoop_after_eof PICSpPr.body PICSpPr_body_reach k _ d r1 d1 d2 h hT
  · intro r d start k r1 d1 d2 hattrs h hT
    unfold AXfrm.UnmarshalXML
    rw [AXfrm_attrs_ok start r hattrs]
    exact tokenLoop_after_eof AXfrm.body AXfrm_body_reach k _ d r1 d1 d2 h hT
  · intro r d start k r1 d1 d2 h hT
    unfold WPPositionH.UnmarshalXML
    exact tokenLoop_after_eof WPPositionH.body WPPositionH_body_reach k _ d r1 d1 d2 h hT
  · intro r d start k r1 d1 d2 h hT
    unfold WPPositionV.UnmarshalXML
    exact tokenLoop_after_eof WPPositionV.body WPPositionV_body_reach k _ d r1 d1 d2 h hT
  · intro Run run r d start k r1 d1 d2 hrun h hT
    unfold Hyperlink.UnmarshalXML
    exact tokenLoop_after_eof (Hyperlink.body run) (Hyperlink_body_reach run hrun) k _ d r1 d1 d2
      h hT
  · intro marshal a d start s0 k c d1 d2 hm h hT
    unfold AAvLst.UnmarshalXML
    rw [hm]
    simp only
    rw [AAvLst_after_eof marshal start k s0 d c d1 d2 _ h hT (Nat.lt_add_one _)]

/-- C16, amended, at an inline frame `<inline distT="0"><extent cx="1" cy="2"/>
<docPr id="1" name="x"/></inline>` decoded inside its scope: after four rounds,
which decode the extent and the docPr and read two end-elements,
the read reports `io.EOF` and the decode returns nil with both children
stored. -/
theorem C16_end_of_stream_ends_loop_witness :
    ((∀ a ∈ [(⟨⟨"", "distT"⟩, "0"⟩ : Attr)], a.Name.Local ∈ WPInline.numericAttrs →
        ∃ n, IsInt64Literal a.Value n) ∧
      tokenLoop.after WPInline.body 4
          ([(⟨⟨"", "distT"⟩, "0"⟩ : Attr)].foldl (fun r a => (WPInline.attr a r).1) {})
          ⟨[.StartElement ⟨⟨"", "extent"⟩, [⟨⟨"", "cx"⟩, "1"⟩, ⟨⟨"", "cy"⟩, "2"⟩]⟩,
            .EndElement ⟨"", "extent"⟩,
            .StartElement ⟨⟨"", "docPr"⟩, [⟨⟨"", "id"⟩, "1"⟩, ⟨⟨"", "name"⟩, "x"⟩]⟩,
            .EndElement ⟨"", "docPr"⟩, .EndElement ⟨"", "inline"⟩], none,
            [.stkStart ⟨"", "inline"⟩, .stkEOF]⟩
        = some ({ Extent := some { CX := 1, CY := 2 }, DocPr := some { ID := 1, Name := "x" } },
            ⟨[], none, [.stkEOF]⟩) ∧
      Decoder.Token ⟨[], none, [.stkEOF]⟩ = (⟨[], none, [.stkEOF]⟩, .error .EOF)) ∧
    WPInline.UnmarshalXML {}
        ⟨[.StartElement ⟨⟨"", "extent"⟩, [⟨⟨"", "cx"⟩, "1"⟩, ⟨⟨"", "cy"⟩, "2"⟩]⟩,
          .EndElement ⟨"", "extent"⟩,
          .StartElement ⟨⟨"", "docPr"⟩, [⟨⟨"", "id"⟩, "1"⟩, ⟨⟨"", "name"⟩, "x"⟩]⟩,
          .EndElement ⟨"", "docPr"⟩, .EndElement ⟨"", "inline"⟩], none,
          [.stkStart ⟨"", "inline"⟩, .stkEOF]⟩
        ⟨⟨"", "inline"⟩, [⟨⟨"", "distT"⟩, "0"⟩]⟩
      = ⟨{ Extent := some { CX := 1, CY := 2 }, DocPr := some { ID := 1, Name := "x" } },
          ⟨[], none, [.stkEOF]⟩, none⟩ :=
  ⟨⟨fun a ha _ => by simp at ha; subst ha; exact ⟨0, by decide⟩, by decide, rfl⟩,
    C16_end_of_stream_ends_loop.2.1 {} _ ⟨⟨"", "inline"⟩, [⟨⟨"", "distT"⟩, "0"⟩]⟩ 4 _ ⟨[], none, [.stkEOF]⟩ _
      (fun a ha _ => by simp at ha; subst ha; exact ⟨0, by decide⟩) (by decide) rfl⟩

theorem openNames_append (a b : List Stack) :
    openNames (a ++ b) = openNames a ++ openNames b := by
  induction a with
  | nil => rfl
  | cons s a ih => cases s <;> simp [openNames, ih]

/-- Tokens that close the elements `a`, followed by tokens that close the
elements `o`, close the elements `a ++ o`. -/
theorem inert_append (known : String → Bool) :
    ∀ (p : List Token) (a o : List Name) (q : List Token),
      inert known a p = true → inert known o q = true →
      inert known (a ++ o) (p ++ q) = true := by
  intro p
  induction p with
  | nil =>
    intro a o q h1 h2
    cases a with
    | nil => simpa using h2
    | cons n a => simp [inert] at h1
  | cons t ts ih =>
    intro a o q h1 h2
    have hother : (∀ se, t ≠ .StartElement se) → (∀ m, t ≠ .EndElement m) →
        inert known (a ++ o) (t :: ts ++ q) = true := by
      intro n1 n2
      have h3 : inert known a ts = true := by
        cases t with
        | StartElement se => exact absurd rfl (n1 se)
        | EndElement m => exact absurd rfl (n2 m)
        | _ => cases a <;> simpa [inert] using h1
      have h4 := ih a o q h3 h2
      rw [List.cons_append]
      generalize a ++ o = l at h4 ⊢
      cases t with
      | StartElement se => exact absurd rfl (n1 se)
      | EndElement m => exact absurd rfl (n2 m)
      | _ => cases l <;> simpa [inert] using h4
    cases t with
    | StartElement se =>
      simp only [inert, Bool.and_eq_true, Bool.not_eq_true'] at h1
      have h4 := ih (se.Name :: a) o q h1.2 h2
      rw [List.cons_append]
      simp only [inert, Bool.and_eq_true, Bool.not_eq_true']
      exact ⟨h1.1, h4⟩
    | EndElement m =>
      cases a with
      | nil => simp [inert] at h1
      | cons n a =>
        simp only [inert, Bool.and_eq_true, decide_eq_true_eq] at h1
        rw [List.cons_append, List.cons_append]
        simp only [inert, Bool.and_eq_true, decide_eq_true_eq]
        exact ⟨h1.1, ih a o q h1.2 h2⟩
    | CharData s => exact hother (by simp) (by simp)
    | Comment s => exact hother (by simp) (by simp)
    | ProcInst a b => exact hother (by simp) (by simp)
    | Directive s => exact hother (by simp) (by simp)

/-- Inside a scope a read reports no error but `io.EOF`, and then reads
nothing. -/
theorem Scoped_token_error {base : List Stack} {rest p0 : List Token} {d d1 : Decoder}
    {e : Error} (hs : d.Scoped base rest p0) (hT : d.Token = (d1, .error e)) :
    e = .EOF ∧ d1 = d := by
  obtain ⟨top, p, hstk, htoks, -, hin⟩ := hs
  obtain ⟨toks, err, stk⟩ := d
  simp only at hstk htoks
  subst hstk htoks
  cases top with
  | nil =>
    change Decoder.Token ⟨p ++ rest, err, .stkEOF :: base⟩ = _ at hT
    rw [Token_eof_top ⟨p ++ rest, err, .stkEOF :: base⟩ rfl] at hT
    simp only [Prod.mk.injEq, Except.error.injEq] at hT
    exact ⟨hT.2.symm, hT.1.symm⟩
  | cons s top2 =>
    cases s with
    | stkEOF =>
      change Decoder.Token ⟨p ++ rest, err, .stkEOF :: (top2 ++ .stkEOF :: base)⟩ = _ at hT
      rw [Token_eof_top ⟨p ++ rest, err, .stkEOF :: (top2 ++ .stkEOF :: base)⟩ rfl] at hT
      simp only [Prod.mk.injEq, Except.error.injEq] at hT
      exact ⟨hT.2.symm, hT.1.symm⟩
    | stkStart n =>
      simp only [openNames] at hin
      cases p with
      | nil => simp [inert] at hin
      | cons t ts =>
        cases t with
        | StartElement se =>
          rw [List.cons_append, Token_start _ _ _ _ (by simp)] at hT
          simp at hT
        | EndElement m =>
          simp only [inert, Bool.and_eq_true, decide_eq_true_eq] at hin
          obtain ⟨rfl, -⟩ := hin
          rw [List.cons_append, List.cons_append, Token_end] at hT
          simp at hT
        | CharData s =>
          rw [List.cons_append, Token_other _ _ _ _ (by simp) (by simp) (by simp)] at hT
          simp at hT
        | Comment s =>
          rw [List.cons_append, Token_other _ _ _ _ (by simp) (by simp) (by simp)] at hT
          simp at hT
        | ProcInst a b =>
          rw [List.cons_append, Token_other _ _ _ _ (by simp) (by simp) (by simp)] at hT
          simp at hT
        | Directive s =>
          rw [List.cons_append, Token_other _ _ _ _ (by simp) (by simp) (by simp)] at hT
          simp at hT

/-- Inside a scope a token that is read is a token of the scope, and the
decoder stays inside the scope. -/
theorem Scoped_token_ok {base : List Stack} {rest p0 : List Token} {d d1 : Decoder}
    {t : Token} (hs : d.Scoped base rest p0) (hT : d.Token = (d1, .ok t)) :
    d1.Scoped base rest p0 ∧ t ∈ p0 := by
  obtain ⟨top, p, hstk, htoks, hsuf, hin⟩ := hs
  obtain ⟨toks, err, stk⟩ := d
  simp only at hstk htoks
  subst hstk htoks
  cases top with
  | nil =>
    change Decoder.Token ⟨p ++ rest, err, .stkEOF :: base⟩ = _ at hT
    rw [Token_eof_top ⟨p ++ rest, err, .stkEOF :: base⟩ rfl] at hT
    simp at hT
  | cons s top2 =>
    cases s with
    | stkEOF =>
      change Decoder.Token ⟨p ++ rest, err, .stkEOF :: (top2 ++ .stkEOF :: base)⟩ = _ at hT
      rw [Token_eof_top ⟨p ++ rest, err, .stkEOF :: (top2 ++ .stkEOF :: base)⟩ rfl] at hT
      simp at hT
    | stkStart n =>
      simp only [openNames] at hin
      cases p with
      | nil => simp [inert] at hin
      | cons t0 ts =>
        have hmem : t0 ∈ p0 := hsuf.subset (List.mem_cons_self _ _)
        have hsuf2 : ts <:+ p0 := (List.suffix_cons t0 ts).trans hsuf
        have hother : (∀ se, t0 ≠ .StartElement se) → (∀ m, t0 ≠ .EndElement m) →
            d1.Scoped base rest p0 ∧ t ∈ p0 := by
          intro n1 n2
          rw [List.cons_append, Token_other _ _ _ _ (by simp) n1 n2] at hT
          simp only [Prod.mk.injEq, Except.ok.injEq] at hT
          obtain ⟨rfl, rfl⟩ := hT
          refine ⟨⟨.stkStart n :: top2, ts, rfl, rfl, hsuf2, ?_⟩, hmem⟩
          simp only [openNames]
          cases t0 with
          | StartElement se => exact absurd rfl (n1 se)
          | EndElement m => exact absurd rfl (n2 m)
          | _ => simpa [inert] using hin
        cases t0 with
        | StartElement se =>
          rw [List.cons_append, Token_start _ _ _ _ (by simp)] at hT
          simp only [Prod.mk.injEq, Except.ok.injEq] at hT
          obtain ⟨rfl, rfl⟩ := hT
          simp only [inert, Bool.and_eq_true, Bool.not_eq_true'] at hin
          exact ⟨⟨.stkStart se.Name :: .stkStart n :: top2, ts, rfl, rfl, hsuf2,
            by simpa [openNames] using hin.2⟩, hmem⟩
        | EndElement m =>
          simp only [inert, Bool.and_eq_true, decide_eq_true_eq] at hin
          obtain ⟨rfl, hin2⟩ := hin
          rw [List.cons_append, List.cons_append, Token_end] at hT
          simp only [Prod.mk.injEq, Except.ok.injEq] at hT
          obtain ⟨rfl, rfl⟩ := hT
          exact ⟨⟨top2, ts, rfl, rfl, hsuf2, hin2⟩, hmem⟩
        | CharData s => exact hother (by simp) (by simp)
        | Comment s => exact hother (by simp) (by simp)
        | ProcInst a b => exact hother (by simp) (by simp)
        | Directive s => exact hother (by simp) (by simp)

theorem Scoped_Token {base : List Stack} {rest p0 : List Token} {d : Decoder}
    (hs : d.Scoped base rest p0) : d.Token.1.Scoped base rest p0 := by
  rcases hT : d.Token with ⟨d1, e | t⟩
  · rw [(Scoped_token_error hs hT).2]; exact hs
  · exact (Scoped_token_ok hs hT).1

/-- A decoder inside the scope that `pushEOF` opened under the topmost open
element is inside the enclosing scope, before and after `popEOF`. -/
theorem Scoped_lift {base : List Stack} {rest p0 : List Token} {top2 : List Stack}
    {q p2 : List Token} {o : Decoder}
    (ho : o.Scoped (top2 ++ .stkEOF :: base) (p2 ++ rest) q)
    (hp2 : inert (fun _ => false) (openNames top2) p2 = true) (hsuf : q ++ p2 <:+ p0) :
    o.Scoped base rest p0 ∧ o.popEOF.1.Scoped base rest p0 := by
  obtain ⟨top3, p3, hstk, htoks, hs, hin⟩ := ho
  obtain ⟨toks, err, stk⟩ := o
  simp only at hstk htoks
  subst hstk htoks
  have hsuf3 : p3 ++ p2 <:+ p0 := by
    obtain ⟨x, hx⟩ := hs
    exact (show p3 ++ p2 <:+ q ++ p2 from ⟨x, by rw [← hx]; simp⟩).trans hsuf
  have h1 : Decoder.Scoped base rest p0 ⟨p3 ++ (p2 ++ rest), err, top3 ++ .stkEOF :: (top2 ++ .stkEOF :: base)⟩ := by
    refine ⟨top3 ++ .stkEOF :: top2, p3 ++ p2, by simp, by simp, hsuf3, ?_⟩
    rw [openNames_append]
    simp only [openNames]
    exact inert_append _ p3 _ _ p2 hin hp2
  refine ⟨h1, ?_⟩
  cases top3 with
  | nil =>
    simp only [Decoder.popEOF, List.nil_append]
    refine ⟨top2, p3 ++ p2, rfl, by simp, hsuf3, ?_⟩
    have := inert_append _ p3 [] (openNames top2) p2 (by simpa [openNames] using hin) hp2
    simpa using this
  | cons s top4 =>
    cases s with
    | stkEOF =>
      simp only [Decoder.popEOF, List.cons_append]
      refine ⟨top4 ++ .stkEOF :: top2, p3 ++ p2, by simp, by simp, hsuf3, ?_⟩
      rw [openNames_append]
      simp only [openNames]
      exact inert_append _ p3 _ _ p2 (by simpa [openNames] using hin) hp2
    | stkStart m =>
      simp only [Decoder.popEOF, List.cons_append]
      exact h1

/-- The method `unmarshalInterface`, run on a decoder inside a scope right
after a start-element was read, leaves the decoder inside the scope when the
method `f` does, whatever `f` returns and whether or not it read the element
to its end. -/
theorem Scoped_unmarshalInterface {α : Type} (typ : String)
    (f : α → Decoder → StartElement → Outcome α)
    (hf : ∀ (base : List Stack) (rest p0 : List Token) (v : α) (d : Decoder) (s : StartElement),
      d.Scoped base rest p0 → (f v d s).dec.Scoped base rest p0)
    (v : α) (d : Decoder) (s : StartElement) (base : List Stack) (rest p0 : List Token)
    (hs : d.Scoped base rest p0) (hopen : ∃ n below, d.stk = .stkStart n :: below) :
    (d.unmarshalInterface typ f v s).dec.Scoped base rest p0 := by
  obtain ⟨top, p, hstk, htoks, hsuf, hin⟩ := hs
  obtain ⟨n, below, hn⟩ := hopen
  obtain ⟨toks, err, stk⟩ := d
  simp only at hstk htoks hn
  subst htoks
  cases top with
  | nil => rw [hn] at hstk; simp at hstk
  | cons s0 top2 =>
    rw [hn] at hstk
    simp only [List.cons_append, List.cons.injEq] at hstk
    obtain ⟨rfl, rfl⟩ := hstk
    simp only [openNames] at hin
    obtain ⟨b1, b2, rfl, hb1, hb2⟩ := inert_split _ n (openNames top2) p [] hin
    have hq : inert (fun _ => false) [n] (b1 ++ [.EndElement n]) = true := by
      have := inert_append (fun _ => false) b1 [] [n] [.EndElement n] hb1 (by simp [inert])
      simpa using this
    have hpush : Decoder.Scoped (top2 ++ .stkEOF :: base) (b2 ++ rest) (b1 ++ [.EndElement n])
        (Decoder.pushEOF ⟨(b1 ++ .EndElement n :: b2) ++ rest, err, stk⟩) := by
      subst hn
      refine ⟨[.stkStart n], b1 ++ [.EndElement n], ?_, ?_, List.suffix_refl _, by simpa [openNames] using hq⟩
      · simp [Decoder.pushEOF, pushEOFStack]
      · simp [Decoder.pushEOF]
    have ho := hf _ _ _ v _ s hpush
    have hl := Scoped_lift ho hb2 (by simpa using hsuf)
    unfold Decoder.unmarshalInterface
    simp only
    split
    · exact hl.2
    · split
      · exact hl.2
      · exact hl.1

theorem Scoped_DecodeElement {α : Type} (typ : String)
    (f : α → Decoder → StartElement → Outcome α)
    (hf : ∀ (base : List Stack) (rest p0 : List Token) (v : α) (d : Decoder) (s : StartElement),
      d.Scoped base rest p0 → (f v d s).dec.Scoped base rest p0)
    (v : α) (d : Decoder) (s : StartElement) (base : List Stack) (rest p0 : List Token)
    (hs : d.Scoped base rest p0) (hopen : ∃ n below, d.stk = .stkStart n :: below) :
    (d.DecodeElement typ f v s).dec.Scoped base rest p0 :=
  Scoped_unmarshalInterface typ f hf v d s base rest p0 hs hopen

theorem Scoped_skipLoop {base : List Stack} {rest p0 : List Token} :
    ∀ (fuel depth : Nat) (d : Decoder), d.Scoped base rest p0 →
      (d.skipLoop fuel depth).1.Scoped base rest p0 := by
  intro fuel
  induction fuel with
  | zero => intro depth d hs; exact hs
  | succ fuel ih =>
    intro depth d hs
    have hT := Scoped_Token hs
    unfold Decoder.skipLoop
    split
    · next h => rw [h] at hT; exact hT
    · next h => rw [h] at hT; exact ih _ _ hT
    · next h =>
      rw [h] at hT
      split
      · exact hT
      · exact ih _ _ hT
    · next h => rw [h] at hT; exact ih _ _ hT

theorem Scoped_Skip {base : List Stack} {rest p0 : List Token} (d : Decoder)
    (hs : d.Scoped base rest p0) : d.Skip.1.Scoped base rest p0 :=
  Scoped_skipLoop _ _ d hs

theorem Scoped_unmarshalLoop {base : List Stack} {rest p0 : List Token} (keep : Bool) :
    ∀ (fuel : Nat) (data : String) (d : Decoder), d.Scoped base rest p0 →
      (d.unmarshalLoop keep fuel data).1.Scoped base rest p0 := by
  intro fuel
  induction fuel with
  | zero => intro data d hs; exact hs
  | succ fuel ih =>
    intro data d hs
    have hT := Scoped_Token hs
    unfold Decoder.unmarshalLoop
    split
    · next h => rw [h] at hT; exact hT
    · next d1 _ h =>
      rw [h] at hT
      have hS := Scoped_Skip d1 hT
      split
      · next h2 => rw [h2] at hS; exact hS
      · next h2 => rw [h2] at hS; exact ih _ _ hS
    · next h => rw [h] at hT; exact hT
    · next h => rw [h] at hT; exact ih _ _ hT
    · next h => rw [h] at hT; exact ih _ _ hT

theorem Scoped_DecodeElementInt64 {base : List Stack} {rest p0 : List Token} (v : Int)
    (d : Decoder) (s : StartElement) (hs : d.Scoped base rest p0) :
    (d.DecodeElementInt64 v s).dec.Scoped base rest p0 := by
  have h := Scoped_unmarshalLoop true (d.toks.length + 1) "" d hs
  unfold Decoder.DecodeElementInt64
  split
  · next h1 => rw [h1] at h; exact h
  · next h1 =>
    rw [h1] at h
    split <;> exact h

theorem Scoped_DecodeElementAGraphicFrameLocks {base : List Stack} {rest p0 : List Token}
    (v : AGraphicFrameLocks) (d : Decoder) (s : StartElement) (hs : d.Scoped base rest p0) :
    (d.DecodeElementAGraphicFrameLocks v s).dec.Scoped base rest p0 := by
  have h := Scoped_unmarshalLoop false (d.toks.length + 1) "" d hs
  unfold Decoder.DecodeElementAGraphicFrameLocks
  split
  · exact hs
  · split
    · exact hs
    · split
      · exact hs
      · split
        · next h1 => rw [h1] at h; exact h
        · next h1 => rw [h1] at h; exact h

theorem Scoped_DecodeElementAStretch {base : List Stack} {rest p0 : List Token}
    (v : AStretch) (d : Decoder) (s : StartElement) (hs : d.Scoped base rest p0) :
    (d.DecodeElementAStretch v s).dec.Scoped base rest p0 := by
  have h := Scoped_unmarshalLoop false (d.toks.length + 1) "" d hs
  unfold Decoder.DecodeElementAStretch
  split
  · exact hs
  · split
    · next h1 => rw [h1] at h; exact h
    · next h1 => rw [h1] at h; exact h

theorem Scoped_DecodeElementAPrstGeom {base : List Stack} {rest p0 : List Token}
    (v : APrstGeom) (d : Decoder) (s : StartElement) (hs : d.Scoped base rest p0) :
    (d.DecodeElementAPrstGeom v s).dec.Scoped base rest p0 := by
  have h := Scoped_unmarshalLoop false (d.toks.length + 1) "" d hs
  unfold Decoder.DecodeElementAPrstGeom
  split
  · exact hs
  · split
    · next h1 => rw [h1] at h; exact h
    · next h1 => rw [h1] at h; exact h

/-- The decoding loop stays inside the scope when its body does. -/
theorem Scoped_tokenLoop {α : Type} (body : StartElement → α → Decoder → Step α)
    (hreach : ∀ (tt : StartElement) (r : α) (d : Decoder), d.Reach (body tt r d).dec)
    (base : List Stack) (rest p0 : List Token)
    (hbody : ∀ (tt : StartElement) (r : α) (d : Decoder), d.Scoped base rest p0 →
      (∃ n below, d.stk = .stkStart n :: below) → (body tt r d).dec.Scoped base rest p0)
    (fuel : Nat) (r : α) (d : Decoder) (hfuel : d.toks.length < fuel)
    (hs : d.Scoped base rest p0) : (tokenLoop body fuel r d).dec.Scoped base rest p0 := by
  refine tokenLoop_induct body (fun _ d => d.Scoped base rest p0)
    (fun o => o.dec.Scoped base rest p0) (body_shrink hreach) ?_ ?_ ?_ ?_ ?_ fuel r d hfuel hs
  · intro r d d1 hP hT; rw [(Scoped_token_error hP hT).2]; exact hP
  · intro r d d1 e hP hT _; rw [(Scoped_token_error hP hT).2]; exact hP
  · intro r d d1 t hP hT _; exact (Scoped_token_ok hP hT).1
  · intro r d d1 tt r2 d2 hP hT hb
    have h := hbody tt r d1 (Scoped_token_ok hP hT).1 ⟨tt.Name, d.stk, (Token_ok hT).2.2.2⟩
    rw [hb] at h; exact h
  · intro r d d1 tt r2 d2 e hP hT hb
    have h := hbody tt r d1 (Scoped_token_ok hP hT).1 ⟨tt.Name, d.stk, (Token_ok hT).2.2.2⟩
    rw [hb] at h; exact h

theorem WPExtent_UnmarshalXML_scoped (base : List Stack) (rest p0 : List Token) (r : WPExtent)
    (d : Decoder) (s : StartElement) (hs : d.Scoped base rest p0) :
    (WPExtent.UnmarshalXML r d s).dec.Scoped base rest p0 := by
  have hT := Scoped_Token hs
  unfold WPExtent.UnmarshalXML
  split
  · exact hs
  · split
    · next h => rw [h] at hT; exact hT
    · next h => rw [h] at hT; exact hT

theorem WPEffectExtent_UnmarshalXML_scoped (base : List Stack) (rest p0 : List Token) (r : WPEffectExtent)
    (d : Decoder) (s : StartElement) (hs : d.Scoped base rest p0) :
    (WPEffectExtent.UnmarshalXML r d s).dec.Scoped base rest p0 := by
  have hT := Scoped_Token hs
  unfold WPEffectExtent.UnmarshalXML
  split
  · exact hs
  · split
    · next h => rw [h] at hT; exact hT
    · next h => rw [h] at hT; exact hT

theorem WPDocPr_UnmarshalXML_scoped (base : List Stack) (rest p0 : List Token) (r : WPDocPr)
    (d : Decoder) (s : StartElement) (hs : d.Scoped base rest p0) :
    (WPDocPr.UnmarshalXML r d s).dec.Scoped base rest p0 := by
  have hT := Scoped_Token hs
  unfold WPDocPr.UnmarshalXML
  split
  · exact hs
  · split
    · next h => rw [h] at hT; exact hT
    · next h => rw [h] at hT; exact hT

theorem WPCNvGraphicFramePr_body_scoped (tt : StartElement) (r : WPCNvGraphicFramePr) (d : Decoder) (base : List Stack)
    (rest p0 : List Token) (hs : d.Scoped base rest p0)
    (hopen : ∃ n below, d.stk = .stkStart n :: below) :
    (WPCNvGraphicFramePr.body tt r d).dec.Scoped base rest p0 := by
  unfold WPCNvGraphicFramePr.body
  by_cases h0 : tt.Name.Local = "graphicFrameLocks"
  · rw [if_pos h0]
    (try dsimp only)
    repeat' split
    all_goals first | exact hs | exact Scoped_DecodeElementAGraphicFrameLocks _ _ _ hs
  rw [if_neg h0]
  exact hs

theorem WPCNvGraphicFramePr_UnmarshalXML_scoped (base : List Stack) (rest p0 : List Token) (r : WPCNvGraphicFramePr)
    (d : Decoder) (s : StartElement) (hs : d.Scoped base rest p0) :
    (WPCNvGraphicFramePr.UnmarshalXML r d s).dec.Scoped base rest p0 :=
  Scoped_tokenLoop _ WPCNvGraphicFramePr_body_reach base rest p0
        (fun tt r d h1 h2 => WPCNvGraphicFramePr_body_scoped tt r d base rest p0 h1 h2) _ _ _ (Nat.lt_add_one _) hs

theorem PICNonVisualPicProperties_body_scoped (tt : StartElement) (r : PICNonVisualPicProperties) (d : Decoder) (base : List Stack)
    (rest p0 : List Token) (hs : d.Scoped base rest p0)
    (hopen : ∃ n below, d.stk = .stkStart n :: below) :
    (PICNonVisualPicProperties.body tt r d).dec.Scoped base rest p0 := by
  unfold PICNonVisualPicProperties.body
  by_cases h0 : tt.Name.Local = "cNvPr"
  · rw [if_pos h0]
    (try dsimp only)
    repeat' split
    all_goals first | exact hs
  rw [if_neg h0]
  exact hs

theorem PICNonVisualPicProperties_UnmarshalXML_scoped (base : List Stack) (rest p0 : List Token) (r : PICNonVisualPicProperties)
    (d : Decoder) (s : StartElement) (hs : d.Scoped base rest p0) :
    (PICNonVisualPicProperties.UnmarshalXML r d s).dec.Scoped base rest p0 :=
  Scoped_tokenLoop _ PICNonVisualPicProperties_body_reach base rest p0
        (fun tt r d h1 h2 => PICNonVisualPicProperties_body_scoped tt r d base rest p0 h1 h2) _ _ _ (Nat.lt_add_one _) hs

theorem ABlip_body_scoped (tt : StartElement) (r : ABlip) (d : Decoder) (base : List Stack)
    (rest p0 : List Token) (hs : d.Scoped base rest p0)
    (hopen : ∃ n below, d.stk = .stkStart n :: below) :
    (ABlip.body tt r d).dec.Scoped base rest p0 := by
  unfold ABlip.body
  by_cases h0 : tt.Name.Local = "alphaModFix"
  · rw [if_pos h0]
    (try dsimp only)
    repeat' split
    all_goals first | exact hs
  rw [if_neg h0]
  exact hs

theorem ABlip_UnmarshalXML_scoped (base : List Stack) (rest p0 : List Token) (r : ABlip)
    (d : Decoder) (s : StartElement) (hs : d.Scoped base rest p0) :
    (ABlip.UnmarshalXML r d s).dec.Scoped base rest p0 :=
  Scoped_tokenLoop _ ABlip_body_reach base rest p0
        (fun tt r d h1 h2 => ABlip_body_scoped tt r d base rest p0 h1 h2) _ _ _ (Nat.lt_add_one _) hs

theorem PICBlipFill_body_scoped (tt : StartElement) (r : PICBlipFill) (d : Decoder) (base : List Stack)
    (rest p0 : List Token) (hs : d.Scoped base rest p0)
    (hopen : ∃ n below, d.stk = .stkStart n :: below) :
    (PICBlipFill.body tt r d).dec.Scoped base rest p0 := by
  unfold PICBlipFill.body
  by_cases h0 : tt.Name.Local = "blip"
  · rw [if_pos h0]
    (try dsimp only)
    repeat' split
    all_goals first | exact hs | exact Scoped_DecodeElement _ _ ABlip_UnmarshalXML_scoped _ _ _ _ _ _ hs hopen | exact Scoped_DecodeElementAStretch _ _ _ hs
  rw [if_neg h0]
  by_cases h1 : tt.Name.Local = "stretch"
  · rw [if_pos h1]
    (try dsimp only)
    repeat' split
    all_goals first | exact hs | exact Scoped_DecodeElement _ _ ABlip_UnmarshalXML_scoped _ _ _ _ _ _ hs hopen | exact Scoped_DecodeElementAStretch _ _ _ hs
  rw [if_neg h1]
  exact hs

theorem PICBlipFill_UnmarshalXML_scoped (base : List Stack) (rest p0 : List Token) (r : PICBlipFill)
    (d : Decoder) (s : StartElement) (hs : d.Scoped base rest p0) :
    (PICBlipFill.UnmarshalXML r d s).dec.Scoped base rest p0 :=
  Scoped_tokenLoop _ PICBlipFill_body_reach base rest p0
        (fun tt r d h1 h2 => PICBlipFill_body_scoped tt r d base rest p0 h1 h2) _ _ _ (Nat.lt_add_one _) hs

theorem AXfrm_body_scoped (tt : StartElement) (r : AXfrm) (d : Decoder) (base : List Stack)
    (rest p0 : List Token) (hs : d.Scoped base rest p0)
    (hopen : ∃ n below, d.stk = .stkStart n :: below) :
    (AXfrm.body tt r d).dec.Scoped base rest p0 := by
  unfold AXfrm.body
  by_cases h0 : tt.Name.Local = "off"
  · rw [if_pos h0]
    (try dsimp only)
    repeat' split
    all_goals first | exact hs
  rw [if_neg h0]
  by_cases h1 : tt.Name.Local = "ext"
  · rw [if_pos h1]
    (try dsimp only)
    repeat' split
    all_goals first | exact hs
  rw [if_neg h1]
  exact hs

theorem AXfrm_UnmarshalXML_scoped (base : List Stack) (rest p0 : List Token) (r : AXfrm)
    (d : Decoder) (s : StartElement) (hs : d.Scoped base rest p0) :
    (AXfrm.UnmarshalXML r d s).dec.Scoped base rest p0 := by
  unfold AXfrm.UnmarshalXML
  split
  · exact hs
  · exact Scoped_tokenLoop _ AXfrm_body_reach base rest p0
        (fun tt r d h1 h2 => AXfrm_body_scoped tt r d base rest p0 h1 h2) _ _ _ (Nat.lt_add_one _) hs

theorem PICSpPr_body_scoped (tt : StartElement) (r : PICSpPr) (d : Decoder) (base : List Stack)
    (rest p0 : List Token) (hs : d.Scoped base rest p0)
    (hopen : ∃ n below, d.stk = .stkStart n :: below) :
    (PICSpPr.body tt r d).dec.Scoped base rest p0 := by
  unfold PICSpPr.body
  by_cases h0 : tt.Name.Local = "xfrm"
  · rw [if_pos h0]
    (try dsimp only)
    repeat' split
    all_goals first | exact hs | exact Scoped_DecodeElement _ _ AXfrm_UnmarshalXML_scoped _ _ _ _ _ _ hs hopen | exact Scoped_DecodeElementAPrstGeom _ _ _ hs
  rw [if_neg h0]
  by_cases h1 : tt.Name.Local = "prstGeom"
  · rw [if_pos h1]
    (try dsimp only)
    repeat' split
    all_goals first | exact hs | exact Scoped_DecodeElement _ _ AXfrm_UnmarshalXML_scoped _ _ _ _ _ _ hs hopen | exact Scoped_DecodeElementAPrstGeom _ _ _ hs
  rw [if_neg h1]
  exact hs

theorem PICSpPr_UnmarshalXML_scoped (base : List Stack) (rest p0 : List Token) (r : PICSpPr)
    (d : Decoder) (s : StartElement) (hs : d.Scoped base rest p0) :
    (PICSpPr.UnmarshalXML r d s).dec.Scoped base rest p0 :=
  Scoped_tokenLoop _ PICSpPr_body_reach base rest p0
        (fun tt r d h1 h2 => PICSpPr_body_scoped tt r d base rest p0 h1 h2) _ _ _ (Nat.lt_add_one _) hs

theorem PICPic_body_scoped (tt : StartElement) (r : PICPic) (d : Decoder) (base : List Stack)
    (rest p0 : List Token) (hs : d.Scoped base rest p0)
    (hopen : ∃ n below, d.stk = .stkStart n :: below) :
    (PICPic.body tt r d).dec.Scoped base rest p0 := by
  unfold PICPic.body
  by_cases h0 : tt.Name.Local = "nvPicPr"
  · rw [if_pos h0]
    (try dsimp only)
    repeat' split
    all_goals first | exact hs | exact Scoped_DecodeElement _ _ PICNonVisualPicProperties_UnmarshalXML_scoped _ _ _ _ _ _ hs hopen | exact Scoped_DecodeElement _ _ PICBlipFill_UnmarshalXML_scoped _ _ _ _ _ _ hs hopen | exact Scoped_DecodeElement _ _ PICSpPr_UnmarshalXML_scoped _ _ _ _ _ _ hs hopen
  rw [if_neg h0]
  by_cases h1 : tt.Name.Local = "blipFill"
  · rw [if_pos h1]
    (try dsimp only)
    repeat' split
    all_goals first | exact hs | exact Scoped_DecodeElement _ _ PICNonVisualPicProperties_UnmarshalXML_scoped _ _ _ _ _ _ hs hopen | exact Scoped_DecodeElement _ _ PICBlipFill_UnmarshalXML_scoped _ _ _ _ _ _ hs hopen | exact Scoped_DecodeElement _ _ PICSpPr_UnmarshalXML_scoped _ _ _ _ _ _ hs hopen
  rw [if_neg h1]
  by_cases h2 : tt.Name.Local = "spPr"
  · rw [if_pos h2]
    (try dsimp only)
    repeat' split
    all_goals first | exact hs | exact Scoped_DecodeElement _ _ PICNonVisualPicProperties_UnmarshalXML_scoped _ _ _ _ _ _ hs hopen | exact Scoped_DecodeElement _ _ PICBlipFill_UnmarshalXML_scoped _ _ _ _ _ _ hs hopen | exact Scoped_DecodeElement _ _ PICSpPr_UnmarshalXML_scoped _ _ _ _ _ _ hs hopen
  rw [if_neg h2]
  exact hs

theorem PICPic_UnmarshalXML_scoped (base : List Stack) (rest p0 : List Token) (r : PICPic)
    (d : Decoder) (s : StartElement) (hs : d.Scoped base rest p0) :
    (PICPic.UnmarshalXML r d s).dec.Scoped base rest p0 :=
  Scoped_tokenLoop _ PICPic_body_reach base rest p0
        (fun tt r d h1 h2 => PICPic_body_scoped tt r d base rest p0 h1 h2) _ _ _ (Nat.lt_add_one _) hs

theorem AGraphicData_body_scoped (tt : StartElement) (r : AGraphicData) (d : Decoder) (base : List Stack)
    (rest p0 : List Token) (hs : d.Scoped base rest p0)
    (hopen : ∃ n below, d.stk = .stkStart n :: below) :
    (AGraphicData.body tt r d).dec.Scoped base rest p0 := by
  unfold AGraphicData.body
  by_cases h0 : tt.Name.Local = "pic"
  · rw [if_pos h0]
    (try dsimp only)
    repeat' split
    all_goals first | exact hs | exact Scoped_DecodeElement _ _ PICPic_UnmarshalXML_scoped _ _ _ _ _ _ hs hopen
  rw [if_neg h0]
  exact hs

theorem AGraphicData_UnmarshalXML_scoped (base : List Stack) (rest p0 : List Token) (r : AGraphicData)
    (d : Decoder) (s : StartElement) (hs : d.Scoped base rest p0) :
    (AGraphicData.UnmarshalXML r d s).dec.Scoped base rest p0 :=
  Scoped_tokenLoop _ AGraphicData_body_reach base rest p0
        (fun tt r d h1 h2 => AGraphicData_body_scoped tt r d base rest p0 h1 h2) _ _ _ (Nat.lt_add_one _) hs

theorem AGraphic_body_scoped (tt : StartElement) (r : AGraphic) (d : Decoder) (base : List Stack)
    (rest p0 : List Token) (hs : d.Scoped base rest p0)
    (hopen : ∃ n below, d.stk = .stkStart n :: below) :
    (AGraphic.body tt r d).dec.Scoped base rest p0 := by
  unfold AGraphic.body
  by_cases h0 : tt.Name.Local = "graphicData"
  · rw [if_pos h0]
    (try dsimp only)
    repeat' split
    all_goals first | exact hs | exact Scoped_DecodeElement _ _ AGraphicData_UnmarshalXML_scoped _ _ _ _ _ _ hs hopen
  rw [if_neg h0]
  exact hs

theorem AGraphic_UnmarshalXML_scoped (base : List Stack) (rest p0 : List Token) (r : AGraphic)
    (d : Decoder) (s : StartElement) (hs : d.Scoped base rest p0) :
    (AGraphic.UnmarshalXML r d s).dec.Scoped base rest p0 :=
  Scoped_tokenLoop _ AGraphic_body_reach base rest p0
        (fun tt r d h1 h2 => AGraphic_body_scoped tt r d base rest p0 h1 h2) _ _ _ (Nat.lt_add_one _) hs

theorem WPPositionH_body_scoped (tt : StartElement) (r : WPPositionH) (d : Decoder) (base : List Stack)
    (rest p0 : List Token) (hs : d.Scoped base rest p0)
    (hopen : ∃ n below, d.stk = .stkStart n :: below) :
    (WPPositionH.body tt r d).dec.Scoped base rest p0 := by
  unfold WPPositionH.body
  by_cases h0 : tt.Name.Local = "posOffset"
  · rw [if_pos h0]
    (try dsimp only)
    repeat' split
    all_goals first | exact hs | exact Scoped_DecodeElementInt64 _ _ _ hs
  rw [if_neg h0]
  exact hs

theorem WPPositionH_UnmarshalXML_scoped (base : List Stack) (rest p0 : List Token) (r : WPPositionH)
    (d : Decoder) (s : StartElement) (hs : d.Scoped base rest p0) :
    (WPPositionH.UnmarshalXML r d s).dec.Scoped base rest p0 :=
  Scoped_tokenLoop _ WPPositionH_body_reach base rest p0
        (fun tt r d h1 h2 => WPPositionH_body_scoped tt r d base rest p0 h1 h2) _ _ _ (Nat.lt_add_one _) hs

theorem WPPositionV_body_scoped (tt : StartElement) (r : WPPositionV) (d : Decoder) (base : List Stack)
    (rest p0 : List Token) (hs : d.Scoped base rest p0)
    (hopen : ∃ n below, d.stk = .stkStart n :: below) :
    (WPPositionV.body tt r d).dec.Scoped base rest p0 := by
  unfold WPPositionV.body
  by_cases h0 : tt.Name.Local = "posOffset"
  · rw [if_pos h0]
    (try dsimp only)
    repeat' split
    all_goals first | exact hs | exact Scoped_DecodeElementInt64 _ _ _ hs
  rw [if_neg h0]
  exact hs

theorem WPPositionV_UnmarshalXML_scoped (base : List Stack) (rest p0 : List Token) (r : WPPositionV)
    (d : Decoder) (s : StartElement) (hs : d.Scoped base rest p0) :
    (WPPositionV.UnmarshalXML r d s).dec.Scoped base rest p0 :=
  Scoped_tokenLoop _ WPPositionV_body_reach base rest p0
        (fun tt r d h1 h2 => WPPositionV_body_scoped tt r d base rest p0 h1 h2) _ _ _ (Nat.lt_add_one _) hs

theorem WPInline_body_scoped (tt : StartElement) (r : WPInline) (d : Decoder) (base : List Stack)
    (rest p0 : List Token) (hs : d.Scoped base rest p0)
    (hopen : ∃ n below, d.stk = .stkStart n :: below) :
    (WPInline.body tt r d).dec.Scoped base rest p0 := by
  unfold WPInline.body
  by_cases h0 : tt.Name.Local = "extent"
  · rw [if_pos h0]
    (try dsimp only)
    repeat' split
    all_goals first | exact hs | exact Scoped_DecodeElement _ _ WPDocPr_UnmarshalXML_scoped _ _ _ _ _ _ hs hopen | exact Scoped_DecodeElement _ _ WPCNvGraphicFramePr_UnmarshalXML_scoped _ _ _ _ _ _ hs hopen | exact Scoped_DecodeElement _ _ AGraphic_UnmarshalXML_scoped _ _ _ _ _ _ hs hopen
  rw [if_neg h0]
  by_cases h1 : tt.Name.Local = "effectExtent"
  · rw [if_pos h1]
    (try dsimp only)
    repeat' split
    all_goals first | exact hs | exact Scoped_DecodeElement _ _ WPDocPr_UnmarshalXML_scoped _ _ _ _ _ _ hs hopen | exact Scoped_DecodeElement _ _ WPCNvGraphicFramePr_UnmarshalXML_scoped _ _ _ _ _ _ hs hopen | exact Scoped_DecodeElement _ _ AGraphic_UnmarshalXML_scoped _ _ _ _ _ _ hs hopen
  rw [if_neg h1]
  by_cases h2 : tt.Name.Local = "docPr"
  · rw [if_pos h2]
    (try dsimp only)
    repeat' split
    all_goals first | exact hs | exact Scoped_DecodeElement _ _ WPDocPr_UnmarshalXML_scoped _ _ _ _ _ _ hs hopen | exact Scoped_DecodeElement _ _ WPCNvGraphicFramePr_UnmarshalXML_scoped _ _ _ _ _ _ hs hopen | exact Scoped_DecodeElement _ _ AGraphic_UnmarshalXML_scoped _ _ _ _ _ _ hs hopen
  rw [if_neg h2]
  by_cases h3 : tt.Name.Local = "cNvGraphicFramePr"
  · rw [if_pos h3]
    (try dsimp only)
    repeat' split
    all_goals first | exact hs | exact Scoped_DecodeElement _ _ WPDocPr_UnmarshalXML_scoped _ _ _ _ _ _ hs hopen | exact Scoped_DecodeElement _ _ WPCNvGraphicFramePr_UnmarshalXML_scoped _ _ _ _ _ _ hs hopen | exact Scoped_DecodeElement _ _ AGraphic_UnmarshalXML_scoped _ _ _ _ _ _ hs hopen
  rw [if_neg h3]
  by_cases h4 : tt.Name.Local = "graphic"
  · rw [if_pos h4]
    (try dsimp only)
    repeat' split
    all_goals first | exact hs | exact Scoped_DecodeElement _ _ WPDocPr_UnmarshalXML_scoped _ _ _ _ _ _ hs hopen | exact Scoped_DecodeElement _ _ WPCNvGraphicFramePr_UnmarshalXML_scoped _ _ _ _ _ _ hs hopen | exact Scoped_DecodeElement _ _ AGraphic_UnmarshalXML_scoped _ _ _ _ _ _ hs hopen
  rw [if_neg h4]
  exact hs

theorem WPInline_UnmarshalXML_scoped (base : List Stack) (rest p0 : List Token) (r : WPInline)
    (d : Decoder) (s : StartElement) (hs : d.Scoped base rest p0) :
    (WPInline.UnmarshalXML r d s).dec.Scoped base rest p0 := by
  unfold WPInline.UnmarshalXML
  split
  · exact hs
  · exact Scoped_tokenLoop _ WPInline_body_reach base rest p0
        (fun tt r d h1 h2 => WPInline_body_scoped tt r d base rest p0 h1 h2) _ _ _ (Nat.lt_add_one _) hs

theorem WPAnchor_body_scoped (tt : StartElement) (r : WPAnchor) (d : Decoder) (base : List Stack)
    (rest p0 : List Token) (hs : d.Scoped base rest p0)
    (hopen : ∃ n below, d.stk = .stkStart n :: below) :
    (WPAnchor.body tt r d).dec.Scoped base rest p0 := by
  unfold WPAnchor.body
  by_cases h0 : tt.Name.Local = "simplePos"
  · rw [if_pos h0]
    (try dsimp only)
    repeat' split
    all_goals first | exact hs | exact Scoped_DecodeElement _ _ WPPositionH_UnmarshalXML_scoped _ _ _ _ _ _ hs hopen | exact Scoped_DecodeElement _ _ WPPositionV_UnmarshalXML_scoped _ _ _ _ _ _ hs hopen | exact Scoped_DecodeElement _ _ WPExtent_UnmarshalXML_scoped _ _ _ _ _ _ hs hopen | exact Scoped_DecodeElement _ _ WPEffectExtent_UnmarshalXML_scoped _ _ _ _ _ _ hs hopen | exact Scoped_DecodeElement _ _ WPDocPr_UnmarshalXML_scoped _ _ _ _ _ _ hs hopen | exact Scoped_DecodeElement _ _ WPCNvGraphicFramePr_UnmarshalXML_scoped _ _ _ _ _ _ hs hopen | exact Scoped_DecodeElement _ _ AGraphic_UnmarshalXML_scoped _ _ _ _ _ _ hs hopen
  rw [if_neg h0]
  by_cases h1 : tt.Name.Local = "positionH"
  · rw [if_pos h1]
    (try dsimp only)
    repeat' split
    all_goals first | exact hs | exact Scoped_DecodeElement _ _ WPPositionH_UnmarshalXML_scoped _ _ _ _ _ _ hs hopen | exact Scoped_DecodeElement _ _ WPPositionV_UnmarshalXML_scoped _ _ _ _ _ _ hs hopen | exact Scoped_DecodeElement _ _ WPExtent_UnmarshalXML_scoped _ _ _ _ _ _ hs hopen | exact Scoped_DecodeElement _ _ WPEffectExtent_UnmarshalXML_scoped _ _ _ _ _ _ hs hopen | exact Scoped_DecodeElement _ _ WPDocPr_UnmarshalXML_scoped _ _ _ _ _ _ hs hopen | exact Scoped_DecodeElement _ _ WPCNvGraphicFramePr_UnmarshalXML_scoped _ _ _ _ _ _ hs hopen | exact Scoped_DecodeElement _ _ AGraphic_UnmarshalXML_scoped _ _ _ _ _ _ hs hopen
  rw [if_neg h1]
  by_cases h2 : tt.Name.Local = "positionV"
  · rw [if_pos h2]
    (try dsimp only)
    repeat' split
    all_goals first | exact hs | exact Scoped_DecodeElement _ _ WPPositionH_UnmarshalXML_scoped _ _ _ _ _ _ hs hopen | exact Scoped_DecodeElement _ _ WPPositionV_UnmarshalXML_scoped _ _ _ _ _ _ hs hopen | exact Scoped_DecodeElement _ _ WPExtent_UnmarshalXML_scoped _ _ _ _ _ _ hs hopen | exact Scoped_DecodeElement _ _ WPEffectExtent_UnmarshalXML_scoped _ _ _ _ _ _ hs hopen | exact Scoped_DecodeElement _ _ WPDocPr_UnmarshalXML_scoped _ _ _ _ _ _ hs hopen | exact Scoped_DecodeElement _ _ WPCNvGraphicFramePr_UnmarshalXML_scoped _ _ _ _ _ _ hs hopen | exact Scoped_DecodeElement _ _ AGraphic_UnmarshalXML_scoped _ _ _ _ _ _ hs hopen
  rw [if_neg h2]
  by_cases h3 : tt.Name.Local = "extent"
  · rw [if_pos h3]
    (try dsimp only)
    repeat' split
    all_goals first | exact hs | exact Scoped_DecodeElement _ _ WPPositionH_UnmarshalXML_scoped _ _ _ _ _ _ hs hopen | exact Scoped_DecodeElement _ _ WPPositionV_UnmarshalXML_scoped _ _ _ _ _ _ hs hopen | exact Scoped_DecodeElement _ _ WPExtent_UnmarshalXML_scoped _ _ _ _ _ _ hs hopen | exact Scoped_DecodeElement _ _ WPEffectExtent_UnmarshalXML_scoped _ _ _ _ _ _ hs hopen | exact Scoped_DecodeElement _ _ WPDocPr_UnmarshalXML_scoped _ _ _ _ _ _ hs hopen | exact Scoped_DecodeElement _ _ WPCNvGraphicFramePr_UnmarshalXML_scoped _ _ _ _ _ _ hs hopen | exact Scoped_DecodeElement _ _ AGraphic_UnmarshalXML_scoped _ _ _ _ _ _ hs hopen
  rw [if_neg h3]
  by_cases h4 : tt.Name.Local = "effectExtent"
  · rw [if_pos h4]
    (try dsimp only)
    repeat' split
    all_goals first | exact hs | exact Scoped_DecodeElement _ _ WPPositionH_UnmarshalXML_scoped _ _ _ _ _ _ hs hopen | exact Scoped_DecodeElement _ _ WPPositionV_UnmarshalXML_scoped _ _ _ _ _ _ hs hopen | exact Scoped_DecodeElement _ _ WPExtent_UnmarshalXML_scoped _ _ _ _ _ _ hs hopen | exact Scoped_DecodeElement _ _ WPEffectExtent_UnmarshalXML_scoped _ _ _ _ _ _ hs hopen | exact Scoped_DecodeElement _ _ WPDocPr_UnmarshalXML_scoped _ _ _ _ _ _ hs hopen | exact Scoped_DecodeElement _ _ WPCNvGraphicFramePr_UnmarshalXML_scoped _ _ _ _ _ _ hs hopen | exact Scoped_DecodeElement _ _ AGraphic_UnmarshalXML_scoped _ _ _ _ _ _ hs hopen
  rw [if_neg h4]
  by_cases h5 : tt.Name.Local = "wrapNone"
  · rw [if_pos h5]
    (try dsimp only)
    repeat' split
    all_goals first | exact hs | exact Scoped_DecodeElement _ _ WPPositionH_UnmarshalXML_scoped _ _ _ _ _ _ hs hopen | exact Scoped_DecodeElement _ _ WPPositionV_UnmarshalXML_scoped _ _ _ _ _ _ hs hopen | exact Scoped_DecodeElement _ _ WPExtent_UnmarshalXML_scoped _ _ _ _ _ _ hs hopen | exact Scoped_DecodeElement _ _ WPEffectExtent_UnmarshalXML_scoped _ _ _ _ _ _ hs hopen | exact Scoped_DecodeElement _ _ WPDocPr_UnmarshalXML_scoped _ _ _ _ _ _ hs hopen | exact Scoped_DecodeElement _ _ WPCNvGraphicFramePr_UnmarshalXML_scoped _ _ _ _ _ _ hs hopen | exact Scoped_DecodeElement _ _ AGraphic_UnmarshalXML_scoped _ _ _ _ _ _ hs hopen
  rw [if_neg h5]
  by_cases h6 : tt.Name.Local = "wrapSquare"
  · rw [if_pos h6]
    (try dsimp only)
    repeat' split
    all_goals first | exact hs | exact Scoped_DecodeElement _ _ WPPositionH_UnmarshalXML_scoped _ _ _ _ _ _ hs hopen | exact Scoped_DecodeElement _ _ WPPositionV_UnmarshalXML_scoped _ _ _ _ _ _ hs hopen | exact Scoped_DecodeElement _ _ WPExtent_UnmarshalXML_scoped _ _ _ _ _ _ hs hopen | exact Scoped_DecodeElement _ _ WPEffectExtent_UnmarshalXML_scoped _ _ _ _ _ _ hs hopen | exact Scoped_DecodeElement _ _ WPDocPr_UnmarshalXML_scoped _ _ _ _ _ _ hs hopen | exact Scoped_DecodeElement _ _ WPCNvGraphicFramePr_UnmarshalXML_scoped _ _ _ _ _ _ hs hopen | exact Scoped_DecodeElement _ _ AGraphic_UnmarshalXML_scoped _ _ _ _ _ _ hs hopen
  rw [if_neg h6]
  by_cases h7 : tt.Name.Local = "docPr"
  · rw [if_pos h7]
    (try dsimp only)
    repeat' split
    all_goals first | exact hs | exact Scoped_DecodeElement _ _ WPPositionH_UnmarshalXML_scoped _ _ _ _ _ _ hs hopen | exact Scoped_DecodeElement _ _ WPPositionV_UnmarshalXML_scoped _ _ _ _ _ _ hs hopen | exact Scoped_DecodeElement _ _ WPExtent_UnmarshalXML_scoped _ _ _ _ _ _ hs hopen | exact Scoped_DecodeElement _ _ WPEffectExtent_UnmarshalXML_scoped _ _ _ _ _ _ hs hopen | exact Scoped_DecodeElement _ _ WPDocPr_UnmarshalXML_scoped _ _ _ _ _ _ hs hopen | exact Scoped_DecodeElement _ _ WPCNvGraphicFramePr_UnmarshalXML_scoped _ _ _ _ _ _ hs hopen | exact Scoped_DecodeElement _ _ AGraphic_UnmarshalXML_scoped _ _ _ _ _ _ hs hopen
  rw [if_neg h7]
  by_cases h8 : tt.Name.Local = "cNvGraphicFramePr"
  · rw [if_pos h8]
    (try dsimp only)
    repeat' split
    all_goals first | exact hs | exact Scoped_DecodeElement _ _ WPPositionH_UnmarshalXML_scoped _ _ _ _ _ _ hs hopen | exact Scoped_DecodeElement _ _ WPPositionV_UnmarshalXML_scoped _ _ _ _ _ _ hs hopen | exact Scoped_DecodeElement _ _ WPExtent_UnmarshalXML_scoped _ _ _ _ _ _ hs hopen | exact Scoped_DecodeElement _ _ WPEffectExtent_UnmarshalXML_scoped _ _ _ _ _ _ hs hopen | exact Scoped_DecodeElement _ _ WPDocPr_UnmarshalXML_scoped _ _ _ _ _ _ hs hopen | exact Scoped_DecodeElement _ _ WPCNvGraphicFramePr_UnmarshalXML_scoped _ _ _ _ _ _ hs hopen | exact Scoped_DecodeElement _ _ AGraphic_UnmarshalXML_scoped _ _ _ _ _ _ hs hopen
  rw [if_neg h8]
  by_cases h9 : tt.Name.Local = "graphic"
  · rw [if_pos h9]
    (try dsimp only)
    repeat' split
    all_goals first | exact hs | exact Scoped_DecodeElement _ _ WPPositionH_UnmarshalXML_scoped _ _ _ _ _ _ hs hopen | exact Scoped_DecodeElement _ _ WPPositionV_UnmarshalXML_scoped _ _ _ _ _ _ hs hopen | exact Scoped_DecodeElement _ _ WPExtent_UnmarshalXML_scoped _ _ _ _ _ _ hs hopen | exact Scoped_DecodeElement _ _ WPEffectExtent_UnmarshalXML_scoped _ _ _ _ _ _ hs hopen | exact Scoped_DecodeElement _ _ WPDocPr_UnmarshalXML_scoped _ _ _ _ _ _ hs hopen | exact Scoped_DecodeElement _ _ WPCNvGraphicFramePr_UnmarshalXML_scoped _ _ _ _ _ _ hs hopen | exact Scoped_DecodeElement _ _ AGraphic_UnmarshalXML_scoped _ _ _ _ _ _ hs hopen
  rw [if_neg h9]
  exact hs

theorem WPAnchor_UnmarshalXML_scoped (base : List Stack) (rest p0 : List Token) (r : WPAnchor)
    (d : Decoder) (s : StartElement) (hs : d.Scoped base rest p0) :
    (WPAnchor.UnmarshalXML r d s).dec.Scoped base rest p0 := by
  unfold WPAnchor.UnmarshalXML
  split
  · exact hs
  · exact Scoped_tokenLoop _ WPAnchor_body_reach base rest p0
        (fun tt r d h1 h2 => WPAnchor_body_scoped tt r d base rest p0 h1 h2) _ _ _ (Nat.lt_add_one _) hs

/-- A start-element the loop reads is one of the pending tokens, and the
decoder the body runs on comes after the one the loop started on. -/
theorem tokenLoop_reads_mem {α : Type} (body : StartElement → α → Decoder → Step α)
    (hreach : ∀ (tt : StartElement) (r : α) (d : Decoder), d.Reach (body tt r d).dec)
    (r : α) (d : Decoder) (tt : StartElement) (r1 : α) (d1 : Decoder)
    (h : tokenLoop.reads body r d tt r1 d1) :
    Token.StartElement tt ∈ d.toks ∧ d.Reach d1 := by
  obtain ⟨k, d0, hk, hT⟩ := h
  have h1 := tokenLoop_after_reach body hreach k r d r1 d0 hk
  have h2 := Token_reach d0
  rw [hT] at h2
  refine ⟨h1.1.subset ?_, h1.trans h2⟩
  rw [(Token_ok hT).1]
  exact List.mem_cons_self _ _

/-- Inside a scope the loop stays inside the scope round after round. -/
theorem tokenLoop_after_scoped {α : Type} (body : StartElement → α → Decoder → Step α)
    (base : List Stack) (rest p0 : List Token)
    (hbody : ∀ (tt : StartElement) (r : α) (d : Decoder), d.Scoped base rest p0 →
      (∃ n below, d.stk = .stkStart n :: below) → (body tt r d).dec.Scoped base rest p0) :
    ∀ (k : Nat) (r : α) (d : Decoder) (r1 : α) (d1 : Decoder), d.Scoped base rest p0 →
      tokenLoop.after body k r d = some (r1, d1) → d1.Scoped base rest p0 := by
  intro k
  induction k with
  | zero =>
    intro r d r1 d1 hs h
    simp only [tokenLoop.after, Option.some.injEq, Prod.mk.injEq] at h
    obtain ⟨rfl, rfl⟩ := h
    exact hs
  | succ k ih =>
    intro r d r1 d1 hs h
    rw [tokenLoop.after] at h
    rcases hT : d.Token with ⟨d2, e | t⟩
    · rw [hT] at h; simp at h
    · rw [hT] at h
      have hs2 := (Scoped_token_ok hs hT).1
      cases t with
      | StartElement tt =>
        simp only [] at h
        have hb2 := hbody tt r d2 hs2 ⟨tt.Name, d.stk, (Token_ok hT).2.2.2⟩
        rcases hb : body tt r d2 with ⟨r3, d3⟩ | ⟨r3, d3, e⟩
        · rw [hb] at h hb2
          exact ih r3 d3 r1 d1 hb2 h
        · rw [hb] at h; simp at h
      | EndElement n => exact ih r d2 r1 d1 hs2 h
      | CharData s => exact ih r d2 r1 d1 hs2 h
      | Comment s => exact ih r d2 r1 d1 hs2 h
      | ProcInst a b => exact ih r d2 r1 d1 hs2 h
      | Directive s => exact ih r d2 r1 d1 hs2 h

/-- Inside a scope a start-element the loop reads is a token of the scope, and
the body runs on a decoder inside the scope with that element open. -/
theorem tokenLoop_reads_scoped {α : Type} (body : StartElement → α → Decoder → Step α)
    (base : List Stack) (rest p0 : List Token)
    (hbody : ∀ (tt : StartElement) (r : α) (d : Decoder), d.Scoped base rest p0 →
      (∃ n below, d.stk = .stkStart n :: below) → (body tt r d).dec.Scoped base rest p0)
    (r : α) (d : Decoder) (hs : d.Scoped base rest p0)
    (tt : StartElement) (r1 : α) (d1 : Decoder) (h : tokenLoop.reads body r d tt r1 d1) :
    Token.StartElement tt ∈ p0 ∧ d1.Scoped base rest p0 ∧
      ∃ n below, d1.stk = .stkStart n :: below := by
  obtain ⟨k, d0, hk, hT⟩ := h
  have hs0 := tokenLoop_after_scoped body base rest p0 hbody k r d r1 d0 hs hk
  have h2 := Scoped_token_ok hs0 hT
  exact ⟨h2.2, h2.1, tt.Name, d0.stk, (Token_ok hT).2.2.2⟩

/-- Inside a scope the loop returns no error but one its body returns for a
start-element it reads. -/
theorem tokenLoop_scoped_err {α : Type} (body : StartElement → α → Decoder → Step α)
    (hreach : ∀ (tt : StartElement) (r : α) (d : Decoder), d.Reach (body tt r d).dec)
    (base : List Stack) (rest p0 : List Token)
    (hbody : ∀ (tt : StartElement) (r : α) (d : Decoder), d.Scoped base rest p0 →
      (∃ n below, d.stk = .stkStart n :: below) → (body tt r d).dec.Scoped base rest p0)
    (r : α) (d : Decoder) (hs : d.Scoped base rest p0) (e : Error)
    (he : (tokenLoop body (d.toks.length + 1) r d).err = some e) :
    ∃ tt r1 d1 r2 d2, tokenLoop.reads body r d tt r1 d1 ∧ body tt r1 d1 = .ret r2 d2 e := by
  refine tokenLoop_induct body
    (fun r1 d1 => (∃ k, tokenLoop.after body k r d = some (r1, d1)) ∧ d1.Scoped base rest p0)
    (fun o => o.err = some e →
      ∃ tt r1 d1 r2 d2, tokenLoop.reads body r d tt r1 d1 ∧ body tt r1 d1 = .ret r2 d2 e)
    (body_shrink hreach) ?_ ?_ ?_ ?_ ?_ _ r d (Nat.lt_add_one _) ⟨⟨0, rfl⟩, hs⟩ he
  · intro r1 d1 d2 _ _ h; simp at h
  · intro r1 d1 d2 e2 hP hT hne _
    exact absurd (Scoped_token_error hP.2 hT).1 hne
  · intro r1 d1 d2 t hP hT ht
    obtain ⟨⟨k, hk⟩, hs1⟩ := hP
    refine ⟨⟨k + 1, ?_⟩, (Scoped_token_ok hs1 hT).1⟩
    rw [tokenLoop_after_succ body k r d r1 d1 hk]
    cases t with
    | StartElement tt => exact absurd rfl (ht tt)
    | _ => simp only [tokenLoop.after, hT]
  · intro r1 d1 d2 tt r2 d3 hP hT hb
    obtain ⟨⟨k, hk⟩, hs1⟩ := hP
    have hb2 := hbody tt r1 d2 (Scoped_token_ok hs1 hT).1 ⟨tt.Name, d1.stk, (Token_ok hT).2.2.2⟩
    rw [hb] at hb2
    refine ⟨⟨k + 1, ?_⟩, hb2⟩
    rw [tokenLoop_after_succ body k r d r1 d1 hk]
    simp only [tokenLoop.after, hT, hb]
  · intro r1 d1 d2 tt r2 d3 e2 hP hT hb h
    obtain ⟨⟨k, hk⟩, -⟩ := hP
    simp only [Option.some.injEq] at h
    subst h
    exact ⟨tt, r1, d2, r2, d3, ⟨k, d1, hk, hT⟩, hb⟩

/-- A property of the record that the body keeps at every start-element the
loop reads holds in the end. -/
theorem tokenLoop_reads_inv {α : Type} (body : StartElement → α → Decoder → Step α)
    (hreach : ∀ (tt : StartElement) (r : α) (d : Decoder), d.Reach (body tt r d).dec)
    (J : α → Prop) (r : α) (d : Decoder)
    (hstep : ∀ (tt : StartElement) (r1 : α) (d1 : Decoder), tokenLoop.reads body r d tt r1 d1 →
      J r1 → J (body tt r1 d1).val)
    (h0 : J r) : J (tokenLoop body (d.toks.length + 1) r d).val := by
  refine tokenLoop_induct body
    (fun r1 d1 => (∃ k, tokenLoop.after body k r d = some (r1, d1)) ∧ J r1)
    (fun o => J o.val) (body_shrink hreach) ?_ ?_ ?_ ?_ ?_ _ r d (Nat.lt_add_one _)
    ⟨⟨0, rfl⟩, h0⟩
  · intro r1 d1 d2 hP _; exact hP.2
  · intro r1 d1 d2 e hP _ _; exact hP.2
  · intro r1 d1 d2 t hP hT ht
    obtain ⟨⟨k, hk⟩, hJ⟩ := hP
    refine ⟨⟨k + 1, ?_⟩, hJ⟩
    rw [tokenLoop_after_succ body k r d r1 d1 hk]
    cases t with
    | StartElement tt => exact absurd rfl (ht tt)
    | _ => simp only [tokenLoop.after, hT]
  · intro r1 d1 d2 tt r2 d3 hP hT hb
    obtain ⟨⟨k, hk⟩, hJ⟩ := hP
    have h := hstep tt r1 d2 ⟨k, d1, hk, hT⟩ hJ
    rw [hb] at h
    refine ⟨⟨k + 1, ?_⟩, h⟩
    rw [tokenLoop_after_succ body k r d r1 d1 hk]
    simp only [tokenLoop.after, hT, hb]
  · intro r1 d1 d2 tt r2 d3 e hP hT hb
    obtain ⟨⟨k, hk⟩, hJ⟩ := hP
    have h := hstep tt r1 d2 ⟨k, d1, hk, hT⟩ hJ
    rw [hb] at h
    exact h

/-- A property of the record that the body brings about at a start-element the
loop reads, and keeps at every start-element among the tokens pending behind
it, holds in the end. -/
theorem tokenLoop_reads_last {α : Type} (body : StartElement → α → Decoder → Step α)
    (hreach : ∀ (tt : StartElement) (r : α) (d : Decoder), d.Reach (body tt r d).dec)
    (I : α → Prop) (r : α) (d : Decoder) (tt : StartElement) (r1 : α) (d1 : Decoder)
    (h : tokenLoop.reads body r d tt r1 d1) (hsets : I (body tt r1 d1).val)
    (hkeeps : ∀ (t2 : StartElement) (r2 : α) (d2 : Decoder), Token.StartElement t2 ∈ d1.toks →
      I r2 → I (body t2 r2 d2).val) :
    I (tokenLoop body (d.toks.length + 1) r d).val := by
  rcases hb : body tt r1 d1 with ⟨r2, d2⟩ | ⟨r2, d2, e⟩
  · rw [tokenLoop_reads_next body hreach r d tt r1 d1 r2 d2 h hb]
    rw [hb] at hsets
    have hR := hreach tt r1 d1
    rw [hb] at hR
    refine tokenLoop_reads_inv body hreach I r2 d2 (fun t2 r3 d3 h3 hI => ?_) hsets
    exact hkeeps t2 r3 d3 (hR.1.subset (tokenLoop_reads_mem body hreach r2 d2 t2 r3 d3 h3).1) hI
  · rw [tokenLoop_reads_ret body hreach r d tt r1 d1 r2 d2 e h hb]
    rw [hb] at hsets
    exact hsets

/-- The decoder that `DecodeElement` hands to `UnmarshalXML` for an element
with well-nested content is inside the scope of that element. -/
theorem Scoped_element (name : Name) (content rest : List Token) (err : Option Error)
    (base : List Stack) (h : inert (fun _ => false) [] content = true) :
    Decoder.Scoped base rest (content ++ [.EndElement name])
      ⟨content ++ .EndElement name :: rest, err, .stkStart name :: .stkEOF :: base⟩ := by
  refine ⟨[.stkStart name], content ++ [.EndElement name], rfl, by simp, List.suffix_refl _, ?_⟩
  have := inert_append (fun _ => false) content [] [name] [.EndElement name] h (by simp [inert])
  simpa [openNames] using this

theorem start_mem_content {tt : StartElement} {content : List Token} {name : Name}
    (h : Token.StartElement tt ∈ content ++ [.EndElement name]) :
    Token.StartElement tt ∈ content := by
  rcases List.mem_append.1 h with h | h
  · exact h
  · simp at h

/-- The field `WrapNone` of the record `WPAnchor.UnmarshalXML` leaves is set
exactly when the loop reads a start-element of local name `wrapNone`. -/
theorem WPAnchor_WrapNone_iff_reads (r : WPAnchor) (start : StartElement) (d : Decoder)
    (hattrs : ∀ a ∈ start.Attr, a.Name.Local ∈ WPAnchor.numericAttrs →
      ∃ n, IsInt64Literal a.Value n)
    (hnone : r.WrapNone = none) :
    (WPAnchor.UnmarshalXML r d start).val.WrapNone = some () ↔
      ∃ tt r1 d1, tokenLoop.reads WPAnchor.body
        (start.Attr.foldl (fun r a => (WPAnchor.attr a r).1) r) d tt r1 d1 ∧
        tt.Name.Local = "wrapNone" := by
  rw [WPAnchor_UnmarshalXML_loop start r d hattrs]
  have h0 : (start.Attr.foldl (fun r a => (WPAnchor.attr a r).1) r).WrapNone = none := by
    rw [foldl_frame _ (fun r : WPAnchor => r.WrapNone) WPAnchor_attr_WrapNone]; exact hnone
  constructor
  · intro h
    obtain ⟨tt, r1, d1, hr, ht⟩ := tokenLoop_changed_reads WPAnchor.body (fun r => r.WrapNone)
      (fun s => decide (s = "wrapNone")) WPAnchor_body_reach
      (fun tt r d ht => WPAnchor_body_WrapNone tt r d (by simpa using ht))
      (start.Attr.foldl (fun r a => (WPAnchor.attr a r).1) r) d
      (by intro hc; simp only [] at hc; rw [h, h0] at hc; simp at hc)
    exact ⟨tt, r1, d1, hr, by simpa using ht⟩
  · rintro ⟨tt, r1, d1, hr, ht⟩
    exact option_unit_eq_some _ (tokenLoop_reads_sets WPAnchor.body
      (fun r => r.WrapNone.isSome = true) "wrapNone" WPAnchor_body_reach
      WPAnchor_body_sets_WrapNone WPAnchor_body_keeps_WrapNone _ d tt r1 d1 hr ht)

/-- The field `WrapSquare` of the record `WPAnchor.UnmarshalXML` leaves is set
exactly when the loop reads a start-element of local name `wrapSquare`. -/
theorem WPAnchor_WrapSquare_iff_reads (r : WPAnchor) (start : StartElement) (d : Decoder)
    (hattrs : ∀ a ∈ start.Attr, a.Name.Local ∈ WPAnchor.numericAttrs →
      ∃ n, IsInt64Literal a.Value n)
    (hsq : r.WrapSquare = none) :
    (WPAnchor.UnmarshalXML r d start).val.WrapSquare ≠ none ↔
      ∃ tt r1 d1, tokenLoop.reads WPAnchor.body
        (start.Attr.foldl (fun r a => (WPAnchor.attr a r).1) r) d tt r1 d1 ∧
        tt.Name.Local = "wrapSquare" := by
  rw [WPAnchor_UnmarshalXML_loop start r d hattrs]
  have h0 : (start.Attr.foldl (fun r a => (WPAnchor.attr a r).1) r).WrapSquare = none := by
    rw [foldl_frame _ (fun r : WPAnchor => r.WrapSquare) WPAnchor_attr_WrapSquare]; exact hsq
  constructor
  · intro h
    obtain ⟨tt, r1, d1, hr, ht⟩ := tokenLoop_changed_reads WPAnchor.body (fun r => r.WrapSquare)
      (fun s => decide (s = "wrapSquare")) WPAnchor_body_reach
      (fun tt r d ht => WPAnchor_body_WrapSquare tt r d (by simpa using ht))
      (start.Attr.foldl (fun r a => (WPAnchor.attr a r).1) r) d
      (by intro hc; simp only [] at hc; rw [h0] at hc; exact h hc)
    exact ⟨tt, r1, d1, hr, by simpa using ht⟩
  · rintro ⟨tt, r1, d1, hr, ht⟩
    have := tokenLoop_reads_sets WPAnchor.body
      (fun r => r.WrapSquare.isSome = true) "wrapSquare" WPAnchor_body_reach
      WPAnchor_body_sets_WrapSquare WPAnchor_body_keeps_WrapSquare _ d tt r1 d1 hr ht
    intro hc
    simp only [] at this
    rw [hc] at this
    simp at this

/-- C7, amended: for every anchor start-element whose numeric attributes are
integer literals, decoded into a record whose wrap fields are nil:
* whatever the decoder holds, `WrapNone` ends present exactly when the loop of
  `WPAnchor.UnmarshalXML` reads a start-element of local name `wrapNone`, and
  `WrapSquare` ends present exactly when it reads one of local name
  `wrapSquare`;
* on the decoder that `DecodeElement` hands over for an anchor element with
  well-nested content, every start-element the loop reads is a token of that
  content; when the loop reads a `wrapNone` start-element and the content holds
  no start-element named `wrapSquare`, the record ends with `WrapNone` present
  and `WrapSquare` absent; when the loop reads a `wrapSquare` start-element,
  the content holds no start-element named `wrapNone`, and every start-element
  named `wrapSquare` of the content carries the same `wrapText`, the record
  ends with `WrapSquare` present, `WrapText` being that attribute, and
  `WrapNone` absent.
The children before the wrap child may be any that leave the loop running; the
case in which the loop has ended before it gets to the wrap child is left
out. -/
theorem C7_wrap_mode_exclusive (r : WPAnchor) (start : StartElement)
    (hattrs : ∀ a ∈ start.Attr, a.Name.Local ∈ WPAnchor.numericAttrs →
      ∃ n, IsInt64Literal a.Value n)
    (hnone : r.WrapNone = none) (hsq : r.WrapSquare = none) :
    (∀ d : Decoder,
      ((WPAnchor.UnmarshalXML r d start).val.WrapNone = some () ↔
        ∃ tt r1 d1, tokenLoop.reads WPAnchor.body
          (start.Attr.foldl (fun r a => (WPAnchor.attr a r).1) r) d tt r1 d1 ∧
          tt.Name.Local = "wrapNone") ∧
      ((WPAnchor.UnmarshalXML r d start).val.WrapSquare ≠ none ↔
        ∃ tt r1 d1, tokenLoop.reads WPAnchor.body
          (start.Attr.foldl (fun r a => (WPAnchor.attr a r).1) r) d tt r1 d1 ∧
          tt.Name.Local = "wrapSquare")) ∧
    (∀ (content rest : List Token) (err : Option Error) (base : List Stack) (d : Decoder),
      inert (fun _ => false) [] content = true →
      d = ⟨content ++ .EndElement start.Name :: rest, err,
        .stkStart start.Name :: .stkEOF :: base⟩ →
      ∀ (tt : StartElement) (r1 : WPAnchor) (d1 : Decoder),
        tokenLoop.reads WPAnchor.body
          (start.Attr.foldl (fun r a => (WPAnchor.attr a r).1) r) d tt r1 d1 →
        Token.StartElement tt ∈ content ∧
        (tt.Name.Local = "wrapNone" →
          content.any (Token.isStart "wrapSquare") = false →
          (WPAnchor.UnmarshalXML r d start).val.WrapNone = some () ∧
            (WPAnchor.UnmarshalXML r d start).val.WrapSquare = none) ∧
        (tt.Name.Local = "wrapSquare" →
          content.any (Token.isStart "wrapNone") = false →
          (∀ t2, Token.StartElement t2 ∈ content → t2.Name.Local = "wrapSquare" →
            getAtt t2.Attr "wrapText" = getAtt tt.Attr "wrapText") →
          (WPAnchor.UnmarshalXML r d start).val.WrapSquare =
              some { WrapText := getAtt tt.Attr "wrapText" } ∧
            (WPAnchor.UnmarshalXML r d start).val.WrapNone = none)) := by
  refine ⟨fun d => ⟨WPAnchor_WrapNone_iff_reads r start d hattrs hnone,
    WPAnchor_WrapSquare_iff_reads r start d hattrs hsq⟩, ?_⟩
  intro content rest err base d hcontent hd tt r1 d1 hr
  have hs : d.Scoped base rest (content ++ [.EndElement start.Name]) := by
    rw [hd]; exact Scoped_element start.Name content rest err base hcontent
  have hmem : ∀ (t2 : StartElement) (r2 : WPAnchor) (d2 : Decoder),
      tokenLoop.reads WPAnchor.body
        (start.Attr.foldl (fun r a => (WPAnchor.attr a r).1) r) d t2 r2 d2 →
      Token.StartElement t2 ∈ content := fun t2 r2 d2 h2 =>
    start_mem_content (tokenLoop_reads_scoped WPAnchor.body base rest _
      (fun tt r d h1 h2 => WPAnchor_body_scoped tt r d base rest _ h1 h2) _ d hs t2 r2 d2 h2).1
  refine ⟨hmem tt r1 d1 hr, ?_, ?_⟩
  · intro ht hno
    refine ⟨(WPAnchor_WrapNone_iff_reads r start d hattrs hnone).2 ⟨tt, r1, d1, hr, ht⟩, ?_⟩
    by_contra hc
    obtain ⟨t2, r2, d2, h2, hn2⟩ := (WPAnchor_WrapSquare_iff_reads r start d hattrs hsq).1 hc
    have := any_isStart_false hno t2 (hmem t2 r2 d2 h2)
    simp [hn2] at this
  · intro ht hno hsame
    constructor
    · have hne := (WPAnchor_WrapSquare_iff_reads r start d hattrs hsq).2 ⟨tt, r1, d1, hr, ht⟩
      have hJ : (WPAnchor.UnmarshalXML r d start).val.WrapSquare = none ∨
          (WPAnchor.UnmarshalXML r d start).val.WrapSquare =
            some { WrapText := getAtt tt.Attr "wrapText" } := by
        rw [WPAnchor_UnmarshalXML_loop start r d hattrs]
        refine tokenLoop_reads_inv WPAnchor.body WPAnchor_body_reach
          (fun r => r.WrapSquare = none ∨
            r.WrapSquare = some { WrapText := getAtt tt.Attr "wrapText" }) _ d ?_ ?_
        · intro t2 r2 d2 h2 hJ
          by_cases hn : t2.Name.Local = "wrapSquare"
          · right
            rw [WPAnchor_body_at_wrapSquare t2 r2 d2 hn]
            show some _ = some _
            rw [hsame t2 (hmem t2 r2 d2 h2) hn]
          · show (WPAnchor.body t2 r2 d2).val.WrapSquare = none ∨
              (WPAnchor.body t2 r2 d2).val.WrapSquare = _
            rw [WPAnchor_body_WrapSquare t2 r2 d2 hn]; exact hJ
        · left
          rw [foldl_frame _ (fun r : WPAnchor => r.WrapSquare) WPAnchor_attr_WrapSquare]
          exact hsq
      rcases hJ with h | h
      · exact absurd h hne
      · exact h
    · by_contra hc
      have hsome : (WPAnchor.UnmarshalXML r d start).val.WrapNone = some () := by
        cases h : (WPAnchor.UnmarshalXML r d start).val.WrapNone with
        | none => exact absurd h hc
        | some u => rfl
      obtain ⟨t2, r2, d2, h2, hn2⟩ :=
        (WPAnchor_WrapNone_iff_reads r start d hattrs hnone).1 hsome
      have := any_isStart_false hno t2 (hmem t2 r2 d2 h2)
      simp [hn2] at this


/-- C7, as stated, fails.
* An anchor element that carries a wrapNone child and a wrapSquare child
  decodes without error to a record with both `WrapNone` and `WrapSquare`
  present.
* So does the anchor `<anchor><foo><wrapSquare wrapText="bothSides"/></foo>
  <wrapNone/></anchor>`, whose children are `foo` and `wrapNone`: the loop
  dispatches on the start-elements nested in an element it does not recognise.
* The anchor with the children `<wrapSquare wrapText="bothSides"/>` and
  `<wrapSquare wrapText="left"/>` decodes to `WrapText = "left"`, which is not
  the attribute of the first child.
* The anchor `<anchor><docPr id="x"/><wrapNone/></anchor>` decodes without error
  to a record with `WrapNone` absent: the decode of `docPr` fails, its error is
  dropped, and the loop ends at the end of that child. -/
theorem C7_counterexample_both_wrap_modes :
    ((WPAnchor.UnmarshalXML {}
        ⟨[.StartElement ⟨⟨"", "wrapNone"⟩, []⟩, .EndElement ⟨"", "wrapNone"⟩,
          .StartElement ⟨⟨"", "wrapSquare"⟩, [⟨⟨"", "wrapText"⟩, "bothSides"⟩]⟩,
          .EndElement ⟨"", "wrapSquare"⟩, .EndElement ⟨"", "anchor"⟩], none,
          [.stkStart ⟨"", "anchor"⟩, .stkEOF]⟩
        ⟨⟨"", "anchor"⟩, []⟩).err = none ∧
      (WPAnchor.UnmarshalXML {}
        ⟨[.StartElement ⟨⟨"", "wrapNone"⟩, []⟩, .EndElement ⟨"", "wrapNone"⟩,
          .StartElement ⟨⟨"", "wrapSquare"⟩, [⟨⟨"", "wrapText"⟩, "bothSides"⟩]⟩,
          .EndElement ⟨"", "wrapSquare"⟩, .EndElement ⟨"", "anchor"⟩], none,
          [.stkStart ⟨"", "anchor"⟩, .stkEOF]⟩
        ⟨⟨"", "anchor"⟩, []⟩).val.WrapNone = some () ∧
      (WPAnchor.UnmarshalXML {}
        ⟨[.StartElement ⟨⟨"", "wrapNone"⟩, []⟩, .EndElement ⟨"", "wrapNone"⟩,
          .StartElement ⟨⟨"", "wrapSquare"⟩, [⟨⟨"", "wrapText"⟩, "bothSides"⟩]⟩,
          .EndElement ⟨"", "wrapSquare"⟩, .EndElement ⟨"", "anchor"⟩], none,
          [.stkStart ⟨"", "anchor"⟩, .stkEOF]⟩
        ⟨⟨"", "anchor"⟩, []⟩).val.WrapSquare = some { WrapText := "bothSides" }) ∧
    ((WPAnchor.UnmarshalXML {}
        ⟨[.StartElement ⟨⟨"", "foo"⟩, []⟩,
          .StartElement ⟨⟨"", "wrapSquare"⟩, [⟨⟨"", "wrapText"⟩, "bothSides"⟩]⟩,
          .EndElement ⟨"", "wrapSquare"⟩, .EndElement ⟨"", "foo"⟩,
          .StartElement ⟨⟨"", "wrapNone"⟩, []⟩, .EndElement ⟨"", "wrapNone"⟩,
          .EndElement ⟨"", "anchor"⟩], none,
          [.stkStart ⟨"", "anchor"⟩, .stkEOF]⟩
        ⟨⟨"", "anchor"⟩, []⟩).err = none ∧
      (WPAnchor.UnmarshalXML {}
        ⟨[.StartElement ⟨⟨"", "foo"⟩, []⟩,
          .StartElement ⟨⟨"", "wrapSquare"⟩, [⟨⟨"", "wrapText"⟩, "bothSides"⟩]⟩,
          .EndElement ⟨"", "wrapSquare"⟩, .EndElement ⟨"", "foo"⟩,
          .StartElement ⟨⟨"", "wrapNone"⟩, []⟩, .EndElement ⟨"", "wrapNone"⟩,
          .EndElement ⟨"", "anchor"⟩], none,
          [.stkStart ⟨"", "anchor"⟩, .stkEOF]⟩
        ⟨⟨"", "anchor"⟩, []⟩).val.WrapNone = some () ∧
      (WPAnchor.UnmarshalXML {}
        ⟨[.StartElement ⟨⟨"", "foo"⟩, []⟩,
          .StartElement ⟨⟨"", "wrapSquare"⟩, [⟨⟨"", "wrapText"⟩, "bothSides"⟩]⟩,
          .EndElement ⟨"", "wrapSquare"⟩, .EndElement ⟨"", "foo"⟩,
          .StartElement ⟨⟨"", "wrapNone"⟩, []⟩, .EndElement ⟨"", "wrapNone"⟩,
          .EndElement ⟨"", "anchor"⟩], none,
          [.stkStart ⟨"", "anchor"⟩, .stkEOF]⟩
        ⟨⟨"", "anchor"⟩, []⟩).val.WrapSquare = some { WrapText := "bothSides" } ∧
      childElements 0 [.StartElement ⟨⟨"", "foo"⟩, []⟩,
          .StartElement ⟨⟨"", "wrapSquare"⟩, [⟨⟨"", "wrapText"⟩, "bothSides"⟩]⟩,
          .EndElement ⟨"", "wrapSquare"⟩, .EndElement ⟨"", "foo"⟩,
          .StartElement ⟨⟨"", "wrapNone"⟩, []⟩, .EndElement ⟨"", "wrapNone"⟩,
          .EndElement ⟨"", "anchor"⟩] = ["foo", "wrapNone"]) ∧
    ((WPAnchor.UnmarshalXML {}
        ⟨[.StartElement ⟨⟨"", "wrapSquare"⟩, [⟨⟨"", "wrapText"⟩, "bothSides"⟩]⟩,
          .EndElement ⟨"", "wrapSquare"⟩,
          .StartElement ⟨⟨"", "wrapSquare"⟩, [⟨⟨"", "wrapText"⟩, "left"⟩]⟩,
          .EndElement ⟨"", "wrapSquare"⟩, .EndElement ⟨"", "anchor"⟩], none,
          [.stkStart ⟨"", "anchor"⟩, .stkEOF]⟩
        ⟨⟨"", "anchor"⟩, []⟩).err = none ∧
      (WPAnchor.UnmarshalXML {}
        ⟨[.StartElement ⟨⟨"", "wrapSquare"⟩, [⟨⟨"", "wrapText"⟩, "bothSides"⟩]⟩,
          .EndElement ⟨"", "wrapSquare"⟩,
          .StartElement ⟨⟨"", "wrapSquare"⟩, [⟨⟨"", "wrapText"⟩, "left"⟩]⟩,
          .EndElement ⟨"", "wrapSquare"⟩, .EndElement ⟨"", "anchor"⟩], none,
          [.stkStart ⟨"", "anchor"⟩, .stkEOF]⟩
        ⟨⟨"", "anchor"⟩, []⟩).val.WrapSquare = some { WrapText := "left" }) ∧
    ((WPAnchor.UnmarshalXML {}
        ⟨[.StartElement ⟨⟨"", "docPr"⟩, [⟨⟨"", "id"⟩, "x"⟩]⟩, .EndElement ⟨"", "docPr"⟩,
          .StartElement ⟨⟨"", "wrapNone"⟩, []⟩, .EndElement ⟨"", "wrapNone"⟩,
          .EndElement ⟨"", "anchor"⟩], none,
          [.stkStart ⟨"", "anchor"⟩, .stkEOF]⟩
        ⟨⟨"", "anchor"⟩, []⟩).err = none ∧
      (WPAnchor.UnmarshalXML {}
        ⟨[.StartElement ⟨⟨"", "docPr"⟩, [⟨⟨"", "id"⟩, "x"⟩]⟩, .EndElement ⟨"", "docPr"⟩,
          .StartElement ⟨⟨"", "wrapNone"⟩, []⟩, .EndElement ⟨"", "wrapNone"⟩,
          .EndElement ⟨"", "anchor"⟩], none,
          [.stkStart ⟨"", "anchor"⟩, .stkEOF]⟩
        ⟨⟨"", "anchor"⟩, []⟩).val.WrapNone = none) := by
  decide

/-- C7, amended, at the anchor `<anchor distT="0" relativeHeight="251658240">
<simplePos x="0" y="0"/><positionH relativeFrom="column"><posOffset>1905
</posOffset></positionH><extent cx="5949950" cy="3971925"/><wrapNone/>
<docPr id="1" name="Picture 1"/></anchor>`: the loop reads the `wrapNone`
start-element in its fifth round, after the rounds that decoded `simplePos`,
`positionH` and `extent`, and the record ends with `WrapNone` present and
`WrapSquare` absent. -/
theorem C7_wrap_mode_exclusive_witness :
    ((∀ a ∈ ([⟨⟨"", "distT"⟩, "0"⟩, ⟨⟨"", "relativeHeight"⟩, "251658240"⟩] : List Attr),
        a.Name.Local ∈ WPAnchor.numericAttrs → ∃ n, IsInt64Literal a.Value n) ∧
      ({} : WPAnchor).WrapNone = none ∧ ({} : WPAnchor).WrapSquare = none ∧
      inert (fun _ => false) []
        [.StartElement ⟨⟨"", "simplePos"⟩, [⟨⟨"", "x"⟩, "0"⟩, ⟨⟨"", "y"⟩, "0"⟩]⟩,
          .EndElement ⟨"", "simplePos"⟩,
          .StartElement ⟨⟨"", "positionH"⟩, [⟨⟨"", "relativeFrom"⟩, "column"⟩]⟩,
          .StartElement ⟨⟨"", "posOffset"⟩, []⟩, .CharData "1905",
          .EndElement ⟨"", "posOffset"⟩, .EndElement ⟨"", "positionH"⟩,
          .StartElement ⟨⟨"", "extent"⟩, [⟨⟨"", "cx"⟩, "5949950"⟩, ⟨⟨"", "cy"⟩, "3971925"⟩]⟩,
          .EndElement ⟨"", "extent"⟩,
          .StartElement ⟨⟨"", "wrapNone"⟩, []⟩, .EndElement ⟨"", "wrapNone"⟩,
          .StartElement ⟨⟨"", "docPr"⟩, [⟨⟨"", "id"⟩, "1"⟩, ⟨⟨"", "name"⟩, "Picture 1"⟩]⟩,
          .EndElement ⟨"", "docPr"⟩] = true ∧
      tokenLoop.reads WPAnchor.body
        (([⟨⟨"", "distT"⟩, "0"⟩, ⟨⟨"", "relativeHeight"⟩, "251658240"⟩] : List Attr).foldl (fun r a => (WPAnchor.attr a r).1) {})
        ⟨[.StartElement ⟨⟨"", "simplePos"⟩, [⟨⟨"", "x"⟩, "0"⟩, ⟨⟨"", "y"⟩, "0"⟩]⟩,
          .EndElement ⟨"", "simplePos"⟩,
          .StartElement ⟨⟨"", "positionH"⟩, [⟨⟨"", "relativeFrom"⟩, "column"⟩]⟩,
          .StartElement ⟨⟨"", "posOffset"⟩, []⟩, .CharData "1905",
          .EndElement ⟨"", "posOffset"⟩, .EndElement ⟨"", "positionH"⟩,
          .StartElement ⟨⟨"", "extent"⟩, [⟨⟨"", "cx"⟩, "5949950"⟩, ⟨⟨"", "cy"⟩, "3971925"⟩]⟩,
          .EndElement ⟨"", "extent"⟩,
          .StartElement ⟨⟨"", "wrapNone"⟩, []⟩, .EndElement ⟨"", "wrapNone"⟩,
          .StartElement ⟨⟨"", "docPr"⟩, [⟨⟨"", "id"⟩, "1"⟩, ⟨⟨"", "name"⟩, "Picture 1"⟩]⟩,
          .EndElement ⟨"", "docPr"⟩] ++
          .EndElement (⟨⟨"", "anchor"⟩, [⟨⟨"", "distT"⟩, "0"⟩, ⟨⟨"", "relativeHeight"⟩, "251658240"⟩]⟩ : StartElement).Name :: [], none,
          .stkStart (⟨⟨"", "anchor"⟩, [⟨⟨"", "distT"⟩, "0"⟩, ⟨⟨"", "relativeHeight"⟩, "251658240"⟩]⟩ : StartElement).Name :: .stkEOF :: []⟩
        ⟨⟨"", "wrapNone"⟩, []⟩
        { RelativeHeight := 251658240, SimplePosXY := some { X := 0, Y := 0 },
          PositionH := some { RelativeFrom := "column", PosOffset := 1905 },
          Extent := some { CX := 5949950, CY := 3971925 } }
        ⟨[.EndElement ⟨"", "wrapNone"⟩,
          .StartElement ⟨⟨"", "docPr"⟩, [⟨⟨"", "id"⟩, "1"⟩, ⟨⟨"", "name"⟩, "Picture 1"⟩]⟩,
          .EndElement ⟨"", "docPr"⟩, .EndElement ⟨"", "anchor"⟩], none,
          [.stkStart ⟨"", "wrapNone"⟩, .stkStart ⟨"", "anchor"⟩, .stkEOF]⟩ ∧
      List.any
        [.StartElement ⟨⟨"", "simplePos"⟩, [⟨⟨"", "x"⟩, "0"⟩, ⟨⟨"", "y"⟩, "0"⟩]⟩,
          .EndElement ⟨"", "simplePos"⟩,
          .StartElement ⟨⟨"", "positionH"⟩, [⟨⟨"", "relativeFrom"⟩, "column"⟩]⟩,
          .StartElement ⟨⟨"", "posOffset"⟩, []⟩, .CharData "1905",
          .EndElement ⟨"", "posOffset"⟩, .EndElement ⟨"", "positionH"⟩,
          .StartElement ⟨⟨"", "extent"⟩, [⟨⟨"", "cx"⟩, "5949950"⟩, ⟨⟨"", "cy"⟩, "3971925"⟩]⟩,
          .EndElement ⟨"", "extent"⟩,
          .StartElement ⟨⟨"", "wrapNone"⟩, []⟩, .EndElement ⟨"", "wrapNone"⟩,
          .StartElement ⟨⟨"", "docPr"⟩, [⟨⟨"", "id"⟩, "1"⟩, ⟨⟨"", "name"⟩, "Picture 1"⟩]⟩,
          .EndElement ⟨"", "docPr"⟩]
        (Token.isStart "wrapSquare") = false) ∧
    ((WPAnchor.UnmarshalXML {}
        ⟨[.StartElement ⟨⟨"", "simplePos"⟩, [⟨⟨"", "x"⟩, "0"⟩, ⟨⟨"", "y"⟩, "0"⟩]⟩,
          .EndElement ⟨"", "simplePos"⟩,
          .StartElement ⟨⟨"", "positionH"⟩, [⟨⟨"", "relativeFrom"⟩, "column"⟩]⟩,
          .StartElement ⟨⟨"", "posOffset"⟩, []⟩, .CharData "1905",
          .EndElement ⟨"", "posOffset"⟩, .EndElement ⟨"", "positionH"⟩,
          .StartElement ⟨⟨"", "extent"⟩, [⟨⟨"", "cx"⟩, "5949950"⟩, ⟨⟨"", "cy"⟩, "3971925"⟩]⟩,
          .EndElement ⟨"", "extent"⟩,
          .StartElement ⟨⟨"", "wrapNone"⟩, []⟩, .EndElement ⟨"", "wrapNone"⟩,
          .StartElement ⟨⟨"", "docPr"⟩, [⟨⟨"", "id"⟩, "1"⟩, ⟨⟨"", "name"⟩, "Picture 1"⟩]⟩,
          .EndElement ⟨"", "docPr"⟩] ++
          .EndElement (⟨⟨"", "anchor"⟩, [⟨⟨"", "distT"⟩, "0"⟩, ⟨⟨"", "relativeHeight"⟩, "251658240"⟩]⟩ : StartElement).Name :: [], none,
          .stkStart (⟨⟨"", "anchor"⟩, [⟨⟨"", "distT"⟩, "0"⟩, ⟨⟨"", "relativeHeight"⟩, "251658240"⟩]⟩ : StartElement).Name :: .stkEOF :: []⟩
        ⟨⟨"", "anchor"⟩, [⟨⟨"", "distT"⟩, "0"⟩, ⟨⟨"", "relativeHeight"⟩, "251658240"⟩]⟩).val.WrapNone = some () ∧
      (WPAnchor.UnmarshalXML {}
        ⟨[.StartElement ⟨⟨"", "simplePos"⟩, [⟨⟨"", "x"⟩, "0"⟩, ⟨⟨"", "y"⟩, "0"⟩]⟩,
          .EndElement ⟨"", "simplePos"⟩,
          .StartElement ⟨⟨"", "positionH"⟩, [⟨⟨"", "relativeFrom"⟩, "column"⟩]⟩,
          .StartElement ⟨⟨"", "posOffset"⟩, []⟩, .CharData "1905",
          .EndElement ⟨"", "posOffset"⟩, .EndElement ⟨"", "positionH"⟩,
          .StartElement ⟨⟨"", "extent"⟩, [⟨⟨"", "cx"⟩, "5949950"⟩, ⟨⟨"", "cy"⟩, "3971925"⟩]⟩,
          .EndElement ⟨"", "extent"⟩,
          .StartElement ⟨⟨"", "wrapNone"⟩, []⟩, .EndElement ⟨"", "wrapNone"⟩,
          .StartElement ⟨⟨"", "docPr"⟩, [⟨⟨"", "id"⟩, "1"⟩, ⟨⟨"", "name"⟩, "Picture 1"⟩]⟩,
          .EndElement ⟨"", "docPr"⟩] ++
          .EndElement (⟨⟨"", "anchor"⟩, [⟨⟨"", "distT"⟩, "0"⟩, ⟨⟨"", "relativeHeight"⟩, "251658240"⟩]⟩ : StartElement).Name :: [], none,
          .stkStart (⟨⟨"", "anchor"⟩, [⟨⟨"", "distT"⟩, "0"⟩, ⟨⟨"", "relativeHeight"⟩, "251658240"⟩]⟩ : StartElement).Name :: .stkEOF :: []⟩
        ⟨⟨"", "anchor"⟩, [⟨⟨"", "distT"⟩, "0"⟩, ⟨⟨"", "relativeHeight"⟩, "251658240"⟩]⟩).val.WrapSquare = none) :=
  ⟨⟨fun a ha _ => by
      simp only [List.mem_cons, List.mem_singleton, List.not_mem_nil, or_false] at ha
      rcases ha with rfl | rfl
      · exact ⟨0, by decide⟩
      · exact ⟨251658240, by decide⟩,
    rfl, rfl, by decide,
    ⟨4, ⟨.StartElement ⟨⟨"", "wrapNone"⟩, []⟩ :: [.EndElement ⟨"", "wrapNone"⟩,
          .StartElement ⟨⟨"", "docPr"⟩, [⟨⟨"", "id"⟩, "1"⟩, ⟨⟨"", "name"⟩, "Picture 1"⟩]⟩,
          .EndElement ⟨"", "docPr"⟩, .EndElement ⟨"", "anchor"⟩], none,
          [.stkStart ⟨"", "anchor"⟩, .stkEOF]⟩, by decide, rfl⟩, by decide⟩,
    (((C7_wrap_mode_exclusive {} ⟨⟨"", "anchor"⟩, [⟨⟨"", "distT"⟩, "0"⟩, ⟨⟨"", "relativeHeight"⟩, "251658240"⟩]⟩
      (fun a ha _ => by
        simp only [List.mem_cons, List.mem_singleton, List.not_mem_nil, or_false] at ha
        rcases ha with rfl | rfl
        · exact ⟨0, by decide⟩
        · exact ⟨251658240, by decide⟩) rfl rfl).2
      [.StartElement ⟨⟨"", "simplePos"⟩, [⟨⟨"", "x"⟩, "0"⟩, ⟨⟨"", "y"⟩, "0"⟩]⟩,
          .EndElement ⟨"", "simplePos"⟩,
          .StartElement ⟨⟨"", "positionH"⟩, [⟨⟨"", "relativeFrom"⟩, "column"⟩]⟩,
          .StartElement ⟨⟨"", "posOffset"⟩, []⟩, .CharData "1905",
          .EndElement ⟨"", "posOffset"⟩, .EndElement ⟨"", "positionH"⟩,
          .StartElement ⟨⟨"", "extent"⟩, [⟨⟨"", "cx"⟩, "5949950"⟩, ⟨⟨"", "cy"⟩, "3971925"⟩]⟩,
          .EndElement ⟨"", "extent"⟩,
          .StartElement ⟨⟨"", "wrapNone"⟩, []⟩, .EndElement ⟨"", "wrapNone"⟩,
          .StartElement ⟨⟨"", "docPr"⟩, [⟨⟨"", "id"⟩, "1"⟩, ⟨⟨"", "name"⟩, "Picture 1"⟩]⟩,
          .EndElement ⟨"", "docPr"⟩]
      [] none [] _ (by decide) rfl ⟨⟨"", "wrapNone"⟩, []⟩
      { RelativeHeight := 251658240, SimplePosXY := some { X := 0, Y := 0 },
          PositionH := some { RelativeFrom := "column", PosOffset := 1905 },
          Extent := some { CX := 5949950, CY := 3971925 } }
      ⟨[.EndElement ⟨"", "wrapNone"⟩,
          .StartElement ⟨⟨"", "docPr"⟩, [⟨⟨"", "id"⟩, "1"⟩, ⟨⟨"", "name"⟩, "Picture 1"⟩]⟩,
          .EndElement ⟨"", "docPr"⟩, .EndElement ⟨"", "anchor"⟩], none,
          [.stkStart ⟨"", "wrapNone"⟩, .stkStart ⟨"", "anchor"⟩, .stkEOF]⟩
      ⟨4, ⟨.StartElement ⟨⟨"", "wrapNone"⟩, []⟩ :: [.EndElement ⟨"", "wrapNone"⟩,
          .StartElement ⟨⟨"", "docPr"⟩, [⟨⟨"", "id"⟩, "1"⟩, ⟨⟨"", "name"⟩, "Picture 1"⟩]⟩,
          .EndElement ⟨"", "docPr"⟩, .EndElement ⟨"", "anchor"⟩], none,
          [.stkStart ⟨"", "anchor"⟩, .stkEOF]⟩, by decide, rfl⟩).2.1 rfl (by decide))⟩

/-- With well-formed numeric attributes `WPInline.UnmarshalXML` is its loop, run
on the record its attribute loop yields. -/
theorem WPInline_UnmarshalXML_loop (start : StartElement) (r : WPInline) (d : Decoder)
    (hattrs : ∀ a ∈ start.Attr, a.Name.Local ∈ WPInline.numericAttrs →
      ∃ n, IsInt64Literal a.Value n) :
    WPInline.UnmarshalXML r d start =
      tokenLoop WPInline.body (d.toks.length + 1)
        (start.Attr.foldl (fun r a => (WPInline.attr a r).1) r) d := by
  unfold WPInline.UnmarshalXML
  rw [WPInline_attrs_ok start r hattrs]

/-- The field `Extent` of the record `WPInline.UnmarshalXML` leaves is set exactly
when the loop reads a start-element of local name `extent`. -/
theorem WPInline_Extent_iff_reads (r : WPInline) (start : StartElement) (d : Decoder)
    (hattrs : ∀ a ∈ start.Attr, a.Name.Local ∈ WPInline.numericAttrs →
      ∃ n, IsInt64Literal a.Value n)
    (h0 : r.Extent.isSome = false) :
    (WPInline.UnmarshalXML r d start).val.Extent.isSome = true ↔
      ∃ tt r1 d1, tokenLoop.reads WPInline.body
        (start.Attr.foldl (fun r a => (WPInline.attr a r).1) r) d tt r1 d1 ∧
        tt.Name.Local = "extent" := by
  rw [WPInline_UnmarshalXML_loop start r d hattrs]
  have h1 : (start.Attr.foldl (fun r a => (WPInline.attr a r).1) r).Extent.isSome = false := by
    rw [foldl_frame _ (fun r : WPInline => r.Extent) WPInline_attr_Extent]; exact h0
  constructor
  · intro h
    obtain ⟨tt, r1, d1, hr, ht⟩ := tokenLoop_changed_reads WPInline.body
      (fun r => r.Extent.isSome) (fun s => decide (s = "extent")) WPInline_body_reach
      (fun tt r d ht => by
        show (WPInline.body tt r d).val.Extent.isSome = r.Extent.isSome
        rw [WPInline_body_Extent tt r d (by simpa using ht)])
      (start.Attr.foldl (fun r a => (WPInline.attr a r).1) r) d
      (by intro hc; simp only [] at hc; rw [h, h1] at hc; simp at hc)
    exact ⟨tt, r1, d1, hr, by simpa using ht⟩
  · rintro ⟨tt, r1, d1, hr, ht⟩
    exact tokenLoop_reads_sets WPInline.body (fun r => r.Extent.isSome = true) "extent"
      WPInline_body_reach WPInline_body_sets_Extent WPInline_body_keeps_Extent _ d tt r1 d1 hr ht

/-- The field `EffectExtent` of the record `WPInline.UnmarshalXML` leaves is set exactly
when the loop reads a start-element of local name `effectExtent`. -/
theorem WPInline_EffectExtent_iff_reads (r : WPInline) (start : StartElement) (d : Decoder)
    (hattrs : ∀ a ∈ start.Attr, a.Name.Local ∈ WPInline.numericAttrs →
      ∃ n, IsInt64Literal a.Value n)
    (h0 : r.EffectExtent.isSome = false) :
    (WPInline.UnmarshalXML r d start).val.EffectExtent.isSome = true ↔
      ∃ tt r1 d1, tokenLoop.reads WPInline.body
        (start.Attr.foldl (fun r a => (WPInline.attr a r).1) r) d tt r1 d1 ∧
        tt.Name.Local = "effectExtent" := by
  rw [WPInline_UnmarshalXML_loop start r d hattrs]
  have h1 : (start.Attr.foldl (fun r a => (WPInline.attr a r).1) r).EffectExtent.isSome = false := by
    rw [foldl_frame _ (fun r : WPInline => r.EffectExtent) WPInline_attr_EffectExtent]; exact h0
  constructor
  · intro h
    obtain ⟨tt, r1, d1, hr, ht⟩ := tokenLoop_changed_reads WPInline.body
      (fun r => r.EffectExtent.isSome) (fun s => decide (s = "effectExtent")) WPInline_body_reach
      (fun tt r d ht => by
        show (WPInline.body tt r d).val.EffectExtent.isSome = r.EffectExtent.isSome
        rw [WPInline_body_EffectExtent tt r d (by simpa using ht)])
      (start.Attr.foldl (fun r a => (WPInline.attr a r).1) r) d
      (by intro hc; simp only [] at hc; rw [h, h1] at hc; simp at hc)
    exact ⟨tt, r1, d1, hr, by simpa using ht⟩
  · rintro ⟨tt, r1, d1, hr, ht⟩
    exact tokenLoop_reads_sets WPInline.body (fun r => r.EffectExtent.isSome = true) "effectExtent"
      WPInline_body_reach WPInline_body_sets_EffectExtent WPInline_body_keeps_EffectExtent _ d tt r1 d1 hr ht

/-- The field `DocPr` of the record `WPInline.UnmarshalXML` leaves is set exactly
when the loop reads a start-element of local name `docPr`. -/
theorem WPInline_DocPr_iff_reads (r : WPInline) (start : StartElement) (d : Decoder)
    (hattrs : ∀ a ∈ start.Attr, a.Name.Local ∈ WPInline.numericAttrs →
      ∃ n, IsInt64Literal a.Value n)
    (h0 : r.DocPr.isSome = false) :
    (WPInline.UnmarshalXML r d start).val.DocPr.isSome = true ↔
      ∃ tt r1 d1, tokenLoop.reads WPInline.body
        (start.Attr.foldl (fun r a => (WPInline.attr a r).1) r) d tt r1 d1 ∧
        tt.Name.Local = "docPr" := by
  rw [WPInline_UnmarshalXML_loop start r d hattrs]
  have h1 : (start.Attr.foldl (fun r a => (WPInline.attr a r).1) r).DocPr.isSome = false := by
    rw [foldl_frame _ (fun r : WPInline => r.DocPr) WPInline_attr_DocPr]; exact h0
  constructor
  · intro h
    obtain ⟨tt, r1, d1, hr, ht⟩ := tokenLoop_changed_reads WPInline.body
      (fun r => r.DocPr.isSome) (fun s => decide (s = "docPr")) WPInline_body_reach
      (fun tt r d ht => by
        show (WPInline.body tt r d).val.DocPr.isSome = r.DocPr.isSome
        rw [WPInline_body_DocPr tt r d (by simpa using ht)])
      (start.Attr.foldl (fun r a => (WPInline.attr a r).1) r) d
      (by intro hc; simp only [] at hc; rw [h, h1] at hc; simp at hc)
    exact ⟨tt, r1, d1, hr, by simpa using ht⟩
  · rintro ⟨tt, r1, d1, hr, ht⟩
    exact tokenLoop_reads_sets WPInline.body (fun r => r.DocPr.isSome = true) "docPr"
      WPInline_body_reach WPInline_body_sets_DocPr WPInline_body_keeps_DocPr _ d tt r1 d1 hr ht

/-- The field `CNvGraphicFramePr` of the record `WPInline.UnmarshalXML` leaves is set exactly
when the loop reads a start-element of local name `cNvGraphicFramePr`. -/
theorem WPInline_CNvGraphicFramePr_iff_reads (r : WPInline) (start : StartElement) (d : Decoder)
    (hattrs : ∀ a ∈ start.Attr, a.Name.Local ∈ WPInline.numericAttrs →
      ∃ n, IsInt64Literal a.Value n)
    (h0 : r.CNvGraphicFramePr.isSome = false) :
    (WPInline.UnmarshalXML r d start).val.CNvGraphicFramePr.isSome = true ↔
      ∃ tt r1 d1, tokenLoop.reads WPInline.body
        (start.Attr.foldl (fun r a => (WPInline.attr a r).1) r) d tt r1 d1 ∧
        tt.Name.Local = "cNvGraphicFramePr" := by
  rw [WPInline_UnmarshalXML_loop start r d hattrs]
  have h1 : (start.Attr.foldl (fun r a => (WPInline.attr a r).1) r).CNvGraphicFramePr.isSome = false := by
    rw [foldl_frame _ (fun r : WPInline => r.CNvGraphicFramePr) WPInline_attr_CNvGraphicFramePr]; exact h0
  constructor
  · intro h
    obtain ⟨tt, r1, d1, hr, ht⟩ := tokenLoop_changed_reads WPInline.body
      (fun r => r.CNvGraphicFramePr.isSome) (fun s => decide (s = "cNvGraphicFramePr")) WPInline_body_reach
      (fun tt r d ht => by
        show (WPInline.body tt r d).val.CNvGraphicFramePr.isSome = r.CNvGraphicFramePr.isSome
        rw [WPInline_body_CNvGraphicFramePr tt r d (by simpa using ht)])
      (start.Attr.foldl (fun r a => (WPInline.attr a r).1) r) d
      (by intro hc; simp only [] at hc; rw [h, h1] at hc; simp at hc)
    exact ⟨tt, r1, d1, hr, by simpa using ht⟩
  · rintro ⟨tt, r1, d1, hr, ht⟩
    exact tokenLoop_reads_sets WPInline.body (fun r => r.CNvGraphicFramePr.isSome = true) "cNvGraphicFramePr"
      WPInline_body_reach WPInline_body_sets_CNvGraphicFramePr WPInline_body_keeps_CNvGraphicFramePr _ d tt r1 d1 hr ht

/-- The field `Graphic` of the record `WPInline.UnmarshalXML` leaves is set exactly
when the loop reads a start-element of local name `graphic`. -/
theorem WPInline_Graphic_iff_reads (r : WPInline) (start : StartElement) (d : Decoder)
    (hattrs : ∀ a ∈ start.Attr, a.Name.Local ∈ WPInline.numericAttrs →
      ∃ n, IsInt64Literal a.Value n)
    (h0 : r.Graphic.isSome = false) :
    (WPInline.UnmarshalXML r d start).val.Graphic.isSome = true ↔
      ∃ tt r1 d1, tokenLoop.reads WPInline.body
        (start.Attr.foldl (fun r a => (WPInline.attr a r).1) r) d tt r1 d1 ∧
        tt.Name.Local = "graphic" := by
  rw [WPInline_UnmarshalXML_loop start r d hattrs]
  have h1 : (start.Attr.foldl (fun r a => (WPInline.attr a r).1) r).Graphic.isSome = false := by
    rw [foldl_frame _ (fun r : WPInline => r.Graphic) WPInline_attr_Graphic]; exact h0
  constructor
  · intro h
    obtain ⟨tt, r1, d1, hr, ht⟩ := tokenLoop_changed_reads WPInline.body
      (fun r => r.Graphic.isSome) (fun s => decide (s = "graphic")) WPInline_body_reach
      (fun tt r d ht => by
        show (WPInline.body tt r d).val.Graphic.isSome = r.Graphic.isSome
        rw [WPInline_body_Graphic tt r d (by simpa using ht)])
      (start.Attr.foldl (fun r a => (WPInline.attr a r).1) r) d
      (by intro hc; simp only [] at hc; rw [h, h1] at hc; simp at hc)
    exact ⟨tt, r1, d1, hr, by simpa using ht⟩
  · rintro ⟨tt, r1, d1, hr, ht⟩
    exact tokenLoop_reads_sets WPInline.body (fun r => r.Graphic.isSome = true) "graphic"
      WPInline_body_reach WPInline_body_sets_Graphic WPInline_body_keeps_Graphic _ d tt r1 d1 hr ht

/-- When `WPInline.UnmarshalXML` returns nil, the numeric attributes of the
start-element are integer literals. -/
theorem WPInline_attrs_of_ok (r : WPInline) (d : Decoder) (start : StartElement)
    (h : (WPInline.UnmarshalXML r d start).err = none) :
    ∀ a ∈ start.Attr, a.Name.Local ∈ WPInline.numericAttrs → ∃ n, IsInt64Literal a.Value n := by
  intro a ha hn
  by_contra hbad
  obtain ⟨e, he, -⟩ := attrLoop_err_of_mem WPInline.attr (fun _ => True)
    (fun _ _ _ _ => trivial) a (WPInline_attr_bad a hn hbad) start.Attr r ha
  unfold WPInline.UnmarshalXML at h
  rcases hb : attrLoop WPInline.attr start.Attr r with ⟨r1, _ | e2⟩
  · rw [hb] at he; simp at he
  · rw [hb] at h; simp at h

/-- Each optional field of the record `WPInline.UnmarshalXML` leaves is
populated exactly when the loop reads a start-element of its local name. -/
theorem WPInline_populated_iff_reads (r : WPInline) (start : StartElement)
    (hattrs : ∀ a ∈ start.Attr, a.Name.Local ∈ WPInline.numericAttrs →
      ∃ n, IsInt64Literal a.Value n)
    (hfresh : ∀ name ∈ WPInline.childNames, r.populated name = false)
    (d : Decoder) (name : String) (hname : name ∈ WPInline.childNames) :
    (WPInline.UnmarshalXML r d start).val.populated name = true ↔
      ∃ tt r1 d1, tokenLoop.reads WPInline.body
        (start.Attr.foldl (fun r a => (WPInline.attr a r).1) r) d tt r1 d1 ∧
        tt.Name.Local = name := by
  simp only [WPInline.childNames, List.mem_cons, List.mem_singleton, List.not_mem_nil,
    or_false] at hname
  rcases hname with rfl | rfl | rfl | rfl | rfl
  · have h0 : r.Extent.isSome = false := by
      have := hfresh "extent" (by decide)
      simpa [WPInline.populated] using this
    have h := WPInline_Extent_iff_reads r start d hattrs h0
    simpa [WPInline.populated] using h
  · have h0 : r.EffectExtent.isSome = false := by
      have := hfresh "effectExtent" (by decide)
      simpa [WPInline.populated] using this
    have h := WPInline_EffectExtent_iff_reads r start d hattrs h0
    simpa [WPInline.populated] using h
  · have h0 : r.DocPr.isSome = false := by
      have := hfresh "docPr" (by decide)
      simpa [WPInline.populated] using this
    have h := WPInline_DocPr_iff_reads r start d hattrs h0
    simpa [WPInline.populated] using h
  · have h0 : r.CNvGraphicFramePr.isSome = false := by
      have := hfresh "cNvGraphicFramePr" (by decide)
      simpa [WPInline.populated] using this
    have h := WPInline_CNvGraphicFramePr_iff_reads r start d hattrs h0
    simpa [WPInline.populated] using h
  · have h0 : r.Graphic.isSome = false := by
      have := hfresh "graphic" (by decide)
      simpa [WPInline.populated] using this
    have h := WPInline_Graphic_iff_reads r start d hattrs h0
    simpa [WPInline.populated] using h

/-- C4, amended: for every input on which `WPInline.UnmarshalXML`, run on a
record whose five optional fields are nil, returns nil, and each of the local
names `extent`, `effectExtent`, `docPr`, `cNvGraphicFramePr`, `graphic`:
* the field that answers to the name is populated if and only if the loop of
  `WPInline.UnmarshalXML` reads a start-element of that local name;
* when the decoder is the one `DecodeElement` hands over for an inline element
  with well-nested content, every start-element the loop reads is a token of
  the content of the inline element, so that a populated field has a
  start-element of its local name in that content (at some depth, not
  necessarily as a child).
A child that the loop does not get to, because the loop has ended before it,
is left out. -/
theorem C4_optional_field_presence (r : WPInline) (d : Decoder) (start : StartElement)
    (hfresh : ∀ name ∈ WPInline.childNames, r.populated name = false)
    (hok : (WPInline.UnmarshalXML r d start).err = none) :
    (∀ name ∈ WPInline.childNames,
      ((WPInline.UnmarshalXML r d start).val.populated name = true ↔
        ∃ tt r1 d1, tokenLoop.reads WPInline.body
          (start.Attr.foldl (fun r a => (WPInline.attr a r).1) r) d tt r1 d1 ∧
          tt.Name.Local = name)) ∧
    (∀ (content rest : List Token) (err : Option Error) (base : List Stack),
      inert (fun _ => false) [] content = true →
      d = ⟨content ++ .EndElement start.Name :: rest, err,
        .stkStart start.Name :: .stkEOF :: base⟩ →
      (∀ (tt : StartElement) (r1 : WPInline) (d1 : Decoder),
        tokenLoop.reads WPInline.body
          (start.Attr.foldl (fun r a => (WPInline.attr a r).1) r) d tt r1 d1 →
        Token.StartElement tt ∈ content) ∧
      ∀ name ∈ WPInline.childNames,
        (WPInline.UnmarshalXML r d start).val.populated name = true →
        content.any (Token.isStart name) = true) := by
  have hattrs := WPInline_attrs_of_ok r d start hok
  have hiff := WPInline_populated_iff_reads r start hattrs hfresh d
  refine ⟨hiff, ?_⟩
  intro content rest err base hcontent hd
  have hs : d.Scoped base rest (content ++ [.EndElement start.Name]) := by
    rw [hd]; exact Scoped_element start.Name content rest err base hcontent
  have hmem : ∀ (tt : StartElement) (r1 : WPInline) (d1 : Decoder),
      tokenLoop.reads WPInline.body
        (start.Attr.foldl (fun r a => (WPInline.attr a r).1) r) d tt r1 d1 →
      Token.StartElement tt ∈ content := fun tt r1 d1 h =>
    start_mem_content (tokenLoop_reads_scoped WPInline.body base rest _
      (fun tt r d h1 h2 => WPInline_body_scoped tt r d base rest _ h1 h2) _ d hs tt r1 d1 h).1
  refine ⟨hmem, ?_⟩
  intro name hname hp
  obtain ⟨tt, r1, d1, hr, hn⟩ := (hiff name hname).1 hp
  rw [List.any_eq_true]
  exact ⟨_, hmem tt r1 d1 hr, by simp [Token.isStart, hn]⟩

/-- C4, amended, at the inline frame `<inline distT="0" distB="0">
<extent cx="5949950" cy="3971925"/><docPr id="1" name="Picture 1"/><graphic/>
</inline>` and the name `graphic`: the decode returns nil, the loop reads the
`graphic` start-element in its fourth round, after the rounds that decoded
`extent` and `docPr`, and the field `Graphic` is populated. -/
theorem C4_optional_field_presence_witness :
    ((∀ name ∈ WPInline.childNames, ({} : WPInline).populated name = false) ∧
      (WPInline.UnmarshalXML {}
        ⟨[.StartElement ⟨⟨"", "extent"⟩, [⟨⟨"", "cx"⟩, "5949950"⟩, ⟨⟨"", "cy"⟩, "3971925"⟩]⟩,
          .EndElement ⟨"", "extent"⟩,
          .StartElement ⟨⟨"", "docPr"⟩, [⟨⟨"", "id"⟩, "1"⟩, ⟨⟨"", "name"⟩, "Picture 1"⟩]⟩,
          .EndElement ⟨"", "docPr"⟩,
          .StartElement ⟨⟨"", "graphic"⟩, []⟩, .EndElement ⟨"", "graphic"⟩] ++
          .EndElement (⟨⟨"", "inline"⟩, [⟨⟨"", "distT"⟩, "0"⟩, ⟨⟨"", "distB"⟩, "0"⟩]⟩ : StartElement).Name :: [], none,
          .stkStart (⟨⟨"", "inline"⟩, [⟨⟨"", "distT"⟩, "0"⟩, ⟨⟨"", "distB"⟩, "0"⟩]⟩ : StartElement).Name :: .stkEOF :: []⟩
        ⟨⟨"", "inline"⟩, [⟨⟨"", "distT"⟩, "0"⟩, ⟨⟨"", "distB"⟩, "0"⟩]⟩).err = none ∧
      "graphic" ∈ WPInline.childNames ∧
      tokenLoop.reads WPInline.body
        (([⟨⟨"", "distT"⟩, "0"⟩, ⟨⟨"", "distB"⟩, "0"⟩] : List Attr).foldl (fun r a => (WPInline.attr a r).1) {})
        ⟨[.StartElement ⟨⟨"", "extent"⟩, [⟨⟨"", "cx"⟩, "5949950"⟩, ⟨⟨"", "cy"⟩, "3971925"⟩]⟩,
          .EndElement ⟨"", "extent"⟩,
          .StartElement ⟨⟨"", "docPr"⟩, [⟨⟨"", "id"⟩, "1"⟩, ⟨⟨"", "name"⟩, "Picture 1"⟩]⟩,
          .EndElement ⟨"", "docPr"⟩,
          .StartElement ⟨⟨"", "graphic"⟩, []⟩, .EndElement ⟨"", "graphic"⟩] ++
          .EndElement (⟨⟨"", "inline"⟩, [⟨⟨"", "distT"⟩, "0"⟩, ⟨⟨"", "distB"⟩, "0"⟩]⟩ : StartElement).Name :: [], none,
          .stkStart (⟨⟨"", "inline"⟩, [⟨⟨"", "distT"⟩, "0"⟩, ⟨⟨"", "distB"⟩, "0"⟩]⟩ : StartElement).Name :: .stkEOF :: []⟩
        ⟨⟨"", "graphic"⟩, []⟩
        { Extent := some { CX := 5949950, CY := 3971925 },
          DocPr := some { ID := 1, Name := "Picture 1" } }
        ⟨[.EndElement ⟨"", "graphic"⟩, .EndElement ⟨"", "inline"⟩], none,
          [.stkStart ⟨"", "graphic"⟩, .stkStart ⟨"", "inline"⟩, .stkEOF]⟩) ∧
    (WPInline.UnmarshalXML {}
        ⟨[.StartElement ⟨⟨"", "extent"⟩, [⟨⟨"", "cx"⟩, "5949950"⟩, ⟨⟨"", "cy"⟩, "3971925"⟩]⟩,
          .EndElement ⟨"", "extent"⟩,
          .StartElement ⟨⟨"", "docPr"⟩, [⟨⟨"", "id"⟩, "1"⟩, ⟨⟨"", "name"⟩, "Picture 1"⟩]⟩,
          .EndElement ⟨"", "docPr"⟩,
          .StartElement ⟨⟨"", "graphic"⟩, []⟩, .EndElement ⟨"", "graphic"⟩] ++
          .EndElement (⟨⟨"", "inline"⟩, [⟨⟨"", "distT"⟩, "0"⟩, ⟨⟨"", "distB"⟩, "0"⟩]⟩ : StartElement).Name :: [], none,
          .stkStart (⟨⟨"", "inline"⟩, [⟨⟨"", "distT"⟩, "0"⟩, ⟨⟨"", "distB"⟩, "0"⟩]⟩ : StartElement).Name :: .stkEOF :: []⟩
        ⟨⟨"", "inline"⟩, [⟨⟨"", "distT"⟩, "0"⟩, ⟨⟨"", "distB"⟩, "0"⟩]⟩).val.populated "graphic" = true :=
  ⟨⟨by decide, by decide, by decide,
    ⟨3, ⟨.StartElement ⟨⟨"", "graphic"⟩, []⟩ :: [.EndElement ⟨"", "graphic"⟩, .EndElement ⟨"", "inline"⟩], none,
          [.stkStart ⟨"", "inline"⟩, .stkEOF]⟩, by decide, rfl⟩⟩,
    ((C4_optional_field_presence {}
        ⟨[.StartElement ⟨⟨"", "extent"⟩, [⟨⟨"", "cx"⟩, "5949950"⟩, ⟨⟨"", "cy"⟩, "3971925"⟩]⟩,
          .EndElement ⟨"", "extent"⟩,
          .StartElement ⟨⟨"", "docPr"⟩, [⟨⟨"", "id"⟩, "1"⟩, ⟨⟨"", "name"⟩, "Picture 1"⟩]⟩,
          .EndElement ⟨"", "docPr"⟩,
          .StartElement ⟨⟨"", "graphic"⟩, []⟩, .EndElement ⟨"", "graphic"⟩] ++
          .EndElement (⟨⟨"", "inline"⟩, [⟨⟨"", "distT"⟩, "0"⟩, ⟨⟨"", "distB"⟩, "0"⟩]⟩ : StartElement).Name :: [], none,
          .stkStart (⟨⟨"", "inline"⟩, [⟨⟨"", "distT"⟩, "0"⟩, ⟨⟨"", "distB"⟩, "0"⟩]⟩ : StartElement).Name :: .stkEOF :: []⟩
        ⟨⟨"", "inline"⟩, [⟨⟨"", "distT"⟩, "0"⟩, ⟨⟨"", "distB"⟩, "0"⟩]⟩
      (by decide) (by decide)).1 "graphic" (by decide)).2
      ⟨⟨⟨"", "graphic"⟩, []⟩,
        { Extent := some { CX := 5949950, CY := 3971925 },
          DocPr := some { ID := 1, Name := "Picture 1" } },
        ⟨[.EndElement ⟨"", "graphic"⟩, .EndElement ⟨"", "inline"⟩], none,
          [.stkStart ⟨"", "graphic"⟩, .stkStart ⟨"", "inline"⟩, .stkEOF]⟩,
        ⟨3, ⟨.StartElement ⟨⟨"", "graphic"⟩, []⟩ :: [.EndElement ⟨"", "graphic"⟩, .EndElement ⟨"", "inline"⟩], none,
          [.stkStart ⟨"", "inline"⟩, .stkEOF]⟩, by decide, rfl⟩, rfl⟩⟩

/-- C3, as stated, fails.  With the attributes of the witness on the anchor
start-element and the extent child of the witness in the content:
* when a `simplePos` child without integer `x` comes with the extent child,
  `WPAnchor.UnmarshalXML` returns an error;
* when a `docPr` child with `id="abc"` comes before the extent child, the
  decode returns nil and `Extent` is nil: the failed decode of `docPr`, whose
  error is dropped, ends the loop at the end of that child;
* when a second extent child, `cx="1" cy="2"`, follows the extent child, the
  decode returns nil and `Extent` holds `1` and `2`;
* when the anchor start-element also carries `x:distT="7"` and the extent child
  also carries `x:cx="7"`, attributes of the same local names in another name
  space, the decode returns nil with `DistT = 7` and `CX = 7`. -/
theorem C3_counterexample_other_children :
    (WPAnchor.UnmarshalXML {}
        ⟨[.StartElement ⟨⟨"", "extent"⟩, [⟨⟨"", "cx"⟩, "5949950"⟩, ⟨⟨"", "cy"⟩, "3971925"⟩]⟩,
          .EndElement ⟨"", "extent"⟩,
          .StartElement ⟨⟨"", "simplePos"⟩, [⟨⟨"", "x"⟩, "abc"⟩, ⟨⟨"", "y"⟩, "0"⟩]⟩,
          .EndElement ⟨"", "simplePos"⟩,
          .EndElement ⟨"", "anchor"⟩], none, [.stkStart ⟨"", "anchor"⟩, .stkEOF]⟩
        ⟨⟨"", "anchor"⟩,
          [⟨⟨"", "distT"⟩, "100"⟩, ⟨⟨"", "distB"⟩, "200"⟩, ⟨⟨"", "distL"⟩, "50"⟩,
          ⟨⟨"", "distR"⟩, "75"⟩, ⟨⟨"", "simplePos"⟩, "0"⟩,
          ⟨⟨"", "relativeHeight"⟩, "251658240"⟩, ⟨⟨"", "behindDoc"⟩, "0"⟩,
          ⟨⟨"", "locked"⟩, "0"⟩, ⟨⟨"", "layoutInCell"⟩, "1"⟩, ⟨⟨"", "allowOverlap"⟩, "1"⟩]⟩).err ≠ none ∧
    ((WPAnchor.UnmarshalXML {}
        ⟨[.StartElement ⟨⟨"", "docPr"⟩, [⟨⟨"", "id"⟩, "abc"⟩]⟩, .EndElement ⟨"", "docPr"⟩,
          .StartElement ⟨⟨"", "extent"⟩, [⟨⟨"", "cx"⟩, "5949950"⟩, ⟨⟨"", "cy"⟩, "3971925"⟩]⟩,
          .EndElement ⟨"", "extent"⟩,
          .EndElement ⟨"", "anchor"⟩], none, [.stkStart ⟨"", "anchor"⟩, .stkEOF]⟩
        ⟨⟨"", "anchor"⟩,
          [⟨⟨"", "distT"⟩, "100"⟩, ⟨⟨"", "distB"⟩, "200"⟩, ⟨⟨"", "distL"⟩, "50"⟩,
          ⟨⟨"", "distR"⟩, "75"⟩, ⟨⟨"", "simplePos"⟩, "0"⟩,
          ⟨⟨"", "relativeHeight"⟩, "251658240"⟩, ⟨⟨"", "behindDoc"⟩, "0"⟩,
          ⟨⟨"", "locked"⟩, "0"⟩, ⟨⟨"", "layoutInCell"⟩, "1"⟩, ⟨⟨"", "allowOverlap"⟩, "1"⟩]⟩).err = none ∧
      (WPAnchor.UnmarshalXML {}
        ⟨[.StartElement ⟨⟨"", "docPr"⟩, [⟨⟨"", "id"⟩, "abc"⟩]⟩, .EndElement ⟨"", "docPr"⟩,
          .StartElement ⟨⟨"", "extent"⟩, [⟨⟨"", "cx"⟩, "5949950"⟩, ⟨⟨"", "cy"⟩, "3971925"⟩]⟩,
          .EndElement ⟨"", "extent"⟩,
          .EndElement ⟨"", "anchor"⟩], none, [.stkStart ⟨"", "anchor"⟩, .stkEOF]⟩
        ⟨⟨"", "anchor"⟩,
          [⟨⟨"", "distT"⟩, "100"⟩, ⟨⟨"", "distB"⟩, "200"⟩, ⟨⟨"", "distL"⟩, "50"⟩,
          ⟨⟨"", "distR"⟩, "75"⟩, ⟨⟨"", "simplePos"⟩, "0"⟩,
          ⟨⟨"", "relativeHeight"⟩, "251658240"⟩, ⟨⟨"", "behindDoc"⟩, "0"⟩,
          ⟨⟨"", "locked"⟩, "0"⟩, ⟨⟨"", "layoutInCell"⟩, "1"⟩, ⟨⟨"", "allowOverlap"⟩, "1"⟩]⟩).val.Extent = none) ∧
    ((WPAnchor.UnmarshalXML {}
        ⟨[.StartElement ⟨⟨"", "extent"⟩, [⟨⟨"", "cx"⟩, "5949950"⟩, ⟨⟨"", "cy"⟩, "3971925"⟩]⟩,
          .EndElement ⟨"", "extent"⟩,
          .StartElement ⟨⟨"", "extent"⟩, [⟨⟨"", "cx"⟩, "1"⟩, ⟨⟨"", "cy"⟩, "2"⟩]⟩,
          .EndElement ⟨"", "extent"⟩,
          .EndElement ⟨"", "anchor"⟩], none, [.stkStart ⟨"", "anchor"⟩, .stkEOF]⟩
        ⟨⟨"", "anchor"⟩,
          [⟨⟨"", "distT"⟩, "100"⟩, ⟨⟨"", "distB"⟩, "200"⟩, ⟨⟨"", "distL"⟩, "50"⟩,
          ⟨⟨"", "distR"⟩, "75"⟩, ⟨⟨"", "simplePos"⟩, "0"⟩,
          ⟨⟨"", "relativeHeight"⟩, "251658240"⟩, ⟨⟨"", "behindDoc"⟩, "0"⟩,
          ⟨⟨"", "locked"⟩, "0"⟩, ⟨⟨"", "layoutInCell"⟩, "1"⟩, ⟨⟨"", "allowOverlap"⟩, "1"⟩]⟩).err = none ∧
      (WPAnchor.UnmarshalXML {}
        ⟨[.StartElement ⟨⟨"", "extent"⟩, [⟨⟨"", "cx"⟩, "5949950"⟩, ⟨⟨"", "cy"⟩, "3971925"⟩]⟩,
          .EndElement ⟨"", "extent"⟩,
          .StartElement ⟨⟨"", "extent"⟩, [⟨⟨"", "cx"⟩, "1"⟩, ⟨⟨"", "cy"⟩, "2"⟩]⟩,
          .EndElement ⟨"", "extent"⟩,
          .EndElement ⟨"", "anchor"⟩], none, [.stkStart ⟨"", "anchor"⟩, .stkEOF]⟩
        ⟨⟨"", "anchor"⟩,
          [⟨⟨"", "distT"⟩, "100"⟩, ⟨⟨"", "distB"⟩, "200"⟩, ⟨⟨"", "distL"⟩, "50"⟩,
          ⟨⟨"", "distR"⟩, "75"⟩, ⟨⟨"", "simplePos"⟩, "0"⟩,
          ⟨⟨"", "relativeHeight"⟩, "251658240"⟩, ⟨⟨"", "behindDoc"⟩, "0"⟩,
          ⟨⟨"", "locked"⟩, "0"⟩, ⟨⟨"", "layoutInCell"⟩, "1"⟩, ⟨⟨"", "allowOverlap"⟩, "1"⟩]⟩).val.Extent = some { CX := 1, CY := 2 }) ∧
    ((WPAnchor.UnmarshalXML {}
        ⟨[.StartElement ⟨⟨"", "extent"⟩,
            [⟨⟨"", "cx"⟩, "5949950"⟩, ⟨⟨"x", "cx"⟩, "7"⟩, ⟨⟨"", "cy"⟩, "3971925"⟩]⟩,
          .EndElement ⟨"", "extent"⟩,
          .EndElement ⟨"", "anchor"⟩], none, [.stkStart ⟨"", "anchor"⟩, .stkEOF]⟩
        ⟨⟨"", "anchor"⟩,
          [⟨⟨"", "distT"⟩, "100"⟩, ⟨⟨"x", "distT"⟩, "7"⟩, ⟨⟨"", "distB"⟩, "200"⟩,
          ⟨⟨"", "distL"⟩, "50"⟩, ⟨⟨"", "distR"⟩, "75"⟩, ⟨⟨"", "simplePos"⟩, "0"⟩,
          ⟨⟨"", "relativeHeight"⟩, "251658240"⟩, ⟨⟨"", "behindDoc"⟩, "0"⟩,
          ⟨⟨"", "locked"⟩, "0"⟩, ⟨⟨"", "layoutInCell"⟩, "1"⟩, ⟨⟨"", "allowOverlap"⟩, "1"⟩]⟩).err = none ∧
      (WPAnchor.UnmarshalXML {}
        ⟨[.StartElement ⟨⟨"", "extent"⟩,
            [⟨⟨"", "cx"⟩, "5949950"⟩, ⟨⟨"x", "cx"⟩, "7"⟩, ⟨⟨"", "cy"⟩, "3971925"⟩]⟩,
          .EndElement ⟨"", "extent"⟩,
          .EndElement ⟨"", "anchor"⟩], none, [.stkStart ⟨"", "anchor"⟩, .stkEOF]⟩
        ⟨⟨"", "anchor"⟩,
          [⟨⟨"", "distT"⟩, "100"⟩, ⟨⟨"x", "distT"⟩, "7"⟩, ⟨⟨"", "distB"⟩, "200"⟩,
          ⟨⟨"", "distL"⟩, "50"⟩, ⟨⟨"", "distR"⟩, "75"⟩, ⟨⟨"", "simplePos"⟩, "0"⟩,
          ⟨⟨"", "relativeHeight"⟩, "251658240"⟩, ⟨⟨"", "behindDoc"⟩, "0"⟩,
          ⟨⟨"", "locked"⟩, "0"⟩, ⟨⟨"", "layoutInCell"⟩, "1"⟩, ⟨⟨"", "allowOverlap"⟩, "1"⟩]⟩).val.DistT = 7 ∧
      (WPAnchor.UnmarshalXML {}
        ⟨[.StartElement ⟨⟨"", "extent"⟩,
            [⟨⟨"", "cx"⟩, "5949950"⟩, ⟨⟨"x", "cx"⟩, "7"⟩, ⟨⟨"", "cy"⟩, "3971925"⟩]⟩,
          .EndElement ⟨"", "extent"⟩,
          .EndElement ⟨"", "anchor"⟩], none, [.stkStart ⟨"", "anchor"⟩, .stkEOF]⟩
        ⟨⟨"", "anchor"⟩,
          [⟨⟨"", "distT"⟩, "100"⟩, ⟨⟨"x", "distT"⟩, "7"⟩, ⟨⟨"", "distB"⟩, "200"⟩,
          ⟨⟨"", "distL"⟩, "50"⟩, ⟨⟨"", "distR"⟩, "75"⟩, ⟨⟨"", "simplePos"⟩, "0"⟩,
          ⟨⟨"", "relativeHeight"⟩, "251658240"⟩, ⟨⟨"", "behindDoc"⟩, "0"⟩,
          ⟨⟨"", "locked"⟩, "0"⟩, ⟨⟨"", "layoutInCell"⟩, "1"⟩, ⟨⟨"", "allowOverlap"⟩, "1"⟩]⟩).val.Extent = some { CX := 7, CY := 3971925 }) := by
  decide

/-- The body of the loop of `WPAnchor.UnmarshalXML` returns an error for a
`simplePos` start-element only. -/
theorem WPAnchor_body_ret_simplePos (tt : StartElement) (r : WPAnchor) (d : Decoder)
    (r2 : WPAnchor) (d2 : Decoder) (e : Error) (h : WPAnchor.body tt r d = .ret r2 d2 e) :
    tt.Name.Local = "simplePos" := by
  by_contra h0
  unfold WPAnchor.body at h
  rw [if_neg h0] at h
  by_cases h1 : tt.Name.Local = "positionH"
  · rw [if_pos h1] at h
    (try dsimp only at h)
    repeat' split at h
    all_goals (cases h)
  rw [if_neg h1] at h
  by_cases h2 : tt.Name.Local = "positionV"
  · rw [if_pos h2] at h
    (try dsimp only at h)
    repeat' split at h
    all_goals (cases h)
  rw [if_neg h2] at h
  by_cases h3 : tt.Name.Local = "extent"
  · rw [if_pos h3] at h
    (try dsimp only at h)
    repeat' split at h
    all_goals (cases h)
  rw [if_neg h3] at h
  by_cases h4 : tt.Name.Local = "effectExtent"
  · rw [if_pos h4] at h
    (try dsimp only at h)
    repeat' split at h
    all_goals (cases h)
  rw [if_neg h4] at h
  by_cases h5 : tt.Name.Local = "wrapNone"
  · rw [if_pos h5] at h
    (try dsimp only at h)
    repeat' split at h
    all_goals (cases h)
  rw [if_neg h5] at h
  by_cases h6 : tt.Name.Local = "wrapSquare"
  · rw [if_pos h6] at h
    (try dsimp only at h)
    repeat' split at h
    all_goals (cases h)
  rw [if_neg h6] at h
  by_cases h7 : tt.Name.Local = "docPr"
  · rw [if_pos h7] at h
    (try dsimp only at h)
    repeat' split at h
    all_goals (cases h)
  rw [if_neg h7] at h
  by_cases h8 : tt.Name.Local = "cNvGraphicFramePr"
  · rw [if_pos h8] at h
    (try dsimp only at h)
    repeat' split at h
    all_goals (cases h)
  rw [if_neg h8] at h
  by_cases h9 : tt.Name.Local = "graphic"
  · rw [if_pos h9] at h
    (try dsimp only at h)
    repeat' split at h
    all_goals (cases h)
  rw [if_neg h9] at h
  cases h

/-- The round on a `simplePos` start-element whose `x` and `y` are integer
literals goes on to the next token. -/
theorem WPAnchor_body_simplePos_ok (tt : StartElement) (r : WPAnchor) (d : Decoder)
    (hc : tt.Name.Local = "simplePos")
    (hx : ∃ n, IsInt64Literal (getAtt tt.Attr "x") n)
    (hy : ∃ n, IsInt64Literal (getAtt tt.Attr "y") n) :
    ∃ r2 d2, WPAnchor.body tt r d = .next r2 d2 := by
  obtain ⟨x, hx⟩ := hx
  obtain ⟨y, hy⟩ := hy
  unfold WPAnchor.body
  rw [if_pos hc]
  simp only [(ParseInt_ok_iff _ 64 x (Or.inr rfl)).2 hx, (ParseInt_ok_iff _ 64 y (Or.inr rfl)).2 hy]
  exact ⟨_, _, rfl⟩

/-- The round of the loop of `WPAnchor.UnmarshalXML` on an `extent`
start-element that carries `cx` and `cy` with integer literals leaves `Extent`
present with these integers, whatever the nested decode returns. -/
theorem WPAnchor_body_extent_val (tt : StartElement) (r : WPAnchor) (d : Decoder) (cx cy : Int)
    (h : tt.Name.Local = "extent") (h_cx : hasIntAttr tt.Attr "cx" cx)
    (h_cy : hasIntAttr tt.Attr "cy" cy) :
    ∃ v, (WPAnchor.body tt r d).val.Extent = some v ∧ v.CX = cx ∧ v.CY = cy := by
  rw [WPAnchor_body_at_extent tt r d h]
  refine ⟨_, rfl, ?_, ?_⟩
  · rw [DecodeElement_val, (WPExtent_UnmarshalXML_val _ _ _
      (WPExtent_numeric_of_hasIntAttr tt cx cy h_cx h_cy)).1]
    exact WPExtent_attrs_CX _ _ _ h_cx.2 h_cx.1
  · rw [DecodeElement_val, (WPExtent_UnmarshalXML_val _ _ _
      (WPExtent_numeric_of_hasIntAttr tt cx cy h_cx h_cy)).1]
    exact WPExtent_attrs_CY _ _ _ h_cy.2 h_cy.1

/-- C3, amended: for every anchor start-element that carries the attributes
`distT`, `distB`, `distL`, `distR`, `simplePos`, `relativeHeight`, `behindDoc`,
`locked`, `layoutInCell` and `allowOverlap` with base-10 integer literals as
values (every attribute of each of these local names holding the literal of
the same integer):
* whatever the decoder holds and whatever the decode returns, each of the ten
  fields ends equal to the integer of its attribute;
* on the decoder that `DecodeElement` hands over for an anchor element with
  well-nested content, whatever the children are, `WPAnchor.UnmarshalXML`
  returns nil when every `simplePos` start-element of the content carries
  integer literals as `x` and `y`; and when the loop reads an `extent`
  start-element and every `extent` start-element of the content carries `cx`
  and `cy` with the literals of the same two integers, `Extent` ends present
  with `CX` and `CY` these integers.
The case in which the loop has ended before it gets to the extent child is
left out. -/
theorem C3_anchor_attributes_and_extent (r : WPAnchor) (start : StartElement)
    (distT distB distL distR simplePos relativeHeight behindDoc locked layoutInCell allowOverlap : Int)
    (h_distT : hasIntAttr start.Attr "distT" distT)
    (h_distB : hasIntAttr start.Attr "distB" distB)
    (h_distL : hasIntAttr start.Attr "distL" distL)
    (h_distR : hasIntAttr start.Attr "distR" distR)
    (h_simplePos : hasIntAttr start.Attr "simplePos" simplePos)
    (h_relativeHeight : hasIntAttr start.Attr "relativeHeight" relativeHeight)
    (h_behindDoc : hasIntAttr start.Attr "behindDoc" behindDoc)
    (h_locked : hasIntAttr start.Attr "locked" locked)
    (h_layoutInCell : hasIntAttr start.Attr "layoutInCell" layoutInCell)
    (h_allowOverlap : hasIntAttr start.Attr "allowOverlap" allowOverlap) :
    (∀ d : Decoder,
      (WPAnchor.UnmarshalXML r d start).val.DistT = distT ∧
        (WPAnchor.UnmarshalXML r d start).val.DistB = distB ∧
        (WPAnchor.UnmarshalXML r d start).val.DistL = distL ∧
        (WPAnchor.UnmarshalXML r d start).val.DistR = distR ∧
        (WPAnchor.UnmarshalXML r d start).val.SimplePos = simplePos ∧
        (WPAnchor.UnmarshalXML r d start).val.RelativeHeight = relativeHeight ∧
        (WPAnchor.UnmarshalXML r d start).val.BehindDoc = behindDoc ∧
        (WPAnchor.UnmarshalXML r d start).val.Locked = locked ∧
        (WPAnchor.UnmarshalXML r d start).val.LayoutInCell = layoutInCell ∧
        (WPAnchor.UnmarshalXML r d start).val.AllowOverlap = allowOverlap) ∧
    (∀ (content rest : List Token) (err : Option Error) (base : List Stack) (d : Decoder),
      inert (fun _ => false) [] content = true →
      d = ⟨content ++ .EndElement start.Name :: rest, err,
        .stkStart start.Name :: .stkEOF :: base⟩ →
      ((∀ t, Token.StartElement t ∈ content → t.Name.Local = "simplePos" →
          (∃ n, IsInt64Literal (getAtt t.Attr "x") n) ∧
            ∃ n, IsInt64Literal (getAtt t.Attr "y") n) →
        (WPAnchor.UnmarshalXML r d start).err = none) ∧
      ∀ (cx cy : Int) (te : StartElement) (r1 : WPAnchor) (d1 : Decoder),
        tokenLoop.reads WPAnchor.body
          (start.Attr.foldl (fun r a => (WPAnchor.attr a r).1) r) d te r1 d1 →
        te.Name.Local = "extent" →
        (∀ t, Token.StartElement t ∈ content → t.Name.Local = "extent" →
          hasIntAttr t.Attr "cx" cx ∧ hasIntAttr t.Attr "cy" cy) →
        ∃ v, (WPAnchor.UnmarshalXML r d start).val.Extent = some v ∧ v.CX = cx ∧ v.CY = cy) := by
  have hattrs : ∀ a ∈ start.Attr, a.Name.Local ∈ WPAnchor.numericAttrs →
      ∃ n, IsInt64Literal a.Value n := by
    intro a ha hn
    simp only [WPAnchor.numericAttrs, List.mem_cons, List.mem_singleton, List.not_mem_nil,
      or_false] at hn
    rcases hn with hn | hn | hn | hn | hn | hn | hn | hn | hn | hn
    · exact ⟨_, h_distT.2 a ha hn⟩
    · exact ⟨_, h_distB.2 a ha hn⟩
    · exact ⟨_, h_distL.2 a ha hn⟩
    · exact ⟨_, h_distR.2 a ha hn⟩
    · exact ⟨_, h_simplePos.2 a ha hn⟩
    · exact ⟨_, h_relativeHeight.2 a ha hn⟩
    · exact ⟨_, h_behindDoc.2 a ha hn⟩
    · exact ⟨_, h_locked.2 a ha hn⟩
    · exact ⟨_, h_layoutInCell.2 a ha hn⟩
    · exact ⟨_, h_allowOverlap.2 a ha hn⟩
  constructor
  · intro d
    rw [WPAnchor_UnmarshalXML_loop start r d hattrs]
    refine ⟨?_, ?_, ?_, ?_, ?_, ?_, ?_, ?_, ?_, ?_⟩
    · exact (show _ = _ from tokenLoop_inv WPAnchor.body (fun x => x.DistT =
          (start.Attr.foldl (fun r a => (WPAnchor.attr a r).1) r).DistT)
        (fun tt x d hx => by
          show (WPAnchor.body tt x d).val.DistT = _
          rw [WPAnchor_body_DistT tt x d]; exact hx) _ _ _ rfl).trans
        (WPAnchor_attrs_DistT _ _ _ h_distT.2 h_distT.1)
    · exact (show _ = _ from tokenLoop_inv WPAnchor.body (fun x => x.DistB =
          (start.Attr.foldl (fun r a => (WPAnchor.attr a r).1) r).DistB)
        (fun tt x d hx => by
          show (WPAnchor.body tt x d).val.DistB = _
          rw [WPAnchor_body_DistB tt x d]; exact hx) _ _ _ rfl).trans
        (WPAnchor_attrs_DistB _ _ _ h_distB.2 h_distB.1)
    · exact (show _ = _ from tokenLoop_inv WPAnchor.body (fun x => x.DistL =
          (start.Attr.foldl (fun r a => (WPAnchor.attr a r).1) r).DistL)
        (fun tt x d hx => by
          show (WPAnchor.body tt x d).val.DistL = _
          rw [WPAnchor_body_DistL tt x d]; exact hx) _ _ _ rfl).trans
        (WPAnchor_attrs_DistL _ _ _ h_distL.2 h_distL.1)
    · exact (show _ = _ from tokenLoop_inv WPAnchor.body (fun x => x.DistR =
          (start.Attr.foldl (fun r a => (WPAnchor.attr a r).1) r).DistR)
        (fun tt x d hx => by
          show (WPAnchor.body tt x d).val.DistR = _
          rw [WPAnchor_body_DistR tt x d]; exact hx) _ _ _ rfl).trans
        (WPAnchor_attrs_DistR _ _ _ h_distR.2 h_distR.1)
    · exact (show _ = _ from tokenLoop_inv WPAnchor.body (fun x => x.SimplePos =
          (start.Attr.foldl (fun r a => (WPAnchor.attr a r).1) r).SimplePos)
        (fun tt x d hx => by
          show (WPAnchor.body tt x d).val.SimplePos = _
          rw [WPAnchor_body_SimplePos tt x d]; exact hx) _ _ _ rfl).trans
        (WPAnchor_attrs_SimplePos _ _ _ h_simplePos.2 h_simplePos.1)
    · exact (show _ = _ from tokenLoop_inv WPAnchor.body (fun x => x.RelativeHeight =
          (start.Attr.foldl (fun r a => (WPAnchor.attr a r).1) r).RelativeHeight)
        (fun tt x d hx => by
          show (WPAnchor.body tt x d).val.RelativeHeight = _
          rw [WPAnchor_body_RelativeHeight tt x d]; exact hx) _ _ _ rfl).trans
        (WPAnchor_attrs_RelativeHeight _ _ _ h_relativeHeight.2 h_relativeHeight.1)
    · exact (show _ = _ from tokenLoop_inv WPAnchor.body (fun x => x.BehindDoc =
          (start.Attr.foldl (fun r a => (WPAnchor.attr a r).1) r).BehindDoc)
        (fun tt x d hx => by
          show (WPAnchor.body tt x d).val.BehindDoc = _
          rw [WPAnchor_body_BehindDoc tt x d]; exact hx) _ _ _ rfl).trans
        (WPAnchor_attrs_BehindDoc _ _ _ h_behindDoc.2 h_behindDoc.1)
    · exact (show _ = _ from tokenLoop_inv WPAnchor.body (fun x => x.Locked =
          (start.Attr.foldl (fun r a => (WPAnchor.attr a r).1) r).Locked)
        (fun tt x d hx => by
          show (WPAnchor.body tt x d).val.Locked = _
          rw [WPAnchor_body_Locked tt x d]; exact hx) _ _ _ rfl).trans
        (WPAnchor_attrs_Locked _ _ _ h_locked.2 h_locked.1)
    · exact (show _ = _ from tokenLoop_inv WPAnchor.body (fun x => x.LayoutInCell =
          (start.Attr.foldl (fun r a => (WPAnchor.attr a r).1) r).LayoutInCell)
        (fun tt x d hx => by
          show (WPAnchor.body tt x d).val.LayoutInCell = _
          rw [WPAnchor_body_LayoutInCell tt x d]; exact hx) _ _ _ rfl).trans
        (WPAnchor_attrs_LayoutInCell _ _ _ h_layoutInCell.2 h_layoutInCell.1)
    · exact (show _ = _ from tokenLoop_inv WPAnchor.body (fun x => x.AllowOverlap =
          (start.Attr.foldl (fun r a => (WPAnchor.attr a r).1) r).AllowOverlap)
        (fun tt x d hx => by
          show (WPAnchor.body tt x d).val.AllowOverlap = _
          rw [WPAnchor_body_AllowOverlap tt x d]; exact hx) _ _ _ rfl).trans
        (WPAnchor_attrs_AllowOverlap _ _ _ h_allowOverlap.2 h_allowOverlap.1)
  intro content rest err base d hcontent hd
  have hs : d.Scoped base rest (content ++ [.EndElement start.Name]) := by
    rw [hd]; exact Scoped_element start.Name content rest err base hcontent
  have hbody : ∀ (tt : StartElement) (r : WPAnchor) (d : Decoder),
      d.Scoped base rest (content ++ [.EndElement start.Name]) →
      (∃ n below, d.stk = .stkStart n :: below) →
      (WPAnchor.body tt r d).dec.Scoped base rest (content ++ [.EndElement start.Name]) :=
    fun tt r d h1 h2 => WPAnchor_body_scoped tt r d base rest _ h1 h2
  rw [WPAnchor_UnmarshalXML_loop start r d hattrs]
  constructor
  · intro hpos
    rcases he : (tokenLoop WPAnchor.body (d.toks.length + 1)
        (start.Attr.foldl (fun r a => (WPAnchor.attr a r).1) r) d).err with _ | e
    · rfl
    · exfalso
      obtain ⟨tt, r1, d1, r2, d2, hr, hb⟩ := tokenLoop_scoped_err WPAnchor.body
        WPAnchor_body_reach base rest _ hbody _ d hs e he
      have hn := WPAnchor_body_ret_simplePos tt r1 d1 r2 d2 e hb
      have hm := start_mem_content (tokenLoop_reads_scoped WPAnchor.body base rest _ hbody
        _ d hs tt r1 d1 hr).1
      obtain ⟨hx, hy⟩ := hpos tt hm hn
      obtain ⟨r3, d3, h3⟩ := WPAnchor_body_simplePos_ok tt r1 d1 hn hx hy
      rw [h3] at hb
      cases hb
  · intro cx cy te r1 d1 hr hte hext
    have hsc := tokenLoop_reads_scoped WPAnchor.body base rest _ hbody _ d hs te r1 d1 hr
    have hte2 := hext te (start_mem_content hsc.1) hte
    have hsets := WPAnchor_body_extent_val te r1 d1 cx cy hte hte2.1 hte2.2
    have hkeep : ∀ (d2 : Decoder), d2.Scoped base rest (content ++ [.EndElement start.Name]) →
        ∀ (r2 : WPAnchor), (∃ v, r2.Extent = some v ∧ v.CX = cx ∧ v.CY = cy) →
        ∃ v, (tokenLoop WPAnchor.body (d2.toks.length + 1) r2 d2).val.Extent = some v ∧
          v.CX = cx ∧ v.CY = cy := by
      intro d2 hs2 r2 h2
      refine tokenLoop_reads_inv WPAnchor.body WPAnchor_body_reach
        (fun x => ∃ v, x.Extent = some v ∧ v.CX = cx ∧ v.CY = cy) r2 d2 ?_ h2
      intro t2 r3 d3 h3 hJ
      by_cases hn : t2.Name.Local = "extent"
      · have hm := start_mem_content (tokenLoop_reads_scoped WPAnchor.body base rest _ hbody
          _ d2 hs2 t2 r3 d3 h3).1
        have ht2 := hext t2 hm hn
        exact WPAnchor_body_extent_val t2 r3 d3 cx cy hn ht2.1 ht2.2
      · show ∃ v, (WPAnchor.body t2 r3 d3).val.Extent = some v ∧ _
        rw [WPAnchor_body_Extent t2 r3 d3 hn]; exact hJ
    have hb2 := hbody te r1 d1 hsc.2.1 hsc.2.2
    rcases hb : WPAnchor.body te r1 d1 with ⟨r2, d2⟩ | ⟨r2, d2, e⟩
    · rw [tokenLoop_reads_next WPAnchor.body WPAnchor_body_reach _ d te r1 d1 r2 d2 hr hb]
      rw [hb] at hsets hb2
      exact hkeep d2 hb2 r2 hsets
    · rw [tokenLoop_reads_ret WPAnchor.body WPAnchor_body_reach _ d te r1 d1 r2 d2 e hr hb]
      rw [hb] at hsets
      exact hsets

/-- C3, amended, at the anchor of the specification, `distT="100"`,
`distB="200"`, `distL="50"`, `distR="75"`, `simplePos="0"`,
`relativeHeight="251658240"`, `behindDoc="0"`, `locked="0"`, `layoutInCell="1"`,
`allowOverlap="1"`, with the children `simplePos`, `positionH` (holding a
`posOffset`), `extent cx="5949950" cy="3971925"`, `wrapNone` and `docPr`: the
loop reads the `extent` start-element in its fourth round, the decode returns
nil, the ten fields hold the integers of the attributes and `Extent` holds
those of `cx` and `cy`. -/
theorem C3_anchor_attributes_and_extent_witness :
    ((hasIntAttr
        [⟨⟨"", "distT"⟩, "100"⟩, ⟨⟨"", "distB"⟩, "200"⟩, ⟨⟨"", "distL"⟩, "50"⟩,
          ⟨⟨"", "distR"⟩, "75"⟩, ⟨⟨"", "simplePos"⟩, "0"⟩,
          ⟨⟨"", "relativeHeight"⟩, "251658240"⟩, ⟨⟨"", "behindDoc"⟩, "0"⟩,
          ⟨⟨"", "locked"⟩, "0"⟩, ⟨⟨"", "layoutInCell"⟩, "1"⟩, ⟨⟨"", "allowOverlap"⟩, "1"⟩]
        "distT" 100 ∧
      hasIntAttr
        [⟨⟨"", "distT"⟩, "100"⟩, ⟨⟨"", "distB"⟩, "200"⟩, ⟨⟨"", "distL"⟩, "50"⟩,
          ⟨⟨"", "distR"⟩, "75"⟩, ⟨⟨"", "simplePos"⟩, "0"⟩,
          ⟨⟨"", "relativeHeight"⟩, "251658240"⟩, ⟨⟨"", "behindDoc"⟩, "0"⟩,
          ⟨⟨"", "locked"⟩, "0"⟩, ⟨⟨"", "layoutInCell"⟩, "1"⟩, ⟨⟨"", "allowOverlap"⟩, "1"⟩]
        "distB" 200 ∧
      hasIntAttr
        [⟨⟨"", "distT"⟩, "100"⟩, ⟨⟨"", "distB"⟩, "200"⟩, ⟨⟨"", "distL"⟩, "50"⟩,
          ⟨⟨"", "distR"⟩, "75"⟩, ⟨⟨"", "simplePos"⟩, "0"⟩,
          ⟨⟨"", "relativeHeight"⟩, "251658240"⟩, ⟨⟨"", "behindDoc"⟩, "0"⟩,
          ⟨⟨"", "locked"⟩, "0"⟩, ⟨⟨"", "layoutInCell"⟩, "1"⟩, ⟨⟨"", "allowOverlap"⟩, "1"⟩]
        "distL" 50 ∧
      hasIntAttr
        [⟨⟨"", "distT"⟩, "100"⟩, ⟨⟨"", "distB"⟩, "200"⟩, ⟨⟨"", "distL"⟩, "50"⟩,
          ⟨⟨"", "distR"⟩, "75"⟩, ⟨⟨"", "simplePos"⟩, "0"⟩,
          ⟨⟨"", "relativeHeight"⟩, "251658240"⟩, ⟨⟨"", "behindDoc"⟩, "0"⟩,
          ⟨⟨"", "locked"⟩, "0"⟩, ⟨⟨"", "layoutInCell"⟩, "1"⟩, ⟨⟨"", "allowOverlap"⟩, "1"⟩]
        "distR" 75 ∧
      hasIntAttr
        [⟨⟨"", "distT"⟩, "100"⟩, ⟨⟨"", "distB"⟩, "200"⟩, ⟨⟨"", "distL"⟩, "50"⟩,
          ⟨⟨"", "distR"⟩, "75"⟩, ⟨⟨"", "simplePos"⟩, "0"⟩,
          ⟨⟨"", "relativeHeight"⟩, "251658240"⟩, ⟨⟨"", "behindDoc"⟩, "0"⟩,
          ⟨⟨"", "locked"⟩, "0"⟩, ⟨⟨"", "layoutInCell"⟩, "1"⟩, ⟨⟨"", "allowOverlap"⟩, "1"⟩]
        "simplePos" 0 ∧
      hasIntAttr
        [⟨⟨"", "distT"⟩, "100"⟩, ⟨⟨"", "distB"⟩, "200"⟩, ⟨⟨"", "distL"⟩, "50"⟩,
          ⟨⟨"", "distR"⟩, "75"⟩, ⟨⟨"", "simplePos"⟩, "0"⟩,
          ⟨⟨"", "relativeHeight"⟩, "251658240"⟩, ⟨⟨"", "behindDoc"⟩, "0"⟩,
          ⟨⟨"", "locked"⟩, "0"⟩, ⟨⟨"", "layoutInCell"⟩, "1"⟩, ⟨⟨"", "allowOverlap"⟩, "1"⟩]
        "relativeHeight" 251658240 ∧
      hasIntAttr
        [⟨⟨"", "distT"⟩, "100"⟩, ⟨⟨"", "distB"⟩, "200"⟩, ⟨⟨"", "distL"⟩, "50"⟩,
          ⟨⟨"", "distR"⟩, "75"⟩, ⟨⟨"", "simplePos"⟩, "0"⟩,
          ⟨⟨"", "relativeHeight"⟩, "251658240"⟩, ⟨⟨"", "behindDoc"⟩, "0"⟩,
          ⟨⟨"", "locked"⟩, "0"⟩, ⟨⟨"", "layoutInCell"⟩, "1"⟩, ⟨⟨"", "allowOverlap"⟩, "1"⟩]
        "behindDoc" 0 ∧
      hasIntAttr
        [⟨⟨"", "distT"⟩, "100"⟩, ⟨⟨"", "distB"⟩, "200"⟩, ⟨⟨"", "distL"⟩, "50"⟩,
          ⟨⟨"", "distR"⟩, "75"⟩, ⟨⟨"", "simplePos"⟩, "0"⟩,
          ⟨⟨"", "relativeHeight"⟩, "251658240"⟩, ⟨⟨"", "behindDoc"⟩, "0"⟩,
          ⟨⟨"", "locked"⟩, "0"⟩, ⟨⟨"", "layoutInCell"⟩, "1"⟩, ⟨⟨"", "allowOverlap"⟩, "1"⟩]
        "locked" 0 ∧
      hasIntAttr
        [⟨⟨"", "distT"⟩, "100"⟩, ⟨⟨"", "distB"⟩, "200"⟩, ⟨⟨"", "distL"⟩, "50"⟩,
          ⟨⟨"", "distR"⟩, "75"⟩, ⟨⟨"", "simplePos"⟩, "0"⟩,
          ⟨⟨"", "relativeHeight"⟩, "251658240"⟩, ⟨⟨"", "behindDoc"⟩, "0"⟩,
          ⟨⟨"", "locked"⟩, "0"⟩, ⟨⟨"", "layoutInCell"⟩, "1"⟩, ⟨⟨"", "allowOverlap"⟩, "1"⟩]
        "layoutInCell" 1 ∧
      hasIntAttr
        [⟨⟨"", "distT"⟩, "100"⟩, ⟨⟨"", "distB"⟩, "200"⟩, ⟨⟨"", "distL"⟩, "50"⟩,
          ⟨⟨"", "distR"⟩, "75"⟩, ⟨⟨"", "simplePos"⟩, "0"⟩,
          ⟨⟨"", "relativeHeight"⟩, "251658240"⟩, ⟨⟨"", "behindDoc"⟩, "0"⟩,
          ⟨⟨"", "locked"⟩, "0"⟩, ⟨⟨"", "layoutInCell"⟩, "1"⟩, ⟨⟨"", "allowOverlap"⟩, "1"⟩]
        "allowOverlap" 1) ∧
      inert (fun _ => false) []
        [.StartElement ⟨⟨"", "simplePos"⟩, [⟨⟨"", "x"⟩, "0"⟩, ⟨⟨"", "y"⟩, "0"⟩]⟩,
          .EndElement ⟨"", "simplePos"⟩,
          .StartElement ⟨⟨"", "positionH"⟩, [⟨⟨"", "relativeFrom"⟩, "column"⟩]⟩,
          .StartElement ⟨⟨"", "posOffset"⟩, []⟩, .CharData "1905",
          .EndElement ⟨"", "posOffset"⟩, .EndElement ⟨"", "positionH"⟩,
          .StartElement ⟨⟨"", "extent"⟩, [⟨⟨"", "cx"⟩, "5949950"⟩, ⟨⟨"", "cy"⟩, "3971925"⟩]⟩,
          .EndElement ⟨"", "extent"⟩,
          .StartElement ⟨⟨"", "wrapNone"⟩, []⟩, .EndElement ⟨"", "wrapNone"⟩,
          .StartElement ⟨⟨"", "docPr"⟩, [⟨⟨"", "id"⟩, "1"⟩, ⟨⟨"", "name"⟩, "Picture 1"⟩]⟩,
          .EndElement ⟨"", "docPr"⟩] = true ∧
      (∀ t, Token.StartElement t ∈
          ([.StartElement ⟨⟨"", "simplePos"⟩, [⟨⟨"", "x"⟩, "0"⟩, ⟨⟨"", "y"⟩, "0"⟩]⟩,
          .EndElement ⟨"", "simplePos"⟩,
          .StartElement ⟨⟨"", "positionH"⟩, [⟨⟨"", "relativeFrom"⟩, "column"⟩]⟩,
          .StartElement ⟨⟨"", "posOffset"⟩, []⟩, .CharData "1905",
          .EndElement ⟨"", "posOffset"⟩, .EndElement ⟨"", "positionH"⟩,
          .StartElement ⟨⟨"", "extent"⟩, [⟨⟨"", "cx"⟩, "5949950"⟩, ⟨⟨"", "cy"⟩, "3971925"⟩]⟩,
          .EndElement ⟨"", "extent"⟩,
          .StartElement ⟨⟨"", "wrapNone"⟩, []⟩, .EndElement ⟨"", "wrapNone"⟩,
          .StartElement ⟨⟨"", "docPr"⟩, [⟨⟨"", "id"⟩, "1"⟩, ⟨⟨"", "name"⟩, "Picture 1"⟩]⟩,
          .EndElement ⟨"", "docPr"⟩] : List Token) →
        t.Name.Local = "simplePos" →
        (∃ n, IsInt64Literal (getAtt t.Attr "x") n) ∧
          ∃ n, IsInt64Literal (getAtt t.Attr "y") n) ∧
      tokenLoop.reads WPAnchor.body
        (([⟨⟨"", "distT"⟩, "100"⟩, ⟨⟨"", "distB"⟩, "200"⟩, ⟨⟨"", "distL"⟩, "50"⟩,
          ⟨⟨"", "distR"⟩, "75"⟩, ⟨⟨"", "simplePos"⟩, "0"⟩,
          ⟨⟨"", "relativeHeight"⟩, "251658240"⟩, ⟨⟨"", "behindDoc"⟩, "0"⟩,
          ⟨⟨"", "locked"⟩, "0"⟩, ⟨⟨"", "layoutInCell"⟩, "1"⟩, ⟨⟨"", "allowOverlap"⟩, "1"⟩] : List Attr).foldl
          (fun r a => (WPAnchor.attr a r).1) {})
        ⟨[.StartElement ⟨⟨"", "simplePos"⟩, [⟨⟨"", "x"⟩, "0"⟩, ⟨⟨"", "y"⟩, "0"⟩]⟩,
          .EndElement ⟨"", "simplePos"⟩,
          .StartElement ⟨⟨"", "positionH"⟩, [⟨⟨"", "relativeFrom"⟩, "column"⟩]⟩,
          .StartElement ⟨⟨"", "posOffset"⟩, []⟩, .CharData "1905",
          .EndElement ⟨"", "posOffset"⟩, .EndElement ⟨"", "positionH"⟩,
          .StartElement ⟨⟨"", "extent"⟩, [⟨⟨"", "cx"⟩, "5949950"⟩, ⟨⟨"", "cy"⟩, "3971925"⟩]⟩,
          .EndElement ⟨"", "extent"⟩,
          .StartElement ⟨⟨"", "wrapNone"⟩, []⟩, .EndElement ⟨"", "wrapNone"⟩,
          .StartElement ⟨⟨"", "docPr"⟩, [⟨⟨"", "id"⟩, "1"⟩, ⟨⟨"", "name"⟩, "Picture 1"⟩]⟩,
          .EndElement ⟨"", "docPr"⟩] ++
          .EndElement (⟨"", "anchor"⟩ : Name) :: [], none,
          .stkStart (⟨"", "anchor"⟩ : Name) :: .stkEOF :: []⟩
        ⟨⟨"", "extent"⟩, [⟨⟨"", "cx"⟩, "5949950"⟩, ⟨⟨"", "cy"⟩, "3971925"⟩]⟩
        { DistT := 100, DistB := 200, DistL := 50, DistR := 75, SimplePos := 0,
          RelativeHeight := 251658240, BehindDoc := 0, Locked := 0, LayoutInCell := 1,
          AllowOverlap := 1, SimplePosXY := some { X := 0, Y := 0 },
          PositionH := some { RelativeFrom := "column", PosOffset := 1905 } }
        ⟨[.EndElement ⟨"", "extent"⟩,
          .StartElement ⟨⟨"", "wrapNone"⟩, []⟩, .EndElement ⟨"", "wrapNone"⟩,
          .StartElement ⟨⟨"", "docPr"⟩, [⟨⟨"", "id"⟩, "1"⟩, ⟨⟨"", "name"⟩, "Picture 1"⟩]⟩,
          .EndElement ⟨"", "docPr"⟩, .EndElement ⟨"", "anchor"⟩], none,
          [.stkStart ⟨"", "extent"⟩, .stkStart ⟨"", "anchor"⟩, .stkEOF]⟩ ∧
      (∀ t, Token.StartElement t ∈
          ([.StartElement ⟨⟨"", "simplePos"⟩, [⟨⟨"", "x"⟩, "0"⟩, ⟨⟨"", "y"⟩, "0"⟩]⟩,
          .EndElement ⟨"", "simplePos"⟩,
          .StartElement ⟨⟨"", "positionH"⟩, [⟨⟨"", "relativeFrom"⟩, "column"⟩]⟩,
          .StartElement ⟨⟨"", "posOffset"⟩, []⟩, .CharData "1905",
          .EndElement ⟨"", "posOffset"⟩, .EndElement ⟨"", "positionH"⟩,
          .StartElement ⟨⟨"", "extent"⟩, [⟨⟨"", "cx"⟩, "5949950"⟩, ⟨⟨"", "cy"⟩, "3971925"⟩]⟩,
          .EndElement ⟨"", "extent"⟩,
          .StartElement ⟨⟨"", "wrapNone"⟩, []⟩, .EndElement ⟨"", "wrapNone"⟩,
          .StartElement ⟨⟨"", "docPr"⟩, [⟨⟨"", "id"⟩, "1"⟩, ⟨⟨"", "name"⟩, "Picture 1"⟩]⟩,
          .EndElement ⟨"", "docPr"⟩] : List Token) →
        t.Name.Local = "extent" →
        hasIntAttr t.Attr "cx" 5949950 ∧ hasIntAttr t.Attr "cy" 3971925)) ∧
    (((WPAnchor.UnmarshalXML {}
        ⟨[.StartElement ⟨⟨"", "simplePos"⟩, [⟨⟨"", "x"⟩, "0"⟩, ⟨⟨"", "y"⟩, "0"⟩]⟩,
          .EndElement ⟨"", "simplePos"⟩,
          .StartElement ⟨⟨"", "positionH"⟩, [⟨⟨"", "relativeFrom"⟩, "column"⟩]⟩,
          .StartElement ⟨⟨"", "posOffset"⟩, []⟩, .CharData "1905",
          .EndElement ⟨"", "posOffset"⟩, .EndElement ⟨"", "positionH"⟩,
          .StartElement ⟨⟨"", "extent"⟩, [⟨⟨"", "cx"⟩, "5949950"⟩, ⟨⟨"", "cy"⟩, "3971925"⟩]⟩,
          .EndElement ⟨"", "extent"⟩,
          .StartElement ⟨⟨"", "wrapNone"⟩, []⟩, .EndElement ⟨"", "wrapNone"⟩,
          .StartElement ⟨⟨"", "docPr"⟩, [⟨⟨"", "id"⟩, "1"⟩, ⟨⟨"", "name"⟩, "Picture 1"⟩]⟩,
          .EndElement ⟨"", "docPr"⟩] ++
          .EndElement (⟨"", "anchor"⟩ : Name) :: [], none,
          .stkStart (⟨"", "anchor"⟩ : Name) :: .stkEOF :: []⟩
        ⟨⟨"", "anchor"⟩,
          [⟨⟨"", "distT"⟩, "100"⟩, ⟨⟨"", "distB"⟩, "200"⟩, ⟨⟨"", "distL"⟩, "50"⟩,
          ⟨⟨"", "distR"⟩, "75"⟩, ⟨⟨"", "simplePos"⟩, "0"⟩,
          ⟨⟨"", "relativeHeight"⟩, "251658240"⟩, ⟨⟨"", "behindDoc"⟩, "0"⟩,
          ⟨⟨"", "locked"⟩, "0"⟩, ⟨⟨"", "layoutInCell"⟩, "1"⟩, ⟨⟨"", "allowOverlap"⟩, "1"⟩]⟩).val.DistT = 100 ∧
        (WPAnchor.UnmarshalXML {}
        ⟨[.StartElement ⟨⟨"", "simplePos"⟩, [⟨⟨"", "x"⟩, "0"⟩, ⟨⟨"", "y"⟩, "0"⟩]⟩,
          .EndElement ⟨"", "simplePos"⟩,
          .StartElement ⟨⟨"", "positionH"⟩, [⟨⟨"", "relativeFrom"⟩, "column"⟩]⟩,
          .StartElement ⟨⟨"", "posOffset"⟩, []⟩, .CharData "1905",
          .EndElement ⟨"", "posOffset"⟩, .EndElement ⟨"", "positionH"⟩,
          .StartElement ⟨⟨"", "extent"⟩, [⟨⟨"", "cx"⟩, "5949950"⟩, ⟨⟨"", "cy"⟩, "3971925"⟩]⟩,
          .EndElement ⟨"", "extent"⟩,
          .StartElement ⟨⟨"", "wrapNone"⟩, []⟩, .EndElement ⟨"", "wrapNone"⟩,
          .StartElement ⟨⟨"", "docPr"⟩, [⟨⟨"", "id"⟩, "1"⟩, ⟨⟨"", "name"⟩, "Picture 1"⟩]⟩,
          .EndElement ⟨"", "docPr"⟩] ++
          .EndElement (⟨"", "anchor"⟩ : Name) :: [], none,
          .stkStart (⟨"", "anchor"⟩ : Name) :: .stkEOF :: []⟩
        ⟨⟨"", "anchor"⟩,
          [⟨⟨"", "distT"⟩, "100"⟩, ⟨⟨"", "distB"⟩, "200"⟩, ⟨⟨"", "distL"⟩, "50"⟩,
          ⟨⟨"", "distR"⟩, "75"⟩, ⟨⟨"", "simplePos"⟩, "0"⟩,
          ⟨⟨"", "relativeHeight"⟩, "251658240"⟩, ⟨⟨"", "behindDoc"⟩, "0"⟩,
          ⟨⟨"", "locked"⟩, "0"⟩, ⟨⟨"", "layoutInCell"⟩, "1"⟩, ⟨⟨"", "allowOverlap"⟩, "1"⟩]⟩).val.DistB = 200 ∧
        (WPAnchor.UnmarshalXML {}
        ⟨[.StartElement ⟨⟨"", "simplePos"⟩, [⟨⟨"", "x"⟩, "0"⟩, ⟨⟨"", "y"⟩, "0"⟩]⟩,
          .EndElement ⟨"", "simplePos"⟩,
          .StartElement ⟨⟨"", "positionH"⟩, [⟨⟨"", "relativeFrom"⟩, "column"⟩]⟩,
          .StartElement ⟨⟨"", "posOffset"⟩, []⟩, .CharData "1905",
          .EndElement ⟨"", "posOffset"⟩, .EndElement ⟨"", "positionH"⟩,
          .StartElement ⟨⟨"", "extent"⟩, [⟨⟨"", "cx"⟩, "5949950"⟩, ⟨⟨"", "cy"⟩, "3971925"⟩]⟩,
          .EndElement ⟨"", "extent"⟩,
          .StartElement ⟨⟨"", "wrapNone"⟩, []⟩, .EndElement ⟨"", "wrapNone"⟩,
          .StartElement ⟨⟨"", "docPr"⟩, [⟨⟨"", "id"⟩, "1"⟩, ⟨⟨"", "name"⟩, "Picture 1"⟩]⟩,
          .EndElement ⟨"", "docPr"⟩] ++
          .EndElement (⟨"", "anchor"⟩ : Name) :: [], none,
          .stkStart (⟨"", "anchor"⟩ : Name) :: .stkEOF :: []⟩
        ⟨⟨"", "anchor"⟩,
          [⟨⟨"", "distT"⟩, "100"⟩, ⟨⟨"", "distB"⟩, "200"⟩, ⟨⟨"", "distL"⟩, "50"⟩,
          ⟨⟨"", "distR"⟩, "75"⟩, ⟨⟨"", "simplePos"⟩, "0"⟩,
          ⟨⟨"", "relativeHeight"⟩, "251658240"⟩, ⟨⟨"", "behindDoc"⟩, "0"⟩,
          ⟨⟨"", "locked"⟩, "0"⟩, ⟨⟨"", "layoutInCell"⟩, "1"⟩, ⟨⟨"", "allowOverlap"⟩, "1"⟩]⟩).val.DistL = 50 ∧
        (WPAnchor.UnmarshalXML {}
        ⟨[.StartElement ⟨⟨"", "simplePos"⟩, [⟨⟨"", "x"⟩, "0"⟩, ⟨⟨"", "y"⟩, "0"⟩]⟩,
          .EndElement ⟨"", "simplePos"⟩,
          .StartElement ⟨⟨"", "positionH"⟩, [⟨⟨"", "relativeFrom"⟩, "column"⟩]⟩,
          .StartElement ⟨⟨"", "posOffset"⟩, []⟩, .CharData "1905",
          .EndElement ⟨"", "posOffset"⟩, .EndElement ⟨"", "positionH"⟩,
          .StartElement ⟨⟨"", "extent"⟩, [⟨⟨"", "cx"⟩, "5949950"⟩, ⟨⟨"", "cy"⟩, "3971925"⟩]⟩,
          .EndElement ⟨"", "extent"⟩,
          .StartElement ⟨⟨"", "wrapNone"⟩, []⟩, .EndElement ⟨"", "wrapNone"⟩,
          .StartElement ⟨⟨"", "docPr"⟩, [⟨⟨"", "id"⟩, "1"⟩, ⟨⟨"", "name"⟩, "Picture 1"⟩]⟩,
          .EndElement ⟨"", "docPr"⟩] ++
          .EndElement (⟨"", "anchor"⟩ : Name) :: [], none,
          .stkStart (⟨"", "anchor"⟩ : Name) :: .stkEOF :: []⟩
        ⟨⟨"", "anchor"⟩,
          [⟨⟨"", "distT"⟩, "100"⟩, ⟨⟨"", "distB"⟩, "200"⟩, ⟨⟨"", "distL"⟩, "50"⟩,
          ⟨⟨"", "distR"⟩, "75"⟩, ⟨⟨"", "simplePos"⟩, "0"⟩,
          ⟨⟨"", "relativeHeight"⟩, "251658240"⟩, ⟨⟨"", "behindDoc"⟩, "0"⟩,
          ⟨⟨"", "locked"⟩, "0"⟩, ⟨⟨"", "layoutInCell"⟩, "1"⟩, ⟨⟨"", "allowOverlap"⟩, "1"⟩]⟩).val.DistR = 75 ∧
        (WPAnchor.UnmarshalXML {}
        ⟨[.StartElement ⟨⟨"", "simplePos"⟩, [⟨⟨"", "x"⟩, "0"⟩, ⟨⟨"", "y"⟩, "0"⟩]⟩,
          .EndElement ⟨"", "simplePos"⟩,
          .StartElement ⟨⟨"", "positionH"⟩, [⟨⟨"", "relativeFrom"⟩, "column"⟩]⟩,
          .StartElement ⟨⟨"", "posOffset"⟩, []⟩, .CharData "1905",
          .EndElement ⟨"", "posOffset"⟩, .EndElement ⟨"", "positionH"⟩,
          .StartElement ⟨⟨"", "extent"⟩, [⟨⟨"", "cx"⟩, "5949950"⟩, ⟨⟨"", "cy"⟩, "3971925"⟩]⟩,
          .EndElement ⟨"", "extent"⟩,
          .StartElement ⟨⟨"", "wrapNone"⟩, []⟩, .EndElement ⟨"", "wrapNone"⟩,
          .StartElement ⟨⟨"", "docPr"⟩, [⟨⟨"", "id"⟩, "1"⟩, ⟨⟨"", "name"⟩, "Picture 1"⟩]⟩,
          .EndElement ⟨"", "docPr"⟩] ++
          .EndElement (⟨"", "anchor"⟩ : Name) :: [], none,
          .stkStart (⟨"", "anchor"⟩ : Name) :: .stkEOF :: []⟩
        ⟨⟨"", "anchor"⟩,
          [⟨⟨"", "distT"⟩, "100"⟩, ⟨⟨"", "distB"⟩, "200"⟩, ⟨⟨"", "distL"⟩, "50"⟩,
          ⟨⟨"", "distR"⟩, "75"⟩, ⟨⟨"", "simplePos"⟩, "0"⟩,
          ⟨⟨"", "relativeHeight"⟩, "251658240"⟩, ⟨⟨"", "behindDoc"⟩, "0"⟩,
          ⟨⟨"", "locked"⟩, "0"⟩, ⟨⟨"", "layoutInCell"⟩, "1"⟩, ⟨⟨"", "allowOverlap"⟩, "1"⟩]⟩).val.SimplePos = 0 ∧
        (WPAnchor.UnmarshalXML {}
        ⟨[.StartElement ⟨⟨"", "simplePos"⟩, [⟨⟨"", "x"⟩, "0"⟩, ⟨⟨"", "y"⟩, "0"⟩]⟩,
          .EndElement ⟨"", "simplePos"⟩,
          .StartElement ⟨⟨"", "positionH"⟩, [⟨⟨"", "relativeFrom"⟩, "column"⟩]⟩,
          .StartElement ⟨⟨"", "posOffset"⟩, []⟩, .CharData "1905",
          .EndElement ⟨"", "posOffset"⟩, .EndElement ⟨"", "positionH"⟩,
          .StartElement ⟨⟨"", "extent"⟩, [⟨⟨"", "cx"⟩, "5949950"⟩, ⟨⟨"", "cy"⟩, "3971925"⟩]⟩,
          .EndElement ⟨"", "extent"⟩,
          .StartElement ⟨⟨"", "wrapNone"⟩, []⟩, .EndElement ⟨"", "wrapNone"⟩,
          .StartElement ⟨⟨"", "docPr"⟩, [⟨⟨"", "id"⟩, "1"⟩, ⟨⟨"", "name"⟩, "Picture 1"⟩]⟩,
          .EndElement ⟨"", "docPr"⟩] ++
          .EndElement (⟨"", "anchor"⟩ : Name) :: [], none,
          .stkStart (⟨"", "anchor"⟩ : Name) :: .stkEOF :: []⟩
        ⟨⟨"", "anchor"⟩,
          [⟨⟨"", "distT"⟩, "100"⟩, ⟨⟨"", "distB"⟩, "200"⟩, ⟨⟨"", "distL"⟩, "50"⟩,
          ⟨⟨"", "distR"⟩, "75"⟩, ⟨⟨"", "simplePos"⟩, "0"⟩,
          ⟨⟨"", "relativeHeight"⟩, "251658240"⟩, ⟨⟨"", "behindDoc"⟩, "0"⟩,
          ⟨⟨"", "locked"⟩, "0"⟩, ⟨⟨"", "layoutInCell"⟩, "1"⟩, ⟨⟨"", "allowOverlap"⟩, "1"⟩]⟩).val.RelativeHeight = 251658240 ∧
        (WPAnchor.UnmarshalXML {}
        ⟨[.StartElement ⟨⟨"", "simplePos"⟩, [⟨⟨"", "x"⟩, "0"⟩, ⟨⟨"", "y"⟩, "0"⟩]⟩,
          .EndElement ⟨"", "simplePos"⟩,
          .StartElement ⟨⟨"", "positionH"⟩, [⟨⟨"", "relativeFrom"⟩, "column"⟩]⟩,
          .StartElement ⟨⟨"", "posOffset"⟩, []⟩, .CharData "1905",
          .EndElement ⟨"", "posOffset"⟩, .EndElement ⟨"", "positionH"⟩,
          .StartElement ⟨⟨"", "extent"⟩, [⟨⟨"", "cx"⟩, "5949950"⟩, ⟨⟨"", "cy"⟩, "3971925"⟩]⟩,
          .EndElement ⟨"", "extent"⟩,
          .StartElement ⟨⟨"", "wrapNone"⟩, []⟩, .EndElement ⟨"", "wrapNone"⟩,
          .StartElement ⟨⟨"", "docPr"⟩, [⟨⟨"", "id"⟩, "1"⟩, ⟨⟨"", "name"⟩, "Picture 1"⟩]⟩,
          .EndElement ⟨"", "docPr"⟩] ++
          .EndElement (⟨"", "anchor"⟩ : Name) :: [], none,
          .stkStart (⟨"", "anchor"⟩ : Name) :: .stkEOF :: []⟩
        ⟨⟨"", "anchor"⟩,
          [⟨⟨"", "distT"⟩, "100"⟩, ⟨⟨"", "distB"⟩, "200"⟩, ⟨⟨"", "distL"⟩, "50"⟩,
          ⟨⟨"", "distR"⟩, "75"⟩, ⟨⟨"", "simplePos"⟩, "0"⟩,
          ⟨⟨"", "relativeHeight"⟩, "251658240"⟩, ⟨⟨"", "behindDoc"⟩, "0"⟩,
          ⟨⟨"", "locked"⟩, "0"⟩, ⟨⟨"", "layoutInCell"⟩, "1"⟩, ⟨⟨"", "allowOverlap"⟩, "1"⟩]⟩).val.BehindDoc = 0 ∧
        (WPAnchor.UnmarshalXML {}
        ⟨[.StartElement ⟨⟨"", "simplePos"⟩, [⟨⟨"", "x"⟩, "0"⟩, ⟨⟨"", "y"⟩, "0"⟩]⟩,
          .EndElement ⟨"", "simplePos"⟩,
          .StartElement ⟨⟨"", "positionH"⟩, [⟨⟨"", "relativeFrom"⟩, "column"⟩]⟩,
          .StartElement ⟨⟨"", "posOffset"⟩, []⟩, .CharData "1905",
          .EndElement ⟨"", "posOffset"⟩, .EndElement ⟨"", "positionH"⟩,
          .StartElement ⟨⟨"", "extent"⟩, [⟨⟨"", "cx"⟩, "5949950"⟩, ⟨⟨"", "cy"⟩, "3971925"⟩]⟩,
          .EndElement ⟨"", "extent"⟩,
          .StartElement ⟨⟨"", "wrapNone"⟩, []⟩, .EndElement ⟨"", "wrapNone"⟩,
          .StartElement ⟨⟨"", "docPr"⟩, [⟨⟨"", "id"⟩, "1"⟩, ⟨⟨"", "name"⟩, "Picture 1"⟩]⟩,
          .EndElement ⟨"", "docPr"⟩] ++
          .EndElement (⟨"", "anchor"⟩ : Name) :: [], none,
          .stkStart (⟨"", "anchor"⟩ : Name) :: .stkEOF :: []⟩
        ⟨⟨"", "anchor"⟩,
          [⟨⟨"", "distT"⟩, "100"⟩, ⟨⟨"", "distB"⟩, "200"⟩, ⟨⟨"", "distL"⟩, "50"⟩,
          ⟨⟨"", "distR"⟩, "75"⟩, ⟨⟨"", "simplePos"⟩, "0"⟩,
          ⟨⟨"", "relativeHeight"⟩, "251658240"⟩, ⟨⟨"", "behindDoc"⟩, "0"⟩,
          ⟨⟨"", "locked"⟩, "0"⟩, ⟨⟨"", "layoutInCell"⟩, "1"⟩, ⟨⟨"", "allowOverlap"⟩, "1"⟩]⟩).val.Locked = 0 ∧
        (WPAnchor.UnmarshalXML {}
        ⟨[.StartElement ⟨⟨"", "simplePos"⟩, [⟨⟨"", "x"⟩, "0"⟩, ⟨⟨"", "y"⟩, "0"⟩]⟩,
          .EndElement ⟨"", "simplePos"⟩,
          .StartElement ⟨⟨"", "positionH"⟩, [⟨⟨"", "relativeFrom"⟩, "column"⟩]⟩,
          .StartElement ⟨⟨"", "posOffset"⟩, []⟩, .CharData "1905",
          .EndElement ⟨"", "posOffset"⟩, .EndElement ⟨"", "positionH"⟩,
          .StartElement ⟨⟨"", "extent"⟩, [⟨⟨"", "cx"⟩, "5949950"⟩, ⟨⟨"", "cy"⟩, "3971925"⟩]⟩,
          .EndElement ⟨"", "extent"⟩,
          .StartElement ⟨⟨"", "wrapNone"⟩, []⟩, .EndElement ⟨"", "wrapNone"⟩,
          .StartElement ⟨⟨"", "docPr"⟩, [⟨⟨"", "id"⟩, "1"⟩, ⟨⟨"", "name"⟩, "Picture 1"⟩]⟩,
          .EndElement ⟨"", "docPr"⟩] ++
          .EndElement (⟨"", "anchor"⟩ : Name) :: [], none,
          .stkStart (⟨"", "anchor"⟩ : Name) :: .stkEOF :: []⟩
        ⟨⟨"", "anchor"⟩,
          [⟨⟨"", "distT"⟩, "100"⟩, ⟨⟨"", "distB"⟩, "200"⟩, ⟨⟨"", "distL"⟩, "50"⟩,
          ⟨⟨"", "distR"⟩, "75"⟩, ⟨⟨"", "simplePos"⟩, "0"⟩,
          ⟨⟨"", "relativeHeight"⟩, "251658240"⟩, ⟨⟨"", "behindDoc"⟩, "0"⟩,
          ⟨⟨"", "locked"⟩, "0"⟩, ⟨⟨"", "layoutInCell"⟩, "1"⟩, ⟨⟨"", "allowOverlap"⟩, "1"⟩]⟩).val.LayoutInCell = 1 ∧
        (WPAnchor.UnmarshalXML {}
        ⟨[.StartElement ⟨⟨"", "simplePos"⟩, [⟨⟨"", "x"⟩, "0"⟩, ⟨⟨"", "y"⟩, "0"⟩]⟩,
          .EndElement ⟨"", "simplePos"⟩,
          .StartElement ⟨⟨"", "positionH"⟩, [⟨⟨"", "relativeFrom"⟩, "column"⟩]⟩,
          .StartElement ⟨⟨"", "posOffset"⟩, []⟩, .CharData "1905",
          .EndElement ⟨"", "posOffset"⟩, .EndElement ⟨"", "positionH"⟩,
          .StartElement ⟨⟨"", "extent"⟩, [⟨⟨"", "cx"⟩, "5949950"⟩, ⟨⟨"", "cy"⟩, "3971925"⟩]⟩,
          .EndElement ⟨"", "extent"⟩,
          .StartElement ⟨⟨"", "wrapNone"⟩, []⟩, .EndElement ⟨"", "wrapNone"⟩,
          .StartElement ⟨⟨"", "docPr"⟩, [⟨⟨"", "id"⟩, "1"⟩, ⟨⟨"", "name"⟩, "Picture 1"⟩]⟩,
          .EndElement ⟨"", "docPr"⟩] ++
          .EndElement (⟨"", "anchor"⟩ : Name) :: [], none,
          .stkStart (⟨"", "anchor"⟩ : Name) :: .stkEOF :: []⟩
        ⟨⟨"", "anchor"⟩,
          [⟨⟨"", "distT"⟩, "100"⟩, ⟨⟨"", "distB"⟩, "200"⟩, ⟨⟨"", "distL"⟩, "50"⟩,
          ⟨⟨"", "distR"⟩, "75"⟩, ⟨⟨"", "simplePos"⟩, "0"⟩,
          ⟨⟨"", "relativeHeight"⟩, "251658240"⟩, ⟨⟨"", "behindDoc"⟩, "0"⟩,
          ⟨⟨"", "locked"⟩, "0"⟩, ⟨⟨"", "layoutInCell"⟩, "1"⟩, ⟨⟨"", "allowOverlap"⟩, "1"⟩]⟩).val.AllowOverlap = 1) ∧
      (WPAnchor.UnmarshalXML {}
        ⟨[.StartElement ⟨⟨"", "simplePos"⟩, [⟨⟨"", "x"⟩, "0"⟩, ⟨⟨"", "y"⟩, "0"⟩]⟩,
          .EndElement ⟨"", "simplePos"⟩,
          .StartElement ⟨⟨"", "positionH"⟩, [⟨⟨"", "relativeFrom"⟩, "column"⟩]⟩,
          .StartElement ⟨⟨"", "posOffset"⟩, []⟩, .CharData "1905",
          .EndElement ⟨"", "posOffset"⟩, .EndElement ⟨"", "positionH"⟩,
          .StartElement ⟨⟨"", "extent"⟩, [⟨⟨"", "cx"⟩, "5949950"⟩, ⟨⟨"", "cy"⟩, "3971925"⟩]⟩,
          .EndElement ⟨"", "extent"⟩,
          .StartElement ⟨⟨"", "wrapNone"⟩, []⟩, .EndElement ⟨"", "wrapNone"⟩,
          .StartElement ⟨⟨"", "docPr"⟩, [⟨⟨"", "id"⟩, "1"⟩, ⟨⟨"", "name"⟩, "Picture 1"⟩]⟩,
          .EndElement ⟨"", "docPr"⟩] ++
          .EndElement (⟨"", "anchor"⟩ : Name) :: [], none,
          .stkStart (⟨"", "anchor"⟩ : Name) :: .stkEOF :: []⟩
        ⟨⟨"", "anchor"⟩,
          [⟨⟨"", "distT"⟩, "100"⟩, ⟨⟨"", "distB"⟩, "200"⟩, ⟨⟨"", "distL"⟩, "50"⟩,
          ⟨⟨"", "distR"⟩, "75"⟩, ⟨⟨"", "simplePos"⟩, "0"⟩,
          ⟨⟨"", "relativeHeight"⟩, "251658240"⟩, ⟨⟨"", "behindDoc"⟩, "0"⟩,
          ⟨⟨"", "locked"⟩, "0"⟩, ⟨⟨"", "layoutInCell"⟩, "1"⟩, ⟨⟨"", "allowOverlap"⟩, "1"⟩]⟩).err = none ∧
      ∃ v, (WPAnchor.UnmarshalXML {}
        ⟨[.StartElement ⟨⟨"", "simplePos"⟩, [⟨⟨"", "x"⟩, "0"⟩, ⟨⟨"", "y"⟩, "0"⟩]⟩,
          .EndElement ⟨"", "simplePos"⟩,
          .StartElement ⟨⟨"", "positionH"⟩, [⟨⟨"", "relativeFrom"⟩, "column"⟩]⟩,
          .StartElement ⟨⟨"", "posOffset"⟩, []⟩, .CharData "1905",
          .EndElement ⟨"", "posOffset"⟩, .EndElement ⟨"", "positionH"⟩,
          .StartElement ⟨⟨"", "extent"⟩, [⟨⟨"", "cx"⟩, "5949950"⟩, ⟨⟨"", "cy"⟩, "3971925"⟩]⟩,
          .EndElement ⟨"", "extent"⟩,
          .StartElement ⟨⟨"", "wrapNone"⟩, []⟩, .EndElement ⟨"", "wrapNone"⟩,
          .StartElement ⟨⟨"", "docPr"⟩, [⟨⟨"", "id"⟩, "1"⟩, ⟨⟨"", "name"⟩, "Picture 1"⟩]⟩,
          .EndElement ⟨"", "docPr"⟩] ++
          .EndElement (⟨"", "anchor"⟩ : Name) :: [], none,
          .stkStart (⟨"", "anchor"⟩ : Name) :: .stkEOF :: []⟩
        ⟨⟨"", "anchor"⟩,
          [⟨⟨"", "distT"⟩, "100"⟩, ⟨⟨"", "distB"⟩, "200"⟩, ⟨⟨"", "distL"⟩, "50"⟩,
          ⟨⟨"", "distR"⟩, "75"⟩, ⟨⟨"", "simplePos"⟩, "0"⟩,
          ⟨⟨"", "relativeHeight"⟩, "251658240"⟩, ⟨⟨"", "behindDoc"⟩, "0"⟩,
          ⟨⟨"", "locked"⟩, "0"⟩, ⟨⟨"", "layoutInCell"⟩, "1"⟩, ⟨⟨"", "allowOverlap"⟩, "1"⟩]⟩).val.Extent = some v ∧ v.CX = 5949950 ∧ v.CY = 3971925) :=
  ⟨⟨⟨by decide, by decide, by decide, by decide, by decide, by decide, by decide, by decide, by decide, by decide⟩, by decide,
      (fun t ht hn => by
          simp at ht
          rcases ht with rfl | rfl | rfl | rfl | rfl | rfl
          · exact ⟨⟨0, by decide⟩, ⟨0, by decide⟩⟩
          all_goals exact absurd hn (by decide)),
      ⟨3, ⟨.StartElement ⟨⟨"", "extent"⟩, [⟨⟨"", "cx"⟩, "5949950"⟩, ⟨⟨"", "cy"⟩, "3971925"⟩]⟩ ::
          [.EndElement ⟨"", "extent"⟩,
          .StartElement ⟨⟨"", "wrapNone"⟩, []⟩, .EndElement ⟨"", "wrapNone"⟩,
          .StartElement ⟨⟨"", "docPr"⟩, [⟨⟨"", "id"⟩, "1"⟩, ⟨⟨"", "name"⟩, "Picture 1"⟩]⟩,
          .EndElement ⟨"", "docPr"⟩, .EndElement ⟨"", "anchor"⟩], none,
          [.stkStart ⟨"", "anchor"⟩, .stkEOF]⟩, by decide, rfl⟩,
      (fun t ht hn => by
          simp at ht
          rcases ht with rfl | rfl | rfl | rfl | rfl | rfl
          all_goals first | exact absurd hn (by decide) | exact ⟨by decide, by decide⟩)⟩,
    (C3_anchor_attributes_and_extent {}
        ⟨⟨"", "anchor"⟩,
          [⟨⟨"", "distT"⟩, "100"⟩, ⟨⟨"", "distB"⟩, "200"⟩, ⟨⟨"", "distL"⟩, "50"⟩,
          ⟨⟨"", "distR"⟩, "75"⟩, ⟨⟨"", "simplePos"⟩, "0"⟩,
          ⟨⟨"", "relativeHeight"⟩, "251658240"⟩, ⟨⟨"", "behindDoc"⟩, "0"⟩,
          ⟨⟨"", "locked"⟩, "0"⟩, ⟨⟨"", "layoutInCell"⟩, "1"⟩, ⟨⟨"", "allowOverlap"⟩, "1"⟩]⟩
        100 200 50 75 0 251658240 0 0 1 1
        (by decide) (by decide) (by decide) (by decide) (by decide) (by decide) (by decide) (by decide) (by decide) (by decide)).1 _,
    ((C3_anchor_attributes_and_extent {}
        ⟨⟨"", "anchor"⟩,
          [⟨⟨"", "distT"⟩, "100"⟩, ⟨⟨"", "distB"⟩, "200"⟩, ⟨⟨"", "distL"⟩, "50"⟩,
          ⟨⟨"", "distR"⟩, "75"⟩, ⟨⟨"", "simplePos"⟩, "0"⟩,
          ⟨⟨"", "relativeHeight"⟩, "251658240"⟩, ⟨⟨"", "behindDoc"⟩, "0"⟩,
          ⟨⟨"", "locked"⟩, "0"⟩, ⟨⟨"", "layoutInCell"⟩, "1"⟩, ⟨⟨"", "allowOverlap"⟩, "1"⟩]⟩
        100 200 50 75 0 251658240 0 0 1 1
        (by decide) (by decide) (by decide) (by decide) (by decide) (by decide) (by decide) (by decide) (by decide) (by decide)).2
        [.StartElement ⟨⟨"", "simplePos"⟩, [⟨⟨"", "x"⟩, "0"⟩, ⟨⟨"", "y"⟩, "0"⟩]⟩,
          .EndElement ⟨"", "simplePos"⟩,
          .StartElement ⟨⟨"", "positionH"⟩, [⟨⟨"", "relativeFrom"⟩, "column"⟩]⟩,
          .StartElement ⟨⟨"", "posOffset"⟩, []⟩, .CharData "1905",
          .EndElement ⟨"", "posOffset"⟩, .EndElement ⟨"", "positionH"⟩,
          .StartElement ⟨⟨"", "extent"⟩, [⟨⟨"", "cx"⟩, "5949950"⟩, ⟨⟨"", "cy"⟩, "3971925"⟩]⟩,
          .EndElement ⟨"", "extent"⟩,
          .StartElement ⟨⟨"", "wrapNone"⟩, []⟩, .EndElement ⟨"", "wrapNone"⟩,
          .StartElement ⟨⟨"", "docPr"⟩, [⟨⟨"", "id"⟩, "1"⟩, ⟨⟨"", "name"⟩, "Picture 1"⟩]⟩,
          .EndElement ⟨"", "docPr"⟩]
        [] none [] _ (by decide) rfl).1
        (fun t ht hn => by
          simp at ht
          rcases ht with rfl | rfl | rfl | rfl | rfl | rfl
          · exact ⟨⟨0, by decide⟩, ⟨0, by decide⟩⟩
          all_goals exact absurd hn (by decide)),
    ((C3_anchor_attributes_and_extent {}
        ⟨⟨"", "anchor"⟩,
          [⟨⟨"", "distT"⟩, "100"⟩, ⟨⟨"", "distB"⟩, "200"⟩, ⟨⟨"", "distL"⟩, "50"⟩,
          ⟨⟨"", "distR"⟩, "75"⟩, ⟨⟨"", "simplePos"⟩, "0"⟩,
          ⟨⟨"", "relativeHeight"⟩, "251658240"⟩, ⟨⟨"", "behindDoc"⟩, "0"⟩,
          ⟨⟨"", "locked"⟩, "0"⟩, ⟨⟨"", "layoutInCell"⟩, "1"⟩, ⟨⟨"", "allowOverlap"⟩, "1"⟩]⟩
        100 200 50 75 0 251658240 0 0 1 1
        (by decide) (by decide) (by decide) (by decide) (by decide) (by decide) (by decide) (by decide) (by decide) (by decide)).2
        [.StartElement ⟨⟨"", "simplePos"⟩, [⟨⟨"", "x"⟩, "0"⟩, ⟨⟨"", "y"⟩, "0"⟩]⟩,
          .EndElement ⟨"", "simplePos"⟩,
          .StartElement ⟨⟨"", "positionH"⟩, [⟨⟨"", "relativeFrom"⟩, "column"⟩]⟩,
          .StartElement ⟨⟨"", "posOffset"⟩, []⟩, .CharData "1905",
          .EndElement ⟨"", "posOffset"⟩, .EndElement ⟨"", "positionH"⟩,
          .StartElement ⟨⟨"", "extent"⟩, [⟨⟨"", "cx"⟩, "5949950"⟩, ⟨⟨"", "cy"⟩, "3971925"⟩]⟩,
          .EndElement ⟨"", "extent"⟩,
          .StartElement ⟨⟨"", "wrapNone"⟩, []⟩, .EndElement ⟨"", "wrapNone"⟩,
          .StartElement ⟨⟨"", "docPr"⟩, [⟨⟨"", "id"⟩, "1"⟩, ⟨⟨"", "name"⟩, "Picture 1"⟩]⟩,
          .EndElement ⟨"", "docPr"⟩]
        [] none [] _ (by decide) rfl).2 5949950 3971925
        ⟨⟨"", "extent"⟩, [⟨⟨"", "cx"⟩, "5949950"⟩, ⟨⟨"", "cy"⟩, "3971925"⟩]⟩
        { DistT := 100, DistB := 200, DistL := 50, DistR := 75, SimplePos := 0,
          RelativeHeight := 251658240, BehindDoc := 0, Locked := 0, LayoutInCell := 1,
          AllowOverlap := 1, SimplePosXY := some { X := 0, Y := 0 },
          PositionH := some { RelativeFrom := "column", PosOffset := 1905 } }
        ⟨[.EndElement ⟨"", "extent"⟩,
          .StartElement ⟨⟨"", "wrapNone"⟩, []⟩, .EndElement ⟨"", "wrapNone"⟩,
          .StartElement ⟨⟨"", "docPr"⟩, [⟨⟨"", "id"⟩, "1"⟩, ⟨⟨"", "name"⟩, "Picture 1"⟩]⟩,
          .EndElement ⟨"", "docPr"⟩, .EndElement ⟨"", "anchor"⟩], none,
          [.stkStart ⟨"", "extent"⟩, .stkStart ⟨"", "anchor"⟩, .stkEOF]⟩
        ⟨3, ⟨.StartElement ⟨⟨"", "extent"⟩, [⟨⟨"", "cx"⟩, "5949950"⟩, ⟨⟨"", "cy"⟩, "3971925"⟩]⟩ ::
          [.EndElement ⟨"", "extent"⟩,
          .StartElement ⟨⟨"", "wrapNone"⟩, []⟩, .EndElement ⟨"", "wrapNone"⟩,
          .StartElement ⟨⟨"", "docPr"⟩, [⟨⟨"", "id"⟩, "1"⟩, ⟨⟨"", "name"⟩, "Picture 1"⟩]⟩,
          .EndElement ⟨"", "docPr"⟩, .EndElement ⟨"", "anchor"⟩], none,
          [.stkStart ⟨"", "anchor"⟩, .stkEOF]⟩, by decide, rfl⟩ rfl
        (fun t ht hn => by
          simp at ht
          rcases ht with rfl | rfl | rfl | rfl | rfl | rfl
          all_goals first | exact absurd hn (by decide) | exact ⟨by decide, by decide⟩)⟩

end Docx
